import Mathlib

/-!
# nextpnr-xilinx packer: distributed RAM, MUXF trees and clock buffers

A shallow embedding of `xilinx/pack_dram.cc` and `xilinx/pack_clocking_xc7.cc`.

* A `CellInfo *` is a `CellRef`: an index into the live cells of the context
  (`ctx->cells`) or into the pending buffer of the packer (`new_cells`).
* A `NetInfo *` is an `Option NetId`: `none` is `nullptr`, `some n` the n-th
  net of the net arena of the context.
* `NPNR_ASSERT`, `log_error` and out-of-range `at()` are `Except.error`.
* `std::string` contents of a `Property` are a `List Char`, LSB first.
-/

namespace Xilinx

/-! ## Data model -/

abbrev IdString := String

abbrev NetId := Nat

inductive PortType where
  | PORT_IN
  | PORT_OUT
  | PORT_INOUT
  deriving DecidableEq, Repr

inductive CellRef where
  | live (i : Nat)
  | pending (i : Nat)
  deriving DecidableEq, Repr

/-- Modelled from the spec: Property (nextpnr.h is not among the sources), a typed
parameter value. A bit vector keeps its bits in `str`, least significant first,
as the characters 0, 1, x, z; `intval` caches the low 64 bits as an int64. -/
structure Property where
  is_string : Bool
  str : List Char
  intval : Int
  deriving DecidableEq, Repr

structure PortInfo where
  name : IdString
  net : Option NetId
  type : PortType
  deriving DecidableEq, Repr

structure CellInfo where
  name : IdString
  type : IdString
  ports : List (IdString × PortInfo)
  params : List (IdString × Property)
  attrs : List (IdString × Property)
  constr_parent : Option CellRef
  constr_children : List CellRef
  constr_x : Int
  constr_y : Int
  constr_z : Int
  constr_abs_z : Bool
  deriving DecidableEq, Repr

structure NetInfo where
  name : IdString
  deriving DecidableEq, Repr

/-- The packer together with the context it works on: `xc7`, `cells` and `nets`
belong to the context (cells in the order `sorted(ctx->cells)` visits them),
`new_cells` and `packed_cells` to the packer. `BEL_6LUT` and `BEL_5LUT` are the
architecture's bel-index constants, whose header is not among the sources. -/
structure Packer where
  xc7 : Bool
  BEL_6LUT : Int
  BEL_5LUT : Int
  cells : List CellInfo
  nets : List NetInfo
  new_cells : List CellInfo
  packed_cells : List IdString
  deriving DecidableEq, Repr

structure DRAMControlSet where
  wa : List (Option NetId)
  wclk : Option NetId
  we : Option NetId
  wclk_inv : Bool
  memtype : IdString
  deriving DecidableEq, Repr

structure DRAMType where
  abits : Nat
  dbits : Nat
  rports : Nat
  deriving DecidableEq, Repr

/-- Modelled from the spec: XFormRule (pack.h is not among the sources): a
destination type, a one-to-one port rename table, a one-to-many port expansion
table and the attribute injections. -/
structure XFormRule where
  new_type : IdString
  port_xform : List (IdString × IdString)
  port_multixform : List (IdString × List IdString)
  set_attrs : List (IdString × Property)
  deriving DecidableEq, Repr

/-! ## Keyed containers (`std::unordered_map` with unique keys) -/

def dict_find {α : Type} : List (IdString × α) → IdString → Option α
  | [], _ => none
  | (k, v) :: m, key => if k = key then some v else dict_find m key

def dict_count {α : Type} (m : List (IdString × α)) (key : IdString) : Bool :=
  (dict_find m key).isSome

def dict_set {α : Type} : List (IdString × α) → IdString → α → List (IdString × α)
  | [], key, v => [(key, v)]
  | (k, w) :: m, key, v => if k = key then (k, v) :: m else (k, w) :: dict_set m key v

def dict_erase {α : Type} : List (IdString × α) → IdString → List (IdString × α)
  | [], _ => []
  | (k, w) :: m, key => if k = key then m else (k, w) :: dict_erase m key

/-- The values of `std::to_string` on a non-negative int. -/
def to_string (i : Nat) : String := toString i

/-! ## Property -/

def S0 : Char := '0'

def S1 : Char := '1'

/-- The int64 read of an unsigned 64-bit pattern. -/
def to_int64 (u : Nat) : Int :=
  if u % 2 ^ 64 < 2 ^ 63 then ((u % 2 ^ 64 : Nat) : Int) else ((u % 2 ^ 64 : Nat) : Int) - 2 ^ 64

/-- The loop of `Property::update_intval`: bit `i` of the result is set when
`str[i]` is 1 and `i < 64`. The list is the part of `str` from index `i` on. -/
def update_intval_loop : List Char → Nat → Nat → Nat
  | [], _, acc => acc
  | c :: cs, i, acc =>
    update_intval_loop cs (i + 1) (if c = S1 ∧ i < 64 then acc ||| (1 <<< i) else acc)

/-- Modelled from the spec: Property::update_intval. -/
def Property.update_intval (p : Property) : Property :=
  { p with intval := to_int64 (update_intval_loop p.str 0 0) }

/-- Modelled from the spec: the constructor Property(int64_t intval, int width). -/
def Property.of_int (intval : Int) (width : Nat) : Property :=
  { is_string := false
    str := (List.range width).map (fun i => if intval.testBit i then S1 else S0)
    intval := intval }

/-- Modelled from the spec: the constructor Property(const std::string &). -/
def Property.of_string (s : String) : Property :=
  { is_string := true, str := s.data, intval := 0 }

/-- Modelled from the spec: Property::extract(offset, len) with padding S0, the
ordered extraction of the sub-range `[offset, offset + len)` of a bit vector;
positions past the end of the vector read as the padding. -/
def Property.extract (p : Property) (offset len : Nat) : Property :=
  Property.update_intval
    { is_string := false
      str := (List.range len).map (fun i => p.str.getD (offset + i) S0)
      intval := 0 }

/-! ## Graph primitives -/

/-- Modelled from the spec: get_net_or_empty (design_utils.h), the net on a
port of a cell, `nullptr` when the port is absent or unconnected. -/
def get_net_or_empty (cell : CellInfo) (port : IdString) : Option NetId :=
  match dict_find cell.ports port with
  | some p => p.net
  | none => none

/-- Modelled from the spec: connect_port (design_utils.cc). Nothing happens for
a null net; otherwise the port must exist and be unconnected, and it is put on
the net. -/
def connect_port (net : Option NetId) (cell : CellInfo) (port_name : IdString) :
    Except String CellInfo :=
  match net with
  | none => pure cell
  | some n =>
    match dict_find cell.ports port_name with
    | none => throw "connect_port: no such port"
    | some port =>
      if port.net ≠ none then throw "connect_port: port.net == nullptr"
      else pure { cell with ports := dict_set cell.ports port_name { port with net := some n } }

/-- Modelled from the spec: disconnect_port (design_utils.cc). An absent or
unconnected port is left alone. -/
def disconnect_port (cell : CellInfo) (port_name : IdString) : CellInfo :=
  match dict_find cell.ports port_name with
  | none => cell
  | some port =>
    { cell with ports := dict_set cell.ports port_name { port with net := none } }

/-- Modelled from the spec: rename_port (design_utils.cc): the port takes its
new name and keeps its net. -/
def rename_port (cell : CellInfo) (old new : IdString) : CellInfo :=
  match dict_find cell.ports old with
  | none => cell
  | some port =>
    { cell with ports := dict_set (dict_erase cell.ports old) new { port with name := new } }

def net_by_name_loop : List NetInfo → Nat → IdString → Option NetId
  | [], _, _ => none
  | n :: ns, i, name => if n.name = name then some i else net_by_name_loop ns (i + 1) name

/-- The expression `ctx->nets[name].get()`: the net of that name, `nullptr`
when the context has none. -/
def net_by_name (s : Packer) (name : IdString) : Option NetId :=
  net_by_name_loop s.nets 0 name

def net_name (s : Packer) (n : NetId) : Option IdString :=
  (s.nets.get? n).map (fun x => x.name)

def get_cell (s : Packer) : CellRef → Option CellInfo
  | CellRef.live i => s.cells.get? i
  | CellRef.pending i => s.new_cells.get? i

def set_cell (s : Packer) (r : CellRef) (c : CellInfo) : Packer :=
  match r with
  | CellRef.live i => { s with cells := s.cells.set i c }
  | CellRef.pending i => { s with new_cells := s.new_cells.set i c }

/-- Dereference of a cell pointer; a null or dangling pointer is an error. -/
def deref (s : Packer) (r : Option CellRef) : Except String CellInfo :=
  match r with
  | none => throw "null cell pointer"
  | some r =>
    match get_cell s r with
    | none => throw "dangling cell pointer"
    | some c => pure c

/-- Apply a cell update through a pointer. -/
def modify_cell (s : Packer) (r : CellRef) (f : CellInfo → CellInfo) : Except String Packer :=
  match get_cell s r with
  | none => throw "dangling cell pointer"
  | some c => pure (set_cell s r (f c))

/-! ## Helpers of the packer (pack.cc, cells.cc) -/

def in_port (name : IdString) : IdString × PortInfo :=
  (name, { name := name, net := none, type := PortType.PORT_IN })

def out_port (name : IdString) : IdString × PortInfo :=
  (name, { name := name, net := none, type := PortType.PORT_OUT })

/-- Modelled from the spec: the port declarations create_cell (cells.cc is not
among the sources) gives the primitives this file synthesizes, read off the
connections made here and the rule tables: every port is a sink except O. -/
def lib_ports (type : IdString) : List (IdString × PortInfo) :=
  if type = "RAMD64E" then
    ((List.range 6).map (fun i => in_port ("RADR" ++ to_string i))) ++
    ((List.range 8).map (fun i => in_port ("WADR" ++ to_string i))) ++
    [in_port "CLK", in_port "I", in_port "WE", out_port "O"]
  else if type = "RAMD32" then
    ((List.range 5).map (fun i => in_port ("RADR" ++ to_string i))) ++
    ((List.range 5).map (fun i => in_port ("WADR" ++ to_string i))) ++
    [in_port "CLK", in_port "I", in_port "WE", out_port "O"]
  else if type = "MUXF7" ∨ type = "MUXF8" ∨ type = "MUXF9" then
    [in_port "I0", in_port "I1", in_port "S", out_port "O"]
  else []

/-- Modelled from the spec: create_cell, a fresh instance of a library
primitive with every port unconnected and no placement constraint. -/
def create_cell (type name : IdString) : CellInfo :=
  { name := name
    type := type
    ports := lib_ports type
    params := []
    attrs := []
    constr_parent := none
    constr_children := []
    constr_x := 0
    constr_y := 0
    constr_z := 0
    constr_abs_z := false }

/-- Modelled from the spec: int_name (pack.cc), the name of a synthesized cell. -/
def int_name (base : IdString) (postfix_ : String) (is_hierarchy : Bool) : IdString :=
  base ++ (if is_hierarchy then "$subcell$" else "$intcell$") ++ postfix_

/-- Modelled from the spec: create_internal_net (pack.cc): a freshly allocated,
freshly named net is added to the context and its pointer returned. -/
def create_internal_net (base : IdString) (postfix_ : String) (is_hierarchy : Bool) (s : Packer) :
    NetId × Packer :=
  let net : NetInfo := { name := base ++ (if is_hierarchy then "$subnet$" else "$intnet$") ++ postfix_ }
  (s.nets.length, { s with nets := s.nets ++ [net] })

/-- One destination of a one-to-many expansion: the port is declared with the
direction of the original and put on the original's net. -/
def xform_fanout (old_port : PortInfo) (ci : CellInfo) (new_name : IdString) :
    Except String CellInfo :=
  let existing : Option NetId := get_net_or_empty ci new_name
  let declared : PortInfo := { name := new_name, net := existing, type := old_port.type }
  connect_port old_port.net { ci with ports := dict_set ci.ports new_name declared } new_name

def xform_fanout_all (old_port : PortInfo) : List IdString → CellInfo → Except String CellInfo
  | [], ci => pure ci
  | d :: ds, ci => do
    let ci1 ← xform_fanout old_port ci d
    xform_fanout_all old_port ds ci1

/-- The treatment of one original port by a rule. -/
def xform_port (rule : XFormRule) (ci : CellInfo) (pname : IdString) : Except String CellInfo :=
  match dict_find rule.port_multixform pname with
  | some dests =>
    match dict_find ci.ports pname with
    | none => pure ci
    | some old_port =>
      xform_fanout_all old_port dests
        { (disconnect_port ci pname) with ports := dict_erase ci.ports pname }
  | none =>
    match dict_find rule.port_xform pname with
    | some new_name => pure (if new_name ≠ pname then rename_port ci pname new_name else ci)
    | none => pure ci

def xform_ports (rule : XFormRule) : List IdString → CellInfo → Except String CellInfo
  | [], ci => pure ci
  | p :: ps, ci => do
    let ci1 ← xform_port rule ci p
    xform_ports rule ps ci1

def inject_attrs : List (IdString × Property) → List (IdString × Property) →
    List (IdString × Property)
  | [], attrs => attrs
  | (k, v) :: rest, attrs =>
    inject_attrs rest (if dict_count attrs k then attrs else dict_set attrs k v)

/-- Modelled from the spec: xform_cell (pack.cc), section 4.1: a cell whose type
has no rule is left untouched; otherwise it takes the destination type, its
ports are renamed or fanned out, and the injections are applied without
overwriting a value already present. -/
def xform_cell (rules : List (IdString × XFormRule)) (ci : CellInfo) : Except String CellInfo :=
  match dict_find rules ci.type with
  | none => pure ci
  | some rule => do
    let orig_port_names := ci.ports.map (fun p => p.1)
    let ci1 ← xform_ports rule orig_port_names { ci with type := rule.new_type }
    pure { ci1 with attrs := inject_attrs rule.set_attrs ci1.attrs }

/-! ## The rule tables of pack_dram -/

def dram_rules : List (IdString × XFormRule) :=
  [("RAMD64E",
    { new_type := "SLICE_LUTX"
      set_attrs := [("X_LUT_AS_DRAM", Property.of_int 1 32), ("X_IS_SLICEM", Property.of_int 1 32)]
      port_xform :=
        dict_set (dict_set
          (((List.range 6).map (fun i => ("RADR" ++ to_string i, "A" ++ to_string (i + 1)))) ++
           ((List.range 8).map (fun i => ("WADR" ++ to_string i, "WA" ++ to_string (i + 1)))))
          "I" "DI1") "O" "O6"
      port_multixform := [] })]

def dram32_6_rules : List (IdString × XFormRule) :=
  [("RAMD32",
    { new_type := "SLICE_LUTX"
      set_attrs := [("X_LUT_AS_DRAM", Property.of_int 1 32)]
      port_xform :=
        dict_set (dict_set
          (((List.range 5).map (fun i => ("RADR" ++ to_string i, "A" ++ to_string (i + 1)))) ++
           ((List.range 5).map (fun i => ("WADR" ++ to_string i, "WA" ++ to_string (i + 1)))))
          "I" "DI1") "O" "O6"
      port_multixform := [] })]

def dram32_5_rules : List (IdString × XFormRule) :=
  dram32_6_rules.map (fun e =>
    if e.1 = "RAMD32" then
      (e.1, { e.2 with port_xform := dict_set (dict_set e.2.port_xform "I" "DI1") "O" "O5" })
    else e)

/-! ## create_dram_lut, create_dram32_lut -/

/-- The loops `connect_port(ctx, nets[i], cell, ctx->id(name + std::to_string(i)))`. -/
def connect_indexed (name : String) : List (Option NetId) → Nat → CellInfo → Except String CellInfo
  | [], _, cell => pure cell
  | n :: ns, i, cell => do
    let cell1 ← connect_port n cell (name ++ to_string i)
    connect_indexed name ns (i + 1) cell1

/-- The part shared by create_dram_lut and create_dram32_lut after the cell is
wired: the z constraint, the registration with the base, the push to new_cells. -/
def constrain_and_push (dram_lut : CellInfo) (base : Option CellRef) (cz : Int) (s : Packer) :
    Except String (CellRef × Packer) :=
  let dl : CellRef := CellRef.pending s.new_cells.length
  let c1 : CellInfo := { dram_lut with constr_abs_z := true, constr_z := cz }
  match base with
  | none => pure (dl, { s with new_cells := s.new_cells ++ [c1] })
  | some b => do
    let s1 ← modify_cell s b (fun bc => { bc with constr_children := bc.constr_children ++ [dl] })
    let c2 : CellInfo := { c1 with constr_parent := some b, constr_x := 0, constr_y := 0 }
    pure (dl, { s1 with new_cells := s1.new_cells ++ [c2] })

def wire_dram_lut (type : IdString) (name : String) (ctrlset : DRAMControlSet)
    (address : List (Option NetId)) (di dout : Option NetId) : Except String CellInfo := do
  let c0 := create_cell type name
  let c1 ← connect_indexed "RADR" address 0 c0
  let c2 ← connect_port di c1 "I"
  let c3 ← connect_port dout c2 "O"
  let c4 ← connect_port ctrlset.wclk c3 "CLK"
  let c5 ← connect_port ctrlset.we c4 "WE"
  let c6 ← connect_indexed "WADR" ctrlset.wa 0 c5
  let inv : Property := Property.of_int (if ctrlset.wclk_inv then 1 else 0) 32
  pure { c6 with params := dict_set c6.params "IS_WCLK_INVERTED" inv }

def create_dram_lut (name : String) (base : Option CellRef) (ctrlset : DRAMControlSet)
    (address : List (Option NetId)) (di dout : Option NetId) (z : Int) (s : Packer) :
    Except String (CellRef × Packer) := do
  let c ← wire_dram_lut "RAMD64E" name ctrlset address di dout
  let dram_lut ← xform_cell dram_rules c
  constrain_and_push dram_lut base (Int.lor (z * 2 ^ 4) s.BEL_6LUT) s

def create_dram32_lut (name : String) (base : Option CellRef) (ctrlset : DRAMControlSet)
    (address : List (Option NetId)) (di dout : Option NetId) (o5 : Bool) (z : Int) (s : Packer) :
    Except String (CellRef × Packer) := do
  let c ← wire_dram_lut "RAMD32" name ctrlset address di dout
  let dram_lut ← xform_cell (if o5 then dram32_5_rules else dram32_6_rules) c
  constrain_and_push dram_lut base
    (Int.lor (z * 2 ^ 4) (if o5 then s.BEL_5LUT else s.BEL_6LUT)) s

/-! ## create_muxf_tree -/

/-- The access `v.at(k)` of a vector. -/
def vec_at {α : Type} (v : List α) (k : Nat) : Except String α :=
  match v.get? k with
  | some x => pure x
  | none => throw "vector::at out of range"

/-- The number of levels create_muxf_tree computes from `data.size()`. -/
def muxf_levels (n : Nat) : Except String Nat :=
  if n ≤ 2 then pure 1
  else if n ≤ 4 then pure 2
  else if n ≤ 8 then pure 3
  else throw "muxf tree too large"

def muxf_type (i : Nat) : Except String IdString :=
  if i = 0 then pure "MUXF7"
  else if i = 1 then pure "MUXF8"
  else if i = 2 then pure "MUXF9"
  else throw "unknown muxf type"

/-- The locals of create_muxf_tree that its loops update. -/
structure MuxfLoop where
  s : Packer
  int_data : List (List (Option NetId))
  mux_root : Option CellRef
  deriving DecidableEq, Repr

/-- The call `int_data.back().push_back(x)`. -/
def push_back_last {α : Type} : List (List α) → α → List (List α)
  | [], _ => []
  | [l], x => [l ++ [x]]
  | l :: ls, x => l :: push_back_last ls x

/-- The four connect_port calls of the inner loop of create_muxf_tree. -/
def muxf_wire (mux : CellInfo) (last select : List (Option NetId)) (i j : Nat)
    (output : Option NetId) : Except String CellInfo := do
  let a ← vec_at last (j * 2)
  let m1 ← connect_port a mux "I0"
  let b ← vec_at last (j * 2 + 1)
  let m2 ← connect_port b m1 "I1"
  let sel ← vec_at select i
  let m3 ← connect_port sel m2 "S"
  connect_port output m3 "O"

/-- The body of the inner loop of create_muxf_tree: mux `j` of level `i`. -/
def muxf_cell (base : Option CellRef) (name_base : String) (levels i : Nat)
    (mux_type : IdString) (last select : List (Option NetId)) (out : Option NetId)
    (j : Nat) (st : MuxfLoop) : Except String MuxfLoop := do
  let bc ← deref st.s base
  let fresh := create_internal_net bc.name
    (name_base ++ "_muxq_" ++ to_string i ++ "_" ++ to_string j) false st.s
  let output : Option NetId := if i = levels - 1 then out else some fresh.1
  let s1 : Packer := if i = levels - 1 then st.s else fresh.2
  let mux := create_cell mux_type
    (int_name bc.name (name_base ++ "_muxf_" ++ to_string i ++ "_" ++ to_string j) false)
  let m4 ← muxf_wire mux last select i j output
  pure { s := { s1 with new_cells := s1.new_cells ++ [m4] }
         int_data := push_back_last st.int_data output
         mux_root := if i = levels - 1 then some (CellRef.pending s1.new_cells.length)
                     else st.mux_root }

/-- The inner loop `for (int j = 0; j < int(last.size()) / 2; j++)`, with `n`
iterations left and `j` the current index. -/
def muxf_cells (base : Option CellRef) (name_base : String) (levels i : Nat)
    (mux_type : IdString) (last select : List (Option NetId)) (out : Option NetId) :
    Nat → Nat → MuxfLoop → Except String MuxfLoop
  | 0, _, st => pure st
  | n + 1, j, st => do
    let st1 ← muxf_cell base name_base levels i mux_type last select out j st
    muxf_cells base name_base levels i mux_type last select out n (j + 1) st1

/-- The body of the outer loop of create_muxf_tree: level `i`. -/
def muxf_level (base : Option CellRef) (name_base : String) (levels : Nat)
    (select : List (Option NetId)) (out : Option NetId) (i : Nat) (st : MuxfLoop) :
    Except String MuxfLoop := do
  let mux_type ← muxf_type i
  let st1 : MuxfLoop := { st with int_data := st.int_data ++ [[]] }
  let last ← vec_at st1.int_data (st1.int_data.length - 2)
  muxf_cells base name_base levels i mux_type last select out (last.length / 2) 0 st1

/-- The outer loop `for (int i = 0; i < levels; i++)`, with `n` iterations left. -/
def muxf_loop (base : Option CellRef) (name_base : String) (levels : Nat)
    (select : List (Option NetId)) (out : Option NetId) :
    Nat → Nat → MuxfLoop → Except String MuxfLoop
  | 0, _, st => pure st
  | n + 1, i, st => do
    let st1 ← muxf_level base name_base levels select out i st
    muxf_loop base name_base levels select out n (i + 1) st1

/-- Modelled from the spec: constrain_muxf_tree (pack.cc is not among the
sources): the root of the tree is registered as a cluster child of the base
cell at the z-offset the caller supplies. The root and the base are
dereferenced, so a null pointer is an error. -/
def constrain_muxf_tree (curr base : Option CellRef) (zoffset : Int) (s : Packer) :
    Except String Packer :=
  match curr, base with
  | some r, some b =>
    if r = b then pure s
    else do
      let s1 ← modify_cell s r (fun c =>
        { c with constr_parent := some b, constr_x := 0, constr_y := 0, constr_z := zoffset })
      modify_cell s1 b (fun bc => { bc with constr_children := bc.constr_children ++ [r] })
  | _, _ => throw "null cell pointer"

/-- The part of create_muxf_tree before the call of constrain_muxf_tree: the
size checks and the two loops. -/
def muxf_build (base : Option CellRef) (name_base : String) (data select : List (Option NetId))
    (out : Option NetId) (s : Packer) : Except String MuxfLoop := do
  let levels ← muxf_levels data.length
  if select.length ≠ levels then throw "NPNR_ASSERT(int(select.size()) == levels)"
  else
    muxf_loop base name_base levels select out levels 0
      { s := s, int_data := [data], mux_root := none }

def create_muxf_tree (base : Option CellRef) (name_base : String)
    (data select : List (Option NetId)) (out : Option NetId) (zoffset : Int) (s : Packer) :
    Except String Packer := do
  let st ← muxf_build base name_base data select out s
  constrain_muxf_tree st.mux_root base zoffset st.s

/-! ## Reading the emitted mux tree -/

/-- The mux cell create_muxf_tree wires: the four ports of the library cell on
the given nets. -/
def muxf_prim (type name : IdString) (i0 i1 sel o : Option NetId) : CellInfo :=
  { create_cell type name with
    ports := [("I0", { name := "I0", net := i0, type := PortType.PORT_IN }),
              ("I1", { name := "I1", net := i1, type := PortType.PORT_IN }),
              ("S", { name := "S", net := sel, type := PortType.PORT_IN }),
              ("O", { name := "O", net := o, type := PortType.PORT_OUT })] }

/-- The net create_internal_net makes for mux `j` of level `i`. -/
def muxq_net (bc : CellInfo) (nb : String) (i j : Nat) : NetInfo :=
  { name := bc.name ++ "$intnet$" ++ (nb ++ "_muxq_" ++ to_string i ++ "_" ++ to_string j) }

/-- The cell name of mux `j` of level `i`. -/
def muxf_name (bc : CellInfo) (nb : String) (i j : Nat) : IdString :=
  int_name bc.name (nb ++ "_muxf_" ++ to_string i ++ "_" ++ to_string j) false

/-- The state after mux `j` of a level that is not the last. -/
def after_inner (st : MuxfLoop) (bc : CellInfo) (nb : String) (t : IdString) (i j : Nat)
    (a b sl : Option NetId) : MuxfLoop :=
  { s := { st.s with
           nets := st.s.nets ++ [{ name := bc.name ++ "$intnet$" ++
             (nb ++ "_muxq_" ++ to_string i ++ "_" ++ to_string j) }]
           new_cells := st.s.new_cells ++
             [muxf_prim t (int_name bc.name (nb ++ "_muxf_" ++ to_string i ++ "_" ++ to_string j) false)
                a b sl (some st.s.nets.length)] }
    int_data := push_back_last st.int_data (some st.s.nets.length)
    mux_root := st.mux_root }

/-- The state after the single mux of the last level. -/
def after_root (st : MuxfLoop) (bc : CellInfo) (nb : String) (t : IdString) (i j : Nat)
    (a b sl out : Option NetId) : MuxfLoop :=
  { s := { st.s with
           new_cells := st.s.new_cells ++
             [muxf_prim t (int_name bc.name (nb ++ "_muxf_" ++ to_string i ++ "_" ++ to_string j) false)
                a b sl out] }
    int_data := push_back_last st.int_data out
    mux_root := some (CellRef.pending st.s.new_cells.length) }

/-- What the netlist shows of a cell: everything but its placement constraints. -/
def cell_view (c : CellInfo) :
    IdString × IdString × List (IdString × PortInfo) × List (IdString × Property) ×
      List (IdString × Property) :=
  (c.name, c.type, c.ports, c.params, c.attrs)

/-- A valuation of the nets agrees with a mux cell read as O = I0 when S = 0 and
O = I1 when S = 1; a mux with an unconnected port constrains nothing. -/
def mux_reads (v : NetId → Bool) (ports : List (IdString × PortInfo)) : Bool :=
  match dict_find ports "I0", dict_find ports "I1", dict_find ports "S", dict_find ports "O" with
  | some i0, some i1, some sel, some o =>
    match i0.net, i1.net, sel.net, o.net with
    | some a, some b, some c, some d => v d == (if v c then v b else v a)
    | _, _, _, _ => true
  | _, _, _, _ => true

def mux_holds (v : NetId → Bool) (c : CellInfo) : Bool :=
  mux_reads v c.ports

/-- A valuation agrees with every mux of a list of cells. -/
def network_holds (v : NetId → Bool) (cells : List CellInfo) : Bool :=
  cells.all (mux_holds v)

/-- The number whose bit `i` is the value of `select[i]`. -/
def select_value (v : NetId → Bool) : List NetId → Nat
  | [] => 0
  | n :: ns => (if v n then 1 else 0) + 2 * select_value v ns

/-! ## pack_dram: the tied-low pre-pass -/

def dram_types : List (IdString × DRAMType) :=
  [("RAM32X1S", { abits := 5, dbits := 1, rports := 0 }),
   ("RAM32X2S", { abits := 5, dbits := 2, rports := 0 }),
   ("RAM32X1S_1", { abits := 5, dbits := 1, rports := 0 }),
   ("RAM32X1D", { abits := 5, dbits := 1, rports := 1 }),
   ("RAM64X1S", { abits := 6, dbits := 1, rports := 0 }),
   ("RAM64X1S_1", { abits := 6, dbits := 1, rports := 0 }),
   ("RAM64X1D", { abits := 6, dbits := 1, rports := 1 }),
   ("RAM128X1S", { abits := 7, dbits := 1, rports := 0 }),
   ("RAM128X1D", { abits := 7, dbits := 1, rports := 1 }),
   ("RAM256X1S", { abits := 8, dbits := 1, rports := 0 }),
   ("RAM256X1D", { abits := 8, dbits := 1, rports := 1 }),
   ("RAM512X1S", { abits := 9, dbits := 1, rports := 0 }),
   ("RAM512X1D", { abits := 9, dbits := 1, rports := 1 })]

/-- The port name `dt.abits <= 6 ? (name + i) : (name + "[" + i + "]")`. -/
def addr_port (abits : Nat) (name : String) (i : Nat) : IdString :=
  if abits ≤ 6 then name ++ to_string i else name ++ "[" ++ to_string i ++ "]"

/-- The test `net != nullptr && net->name == ctx->id("$PACKER_GND_NET")`. -/
def on_gnd (s : Packer) (net : Option NetId) : Bool :=
  match net with
  | none => false
  | some n => net_name s n == some "$PACKER_GND_NET"

/-- The int expression `j & ~(1 << i)` on a non-negative `j`: `j` with bit `i`
cleared. -/
def clear_bit (j i : Nat) : Nat :=
  j ^^^ (j &&& (1 <<< i))

/-- The INIT loop of the pre-pass, `n` iterations left at index `j`:
`if (j & (1 << i)) init.str[j] = init.str[j & ~(1 << i)]`, in place. -/
def init_permute_loop (i : Nat) : Nat → Nat → List Char → List Char
  | 0, _, str => str
  | n + 1, j, str =>
    init_permute_loop i n (j + 1)
      (if j &&& (1 <<< i) ≠ 0 then
        match str.get? (clear_bit j i) with
        | some c => str.set j c
        | none => str
      else str)

def init_permute (i : Nat) (init : Property) : Property :=
  Property.update_intval { init with str := init_permute_loop i init.str.length 0 init.str }

/-- The body of the loop over the address bits in the pre-pass: the cell after
bit `i`, and whether the bit was rewritten. -/
def tie_high_bit (s : Packer) (dt : DRAMType) (ci : CellInfo) (i : Nat) :
    Except String (CellInfo × Bool) :=
  let aport := addr_port dt.abits "A" i
  if !dict_count ci.ports aport then pure (ci, false)
  else if !on_gnd s (get_net_or_empty ci aport) then pure (ci, false)
  else if dt.rports ≥ 1 ∧ dt.rports ≠ 1 then throw "NPNR_ASSERT(dt.rports == 1)"
  else
    let raport : Option IdString :=
      if dt.rports ≥ 1 then some (addr_port dt.abits "DPRA" i) else none
    match raport with
    | some rp =>
      if !on_gnd s (get_net_or_empty ci rp) then pure (ci, false)
      else do
        let c1 := disconnect_port (disconnect_port ci aport) rp
        let c2 ← connect_port (net_by_name s "$PACKER_VCC_NET") c1 aport
        let c3 ← connect_port (net_by_name s "$PACKER_VCC_NET") c2 rp
        match dict_find c3.params "INIT" with
        | some init => pure ({ c3 with params := dict_set c3.params "INIT" (init_permute i init) }, true)
        | none => pure (c3, true)
    | none => do
      let c1 := disconnect_port ci aport
      let c2 ← connect_port (net_by_name s "$PACKER_VCC_NET") c1 aport
      match dict_find c2.params "INIT" with
      | some init => pure ({ c2 with params := dict_set c2.params "INIT" (init_permute i init) }, true)
      | none => pure (c2, true)

/-- The loop `for (int i = 0; i < std::min(dt.abits, 6); i++)` with `n`
iterations left at bit `i`; the second component lists the bits rewritten. -/
def tie_high_bits (s : Packer) (dt : DRAMType) :
    Nat → Nat → CellInfo × List Nat → Except String (CellInfo × List Nat)
  | 0, _, acc => pure acc
  | n + 1, i, acc => do
    let r ← tie_high_bit s dt acc.1 i
    tie_high_bits s dt n (i + 1) (r.1, if r.2 then acc.2 ++ [i] else acc.2)

/-- The pre-pass on one cell: untouched unless its type is a DRAM type. -/
def tie_high_cell (s : Packer) (ci : CellInfo) : Except String (CellInfo × List Nat) :=
  match dict_find dram_types ci.type with
  | none => pure (ci, [])
  | some dt => tie_high_bits s dt (min dt.abits 6) 0 (ci, [])

def tie_high_cells (s : Packer) : List CellInfo → Except String (List CellInfo × Nat)
  | [] => pure ([], 0)
  | ci :: rest => do
    let r ← tie_high_cell s ci
    let rs ← tie_high_cells s rest
    pure (r.1 :: rs.1, r.2.length + rs.2)

/-- The first loop of pack_dram; `inverted_ports` is only logged. -/
def tie_high_pass (s : Packer) : Except String Packer := do
  let r ← tie_high_cells s s.cells
  pure { s with cells := r.1 }

/-! ## pack_dram: grouping by control set -/

/-- Modelled from the spec: bool_or_default (util.h is not among the sources),
the parameter read as a truth value, false when it is absent. -/
def bool_or_default (params : List (IdString × Property)) (key : IdString) : Bool :=
  match dict_find params key with
  | none => false
  | some p => p.intval != 0

/-- The nets `get_net_or_empty(ci, A_i)` for `i` from `i` on, `n` of them. -/
def address_nets (ci : CellInfo) (abits : Nat) (name : String) : Nat → Nat → List (Option NetId)
  | 0, _ => []
  | n + 1, i => get_net_or_empty ci (addr_port abits name i) :: address_nets ci abits name n (i + 1)

/-- The control set the second loop of pack_dram computes for a cell. -/
def control_set (s : Packer) (dt : DRAMType) (ci : CellInfo) : DRAMControlSet :=
  { wa := address_nets ci dt.abits "A" dt.abits 0 ++
      (if dt.abits = 5 then [net_by_name s "$PACKER_VCC_NET"] else [])
    wclk := get_net_or_empty ci "WCLK"
    we := get_net_or_empty ci "WE"
    wclk_inv :=
      if ci.type = "RAM32X1S_1" ∨ ci.type = "RAM64X1S_1" then true
      else bool_or_default ci.params "IS_WCLK_INVERTED"
    memtype := ci.type }

/-- The statement `dram_groups[dcs].push_back(ci)`. The groups are kept in the
order in which their control sets first occur. -/
def group_insert : List (DRAMControlSet × List CellRef) → DRAMControlSet → CellRef →
    List (DRAMControlSet × List CellRef)
  | [], dcs, r => [(dcs, [r])]
  | (k, v) :: rest, dcs, r =>
    if k = dcs then (k, v ++ [r]) :: rest else (k, v) :: group_insert rest dcs r

/-- The second loop of pack_dram over the cells from index `i` on. -/
def dram_groups_loop (s : Packer) : List CellInfo → Nat → List (DRAMControlSet × List CellRef) →
    List (DRAMControlSet × List CellRef)
  | [], _, groups => groups
  | ci :: rest, i, groups =>
    match dict_find dram_types ci.type with
    | none => dram_groups_loop s rest (i + 1) groups
    | some dt =>
      dram_groups_loop s rest (i + 1) (group_insert groups (control_set s dt ci) (CellRef.live i))

def dram_groups (s : Packer) : List (DRAMControlSet × List CellRef) :=
  dram_groups_loop s s.cells 0 []

/-! ## pack_dram: the strategies for a group -/

/-- The locals `z` and `base` of a group loop. -/
structure Stack where
  z : Int
  base : Option CellRef
  deriving DecidableEq, Repr

/-- The statement `packed_cells.insert(name)` on the set of retired cells. -/
def mark_packed (s : Packer) (name : IdString) : Packer :=
  if name ∈ s.packed_cells then s else { s with packed_cells := s.packed_cells ++ [name] }

/-- The statements `if (cell->params.count(key)) lut->params[INIT] = init`. -/
def put_init (s : Packer) (cell : CellInfo) (key : IdString) (lut : CellRef) (init : Property) :
    Except String Packer :=
  if dict_count cell.params key then
    modify_cell s lut (fun c => { c with params := dict_set c.params "INIT" init })
  else pure s

/-- The statements `if (cell->params.count(key)) lut->params[INIT] = cell->params[key]`. -/
def copy_init (s : Packer) (cell : CellInfo) (key : IdString) (lut : CellRef) :
    Except String Packer :=
  match dict_find cell.params key with
  | some init => modify_cell s lut (fun c => { c with params := dict_set c.params "INIT" init })
  | none => pure s

/-- Modelled from the spec: get_or_default (util.h) on the parameters. -/
def get_or_default (params : List (IdString × Property)) (key : IdString) (d : Property) :
    Property :=
  match dict_find params key with
  | some p => p
  | none => d

/-- The padding of the INIT of a 32-deep memory:
`str.append(32 - str.size(), '0'); str.insert(0, 32, '0'); update_intval()`.
The count of `append` is a `size_t`: a string longer than 32 makes it wrap and
the call throw. -/
def pad_init32 (init : Property) : Except String Property :=
  if init.str.length > 32 then throw "std::length_error"
  else
    pure (Property.update_intval
      { init with str := List.replicate 32 '0' ++
          (init.str ++ List.replicate (32 - init.str.length) '0') })

/-- The statement `lut->attrs[CLK_STATUS] = Property("CLKINV")` of the _1 variants. -/
def set_clkinv (s : Packer) (lut : CellRef) : Except String Packer :=
  modify_cell s lut
    (fun c => { c with attrs := dict_set c.attrs "CLK_STATUS" (Property.of_string "CLKINV") })

/-- The body of the group loop of RAM64X1S and of RAM64X1S_1: the two branches of
the source differ in the type asserted and in the CLK_STATUS attribute the _1
variant sets (`clkinv`). -/
def pack_ram64x1s_cell (height : Int) (cs : DRAMControlSet) (memtype : IdString) (clkinv : Bool)
    (cell : CellRef) (loc : Stack) (s : Packer) : Except String (Stack × Packer) := do
  let ci ← deref s (some cell)
  if ci.type ≠ memtype then throw "NPNR_ASSERT(cell->type == memtype)"
  else do
    let di := get_net_or_empty ci "D"
    let dout := get_net_or_empty ci "O"
    let s1 ← modify_cell s cell (fun c => disconnect_port c "O")
    let z : Int := if loc.z < 0 then height - 1 else loc.z
    if z = height - 1 then do
      let r ← create_dram_lut ci.name none cs cs.wa di dout z s1
      let s2 ← copy_init r.2 ci "INIT" r.1
      let s3 ← if clkinv then set_clkinv s2 r.1 else pure s2
      pure ({ z := z - 1, base := some r.1 }, mark_packed s3 ci.name)
    else do
      let r ← create_dram_lut ci.name loc.base cs cs.wa di dout z s1
      let s2 ← copy_init r.2 ci "INIT" r.1
      let s3 ← if clkinv then set_clkinv s2 r.1 else pure s2
      pure ({ z := z - 1, base := loc.base }, mark_packed s3 ci.name)

/-- The body of the group loop of RAM32X1S and of RAM32X1S_1, which differ as
the two 64-deep branches do. -/
def pack_ram32x1s_cell (height : Int) (cs : DRAMControlSet) (memtype : IdString) (clkinv : Bool)
    (cell : CellRef) (loc : Stack) (s : Packer) : Except String (Stack × Packer) := do
  let ci ← deref s (some cell)
  if ci.type ≠ memtype then throw "NPNR_ASSERT(cell->type == memtype)"
  else do
    let init_property ← pad_init32 (get_or_default ci.params "INIT" (Property.of_int 0 32))
    let di := get_net_or_empty ci "D"
    let dout := get_net_or_empty ci "O"
    let s1 ← modify_cell s cell (fun c => disconnect_port c "O")
    let z : Int := if loc.z < 0 then height - 1 else loc.z
    let address := cs.wa.take (min cs.wa.length 5) ++ [net_by_name s1 "$PACKER_VCC_NET"]
    if z = height - 1 then do
      let r ← create_dram_lut ci.name none cs address di dout z s1
      let s2 ← put_init r.2 ci "INIT" r.1 init_property
      let s3 ← if clkinv then set_clkinv s2 r.1 else pure s2
      pure ({ z := z - 1, base := some r.1 }, mark_packed s3 ci.name)
    else do
      let r ← create_dram_lut ci.name loc.base cs address di dout z s1
      let s2 ← put_init r.2 ci "INIT" r.1 init_property
      let s3 ← if clkinv then set_clkinv s2 r.1 else pure s2
      pure ({ z := z - 1, base := loc.base }, mark_packed s3 ci.name)

/-- One output bit `i` of a RAM32X2S cell, the body of `for (int i = 0; i < 2; i++)`. -/
def pack_ram32x2s_bit (cs : DRAMControlSet) (cell : CellRef) (address : List (Option NetId))
    (i : Nat) (loc : Stack) (s : Packer) : Except String (Stack × Packer) := do
  let ci ← deref s (some cell)
  let di := get_net_or_empty ci ("D" ++ to_string i)
  let dout := get_net_or_empty ci ("O" ++ to_string i)
  let s1 ← modify_cell s cell (fun c => disconnect_port c ("O" ++ to_string i))
  let r ← create_dram_lut (ci.name ++ "/RAM32X1S" ++ to_string i ++ "/SP") loc.base cs address
    di dout loc.z s1
  let init_param : IdString := "INIT_0" ++ to_string i
  let s2 ← match dict_find ci.params init_param with
    | some p => do
      let init_property ← pad_init32 p
      modify_cell r.2 r.1 (fun c => { c with params := dict_set c.params "INIT" init_property })
    | none => pure r.2
  pure ({ z := loc.z - 1, base := if loc.base = none then some r.1 else loc.base }, s2)

/-- The body of the group loop of RAM32X2S. -/
def pack_ram32x2s_cell (height : Int) (cs : DRAMControlSet) (cell : CellRef) (loc : Stack)
    (s : Packer) : Except String (Stack × Packer) := do
  let ci ← deref s (some cell)
  if ci.type ≠ "RAM32X2S" then throw "NPNR_ASSERT(cell->type == memtype)"
  else do
    let loc1 : Stack := if loc.z < 1 then { z := height - 1, base := none } else loc
    let address := address_nets ci 5 "A" 5 0 ++ [net_by_name s "$PACKER_VCC_NET"]
    let r0 ← pack_ram32x2s_bit cs cell address 0 loc1 s
    let r1 ← pack_ram32x2s_bit cs cell address 1 r0.1 r0.2
    pure (r1.1, mark_packed r1.2 ci.name)

/-- A fallible update of the cell behind a pointer, as `connect_port(ctx, net, base, port)`. -/
def update_cell (s : Packer) (r : Option CellRef) (f : CellInfo → Except String CellInfo) :
    Except String Packer := do
  let c ← deref s r
  let c1 ← f c
  match r with
  | some p => pure (set_cell s p c1)
  | none => throw "null cell pointer"

/-- The number of connected outputs among SPO and DPO. -/
def z_size (ci : CellInfo) : Int :=
  (if get_net_or_empty ci "SPO" ≠ none then 1 else 0) +
  (if get_net_or_empty ci "DPO" ≠ none then 1 else 0)

/-- The body of the group loop of RAM64X1D. -/
def pack_ram64x1d_cell (height : Int) (cs : DRAMControlSet) (cell : CellRef) (loc : Stack)
    (s : Packer) : Except String (Stack × Packer) := do
  let ci ← deref s (some cell)
  if ci.type ≠ "RAM64X1D" then throw "NPNR_ASSERT(cell->type == memtype)"
  else do
    let a ← (if loc.z = height - 1 ∨ loc.z - z_size ci + 1 < 0 then do
        let address := cs.wa.take (min cs.wa.length 6)
        let r ← create_dram_lut (ci.name ++ "/ADDR") none cs address none none (height - 1) s
        pure (({ z := height - 1 - 1, base := some r.1 } : Stack), r.2)
      else pure (loc, s))
    let dpo := get_net_or_empty ci "DPO"
    let spo := get_net_or_empty ci "SPO"
    let s1 ← modify_cell a.2 cell (fun c => disconnect_port (disconnect_port c "DPO") "SPO")
    let di := get_net_or_empty ci "D"
    let b ← (if spo ≠ none then
        if a.1.z = height - 2 then do
          let t1 ← update_cell s1 a.1.base (fun c => connect_port spo c "O6")
          let t2 ← update_cell t1 a.1.base (fun c => connect_port di c "DI1")
          let t3 ← match a.1.base with
            | some bp => copy_init t2 ci "INIT" bp
            | none => throw "null cell pointer"
          pure (a.1, t3)
        else do
          let address := cs.wa.take (min cs.wa.length 6)
          let r ← create_dram_lut (ci.name ++ "/SP") a.1.base cs address di spo a.1.z s1
          let t ← copy_init r.2 ci "INIT" r.1
          pure (({ a.1 with z := a.1.z - 1 } : Stack), t)
      else pure (a.1, s1))
    let c ← (if dpo ≠ none then do
        let address := address_nets ci 6 "DPRA" 6 0
        let r ← create_dram_lut (ci.name ++ "/DP") b.1.base cs address di dpo b.1.z b.2
        let t ← copy_init r.2 ci "INIT" r.1
        pure (({ b.1 with z := b.1.z - 1 } : Stack), t)
      else pure b)
    pure (c.1, mark_packed c.2 ci.name)

/-- The body of the group loop of RAM32X1D. -/
def pack_ram32x1d_cell (height : Int) (cs : DRAMControlSet) (cell : CellRef) (loc : Stack)
    (s : Packer) : Except String (Stack × Packer) := do
  let ci ← deref s (some cell)
  if ci.type ≠ "RAM32X1D" then throw "NPNR_ASSERT(cell->type == memtype)"
  else do
    let init_property ← pad_init32 (get_or_default ci.params "INIT" (Property.of_int 0 32))
    let vcc := net_by_name s "$PACKER_VCC_NET"
    let a ← (if loc.z = height - 1 ∨ loc.z - z_size ci + 1 < 0 then do
        let address := cs.wa.take (min cs.wa.length 5) ++ [vcc]
        let r ← create_dram_lut (ci.name ++ "/ADDR") none cs address none none (height - 1) s
        pure (({ z := height - 1 - 1, base := some r.1 } : Stack), r.2, true)
      else pure (loc, s, false))
    let spo_is_base : Bool := a.2.2
    let dpo := get_net_or_empty ci "DPO"
    let spo := get_net_or_empty ci "SPO"
    let s1 ← modify_cell a.2.1 cell (fun c => disconnect_port (disconnect_port c "DPO") "SPO")
    let di := get_net_or_empty ci "D"
    let b ← (if spo ≠ none then
        if spo_is_base then do
          let t1 ← update_cell s1 a.1.base (fun c => connect_port spo c "O6")
          let t2 ← update_cell t1 a.1.base (fun c => connect_port di c "DI1")
          let t3 ← match a.1.base with
            | some bp => put_init t2 ci "INIT" bp init_property
            | none => throw "null cell pointer"
          pure (a.1, t3)
        else do
          let address := cs.wa.take (min cs.wa.length 5) ++ [vcc]
          let r ← create_dram_lut (ci.name ++ "/SP") a.1.base cs address di spo a.1.z s1
          let t ← put_init r.2 ci "INIT" r.1 init_property
          pure (({ a.1 with z := a.1.z - 1 } : Stack), t)
      else pure (a.1, s1))
    let c ← (if dpo ≠ none then do
        let address := address_nets ci 6 "DPRA" 5 0 ++ [vcc]
        let r ← create_dram_lut (ci.name ++ "/DP") b.1.base cs address di dpo b.1.z b.2
        let t ← put_init r.2 ci "INIT" r.1 init_property
        pure (({ b.1 with z := b.1.z - 1 } : Stack), t)
      else pure b)
    pure (c.1, mark_packed c.2 ci.name)

/-- The statement `lut->params[INIT] = init`. -/
def set_init (s : Packer) (lut : CellRef) (init : Property) : Except String Packer :=
  modify_cell s lut (fun c => { c with params := dict_set c.params "INIT" init })

/-- The body of the group loop of RAM128X1S. -/
def pack_ram128x1s_cell (height : Int) (cs : DRAMControlSet) (cell : CellRef) (s : Packer) :
    Except String Packer := do
  let ci ← deref s (some cell)
  if ci.type ≠ "RAM128X1S" then throw "NPNR_ASSERT(cell->type == memtype)"
  else do
    let z : Int := height - 1
    let di := get_net_or_empty ci "D"
    let dout := get_net_or_empty ci "O"
    let s1 ← modify_cell s cell (fun c => disconnect_port c "O")
    let addressw_low := cs.wa.take 6
    let addressw_high := cs.wa.drop 6
    let n_low := create_internal_net ci.name "O_LOW" false s1
    let dram_low ← create_dram_lut (ci.name ++ "/LOW") none cs addressw_low di (some n_low.1) z
      n_low.2
    let n_high := create_internal_net ci.name "O_HIGH" false dram_low.2
    let dram_high ← create_dram_lut (ci.name ++ "/HIGH") (some dram_low.1) cs addressw_low di
      (some n_high.1) (z - 1) n_high.2
    let dout_interm := [some n_low.1, some n_high.1]
    let s2 ← (match dict_find ci.params "INIT" with
      | some init => do
        let t ← set_init dram_high.2 dram_low.1 (init.extract 0 64)
        set_init t dram_high.1 (init.extract 64 64)
      | none => pure dram_high.2)
    let s3 ← create_muxf_tree (some dram_low.1) "O" dout_interm addressw_high dout 2 s2
    pure (mark_packed s3 ci.name)

/-- The body of the group loop of RAM256X1S. -/
def pack_ram256x1s_cell (height : Int) (cs : DRAMControlSet) (cell : CellRef) (s : Packer) :
    Except String Packer := do
  let ci ← deref s (some cell)
  if ci.type ≠ "RAM256X1S" then throw "NPNR_ASSERT(cell->type == memtype)"
  else do
    let z : Int := height - 1
    let di := get_net_or_empty ci "D"
    let dout := get_net_or_empty ci "O"
    let s1 ← modify_cell s cell (fun c => disconnect_port c "O")
    let addressw_low := cs.wa.take 6
    let addressw_high := cs.wa.drop 6
    let n_d := create_internal_net ci.name "O_RAMS64E_D" false s1
    let lut_d ← create_dram_lut (ci.name ++ "/RAMS64E_D") none cs addressw_low di (some n_d.1) z
      n_d.2
    let n_c := create_internal_net ci.name "O_RAMS64E_C" false lut_d.2
    let lut_c ← create_dram_lut (ci.name ++ "/RAMS64E_C") (some lut_d.1) cs addressw_low di
      (some n_c.1) (z - 1) n_c.2
    let n_b := create_internal_net ci.name "O_RAMS64E_B" false lut_c.2
    let lut_b ← create_dram_lut (ci.name ++ "/RAMS64E_B") (some lut_d.1) cs addressw_low di
      (some n_b.1) (z - 1 - 1) n_b.2
    let n_a := create_internal_net ci.name "O_RAMS64E_A" false lut_b.2
    let lut_a ← create_dram_lut (ci.name ++ "/RAMS64E_A") (some lut_d.1) cs addressw_low di
      (some n_a.1) (z - 1 - 1 - 1) n_a.2
    let dout_interm := [some n_d.1, some n_c.1, some n_b.1, some n_a.1]
    let s2 ← (match dict_find ci.params "INIT" with
      | some init => do
        let t1 ← set_init lut_a.2 lut_d.1 (init.extract 192 64)
        let t2 ← set_init t1 lut_c.1 (init.extract 128 64)
        let t3 ← set_init t2 lut_b.1 (init.extract 64 64)
        set_init t3 lut_a.1 (init.extract 0 64)
      | none => pure lut_a.2)
    let s3 ← create_muxf_tree (some lut_d.1) "O" dout_interm addressw_high dout 0 s2
    pure (mark_packed s3 ci.name)

/-- The body of the group loop of RAM128X1D. -/
def pack_ram128x1d_cell (height : Int) (cs : DRAMControlSet) (cell : CellRef) (s : Packer) :
    Except String Packer := do
  let ci ← deref s (some cell)
  if ci.type ≠ "RAM128X1D" then throw "NPNR_ASSERT(cell->type == memtype)"
  else do
    let z : Int := height - 1
    let init := get_or_default ci.params "INIT" (Property.of_int 0 128)
    let dpo := get_net_or_empty ci "DPO"
    let spo := get_net_or_empty ci "SPO"
    let s1 ← modify_cell s cell (fun c => disconnect_port (disconnect_port c "DPO") "SPO")
    let addressw_64 := cs.wa.take (min cs.wa.length 6)
    let addressw_high := cs.wa.drop (min cs.wa.length 6)
    let di := get_net_or_empty ci "D"
    let n_sl := create_internal_net ci.name "SPO_LOW" false s1
    let sp_low ← create_dram_lut (ci.name ++ "/SP.LOW") none cs addressw_64 di (some n_sl.1) z
      n_sl.2
    let base := some sp_low.1
    let t1 ← set_init sp_low.2 sp_low.1 (init.extract 0 64)
    let n_sh := create_internal_net ci.name "SPO_HIGH" false t1
    let sp_high ← create_dram_lut (ci.name ++ "/SP.HIGH") base cs addressw_64 di (some n_sh.1)
      (z - 1) n_sh.2
    let t2 ← set_init sp_high.2 sp_high.1 (init.extract 64 64)
    let addressr_64 := address_nets ci 7 "DPRA" 6 0
    let addressr_high := address_nets ci 7 "DPRA" 1 6
    let n_dl := create_internal_net ci.name "DPO_LOW" false t2
    let dp_low ← create_dram_lut (ci.name ++ "/DP.LOW") base cs addressr_64 di (some n_dl.1)
      (z - 1 - 1) n_dl.2
    let t3 ← set_init dp_low.2 dp_low.1 (init.extract 0 64)
    let n_dh := create_internal_net ci.name "DPO_HIGH" false t3
    let dp_high ← create_dram_lut (ci.name ++ "/DP.HIGH") base cs addressr_64 di (some n_dh.1)
      (z - 1 - 1 - 1) n_dh.2
    let t4 ← set_init dp_high.2 dp_high.1 (init.extract 64 64)
    let s2 ← create_muxf_tree base "SPO" [some n_sl.1, some n_sh.1] addressw_high spo 2 t4
    let s3 ← create_muxf_tree base "DPO" [some n_dl.1, some n_dh.1] addressr_high dpo 0 s2
    pure (mark_packed s3 ci.name)

/-- A group loop `for (auto cell : group.second)` whose locals are `z` and `base`. -/
def stack_loop (body : CellRef → Stack → Packer → Except String (Stack × Packer)) :
    List CellRef → Stack → Packer → Except String (Stack × Packer)
  | [], loc, s => pure (loc, s)
  | cell :: rest, loc, s => do
    let r ← body cell loc s
    stack_loop body rest r.1 r.2

/-- A group loop whose locals are declared inside the body. -/
def cell_loop (body : CellRef → Packer → Except String Packer) :
    List CellRef → Packer → Except String Packer
  | [], s => pure s
  | cell :: rest, s => do
    let s1 ← body cell s
    cell_loop body rest s1

/-- The statement `int height = ctx->xc7 ? 4 : 8`. -/
def cluster_height (s : Packer) : Int :=
  if s.xc7 then 4 else 8

/-- The dispatch on `cs.memtype` for one group; a group of a type with no
branch (RAM256X1D, RAM512X1S, RAM512X1D) is skipped. -/
def pack_group (cs : DRAMControlSet) (cells : List CellRef) (s : Packer) : Except String Packer :=
  let height := cluster_height s
  let top : Stack := { z := height - 1, base := none }
  if cs.memtype = "RAM64X1D" then
    (stack_loop (pack_ram64x1d_cell height cs) cells top s).map (fun r => r.2)
  else if cs.memtype = "RAM32X1D" then
    (stack_loop (pack_ram32x1d_cell height cs) cells top s).map (fun r => r.2)
  else if cs.memtype = "RAM32X1S" then
    (stack_loop (pack_ram32x1s_cell height cs "RAM32X1S" false) cells top s).map (fun r => r.2)
  else if cs.memtype = "RAM32X2S" then
    (stack_loop (pack_ram32x2s_cell height cs) cells top s).map (fun r => r.2)
  else if cs.memtype = "RAM64X1S" then
    (stack_loop (pack_ram64x1s_cell height cs "RAM64X1S" false) cells top s).map (fun r => r.2)
  else if cs.memtype = "RAM32X1S_1" then
    (stack_loop (pack_ram32x1s_cell height cs "RAM32X1S_1" true) cells top s).map (fun r => r.2)
  else if cs.memtype = "RAM64X1S_1" then
    (stack_loop (pack_ram64x1s_cell height cs "RAM64X1S_1" true) cells top s).map (fun r => r.2)
  else if cs.memtype = "RAM128X1S" then cell_loop (pack_ram128x1s_cell height cs) cells s
  else if cs.memtype = "RAM256X1S" then cell_loop (pack_ram256x1s_cell height cs) cells s
  else if cs.memtype = "RAM128X1D" then cell_loop (pack_ram128x1d_cell height cs) cells s
  else pure s

/-- The loop `for (auto &group : dram_groups)`. -/
def pack_groups : List (DRAMControlSet × List CellRef) → Packer → Except String Packer
  | [], s => pure s
  | g :: rest, s => do
    let s1 ← pack_group g.1 g.2 s
    pack_groups rest s1

/-! ## pack_dram: whole-slice memories -/

/-- The letter `'A' + i` of bank `i`. -/
def bank_letter (i : Nat) : String :=
  String.singleton (Char.ofNat (65 + i))

/-- Modelled from the spec: Property::from_string on a string of the characters
0, 1, x, z, written most significant bit first. -/
def Property.from_string (s : List Char) : Property :=
  Property.update_intval { is_string := false, str := s.reverse, intval := 0 }

/-- The loop `for (int k = 31; k >= 0; k--) init.push_back(orig_init.at(k * 2 + j) ? S1 : S0)`
over the bits of `as_bits()`, with `n` iterations left: `k = n - 1` comes next. -/
def deinterleave (orig_init : List Bool) (j : Nat) : Nat → Except String (List Char)
  | 0 => pure []
  | n + 1 => do
    let b ← vec_at orig_init (n * 2 + j)
    let rest ← deinterleave orig_init j n
    pure ((if b then S1 else S0) :: rest)

/-- Modelled from the spec: Property::as_bits, the bits of a bit vector. -/
def Property.as_bits (p : Property) : Except String (List Bool) :=
  if p.is_string then throw "NPNR_ASSERT(!is_string)"
  else pure (p.str.map (fun c => c == S1))

/-- Bank `i` of a RAM64M cell. -/
def pack_ram64m_bank (dcs : DRAMControlSet) (cell : CellRef) (zoffset : Int) (i : Nat)
    (base : Option CellRef) (s : Packer) : Except String (Option CellRef × Packer) := do
  let ci ← deref s (some cell)
  let address := (List.range 6).map
    (fun j => get_net_or_empty ci ("ADDR" ++ bank_letter i ++ "[" ++ to_string j ++ "]"))
  let di := get_net_or_empty ci ("DI" ++ bank_letter i)
  let dout := get_net_or_empty ci ("DO" ++ bank_letter i)
  let s1 ← modify_cell s cell
    (fun c => disconnect_port (disconnect_port c ("DI" ++ bank_letter i)) ("DO" ++ bank_letter i))
  let dram ← create_dram_lut (ci.name ++ "/DPR" ++ to_string i) base dcs address di dout
    (zoffset + i) s1
  let s2 ← copy_init dram.2 ci ("INIT_" ++ bank_letter i) dram.1
  pure (if base = none then some dram.1 else base, s2)

/-- Output bit `j` of bank `i` of a RAM32M cell. -/
def pack_ram32m_bit (dcs : DRAMControlSet) (cell : CellRef) (zoffset : Int) (i j : Nat)
    (base : Option CellRef) (s : Packer) : Except String (Option CellRef × Packer) := do
  let ci ← deref s (some cell)
  let address := (List.range 5).map
    (fun k => get_net_or_empty ci ("ADDR" ++ bank_letter i ++ "[" ++ to_string k ++ "]"))
  let dname := "DI" ++ bank_letter i ++ "[" ++ to_string j ++ "]"
  let qname := "DO" ++ bank_letter i ++ "[" ++ to_string j ++ "]"
  let di := get_net_or_empty ci dname
  let dout := get_net_or_empty ci qname
  let s1 ← modify_cell s cell (fun c => disconnect_port (disconnect_port c dname) qname)
  let dram ← create_dram32_lut (ci.name ++ "/DPR" ++ to_string i ++ "_" ++ to_string j) base dcs
    address di dout (j = 0) (zoffset + i) s1
  let s2 ← (match dict_find ci.params ("INIT_" ++ bank_letter i) with
    | some p => do
      let orig_init ← (p.extract 0 64).as_bits
      let init ← deinterleave orig_init j 32
      set_init dram.2 dram.1 (Property.from_string init)
    | none => pure dram.2)
  pure (if base = none then some dram.1 else base, s2)

/-- Bank `i` of a whole-slice memory. -/
def pack_slice_bank (is_64 : Bool) (dcs : DRAMControlSet) (cell : CellRef) (zoffset : Int)
    (i : Nat) (base : Option CellRef) (s : Packer) : Except String (Option CellRef × Packer) :=
  if is_64 then pack_ram64m_bank dcs cell zoffset i base s
  else do
    let r0 ← pack_ram32m_bit dcs cell zoffset i 0 base s
    pack_ram32m_bit dcs cell zoffset i 1 r0.1 r0.2

/-- The loop `for (int i = 0; i < 4; i++)` with `n` banks left at bank `i`. -/
def pack_slice_banks (is_64 : Bool) (dcs : DRAMControlSet) (cell : CellRef) (zoffset : Int) :
    Nat → Nat → Option CellRef → Packer → Except String (Option CellRef × Packer)
  | 0, _, base, s => pure (base, s)
  | n + 1, i, base, s => do
    let r ← pack_slice_bank is_64 dcs cell zoffset i base s
    pack_slice_banks is_64 dcs cell zoffset n (i + 1) r.1 r.2

/-- The body of the last loop of pack_dram for the live cell of index `idx`. -/
def pack_slice_cell (idx : Nat) (s : Packer) : Except String Packer := do
  let ci ← deref s (some (CellRef.live idx))
  if ci.type = "RAM64M" ∨ ci.type = "RAM32M" then do
    let is_64 : Bool := ci.type = "RAM64M"
    let abits : Nat := if is_64 then 6 else 5
    let dcs : DRAMControlSet :=
      { wa := (List.range abits).map (fun i => get_net_or_empty ci ("ADDRD[" ++ to_string i ++ "]"))
        wclk := get_net_or_empty ci "WCLK"
        we := get_net_or_empty ci "WE"
        wclk_inv := bool_or_default ci.params "IS_WCLK_INVERTED"
        memtype := "" }
    let zoffset : Int := if s.xc7 then 0 else 4
    let r ← pack_slice_banks is_64 dcs (CellRef.live idx) zoffset 4 0 none s
    pure (mark_packed r.2 ci.name)
  else pure s

/-- The loop over `sorted(ctx->cells)` with `n` cells left at index `idx`. -/
def pack_slices : Nat → Nat → Packer → Except String Packer
  | 0, _, s => pure s
  | n + 1, idx, s => do
    let s1 ← pack_slice_cell idx s
    pack_slices n (idx + 1) s1

/-- A pointer into the pending buffer after the buffer is appended to the
`n` live cells. -/
def flushed_ref (n : Nat) : CellRef → CellRef
  | CellRef.live i => CellRef.live i
  | CellRef.pending i => CellRef.live (n + i)

def flushed_cell (n : Nat) (c : CellInfo) : CellInfo :=
  { c with constr_parent := c.constr_parent.map (flushed_ref n)
           constr_children := c.constr_children.map (flushed_ref n) }

/-- Modelled from the spec: flush_cells (pack.cc is not among the sources): the
pending buffer is merged into the live graph once the sweep is over. The
retired cells stay marked; their removal is left to the orchestrator. -/
def flush_cells (s : Packer) : Packer :=
  { s with cells := (s.cells ++ s.new_cells).map (flushed_cell s.cells.length), new_cells := [] }

/-- The passes of pack_dram up to the call of flush_cells. -/
def pack_dram_sweep (s : Packer) : Except String Packer := do
  let s1 ← tie_high_pass s
  let s2 ← pack_groups (dram_groups s1) s1
  pack_slices s2.cells.length 0 s2

def pack_dram (s : Packer) : Except String Packer := do
  let s1 ← pack_dram_sweep s
  pure (flush_cells s1)

/-! ## prepare_clocking (pack_clocking_xc7.cc) -/

/-- Modelled from the spec: tie_port (pack.cc is not among the sources): an
input left unconnected is tied to the logic-1 or the logic-0 net, and with `inv`
the port's inversion parameter is written as 0 unless it is already there. A
port that is connected is left alone. -/
def tie_port (s : Packer) (ci : CellInfo) (port : String) (value inv : Bool) :
    Except String CellInfo := do
  let fresh : PortInfo := { name := port, net := none, type := PortType.PORT_IN }
  let c1 : CellInfo :=
    if dict_count ci.ports port then ci else { ci with ports := dict_set ci.ports port fresh }
  if get_net_or_empty c1 port ≠ none then pure c1
  else
    match net_by_name s (if value then "$PACKER_VCC_NET" else "$PACKER_GND_NET") with
    | none => throw "ctx->nets.at: no constant net"
    | some n => do
      let c2 ← connect_port (some n) c1 port
      let key : IdString := "IS_" ++ port ++ "_INVERTED"
      pure (if !dict_count c2.params key && inv then
              { c2 with params := dict_set c2.params key (Property.of_int 0 32) }
            else c2)

/-- Modelled from the spec: int_or_default (util.h) on a numeric parameter. -/
def int_or_default (params : List (IdString × Property)) (key : IdString) : Int :=
  match dict_find params key with
  | none => 0
  | some p => p.intval

/-- Modelled from the spec: str_or_default (util.h). -/
def str_or_default (params : List (IdString × Property)) (key : IdString) (d : String) : String :=
  match dict_find params key with
  | none => d
  | some p => String.mk p.str

/-- The cell that drives a net: the first live cell with a source port on it. -/
def driver_of_loop (net : NetId) : List CellInfo → Nat → Option (CellRef × CellInfo)
  | [], _ => none
  | c :: rest, i =>
    if c.ports.any (fun p => p.2.type == PortType.PORT_OUT && p.2.net == some net) then
      some (CellRef.live i, c)
    else driver_of_loop net rest (i + 1)

def driver_of (s : Packer) (net : NetId) : Option (CellRef × CellInfo) :=
  driver_of_loop net s.cells 0

/-- Whether another sink port of a live cell is still on the net. -/
def has_users (s : Packer) (net : NetId) : Bool :=
  s.cells.any (fun c =>
    c.ports.any (fun p => p.2.type != PortType.PORT_OUT && p.2.net == some net))

/-- Modelled from the spec: fold_inverter (pack.cc is not among the sources),
section 4.2: when the signal on the port comes out of an inverter (an INV cell,
or a LUT1 with INIT = 1), the port is moved to the inverter's input net and the
parameter IS_port_INVERTED of the cell is set; an inverter that is left without
a sink is retired. -/
def fold_inverter (s : Packer) (cell : CellRef) (port : String) : Except String Packer := do
  let ci ← deref s (some cell)
  match get_net_or_empty ci port with
  | none => pure s
  | some net =>
    match driver_of s net with
    | none => pure s
    | some drv =>
      let inp : Option IdString :=
        if drv.2.type = "LUT1" ∧ int_or_default drv.2.params "INIT" = 1 then some "I0"
        else if drv.2.type = "INV" then some "I"
        else none
      match inp with
      | none => pure s
      | some i => do
        let preinv := get_net_or_empty drv.2 i
        let c1 ← connect_port preinv (disconnect_port ci port) port
        let key : IdString := "IS_" ++ port ++ "_INVERTED"
        let c2 : CellInfo := { c1 with params := dict_set c1.params key (Property.of_int 1 32) }
        let s1 := set_cell s cell c2
        pure (if has_users s1 net then s1 else mark_packed s1 drv.2.name)

def bufgmux_rule : XFormRule :=
  { new_type := "BUFGCTRL", port_xform := [], port_multixform := [("S", ["CE0", "CE1"])],
    set_attrs := [] }

def bufgce_rule : XFormRule :=
  { new_type := "BUFGCTRL", port_xform := [("I", "I0"), ("CE", "CE0")], port_multixform := [],
    set_attrs := [] }

def bufgctrl_rules : List (IdString × XFormRule) :=
  [("BUFGMUX", bufgmux_rule),
   ("BUFGMUX_1", bufgmux_rule),
   ("BUFGMUX_CTRL",
    { new_type := "BUFGCTRL", port_xform := [], port_multixform := [("S", ["S0", "S1"])],
      set_attrs := [] }),
   ("BUFGCE", bufgce_rule),
   ("BUFGCE_1", bufgce_rule),
   ("BUFG",
    { new_type := "BUFGCTRL", port_xform := [("I", "I0")], port_multixform := [],
      set_attrs := [] })]

def upgrade : List (IdString × IdString) :=
  [("MMCME2_BASE", "MMCME2_ADV"), ("PLLE2_BASE", "PLLE2_ADV")]

/-- A chain of tie_port calls on one cell. -/
def tie_ports (s : Packer) : List (String × Bool × Bool) → CellInfo → Except String CellInfo
  | [], ci => pure ci
  | (port, value, inv) :: rest, ci => do
    let c1 ← tie_port s ci port value inv
    tie_ports s rest c1

/-- The parameter rewriting of the select-mux branches: `a` and `b` are the
two inversion parameters written. -/
def split_inversion (ci : CellInfo) (a b : IdString) : CellInfo :=
  let zero := Property.of_int 0 32
  let one := Property.of_int 1 32
  if int_or_default ci.params "IS_S_INVERTED" ≠ 0 then
    { ci with params := dict_erase (dict_set (dict_set ci.params a zero) b one) "IS_S_INVERTED" }
  else
    { ci with params := dict_set (dict_set ci.params a one) b zero }

/-- The body of the loop of prepare_clocking for the live cell of index `idx`. -/
def prepare_clocking_cell (idx : Nat) (s : Packer) : Except String Packer := do
  let r := CellRef.live idx
  let ci ← deref s (some r)
  match dict_find upgrade ci.type with
  | some new_type => pure (set_cell s r { ci with type := new_type })
  | none =>
    if ci.type = "BUFG" then do
      let c ← tie_ports s [("CE0", true, true), ("S0", true, true), ("S1", false, true),
        ("IGNORE0", true, true)] ci
      pure (set_cell s r c)
    else if ci.type = "BUFGCE" ∨ ci.type = "BUFGCE_1" then do
      let s1 ← fold_inverter s r "CE"
      let c0 ← deref s1 (some r)
      let moved := dict_erase (dict_set c0.params "IS_CE0_INVERTED" (Property.of_int 1 32))
        "IS_CE_INVERTED"
      let c1 : CellInfo :=
        if int_or_default c0.params "IS_CE_INVERTED" ≠ 0 then { c0 with params := moved } else c0
      let c ← tie_ports s1 [("S0", true, true), ("S1", false, true), ("IGNORE0", true, true),
        ("IGNORE1", false, true)] c1
      pure (set_cell s1 r c)
    else if ci.type = "BUFH" ∨ ci.type = "BUFHCE" then do
      let c ← tie_port s { ci with type := "BUFHCE_BUFHCE" } "CE" true true
      pure (set_cell s r c)
    else if ci.type = "BUFGMUX" ∨ ci.type = "BUFGMUX_1" then do
      let s1 ← fold_inverter s r "S"
      let c0 ← deref s1 (some r)
      let c1 := split_inversion c0 "IS_CE0_INVERTED" "IS_CE1_INVERTED"
      let sel_type := str_or_default c1.params "CLK_SEL_TYPE" "SYNC"
      let c ← (if sel_type = "ASYNC" then
          tie_ports s1 [("S0", true, true), ("S1", true, true), ("IGNORE0", false, true),
            ("IGNORE1", false, true)] c1
        else if sel_type = "SYNC" then
          tie_ports s1 [("S0", true, true), ("S1", true, true), ("IGNORE0", true, false),
            ("IGNORE1", true, false)] c1
        else pure c1)
      pure (set_cell s1 r c)
    else if ci.type = "BUFGMUX_CTRL" then do
      let s1 ← fold_inverter s r "S"
      let c0 ← deref s1 (some r)
      let c1 := split_inversion c0 "IS_S0_INVERTED" "IS_S1_INVERTED"
      let c2 ← xform_cell bufgctrl_rules c1
      let c ← tie_ports s1 [("CE0", true, true), ("CE1", true, true), ("IGNORE0", true, false),
        ("IGNORE1", true, false)] c2
      pure (set_cell s1 r c)
    else pure s

/-- A loop over `sorted(ctx->cells)` with `n` cells left at index `idx`. -/
def cells_loop (body : Nat → Packer → Except String Packer) :
    Nat → Nat → Packer → Except String Packer
  | 0, _, s => pure s
  | n + 1, idx, s => do
    let s1 ← body idx s
    cells_loop body n (idx + 1) s1

/-- Modelled from the spec: generic_xform (pack.cc is not among the sources), the
batch sweep of a rule table over every cell of the graph. -/
def generic_xform (rules : List (IdString × XFormRule)) (s : Packer) : Except String Packer :=
  cells_loop (fun idx t => do
    let ci ← deref t (some (CellRef.live idx))
    let c ← xform_cell rules ci
    pure (set_cell t (CellRef.live idx) c)) s.cells.length 0 s

def prepare_clocking (s : Packer) : Except String Packer := do
  let s1 ← cells_loop prepare_clocking_cell s.cells.length 0 s
  generic_xform bufgctrl_rules s1

/-! ## pack_plls (pack_clocking_xc7.cc) -/

/-- The lambda `set_default`: the parameter is written only when it is absent. -/
def set_default (ci : CellInfo) (param : IdString) (value : Property) : CellInfo :=
  if !dict_count ci.params param then { ci with params := dict_set ci.params param value }
  else ci

def pll_rules : List (IdString × XFormRule) :=
  [("MMCME2_ADV",
    { new_type := "MMCME2_ADV_MMCME2_ADV", port_xform := [], port_multixform := [],
      set_attrs := [] }),
   ("PLLE2_ADV",
    { new_type := "PLLE2_ADV_PLLE2_ADV", port_xform := [], port_multixform := [],
      set_attrs := [] })]

/-- Modelled from the spec: try_preplace (pack.cc is not among the sources), the
best-effort, non-binding placement hint of section 4.2. The search in the device
for a location near the driver of the port is the parameter `hint`; a location
found is recorded in the attribute BEL unless the cell has one, and nothing
happens when none is found. -/
def try_preplace (hint : CellInfo → IdString → Option Property) (ci : CellInfo)
    (port : IdString) : CellInfo :=
  match hint ci port with
  | none => ci
  | some bel =>
    if dict_count ci.attrs "BEL" then ci else { ci with attrs := dict_set ci.attrs "BEL" bel }

/-- The loop `for (int i = 1; i <= 2; i++)` of the input periods, `n` iterations
left at `i`. -/
def clkin_defaults : Nat → Nat → CellInfo → CellInfo
  | 0, _, ci => ci
  | n + 1, i, ci =>
    clkin_defaults n (i + 1)
      (set_default ci ("CLKIN" ++ to_string i ++ "_PERIOD") (Property.of_string "0.0"))

/-- The loop `for (int i = 0; i <= 6; i++)` of the output defaults, `n`
iterations left at `i`. -/
def clkout_defaults : Nat → Nat → CellInfo → CellInfo
  | 0, _, ci => ci
  | n + 1, i, ci =>
    let c1 := set_default ci ("CLKOUT" ++ to_string i ++ "_CASCADE") (Property.of_string "FALSE")
    let c2 := set_default c1 ("CLKOUT" ++ to_string i ++ "_DIVIDE") (Property.of_int 1 32)
    let c3 := set_default c2 ("CLKOUT" ++ to_string i ++ "_DUTY_CYCLE") (Property.of_string "0.5")
    let c4 := set_default c3 ("CLKOUT" ++ to_string i ++ "_PHASE") (Property.of_int 0 32)
    let c5 := set_default c4 ("CLKOUT" ++ to_string i ++ "_USE_FINE_PS")
      (Property.of_string "FALSE")
    clkout_defaults n (i + 1) c5

/-- The statements under `// Fixup parameters`. -/
def fixup_parameters (ci : CellInfo) : CellInfo :=
  set_default (clkout_defaults 7 0 (clkin_defaults 2 1 ci)) "COMPENSATION"
    (Property.of_string "INTERNAL")

/-- The body of the loop of pack_plls for the live cell of index `idx`. -/
def pack_plls_cell (hint : CellInfo → IdString → Option Property) (idx : Nat) (s : Packer) :
    Except String Packer := do
  let r := CellRef.live idx
  let ci ← deref s (some r)
  let c1 : CellInfo :=
    if ci.type = "MMCME2_ADV_MMCME2_ADV" ∨ ci.type = "PLLE2_ADV_PLLE2_ADV" then
      try_preplace hint ci "CLKIN1"
    else ci
  if c1.type = "MMCME2_ADV_MMCME2_ADV" then do
    let c2 := fixup_parameters c1
    if str_or_default c2.params "COMPENSATION" "INTERNAL" = "INTERNAL" then do
      let c3 ← connect_port (net_by_name s "$PACKER_VCC_NET") (disconnect_port c2 "CLKFBIN")
        "CLKFBIN"
      pure (set_cell s r c3)
    else pure (set_cell s r c2)
  else pure (set_cell s r c1)

def pack_plls (hint : CellInfo → IdString → Option Property) (s : Packer) :
    Except String Packer := do
  let s1 ← generic_xform pll_rules s
  cells_loop (pack_plls_cell hint) s1.cells.length 0 s1

/-- The defaults pack_plls fills in, in the order of the source. -/
def pll_defaults : List (IdString × Property) :=
  [("CLKIN1_PERIOD", Property.of_string "0.0"),
   ("CLKIN2_PERIOD", Property.of_string "0.0"),
   ("CLKOUT0_CASCADE", Property.of_string "FALSE"),
   ("CLKOUT0_DIVIDE", Property.of_int 1 32),
   ("CLKOUT0_DUTY_CYCLE", Property.of_string "0.5"),
   ("CLKOUT0_PHASE", Property.of_int 0 32),
   ("CLKOUT0_USE_FINE_PS", Property.of_string "FALSE"),
   ("CLKOUT1_CASCADE", Property.of_string "FALSE"),
   ("CLKOUT1_DIVIDE", Property.of_int 1 32),
   ("CLKOUT1_DUTY_CYCLE", Property.of_string "0.5"),
   ("CLKOUT1_PHASE", Property.of_int 0 32),
   ("CLKOUT1_USE_FINE_PS", Property.of_string "FALSE"),
   ("CLKOUT2_CASCADE", Property.of_string "FALSE"),
   ("CLKOUT2_DIVIDE", Property.of_int 1 32),
   ("CLKOUT2_DUTY_CYCLE", Property.of_string "0.5"),
   ("CLKOUT2_PHASE", Property.of_int 0 32),
   ("CLKOUT2_USE_FINE_PS", Property.of_string "FALSE"),
   ("CLKOUT3_CASCADE", Property.of_string "FALSE"),
   ("CLKOUT3_DIVIDE", Property.of_int 1 32),
   ("CLKOUT3_DUTY_CYCLE", Property.of_string "0.5"),
   ("CLKOUT3_PHASE", Property.of_int 0 32),
   ("CLKOUT3_USE_FINE_PS", Property.of_string "FALSE"),
   ("CLKOUT4_CASCADE", Property.of_string "FALSE"),
   ("CLKOUT4_DIVIDE", Property.of_int 1 32),
   ("CLKOUT4_DUTY_CYCLE", Property.of_string "0.5"),
   ("CLKOUT4_PHASE", Property.of_int 0 32),
   ("CLKOUT4_USE_FINE_PS", Property.of_string "FALSE"),
   ("CLKOUT5_CASCADE", Property.of_string "FALSE"),
   ("CLKOUT5_DIVIDE", Property.of_int 1 32),
   ("CLKOUT5_DUTY_CYCLE", Property.of_string "0.5"),
   ("CLKOUT5_PHASE", Property.of_int 0 32),
   ("CLKOUT5_USE_FINE_PS", Property.of_string "FALSE"),
   ("CLKOUT6_CASCADE", Property.of_string "FALSE"),
   ("CLKOUT6_DIVIDE", Property.of_int 1 32),
   ("CLKOUT6_DUTY_CYCLE", Property.of_string "0.5"),
   ("CLKOUT6_PHASE", Property.of_int 0 32),
   ("CLKOUT6_USE_FINE_PS", Property.of_string "FALSE"),
   ("COMPENSATION", Property.of_string "INTERNAL")]

/-- A list of defaults applied in order with `set_default`. -/
def set_defaults (L : List (IdString × Property)) (ci : CellInfo) : CellInfo :=
  L.foldl (fun c e => set_default c e.1 e.2) ci

/-! ## pack_gt (pack_gt_xc7.cc) -/

/-- The function boost::starts_with on two strings. -/
def starts_with (s pre : String) : Bool := pre.data.isPrefixOf s.data

/-- The function boost::ends_with on two strings. -/
def ends_with (s suf : String) : Bool := suf.data.isSuffixOf s.data

def contains_loop (sub : List Char) : List Char → Bool
  | [] => sub.isEmpty
  | c :: rest => sub.isPrefixOf (c :: rest) || contains_loop sub rest

/-- The function boost::contains on two strings. -/
def contains (s sub : String) : Bool := contains_loop sub.data s.data

/-- Modelled from the spec: the constructor Property() (property.h is not among
the sources): no bit and the value 0. -/
def Property.empty : Property :=
  { is_string := false, str := [], intval := 0 }

/-- The expression `Property(used)` on a bool, which takes the constructor
Property(int64_t, int width = 32). -/
def Property.of_bool (b : Bool) : Property :=
  Property.of_int (if b then 1 else 0) 32

/-- Modelled from the spec: Property::as_int64 (property.h is not among the
sources), which asserts that the property is not a string. -/
def Property.as_int64 (p : Property) : Except String Int :=
  if p.is_string then throw "as_int64: !is_string" else pure p.intval

/-- The statement `ci->setParam(key, value)`. -/
def setParam (ci : CellInfo) (key : IdString) (value : Property) : CellInfo :=
  { ci with params := dict_set ci.params key value }

/-- The local `used` of the loop over the ports of a common cell. -/
def port_used (s : Packer) (port_net : Option NetId) : Bool :=
  match port_net with
  | none => false
  | some n =>
    net_name s n != some "$PACKER_VCC_NET" && net_name s n != some "$PACKER_GND_NET"

/-- The expression `driver->attrs[ctx->id("_REL_BUF_Y")]`: `operator[]` enters
an empty property under the key when the driver has none. -/
def touch_rel_buf_y (driver : CellInfo) : CellInfo :=
  if dict_count driver.attrs "_REL_BUF_Y" then driver
  else { driver with attrs := dict_set driver.attrs "_REL_BUF_Y" Property.empty }

/-- Whether the live cell of index `idx` still has an entry under the key `p` in
its port map. -/
def port_present (idx : Nat) (p : IdString) (s : Packer) : Bool :=
  match s.cells.get? idx with
  | some c => dict_count c.ports p
  | none => false

/-- A loop `for (auto &port : ci->ports)` over the live map, with the keys in the
order the iterator meets them. A turn whose body erases the entry the iterator
stands on (rename_port does) leaves the iterator dangling: advancing it is
undefined, and the run stops there with an error. `present` tells whether the
entry of a key is still in the map. -/
def ports_loop {σ : Type} (present : IdString → σ → Bool)
    (body : IdString → σ → Except String σ) : List IdString → σ → Except String σ
  | [], st => pure st
  | p :: ps, st => do
    let st1 ← body p st
    if present p st1 then ports_loop present body ps st1
    else throw "for (auto &port : ci->ports): the entry under the iterator was erased"

/-- The statements under `if (used)` for a reference clock whose driver `drv` is
an IBUFDS_GTE2: the row is read from the driver, the port is disconnected and
the flag of that row is set. -/
def refclk_by_buffer (idx : Nat) (port_name : IdString) (drv : CellRef × CellInfo)
    (st : Packer × Bool × Bool) : Except String (Packer × Bool × Bool) := do
  let r := CellRef.live idx
  let driver := touch_rel_buf_y drv.2
  let s1 := set_cell st.1 drv.1 driver
  let rel_buf_y ← Property.as_int64 ((dict_find driver.attrs "_REL_BUF_Y").getD Property.empty)
  let c0 ← deref s1 (some r)
  let c1 := disconnect_port c0 port_name
  if rel_buf_y = 1 then
    pure (set_cell s1 r (setParam c1 "_GTREFCLK1_USED" (Property.of_int 1 1)), st.2.1, true)
  else
    pure (set_cell s1 r (setParam c1 "_GTREFCLK0_USED" (Property.of_int 1 1)), true, st.2.2)

/-- The body of the loop over the ports of a common cell, for the port of key
`port_name` of the live cell `idx`. The state is the packer with the locals
`refclk0_used` and `refclk1_used`. The loop hands the body the entry of a key
that is in the map. -/
def pack_gt_common_port (is_gtp : Bool) (idx : Nat) (port_name : IdString)
    (st : Packer × Bool × Bool) : Except String (Packer × Bool × Bool) := do
  let s := st.1
  let r := CellRef.live idx
  let ci ← deref s (some r)
  match dict_find ci.ports port_name with
  | none => throw "for (auto &port : ci->ports): no entry under the key"
  | some port =>
    let port_net := port.net
    let used := port_used s port_net
    if port_name = "DRPCLK" then
      pure (set_cell s r (setParam ci "_DRPCLK_USED" (Property.of_bool used)), st.2.1, st.2.2)
    else if starts_with port_name "GTREFCLK" then
      match port_net with
      | none => throw "port_net->driver: null pointer"
      | some n =>
        match driver_of s n with
        | none => throw "Port connected to net has no driver!"
        | some drv =>
          if drv.2.type ≠ "IBUFDS_GTE2" then
            if drv.2.type ≠ "BUFGCTRL" then
              throw "GTP_COMMON GTREFCLK connected to unsupported cell type"
            else
              let gtg_port : IdString := if is_gtp then "GTGREFCLK0" else "GTGREFCLK"
              let c1 := rename_port ci port_name gtg_port
              pure (set_cell s r (setParam c1 "_GTGREFCLK_USED" (Property.of_int 1 1)),
                st.2.1, st.2.2)
          else if used then refclk_by_buffer idx port_name drv st
          else if ends_with port_name "0" then
            pure (set_cell s r (setParam ci "_GTREFCLK0_USED" (Property.of_bool used)),
              used, st.2.2)
          else
            pure (set_cell s r (setParam ci "_GTREFCLK1_USED" (Property.of_bool used)),
              st.2.1, used)
    else pure st

/-- The branch of pack_gt for a GTPE2_COMMON or GTXE2_COMMON cell. -/
def pack_gt_common (idx : Nat) (s : Packer) : Except String Packer := do
  let r := CellRef.live idx
  let ci ← deref s (some r)
  let is_gtp : Bool := ci.type = "GTPE2_COMMON"
  let s1 ← fold_inverter s r "DRPCLK"
  let s2 ← (if is_gtp then do
      let a ← fold_inverter s1 r "PLL0LOCKDETCLK"
      fold_inverter a r "PLL1LOCKDETCLK"
    else fold_inverter s1 r "QPLLLOCKDETCLK")
  let c0 ← deref s2 (some r)
  let st ← ports_loop (fun p x => port_present idx p x.1) (pack_gt_common_port is_gtp idx)
    (c0.ports.map (fun e => e.1)) (s2, false, false)
  let c ← deref st.1 (some r)
  pure (set_cell st.1 r
    (setParam c "_BOTH_GTREFCLK_USED" (Property.of_bool (st.2.1 && st.2.2))))

/-- The expression `net->driver.port`: the key of the source port the driver
has on the net. -/
def driver_port (driver : CellInfo) (net : NetId) : Option IdString :=
  (driver.ports.find? (fun p => p.2.type == PortType.PORT_OUT && p.2.net == some net)).map
    (fun p => p.1)

/-- The calls `boost::replace_all(name, "[", "")` and
`boost::replace_all(name, "]", "")`. -/
def strip_brackets (name : String) : String :=
  String.mk (name.data.filter (fun c => c != Char.ofNat 91 && c != Char.ofNat 93))

/-- The clock ports of a channel cell on which pack_gt calls fold_inverter. -/
def channel_clocks : List String :=
  ["CLKRSVD0", "CLKRSVD1", "CPLLLOCKDETCLK", "DMONITORCLK", "DRPCLK", "GTGREFCLK",
   "PMASCANCLK0", "PMASCANCLK1", "PMASCANCLK2", "PMASCANCLK3", "QPLLLOCKDETCLK", "RXUSRCLK",
   "RXUSRCLK2", "SCANCLK", "SIGVALIDCLK", "TSTCLK0", "TSTCLK1", "TXPHDLYTSTCLK", "TXUSRCLK",
   "TXUSRCLK2"]

def fold_inverters (r : CellRef) : List String → Packer → Except String Packer
  | [], s => pure s
  | p :: ps, s => do
    let s1 ← fold_inverter s r p
    fold_inverters r ps s1

/-- The statements under `// These ports are hardwired` of a channel port that
is on a net: the cell after them, and whether the loop continues at once. -/
def channel_clock_port (s : Packer) (common_type : IdString) (ci : CellInfo)
    (port_name : IdString) (net : NetId) : Except String (CellInfo × Bool) :=
  if net_name s net = some "$PACKER_GND_NET" ∨ net_name s net = some "$PACKER_VCC_NET" then
    pure (disconnect_port ci port_name, true)
  else
    match driver_of s net with
    | none => throw "driver->type: null pointer"
    | some drv =>
      if drv.2.type ≠ common_type then
        throw "The clock input ports of the channel can only be driven by a common instance"
      else
        let drv_port : String := (driver_port drv.2 net).getD ""
        let port_prefix : String := String.mk (port_name.data.take 4)
        let port_suffix : String := String.mk (port_name.data.drop 4)
        if !starts_with drv_port port_prefix || !ends_with drv_port port_suffix then
          throw "The port of a channel can only be connected to the port OUT of a common"
        else pure (disconnect_port ci port_name, false)

/-- The body of the loop over the ports of a channel cell. The loop hands the
body the entry of a key that is in the map. -/
def pack_gt_channel_port (common_type : IdString) (idx : Nat) (port_name : IdString)
    (s : Packer) : Except String Packer := do
  let r := CellRef.live idx
  let ci ← deref s (some r)
  match dict_find ci.ports port_name with
  | none => throw "for (auto &port : ci->ports): no entry under the key"
  | some port => do
    let step ← (match port.net with
      | none => pure (ci, false)
      | some net =>
        if starts_with port_name "PLL" && ends_with port_name "CLK" then
          channel_clock_port s common_type ci port_name net
        else pure (ci, false))
    if step.2 then pure (set_cell s r step.1)
    else if contains port_name "[" && contains port_name "]" then
      pure (set_cell s r (rename_port step.1 port_name (strip_brackets port_name)))
    else pure (set_cell s r step.1)

/-- The branch of pack_gt for a GTPE2_CHANNEL or GTXE2_CHANNEL cell, whose
clocks come from a common cell of type `common_type`. -/
def pack_gt_channel (common_type : IdString) (idx : Nat) (s : Packer) : Except String Packer := do
  let r := CellRef.live idx
  let s1 ← fold_inverters r channel_clocks s
  let c0 ← deref s1 (some r)
  ports_loop (port_present idx) (pack_gt_channel_port common_type idx)
    (c0.ports.map (fun e => e.1)) s1

/-- The body of the loop of pack_gt for the live cell of index `idx`. -/
def pack_gt_cell (idx : Nat) (s : Packer) : Except String Packer := do
  let ci ← deref s (some (CellRef.live idx))
  if ci.type = "GTPE2_COMMON" ∨ ci.type = "GTXE2_COMMON" then pack_gt_common idx s
  else if ci.type = "GTPE2_CHANNEL" then pack_gt_channel "GTPE2_COMMON" idx s
  else if ci.type = "GTXE2_CHANNEL" then pack_gt_channel "GTXE2_COMMON" idx s
  else pure s

/-- The loop `for (auto &cell : ctx->cells)` of pack_gt. The map is unordered:
`order` lists the indices of the live cells in the order the loop visits them. -/
def pack_gt_loop : List Nat → Packer → Except String Packer
  | [], s => pure s
  | idx :: rest, s => do
    let s1 ← pack_gt_cell idx s
    pack_gt_loop rest s1

def pack_gt (order : List Nat) (s : Packer) : Except String Packer :=
  pack_gt_loop order s

/-! ## constrain_ibufds_gt_site (pack_gt_xc7.cc) -/

/-- Modelled from the spec: a site of a tile of the chip database, with its name
and its row. -/
structure SiteInstInfo where
  name : String
  site_y : Int
  deriving DecidableEq, Repr

/-- The locals of the loop over the sites of the tile. -/
structure SiteScan where
  min_buf_y : Int
  max_buf_y : Int
  min_pad_y : Int
  max_pad_y : Int
  pad_y : Int
  deriving DecidableEq, Repr

/-- The body of the loop `for (int s = 0; s < tile->num_sites; s++)`. -/
def scan_site (pad_site : String) (acc : SiteScan) (site : SiteInstInfo) : SiteScan :=
  let sy := site.site_y
  let a1 : SiteScan :=
    if starts_with site.name "IPAD_" then
      { acc with
        min_pad_y := if sy < acc.min_pad_y then sy else acc.min_pad_y
        max_pad_y := if acc.max_pad_y < sy then sy else acc.max_pad_y
        pad_y := if site.name = pad_site then sy else acc.pad_y }
    else acc
  if starts_with site.name "IBUFDS_GTE2_" then
    { a1 with
      min_buf_y := if sy < a1.min_buf_y then sy else a1.min_buf_y
      max_buf_y := if a1.max_buf_y < sy then sy else a1.max_buf_y }
  else a1

/-- The values the locals start with; 0x7FFFFFFF is 2147483647. -/
def scan_start : SiteScan :=
  { min_buf_y := 2147483647, max_buf_y := 0, min_pad_y := 2147483647, max_pad_y := 0,
    pad_y := -1 }

/-- The values of `std::to_string` on an int. -/
def to_string_int (i : Int) : String := toString i

/-- Modelled from the spec: Property::as_string (property.h is not among the
sources), which asserts that the property is a string. -/
def Property.as_string (p : Property) : Except String String :=
  if p.is_string then pure (String.mk p.str) else throw "as_string: is_string"

/-- The part of constrain_ibufds_gt_site that runs before the cell is looked at:
the bel of the buffer and its relative row. `site_by_name` gives the sites of the
tile that holds a site (the chip database is not among the sources, and
`site_by_name.at` fails on a name it does not hold). The rows are exact integers;
`>> 1` is the division by 2 that rounds down. -/
def resolve_ibufds_gt_site (site_by_name : String → Option (List SiteInstInfo))
    (io_bel : String) : Except String (String × Int) :=
  let pad_site : String := String.mk (io_bel.data.takeWhile (fun ch => ch != Char.ofNat 47))
  match site_by_name pad_site with
  | none => throw "site_by_name.at: out of range"
  | some tile =>
    let sc := tile.foldl (scan_site pad_site) scan_start
    if sc.pad_y < 0 then throw "failed to find IBUFDS_GTE2 site"
    else if ¬ sc.min_pad_y < sc.max_pad_y then throw "min_pad_y < max_pad_y"
    else if ¬ sc.min_buf_y < sc.max_buf_y then throw "min_buf_y < max_buf_y"
    else
      let rel_buf_y := (sc.pad_y - sc.min_pad_y) / 2
      let buf_y := sc.min_buf_y + rel_buf_y
      let num_pads := sc.max_pad_y - sc.min_pad_y + 1
      if num_pads ≠ 4 then
        throw "A GTP_COMMON/GTX_COMMON tile only should have four input pads"
      else pure ("IBUFDS_GTE2_X0Y" ++ to_string_int buf_y ++ "/IBUFDS_GTE2", rel_buf_y)

def constrain_ibufds_gt_site (site_by_name : String → Option (List SiteInstInfo))
    (buf_cell : CellInfo) (io_bel : String) : Except String CellInfo := do
  let (buf_bel, rel_buf_y) ← resolve_ibufds_gt_site site_by_name io_bel
  match dict_find buf_cell.attrs "BEL" with
  | some existing => do
    let existing_buf_bel ← Property.as_string existing
    if existing_buf_bel ≠ buf_bel then
      throw "Location of IBUFDS_GTE2 conflicts with previous placement"
    else pure buf_cell
  | none =>
    pure { buf_cell with
      attrs := dict_set (dict_set buf_cell.attrs "BEL" (Property.of_string buf_bel))
        "_REL_BUF_Y" (Property.of_int rel_buf_y 32) }

/-! ## Sample designs -/

def sample_nets : List NetInfo :=
  [{ name := "$PACKER_GND_NET" }, { name := "$PACKER_VCC_NET" }] ++
    (List.range 14).map (fun i => { name := "n" ++ to_string i })

/-- A packer whose pending buffer holds one cell, the base of a mux tree. -/
def sample_packer : Packer :=
  { xc7 := true, BEL_6LUT := 0, BEL_5LUT := 1, cells := [], nets := sample_nets,
    new_cells := [create_cell "SLICE_LUTX" "ram/LOW"], packed_cells := [] }

/-! ## The primitive create_dram_lut builds, in closed form -/

def sink (name : IdString) (net : Option NetId) : IdString × PortInfo :=
  (name, { name := name, net := net, type := PortType.PORT_IN })

def source (name : IdString) (net : Option NetId) : IdString × PortInfo :=
  (name, { name := name, net := net, type := PortType.PORT_OUT })

/-- Entry `i` of a vector of nets, null past its end. -/
def net_at (v : List (Option NetId)) (i : Nat) : Option NetId :=
  (v.get? i).join

/-- The SLICE_LUTX cell that create_dram_lut wires and transforms, before the
placement constraints are set. -/
def slice_lutx (name : IdString) (ctrlset : DRAMControlSet) (address : List (Option NetId))
    (di dout : Option NetId) : CellInfo :=
  { name := name
    type := "SLICE_LUTX"
    ports := [sink "CLK" ctrlset.wclk, sink "WE" ctrlset.we,
      sink "A1" (net_at address 0), sink "A2" (net_at address 1), sink "A3" (net_at address 2),
      sink "A4" (net_at address 3), sink "A5" (net_at address 4), sink "A6" (net_at address 5),
      sink "WA1" (net_at ctrlset.wa 0), sink "WA2" (net_at ctrlset.wa 1),
      sink "WA3" (net_at ctrlset.wa 2), sink "WA4" (net_at ctrlset.wa 3),
      sink "WA5" (net_at ctrlset.wa 4), sink "WA6" (net_at ctrlset.wa 5),
      sink "WA7" (net_at ctrlset.wa 6), sink "WA8" (net_at ctrlset.wa 7),
      sink "DI1" di, source "O6" dout]
    params := [("IS_WCLK_INVERTED", Property.of_int (if ctrlset.wclk_inv then 1 else 0) 32)]
    attrs := [("X_LUT_AS_DRAM", Property.of_int 1 32), ("X_IS_SLICEM", Property.of_int 1 32)]
    constr_parent := none
    constr_children := []
    constr_x := 0
    constr_y := 0
    constr_z := 0
    constr_abs_z := false }

/-! ## The renaming part of xform_cell on the port list -/

/-- What rename_port does to the port list of a cell. -/
def rename_in (ports : List (IdString × PortInfo)) (old new : IdString) :
    List (IdString × PortInfo) :=
  match dict_find ports old with
  | none => ports
  | some port => dict_set (dict_erase ports old) new { port with name := new }

/-- What xform_port does to the port list under a rule without fan-out. -/
def rename_step (table : List (IdString × IdString)) (ports : List (IdString × PortInfo))
    (p : IdString) : List (IdString × PortInfo) :=
  match dict_find table p with
  | some new_name => if new_name ≠ p then rename_in ports p new_name else ports
  | none => ports

def rename_all (table : List (IdString × IdString)) :
    List IdString → List (IdString × PortInfo) → List (IdString × PortInfo)
  | [], ports => ports
  | p :: rest, ports => rename_all table rest (rename_step table ports p)

/-- The rule of dram_rules, written out. -/
def ramd64e_rule : XFormRule :=
  { new_type := "SLICE_LUTX"
    set_attrs := [("X_LUT_AS_DRAM", Property.of_int 1 32), ("X_IS_SLICEM", Property.of_int 1 32)]
    port_xform := [("RADR0", "A1"), ("RADR1", "A2"), ("RADR2", "A3"), ("RADR3", "A4"),
      ("RADR4", "A5"), ("RADR5", "A6"), ("WADR0", "WA1"), ("WADR1", "WA2"), ("WADR2", "WA3"),
      ("WADR3", "WA4"), ("WADR4", "WA5"), ("WADR5", "WA6"), ("WADR6", "WA7"),
      ("WADR7", "WA8"), ("I", "DI1"), ("O", "O6")]
    port_multixform := [] }

/-- A port with its net replaced through `f`. -/
def with_net (f : Option NetId → Option NetId) (p : PortInfo) : PortInfo :=
  { name := p.name, net := f p.net, type := p.type }

/-- The port list with every net replaced through `f`. -/
def map_nets (f : Option NetId → Option NetId) (ports : List (IdString × PortInfo)) :
    List (IdString × PortInfo) :=
  ports.map (fun e => (e.1, with_net f e.2))

/-- The ports of a RAMD64E cell with port number `i` on net `i`. -/
def tagged_ramd64e : List (IdString × PortInfo) :=
  [sink "RADR0" (some 0), sink "RADR1" (some 1), sink "RADR2" (some 2), sink "RADR3" (some 3),
   sink "RADR4" (some 4), sink "RADR5" (some 5), sink "WADR0" (some 6), sink "WADR1" (some 7),
   sink "WADR2" (some 8), sink "WADR3" (some 9), sink "WADR4" (some 10), sink "WADR5" (some 11),
   sink "WADR6" (some 12), sink "WADR7" (some 13), sink "CLK" (some 14), sink "I" (some 15),
   sink "WE" (some 16), source "O" (some 17)]

/-- The ports of the SLICE_LUTX cell made of it. -/
def tagged_slice_lutx : List (IdString × PortInfo) :=
  [sink "CLK" (some 14), sink "WE" (some 16), sink "A1" (some 0), sink "A2" (some 1),
   sink "A3" (some 2), sink "A4" (some 3), sink "A5" (some 4), sink "A6" (some 5),
   sink "WA1" (some 6), sink "WA2" (some 7), sink "WA3" (some 8), sink "WA4" (some 9),
   sink "WA5" (some 10), sink "WA6" (some 11), sink "WA7" (some 12), sink "WA8" (some 13),
   sink "DI1" (some 15), source "O6" (some 17)]

/-- The assignment of nets to the port numbers of tagged_ramd64e. -/
def pick_net (nets : List (Option NetId)) (o : Option NetId) : Option NetId :=
  match o with
  | none => none
  | some i => (nets.get? i).join

/-! ## The pairwise swap of the specification, and a tied-low sample -/

/-- The INIT table with the entries at `j` and `j XOR 2^i` exchanged for every
`j`, as the specification words the pre-pass. -/
def swap_across_bit (i : Nat) (str : List Char) : List Char :=
  (List.range str.length).map (fun j => str.getD (j ^^^ (1 <<< i)) S0)

/-- A RAM64X1S cell whose address bit 0 is tied to the logic-0 net. -/
def tied_low_cell : CellInfo :=
  { create_cell "RAM64X1S" "mem" with
    ports := [sink "A0" (some 0), sink "A1" (some 2), sink "A2" (some 3), sink "A3" (some 4),
      sink "A4" (some 5), sink "A5" (some 6), sink "D" (some 7), source "O" (some 8),
      sink "WCLK" (some 9), sink "WE" (some 10)]
    params := [("INIT", { is_string := false, str := ['0', '1', '1', '0'], intval := 6 })] }

/-- Index `j` with every bit of the list cleared: `j AND NOT m` for the mask `m`
of the listed positions. -/
def clear_bits (j : Nat) (bits : List Nat) : Nat :=
  bits.foldr (fun i acc => clear_bit acc i) j

/-- A design holding the tied-low sample cell. -/
def tied_low_design : Packer :=
  { sample_packer with cells := [tied_low_cell], new_cells := [] }

/-- The primitive the RAM64X1S strategy makes for the memory cell `ci` in slot
`z` under the parent `parent`, in closed form. -/
def ram64_prim (s : Packer) (cs : DRAMControlSet) (ci : CellInfo) (clkinv : Bool) (z : Int)
    (parent : Option CellRef) : CellInfo :=
  let p := slice_lutx ci.name cs cs.wa (get_net_or_empty ci "D") (get_net_or_empty ci "O")
  { p with
    constr_abs_z := true
    constr_z := Int.lor (z * 2 ^ 4) s.BEL_6LUT
    constr_parent := parent
    params := match dict_find ci.params "INIT" with
      | some v => dict_set p.params "INIT" v
      | none => p.params
    attrs := if clkinv then dict_set p.attrs "CLK_STATUS" (Property.of_string "CLKINV")
      else p.attrs }

/-- The placement of a primitive is kept from `c` to `c1`, and `c1` has at least
the children of `c`. -/
def placed_as (c c1 : CellInfo) : Prop :=
  c1.constr_z = c.constr_z ∧ c1.constr_abs_z = c.constr_abs_z ∧
  c1.constr_parent = c.constr_parent ∧ c1.name = c.name ∧
  ∀ y, y ∈ c.constr_children → y ∈ c1.constr_children

/-- A RAM64X1S cell on the address nets n0..n5, with its data input, data output
and INIT given. -/
def ram64_cell (name : IdString) (d o : NetId) (init : Property) : CellInfo :=
  { create_cell "RAM64X1S" name with
    ports := [sink "A0" (some 2), sink "A1" (some 3), sink "A2" (some 4), sink "A3" (some 5),
      sink "A4" (some 6), sink "A5" (some 7), sink "D" (some d), source "O" (some o),
      sink "WCLK" (some 12), sink "WE" (some 13)]
    params := [("INIT", init)] }

/-- The control set of the sample RAM64X1S cells. -/
def shared_control : DRAMControlSet :=
  { wa := [some 2, some 3, some 4, some 5, some 6, some 7], wclk := some 12, we := some 13,
    wclk_inv := false, memtype := "RAM64X1S" }

/-- A design of two RAM64X1S cells with one control set. -/
def two_cell_design : Packer :=
  { sample_packer with
    cells := [ram64_cell "m0" 8 9 (Property.of_int 5 64), ram64_cell "m1" 10 11 (Property.of_int 9 64)]
    new_cells := [] }

/-- A design of one RAM64X1S cell. -/
def one_cell_design : Packer :=
  { sample_packer with cells := [ram64_cell "m0" 8 9 (Property.of_int 5 64)], new_cells := [] }

/-- The designs `s` and `t` have the same nets and as many live cells, and
differ at most in the live cell of index `j`. -/
def same_but (j : Nat) (s t : Packer) : Prop :=
  t.nets = s.nets ∧ t.cells.length = s.cells.length ∧
  ∀ i, i ≠ j → t.cells.get? i = s.cells.get? i

/-- A BUFG cell with its input on net n0 and its output on net n1. -/
def bufg_cell : CellInfo :=
  { create_cell "BUFG" "clkbuf" with ports := [sink "I" (some 2), source "O" (some 3)] }

/-- A design of one BUFG cell. -/
def bufg_design : Packer :=
  { sample_packer with cells := [bufg_cell], new_cells := [] }

/-- What the INIT split shows of a primitive: its name, its type and its INIT. -/
def init_view (c : CellInfo) : IdString × IdString × Option Property :=
  (c.name, c.type, dict_find c.params "INIT")

/-- A deep memory cell of the given type with its INIT. -/
def deep_cell (type name : IdString) (init : Property) : CellInfo :=
  { create_cell type name with
    ports := [sink "D" (some 9), source "O" (some 10), sink "WCLK" (some 12), sink "WE" (some 13)]
    params := [("INIT", init)] }

/-- A design of one deep memory cell. -/
def deep_design (type : IdString) (init : Property) : Packer :=
  { sample_packer with cells := [deep_cell type "deep" init], new_cells := [] }

/-- The control set of a deep memory with `n` address nets. -/
def deep_control (type : IdString) (n : Nat) : DRAMControlSet :=
  { wa := (List.range n).map (fun i => some (i + 2)), wclk := some 12, we := some 13,
    wclk_inv := false, memtype := type }

/-- A one-to-one table renames no port to a name it also renames, and sends no
two ports to one name. -/
def table_ok (T : List (IdString × IdString)) : Bool :=
  T.all (fun e => dict_find T e.2 == none && T.all (fun f => e.2 != f.2 || e.1 == f.1))

/-- Every rule of a table has a one-to-one part that is `table_ok`, and has
either no one-to-one part or no one-to-many part. -/
def rules_ok (rules : List (IdString × XFormRule)) : Bool :=
  rules.all (fun r => table_ok r.2.port_xform &&
    (r.2.port_multixform.isEmpty || r.2.port_xform.isEmpty))

/-- A RAMD64E cell as create_dram_lut wires it, port number `i` on net `i`. -/
def wired_ramd64e : CellInfo :=
  { create_cell "RAMD64E" "lut" with ports := tagged_ramd64e }

/-- The design holds no inverter cell: no INV and no LUT1. -/
def no_inverters (s : Packer) : Prop :=
  ∀ c ∈ s.cells, c.type ≠ "INV" ∧ c.type ≠ "LUT1"

/-- A clock multiplexer of the given type with its select input on the net
`sel`. -/
def mux_cell (type : IdString) (sel : NetId) : CellInfo :=
  { create_cell type "mux" with
    ports := [sink "I0" (some 4), sink "I1" (some 5), sink "S" (some sel), source "O" (some 6)] }

/-- An inverter from net n0 to net n1. -/
def inv_cell : CellInfo :=
  { create_cell "INV" "inv" with ports := [sink "I" (some 2), source "O" (some 3)] }

/-- A design of an inverter that drives the select input of a multiplexer. -/
def inverted_select_design (type : IdString) : Packer :=
  { sample_packer with cells := [inv_cell, mux_cell type 3], new_cells := [] }

/-- A design of one multiplexer with its select input on net n1. -/
def mux_design (type : IdString) : Packer :=
  { sample_packer with cells := [mux_cell type 3], new_cells := [] }

/-- A BUFGCE cell with its input on net n0, its enable on net n1 and its output
on net n2. -/
def bufgce_cell : CellInfo :=
  { create_cell "BUFGCE" "gate" with
    ports := [sink "I" (some 2), sink "CE" (some 3), source "O" (some 4)] }

/-- A design of one BUFGCE cell. -/
def bufgce_design : Packer :=
  { sample_packer with cells := [bufgce_cell], new_cells := [] }

/-- A simplified clock generator with two connected ports and a parameter. -/
def mmcm_base_cell : CellInfo :=
  { create_cell "MMCME2_BASE" "pll" with
    ports := [sink "CLKIN1" (some 2), source "CLKOUT0" (some 3), sink "CLKFBIN" (some 4)]
    params := [("CLKOUT0_DIVIDE", Property.of_int 4 32)] }

/-- A design of a simplified clock generator and a cell of a type that the
clocking pass does not know. -/
def upgrade_design : Packer :=
  { sample_packer with cells := [mmcm_base_cell, inv_cell], new_cells := [] }

/-- A full-featured clock generator with its feedback input on net n2, a divide
ratio set and no compensation mode given. -/
def mmcm_cell : CellInfo :=
  { create_cell "MMCME2_ADV" "mmcm" with
    ports := [sink "CLKIN1" (some 2), source "CLKOUT0" (some 3), sink "CLKFBIN" (some 4)]
    params := [("CLKOUT0_DIVIDE", Property.of_int 4 32)] }

/-- A PLL with its feedback input on net n2 and no parameter. -/
def pll_cell : CellInfo :=
  { create_cell "PLLE2_ADV" "pll" with
    ports := [sink "CLKIN1" (some 2), source "CLKOUT0" (some 3), sink "CLKFBIN" (some 4)] }

/-- A design of one clock generator and one PLL. -/
def pll_design : Packer :=
  { sample_packer with cells := [mmcm_cell, pll_cell], new_cells := [] }

/-- A device search that finds no location. -/
def no_hint : CellInfo → IdString → Option Property :=
  fun _ _ => none

/-! ## Relations between the states of pack_gt -/

/-- Whether the cell has a source port on the net. -/
def drives (net : NetId) (c : CellInfo) : Bool :=
  c.ports.any (fun p => p.2.type == PortType.PORT_OUT && p.2.net == some net)

/-- The relative row a buffer records, as pack_gt reads it. -/
def rel_buf_y (c : CellInfo) : Except String Int :=
  Property.as_int64 ((dict_find c.attrs "_REL_BUF_Y").getD Property.empty)

/-- The types of the cells pack_gt works on. -/
def gt_type (t : IdString) : Prop :=
  t = "GTPE2_COMMON" ∨ t = "GTXE2_COMMON" ∨ t = "GTPE2_CHANNEL" ∨ t = "GTXE2_CHANNEL"

/-- What pack_gt keeps of every cell: its type, the absence of a source port on a
net unless the cell is a transceiver cell, and the ports and the recorded row of
a buffer. -/
def gt_keeps (c d : CellInfo) : Prop :=
  d.type = c.type ∧ (∀ n, drives n d = true → drives n c = true ∨ gt_type c.type) ∧
  (c.type = "IBUFDS_GTE2" → d.ports = c.ports ∧ rel_buf_y d = rel_buf_y c)

def gt_le (s t : Packer) : Prop :=
  t.nets = s.nets ∧ t.cells.length = s.cells.length ∧
  ∀ i c, s.cells.get? i = some c → ∃ d, t.cells.get? i = some d ∧ gt_keeps c d

/-- Every cell but the one of index `j` and the buffers is the same. -/
def gt_frame (j : Nat) (s t : Packer) : Prop :=
  ∀ i c, i ≠ j → s.cells.get? i = some c → c.type ≠ "IBUFDS_GTE2" → t.cells.get? i = some c

/-- No IBUFDS_GTE2 cell has a source port on one of the two constant nets. -/
def refclk_buffers_ok (s : Packer) : Prop :=
  ∀ c ∈ s.cells, c.type = "IBUFDS_GTE2" → ∀ n, drives n c = true → port_used s (some n) = true

/-- A reference-clock buffer whose output is on net n0, bound to the relative
row `rel`. -/
def ibufds_cell (rel : Int) : CellInfo :=
  { create_cell "IBUFDS_GTE2" "refbuf" with
    ports := [source "O" (some 2)]
    attrs := [("_REL_BUF_Y", Property.of_int rel 32)] }

/-- A common cell with its first reference clock on net n0. -/
def gtp_common_cell : CellInfo :=
  { create_cell "GTPE2_COMMON" "common" with
    ports := [sink "GTREFCLK0" (some 2), source "PLL0OUTCLK" (some 3)] }

def gt_design (rel : Int) : Packer :=
  { sample_packer with cells := [ibufds_cell rel, gtp_common_cell], new_cells := [] }

/-- The parameter `key` of the cell is there and reads as true. -/
def refclk_true (c : CellInfo) (key : IdString) : Prop :=
  ∃ v, dict_find c.params key = some v ∧ v.intval = 1

/-- A second reference-clock buffer, on net n2. -/
def ibufds_cell2 (rel : Int) : CellInfo :=
  { create_cell "IBUFDS_GTE2" "refbuf2" with
    ports := [source "O" (some 4)]
    attrs := [("_REL_BUF_Y", Property.of_int rel 32)] }

/-- A common cell with its two reference clocks on the nets n0 and n2. -/
def gtp_common_two : CellInfo :=
  { create_cell "GTPE2_COMMON" "common" with
    ports := [sink "GTREFCLK0" (some 2), sink "GTREFCLK1" (some 4)] }

/-- A design of two buffers, in the rows `a` and `b`, and the common cell they
drive. -/
def gt_two_design (a b : Int) : Packer :=
  { sample_packer with
    cells := [ibufds_cell a, ibufds_cell2 b, gtp_common_two], new_cells := [] }

/-- A global buffer whose output is on net n0. -/
def bufgctrl_cell : CellInfo :=
  { create_cell "BUFGCTRL" "bufg" with
    ports := [sink "I0" (some 5), source "O" (some 2)] }

/-- A design where a global buffer drives the reference clock of a common cell. -/
def gt_internal_design : Packer :=
  { sample_packer with cells := [bufgctrl_cell, gtp_common_cell], new_cells := [] }

/-- A channel cell with a clock on the net the common cell drives, a clock on the
logic-0 net and a data input with an index. -/
def gtp_channel_cell : CellInfo :=
  { create_cell "GTPE2_CHANNEL" "channel" with
    ports := [sink "PLL0CLK" (some 3), sink "PLL1CLK" (some 0), sink "RXDATA[0]" (some 4)] }

def gt_channel_design : Packer :=
  { sample_packer with cells := [gtp_common_cell, gtp_channel_cell], new_cells := [] }

/-- A tile with two pad sites, in the rows 0 and 3, and two buffer sites. -/
def two_pad_tile : List SiteInstInfo :=
  [{ name := "IPAD_X1Y0", site_y := 0 }, { name := "IPAD_X1Y3", site_y := 3 },
   { name := "IBUFDS_GTE2_X0Y0", site_y := 0 }, { name := "IBUFDS_GTE2_X0Y1", site_y := 1 }]

/-- A tile with four pad sites, in the rows 0, 1, 2 and 5, and two buffer sites. -/
def sparse_pad_tile : List SiteInstInfo :=
  [{ name := "IPAD_X1Y0", site_y := 0 }, { name := "IPAD_X1Y1", site_y := 1 },
   { name := "IPAD_X1Y2", site_y := 2 }, { name := "IPAD_X1Y5", site_y := 5 },
   { name := "IBUFDS_GTE2_X0Y0", site_y := 0 }, { name := "IBUFDS_GTE2_X0Y1", site_y := 1 }]

/-- A tile with four pad sites, in the rows 0 to 3, and two buffer sites. -/
def gt_tile : List SiteInstInfo :=
  [{ name := "IPAD_X1Y0", site_y := 0 }, { name := "IPAD_X1Y1", site_y := 1 },
   { name := "IPAD_X1Y2", site_y := 2 }, { name := "IPAD_X1Y3", site_y := 3 },
   { name := "IBUFDS_GTE2_X0Y0", site_y := 0 }, { name := "IBUFDS_GTE2_X0Y1", site_y := 1 }]

/-- The number of pad sites of a tile. -/
def count_pads (tile : List SiteInstInfo) : Nat :=
  (tile.filter (fun site => starts_with site.name "IPAD_")).length

/-- A buffer cell that is not placed. -/
def free_buffer : CellInfo :=
  create_cell "IBUFDS_GTE2" "refbuf"

/-- Whether the write-address input and the read-address input of position `i`
are both on the logic-0 net. -/
def both_low (s : Packer) (dt : DRAMType) (ci : CellInfo) (i : Nat) : Bool :=
  on_gnd s (get_net_or_empty ci (addr_port dt.abits "A" i)) &&
    on_gnd s (get_net_or_empty ci (addr_port dt.abits "DPRA" i))

/-- A RAM64X1D cell whose position 0 has both address inputs on the logic-0 net
and whose position 1 has only the write-address input there. -/
def dual_low_cell : CellInfo :=
  { create_cell "RAM64X1D" "dual" with
    ports := [sink "A0" (some 0), sink "DPRA0" (some 0), sink "A1" (some 0),
      sink "DPRA1" (some 3), sink "A2" (some 4), sink "DPRA2" (some 5)]
    params := [("INIT", { is_string := false, str := ['0', '1', '1', '0'], intval := 6 })] }

def dual_low_design : Packer :=
  { sample_packer with cells := [dual_low_cell], new_cells := [] }

/-- A design of one RAM512X1S cell. -/
def ram512_design : Packer :=
  { sample_packer with cells := [create_cell "RAM512X1S" "big"], new_cells := [] }

/-! ## Reading the emitted memory network -/

/-- What a read of the network sees of a cell: its name, its type, its ports and
its INIT. -/
def read_view (c : CellInfo) :
    IdString × IdString × List (IdString × PortInfo) × Option Property :=
  (c.name, c.type, c.ports, dict_find c.params "INIT")

/-- A valuation of the nets agrees with a 64-row memory read as O6 = INIT[a],
a the number whose bit i is the value of the address pin A(i+1); a cell without
INIT or with one of these pins absent or unconnected constrains nothing. -/
def lut_reads (v : NetId → Bool) (ports : List (IdString × PortInfo)) (init : Option Property) :
    Bool :=
  match init, dict_find ports "A1", dict_find ports "A2", dict_find ports "A3",
    dict_find ports "A4", dict_find ports "A5", dict_find ports "A6", dict_find ports "O6" with
  | some p, some a1, some a2, some a3, some a4, some a5, some a6, some o =>
    match a1.net, a2.net, a3.net, a4.net, a5.net, a6.net, o.net with
    | some n1, some n2, some n3, some n4, some n5, some n6, some d =>
      v d == (p.str.getD (select_value v [n1, n2, n3, n4, n5, n6]) S0 == S1)
    | _, _, _, _, _, _, _ => true
  | _, _, _, _, _, _, _, _ => true

/-- A valuation agrees with one cell of the network, read as a memory or as a
mux. -/
def reads_ok (v : NetId → Bool)
    (w : IdString × IdString × List (IdString × PortInfo) × Option Property) : Bool :=
  lut_reads v w.2.2.1 w.2.2.2 && mux_reads v w.2.2.1

/-- A valuation agrees with every memory and every mux of a list of cells. -/
def memory_holds (v : NetId → Bool) (cells : List CellInfo) : Bool :=
  (cells.map read_view).all (reads_ok v)

/-- The value a memory with contents `init` holds at row `a`. -/
def init_bit (init : Property) (a : Nat) : Bool :=
  init.str.getD a S0 == S1

/-- A deep memory cell with its address ports connected: the write address A on
nets 2 to 9, the data input on 10, the outputs O and SPO on 11, DPO on 12, the
clock and the write enable on 13 and 14, the read address DPRA on nets 16 to
22. -/
def memory_cell (type : IdString) (init : Property) : CellInfo :=
  { create_cell type "mem" with
    ports := [sink "D" (some 10), source "O" (some 11), source "SPO" (some 11),
      source "DPO" (some 12), sink "WCLK" (some 13), sink "WE" (some 14),
      sink "A[0]" (some 2), sink "A[1]" (some 3), sink "A[2]" (some 4), sink "A[3]" (some 5),
      sink "A[4]" (some 6), sink "A[5]" (some 7), sink "A[6]" (some 8), sink "A[7]" (some 9),
      sink "DPRA[0]" (some 16), sink "DPRA[1]" (some 17), sink "DPRA[2]" (some 18),
      sink "DPRA[3]" (some 19), sink "DPRA[4]" (some 20), sink "DPRA[5]" (some 21),
      sink "DPRA[6]" (some 22)]
    params := [("INIT", init)] }

/-- A design of one such memory cell, over 32 nets. -/
def memory_design (type : IdString) (init : Property) : Packer :=
  { sample_packer with
    cells := [memory_cell type init]
    nets := [{ name := "$PACKER_GND_NET" }, { name := "$PACKER_VCC_NET" }] ++
      (List.range 30).map (fun i => { name := "n" ++ to_string i })
    new_cells := [] }

/-- The valuation that is true on the listed nets only. -/
def high_on (l : List NetId) (n : NetId) : Bool :=
  l.contains n

/-! ## Slots of the dual-port stacks -/

/-- What the placement shows of a primitive: its z constraint and its cluster
parent. -/
def slot_view (c : CellInfo) : Int × Option CellRef :=
  (c.constr_z, c.constr_parent)

/-- The z constraint create_dram_lut writes for slot `e.1`, with the parent
`e.2`. -/
def slot_code (bel : Int) (e : Int × Option CellRef) : Int × Option CellRef :=
  (Int.lor (e.1 * 2 ^ 4) bel, e.2)

/-- Between two states of the packer the pending buffer has grown by
primitives placed at the slots and under the parents listed in `N`, in creation
order, and the placement of the primitives that were there is kept. -/
def slots_added (s t : Packer) (N : List (Int × Option CellRef)) : Prop :=
  t.BEL_6LUT = s.BEL_6LUT ∧
  t.new_cells.map slot_view = s.new_cells.map slot_view ++ N.map (slot_code s.BEL_6LUT)

/-- One step of the check of a list of slots in creation order. The state is
the number of entries read and, once a base has been read, the index of the
latest base and the slot of the latest entry. An entry without parent must sit
at `h - 1` and opens a cluster; an entry with a parent must name the latest
base (entry `j` is the pending primitive `n0 + j`) and sit at a slot that is at
least 0 and strictly below the slot of the entry before it. -/
def cluster_step (h : Int) (n0 : Nat) (st : Option (Nat × Option (Nat × Int)))
    (e : Int × Option CellRef) : Option (Nat × Option (Nat × Int)) :=
  match st, e with
  | none, _ => none
  | some (i, _), (z, none) => if z = h - 1 then some (i + 1, some (i, z)) else none
  | some (_, none), (_, some _) => none
  | some (i, some (j, last)), (z, some b) =>
    if b = CellRef.pending (n0 + j) ∧ 0 ≤ z ∧ z < last then some (i + 1, some (j, z)) else none

def cluster_run (h : Int) (n0 : Nat) (N : List (Int × Option CellRef)) :
    Option (Nat × Option (Nat × Int)) :=
  N.foldl (cluster_step h n0) (some (0, none))

/-- The slots listed in `N`, in creation order, form clusters: every base sits
at `h - 1`, every other entry is a child of the latest base, and inside a
cluster the slots strictly decrease and stay at or above 0. -/
def stacked (h : Int) (n0 : Nat) (N : List (Int × Option CellRef)) : Bool :=
  (cluster_run h n0 N).isSome

/-- What one iteration of a dual-port group loop does to the stack: with `zs`
connected outputs it opens a base at `h - 1` when `z = h - 1` or
`z - zs + 1 < 0` and then places at most one child, at `h - 2`; otherwise it
places at most `zs` children under the current base, from `z` down. -/
def step_shape (h : Int) (n : Nat) (zs : Int) (loc loc1 : Stack)
    (N : List (Int × Option CellRef)) : Prop :=
  if loc.z = h - 1 ∨ loc.z - zs + 1 < 0 then
    loc1.base = some (CellRef.pending n) ∧
    ((N = [(h - 1, none)] ∧ loc1.z = h - 2) ∨
     (N = [(h - 1, none), (h - 2, some (CellRef.pending n))] ∧ loc1.z = h - 3))
  else
    loc1.base = loc.base ∧
    ((N = [] ∧ loc1.z = loc.z) ∨
     (N = [(loc.z, loc.base)] ∧ loc1.z = loc.z - 1 ∧ 1 ≤ zs) ∨
     (N = [(loc.z, loc.base), (loc.z - 1, loc.base)] ∧ loc1.z = loc.z - 2 ∧ 2 ≤ zs))

/-- The stack between two cells of a group, against the slots given so far:
before the first cell there is no base, `z = h - 1` and no slot is given;
afterwards the base is the latest base of the list and `z` is one below the
slot of the latest entry, between -1 and `h - 2`. -/
def stack_inv (h : Int) (n0 : Nat) (N : List (Int × Option CellRef)) (loc : Stack) : Prop :=
  (loc.base = none ∧ loc.z = h - 1 ∧ N = []) ∨
  (∃ j, loc.base = some (CellRef.pending (n0 + j)) ∧ -1 ≤ loc.z ∧ loc.z ≤ h - 2 ∧
    cluster_run h n0 N = some (N.length, some (j, loc.z + 1)))

/-- A RAM64X1D cell with its write address on nets 2 to 7, its read address on
nets 16 to 21 and its outputs on the given nets. -/
def dual_cell (name : IdString) (spo dpo : Option NetId) : CellInfo :=
  { create_cell "RAM64X1D" name with
    ports := [sink "D" (some 10), source "SPO" spo, source "DPO" dpo, sink "WCLK" (some 13),
      sink "WE" (some 14), sink "A0" (some 2), sink "A1" (some 3), sink "A2" (some 4),
      sink "A3" (some 5), sink "A4" (some 6), sink "A5" (some 7), sink "DPRA0" (some 16),
      sink "DPRA1" (some 17), sink "DPRA2" (some 18), sink "DPRA3" (some 19),
      sink "DPRA4" (some 20), sink "DPRA5" (some 21)]
    params := [("INIT", Property.of_int 6 64)] }

/-- A design of three RAM64X1D cells of one control set, each with both outputs
connected. -/
def dual_stack_design : Packer :=
  { sample_packer with
    cells := [dual_cell "m0" (some 11) (some 12), dual_cell "m1" (some 22) (some 23),
      dual_cell "m2" (some 24) (some 25)]
    nets := [{ name := "$PACKER_GND_NET" }, { name := "$PACKER_VCC_NET" }] ++
      (List.range 30).map (fun i => { name := "n" ++ to_string i })
    new_cells := [] }

/-- A RAM32X2S cell whose address input A0 is on the logic-0 net, with the
contents 0, 1, 0, 0, .. in INIT_00 and 1, 0, 0, 0, .. in INIT_01. -/
def wide_cell : CellInfo :=
  { create_cell "RAM32X2S" "wide" with
    ports := [sink "A0" (some 0), sink "A1" (some 3), sink "A2" (some 4), sink "A3" (some 5),
      sink "A4" (some 6), sink "D0" (some 7), sink "D1" (some 8), source "O0" (some 9),
      source "O1" (some 10), sink "WCLK" (some 12), sink "WE" (some 13)]
    params := [("INIT_00", Property.of_int 2 32), ("INIT_01", Property.of_int 1 32)] }

def wide_design : Packer :=
  { sample_packer with cells := [wide_cell], new_cells := [] }

/-- A design over 32 nets with the given cells and an empty pending buffer. -/
def dual_design (cells : List CellInfo) : Packer :=
  { sample_packer with
    cells := cells
    nets := [{ name := "$PACKER_GND_NET" }, { name := "$PACKER_VCC_NET" }] ++
      (List.range 30).map (fun i => { name := "n" ++ to_string i })
    new_cells := [] }

/-- A RAM32X1D cell with its write address on nets 2 to 6, its read address on
nets 16 to 20 and its outputs on the given nets. -/
def dual32_cell (name : IdString) (spo dpo : Option NetId) : CellInfo :=
  { create_cell "RAM32X1D" name with
    ports := [sink "D" (some 10), source "SPO" spo, source "DPO" dpo, sink "WCLK" (some 13),
      sink "WE" (some 14), sink "A0" (some 2), sink "A1" (some 3), sink "A2" (some 4),
      sink "A3" (some 5), sink "A4" (some 6), sink "DPRA0" (some 16),
      sink "DPRA1" (some 17), sink "DPRA2" (some 18), sink "DPRA3" (some 19),
      sink "DPRA4" (some 20)]
    params := [("INIT", Property.of_int 6 32)] }

/-- What the fold shows of a primitive: its name, the net on O6 and its parent. -/
def fold_view (c : CellInfo) : IdString × Option NetId × Option CellRef :=
  (c.name, get_net_or_empty c "O6", c.constr_parent)

/-- A common cell of the given type that drives net n1 from its output
PLL0OUTREFCLK. -/
def common_refout (type : IdString) : CellInfo :=
  { create_cell type "common" with ports := [source "PLL0OUTREFCLK" (some 3)] }

/-- A channel cell of the given type with its input PLL0CLK on net n1. -/
def channel_pll0clk (type : IdString) : CellInfo :=
  { create_cell type "channel" with ports := [sink "PLL0CLK" (some 3)] }

/-- A design where the output PLL0OUTREFCLK of a common cell drives the input
PLL0CLK of a channel cell. -/
def gt_crossed_design (common channel : IdString) : Packer :=
  { sample_packer with
    cells := [common_refout common, channel_pll0clk channel], new_cells := [] }

/-- A common cell of the given type with its reference clock GTREFCLK0 on the
given net. -/
def common_refclk0 (type : IdString) (net : Option NetId) : CellInfo :=
  { create_cell type "common" with ports := [sink "GTREFCLK0" net] }

/-- The cell that drives the logic-0 net. -/
def gnd_driver : CellInfo :=
  { create_cell "GND" "$PACKER_GND" with ports := [source "G" (some 0)] }

/-- A design of the driver of the logic-0 net and a common cell. -/
def gt_tied_design (type : IdString) (net : Option NetId) : Packer :=
  { sample_packer with cells := [gnd_driver, common_refclk0 type net], new_cells := [] }

/-- A design of a common cell alone. -/
def gt_lone_design (type : IdString) (net : Option NetId) : Packer :=
  { sample_packer with cells := [common_refclk0 type net], new_cells := [] }

/-- A buffer cell that drives net n0 and carries the given attributes. -/
def buffer_with (attrs : List (IdString × Property)) : CellInfo :=
  { create_cell "IBUFDS_GTE2" "refbuf" with
    ports := [source "O" (some 2)]
    attrs := attrs }

/-- A design of a buffer and the common cell whose GTREFCLK0 it drives. -/
def gt_buffer_design (buf : CellInfo) : Packer :=
  { sample_packer with cells := [buf, gtp_common_cell], new_cells := [] }

/-- The reference clock flags of the cell at index 1 of a design. -/
def refclk_flags (s : Packer) : Option (Option Property × Option Property) :=
  (s.cells.get? 1).map
    (fun c => (dict_find c.params "_GTREFCLK0_USED", dict_find c.params "_GTREFCLK1_USED"))

/-- The rows of the IBUFDS_GTE2 sites of a tile. -/
def buf_rows (tile : List SiteInstInfo) : List Int :=
  (tile.filter (fun site => starts_with site.name "IBUFDS_GTE2_")).map (fun site => site.site_y)

/-! ## Polarity of the select inputs -/

/-- The value an input with an inversion parameter takes from the value of its
net. -/
def effective (net_value : Bool) (inverted : Int) : Bool :=
  xor net_value (decide (inverted ≠ 0))

/-- The inversion parameters `a` (of input 0) and `b` (of input 1) of the cell
`c` against the inversion of the select input S recorded on the cell `c0`: with
an inversion, `a` is 0, `b` is 1 and IS_S_INVERTED is gone; without, `a` is 1
and `b` is 0; and for both values of the net, with `s` the value of the net
XOR the inversion, input 1 is enabled as `s` and input 0 as NOT `s`. -/
def select_polarity (c0 c : CellInfo) (a b : IdString) : Prop :=
  (int_or_default c0.params "IS_S_INVERTED" ≠ 0 →
    int_or_default c.params a = 0 ∧ int_or_default c.params b = 1 ∧
    dict_find c.params "IS_S_INVERTED" = none) ∧
  (int_or_default c0.params "IS_S_INVERTED" = 0 →
    int_or_default c.params a = 1 ∧ int_or_default c.params b = 0) ∧
  ∀ n : Bool,
    effective n (int_or_default c.params b) =
      xor n (decide (int_or_default c0.params "IS_S_INVERTED" ≠ 0)) ∧
    effective n (int_or_default c.params a) =
      !(xor n (decide (int_or_default c0.params "IS_S_INVERTED" ≠ 0)))

/-- A RAM32M cell with the ports of its bank A connected and INIT_A = 9: the
bits 0 and 3 of the bank are set. -/
def ram32m_cell : CellInfo :=
  { create_cell "RAM32M" "quad" with
    ports := [sink "ADDRA[0]" (some 2), sink "ADDRA[1]" (some 3), sink "ADDRA[2]" (some 4),
      sink "ADDRA[3]" (some 5), sink "ADDRA[4]" (some 6), sink "ADDRD[0]" (some 2),
      sink "ADDRD[1]" (some 3), sink "ADDRD[2]" (some 4), sink "ADDRD[3]" (some 5),
      sink "ADDRD[4]" (some 6), sink "DIA[0]" (some 7), sink "DIA[1]" (some 8),
      source "DOA[0]" (some 9), source "DOA[1]" (some 10), sink "WCLK" (some 12),
      sink "WE" (some 13)]
    params := [("INIT_A", Property.of_int 9 64)] }

def ram32m_design : Packer :=
  { sample_packer with cells := [ram32m_cell], new_cells := [] }

/-- What the RAM32M branch shows of a primitive: its name, the bits of its INIT,
the nets on O5 and O6 and its z constraint. -/
def bank_view (c : CellInfo) :
    IdString × Option String × Option NetId × Option NetId × Int :=
  (c.name, (dict_find c.params "INIT").map (fun p => String.mk p.str),
    get_net_or_empty c "O5", get_net_or_empty c "O6", c.constr_z)

/-! ## The inverter fold_inverter absorbs -/

/-- The input port fold_inverter reads on the driver of a net: I0 of a LUT1 with
INIT = 1, I of an INV, none on any other cell. -/
def inverter_input (drv : CellInfo) : Option IdString :=
  if drv.type = "LUT1" ∧ int_or_default drv.params "INIT" = 1 then some "I0"
  else if drv.type = "INV" then some "I"
  else none

/-- What fold_inverter makes of a port that is on `net` in state `s`: the net the
port ends on and whether an inversion was absorbed. The net is the one on the
input of the inverter when the driver of `net` is one, and `net` itself when the
port is unconnected, the net has no driver or the driver is no inverter. -/
def folded (s : Packer) (net : Option NetId) : Option NetId × Bool :=
  match net with
  | none => (none, false)
  | some n =>
    match driver_of s n with
    | none => (some n, false)
    | some drv =>
      match inverter_input drv.2 with
      | none => (some n, false)
      | some i => (get_net_or_empty drv.2 i, true)

/-- A design of an inverter from net n0 to net n1 that drives the enable of a
BUFGCE cell. -/
def inverted_enable_design : Packer :=
  { sample_packer with cells := [inv_cell, bufgce_cell], new_cells := [] }

/-- Whether the select input S of the cell is inverted after fold_inverter in
state `sa`: an inverter was absorbed, or the cell had IS_S_INVERTED non-zero and
none was absorbed. -/
def select_inverted (sa : Packer) (ci : CellInfo) : Bool :=
  (folded sa (get_net_or_empty ci "S")).2 ||
    decide (int_or_default ci.params "IS_S_INVERTED" ≠ 0)

/-- The inversion parameters `a` (of input 0) and `b` (of input 1) of the cell
`c` against the inversion `inv` of the select input: with an inversion, `a` is
0, `b` is 1 and IS_S_INVERTED is gone; without, `a` is 1 and `b` is 0; and for
both values of the net, with `s` the value of the net XOR the inversion, input 1
is enabled as `s` and input 0 as NOT `s`. -/
def select_split (inv : Bool) (c : CellInfo) (a b : IdString) : Prop :=
  (inv = true →
    int_or_default c.params a = 0 ∧ int_or_default c.params b = 1 ∧
    dict_find c.params "IS_S_INVERTED" = none) ∧
  (inv = false → int_or_default c.params a = 1 ∧ int_or_default c.params b = 0) ∧
  ∀ n : Bool,
    effective n (int_or_default c.params b) = xor n inv ∧
    effective n (int_or_default c.params a) = !(xor n inv)

/-! ## The INIT of the 32-deep memories -/

/-- The INIT a 32-deep strategy writes for the parameter `key` of a memory cell:
none when the cell has no such parameter, else the padding of its value. -/
def padded_init (ci : CellInfo) (key : IdString) : Option Property :=
  match dict_find ci.params key with
  | none => none
  | some p => (pad_init32 p).toOption

/-- The primitive the RAM32X1S strategy pushes for the live cell of index `i`:
its name, its type and its INIT. -/
def single32_view (cells : List CellInfo) (i : Nat) : IdString × IdString × Option Property :=
  match cells.get? i with
  | some ci => (ci.name, "SLICE_LUTX", padded_init ci "INIT")
  | none => ("", "", none)

/-- The two primitives the RAM32X2S strategy pushes for the live cell of index
`i`, one per output bit, with the INIT of INIT_00 and of INIT_01. -/
def double32_view (cells : List CellInfo) (i : Nat) :
    List (IdString × IdString × Option Property) :=
  match cells.get? i with
  | some ci =>
    [(ci.name ++ "/RAM32X1S0/SP", "SLICE_LUTX", padded_init ci "INIT_00"),
     (ci.name ++ "/RAM32X1S1/SP", "SLICE_LUTX", padded_init ci "INIT_01")]
  | none => []

/-- The primitives the RAM32X1D strategy pushes for a cell, with `nb` telling
whether the turn opens a new base: the base `/ADDR`, which takes SPO and the
INIT when SPO is connected; else `/SP` for a connected SPO; and `/DP` for a
connected DPO. -/
def dual32_view (nb : Bool) (ci : CellInfo) : List (IdString × IdString × Option Property) :=
  (if nb then
    [(ci.name ++ "/ADDR", "SLICE_LUTX",
      if get_net_or_empty ci "SPO" ≠ none then padded_init ci "INIT" else none)]
   else []) ++
  (if get_net_or_empty ci "SPO" ≠ none ∧ nb = false then
    [(ci.name ++ "/SP", "SLICE_LUTX", padded_init ci "INIT")]
   else []) ++
  (if get_net_or_empty ci "DPO" ≠ none then
    [(ci.name ++ "/DP", "SLICE_LUTX", padded_init ci "INIT")]
   else [])

/-- The primitives of the live cell of index `i` in the RAM32X1D strategy. -/
def dual32_views (cells : List CellInfo) (nb : Bool) (i : Nat) :
    List (IdString × IdString × Option Property) :=
  match cells.get? i with
  | some ci => dual32_view nb ci
  | none => []

/-! ## The primitives of a RAM32M cell -/

/-- What the later steps of the whole-slice loop leave alone on a primitive that
is already pushed: all but the cells constrained to it. -/
def primitive_view (c : CellInfo) :
    IdString × List (IdString × PortInfo) × List (IdString × Property) × Int × Bool :=
  (c.name, c.ports, c.params, c.constr_z, c.constr_abs_z)

/-- The interface of the primitive `c` pushed for output `j` of bank `i` of the
whole-slice cell `ci`: its name, its z constraint with the bels `b5` and `b6` of
the two LUT outputs, the net on its output and the bits of its INIT. -/
def ram32m_primitive (ci : CellInfo) (zoffset b5 b6 : Int) (i j : Nat) (c : CellInfo) : Prop :=
  c.name = ci.name ++ "/DPR" ++ to_string i ++ "_" ++ to_string j ∧
  c.constr_abs_z = true ∧
  c.constr_z = Int.lor ((zoffset + i) * 2 ^ 4) (if j = 0 then b5 else b6) ∧
  get_net_or_empty c (if j = 0 then "O5" else "O6") =
    get_net_or_empty ci ("DO" ++ bank_letter i ++ "[" ++ to_string j ++ "]") ∧
  ∀ P, dict_find ci.params ("INIT_" ++ bank_letter i) = some P →
    ∃ init, dict_find c.params "INIT" = some init ∧ init.str.length = 32 ∧
      ∀ k, k < 32 → init_bit init k = init_bit P (2 * k + j)

/-! ## A channel cell with a bus port -/

/-- A common cell that drives net n1 from its output PLL0OUTCLK. -/
def common_pllout : CellInfo :=
  { create_cell "GTPE2_COMMON" "common" with ports := [source "PLL0OUTCLK" (some 3)] }

/-- A channel cell with its clock PLL0CLK on the net the common cell drives and
bit 0 of a data bus on net n2; `bus_first` puts the bus port first in the order
of the port map. -/
def channel_bus_cell (bus_first : Bool) : CellInfo :=
  { create_cell "GTPE2_CHANNEL" "channel" with
    ports :=
      if bus_first then [sink "TXDATA[0]" (some 4), sink "PLL0CLK" (some 3)]
      else [sink "PLL0CLK" (some 3), sink "TXDATA[0]" (some 4)] }

/-- A design of a common cell and the channel cell it clocks. -/
def gt_bus_design (bus_first : Bool) : Packer :=
  { sample_packer with cells := [common_pllout, channel_bus_cell bus_first], new_cells := [] }

/-! ## Theorems -/

theorem muxf_wire_ok (t nm : IdString) (last select : List (Option NetId)) (i j : Nat)
    (a b sl o : Option NetId)
    (ht : t = "MUXF7" ∨ t = "MUXF8" ∨ t = "MUXF9")
    (ha : last.get? (j * 2) = some a) (hb1 : last.get? (j * 2 + 1) = some b)
    (hs : select.get? i = some sl) :
    muxf_wire (create_cell t nm) last select i j o = .ok (muxf_prim t nm a b sl o) := by
  unfold muxf_wire
  simp only [vec_at, ha, hb1, hs, bind, Except.bind, pure, Except.pure]
  rcases ht with h | h | h <;> subst h <;> cases a <;> cases b <;> cases sl <;> cases o <;> rfl

theorem muxf_cell_ok (base : Option CellRef) (bc : CellInfo) (nb : String) (levels i : Nat)
    (t : IdString) (last select : List (Option NetId)) (out : Option NetId) (j : Nat)
    (st : MuxfLoop) (a b sl : Option NetId)
    (ht : t = "MUXF7" ∨ t = "MUXF8" ∨ t = "MUXF9")
    (hb : deref st.s base = .ok bc)
    (ha : last.get? (j * 2) = some a) (hb1 : last.get? (j * 2 + 1) = some b)
    (hs : select.get? i = some sl) :
    muxf_cell base nb levels i t last select out j st =
      .ok (if i = levels - 1 then after_root st bc nb t i j a b sl out
           else after_inner st bc nb t i j a b sl) := by
  unfold muxf_cell
  simp only [hb, muxf_wire_ok t _ last select i j a b sl _ ht ha hb1 hs, bind, Except.bind, pure,
    Except.pure, create_internal_net, Bool.false_eq_true, if_false]
  split_ifs with hi <;> rfl



theorem get_cell_extend (s : Packer) (r : CellRef) (bc : CellInfo) (h : get_cell s r = some bc)
    (extra : List CellInfo) (nets : List NetInfo) :
    get_cell { s with new_cells := s.new_cells ++ extra, nets := nets } r = some bc := by
  cases r with
  | live i => simpa [get_cell] using h
  | pending i =>
    simp only [get_cell, List.get?_eq_getElem?] at h ⊢
    have hi : i < s.new_cells.length := by
      by_contra hc
      rw [List.getElem?_eq_none (by omega)] at h
      cases h
    rw [List.getElem?_append_left hi]
    exact h

theorem deref_extend (s : Packer) (r : CellRef) (bc : CellInfo) (h : get_cell s r = some bc)
    (extra : List CellInfo) (nets : List NetInfo) :
    deref { s with new_cells := s.new_cells ++ extra, nets := nets } (some r) = .ok bc := by
  simp only [deref, get_cell_extend s r bc h extra nets]
  rfl

set_option maxHeartbeats 2000000 in
theorem muxf_build_two (s : Packer) (base : CellRef) (bc : CellInfo) (hb : get_cell s base = some bc)
    (nb : String) (d0 d1 s0 out : Option NetId) :
    muxf_build (some base) nb [d0, d1] [s0] out s =
      .ok { s := { s with new_cells := s.new_cells ++
                    [muxf_prim "MUXF7" (muxf_name bc nb 0 0) d0 d1 s0 out] }
            int_data := [[d0, d1], [out]]
            mux_root := some (CellRef.pending s.new_cells.length) } := by
  have h0 : deref s (some base) = .ok bc := by simp [deref, hb]; rfl
  simp [muxf_build, muxf_levels, muxf_loop, muxf_level, muxf_type, vec_at, muxf_cells,
    bind, Except.bind, pure, Except.pure]
  rw [muxf_cell_ok (some base) bc nb 1 0 "MUXF7" [d0, d1] [s0] out 0 _ d0 d1 s0 (by simp) h0 (by simp) (by simp) (by simp)]
  simp [after_root, push_back_last, muxf_name]

set_option maxHeartbeats 2000000 in
theorem muxf_build_four (s : Packer) (base : CellRef) (bc : CellInfo) (hb : get_cell s base = some bc)
    (nb : String) (d0 d1 d2 d3 s0 s1 out : Option NetId) :
    muxf_build (some base) nb [d0, d1, d2, d3] [s0, s1] out s =
      .ok { s := { s with
                   nets := s.nets ++ [muxq_net bc nb 0 0, muxq_net bc nb 0 1]
                   new_cells := s.new_cells ++
                    [muxf_prim "MUXF7" (muxf_name bc nb 0 0) d0 d1 s0 (some s.nets.length),
                     muxf_prim "MUXF7" (muxf_name bc nb 0 1) d2 d3 s0 (some (s.nets.length + 1)),
                     muxf_prim "MUXF8" (muxf_name bc nb 1 0) (some s.nets.length) (some (s.nets.length + 1)) s1 out] }
            int_data := [[d0, d1, d2, d3], [some s.nets.length, some (s.nets.length + 1)], [out]]
            mux_root := some (CellRef.pending (s.new_cells.length + 2)) } := by
  have h0 : deref s (some base) = .ok bc := by simp [deref, hb]; rfl
  have hd := deref_extend s base bc hb
  simp [muxf_build, muxf_levels, muxf_loop, muxf_level, muxf_type, vec_at, muxf_cells,
    bind, Except.bind, pure, Except.pure]
  rw [muxf_cell_ok (some base) bc nb 2 0 "MUXF7" [d0, d1, d2, d3] [s0, s1] out 0 _ d0 d1 s0 (by simp) h0 (by simp) (by simp) (by simp)]
  simp only [after_inner, if_neg, Nat.reduceSub, OfNat.zero_ne_ofNat, if_false]
  rw [muxf_cell_ok (some base) bc nb 2 0 "MUXF7" [d0, d1, d2, d3] [s0, s1] out 1 _ d2 d3 s0 (by simp) (hd _ _) (by simp) (by simp) (by simp)]
  simp [after_inner, push_back_last, muxf_cells, bind, Except.bind, pure, Except.pure]
  rw [muxf_cell_ok (some base) bc nb 2 1 "MUXF8" _ [s0, s1] out 0 _ (some s.nets.length) (some (s.nets.length + 1)) s1 (by simp) (by simpa using hd _ _) (by simp) (by simp) (by simp)]
  simp [after_root, push_back_last, muxf_name, muxq_net]


set_option maxHeartbeats 4000000 in
theorem muxf_build_eight (s : Packer) (base : CellRef) (bc : CellInfo)
    (hb : get_cell s base = some bc) (nb : String)
    (d0 d1 d2 d3 d4 d5 d6 d7 s0 s1 s2 out : Option NetId) :
    muxf_build (some base) nb [d0, d1, d2, d3, d4, d5, d6, d7] [s0, s1, s2] out s =
      .ok { s := { s with
                   nets := s.nets ++ [muxq_net bc nb 0 0, muxq_net bc nb 0 1, muxq_net bc nb 0 2,
                     muxq_net bc nb 0 3, muxq_net bc nb 1 0, muxq_net bc nb 1 1]
                   new_cells := s.new_cells ++
                    [muxf_prim "MUXF7" (muxf_name bc nb 0 0) d0 d1 s0 (some s.nets.length),
                     muxf_prim "MUXF7" (muxf_name bc nb 0 1) d2 d3 s0 (some (s.nets.length + 1)),
                     muxf_prim "MUXF7" (muxf_name bc nb 0 2) d4 d5 s0 (some (s.nets.length + 2)),
                     muxf_prim "MUXF7" (muxf_name bc nb 0 3) d6 d7 s0 (some (s.nets.length + 3)),
                     muxf_prim "MUXF8" (muxf_name bc nb 1 0) (some s.nets.length)
                       (some (s.nets.length + 1)) s1 (some (s.nets.length + 4)),
                     muxf_prim "MUXF8" (muxf_name bc nb 1 1) (some (s.nets.length + 2))
                       (some (s.nets.length + 3)) s1 (some (s.nets.length + 5)),
                     muxf_prim "MUXF9" (muxf_name bc nb 2 0) (some (s.nets.length + 4))
                       (some (s.nets.length + 5)) s2 out] }
            int_data := [[d0, d1, d2, d3, d4, d5, d6, d7],
              [some s.nets.length, some (s.nets.length + 1), some (s.nets.length + 2),
               some (s.nets.length + 3)],
              [some (s.nets.length + 4), some (s.nets.length + 5)], [out]]
            mux_root := some (CellRef.pending (s.new_cells.length + 6)) } := by
  have h0 : deref s (some base) = .ok bc := by simp [deref, hb]; rfl
  have hd := deref_extend s base bc hb
  simp [muxf_build, muxf_levels, muxf_loop, muxf_level, muxf_type, vec_at, muxf_cells,
    bind, Except.bind, pure, Except.pure]
  rw [muxf_cell_ok (some base) bc nb 3 0 "MUXF7" _ [s0, s1, s2] out 0 _ d0 d1 s0
    (by simp) h0 (by simp) (by simp) (by simp)]
  simp only [after_inner, if_neg, Nat.reduceSub, OfNat.zero_ne_ofNat, if_false]
  rw [muxf_cell_ok (some base) bc nb 3 0 "MUXF7" _ [s0, s1, s2] out 1 _ d2 d3 s0
    (by simp) (hd _ _) (by simp) (by simp) (by simp)]
  simp [after_inner, push_back_last, muxf_cells, bind, Except.bind, pure, Except.pure]
  rw [muxf_cell_ok (some base) bc nb 3 0 "MUXF7" _ [s0, s1, s2] out 2 _ d4 d5 s0
    (by simp) (by simpa using hd _ _) (by simp) (by simp) (by simp)]
  simp [after_inner, push_back_last, muxf_cells, bind, Except.bind, pure, Except.pure]
  rw [muxf_cell_ok (some base) bc nb 3 0 "MUXF7" _ [s0, s1, s2] out 3 _ d6 d7 s0
    (by simp) (by simpa using hd _ _) (by simp) (by simp) (by simp)]
  simp [after_inner, push_back_last, muxf_cells, bind, Except.bind, pure, Except.pure]
  rw [muxf_cell_ok (some base) bc nb 3 1 "MUXF8" _ [s0, s1, s2] out 0 _ (some s.nets.length)
    (some (s.nets.length + 1)) s1 (by simp) (by simpa using hd _ _) (by simp) (by simp) (by simp)]
  simp [after_inner, push_back_last, muxf_cells, bind, Except.bind, pure, Except.pure]
  rw [muxf_cell_ok (some base) bc nb 3 1 "MUXF8" _ [s0, s1, s2] out 1 _ (some (s.nets.length + 2))
    (some (s.nets.length + 3)) s1 (by simp) (by simpa using hd _ _) (by simp) (by simp) (by simp)]
  simp [after_inner, push_back_last, muxf_cells, bind, Except.bind, pure, Except.pure]
  rw [muxf_cell_ok (some base) bc nb 3 2 "MUXF9" _ [s0, s1, s2] out 0 _ (some (s.nets.length + 4))
    (some (s.nets.length + 5)) s2 (by simp) (by simpa using hd _ _) (by simp) (by simp) (by simp)]
  simp [after_root, push_back_last, muxf_name, muxq_net]

/-! ### constrain_muxf_tree leaves the netlist view alone -/

theorem map_set_same {α β : Type} (g : α → β) (l : List α) (i : Nat) (c c1 : α)
    (h : l.get? i = some c) (hg : g c1 = g c) : (l.set i c1).map g = l.map g := by
  apply List.ext_getElem?
  intro k
  simp only [List.getElem?_map, List.getElem?_set, List.get?_eq_getElem?] at h ⊢
  by_cases hik : i = k
  · subst hik
    have hi : i < l.length := by
      by_contra hc
      rw [List.getElem?_eq_none (by omega)] at h
      cases h
    simp [hi, h, hg]
  · simp [hik]

theorem modify_cell_view (s : Packer) (r : CellRef) (c : CellInfo) (f : CellInfo → CellInfo)
    (h : get_cell s r = some c) (hf : cell_view (f c) = cell_view c) :
    ∃ s1, modify_cell s r f = .ok s1 ∧ s1.nets = s.nets ∧
      s1.new_cells.map cell_view = s.new_cells.map cell_view ∧
      s1.cells.map cell_view = s.cells.map cell_view ∧
      s1.new_cells.length = s.new_cells.length ∧ s1.cells.length = s.cells.length := by
  refine ⟨set_cell s r (f c), ?_, ?_⟩
  · simp only [modify_cell, h]
    rfl
  · cases r with
    | live i =>
      simp only [get_cell] at h
      simp [set_cell, map_set_same cell_view s.cells i c (f c) h hf]
    | pending i =>
      simp only [get_cell] at h
      simp [set_cell, map_set_same cell_view s.new_cells i c (f c) h hf]

theorem get_cell_of_length (s s1 : Packer) (r : CellRef) (c : CellInfo)
    (h : get_cell s r = some c) (h1 : s1.new_cells.length = s.new_cells.length)
    (h2 : s1.cells.length = s.cells.length) : ∃ c1, get_cell s1 r = some c1 := by
  cases r with
  | live i =>
    simp only [get_cell, List.get?_eq_getElem?] at h ⊢
    have hi : i < s.cells.length := by
      by_contra hc
      rw [List.getElem?_eq_none (by omega)] at h
      cases h
    exact ⟨s1.cells[i], List.getElem?_eq_getElem (by omega)⟩
  | pending i =>
    simp only [get_cell, List.get?_eq_getElem?] at h ⊢
    have hi : i < s.new_cells.length := by
      by_contra hc
      rw [List.getElem?_eq_none (by omega)] at h
      cases h
    exact ⟨s1.new_cells[i], List.getElem?_eq_getElem (by omega)⟩

theorem constrain_muxf_tree_view (s : Packer) (r b : CellRef) (rc bc : CellInfo) (z : Int)
    (hr : get_cell s r = some rc) (hb : get_cell s b = some bc) :
    ∃ s1, constrain_muxf_tree (some r) (some b) z s = .ok s1 ∧ s1.nets = s.nets ∧
      s1.new_cells.map cell_view = s.new_cells.map cell_view ∧
      s1.cells.map cell_view = s.cells.map cell_view := by
  unfold constrain_muxf_tree
  by_cases hrb : r = b
  · simp only [hrb, if_true]
    exact ⟨s, rfl, rfl, rfl, rfl⟩
  · simp only [hrb, if_false]
    obtain ⟨s1, e1, n1, v1, w1, l1, m1⟩ := modify_cell_view s r rc
      (fun c => { c with constr_parent := some b, constr_x := 0, constr_y := 0, constr_z := z })
      hr rfl
    obtain ⟨bc1, hb1⟩ := get_cell_of_length s s1 b bc hb l1 m1
    obtain ⟨s2, e2, n2, v2, w2, _, _⟩ := modify_cell_view s1 b bc1
      (fun c => { c with constr_children := c.constr_children ++ [r] }) hb1 rfl
    refine ⟨s2, ?_, by rw [n2, n1], by rw [v2, v1], by rw [w2, w1]⟩
    simp only [bind, Except.bind, e1, e2]

theorem network_holds_view (v : NetId → Bool) (l1 l2 : List CellInfo)
    (h : l1.map cell_view = l2.map cell_view) : network_holds v l1 = network_holds v l2 := by
  have key : ∀ l : List CellInfo,
      network_holds v l = (l.map cell_view).all (fun w => mux_reads v w.2.2.1) := by
    intro l
    induction l with
    | nil => rfl
    | cons c cs ih =>
      simp only [network_holds, List.all_cons, List.map_cons] at ih ⊢
      rw [ih]
      rfl
  rw [key, key, h]

/-- The whole of create_muxf_tree in terms of its loops: the emitted cells keep
their netlist view through constrain_muxf_tree. -/
theorem create_muxf_tree_view (s : Packer) (base : CellRef) (bc : CellInfo) (nb : String)
    (data select : List (Option NetId)) (out : Option NetId) (zoffset : Int) (st : MuxfLoop)
    (emitted : List CellInfo) (k : Nat)
    (hbs : get_cell st.s base = some bc)
    (hbuild : muxf_build (some base) nb data select out s = .ok st)
    (hcells : st.s.new_cells = s.new_cells ++ emitted)
    (hroot : st.mux_root = some (CellRef.pending (s.new_cells.length + k)))
    (hk : k < emitted.length) :
    ∃ s1, create_muxf_tree (some base) nb data select out zoffset s = .ok s1 ∧
      s1.nets = st.s.nets ∧
      (s1.new_cells.drop s.new_cells.length).map cell_view = emitted.map cell_view := by
  have hr : get_cell st.s (CellRef.pending (s.new_cells.length + k)) = some (emitted.get ⟨k, hk⟩) := by
    simp only [get_cell, hcells, List.get?_eq_getElem?]
    rw [List.getElem?_append_right (by omega)]
    simp [List.getElem?_eq_getElem hk]
  obtain ⟨s1, e1, n1, v1, _⟩ := constrain_muxf_tree_view st.s _ base _ bc zoffset hr hbs
  refine ⟨s1, ?_, n1, ?_⟩
  · simp only [create_muxf_tree, hbuild, bind, Except.bind, hroot, e1]
  · rw [List.map_drop, v1, ← List.map_drop, hcells, List.drop_left]

theorem length_succ_split {α : Type} (l : List α) (n : Nat) (h : l.length = n + 1) :
    ∃ a t, l = a :: t ∧ t.length = n := by
  cases l with
  | nil => cases h
  | cons a t => exact ⟨a, t, rfl, by simpa using h⟩

theorem length_two_split {α : Type} (l : List α) (h : l.length = 2) : ∃ a b, l = [a, b] := by
  obtain ⟨a, t, rfl, h1⟩ := length_succ_split l 1 h
  obtain ⟨b, t, rfl, h2⟩ := length_succ_split t 0 h1
  exact ⟨a, b, by rw [List.length_eq_zero.mp h2]⟩

theorem length_four_split {α : Type} (l : List α) (h : l.length = 4) :
    ∃ a b c d, l = [a, b, c, d] := by
  obtain ⟨a, t, rfl, h1⟩ := length_succ_split l 3 h
  obtain ⟨b, t, rfl, h2⟩ := length_succ_split t 2 h1
  obtain ⟨c, d, rfl⟩ := length_two_split t h2
  exact ⟨a, b, c, d, rfl⟩

theorem length_eight_split {α : Type} (l : List α) (h : l.length = 8) :
    ∃ a b c d e f g k, l = [a, b, c, d, e, f, g, k] := by
  obtain ⟨a, t, rfl, h1⟩ := length_succ_split l 7 h
  obtain ⟨b, t, rfl, h2⟩ := length_succ_split t 6 h1
  obtain ⟨c, t, rfl, h3⟩ := length_succ_split t 5 h2
  obtain ⟨d, t, rfl, h4⟩ := length_succ_split t 4 h3
  obtain ⟨e, f, g, k, rfl⟩ := length_four_split t h4
  exact ⟨a, b, c, d, e, f, g, k, rfl⟩

theorem length_one_split {α : Type} (l : List α) (h : l.length = 1) : ∃ a, l = [a] := by
  obtain ⟨a, t, rfl, h1⟩ := length_succ_split l 0 h
  exact ⟨a, by rw [List.length_eq_zero.mp h1]⟩

theorem length_three_split {α : Type} (l : List α) (h : l.length = 3) :
    ∃ a b c, l = [a, b, c] := by
  obtain ⟨a, t, rfl, h1⟩ := length_succ_split l 2 h
  obtain ⟨b, c, rfl⟩ := length_two_split t h1
  exact ⟨a, b, c, rfl⟩

/-- The shapes of the data and select lists of a supported tree. -/
theorem muxf_shapes {α β : Type} (data : List α) (select : List β)
    (hN : data.length = 2 ∨ data.length = 4 ∨ data.length = 8)
    (hS : 2 ^ select.length = data.length) :
    (∃ d0 d1 s0, data = [d0, d1] ∧ select = [s0]) ∨
    (∃ d0 d1 d2 d3 s0 s1, data = [d0, d1, d2, d3] ∧ select = [s0, s1]) ∨
    (∃ d0 d1 d2 d3 d4 d5 d6 d7 s0 s1 s2,
      data = [d0, d1, d2, d3, d4, d5, d6, d7] ∧ select = [s0, s1, s2]) := by
  rcases hN with h | h | h
  · left
    have hl : select.length = 1 :=
      Nat.pow_right_injective (le_refl 2) (hS.trans (by rw [h]))
    obtain ⟨d0, d1, rfl⟩ := length_two_split data h
    obtain ⟨s0, rfl⟩ := length_one_split select hl
    exact ⟨d0, d1, s0, rfl, rfl⟩
  · right; left
    have hl : select.length = 2 :=
      Nat.pow_right_injective (le_refl 2) (hS.trans (by rw [h]))
    obtain ⟨d0, d1, d2, d3, rfl⟩ := length_four_split data h
    obtain ⟨s0, s1, rfl⟩ := length_two_split select hl
    exact ⟨d0, d1, d2, d3, s0, s1, rfl, rfl⟩
  · right; right
    have hl : select.length = 3 :=
      Nat.pow_right_injective (le_refl 2) (hS.trans (by rw [h]))
    obtain ⟨d0, d1, d2, d3, d4, d5, d6, d7, rfl⟩ := length_eight_split data h
    obtain ⟨s0, s1, s2, rfl⟩ := length_three_split select hl
    exact ⟨d0, d1, d2, d3, d4, d5, d6, d7, s0, s1, s2, rfl, rfl⟩

set_option maxHeartbeats 4000000 in
/-- C1: for 2, 4 or 8 data nets and log2 as many select nets, create_muxf_tree
succeeds, and under every valuation of the nets that agrees with each emitted
mux (O = I0 when S = 0, O = I1 when S = 1) the net `out` carries the value of
`data[k]`, `k` being the number whose bit `i` is the value of `select[i]`. -/
theorem create_muxf_tree_selects (s : Packer) (base : CellRef) (bc : CellInfo) (nb : String)
    (data select : List NetId) (out : NetId) (zoffset : Int)
    (hb : get_cell s base = some bc)
    (hN : data.length = 2 ∨ data.length = 4 ∨ data.length = 8)
    (hS : 2 ^ select.length = data.length) :
    ∃ r, create_muxf_tree (some base) nb (data.map some) (select.map some) (some out)
        zoffset s = .ok r ∧
      ∀ v : NetId → Bool, network_holds v (r.new_cells.drop s.new_cells.length) = true →
        (data.get? (select_value v select)).map v = some (v out) := by
  rcases muxf_shapes data select hN hS with
    ⟨d0, d1, s0, rfl, rfl⟩ | ⟨d0, d1, d2, d3, s0, s1, rfl, rfl⟩ |
    ⟨d0, d1, d2, d3, d4, d5, d6, d7, s0, s1, s2, rfl, rfl⟩
  · have hbuild := muxf_build_two s base bc hb nb (some d0) (some d1) (some s0) (some out)
    obtain ⟨r, er, _, v1⟩ := create_muxf_tree_view s base bc nb _ _ _ zoffset _ _ 0
      (get_cell_extend s base bc hb _ _) hbuild rfl rfl (by simp)
    refine ⟨r, er, ?_⟩
    intro v hv
    rw [network_holds_view v _ _ v1] at hv
    simp [network_holds, mux_holds, mux_reads, muxf_prim, dict_find, create_cell] at hv
    cases h0 : v s0 <;> simp [select_value, h0, hv]
  · have hbuild := muxf_build_four s base bc hb nb (some d0) (some d1) (some d2) (some d3)
      (some s0) (some s1) (some out)
    obtain ⟨r, er, _, v1⟩ := create_muxf_tree_view s base bc nb _ _ _ zoffset _ _ 2
      (get_cell_extend s base bc hb _ _) hbuild rfl rfl (by simp)
    refine ⟨r, er, ?_⟩
    intro v hv
    rw [network_holds_view v _ _ v1] at hv
    simp [network_holds, mux_holds, mux_reads, muxf_prim, dict_find, create_cell] at hv
    obtain ⟨e0, e1, e2⟩ := hv
    cases h0 : v s0 <;> cases h1 : v s1 <;> simp_all [select_value]
  · have hbuild := muxf_build_eight s base bc hb nb (some d0) (some d1) (some d2) (some d3)
      (some d4) (some d5) (some d6) (some d7) (some s0) (some s1) (some s2) (some out)
    obtain ⟨r, er, _, v1⟩ := create_muxf_tree_view s base bc nb _ _ _ zoffset _ _ 6
      (get_cell_extend s base bc hb _ _) hbuild rfl rfl (by simp)
    refine ⟨r, er, ?_⟩
    intro v hv
    rw [network_holds_view v _ _ v1] at hv
    simp [network_holds, mux_holds, mux_reads, muxf_prim, dict_find, create_cell] at hv
    obtain ⟨e0, e1, e2, e3, e4, e5, e6⟩ := hv
    cases h0 : v s0 <;> cases h1 : v s1 <;> cases h2 : v s2 <;> simp_all [select_value]

theorem view_fields (c d : CellInfo) (h : cell_view c = cell_view d) :
    c.type = d.type ∧ c.name = d.name ∧ ∀ p, get_net_or_empty c p = get_net_or_empty d p := by
  simp only [cell_view, Prod.mk.injEq] at h
  obtain ⟨h1, h2, h3, _, _⟩ := h
  exact ⟨h2, h1, fun p => by simp only [get_net_or_empty, h3]⟩

/-- The cells of the pending buffer behind position `n`, read through their view. -/
theorem emitted_get (l emitted : List CellInfo) (n k : Nat)
    (h : (l.drop n).map cell_view = emitted.map cell_view) (hk : k < emitted.length) :
    ∃ c, l.get? (n + k) = some c ∧ cell_view c = cell_view (emitted.get ⟨k, hk⟩) := by
  have hlen : (l.drop n).length = emitted.length := by
    simpa using congrArg List.length h
  have hk1 : k < (l.drop n).length := by omega
  have hk2 : n + k < l.length := by
    rw [List.length_drop] at hk1
    omega
  refine ⟨l.get ⟨n + k, hk2⟩, by simp [List.getElem?_eq_getElem hk2], ?_⟩
  have h1 := congrArg (fun m => m.get? k) h
  simp only [List.get?_eq_getElem?, List.getElem?_map, List.getElem?_drop] at h1
  rw [List.getElem?_eq_getElem hk2, List.getElem?_eq_getElem hk] at h1
  simpa using h1

theorem emitted_length (l emitted : List CellInfo) (n : Nat)
    (h : (l.drop n).map cell_view = emitted.map cell_view) (hk : 0 < emitted.length) :
    l.length = n + emitted.length := by
  have hlen : (l.drop n).length = emitted.length := by
    simpa using congrArg List.length h
  rw [List.length_drop] at hlen
  omega

set_option maxHeartbeats 4000000 in
/-- C2: for 2, 4 or 8 data nets create_muxf_tree appends exactly N-1 cells to the
pending buffer; level `i` contributes the `N / 2^(i+1)` cells behind the
`N - N / 2^i` cells of the lower levels, of type MUXF7, MUXF8, MUXF9 for level
0, 1, 2, each with S on `select[i]`; the single cell of the last level has O on
`out`, and cell number `k` of every other level has O on the net of index
`s.nets.length + k`, one of the `N - 2` nets appended to the net arena: created
by this call and different for different cells. -/
theorem create_muxf_tree_cells (s : Packer) (base : CellRef) (bc : CellInfo) (nb : String)
    (data select : List NetId) (out : NetId) (zoffset : Int)
    (hb : get_cell s base = some bc)
    (hN : data.length = 2 ∨ data.length = 4 ∨ data.length = 8)
    (hS : 2 ^ select.length = data.length) :
    ∃ r, create_muxf_tree (some base) nb (data.map some) (select.map some) (some out)
        zoffset s = .ok r ∧
      r.new_cells.length = s.new_cells.length + (data.length - 1) ∧
      r.nets.length = s.nets.length + (data.length - 2) ∧
      r.nets.take s.nets.length = s.nets ∧
      (∀ i j, i < select.length → j < data.length / 2 ^ (i + 1) →
        ∃ c, r.new_cells.get? (s.new_cells.length + (data.length - data.length / 2 ^ i) + j)
            = some c ∧
          muxf_type i = .ok c.type ∧
          get_net_or_empty c "S" = select.get? i ∧
          get_net_or_empty c "O" =
            (if i + 1 = select.length then some out
             else some (s.nets.length + (data.length - data.length / 2 ^ i) + j))) ∧
      (∀ k, k + 2 < data.length + 1 →
        ∃ c, r.new_cells.get? (s.new_cells.length + k) = some c ∧
          get_net_or_empty c "O" =
            (if k + 2 = data.length then some out else some (s.nets.length + k))) := by
  rcases muxf_shapes data select hN hS with
    ⟨d0, d1, s0, rfl, rfl⟩ | ⟨d0, d1, d2, d3, s0, t0, rfl, rfl⟩ |
    ⟨d0, d1, d2, d3, d4, d5, d6, d7, s0, t0, u0, rfl, rfl⟩
  · have hbuild := muxf_build_two s base bc hb nb (some d0) (some d1) (some s0) (some out)
    obtain ⟨r, er, n1, v1⟩ := create_muxf_tree_view s base bc nb _ _ _ zoffset _ _ 0
      (get_cell_extend s base bc hb _ _) hbuild rfl rfl (by simp)
    have hlen := emitted_length _ _ _ v1 (by simp)
    refine ⟨r, er, by simpa using hlen, by simp [n1], by simp [n1], ?_, ?_⟩
    · intro i j hi hj
      simp only [List.length_cons, List.length_nil] at hi hj
      have hi1 : i = 0 := by omega
      subst hi1
      have hj1 : j = 0 := by norm_num at hj; omega
      subst hj1
      obtain ⟨c, hc, hv⟩ := emitted_get _ _ _ 0 v1 (by simp)
      obtain ⟨ht, _, hp⟩ := view_fields _ _ hv
      refine ⟨c, by simpa [Nat.add_assoc] using hc, ?_, ?_, ?_⟩
      · rw [ht]; rfl
      · rw [hp]; rfl
      · rw [hp]; simp [get_net_or_empty, muxf_prim, dict_find, Nat.add_assoc]
    · intro k hk
      simp only [List.length_cons, List.length_nil] at hk
      have hk1 : k = 0 := by omega
      subst hk1
      obtain ⟨c, hc, hv⟩ := emitted_get _ _ _ 0 v1 (by simp)
      obtain ⟨_, _, hp⟩ := view_fields _ _ hv
      refine ⟨c, hc, ?_⟩
      rw [hp]
      simp [get_net_or_empty, muxf_prim, dict_find]
  · have hbuild := muxf_build_four s base bc hb nb (some d0) (some d1) (some d2) (some d3) (some s0) (some t0) (some out)
    obtain ⟨r, er, n1, v1⟩ := create_muxf_tree_view s base bc nb _ _ _ zoffset _ _ 2
      (get_cell_extend s base bc hb _ _) hbuild rfl rfl (by simp)
    have hlen := emitted_length _ _ _ v1 (by simp)
    refine ⟨r, er, by simpa using hlen, by simp [n1], by simp [n1], ?_, ?_⟩
    · intro i j hi hj
      simp only [List.length_cons, List.length_nil] at hi hj
      have hi1 : i = 0 ∨ i = 1 := by omega
      rcases hi1 with rfl | rfl
      · have hj1 : j = 0 ∨ j = 1 := by norm_num at hj; omega
        rcases hj1 with rfl | rfl
        · obtain ⟨c, hc, hv⟩ := emitted_get _ _ _ 0 v1 (by simp)
          obtain ⟨ht, _, hp⟩ := view_fields _ _ hv
          refine ⟨c, by simpa [Nat.add_assoc] using hc, ?_, ?_, ?_⟩
          · rw [ht]; rfl
          · rw [hp]; rfl
          · rw [hp]; simp [get_net_or_empty, muxf_prim, dict_find, Nat.add_assoc]
        · obtain ⟨c, hc, hv⟩ := emitted_get _ _ _ 1 v1 (by simp)
          obtain ⟨ht, _, hp⟩ := view_fields _ _ hv
          refine ⟨c, by simpa [Nat.add_assoc] using hc, ?_, ?_, ?_⟩
          · rw [ht]; rfl
          · rw [hp]; rfl
          · rw [hp]; simp [get_net_or_empty, muxf_prim, dict_find, Nat.add_assoc]
      · have hj1 : j = 0 := by norm_num at hj; omega
        subst hj1
        obtain ⟨c, hc, hv⟩ := emitted_get _ _ _ 2 v1 (by simp)
        obtain ⟨ht, _, hp⟩ := view_fields _ _ hv
        refine ⟨c, by simpa [Nat.add_assoc] using hc, ?_, ?_, ?_⟩
        · rw [ht]; rfl
        · rw [hp]; rfl
        · rw [hp]; simp [get_net_or_empty, muxf_prim, dict_find, Nat.add_assoc]
    · intro k hk
      simp only [List.length_cons, List.length_nil] at hk
      have hk1 : k < 3 := by omega
      obtain ⟨c, hc, hv⟩ := emitted_get _ _ _ k v1 (by simpa using hk1)
      obtain ⟨_, _, hp⟩ := view_fields _ _ hv
      refine ⟨c, hc, ?_⟩
      rw [hp]
      interval_cases k <;> simp [get_net_or_empty, muxf_prim, dict_find]
  · have hbuild := muxf_build_eight s base bc hb nb (some d0) (some d1) (some d2) (some d3) (some d4) (some d5) (some d6) (some d7) (some s0) (some t0) (some u0) (some out)
    obtain ⟨r, er, n1, v1⟩ := create_muxf_tree_view s base bc nb _ _ _ zoffset _ _ 6
      (get_cell_extend s base bc hb _ _) hbuild rfl rfl (by simp)
    have hlen := emitted_length _ _ _ v1 (by simp)
    refine ⟨r, er, by simpa using hlen, by simp [n1], by simp [n1], ?_, ?_⟩
    · intro i j hi hj
      simp only [List.length_cons, List.length_nil] at hi hj
      have hi1 : i = 0 ∨ i = 1 ∨ i = 2 := by omega
      rcases hi1 with rfl | rfl | rfl
      · have hj1 : j = 0 ∨ j = 1 ∨ j = 2 ∨ j = 3 := by norm_num at hj; omega
        rcases hj1 with rfl | rfl | rfl | rfl
        · obtain ⟨c, hc, hv⟩ := emitted_get _ _ _ 0 v1 (by simp)
          obtain ⟨ht, _, hp⟩ := view_fields _ _ hv
          refine ⟨c, by simpa [Nat.add_assoc] using hc, ?_, ?_, ?_⟩
          · rw [ht]; rfl
          · rw [hp]; rfl
          · rw [hp]; simp [get_net_or_empty, muxf_prim, dict_find, Nat.add_assoc]
        · obtain ⟨c, hc, hv⟩ := emitted_get _ _ _ 1 v1 (by simp)
          obtain ⟨ht, _, hp⟩ := view_fields _ _ hv
          refine ⟨c, by simpa [Nat.add_assoc] using hc, ?_, ?_, ?_⟩
          · rw [ht]; rfl
          · rw [hp]; rfl
          · rw [hp]; simp [get_net_or_empty, muxf_prim, dict_find, Nat.add_assoc]
        · obtain ⟨c, hc, hv⟩ := emitted_get _ _ _ 2 v1 (by simp)
          obtain ⟨ht, _, hp⟩ := view_fields _ _ hv
          refine ⟨c, by simpa [Nat.add_assoc] using hc, ?_, ?_, ?_⟩
          · rw [ht]; rfl
          · rw [hp]; rfl
          · rw [hp]; simp [get_net_or_empty, muxf_prim, dict_find, Nat.add_assoc]
        · obtain ⟨c, hc, hv⟩ := emitted_get _ _ _ 3 v1 (by simp)
          obtain ⟨ht, _, hp⟩ := view_fields _ _ hv
          refine ⟨c, by simpa [Nat.add_assoc] using hc, ?_, ?_, ?_⟩
          · rw [ht]; rfl
          · rw [hp]; rfl
          · rw [hp]; simp [get_net_or_empty, muxf_prim, dict_find, Nat.add_assoc]
      · have hj1 : j = 0 ∨ j = 1 := by norm_num at hj; omega
        rcases hj1 with rfl | rfl
        · obtain ⟨c, hc, hv⟩ := emitted_get _ _ _ 4 v1 (by simp)
          obtain ⟨ht, _, hp⟩ := view_fields _ _ hv
          refine ⟨c, by simpa [Nat.add_assoc] using hc, ?_, ?_, ?_⟩
          · rw [ht]; rfl
          · rw [hp]; rfl
          · rw [hp]; simp [get_net_or_empty, muxf_prim, dict_find, Nat.add_assoc]
        · obtain ⟨c, hc, hv⟩ := emitted_get _ _ _ 5 v1 (by simp)
          obtain ⟨ht, _, hp⟩ := view_fields _ _ hv
          refine ⟨c, by simpa [Nat.add_assoc] using hc, ?_, ?_, ?_⟩
          · rw [ht]; rfl
          · rw [hp]; rfl
          · rw [hp]; simp [get_net_or_empty, muxf_prim, dict_find, Nat.add_assoc]
      · have hj1 : j = 0 := by norm_num at hj; omega
        subst hj1
        obtain ⟨c, hc, hv⟩ := emitted_get _ _ _ 6 v1 (by simp)
        obtain ⟨ht, _, hp⟩ := view_fields _ _ hv
        refine ⟨c, by simpa [Nat.add_assoc] using hc, ?_, ?_, ?_⟩
        · rw [ht]; rfl
        · rw [hp]; rfl
        · rw [hp]; simp [get_net_or_empty, muxf_prim, dict_find, Nat.add_assoc]
    · intro k hk
      simp only [List.length_cons, List.length_nil] at hk
      have hk1 : k < 7 := by omega
      obtain ⟨c, hc, hv⟩ := emitted_get _ _ _ k v1 (by simpa using hk1)
      obtain ⟨_, _, hp⟩ := view_fields _ _ hv
      refine ⟨c, hc, ?_⟩
      rw [hp]
      interval_cases k <;> simp [get_net_or_empty, muxf_prim, dict_find]

theorem create_muxf_tree_selects_witness :
    get_cell sample_packer (CellRef.pending 0) = some (create_cell "SLICE_LUTX" "ram/LOW") ∧
    ∃ r, create_muxf_tree (some (CellRef.pending 0)) "O" ([2, 3, 4, 5].map some)
        ([6, 7].map some) (some 8) 2 sample_packer = .ok r ∧
      ∀ v : NetId → Bool,
        network_holds v (r.new_cells.drop sample_packer.new_cells.length) = true →
        ([2, 3, 4, 5].get? (select_value v [6, 7])).map v = some (v 8) :=
  ⟨rfl, create_muxf_tree_selects sample_packer (CellRef.pending 0) _ "O" [2, 3, 4, 5] [6, 7] 8 2
    rfl (Or.inr (Or.inl rfl)) rfl⟩

theorem create_muxf_tree_cells_witness :
    get_cell sample_packer (CellRef.pending 0) = some (create_cell "SLICE_LUTX" "ram/LOW") ∧
    ∃ r, create_muxf_tree (some (CellRef.pending 0)) "O" ([2, 3, 4, 5].map some)
        ([6, 7].map some) (some 8) 2 sample_packer = .ok r ∧
      r.new_cells.length = 1 + 3 ∧ r.nets.length = 16 + 2 :=
  ⟨rfl, by
    obtain ⟨r, h, h1, h2, _⟩ := create_muxf_tree_cells sample_packer (CellRef.pending 0) _ "O"
      [2, 3, 4, 5] [6, 7] 8 2 rfl (Or.inr (Or.inl rfl)) rfl
    exact ⟨r, h, h1, h2⟩⟩

/-! ### create_dram_lut in closed form -/

theorem dict_set_same {α : Type} (m : List (IdString × α)) (k : IdString) (v : α)
    (h : dict_find m k = some v) : dict_set m k v = m := by
  induction m with
  | nil => cases h
  | cons e rest ih =>
    obtain ⟨k1, v1⟩ := e
    simp only [dict_find, dict_set] at h ⊢
    by_cases hk : k1 = k
    · simp only [hk, if_true] at h ⊢
      cases h
      rfl
    · simp only [hk, if_false] at h ⊢
      rw [ih h]

/-- The result of connect_port without a case split on the net. -/
theorem connect_port_eq (n : Option NetId) (c : CellInfo) (p : IdString) :
    connect_port n c p =
      match dict_find c.ports p with
      | some port =>
        if port.net = none then
          .ok { c with ports := dict_set c.ports p { port with net := n } }
        else (match n with
          | none => .ok c
          | some _ => .error "connect_port: port.net == nullptr")
      | none => (match n with
          | none => .ok c
          | some _ => .error "connect_port: no such port") := by
  cases n with
  | none =>
    simp only [connect_port]
    cases h : dict_find c.ports p with
    | none => rfl
    | some port =>
      simp only
      by_cases hn : port.net = none
      · have : ({ port with net := none } : PortInfo) = port := by
          cases port
          simp only at hn
          rw [hn]
        rw [if_pos hn, this, dict_set_same _ _ _ h]
        rfl
      · rw [if_neg hn]
        rfl
  | some k =>
    simp only [connect_port]
    cases h : dict_find c.ports p with
    | none => rfl
    | some port =>
      simp only
      by_cases hn : port.net = none
      · rw [if_pos hn, if_neg (not_not.mpr hn)]
        rfl
      · rw [if_neg hn, if_pos hn]
        rfl

theorem lib_ports_ramd64e : lib_ports "RAMD64E" =
    [in_port "RADR0", in_port "RADR1", in_port "RADR2", in_port "RADR3", in_port "RADR4",
     in_port "RADR5", in_port "WADR0", in_port "WADR1", in_port "WADR2", in_port "WADR3",
     in_port "WADR4", in_port "WADR5", in_port "WADR6", in_port "WADR7",
     in_port "CLK", in_port "I", in_port "WE", out_port "O"] := by
  decide

theorem dram_rules_eq : dram_rules = [("RAMD64E", ramd64e_rule)] := by
  decide

theorem to_string_digits :
    to_string 0 = "0" ∧ to_string 1 = "1" ∧ to_string 2 = "2" ∧ to_string 3 = "3" ∧
    to_string 4 = "4" ∧ to_string 5 = "5" ∧ to_string 6 = "6" ∧ to_string 7 = "7" ∧
    to_string 8 = "8" := by
  decide


theorem rename_port_ports (c : CellInfo) (old new : IdString) :
    rename_port c old new = { c with ports := rename_in c.ports old new } := by
  unfold rename_port rename_in
  cases dict_find c.ports old <;> rfl

theorem xform_ports_renames (rule : XFormRule) (h : rule.port_multixform = [])
    (names : List IdString) (ci : CellInfo) :
    xform_ports rule names ci =
      .ok { ci with ports := rename_all rule.port_xform names ci.ports } := by
  induction names generalizing ci with
  | nil => rfl
  | cons p rest ih =>
    have hp : xform_port rule ci p =
        .ok { ci with ports := rename_step rule.port_xform ci.ports p } := by
      unfold xform_port rename_step
      rw [h]
      simp only [dict_find]
      cases dict_find rule.port_xform p with
      | none => rfl
      | some n =>
        simp only [pure, Except.pure]
        split_ifs
        · rw [rename_port_ports]
        · rfl
    simp only [xform_ports, hp, bind, Except.bind, ih, rename_all]

theorem xform_cell_renames (rules : List (IdString × XFormRule)) (ci : CellInfo)
    (rule : XFormRule) (hf : dict_find rules ci.type = some rule)
    (h : rule.port_multixform = []) :
    xform_cell rules ci =
      .ok { ci with type := rule.new_type
                    ports := rename_all rule.port_xform (ci.ports.map (fun p => p.1)) ci.ports
                    attrs := inject_attrs rule.set_attrs ci.attrs } := by
  unfold xform_cell
  rw [hf]
  simp only [xform_ports_renames rule h, bind, Except.bind, pure, Except.pure]

/-- The RAMD64E cell wire_dram_lut hands to xform_cell. -/
theorem wire_dram_lut_eight (name : String) (wclk we : Option NetId) (inv : Bool) (mt : IdString)
    (a0 a1 a2 a3 a4 a5 w0 w1 w2 w3 w4 w5 w6 w7 di dout : Option NetId) :
    wire_dram_lut "RAMD64E" name
        { wa := [w0, w1, w2, w3, w4, w5, w6, w7], wclk := wclk, we := we, wclk_inv := inv,
          memtype := mt }
        [a0, a1, a2, a3, a4, a5] di dout =
      .ok { create_cell "RAMD64E" name with
            ports := [sink "RADR0" a0, sink "RADR1" a1, sink "RADR2" a2, sink "RADR3" a3,
              sink "RADR4" a4, sink "RADR5" a5, sink "WADR0" w0, sink "WADR1" w1,
              sink "WADR2" w2, sink "WADR3" w3, sink "WADR4" w4, sink "WADR5" w5,
              sink "WADR6" w6, sink "WADR7" w7, sink "CLK" wclk, sink "I" di, sink "WE" we,
              source "O" dout]
            params := [("IS_WCLK_INVERTED", Property.of_int (if inv then 1 else 0) 32)] } := by
  simp only [wire_dram_lut, connect_indexed, Nat.reduceAdd, zero_add, to_string_digits,
    String.reduceAppend, create_cell, lib_ports_ramd64e, in_port, out_port]
  simp only [connect_port_eq, dict_find, dict_set, String.reduceEq, if_true, if_false, bind,
    Except.bind, pure, Except.pure, reduceCtorEq, sink, source]

/-! ### Renaming does not look at the nets -/

theorem dict_find_map {α β : Type} (g : α → β) (m : List (IdString × α)) (k : IdString) :
    dict_find (m.map (fun e => (e.1, g e.2))) k = (dict_find m k).map g := by
  induction m with
  | nil => rfl
  | cons e rest ih =>
    obtain ⟨k1, v1⟩ := e
    simp only [List.map, dict_find]
    split_ifs
    · rfl
    · exact ih

theorem dict_erase_map {α β : Type} (g : α → β) (m : List (IdString × α)) (k : IdString) :
    dict_erase (m.map (fun e => (e.1, g e.2))) k = (dict_erase m k).map (fun e => (e.1, g e.2)) := by
  induction m with
  | nil => rfl
  | cons e rest ih =>
    obtain ⟨k1, v1⟩ := e
    simp only [List.map, dict_erase]
    split_ifs
    · rfl
    · simp only [List.map, ih]

theorem dict_set_map {α β : Type} (g : α → β) (m : List (IdString × α)) (k : IdString) (v : α) :
    dict_set (m.map (fun e => (e.1, g e.2))) k (g v) =
      (dict_set m k v).map (fun e => (e.1, g e.2)) := by
  induction m with
  | nil => rfl
  | cons e rest ih =>
    obtain ⟨k1, v1⟩ := e
    simp only [List.map, dict_set]
    split_ifs
    · rfl
    · simp only [List.map, ih]

theorem rename_in_map_nets (f : Option NetId → Option NetId) (ports : List (IdString × PortInfo))
    (old new : IdString) :
    rename_in (map_nets f ports) old new = map_nets f (rename_in ports old new) := by
  unfold rename_in map_nets
  rw [dict_find_map (with_net f)]
  cases dict_find ports old with
  | none => rfl
  | some port =>
    simp only [Option.map]
    rw [dict_erase_map (with_net f)]
    exact dict_set_map (with_net f) _ new { port with name := new }

theorem rename_all_map_nets (f : Option NetId → Option NetId) (table : List (IdString × IdString))
    (names : List IdString) (ports : List (IdString × PortInfo)) :
    rename_all table names (map_nets f ports) = map_nets f (rename_all table names ports) := by
  induction names generalizing ports with
  | nil => rfl
  | cons p rest ih =>
    simp only [rename_all]
    rw [← ih]
    congr 1
    unfold rename_step
    cases dict_find table p with
    | none => rfl
    | some n =>
      simp only
      split_ifs
      · exact rename_in_map_nets f ports p n
      · rfl

theorem rename_tagged :
    rename_all ramd64e_rule.port_xform (tagged_ramd64e.map (fun p => p.1)) tagged_ramd64e =
      tagged_slice_lutx := by
  decide!

theorem xform_ramd64e (name : String) (params : List (IdString × Property))
    (a0 a1 a2 a3 a4 a5 w0 w1 w2 w3 w4 w5 w6 w7 wclk we di dout : Option NetId) :
    xform_cell dram_rules
        { create_cell "RAMD64E" name with
          ports := [sink "RADR0" a0, sink "RADR1" a1, sink "RADR2" a2, sink "RADR3" a3,
            sink "RADR4" a4, sink "RADR5" a5, sink "WADR0" w0, sink "WADR1" w1,
            sink "WADR2" w2, sink "WADR3" w3, sink "WADR4" w4, sink "WADR5" w5,
            sink "WADR6" w6, sink "WADR7" w7, sink "CLK" wclk, sink "I" di, sink "WE" we,
            source "O" dout]
          params := params } =
      .ok { create_cell "SLICE_LUTX" name with
            ports := [sink "CLK" wclk, sink "WE" we, sink "A1" a0, sink "A2" a1, sink "A3" a2,
              sink "A4" a3, sink "A5" a4, sink "A6" a5, sink "WA1" w0, sink "WA2" w1,
              sink "WA3" w2, sink "WA4" w3, sink "WA5" w4, sink "WA6" w5, sink "WA7" w6,
              sink "WA8" w7, sink "DI1" di, source "O6" dout]
            params := params
            attrs := [("X_LUT_AS_DRAM", Property.of_int 1 32),
              ("X_IS_SLICEM", Property.of_int 1 32)] } := by
  rw [xform_cell_renames dram_rules _ ramd64e_rule (by rw [dram_rules_eq]; rfl) rfl]
  have hp : [sink "RADR0" a0, sink "RADR1" a1, sink "RADR2" a2, sink "RADR3" a3,
      sink "RADR4" a4, sink "RADR5" a5, sink "WADR0" w0, sink "WADR1" w1,
      sink "WADR2" w2, sink "WADR3" w3, sink "WADR4" w4, sink "WADR5" w5,
      sink "WADR6" w6, sink "WADR7" w7, sink "CLK" wclk, sink "I" di, sink "WE" we,
      source "O" dout] =
      map_nets (pick_net [a0, a1, a2, a3, a4, a5, w0, w1, w2, w3, w4, w5, w6, w7, wclk, di, we,
        dout]) tagged_ramd64e := rfl
  have hn : (map_nets (pick_net [a0, a1, a2, a3, a4, a5, w0, w1, w2, w3, w4, w5, w6, w7, wclk,
      di, we, dout]) tagged_ramd64e).map (fun p => p.1) = tagged_ramd64e.map (fun p => p.1) :=
    rfl
  have hq : map_nets (pick_net [a0, a1, a2, a3, a4, a5, w0, w1, w2, w3, w4, w5, w6, w7, wclk,
      di, we, dout]) tagged_slice_lutx =
      [sink "CLK" wclk, sink "WE" we, sink "A1" a0, sink "A2" a1, sink "A3" a2,
        sink "A4" a3, sink "A5" a4, sink "A6" a5, sink "WA1" w0, sink "WA2" w1,
        sink "WA3" w2, sink "WA4" w3, sink "WA5" w4, sink "WA6" w5, sink "WA7" w6,
        sink "WA8" w7, sink "DI1" di, source "O6" dout] := rfl
  simp only [create_cell]
  rw [hp, hn, rename_all_map_nets, rename_tagged, hq]
  rfl

theorem connect_indexed_nulls (name : String) (k i : Nat) (c : CellInfo) :
    connect_indexed name (List.replicate k none) i c = .ok c := by
  induction k generalizing i with
  | zero => rfl
  | succ k ih =>
    simp only [List.replicate, connect_indexed, connect_port, bind, Except.bind, pure,
      Except.pure]
    exact ih (i + 1)

theorem connect_indexed_pad (name : String) (l : List (Option NetId)) (k i : Nat) (c : CellInfo) :
    connect_indexed name (l ++ List.replicate k none) i c = connect_indexed name l i c := by
  induction l generalizing i c with
  | nil => simpa [connect_indexed] using connect_indexed_nulls name k i c
  | cons n ns ih =>
    simp only [List.cons_append, connect_indexed, bind, Except.bind]
    cases connect_port n c (name ++ to_string i) with
    | error e => rfl
    | ok c1 => exact ih (i + 1) c1

theorem net_at_pad (l : List (Option NetId)) (k i : Nat) :
    net_at (l ++ List.replicate k none) i = net_at l i := by
  unfold net_at
  simp only [List.get?_eq_getElem?]
  by_cases hi : i < l.length
  · rw [List.getElem?_append_left hi]
  · rw [List.getElem?_append_right (by omega), List.getElem?_eq_none (l := l) (by omega)]
    by_cases hk : i - l.length < k
    · simp [List.getElem?_replicate, hk]
    · simp [List.getElem?_replicate, hk]

theorem length_six_split {α : Type} (l : List α) (h : l.length = 6) :
    ∃ a b c d e f, l = [a, b, c, d, e, f] := by
  obtain ⟨a, t, rfl, h1⟩ := length_succ_split l 5 h
  obtain ⟨b, t, rfl, h2⟩ := length_succ_split t 4 h1
  obtain ⟨c, d, e, f, rfl⟩ := length_four_split t h2
  exact ⟨a, b, c, d, e, f, rfl⟩

/-- The cell create_dram_lut wires and transforms, in closed form: at most six
address nets and at most eight write-address nets always succeed. -/
theorem wire_xform_ok (name : String) (cs : DRAMControlSet) (address : List (Option NetId))
    (di dout : Option NetId) (ha : address.length ≤ 6) (hw : cs.wa.length ≤ 8) :
    (wire_dram_lut "RAMD64E" name cs address di dout >>= xform_cell dram_rules) =
      .ok (slice_lutx name cs address di dout) := by
  obtain ⟨a0, a1, a2, a3, a4, a5, hA⟩ := length_six_split
    (address ++ List.replicate (6 - address.length) none) (by simp; omega)
  obtain ⟨w0, w1, w2, w3, w4, w5, w6, w7, hW⟩ := length_eight_split
    (cs.wa ++ List.replicate (8 - cs.wa.length) none) (by simp; omega)
  have h1 : wire_dram_lut "RAMD64E" name cs address di dout =
      wire_dram_lut "RAMD64E" name
        { wa := [w0, w1, w2, w3, w4, w5, w6, w7], wclk := cs.wclk, we := cs.we,
          wclk_inv := cs.wclk_inv, memtype := cs.memtype }
        [a0, a1, a2, a3, a4, a5] di dout := by
    unfold wire_dram_lut
    simp only
    rw [← hA, ← hW, connect_indexed_pad]
    simp only [connect_indexed_pad]
  rw [h1, wire_dram_lut_eight]
  simp only [bind, Except.bind]
  rw [xform_ramd64e]
  have e : ∀ i, net_at address i = net_at [a0, a1, a2, a3, a4, a5] i := by
    intro i
    rw [← hA, net_at_pad]
  have f : ∀ i, net_at cs.wa i = net_at [w0, w1, w2, w3, w4, w5, w6, w7] i := by
    intro i
    rw [← hW, net_at_pad]
  simp only [slice_lutx, e, f]
  rfl

/-- The primitive create_dram_lut makes, with its z constraint. -/
theorem create_dram_lut_eq (name : String) (base : Option CellRef) (cs : DRAMControlSet)
    (address : List (Option NetId)) (di dout : Option NetId) (z : Int) (s : Packer)
    (ha : address.length ≤ 6) (hw : cs.wa.length ≤ 8) :
    create_dram_lut name base cs address di dout z s =
      constrain_and_push (slice_lutx name cs address di dout) base
        (Int.lor (z * 2 ^ 4) s.BEL_6LUT) s := by
  have h := wire_xform_ok name cs address di dout ha hw
  simp only [bind, Except.bind] at h
  unfold create_dram_lut
  simp only [bind, Except.bind]
  cases hwire : wire_dram_lut "RAMD64E" name cs address di dout with
  | error e => rw [hwire] at h; cases h
  | ok c =>
    rw [hwire] at h
    simp only at h ⊢
    rw [h]

/-! ### The tied-low pre-pass -/

theorem one_shl (i : Nat) : 1 <<< i = 2 ^ i := by
  rw [Nat.shiftLeft_eq, Nat.one_mul]

theorem clear_bit_testBit (j i k : Nat) :
    (clear_bit j i).testBit k = (j.testBit k && !decide (i = k)) := by
  unfold clear_bit
  rw [Nat.testBit_xor, Nat.testBit_and, one_shl, Nat.testBit_two_pow]
  cases j.testBit k <;> cases decide (i = k) <;> rfl

theorem bit_set_iff (j i : Nat) : j &&& (1 <<< i) ≠ 0 ↔ j.testBit i = true := by
  rw [one_shl, Nat.and_two_pow]
  cases j.testBit i <;> simp

theorem clear_bit_le (j i : Nat) : clear_bit j i ≤ j := by
  have h : j &&& clear_bit j i = clear_bit j i := by
    apply Nat.eq_of_testBit_eq
    intro k
    rw [Nat.testBit_and, clear_bit_testBit]
    cases j.testBit k <;> cases decide (i = k) <;> rfl
  rw [← h]
  exact Nat.and_le_left

theorem clear_bit_of_clear (j i : Nat) (h : j.testBit i = false) : clear_bit j i = j := by
  apply Nat.eq_of_testBit_eq
  intro k
  rw [clear_bit_testBit]
  by_cases hk : i = k
  · subst hk; simp [h]
  · simp [hk]

theorem init_permute_loop_spec (i : Nat) (orig : List Char) :
    ∀ (n m : Nat) (cur : List Char), m + n = orig.length → cur.length = orig.length →
      (∀ j, j < orig.length →
        cur.get? j = orig.get? (if j < m ∧ j.testBit i = true then clear_bit j i else j)) →
      (init_permute_loop i n m cur).length = orig.length ∧
      ∀ j, j < orig.length → (init_permute_loop i n m cur).get? j = orig.get? (clear_bit j i) := by
  intro n
  induction n with
  | zero =>
    intro m cur hm hl hinv
    refine ⟨hl, ?_⟩
    intro j hj
    simp only [init_permute_loop]
    rw [hinv j hj]
    by_cases hb : j.testBit i = true
    · simp [hb, show j < m by omega]
    · have hb2 : j.testBit i = false := by simpa using hb
      simp [hb2, clear_bit_of_clear j i hb2]
  | succ n ih =>
    intro m cur hm hl hinv
    simp only [init_permute_loop]
    have hmlt : m < orig.length := by omega
    by_cases hb : m.testBit i = true
    · have hset : m &&& (1 <<< i) ≠ 0 := (bit_set_iff m i).mpr hb
      rw [if_pos hset]
      have hcl : clear_bit m i < orig.length := lt_of_le_of_lt (clear_bit_le m i) hmlt
      have hcb : (clear_bit m i).testBit i = false := by
        rw [clear_bit_testBit]; simp
      have hread : cur.get? (clear_bit m i) = orig.get? (clear_bit m i) := by
        rw [hinv _ hcl]
        simp [hcb]
      obtain ⟨c, hc⟩ : ∃ c, orig.get? (clear_bit m i) = some c :=
        ⟨orig.get ⟨_, hcl⟩, by simp [List.getElem?_eq_getElem hcl]⟩
      rw [hread, hc]
      apply ih (m + 1) (cur.set m c) (by omega) (by simpa using hl)
      intro j hj
      simp only [List.get?_eq_getElem?, List.getElem?_set] at hinv hc ⊢
      by_cases hjm : m = j
      · subst hjm
        simp [hb, hc, hl, hmlt]
      · have := hinv j hj
        rw [if_neg hjm, this]
        have hiff : (j < m + 1 ∧ j.testBit i = true) ↔ (j < m ∧ j.testBit i = true) := by
          constructor <;> rintro ⟨h1, h2⟩ <;> exact ⟨by omega, h2⟩
        simp only [hiff]
    · have hclr : ¬ m &&& (1 <<< i) ≠ 0 := fun h => hb ((bit_set_iff m i).mp h)
      rw [if_neg hclr]
      apply ih (m + 1) cur (by omega) hl
      intro j hj
      rw [hinv j hj]
      by_cases hjm : j = m
      · subst hjm
        simp [hb]
      · have hiff : (j < m + 1 ∧ j.testBit i = true) ↔ (j < m ∧ j.testBit i = true) := by
          constructor <;> rintro ⟨h1, h2⟩ <;> exact ⟨by omega, h2⟩
        simp only [hiff]

/-- The INIT loop of the pre-pass copies, it does not exchange: entry `j` of the
result is entry `j` with bit `i` cleared of the original. -/
theorem init_permute_get (i : Nat) (init : Property) :
    (init_permute i init).str.length = init.str.length ∧
    ∀ j, j < init.str.length →
      (init_permute i init).str.get? j = init.str.get? (clear_bit j i) := by
  have h := init_permute_loop_spec i init.str init.str.length 0 init.str (by simp) rfl
    (by intro j _; simp)
  simpa [init_permute, Property.update_intval] using h

theorem dict_find_set_self {α : Type} (m : List (IdString × α)) (k : IdString) (v : α) :
    dict_find (dict_set m k v) k = some v := by
  induction m with
  | nil => simp [dict_set, dict_find]
  | cons e rest ih =>
    obtain ⟨k1, v1⟩ := e
    simp only [dict_set]
    split_ifs with h
    · simp [dict_find, h]
    · simp [dict_find, h, ih]

theorem connect_port_params (n : Option NetId) (c c1 : CellInfo) (p : IdString)
    (h : connect_port n c p = .ok c1) : c1.params = c.params := by
  rw [connect_port_eq] at h
  cases hf : dict_find c.ports p with
  | none =>
    rw [hf] at h
    cases n <;> simp at h
    rw [← h]
  | some port =>
    rw [hf] at h
    simp only at h
    split_ifs at h
    · cases h; rfl
    · cases n <;> simp at h
      rw [← h]

theorem disconnect_port_params (c : CellInfo) (p : IdString) :
    (disconnect_port c p).params = c.params := by
  unfold disconnect_port
  cases dict_find c.ports p <;> rfl

/-- C5, as stated, fails: on a RAM64X1S cell with address bit 0 tied low and
INIT entries 0,1,1,0 the pre-pass rewrites the bit and leaves the entries
0,0,1,1, while the exchange of the entries at `j` and `j XOR 1` gives 1,0,0,1. -/
theorem tie_high_bit_is_no_swap :
    ∃ c, tie_high_bit sample_packer { abits := 6, dbits := 1, rports := 0 } tied_low_cell 0 =
        .ok (c, true) ∧
      (dict_find c.params "INIT").map (fun p => p.str) = some ['0', '0', '1', '1'] ∧
      swap_across_bit 0 ['0', '1', '1', '0'] = ['1', '0', '0', '1'] ∧
      (dict_find c.params "INIT").map (fun p => p.str) ≠
        some (swap_across_bit 0 ['0', '1', '1', '0']) :=
  ⟨_, rfl, rfl, rfl, by decide⟩

/-- The INIT after the pre-pass rewrites address bit `i`: entry `j` is the old
entry at `j` with bit `i` cleared. -/
theorem tie_high_bit_copies (s : Packer) (dt : DRAMType) (ci c : CellInfo) (i : Nat)
    (init : Property)
    (h : tie_high_bit s dt ci i = .ok (c, true))
    (hinit : dict_find ci.params "INIT" = some init) :
    ∃ init1, dict_find c.params "INIT" = some init1 ∧
      init1.str.length = init.str.length ∧
      ∀ j, j < init.str.length → init1.str.get? j = init.str.get? (clear_bit j i) := by
  have key : ∀ c3 : CellInfo, c3.params = ci.params →
      (match dict_find c3.params "INIT" with
        | some init => (pure ({ c3 with params := dict_set c3.params "INIT" (init_permute i init) },
            true) : Except String (CellInfo × Bool))
        | none => pure (c3, true)) = .ok (c, true) →
      ∃ init1, dict_find c.params "INIT" = some init1 ∧
        init1.str.length = init.str.length ∧
        ∀ j, j < init.str.length → init1.str.get? j = init.str.get? (clear_bit j i) := by
    intro c3 hp hres
    rw [hp, hinit] at hres
    simp only [pure, Except.pure, Except.ok.injEq, Prod.mk.injEq, and_true] at hres
    refine ⟨init_permute i init, ?_, init_permute_get i init⟩
    rw [← hres]
    exact dict_find_set_self _ _ _
  unfold tie_high_bit at h
  simp only at h
  by_cases h1 : (!dict_count ci.ports (addr_port dt.abits "A" i)) = true
  · rw [if_pos h1] at h; simp [pure, Except.pure] at h
  rw [if_neg h1] at h
  by_cases h2 : (!on_gnd s (get_net_or_empty ci (addr_port dt.abits "A" i))) = true
  · rw [if_pos h2] at h; simp [pure, Except.pure] at h
  rw [if_neg h2] at h
  by_cases h3 : dt.rports ≥ 1 ∧ dt.rports ≠ 1
  · rw [if_pos h3] at h; cases h
  rw [if_neg h3] at h
  by_cases hr : dt.rports ≥ 1
  · rw [if_pos hr] at h
    simp only at h
    by_cases h4 : (!on_gnd s (get_net_or_empty ci (addr_port dt.abits "DPRA" i))) = true
    · rw [if_pos h4] at h; simp [pure, Except.pure] at h
    rw [if_neg h4] at h
    simp only [bind, Except.bind] at h
    cases e2 : connect_port (net_by_name s "$PACKER_VCC_NET")
        (disconnect_port (disconnect_port ci (addr_port dt.abits "A" i))
          (addr_port dt.abits "DPRA" i)) (addr_port dt.abits "A" i) with
    | error e => rw [e2] at h; cases h
    | ok c2 =>
      rw [e2] at h
      simp only at h
      cases e3 : connect_port (net_by_name s "$PACKER_VCC_NET") c2
          (addr_port dt.abits "DPRA" i) with
      | error e => rw [e3] at h; cases h
      | ok c3 =>
        rw [e3] at h
        simp only at h
        apply key c3 _ h
        rw [connect_port_params _ _ _ _ e3, connect_port_params _ _ _ _ e2,
          disconnect_port_params, disconnect_port_params]
  · rw [if_neg hr] at h
    simp only [bind, Except.bind] at h
    cases e2 : connect_port (net_by_name s "$PACKER_VCC_NET")
        (disconnect_port ci (addr_port dt.abits "A" i)) (addr_port dt.abits "A" i) with
    | error e => rw [e2] at h; cases h
    | ok c2 =>
      rw [e2] at h
      simp only at h
      apply key c2 _ h
      rw [connect_port_params _ _ _ _ e2, disconnect_port_params]

/-- C5, amended: when the pre-pass rewrites address bit `i` of a cell that has an
INIT parameter, the new INIT has the length of the old one and its entry `j` is
the old entry at `j` with bit `i` cleared: entries whose index has bit `i` clear
are kept, and each entry whose index has bit `i` set is overwritten by its
partner. -/
theorem tie_high_bit_init (s : Packer) (dt : DRAMType) (ci c : CellInfo) (i : Nat)
    (init : Property)
    (h : tie_high_bit s dt ci i = .ok (c, true))
    (hinit : dict_find ci.params "INIT" = some init) :
    ∃ init1, dict_find c.params "INIT" = some init1 ∧
      init1.str.length = init.str.length ∧
      ∀ j, j < init.str.length → init1.str.get? j = init.str.get? (clear_bit j i) :=
  tie_high_bit_copies s dt ci c i init h hinit

theorem tie_high_bit_init_witness :
    ∃ c, tie_high_bit sample_packer { abits := 6, dbits := 1, rports := 0 } tied_low_cell 0 =
        .ok (c, true) ∧
      ∃ init1, dict_find c.params "INIT" = some init1 ∧
        init1.str.length = 4 ∧
        ∀ j, j < 4 → init1.str.get? j = ['0', '1', '1', '0'].get? (clear_bit j 0) :=
  ⟨_, rfl, tie_high_bit_init sample_packer { abits := 6, dbits := 1, rports := 0 } tied_low_cell
    _ 0 { is_string := false, str := ['0', '1', '1', '0'], intval := 6 } rfl rfl⟩

theorem tie_high_bit_false (s : Packer) (dt : DRAMType) (ci c : CellInfo) (i : Nat)
    (h : tie_high_bit s dt ci i = .ok (c, false)) : c = ci := by
  unfold tie_high_bit at h
  simp only at h
  by_cases h1 : (!dict_count ci.ports (addr_port dt.abits "A" i)) = true
  · rw [if_pos h1] at h; simp only [pure, Except.pure, Except.ok.injEq, Prod.mk.injEq] at h
    exact h.1.symm
  rw [if_neg h1] at h
  by_cases h2 : (!on_gnd s (get_net_or_empty ci (addr_port dt.abits "A" i))) = true
  · rw [if_pos h2] at h; simp only [pure, Except.pure, Except.ok.injEq, Prod.mk.injEq] at h
    exact h.1.symm
  rw [if_neg h2] at h
  by_cases h3 : dt.rports ≥ 1 ∧ dt.rports ≠ 1
  · rw [if_pos h3] at h; cases h
  rw [if_neg h3] at h
  by_cases hr : dt.rports ≥ 1
  · rw [if_pos hr] at h
    simp only at h
    by_cases h4 : (!on_gnd s (get_net_or_empty ci (addr_port dt.abits "DPRA" i))) = true
    · rw [if_pos h4] at h; simp only [pure, Except.pure, Except.ok.injEq, Prod.mk.injEq] at h
      exact h.1.symm
    rw [if_neg h4] at h
    simp only [bind, Except.bind] at h
    cases e2 : connect_port (net_by_name s "$PACKER_VCC_NET")
        (disconnect_port (disconnect_port ci (addr_port dt.abits "A" i))
          (addr_port dt.abits "DPRA" i)) (addr_port dt.abits "A" i) with
    | error e => rw [e2] at h; cases h
    | ok c2 =>
      rw [e2] at h
      simp only at h
      cases e3 : connect_port (net_by_name s "$PACKER_VCC_NET") c2
          (addr_port dt.abits "DPRA" i) with
      | error e => rw [e3] at h; cases h
      | ok c3 =>
        rw [e3] at h
        simp only at h
        cases hd : dict_find c3.params "INIT" <;> rw [hd] at h <;>
          simp [pure, Except.pure] at h
  · rw [if_neg hr] at h
    simp only [bind, Except.bind] at h
    cases e2 : connect_port (net_by_name s "$PACKER_VCC_NET")
        (disconnect_port ci (addr_port dt.abits "A" i)) (addr_port dt.abits "A" i) with
    | error e => rw [e2] at h; cases h
    | ok c2 =>
      rw [e2] at h
      simp only at h
      cases hd : dict_find c2.params "INIT" <;> rw [hd] at h <;>
        simp [pure, Except.pure] at h

theorem clear_bits_le (j : Nat) (bits : List Nat) : clear_bits j bits ≤ j := by
  induction bits with
  | nil => exact le_refl j
  | cons i rest ih => exact le_trans (clear_bit_le _ i) ih

theorem clear_bits_testBit (j k : Nat) (bits : List Nat) :
    (clear_bits j bits).testBit k = (j.testBit k && !decide (k ∈ bits)) := by
  induction bits with
  | nil => simp [clear_bits]
  | cons i rest ih =>
    simp only [clear_bits, List.foldr_cons] at ih ⊢
    rw [clear_bit_testBit, ih]
    by_cases h1 : i = k
    · subst h1; simp
    · have h2 : ¬ k = i := fun e => h1 e.symm
      simp [h1, h2]

theorem tie_high_bits_init (s : Packer) (dt : DRAMType) (init : Property) :
    ∀ (n i : Nat) (c0 c : CellInfo) (acc bits : List Nat) (v0 : Property),
      tie_high_bits s dt n i (c0, acc) = .ok (c, bits) →
      dict_find c0.params "INIT" = some v0 →
      v0.str.length = init.str.length →
      (∀ j, j < init.str.length → v0.str.get? j = init.str.get? (clear_bits j acc)) →
      ∃ v1, dict_find c.params "INIT" = some v1 ∧ v1.str.length = init.str.length ∧
        ∀ j, j < init.str.length → v1.str.get? j = init.str.get? (clear_bits j bits) := by
  intro n
  induction n with
  | zero =>
    intro i c0 c acc bits v0 h hv hl hinv
    simp only [tie_high_bits, pure, Except.pure, Except.ok.injEq, Prod.mk.injEq] at h
    obtain ⟨rfl, rfl⟩ := h
    exact ⟨v0, hv, hl, hinv⟩
  | succ n ih =>
    intro i c0 c acc bits v0 h hv hl hinv
    simp only [tie_high_bits, bind, Except.bind] at h
    cases hstep : tie_high_bit s dt c0 i with
    | error e => rw [hstep] at h; cases h
    | ok r =>
      obtain ⟨c1, b⟩ := r
      rw [hstep] at h
      simp only at h
      cases b with
      | false =>
        have hc := tie_high_bit_false s dt c0 c1 i hstep
        subst hc
        exact ih (i + 1) c1 c acc bits v0 (by simpa using h) hv hl hinv
      | true =>
        obtain ⟨v1, hv1, hl1, hg1⟩ := tie_high_bit_copies s dt c0 c1 i v0 hstep hv
        refine ih (i + 1) c1 c (acc ++ [i]) bits v1 (by simpa using h) hv1 (hl1.trans hl) ?_
        intro j hj
        rw [hg1 j (by omega), hinv _ (lt_of_le_of_lt (clear_bit_le j i) hj)]
        simp [clear_bits, List.foldr_append]

theorem tie_high_cells_get (s : Packer) :
    ∀ (cells out : List CellInfo) (cnt k : Nat) (ci : CellInfo),
      tie_high_cells s cells = .ok (out, cnt) → cells.get? k = some ci →
      ∃ c bits, tie_high_cell s ci = .ok (c, bits) ∧ out.get? k = some c := by
  intro cells
  induction cells with
  | nil => intro out cnt k ci _ hk; cases hk
  | cons c0 rest ih =>
    intro out cnt k ci h hk
    simp only [tie_high_cells, bind, Except.bind] at h
    cases h0 : tie_high_cell s c0 with
    | error e => rw [h0] at h; cases h
    | ok r0 =>
      rw [h0] at h
      simp only at h
      cases hr : tie_high_cells s rest with
      | error e => rw [hr] at h; cases h
      | ok rs =>
        rw [hr] at h
        simp only [pure, Except.pure, Except.ok.injEq, Prod.mk.injEq] at h
        obtain ⟨rfl, _⟩ := h
        cases k with
        | zero =>
          simp only [List.get?] at hk
          cases hk
          exact ⟨r0.1, r0.2, h0, rfl⟩
        | succ k =>
          simp only [List.get?] at hk ⊢
          exact ih rs.1 rs.2 k ci hr hk

/-- C6: for a cell with an INIT parameter V, the pre-pass leaves an INIT of the
same length whose entry `j` is `V[j AND NOT m]`, `m` being the mask of the
address positions it rewrote on that cell (`clear_bits j bits` clears exactly
the bits listed); so the entry read with the rewritten bits at 1 is the one the
original cell read with them at 0. -/
theorem tie_high_pass_init (s s1 : Packer) (k : Nat) (ci : CellInfo) (init : Property)
    (h : tie_high_pass s = .ok s1)
    (hc : s.cells.get? k = some ci)
    (hinit : dict_find ci.params "INIT" = some init) :
    ∃ c bits, tie_high_cell s ci = .ok (c, bits) ∧ s1.cells.get? k = some c ∧
      (∃ init1, dict_find c.params "INIT" = some init1 ∧
        init1.str.length = init.str.length ∧
        ∀ j, j < init.str.length → init1.str.get? j = init.str.get? (clear_bits j bits)) ∧
      ∀ j b, (clear_bits j bits).testBit b = (j.testBit b && !decide (b ∈ bits)) := by
  simp only [tie_high_pass, bind, Except.bind] at h
  cases hcells : tie_high_cells s s.cells with
  | error e => rw [hcells] at h; cases h
  | ok r =>
    rw [hcells] at h
    simp only [pure, Except.pure, Except.ok.injEq] at h
    obtain ⟨c, bits, hcell, hget⟩ := tie_high_cells_get s s.cells r.1 r.2 k ci hcells hc
    refine ⟨c, bits, hcell, by rw [← h]; exact hget, ?_, fun j b => clear_bits_testBit j b bits⟩
    unfold tie_high_cell at hcell
    cases hdt : dict_find dram_types ci.type with
    | none =>
      rw [hdt] at hcell
      simp only [pure, Except.pure, Except.ok.injEq, Prod.mk.injEq] at hcell
      obtain ⟨rfl, rfl⟩ := hcell
      exact ⟨init, hinit, rfl, fun j _ => rfl⟩
    | some dt =>
      rw [hdt] at hcell
      exact tie_high_bits_init s dt init _ 0 ci c [] bits init hcell hinit rfl (fun j _ => rfl)

theorem tie_high_pass_init_witness :
    ∃ s1, tie_high_pass tied_low_design = .ok s1 ∧
    ∃ c bits, tie_high_cell tied_low_design tied_low_cell = .ok (c, bits) ∧
      s1.cells.get? 0 = some c ∧
      (∃ init1, dict_find c.params "INIT" = some init1 ∧ init1.str.length = 4 ∧
        ∀ j, j < 4 → init1.str.get? j = ['0', '1', '1', '0'].get? (clear_bits j bits)) ∧
      ∀ j b, (clear_bits j bits).testBit b = (j.testBit b && !decide (b ∈ bits)) :=
  ⟨_, rfl, tie_high_pass_init tied_low_design _ 0 tied_low_cell
    { is_string := false, str := ['0', '1', '1', '0'], intval := 6 } rfl rfl rfl⟩

/-! ### The padding of a 32-deep INIT -/

theorem update_intval_loop_testBit (l : List Char) :
    ∀ (i acc b : Nat), (update_intval_loop l i acc).testBit b =
      (acc.testBit b || (decide (i ≤ b) && decide (b < 64) && decide (l.get? (b - i) = some S1))) := by
  induction l with
  | nil => intro i acc b; simp [update_intval_loop]
  | cons c cs ih =>
    intro i acc b
    simp only [update_intval_loop]
    rw [ih]
    by_cases hib : i = b
    · subst hib
      by_cases hc : c = S1 ∧ i < 64
      · simp [hc, one_shl, Nat.testBit_two_pow, hc.1, hc.2]
      · rw [if_neg hc]
        have : ¬ (i + 1 ≤ i) := by omega
        by_cases h64 : i < 64
        · have hne : ¬ c = S1 := fun e => hc ⟨e, h64⟩
          simp [this, h64, hne]
        · simp [this, h64]
    · by_cases hlt : i + 1 ≤ b
      · have h1 : i ≤ b := by omega
        have h2 : b - i = (b - (i + 1)) + 1 := by omega
        have h3 : (2 ^ i).testBit b = false := by simp [Nat.testBit_two_pow, hib]
        rw [h2]
        split_ifs <;> simp [hlt, h1, one_shl, h3]
      · have h1 : ¬ i ≤ b := by omega
        have h3 : (2 ^ i).testBit b = false := by simp [Nat.testBit_two_pow, hib]
        split_ifs <;> simp [hlt, h1, one_shl, h3]

theorem pad_value (str : List Char) (h : str.length ≤ 32) :
    update_intval_loop
        (List.replicate 32 '0' ++ (str ++ List.replicate (32 - str.length) '0')) 0 0 =
      update_intval_loop str 0 0 * 2 ^ 32 := by
  apply Nat.eq_of_testBit_eq
  intro b
  rw [update_intval_loop_testBit, ← Nat.shiftLeft_eq, Nat.testBit_shiftLeft,
    update_intval_loop_testBit]
  simp only [Nat.zero_testBit, Bool.false_or, Nat.zero_le, decide_True, Bool.true_and,
    Nat.sub_zero, List.get?_eq_getElem?, ge_iff_le]
  by_cases hb : 32 ≤ b
  · rw [List.getElem?_append_right (by simpa using hb)]
    simp only [List.length_replicate]
    by_cases hs : b - 32 < str.length
    · rw [List.getElem?_append_left hs]
      have : b < 64 := by omega
      have h2 : b - 32 < 64 := by omega
      simp [hb, this, h2]
    · rw [List.getElem?_append_right (by omega), List.getElem?_eq_none (l := str) (by omega)]
      have : (List.replicate (32 - str.length) '0')[b - 32 - str.length]? ≠ some S1 := by
        rw [List.getElem?_replicate]
        split_ifs <;> simp [S1]
      simp [this]
  · have hlt : b < 32 := by omega
    rw [List.getElem?_append_left (by rw [List.length_replicate]; exact hlt),
      List.getElem?_replicate, if_pos hlt]
    simp [hb, S1]

/-- An INIT of at most 32 bits is padded to exactly 64 bits: bits 0..31 are
zero, bit `32 + k` is bit `k` of the original (zero from the original's length
up to 32), and the value is the original's multiplied by 2^32 (the cached
int64 is that value read as an int64). -/
theorem pad_init32_bits (init : Property) (h : init.str.length ≤ 32) :
    ∃ p, pad_init32 init = .ok p ∧ p.str.length = 64 ∧
      (∀ k, k < 32 → p.str.get? k = some '0') ∧
      (∀ k, k < init.str.length → p.str.get? (32 + k) = init.str.get? k) ∧
      (∀ k, init.str.length ≤ k → k < 32 → p.str.get? (32 + k) = some '0') ∧
      update_intval_loop p.str 0 0 = update_intval_loop init.str 0 0 * 2 ^ 32 ∧
      p.intval = to_int64 (update_intval_loop init.str 0 0 * 2 ^ 32) := by
  refine ⟨_, by simp only [pad_init32, if_neg (not_lt.mpr h)]; rfl, ?_, ?_, ?_, ?_, ?_, ?_⟩
  · simp [Property.update_intval]; omega
  · intro k hk
    simp only [Property.update_intval, List.get?_eq_getElem?]
    rw [List.getElem?_append_left (by rw [List.length_replicate]; exact hk),
      List.getElem?_replicate, if_pos hk]
  · intro k hk
    simp only [Property.update_intval, List.get?_eq_getElem?]
    rw [List.getElem?_append_right (by simp), List.length_replicate, Nat.add_sub_cancel_left,
      List.getElem?_append_left hk]
  · intro k hk1 hk2
    simp only [Property.update_intval, List.get?_eq_getElem?]
    rw [List.getElem?_append_right (by simp), List.length_replicate, Nat.add_sub_cancel_left,
      List.getElem?_append_right hk1, List.getElem?_replicate]
    rw [if_pos (by omega)]
  · exact pad_value init.str h
  · simp only [Property.update_intval]
    rw [pad_value init.str h]

/-! ### INIT windows -/

theorem extract_str (p : Property) (offset len : Nat) (h : offset + len ≤ p.str.length) :
    (p.extract offset len).str = (p.str.drop offset).take len := by
  simp only [Property.extract, Property.update_intval]
  apply List.ext_getElem?
  intro k
  by_cases hk : k < len
  · have h1 : offset + k < p.str.length := by omega
    simp [List.getElem?_map, List.getElem?_range hk, List.getElem?_take, hk, List.getD_eq_getElem?_getD,
      List.getElem?_eq_getElem h1]
  · rw [List.getElem?_eq_none (by simp; omega), List.getElem?_eq_none (by simp; omega)]

theorem extract_two (p : Property) (h : p.str.length = 128) :
    (p.extract 0 64).str ++ (p.extract 64 64).str = p.str := by
  rw [extract_str p 0 64 (by omega), extract_str p 64 64 (by omega), List.drop_zero,
    ← List.take_add]
  exact List.take_of_length_le (by omega)

theorem extract_four (p : Property) (h : p.str.length = 256) :
    (p.extract 0 64).str ++ (p.extract 64 64).str ++ (p.extract 128 64).str ++
      (p.extract 192 64).str = p.str := by
  rw [extract_str p 0 64 (by omega), extract_str p 64 64 (by omega),
    extract_str p 128 64 (by omega), extract_str p 192 64 (by omega), List.drop_zero,
    ← List.take_add, ← List.take_add, ← List.take_add]
  exact List.take_of_length_le (by omega)

/-! ### Steps of the group loops -/

theorem modify_cell_live (s : Packer) (idx : Nat) (ci : CellInfo) (f : CellInfo → CellInfo)
    (h : s.cells.get? idx = some ci) :
    modify_cell s (CellRef.live idx) f = .ok { s with cells := s.cells.set idx (f ci) } := by
  simp only [modify_cell, get_cell, h, set_cell]
  rfl

theorem modify_cell_pending (s : Packer) (idx : Nat) (c : CellInfo) (f : CellInfo → CellInfo)
    (h : s.new_cells.get? idx = some c) :
    modify_cell s (CellRef.pending idx) f =
      .ok { s with new_cells := s.new_cells.set idx (f c) } := by
  simp only [modify_cell, get_cell, h, set_cell]
  rfl

theorem set_append_last {α : Type} (l : List α) (c c1 : α) :
    (l ++ [c]).set l.length c1 = l ++ [c1] := by
  induction l with
  | nil => rfl
  | cons a t ih => simp [List.set, ih]

theorem get_append_last {α : Type} (l : List α) (c : α) :
    (l ++ [c]).get? l.length = some c := by
  simp

/-- The update of the cell just pushed to the pending buffer. -/
theorem modify_last (s : Packer) (l : List CellInfo) (c : CellInfo) (f : CellInfo → CellInfo)
    (h : s.new_cells = l ++ [c]) :
    modify_cell s (CellRef.pending l.length) f = .ok { s with new_cells := l ++ [f c] } := by
  rw [modify_cell_pending s l.length c f (by rw [h]; exact get_append_last l c), h,
    set_append_last]

theorem constrain_and_push_base (c : CellInfo) (cz : Int) (s : Packer) :
    constrain_and_push c none cz s =
      .ok (CellRef.pending s.new_cells.length,
        { s with new_cells := s.new_cells ++ [{ c with constr_abs_z := true, constr_z := cz }] }) :=
  rfl

theorem constrain_and_push_child (c bc : CellInfo) (b : Nat) (cz : Int) (s : Packer)
    (hb : s.new_cells.get? b = some bc) :
    constrain_and_push c (some (CellRef.pending b)) cz s =
      .ok (CellRef.pending s.new_cells.length,
        { s with new_cells :=
            s.new_cells.set b { bc with constr_children := bc.constr_children ++
              [CellRef.pending s.new_cells.length] } ++
            [{ c with constr_abs_z := true, constr_z := cz,
                      constr_parent := some (CellRef.pending b), constr_x := 0,
                      constr_y := 0 }] }) := by
  simp only [constrain_and_push, modify_cell_pending s b bc _ hb, bind, Except.bind, pure,
    Except.pure]

theorem deref_live (s : Packer) (idx : Nat) (ci : CellInfo) (h : s.cells.get? idx = some ci) :
    deref s (some (CellRef.live idx)) = .ok ci := by
  simp only [deref, get_cell, h]
  rfl

theorem ram64_step_base (h : Int) (cs : DRAMControlSet) (mt : IdString) (clkinv : Bool)
    (idx : Nat) (loc : Stack) (s : Packer) (ci : CellInfo)
    (hc : s.cells.get? idx = some ci) (ht : ci.type = mt) (hw : cs.wa.length ≤ 6)
    (hz : (if loc.z < 0 then h - 1 else loc.z) = h - 1) :
    pack_ram64x1s_cell h cs mt clkinv (CellRef.live idx) loc s =
      .ok ({ z := h - 1 - 1, base := some (CellRef.pending s.new_cells.length) },
        mark_packed
          { s with cells := s.cells.set idx (disconnect_port ci "O")
                   new_cells := s.new_cells ++ [ram64_prim s cs ci clkinv (h - 1) none] }
          ci.name) := by
  unfold pack_ram64x1s_cell
  simp only [deref_live s idx ci hc, bind, Except.bind, ht, ne_eq, not_true_eq_false, if_false,
    modify_cell_live s idx ci _ hc, hz, if_true]
  rw [create_dram_lut_eq _ _ _ _ _ _ _ _ hw (by omega), constrain_and_push_base]
  simp only
  unfold copy_init
  cases hi : dict_find ci.params "INIT" with
  | none =>
    cases clkinv with
    | false =>
      simp only [ram64_prim, hi, pure, Except.pure]
      rfl
    | true =>
      simp only [set_clkinv, pure, Except.pure, if_true]
      rw [modify_last _ s.new_cells _ _ rfl]
      simp only [ram64_prim, hi]
      rfl
  | some v =>
    simp only
    rw [modify_last _ s.new_cells _ _ rfl]
    cases clkinv with
    | false =>
      simp only [ram64_prim, hi, pure, Except.pure]
      rfl
    | true =>
      simp only [set_clkinv, pure, Except.pure, if_true]
      rw [modify_last _ s.new_cells _ _ rfl]
      simp only [ram64_prim, hi]
      rfl

theorem modify_last_set (s : Packer) (l : List CellInfo) (b : Nat) (bc c : CellInfo)
    (f : CellInfo → CellInfo) (h : s.new_cells = l.set b bc ++ [c]) :
    modify_cell s (CellRef.pending l.length) f =
      .ok { s with new_cells := l.set b bc ++ [f c] } := by
  have := modify_last s (l.set b bc) c f h
  rwa [List.length_set] at this

theorem ram64_step_child (h : Int) (cs : DRAMControlSet) (mt : IdString) (clkinv : Bool)
    (idx b : Nat) (loc : Stack) (s : Packer) (ci bc : CellInfo)
    (hc : s.cells.get? idx = some ci) (ht : ci.type = mt) (hw : cs.wa.length ≤ 6)
    (hz : ¬ (if loc.z < 0 then h - 1 else loc.z) = h - 1)
    (hbase : loc.base = some (CellRef.pending b)) (hb : s.new_cells.get? b = some bc) :
    pack_ram64x1s_cell h cs mt clkinv (CellRef.live idx) loc s =
      .ok ({ z := (if loc.z < 0 then h - 1 else loc.z) - 1, base := loc.base },
        mark_packed
          { s with cells := s.cells.set idx (disconnect_port ci "O")
                   new_cells :=
                     s.new_cells.set b { bc with constr_children := bc.constr_children ++
                       [CellRef.pending s.new_cells.length] } ++
                     [ram64_prim s cs ci clkinv (if loc.z < 0 then h - 1 else loc.z)
                       (some (CellRef.pending b))] }
          ci.name) := by
  unfold pack_ram64x1s_cell
  simp only [deref_live s idx ci hc, bind, Except.bind, ht, ne_eq, not_true_eq_false, if_false,
    modify_cell_live s idx ci _ hc, hz, hbase]
  rw [create_dram_lut_eq _ _ _ _ _ _ _ _ hw (by omega),
    constrain_and_push_child _ bc b _ _ (by exact hb)]
  simp only
  unfold copy_init
  cases hi : dict_find ci.params "INIT" with
  | none =>
    cases clkinv with
    | false =>
      simp only [ram64_prim, hi, pure, Except.pure]
      rfl
    | true =>
      simp only [set_clkinv, pure, Except.pure, if_true]
      rw [modify_last_set _ s.new_cells _ _ _ _ rfl]
      simp only [ram64_prim, hi]
      rfl
  | some v =>
    simp only
    rw [modify_last_set _ s.new_cells _ _ _ _ rfl]
    cases clkinv with
    | false =>
      simp only [ram64_prim, hi, pure, Except.pure]
      rfl
    | true =>
      simp only [set_clkinv, pure, Except.pure, if_true]
      rw [modify_last_set _ s.new_cells _ _ _ _ rfl]
      simp only [ram64_prim, hi]
      rfl

theorem mark_packed_new_cells (s : Packer) (n : IdString) :
    (mark_packed s n).new_cells = s.new_cells ∧ (mark_packed s n).cells = s.cells ∧
    (mark_packed s n).BEL_6LUT = s.BEL_6LUT ∧ (mark_packed s n).xc7 = s.xc7 ∧
    (mark_packed s n).nets = s.nets := by
  unfold mark_packed
  split_ifs <;> exact ⟨rfl, rfl, rfl, rfl, rfl⟩

theorem placed_as_refl (c : CellInfo) : placed_as c c :=
  ⟨rfl, rfl, rfl, rfl, fun _ h => h⟩

theorem placed_as_trans (a b c : CellInfo) (h1 : placed_as a b) (h2 : placed_as b c) :
    placed_as a c :=
  ⟨h2.1.trans h1.1, h2.2.1.trans h1.2.1, h2.2.2.1.trans h1.2.2.1, h2.2.2.2.1.trans h1.2.2.2.1,
    fun y hy => h2.2.2.2.2 y (h1.2.2.2.2 y hy)⟩

/-- A cell of the pending buffer after a child is registered with the base at
`b` and a primitive is pushed. -/
theorem get_after_child (l : List CellInfo) (b i : Nat) (bc c p : CellInfo) (x : CellRef)
    (hb : l.get? b = some bc) (hi : l.get? i = some c) :
    ∃ c1, (l.set b { bc with constr_children := bc.constr_children ++ [x] } ++ [p]).get? i
        = some c1 ∧ placed_as c c1 := by
  have hil : i < l.length := by
    simp only [List.get?_eq_getElem?] at hi
    by_contra hc
    rw [List.getElem?_eq_none (by omega)] at hi
    cases hi
  simp only [List.get?_eq_getElem?] at hb hi ⊢
  rw [List.getElem?_append_left (by rw [List.length_set]; exact hil), List.getElem?_set]
  by_cases hbi : b = i
  · subst hbi
    rw [hb] at hi
    cases hi
    simp only [if_true, hil]
    exact ⟨_, rfl, rfl, rfl, rfl, rfl, fun y hy => List.mem_append_left _ hy⟩
  · simp only [hbi, if_false]
    exact ⟨c, hi, placed_as_refl c⟩

theorem get_after_push (l : List CellInfo) (i : Nat) (c p : CellInfo) (hi : l.get? i = some c) :
    (l ++ [p]).get? i = some c := by
  have hil : i < l.length := by
    simp only [List.get?_eq_getElem?] at hi
    by_contra hc
    rw [List.getElem?_eq_none (by omega)] at hi
    cases hi
  simp only [List.get?_eq_getElem?] at hi ⊢
  rw [List.getElem?_append_left hil]
  exact hi

theorem disconnect_port_fields (c : CellInfo) (p : IdString) :
    (disconnect_port c p).type = c.type ∧ (disconnect_port c p).name = c.name := by
  unfold disconnect_port
  cases dict_find c.ports p <;> exact ⟨rfl, rfl⟩

theorem set_keeps_fields (l : List CellInfo) (idx i : Nat) (ci c1 : CellInfo)
    (hc : l.get? idx = some ci) (ht : c1.type = ci.type) (hn : c1.name = ci.name) :
    ((l.set idx c1).get? i).map (fun c => (c.type, c.name)) =
      (l.get? i).map (fun c => (c.type, c.name)) := by
  simp only [List.get?_eq_getElem?, List.getElem?_set] at hc ⊢
  by_cases h : idx = i
  · subst h
    have hil : idx < l.length := by
      by_contra hc2
      rw [List.getElem?_eq_none (by omega)] at hc
      cases hc
    simp [hil, hc, ht, hn]
  · simp [h]

/-- The arithmetic of the slot counter: after the cell in slot `h - 1 - k % h`
the next cell is due in slot `h - 1 - (k + 1) % h`. -/
theorem next_slot (h k : Nat) (hh : 0 < h) (z : Int)
    (hz : z = (h : Int) - 1 - ((k % h : Nat) : Int)) :
    (if z - 1 < 0 then (h : Int) - 1 else z - 1) = (h : Int) - 1 - (((k + 1) % h : Nat) : Int) := by
  have hk : k % h < h := Nat.mod_lt k hh
  by_cases hl : k % h + 1 = h
  · have h1 : (k + 1) % h = 0 := by
      rw [Nat.add_mod, show k % h = h - 1 by omega]
      by_cases h1 : h = 1
      · subst h1; simp
      · rw [Nat.mod_eq_of_lt (show 1 < h by omega), show h - 1 + 1 = h by omega, Nat.mod_self]
    rw [h1, if_pos (by omega)]
    simp
  · have h1 : (k + 1) % h = k % h + 1 := by
      rw [Nat.add_mod]
      by_cases h1 : h = 1
      · subst h1; omega
      · rw [Nat.mod_eq_of_lt (show 1 < h by omega), Nat.mod_eq_of_lt (by omega)]
    rw [h1, if_neg (by omega)]
    omega

theorem slot_top_iff (h k : Nat) :
    ((h : Int) - 1 - ((k % h : Nat) : Int) = (h : Int) - 1) ↔ k % h = 0 := by
  omega

/-- One iteration of the RAM64X1S loop, in the terms of the loop invariant: the
cell is due in slot `h - 1 - k % h`, and when that is not the top slot the base
is the primitive `k % h` places back in the pending buffer. -/
theorem ram64_step (h k : Nat) (hh : 0 < h) (cs : DRAMControlSet) (mt : IdString)
    (clkinv : Bool) (idx : Nat) (loc : Stack) (s : Packer)
    (hw : cs.wa.length ≤ 6)
    (hc : (s.cells.get? idx).map (fun c => (c.type, c.name)) ≠ none ∧
      ∀ ci, s.cells.get? idx = some ci → ci.type = mt)
    (hz : (if loc.z < 0 then (h : Int) - 1 else loc.z) = (h : Int) - 1 - ((k % h : Nat) : Int))
    (hbase : k % h ≠ 0 → ∃ bc, loc.base = some (CellRef.pending (s.new_cells.length - k % h)) ∧
      s.new_cells.get? (s.new_cells.length - k % h) = some bc ∧ k % h ≤ s.new_cells.length) :
    ∃ loc1 s1 p ci, pack_ram64x1s_cell h cs mt clkinv (CellRef.live idx) loc s = .ok (loc1, s1) ∧
      s.cells.get? idx = some ci ∧
      s1.new_cells.length = s.new_cells.length + 1 ∧ s1.BEL_6LUT = s.BEL_6LUT ∧
      (∀ i, (s1.cells.get? i).map (fun c => (c.type, c.name)) =
        (s.cells.get? i).map (fun c => (c.type, c.name))) ∧
      (∀ i c, s.new_cells.get? i = some c → ∃ c1, s1.new_cells.get? i = some c1 ∧ placed_as c c1) ∧
      s1.new_cells.get? s.new_cells.length = some p ∧
      p.name = ci.name ∧ p.constr_abs_z = true ∧
      p.constr_z = Int.lor (((h : Int) - 1 - ((k % h : Nat) : Int)) * 2 ^ 4) s.BEL_6LUT ∧
      p.constr_parent = (if k % h = 0 then none
        else some (CellRef.pending (s.new_cells.length - k % h))) ∧
      (k % h ≠ 0 → ∃ bc1, s1.new_cells.get? (s.new_cells.length - k % h) = some bc1 ∧
        CellRef.pending s.new_cells.length ∈ bc1.constr_children) ∧
      (if loc1.z < 0 then (h : Int) - 1 else loc1.z) =
        (h : Int) - 1 - (((k + 1) % h : Nat) : Int) ∧
      (k % h = 0 → loc1.base = some (CellRef.pending s.new_cells.length)) ∧
      (k % h ≠ 0 → loc1.base = loc.base) := by
  obtain ⟨hne, hty⟩ := hc
  cases hci : s.cells.get? idx with
  | none => rw [hci] at hne; exact absurd rfl hne
  | some ci =>
    have ht := hty ci hci
    have hfields : ∀ i, ((s.cells.set idx (disconnect_port ci "O")).get? i).map
        (fun c => (c.type, c.name)) = (s.cells.get? i).map (fun c => (c.type, c.name)) :=
      fun i => set_keeps_fields s.cells idx i ci _ hci (disconnect_port_fields ci "O").1
        (disconnect_port_fields ci "O").2
    by_cases hk : k % h = 0
    · have hz1 : (if loc.z < 0 then (h : Int) - 1 else loc.z) = (h : Int) - 1 := by
        rw [hz]; omega
      refine ⟨_, _, ram64_prim s cs ci clkinv ((h : Int) - 1) none, ci,
        ram64_step_base h cs mt clkinv idx loc s ci hci ht hw hz1, rfl, ?_, ?_, ?_, ?_, ?_, ?_, ?_,
        ?_, ?_, ?_, ?_, ?_, ?_⟩
      · simp [(mark_packed_new_cells _ _).1]
      · simp [(mark_packed_new_cells _ _).2.2.1]
      · intro i
        rw [(mark_packed_new_cells _ _).2.1]
        exact hfields i
      · intro i c hi
        rw [(mark_packed_new_cells _ _).1]
        exact ⟨c, get_after_push _ i c _ hi, placed_as_refl c⟩
      · rw [(mark_packed_new_cells _ _).1]
        exact get_append_last _ _
      · rfl
      · rfl
      · simp [ram64_prim, hk]
      · simp [ram64_prim, hk]
      · intro hne2; exact absurd hk hne2
      · have := next_slot h k hh ((h : Int) - 1) (by omega)
        simpa using this
      · intro _; rfl
      · intro hne2; exact absurd hk hne2
    · obtain ⟨bc, hb1, hb2, hb3⟩ := hbase hk
      have hz1 : ¬ (if loc.z < 0 then (h : Int) - 1 else loc.z) = (h : Int) - 1 := by
        rw [hz]; omega
      refine ⟨_, _, ram64_prim s cs ci clkinv (if loc.z < 0 then (h : Int) - 1 else loc.z)
        (some (CellRef.pending (s.new_cells.length - k % h))), ci,
        ram64_step_child h cs mt clkinv idx _ loc s ci bc hci ht hw hz1 hb1 hb2, rfl, ?_, ?_, ?_,
        ?_, ?_, ?_, ?_, ?_, ?_, ?_, ?_, ?_, ?_⟩
      · simp [(mark_packed_new_cells _ _).1]
      · simp [(mark_packed_new_cells _ _).2.2.1]
      · intro i
        rw [(mark_packed_new_cells _ _).2.1]
        exact hfields i
      · intro i c hi
        rw [(mark_packed_new_cells _ _).1]
        exact get_after_child _ _ i bc c _ _ hb2 hi
      · rw [(mark_packed_new_cells _ _).1]
        have := get_append_last (s.new_cells.set (s.new_cells.length - k % h)
          { bc with constr_children := bc.constr_children ++
            [CellRef.pending s.new_cells.length] })
          (ram64_prim s cs ci clkinv (if loc.z < 0 then (h : Int) - 1 else loc.z)
            (some (CellRef.pending (s.new_cells.length - k % h))))
        rwa [List.length_set] at this
      · rfl
      · rfl
      · simp [ram64_prim, hz]
      · simp [ram64_prim, hk]
      · intro _
        rw [(mark_packed_new_cells _ _).1]
        obtain ⟨c1, hc1, hp⟩ := get_after_child s.new_cells (s.new_cells.length - k % h)
          (s.new_cells.length - k % h) bc bc
          (ram64_prim s cs ci clkinv (if loc.z < 0 then (h : Int) - 1 else loc.z)
            (some (CellRef.pending (s.new_cells.length - k % h))))
          (CellRef.pending s.new_cells.length) hb2 hb2
        refine ⟨c1, hc1, ?_⟩
        have hil : s.new_cells.length - k % h < s.new_cells.length := by
          have := Nat.pos_of_ne_zero hk
          omega
        simp only [List.get?_eq_getElem?] at hc1
        rw [List.getElem?_append_left (by rw [List.length_set]; exact hil), List.getElem?_set,
          if_pos rfl, if_pos hil] at hc1
        cases hc1
        simp
      · exact next_slot h k hh _ hz
      · intro h0; exact absurd h0 hk
      · intro _; rfl

theorem succ_mod_cases (h k : Nat) (hh : 0 < h) :
    (k % h + 1 = h ∧ (k + 1) % h = 0) ∨ (k % h + 1 < h ∧ (k + 1) % h = k % h + 1) := by
  have hk : k % h < h := Nat.mod_lt k hh
  by_cases hl : k % h + 1 = h
  · left
    refine ⟨hl, ?_⟩
    rw [Nat.add_mod, show k % h = h - 1 by omega]
    by_cases h1 : h = 1
    · subst h1; simp
    · rw [Nat.mod_eq_of_lt (show 1 < h by omega), show h - 1 + 1 = h by omega, Nat.mod_self]
  · right
    refine ⟨by omega, ?_⟩
    rw [Nat.add_mod]
    by_cases h1 : h = 1
    · subst h1; omega
    · rw [Nat.mod_eq_of_lt (show 1 < h by omega), Nat.mod_eq_of_lt (by omega)]

theorem fields_name (a b : Option CellInfo)
    (h : a.map (fun c => (c.type, c.name)) = b.map (fun c => (c.type, c.name))) :
    a.map (fun c => c.name) = b.map (fun c => c.name) := by
  have := congrArg (Option.map Prod.snd) h
  simpa [Option.map_map, Function.comp] using this

/-- The RAM64X1S loop over a list of memory cells, started at the `k`-th cell of
the group: it returns, pushes one primitive per cell, keeps the placement of the
primitives made before, and places the `j`-th new primitive in slot
`h - 1 - (k + j) % h`, as a base when `(k + j) % h = 0` and else as a child of
the primitive `(k + j) % h` places before it. -/
theorem ram64_loop (h : Nat) (hh : 0 < h) (cs : DRAMControlSet) (mt : IdString) (clkinv : Bool)
    (hw : cs.wa.length ≤ 6) :
    ∀ (idxs : List Nat) (k : Nat) (loc : Stack) (s : Packer),
      (∀ i ∈ idxs, ∃ n, (s.cells.get? i).map (fun c => (c.type, c.name)) = some (mt, n)) →
      (if loc.z < 0 then (h : Int) - 1 else loc.z) = (h : Int) - 1 - ((k % h : Nat) : Int) →
      (k % h ≠ 0 → ∃ bc, loc.base = some (CellRef.pending (s.new_cells.length - k % h)) ∧
        s.new_cells.get? (s.new_cells.length - k % h) = some bc ∧ k % h ≤ s.new_cells.length) →
      ∃ loc1 s1, stack_loop (pack_ram64x1s_cell h cs mt clkinv) (idxs.map CellRef.live) loc s
          = .ok (loc1, s1) ∧
        s1.new_cells.length = s.new_cells.length + idxs.length ∧
        s1.BEL_6LUT = s.BEL_6LUT ∧
        (∀ i c, s.new_cells.get? i = some c →
          ∃ c1, s1.new_cells.get? i = some c1 ∧ placed_as c c1) ∧
        ∀ j, j < idxs.length → ∃ p, s1.new_cells.get? (s.new_cells.length + j) = some p ∧
          (idxs.get? j).bind (fun i => (s.cells.get? i).map (fun c => c.name)) = some p.name ∧
          p.constr_abs_z = true ∧
          p.constr_z = Int.lor (((h : Int) - 1 - (((k + j) % h : Nat) : Int)) * 2 ^ 4) s.BEL_6LUT ∧
          p.constr_parent = (if (k + j) % h = 0 then none
            else some (CellRef.pending (s.new_cells.length + j - (k + j) % h))) ∧
          ((k + j) % h ≠ 0 →
            ∃ b, s1.new_cells.get? (s.new_cells.length + j - (k + j) % h) = some b ∧
              CellRef.pending (s.new_cells.length + j) ∈ b.constr_children) := by
  intro idxs
  induction idxs with
  | nil =>
    intro k loc s _ _ _
    exact ⟨loc, s, rfl, rfl, rfl, fun i c hi => ⟨c, hi, placed_as_refl c⟩,
      fun j hj => absurd hj (Nat.not_lt_zero j)⟩
  | cons idx rest ih =>
    intro k loc s hcells hz hbase
    obtain ⟨n0, hn0⟩ := hcells idx (List.mem_cons_self _ _)
    have hc : (s.cells.get? idx).map (fun c => (c.type, c.name)) ≠ none ∧
        ∀ ci, s.cells.get? idx = some ci → ci.type = mt := by
      constructor
      · rw [hn0]; exact fun hx => Option.noConfusion hx
      · intro ci hci
        rw [hci] at hn0
        simp only [Option.map_some', Option.some.injEq, Prod.mk.injEq] at hn0
        exact hn0.1
    obtain ⟨loc1, s1, p, ci, hstep, hci, hlen, hbel, hfld, hold, hp, hpn, hpa, hpz, hpp, hpc,
      hz1, hb0, hb1⟩ := ram64_step h k hh cs mt clkinv idx loc s hw hc hz hbase
    have hcells1 : ∀ i ∈ rest, ∃ n,
        (s1.cells.get? i).map (fun c => (c.type, c.name)) = some (mt, n) := by
      intro i hi
      rw [hfld i]
      exact hcells i (List.mem_cons_of_mem _ hi)
    have hkm : k % h < h := Nat.mod_lt k hh
    have hbase1 : (k + 1) % h ≠ 0 →
        ∃ bc, loc1.base = some (CellRef.pending (s1.new_cells.length - (k + 1) % h)) ∧
          s1.new_cells.get? (s1.new_cells.length - (k + 1) % h) = some bc ∧
          (k + 1) % h ≤ s1.new_cells.length := by
      intro hne
      rcases succ_mod_cases h k hh with ⟨_, h0⟩ | ⟨hlt, h1⟩
      · exact absurd h0 hne
      · by_cases hk0 : k % h = 0
        · have e : s1.new_cells.length - (k + 1) % h = s.new_cells.length := by omega
          rw [e]
          exact ⟨p, hb0 hk0, hp, by omega⟩
        · obtain ⟨bc, hbc1, hbc2, hbc3⟩ := hbase hk0
          have e : s1.new_cells.length - (k + 1) % h = s.new_cells.length - k % h := by omega
          rw [e]
          obtain ⟨c1, hc1, _⟩ := hold _ bc hbc2
          exact ⟨c1, (hb1 hk0).trans hbc1, hc1, by omega⟩
    obtain ⟨loc2, s2, hrun, hlen2, hbel2, hold2, hnew2⟩ :=
      ih (k + 1) loc1 s1 hcells1 hz1 hbase1
    refine ⟨loc2, s2, ?_, ?_, ?_, ?_, ?_⟩
    · simp only [List.map_cons, stack_loop, bind, Except.bind, hstep]
      exact hrun
    · rw [hlen2, hlen, List.length_cons]; omega
    · rw [hbel2, hbel]
    · intro i c hi
      obtain ⟨c1, hc1, hp1⟩ := hold i c hi
      obtain ⟨c2, hc2, hp2⟩ := hold2 i c1 hc1
      exact ⟨c2, hc2, placed_as_trans c c1 c2 hp1 hp2⟩
    · intro j hj
      cases j with
      | zero =>
        obtain ⟨c2, hc2, hp2⟩ := hold2 _ p hp
        refine ⟨c2, hc2, ?_, ?_, ?_, ?_, ?_⟩
        · simp only [List.get?_cons_zero, Option.some_bind, hci, Option.map_some']
          rw [hp2.2.2.2.1, hpn]
        · rw [hp2.2.1, hpa]
        · rw [hp2.1, hpz]; rfl
        · rw [hp2.2.2.1, hpp]; rfl
        · intro hne
          obtain ⟨b1, hb1g, hb1c⟩ := hpc hne
          obtain ⟨b2, hb2g, hb2p⟩ := hold2 _ b1 hb1g
          exact ⟨b2, hb2g, hb2p.2.2.2.2 _ hb1c⟩
      | succ j =>
        obtain ⟨q, hq, hqn, hqa, hqz, hqp, hqc⟩ :=
          hnew2 j (by rw [List.length_cons] at hj; omega)
        have e1 : s1.new_cells.length + j = s.new_cells.length + (j + 1) := by omega
        have e2 : k + 1 + j = k + (j + 1) := by omega
        rw [e2, hbel] at hqz
        rw [e1, e2] at hqp hqc
        rw [e1] at hq
        refine ⟨q, hq, ?_, hqa, hqz, hqp, hqc⟩
        rw [← hqn, List.get?_cons_succ]
        congr 1
        funext i
        exact (fields_name _ _ (hfld i)).symm

/-- C8: a group of RAM64X1S cells c_0 .. c_{n-1} with one control set is packed
without error into n primitives, with h the cluster height (4 on xc7, else 8);
the primitive of c_k has the name of c_k, sits at the absolute offset
`(z << 4) | BEL_6LUT` of slot z = h - 1 - (k mod h), has no parent exactly when
k mod h = 0, and is else the child of the primitive of c_{k - (k mod h)}, in
whose list of children it is registered. -/
theorem pack_group_ram64x1s_slots (cs : DRAMControlSet) (idxs : List Nat) (s : Packer)
    (hm : cs.memtype = "RAM64X1S") (hw : cs.wa.length ≤ 6)
    (hcells : ∀ i ∈ idxs, (s.cells.get? i).map (fun c => c.type) = some "RAM64X1S") :
    ∃ r, pack_group cs (idxs.map CellRef.live) s = .ok r ∧
      cluster_height s = (if s.xc7 then 4 else 8) ∧
      r.new_cells.length = s.new_cells.length + idxs.length ∧
      ∀ k, k < idxs.length → ∃ p, r.new_cells.get? (s.new_cells.length + k) = some p ∧
        (idxs.get? k).bind (fun i => (s.cells.get? i).map (fun c => c.name)) = some p.name ∧
        p.constr_abs_z = true ∧
        p.constr_z = Int.lor ((cluster_height s - 1 -
          ((k % (cluster_height s).toNat : Nat) : Int)) * 2 ^ 4) s.BEL_6LUT ∧
        p.constr_parent = (if k % (cluster_height s).toNat = 0 then none
          else some (CellRef.pending
            (s.new_cells.length + k - k % (cluster_height s).toNat))) ∧
        (k % (cluster_height s).toNat ≠ 0 →
          ∃ b, r.new_cells.get? (s.new_cells.length + k - k % (cluster_height s).toNat)
              = some b ∧
            CellRef.pending (s.new_cells.length + k) ∈ b.constr_children) := by
  have hcells1 : ∀ i ∈ idxs, ∃ n,
      (s.cells.get? i).map (fun c => (c.type, c.name)) = some ("RAM64X1S", n) := by
    intro i hi
    have := hcells i hi
    cases hg : s.cells.get? i with
    | none => rw [hg] at this; cases this
    | some c =>
      rw [hg] at this
      simp only [Option.map_some', Option.some.injEq] at this
      exact ⟨c.name, by simp [this]⟩
  have key : ∀ h : Nat, 0 < h → cluster_height s = (h : Int) →
      ∃ r, pack_group cs (idxs.map CellRef.live) s = .ok r ∧
      r.new_cells.length = s.new_cells.length + idxs.length ∧
      ∀ k, k < idxs.length → ∃ p, r.new_cells.get? (s.new_cells.length + k) = some p ∧
        (idxs.get? k).bind (fun i => (s.cells.get? i).map (fun c => c.name)) = some p.name ∧
        p.constr_abs_z = true ∧
        p.constr_z = Int.lor (((h : Int) - 1 - ((k % h : Nat) : Int)) * 2 ^ 4) s.BEL_6LUT ∧
        p.constr_parent = (if k % h = 0 then none
          else some (CellRef.pending (s.new_cells.length + k - k % h))) ∧
        (k % h ≠ 0 → ∃ b, r.new_cells.get? (s.new_cells.length + k - k % h) = some b ∧
            CellRef.pending (s.new_cells.length + k) ∈ b.constr_children) := by
    intro h hh hch
    obtain ⟨loc1, s1, hrun, hlen, _, _, hnew⟩ :=
      ram64_loop h hh cs "RAM64X1S" false hw idxs 0 { z := (h : Int) - 1, base := none } s
        hcells1 (by simp) (fun h0 => absurd (Nat.zero_mod h) h0)
    refine ⟨s1, ?_, hlen, ?_⟩
    · simp only [pack_group, hm, hch]
      simp only [String.reduceEq, if_false, if_true, hrun]
      rfl
    · intro k hk
      have := hnew k hk
      simpa only [Nat.zero_add] using this
  have hx : cluster_height s = (if s.xc7 then 4 else 8) := rfl
  cases hxc : s.xc7 with
  | true =>
    have hch : cluster_height s = ((4 : Nat) : Int) := by simp [cluster_height, hxc]
    obtain ⟨r, h1, h2, h3⟩ := key 4 (by decide) hch
    refine ⟨r, h1, by simp [cluster_height, hxc], h2, ?_⟩
    rw [hch]
    exact h3
  | false =>
    have hch : cluster_height s = ((8 : Nat) : Int) := by simp [cluster_height, hxc]
    obtain ⟨r, h1, h2, h3⟩ := key 8 (by decide) hch
    refine ⟨r, h1, by simp [cluster_height, hxc], h2, ?_⟩
    rw [hch]
    exact h3

theorem pack_group_ram64x1s_slots_witness :
    ∃ r, pack_group shared_control ([0, 1].map CellRef.live) two_cell_design = .ok r ∧
      cluster_height two_cell_design = (if two_cell_design.xc7 then 4 else 8) ∧
      r.new_cells.length = two_cell_design.new_cells.length + [0, 1].length ∧
      ∀ k, k < [0, 1].length →
        ∃ p, r.new_cells.get? (two_cell_design.new_cells.length + k) = some p ∧
        ([0, 1].get? k).bind (fun i => (two_cell_design.cells.get? i).map (fun c => c.name))
          = some p.name ∧
        p.constr_abs_z = true ∧
        p.constr_z = Int.lor ((cluster_height two_cell_design - 1 -
          ((k % (cluster_height two_cell_design).toNat : Nat) : Int)) * 2 ^ 4)
            two_cell_design.BEL_6LUT ∧
        p.constr_parent = (if k % (cluster_height two_cell_design).toNat = 0 then none
          else some (CellRef.pending
            (two_cell_design.new_cells.length + k - k % (cluster_height two_cell_design).toNat))) ∧
        (k % (cluster_height two_cell_design).toNat ≠ 0 →
          ∃ b, r.new_cells.get?
              (two_cell_design.new_cells.length + k - k % (cluster_height two_cell_design).toNat)
              = some b ∧
            CellRef.pending (two_cell_design.new_cells.length + k) ∈ b.constr_children) :=
  pack_group_ram64x1s_slots shared_control [0, 1] two_cell_design rfl (by decide) (by decide)

/-! ### One RAM64X1S cell through the whole sweep -/

theorem tie_high_bit_skip (s : Packer) (dt : DRAMType) (ci : CellInfo) (i : Nat)
    (h : on_gnd s (get_net_or_empty ci (addr_port dt.abits "A" i)) = false) :
    tie_high_bit s dt ci i = .ok (ci, false) := by
  unfold tie_high_bit
  simp only
  by_cases h1 : (!dict_count ci.ports (addr_port dt.abits "A" i)) = true
  · rw [if_pos h1]; rfl
  · rw [if_neg h1, if_pos (by rw [h]; rfl)]; rfl

theorem addr_port_six :
    addr_port 6 "A" 0 = "A0" ∧ addr_port 6 "A" 1 = "A1" ∧ addr_port 6 "A" 2 = "A2" ∧
    addr_port 6 "A" 3 = "A3" ∧ addr_port 6 "A" 4 = "A4" ∧ addr_port 6 "A" 5 = "A5" := by
  decide

/-- The pre-pass leaves a RAM64X1S cell alone when none of its address inputs
is on the logic-0 net. -/
theorem tie_high_cell_skip (s : Packer) (ci : CellInfo) (ht : ci.type = "RAM64X1S")
    (h0 : on_gnd s (get_net_or_empty ci "A0") = false)
    (h1 : on_gnd s (get_net_or_empty ci "A1") = false)
    (h2 : on_gnd s (get_net_or_empty ci "A2") = false)
    (h3 : on_gnd s (get_net_or_empty ci "A3") = false)
    (h4 : on_gnd s (get_net_or_empty ci "A4") = false)
    (h5 : on_gnd s (get_net_or_empty ci "A5") = false) :
    tie_high_cell s ci = .ok (ci, []) := by
  obtain ⟨e0, e1, e2, e3, e4, e5⟩ := addr_port_six
  have hd : dict_find dram_types "RAM64X1S" = some { abits := 6, dbits := 1, rports := 0 } := by
    decide
  unfold tie_high_cell
  rw [ht, hd]
  simp only [show min 6 6 = 6 from rfl, tie_high_bits, bind, Except.bind, Nat.reduceAdd, zero_add]
  rw [tie_high_bit_skip s _ ci 0 (by rw [e0]; exact h0)]
  simp only [Bool.false_eq_true, if_false]
  rw [tie_high_bit_skip s _ ci 1 (by rw [e1]; exact h1)]
  simp only [Bool.false_eq_true, if_false]
  rw [tie_high_bit_skip s _ ci 2 (by rw [e2]; exact h2)]
  simp only [Bool.false_eq_true, if_false]
  rw [tie_high_bit_skip s _ ci 3 (by rw [e3]; exact h3)]
  simp only [Bool.false_eq_true, if_false]
  rw [tie_high_bit_skip s _ ci 4 (by rw [e4]; exact h4)]
  simp only [Bool.false_eq_true, if_false]
  rw [tie_high_bit_skip s _ ci 5 (by rw [e5]; exact h5)]
  rfl

theorem mark_packed_mem (s : Packer) (n : IdString) : n ∈ (mark_packed s n).packed_cells := by
  unfold mark_packed
  split_ifs with h
  · exact h
  · exact List.mem_append_right _ (List.mem_singleton_self n)

/-- The control set of a RAM64X1S cell on the address nets a0..a5. -/
theorem control_set_ram64 (s : Packer) (ci : CellInfo) (a0 a1 a2 a3 a4 a5 : NetId)
    (ht : ci.type = "RAM64X1S")
    (hA0 : get_net_or_empty ci "A0" = some a0) (hA1 : get_net_or_empty ci "A1" = some a1)
    (hA2 : get_net_or_empty ci "A2" = some a2) (hA3 : get_net_or_empty ci "A3" = some a3)
    (hA4 : get_net_or_empty ci "A4" = some a4) (hA5 : get_net_or_empty ci "A5" = some a5) :
    control_set s { abits := 6, dbits := 1, rports := 0 } ci =
      { wa := [some a0, some a1, some a2, some a3, some a4, some a5]
        wclk := get_net_or_empty ci "WCLK"
        we := get_net_or_empty ci "WE"
        wclk_inv := bool_or_default ci.params "IS_WCLK_INVERTED"
        memtype := "RAM64X1S" } := by
  obtain ⟨e0, e1, e2, e3, e4, e5⟩ := addr_port_six
  simp only [control_set, address_nets, Nat.reduceAdd, zero_add, e0, e1, e2, e3, e4, e5, hA0, hA1,
    hA2, hA3, hA4, hA5, ht]
  simp

theorem pack_slice_cell_other (s : Packer) (idx : Nat) (c : CellInfo)
    (hc : s.cells.get? idx = some c) (h1 : c.type ≠ "RAM64M") (h2 : c.type ≠ "RAM32M") :
    pack_slice_cell idx s = .ok s := by
  unfold pack_slice_cell
  simp only [deref_live s idx c hc, bind, Except.bind, h1, h2, or_self, if_false]
  rfl

/-- The sweep of pack_dram on a design of one RAM64X1S cell that the pre-pass
leaves alone: one primitive is pushed and the cell is retired. -/
theorem sweep_single_ram64 (s : Packer) (ci : CellInfo) (cs : DRAMControlSet)
    (hcells : s.cells = [ci]) (ht : ci.type = "RAM64X1S")
    (hskip : tie_high_cell s ci = .ok (ci, []))
    (hcs : control_set s { abits := 6, dbits := 1, rports := 0 } ci = cs)
    (hw : cs.wa.length ≤ 6) (hm : cs.memtype = "RAM64X1S") :
    pack_dram_sweep s = .ok (mark_packed
      { s with cells := s.cells.set 0 (disconnect_port ci "O")
               new_cells := s.new_cells ++ [ram64_prim s cs ci false (cluster_height s - 1) none] }
      ci.name) := by
  have hd : dict_find dram_types "RAM64X1S" = some { abits := 6, dbits := 1, rports := 0 } := by
    decide
  have h1 : tie_high_pass s = .ok s := by
    unfold tie_high_pass
    rw [hcells]
    simp only [tie_high_cells, bind, Except.bind, hskip, pure, Except.pure]
    rw [← hcells]
  have h2 : dram_groups s = [(cs, [CellRef.live 0])] := by
    unfold dram_groups
    rw [hcells]
    simp only [dram_groups_loop, ht, hd, group_insert, hcs]
  have hget : s.cells.get? 0 = some ci := by rw [hcells]; rfl
  have hz : (if ({ z := cluster_height s - 1, base := none } : Stack).z < 0
      then cluster_height s - 1 else ({ z := cluster_height s - 1, base := none } : Stack).z)
      = cluster_height s - 1 := by
    have : ¬ cluster_height s - 1 < 0 := by
      unfold cluster_height
      split_ifs <;> decide
    simp only [this, if_false]
  have hstep := ram64_step_base (cluster_height s) cs "RAM64X1S" false 0
    { z := cluster_height s - 1, base := none } s ci hget ht hw hz
  obtain ⟨s2, hs2⟩ : ∃ s2, s2 = mark_packed
      { s with cells := s.cells.set 0 (disconnect_port ci "O")
               new_cells := s.new_cells ++ [ram64_prim s cs ci false (cluster_height s - 1) none] }
      ci.name := ⟨_, rfl⟩
  rw [← hs2] at hstep ⊢
  have hq : s2.cells = [disconnect_port ci "O"] := by
    rw [hs2, (mark_packed_new_cells _ _).2.1]
    simp only [hcells, List.set_cons_zero]
  have h4 : pack_slice_cell 0 s2 = .ok s2 :=
    pack_slice_cell_other s2 0 (disconnect_port ci "O") (by rw [hq]; rfl)
      (by rw [(disconnect_port_fields ci "O").1, ht]; decide)
      (by rw [(disconnect_port_fields ci "O").1, ht]; decide)
  unfold pack_dram_sweep
  simp only [h1, bind, Except.bind, h2, pack_groups, pack_group, hm, String.reduceEq, if_false,
    if_true, stack_loop, hstep, Except.map, pure, Except.pure, hq, List.length_singleton,
    pack_slices, h4]

/-- C9: a design of one RAM64X1S cell with INIT = P whose address inputs A0..A5
are on the nets a0..a5, none of them the logic-0 net, goes through pack_dram
without error; exactly one primitive is pushed for it, of type SLICE_LUTX and of
the cell's name, with A1..A6 and WA1..WA6 on a0..a5, DI1 and O6 on the nets of D
and O, INIT equal to P, and the cell's name is among the retired cells. -/
theorem pack_dram_single_ram64x1s (s : Packer) (ci : CellInfo) (P : Property)
    (a0 a1 a2 a3 a4 a5 : NetId)
    (hcells : s.cells = [ci]) (ht : ci.type = "RAM64X1S")
    (hP : dict_find ci.params "INIT" = some P)
    (hA0 : get_net_or_empty ci "A0" = some a0) (hA1 : get_net_or_empty ci "A1" = some a1)
    (hA2 : get_net_or_empty ci "A2" = some a2) (hA3 : get_net_or_empty ci "A3" = some a3)
    (hA4 : get_net_or_empty ci "A4" = some a4) (hA5 : get_net_or_empty ci "A5" = some a5)
    (hG0 : on_gnd s (some a0) = false) (hG1 : on_gnd s (some a1) = false)
    (hG2 : on_gnd s (some a2) = false) (hG3 : on_gnd s (some a3) = false)
    (hG4 : on_gnd s (some a4) = false) (hG5 : on_gnd s (some a5) = false) :
    ∃ r p, pack_dram_sweep s = .ok r ∧ pack_dram s = .ok (flush_cells r) ∧
      r.new_cells = s.new_cells ++ [p] ∧
      p.type = "SLICE_LUTX" ∧ p.name = ci.name ∧
      get_net_or_empty p "A1" = some a0 ∧ get_net_or_empty p "A2" = some a1 ∧
      get_net_or_empty p "A3" = some a2 ∧ get_net_or_empty p "A4" = some a3 ∧
      get_net_or_empty p "A5" = some a4 ∧ get_net_or_empty p "A6" = some a5 ∧
      get_net_or_empty p "WA1" = some a0 ∧ get_net_or_empty p "WA2" = some a1 ∧
      get_net_or_empty p "WA3" = some a2 ∧ get_net_or_empty p "WA4" = some a3 ∧
      get_net_or_empty p "WA5" = some a4 ∧ get_net_or_empty p "WA6" = some a5 ∧
      get_net_or_empty p "DI1" = get_net_or_empty ci "D" ∧
      get_net_or_empty p "O6" = get_net_or_empty ci "O" ∧
      dict_find p.params "INIT" = some P ∧
      ci.name ∈ r.packed_cells := by
  have hsweep := sweep_single_ram64 s ci _ hcells ht
    (tie_high_cell_skip s ci ht (by rw [hA0]; exact hG0) (by rw [hA1]; exact hG1)
      (by rw [hA2]; exact hG2) (by rw [hA3]; exact hG3) (by rw [hA4]; exact hG4)
      (by rw [hA5]; exact hG5))
    (control_set_ram64 s ci a0 a1 a2 a3 a4 a5 ht hA0 hA1 hA2 hA3 hA4 hA5)
    (Nat.le_refl 6) rfl
  refine ⟨_, _, hsweep, ?_, (mark_packed_new_cells _ _).1, rfl, rfl, ?_, ?_, ?_, ?_, ?_, ?_, ?_,
    ?_, ?_, ?_, ?_, ?_, ?_, ?_, ?_, mark_packed_mem _ _⟩
  · unfold pack_dram
    rw [hsweep]
    rfl
  all_goals first
    | (simp only [ram64_prim, hP]; exact dict_find_set_self _ _ _)
    | decide
    | rfl

theorem pack_dram_single_ram64x1s_witness :
    ∃ r p, pack_dram_sweep one_cell_design = .ok r ∧
      pack_dram one_cell_design = .ok (flush_cells r) ∧
      r.new_cells = one_cell_design.new_cells ++ [p] ∧
      p.type = "SLICE_LUTX" ∧ p.name = (ram64_cell "m0" 8 9 (Property.of_int 5 64)).name ∧
      get_net_or_empty p "A1" = some 2 ∧ get_net_or_empty p "A2" = some 3 ∧
      get_net_or_empty p "A3" = some 4 ∧ get_net_or_empty p "A4" = some 5 ∧
      get_net_or_empty p "A5" = some 6 ∧ get_net_or_empty p "A6" = some 7 ∧
      get_net_or_empty p "WA1" = some 2 ∧ get_net_or_empty p "WA2" = some 3 ∧
      get_net_or_empty p "WA3" = some 4 ∧ get_net_or_empty p "WA4" = some 5 ∧
      get_net_or_empty p "WA5" = some 6 ∧ get_net_or_empty p "WA6" = some 7 ∧
      get_net_or_empty p "DI1" = get_net_or_empty (ram64_cell "m0" 8 9 (Property.of_int 5 64)) "D" ∧
      get_net_or_empty p "O6" = get_net_or_empty (ram64_cell "m0" 8 9 (Property.of_int 5 64)) "O" ∧
      dict_find p.params "INIT" = some (Property.of_int 5 64) ∧
      (ram64_cell "m0" 8 9 (Property.of_int 5 64)).name ∈ r.packed_cells :=
  pack_dram_single_ram64x1s one_cell_design (ram64_cell "m0" 8 9 (Property.of_int 5 64))
    (Property.of_int 5 64) 2 3 4 5 6 7 rfl rfl (by decide) (by decide) (by decide) (by decide)
    (by decide) (by decide) (by decide) (by decide) (by decide) (by decide) (by decide)
    (by decide) (by decide)

/-! ### prepare_clocking on a BUFG cell -/

theorem dict_find_set_ne {α : Type} (m : List (IdString × α)) (k q : IdString) (v : α)
    (h : q ≠ k) : dict_find (dict_set m k v) q = dict_find m q := by
  induction m with
  | nil =>
    simp only [dict_set, dict_find]
    rw [if_neg (fun e => h e.symm)]
  | cons e rest ih =>
    obtain ⟨k1, v1⟩ := e
    simp only [dict_set]
    by_cases h1 : k1 = k
    · rw [if_pos h1]
      simp only [dict_find]
      rw [if_neg (fun e => h (e.symm.trans h1)), if_neg (fun e => h (e.symm.trans h1))]
    · rw [if_neg h1]
      simp only [dict_find, ih]

theorem dict_find_erase_ne {α : Type} (m : List (IdString × α)) (k q : IdString)
    (h : q ≠ k) : dict_find (dict_erase m k) q = dict_find m q := by
  induction m with
  | nil => rfl
  | cons e rest ih =>
    obtain ⟨k1, v1⟩ := e
    simp only [dict_erase]
    by_cases h1 : k1 = k
    · rw [if_pos h1]
      simp only [dict_find]
      rw [if_neg (fun e => h (e.symm.trans h1))]
    · rw [if_neg h1]
      simp only [dict_find, ih]

theorem mem_keys_dict_set {α : Type} (m : List (IdString × α)) (k x : IdString) (v : α) :
    x ∈ (dict_set m k v).map (fun e => e.1) ↔ x ∈ m.map (fun e => e.1) ∨ x = k := by
  induction m with
  | nil => simp [dict_set]
  | cons e rest ih =>
    obtain ⟨k1, v1⟩ := e
    simp only [dict_set]
    by_cases h1 : k1 = k
    · rw [if_pos h1]
      simp only [List.map_cons, List.mem_cons]
      constructor
      · intro h; exact Or.inl h
      · rintro (h | h)
        · exact h
        · exact Or.inl (h.trans h1.symm)
    · rw [if_neg h1]
      simp only [List.map_cons, List.mem_cons, ih]
      tauto

theorem nodup_keys_dict_set {α : Type} (m : List (IdString × α)) (k : IdString) (v : α)
    (h : (m.map (fun e => e.1)).Nodup) : ((dict_set m k v).map (fun e => e.1)).Nodup := by
  induction m with
  | nil => simp [dict_set]
  | cons e rest ih =>
    obtain ⟨k1, v1⟩ := e
    simp only [List.map_cons, List.nodup_cons] at h
    simp only [dict_set]
    by_cases h1 : k1 = k
    · rw [if_pos h1]
      simp only [List.map_cons, List.nodup_cons]
      exact h
    · rw [if_neg h1]
      simp only [List.map_cons, List.nodup_cons, mem_keys_dict_set]
      exact ⟨fun hx => hx.elim h.1 h1, ih h.2⟩

/-- What tie_port does to a port that is absent or unconnected: the port ends on
the constant net, every other port is as before, and only parameters change
otherwise. -/
theorem tie_port_spec (s : Packer) (ci : CellInfo) (port : String) (value inv : Bool) (n : NetId)
    (hn : net_by_name s (if value then "$PACKER_VCC_NET" else "$PACKER_GND_NET") = some n)
    (hfree : get_net_or_empty ci port = none) :
    ∃ c, tie_port s ci port value inv = .ok c ∧ c.type = ci.type ∧ c.name = ci.name ∧
      get_net_or_empty c port = some n ∧
      (∀ q, q ≠ port → dict_find c.ports q = dict_find ci.ports q) ∧
      ((ci.ports.map (fun e => e.1)).Nodup → (c.ports.map (fun e => e.1)).Nodup) ∧
      c.attrs = ci.attrs ∧
      (∀ key, key ≠ "IS_" ++ port ++ "_INVERTED" →
        dict_find c.params key = dict_find ci.params key) := by
  unfold tie_port
  cases hp : dict_find ci.ports port with
  | some pp =>
    have hnet : pp.net = none := by
      unfold get_net_or_empty at hfree
      rw [hp] at hfree
      exact hfree
    simp only [dict_count, hp, Option.isSome_some, if_true, get_net_or_empty, hnet, ne_eq,
      not_true_eq_false, if_false, hn, connect_port_eq, bind, Except.bind, pure, Except.pure]
    refine ⟨_, rfl, ?_, ?_, ?_, ?_, ?_, ?_, ?_⟩
    · split_ifs <;> rfl
    · split_ifs <;> rfl
    · split_ifs <;> simp only [dict_find_set_self]
    · intro q hq
      split_ifs <;> exact dict_find_set_ne _ _ _ _ hq
    · intro hnd
      split_ifs <;> exact nodup_keys_dict_set _ _ _ hnd
    · split_ifs <;> rfl
    · intro key hk
      split_ifs
      · exact dict_find_set_ne _ _ _ _ hk
      · rfl
  | none =>
    simp only [dict_count, hp, Option.isSome_none, Bool.false_eq_true, if_false, get_net_or_empty,
      dict_find_set_self, ne_eq, not_true_eq_false, hn, connect_port_eq, bind, Except.bind, pure,
      Except.pure, if_true]
    refine ⟨_, rfl, ?_, ?_, ?_, ?_, ?_, ?_, ?_⟩
    · split_ifs <;> rfl
    · split_ifs <;> rfl
    · split_ifs <;> simp only [dict_find_set_self]
    · intro q hq
      split_ifs <;> simp only [dict_find_set_ne _ _ _ _ hq]
    · intro hnd
      split_ifs <;> exact nodup_keys_dict_set _ _ _ (nodup_keys_dict_set _ _ _ hnd)
    · split_ifs <;> rfl
    · intro key hk
      split_ifs
      · exact dict_find_set_ne _ _ _ _ hk
      · rfl

theorem rename_all_bufg_skip (names : List IdString) (ports : List (IdString × PortInfo))
    (h : "I" ∉ names) : rename_all [("I", "I0")] names ports = ports := by
  induction names with
  | nil => rfl
  | cons p rest ih =>
    simp only [List.mem_cons, not_or] at h
    simp only [rename_all, rename_step, dict_find]
    rw [if_neg h.1]
    exact ih h.2

theorem rename_all_bufg (names : List IdString) (ports : List (IdString × PortInfo))
    (hnd : names.Nodup) (h : "I" ∈ names) :
    rename_all [("I", "I0")] names ports = rename_in ports "I" "I0" := by
  induction names generalizing ports with
  | nil => cases h
  | cons p rest ih =>
    simp only [List.nodup_cons] at hnd
    simp only [rename_all, rename_step, dict_find]
    by_cases hp : "I" = p
    · subst hp
      simp only [if_true, ne_eq, String.reduceEq, not_false_eq_true]
      exact rename_all_bufg_skip rest _ hnd.1
    · rw [if_neg hp]
      simp only [List.mem_cons] at h
      exact ih ports hnd.2 (h.resolve_left hp)

theorem mem_keys_of_find {α : Type} (m : List (IdString × α)) (k : IdString) (v : α)
    (h : dict_find m k = some v) : k ∈ m.map (fun e => e.1) := by
  induction m with
  | nil => cases h
  | cons e rest ih =>
    obtain ⟨k1, v1⟩ := e
    simp only [dict_find] at h
    simp only [List.map_cons, List.mem_cons]
    by_cases h1 : k1 = k
    · exact Or.inl h1.symm
    · rw [if_neg h1] at h
      exact Or.inr (ih h)

/-- The BUFG rule of bufgctrl_rules on a cell with an input I: the type becomes
BUFGCTRL, I0 is on the net of I, and every port but I and I0 is as before. -/
theorem xform_bufg (c : CellInfo) (pI : PortInfo) (ht : c.type = "BUFG")
    (hI : dict_find c.ports "I" = some pI) (hnd : (c.ports.map (fun e => e.1)).Nodup) :
    ∃ c2, xform_cell bufgctrl_rules c = .ok c2 ∧ c2.type = "BUFGCTRL" ∧ c2.name = c.name ∧
      get_net_or_empty c2 "I0" = pI.net ∧
      ∀ q, q ≠ "I" → q ≠ "I0" → dict_find c2.ports q = dict_find c.ports q := by
  have hf : dict_find bufgctrl_rules c.type = some
      { new_type := "BUFGCTRL", port_xform := [("I", "I0")], port_multixform := [],
        set_attrs := [] } := by
    rw [ht]; decide
  refine ⟨_, xform_cell_renames bufgctrl_rules c _ hf rfl, rfl, rfl, ?_, ?_⟩
  · simp only [get_net_or_empty, rename_all_bufg _ _ hnd (mem_keys_of_find _ _ _ hI), rename_in,
      hI, dict_find_set_self]
  · intro q h1 h2
    simp only [rename_all_bufg _ _ hnd (mem_keys_of_find _ _ _ hI), rename_in, hI]
    rw [dict_find_set_ne _ _ _ _ h2, dict_find_erase_ne _ _ _ h1]

/-- The four tie-offs of the BUFG branch of prepare_clocking. -/
theorem tie_ports_bufg (s : Packer) (ci : CellInfo) (v g : NetId)
    (hv : net_by_name s "$PACKER_VCC_NET" = some v)
    (hg : net_by_name s "$PACKER_GND_NET" = some g)
    (h1 : get_net_or_empty ci "CE0" = none) (h2 : get_net_or_empty ci "S0" = none)
    (h3 : get_net_or_empty ci "S1" = none) (h4 : get_net_or_empty ci "IGNORE0" = none) :
    ∃ c, tie_ports s [("CE0", true, true), ("S0", true, true), ("S1", false, true),
        ("IGNORE0", true, true)] ci = .ok c ∧ c.type = ci.type ∧ c.name = ci.name ∧
      get_net_or_empty c "CE0" = some v ∧ get_net_or_empty c "S0" = some v ∧
      get_net_or_empty c "S1" = some g ∧ get_net_or_empty c "IGNORE0" = some v ∧
      (∀ q, q ≠ "CE0" → q ≠ "S0" → q ≠ "S1" → q ≠ "IGNORE0" →
        dict_find c.ports q = dict_find ci.ports q) ∧
      ((ci.ports.map (fun e => e.1)).Nodup → (c.ports.map (fun e => e.1)).Nodup) := by
  obtain ⟨c1, e1, t1, n1, p1, f1, d1, _⟩ := tie_port_spec s ci "CE0" true true v hv h1
  have g2 : get_net_or_empty c1 "S0" = none := by
    unfold get_net_or_empty at h2 ⊢
    rw [f1 "S0" (by decide)]; exact h2
  obtain ⟨c2, e2, t2, n2, p2, f2, d2, _⟩ := tie_port_spec s c1 "S0" true true v hv g2
  have g3 : get_net_or_empty c2 "S1" = none := by
    unfold get_net_or_empty at h3 ⊢
    rw [f2 "S1" (by decide), f1 "S1" (by decide)]; exact h3
  obtain ⟨c3, e3, t3, n3, p3, f3, d3, _⟩ := tie_port_spec s c2 "S1" false true g hg g3
  have g4 : get_net_or_empty c3 "IGNORE0" = none := by
    unfold get_net_or_empty at h4 ⊢
    rw [f3 "IGNORE0" (by decide), f2 "IGNORE0" (by decide), f1 "IGNORE0" (by decide)]; exact h4
  obtain ⟨c4, e4, t4, n4, p4, f4, d4, _⟩ := tie_port_spec s c3 "IGNORE0" true true v hv g4
  refine ⟨c4, ?_, ?_, ?_, ?_, ?_, ?_, p4, ?_, ?_⟩
  · simp only [tie_ports, e1, e2, e3, e4, bind, Except.bind]
    rfl
  · rw [t4, t3, t2, t1]
  · rw [n4, n3, n2, n1]
  · unfold get_net_or_empty at p1 ⊢
    rw [f4 "CE0" (by decide), f3 "CE0" (by decide), f2 "CE0" (by decide)]; exact p1
  · unfold get_net_or_empty at p2 ⊢
    rw [f4 "S0" (by decide), f3 "S0" (by decide)]; exact p2
  · unfold get_net_or_empty at p3 ⊢
    rw [f4 "S1" (by decide)]; exact p3
  · intro q q1 q2 q3 q4
    rw [f4 q q4, f3 q q3, f2 q q2, f1 q q1]
  · intro hnd
    exact d4 (d3 (d2 (d1 hnd)))

theorem except_bind_ok {α β : Type} (x : Except String α) (f : α → Except String β) (b : β)
    (h : (x >>= f) = .ok b) : ∃ a, x = .ok a ∧ f a = .ok b := by
  cases x with
  | error e => cases h
  | ok a => exact ⟨a, rfl, h⟩

theorem same_but_refl (j : Nat) (s : Packer) : same_but j s s :=
  ⟨rfl, rfl, fun _ _ => rfl⟩

theorem same_but_trans (j : Nat) (s t u : Packer) (h1 : same_but j s t) (h2 : same_but j t u) :
    same_but j s u :=
  ⟨h2.1.trans h1.1, h2.2.1.trans h1.2.1, fun i hi => (h2.2.2 i hi).trans (h1.2.2 i hi)⟩

theorem same_but_set_cell (j : Nat) (s : Packer) (c : CellInfo) :
    same_but j s (set_cell s (CellRef.live j) c) := by
  refine ⟨rfl, ?_, ?_⟩
  · simp only [set_cell, List.length_set]
  · intro i hi
    simp only [set_cell, List.get?_eq_getElem?, List.getElem?_set]
    rw [if_neg (fun e => hi e.symm)]

theorem same_but_mark_packed (j : Nat) (s : Packer) (n : IdString) :
    same_but j s (mark_packed s n) := by
  have h := mark_packed_new_cells s n
  exact ⟨h.2.2.2.2, by rw [h.2.1], fun i _ => by rw [h.2.1]⟩

/-- The tail of every branch of the loop body: a cell computed and stored back. -/
theorem same_but_store (j : Nat) (s t : Packer) (x : Except String CellInfo)
    (h : (x >>= fun c => pure (set_cell s (CellRef.live j) c)) = .ok t) : same_but j s t := by
  obtain ⟨c, _, hc⟩ := except_bind_ok x _ t h
  cases hc
  exact same_but_set_cell j s c

theorem fold_inverter_tail (j : Nat) (s t : Packer) (ci : CellInfo) (port : String)
    (net : NetId) (drv : CellRef × CellInfo) (inp : Option IdString)
    (h : (match inp with
      | none => pure s
      | some i => do
        let preinv := get_net_or_empty drv.2 i
        let c1 ← connect_port preinv (disconnect_port ci port) port
        let key : IdString := "IS_" ++ port ++ "_INVERTED"
        let c2 : CellInfo := { c1 with params := dict_set c1.params key (Property.of_int 1 32) }
        let s1 := set_cell s (CellRef.live j) c2
        pure (if has_users s1 net then s1 else mark_packed s1 drv.2.name)) = Except.ok t) :
    same_but j s t := by
  cases inp with
  | none => cases h; exact same_but_refl j s
  | some i =>
    obtain ⟨c1, _, h⟩ := except_bind_ok _ _ t h
    simp only [pure, Except.pure, Except.ok.injEq] at h
    subst h
    split_ifs
    · exact same_but_set_cell j s _
    · exact same_but_trans j _ _ _ (same_but_set_cell j s _) (same_but_mark_packed j _ _)

theorem fold_inverter_frame (j : Nat) (s t : Packer) (port : String)
    (h : fold_inverter s (CellRef.live j) port = .ok t) : same_but j s t := by
  unfold fold_inverter at h
  obtain ⟨ci, _, h⟩ := except_bind_ok _ _ t h
  cases hnet : get_net_or_empty ci port with
  | none => rw [hnet] at h; cases h; exact same_but_refl j s
  | some net =>
    rw [hnet] at h
    cases hdrv : driver_of s net with
    | none => simp only [hdrv] at h; cases h; exact same_but_refl j s
    | some drv =>
      simp only [hdrv] at h
      exact fold_inverter_tail j s t ci port net drv _ h

/-- The loop body of prepare_clocking touches the cell it visits and no other. -/
theorem prepare_clocking_cell_frame (j : Nat) (s t : Packer)
    (h : prepare_clocking_cell j s = .ok t) : same_but j s t := by
  unfold prepare_clocking_cell at h
  obtain ⟨ci, _, h⟩ := except_bind_ok _ _ t h
  cases hu : dict_find upgrade ci.type with
  | some new_type =>
    simp only [hu, pure, Except.pure, Except.ok.injEq] at h
    subst h
    exact same_but_set_cell j s _
  | none =>
    simp only [hu] at h
    split_ifs at h
    · exact same_but_store j s t _ h
    · obtain ⟨s1, hs1, h⟩ := except_bind_ok _ _ t h
      obtain ⟨c0, _, h⟩ := except_bind_ok _ _ t h
      exact same_but_trans j _ _ _ (fold_inverter_frame j s s1 _ hs1) (same_but_store j s1 t _ h)
    · exact same_but_store j s t _ h
    · obtain ⟨s1, hs1, h⟩ := except_bind_ok _ _ t h
      obtain ⟨c0, _, h⟩ := except_bind_ok _ _ t h
      exact same_but_trans j _ _ _ (fold_inverter_frame j s s1 _ hs1) (same_but_store j s1 t _ h)
    · obtain ⟨s1, hs1, h⟩ := except_bind_ok _ _ t h
      obtain ⟨c0, _, h⟩ := except_bind_ok _ _ t h
      obtain ⟨c2, _, h⟩ := except_bind_ok _ _ t h
      exact same_but_trans j _ _ _ (fold_inverter_frame j s s1 _ hs1) (same_but_store j s1 t _ h)
    · cases h
      exact same_but_refl j s

theorem generic_xform_cell_frame (rules : List (IdString × XFormRule)) (j : Nat) (s t : Packer)
    (h : (do
      let ci ← deref s (some (CellRef.live j))
      let c ← xform_cell rules ci
      pure (set_cell s (CellRef.live j) c)) = .ok t) : same_but j s t := by
  obtain ⟨ci, _, h⟩ := except_bind_ok _ _ t h
  exact same_but_store j s t _ h

theorem cells_loop_frame (body : Nat → Packer → Except String Packer)
    (hbody : ∀ j s t, body j s = .ok t → same_but j s t) :
    ∀ (n idx : Nat) (s t : Packer), cells_loop body n idx s = .ok t →
      t.nets = s.nets ∧ t.cells.length = s.cells.length ∧
      ∀ i, (i < idx ∨ idx + n ≤ i) → t.cells.get? i = s.cells.get? i := by
  intro n
  induction n with
  | zero =>
    intro idx s t h
    cases h
    exact ⟨rfl, rfl, fun _ _ => rfl⟩
  | succ n ih =>
    intro idx s t h
    obtain ⟨s1, h1, h⟩ := except_bind_ok _ _ t h
    obtain ⟨f1, f2, f3⟩ := hbody idx s s1 h1
    obtain ⟨g1, g2, g3⟩ := ih (idx + 1) s1 t h
    refine ⟨g1.trans f1, g2.trans f2, ?_⟩
    intro i hi
    rw [g3 i (by omega), f3 i (by omega)]

/-- The visit of the cell of index `k` inside a loop over the cells: the state
before it has the cell and the nets of the start, and the cell it leaves is the
cell at the end. -/
theorem cells_loop_at (body : Nat → Packer → Except String Packer)
    (hbody : ∀ j s t, body j s = .ok t → same_but j s t) (k : Nat) :
    ∀ (n idx : Nat) (s t : Packer), cells_loop body n idx s = .ok t → idx ≤ k → k < idx + n →
      ∃ sa sb, sa.nets = s.nets ∧ sa.cells.length = s.cells.length ∧
        sa.cells.get? k = s.cells.get? k ∧ body k sa = .ok sb ∧
        t.cells.get? k = sb.cells.get? k := by
  intro n
  induction n with
  | zero => intro idx s t _ h1 h2; omega
  | succ n ih =>
    intro idx s t h hk1 hk2
    obtain ⟨s1, h1, h⟩ := except_bind_ok _ _ t h
    by_cases hk : k = idx
    · subst hk
      exact ⟨s, s1, rfl, rfl, rfl, h1,
        (cells_loop_frame body hbody n (k + 1) s1 t h).2.2 k (Or.inl (by omega))⟩
    · obtain ⟨f1, f2, f3⟩ := hbody idx s s1 h1
      obtain ⟨sa, sb, a1, a2, a3, a4, a5⟩ := ih (idx + 1) s1 t h (by omega) (by omega)
      exact ⟨sa, sb, a1.trans f1, a2.trans f2, a3.trans (f3 k hk), a4, a5⟩

theorem bufg_visit (s : Packer) (k : Nat) (ci c1 : CellInfo) (hk : s.cells.get? k = some ci)
    (ht : ci.type = "BUFG")
    (htie : tie_ports s [("CE0", true, true), ("S0", true, true), ("S1", false, true),
      ("IGNORE0", true, true)] ci = .ok c1) :
    prepare_clocking_cell k s = .ok (set_cell s (CellRef.live k) c1) := by
  have hu : dict_find upgrade "BUFG" = none := by decide
  unfold prepare_clocking_cell
  simp only [deref_live s k ci hk, bind, Except.bind, ht, hu, if_true, htie]
  rfl

theorem xform_visit (rules : List (IdString × XFormRule)) (s : Packer) (k : Nat)
    (c1 c2 : CellInfo) (hk : s.cells.get? k = some c1) (hx : xform_cell rules c1 = .ok c2) :
    (do
      let ci ← deref s (some (CellRef.live k))
      let c ← xform_cell rules ci
      pure (set_cell s (CellRef.live k) c)) = Except.ok (set_cell s (CellRef.live k) c2) := by
  simp only [deref_live s k c1 hk, bind, Except.bind, hx]
  rfl

theorem get_set_cell (s : Packer) (k : Nat) (c0 c : CellInfo) (hk : s.cells.get? k = some c0) :
    (set_cell s (CellRef.live k) c).cells.get? k = some c := by
  have hl : k < s.cells.length := by
    simp only [List.get?_eq_getElem?] at hk
    by_contra hc
    rw [List.getElem?_eq_none (by omega)] at hk
    cases hk
  simp only [set_cell, List.get?_eq_getElem?, List.getElem?_set, if_true, hl]

theorem net_by_name_nets (s t : Packer) (h : t.nets = s.nets) (n : IdString) :
    net_by_name t n = net_by_name s n := by
  unfold net_by_name
  rw [h]

/-- C10: for a BUFG cell with an input I whose control ports CE0, S0, S1,
IGNORE0, CE1 and IGNORE1 are absent or unconnected, in a design with the two
constant nets: whenever prepare_clocking returns, the cell has type BUFGCTRL,
I0 is on the net of the former I, CE0, S0 and IGNORE0 are on the logic-1 net,
S1 is on the logic-0 net, CE1 and IGNORE1 are unconnected; and prepare_clocking
does return on the design made of that cell alone. -/
theorem prepare_clocking_bufg (s : Packer) (k : Nat) (ci : CellInfo) (pI : PortInfo)
    (v g : NetId)
    (hk : s.cells.get? k = some ci) (ht : ci.type = "BUFG")
    (hv : net_by_name s "$PACKER_VCC_NET" = some v)
    (hg : net_by_name s "$PACKER_GND_NET" = some g)
    (hnd : (ci.ports.map (fun e => e.1)).Nodup)
    (hI : dict_find ci.ports "I" = some pI)
    (h1 : get_net_or_empty ci "CE0" = none) (h2 : get_net_or_empty ci "S0" = none)
    (h3 : get_net_or_empty ci "S1" = none) (h4 : get_net_or_empty ci "IGNORE0" = none)
    (h5 : get_net_or_empty ci "CE1" = none) (h6 : get_net_or_empty ci "IGNORE1" = none) :
    (s.cells = [ci] → ∃ r, prepare_clocking s = .ok r) ∧
    ∀ r, prepare_clocking s = .ok r →
      ∃ c, r.cells.get? k = some c ∧ c.type = "BUFGCTRL" ∧ c.name = ci.name ∧
        get_net_or_empty c "I0" = pI.net ∧
        get_net_or_empty c "CE0" = some v ∧ get_net_or_empty c "S0" = some v ∧
        get_net_or_empty c "IGNORE0" = some v ∧ get_net_or_empty c "S1" = some g ∧
        get_net_or_empty c "CE1" = none ∧ get_net_or_empty c "IGNORE1" = none := by
  have hcell : ∀ sa : Packer, sa.nets = s.nets →
      ∃ c1 c2, tie_ports sa [("CE0", true, true), ("S0", true, true), ("S1", false, true),
          ("IGNORE0", true, true)] ci = .ok c1 ∧
        xform_cell bufgctrl_rules c1 = .ok c2 ∧ c2.type = "BUFGCTRL" ∧ c2.name = ci.name ∧
        get_net_or_empty c2 "I0" = pI.net ∧
        get_net_or_empty c2 "CE0" = some v ∧ get_net_or_empty c2 "S0" = some v ∧
        get_net_or_empty c2 "IGNORE0" = some v ∧ get_net_or_empty c2 "S1" = some g ∧
        get_net_or_empty c2 "CE1" = none ∧ get_net_or_empty c2 "IGNORE1" = none := by
    intro sa hn
    obtain ⟨c1, e1, t1, n1, p1, p2, p3, p4, f1, d1⟩ := tie_ports_bufg sa ci v g
      ((net_by_name_nets s sa hn _).trans hv) ((net_by_name_nets s sa hn _).trans hg) h1 h2 h3 h4
    have hI1 : dict_find c1.ports "I" = some pI := by
      rw [f1 "I" (by decide) (by decide) (by decide) (by decide)]; exact hI
    obtain ⟨c2, e2, t2, n2, q1, f2⟩ := xform_bufg c1 pI (t1.trans ht) hI1 (d1 hnd)
    refine ⟨c1, c2, e1, e2, t2, n2.trans n1, q1, ?_, ?_, ?_, ?_, ?_, ?_⟩
    · unfold get_net_or_empty at p1 ⊢
      rw [f2 "CE0" (by decide) (by decide)]; exact p1
    · unfold get_net_or_empty at p2 ⊢
      rw [f2 "S0" (by decide) (by decide)]; exact p2
    · unfold get_net_or_empty at p4 ⊢
      rw [f2 "IGNORE0" (by decide) (by decide)]; exact p4
    · unfold get_net_or_empty at p3 ⊢
      rw [f2 "S1" (by decide) (by decide)]; exact p3
    · unfold get_net_or_empty at h5 ⊢
      rw [f2 "CE1" (by decide) (by decide),
        f1 "CE1" (by decide) (by decide) (by decide) (by decide)]; exact h5
    · unfold get_net_or_empty at h6 ⊢
      rw [f2 "IGNORE1" (by decide) (by decide),
        f1 "IGNORE1" (by decide) (by decide) (by decide) (by decide)]; exact h6
  have hlen : k < s.cells.length := by
    simp only [List.get?_eq_getElem?] at hk
    by_contra hc
    rw [List.getElem?_eq_none (by omega)] at hk
    cases hk
  constructor
  · intro hcells
    obtain ⟨c1, c2, e1, e2, _⟩ := hcell s rfl
    have hk0 : s.cells.get? 0 = some ci := by rw [hcells]; rfl
    have hb := bufg_visit s 0 ci c1 hk0 ht e1
    have hx := xform_visit bufgctrl_rules (set_cell s (CellRef.live 0) c1) 0 c1 c2
      (get_set_cell s 0 ci c1 hk0) e2
    refine ⟨set_cell (set_cell s (CellRef.live 0) c1) (CellRef.live 0) c2, ?_⟩
    unfold prepare_clocking generic_xform
    simp only [hcells, List.length_singleton, cells_loop, hb, bind, Except.bind, pure,
      Except.pure]
    have hl1 : (set_cell s (CellRef.live 0) c1).cells.length = 1 := by
      simp only [set_cell, List.length_set, hcells, List.length_singleton]
    rw [hl1]
    simp only [cells_loop, bind, Except.bind, pure, Except.pure] at hx ⊢
    rw [hx]
  · intro r hr
    unfold prepare_clocking at hr
    obtain ⟨s1, hs1, hr⟩ := except_bind_ok _ _ r hr
    obtain ⟨sa, sb, a1, _, a3, a4, a5⟩ := cells_loop_at prepare_clocking_cell
      prepare_clocking_cell_frame k s.cells.length 0 s s1 hs1 (Nat.zero_le k) (by omega)
    obtain ⟨c1, c2, e1, e2, rest⟩ := hcell sa a1
    rw [bufg_visit sa k ci c1 (a3.trans hk) ht e1] at a4
    cases a4
    rw [get_set_cell sa k ci c1 (a3.trans hk)] at a5
    have hl1 := (cells_loop_frame prepare_clocking_cell prepare_clocking_cell_frame
      s.cells.length 0 s s1 hs1).2.1
    unfold generic_xform at hr
    obtain ⟨ta, tb, _, _, b3, b4, b5⟩ := cells_loop_at _
      (generic_xform_cell_frame bufgctrl_rules) k s1.cells.length 0 s1 r hr (Nat.zero_le k)
      (by omega)
    rw [xform_visit bufgctrl_rules ta k c1 c2 (b3.trans a5) e2] at b4
    cases b4
    rw [get_set_cell ta k c1 c2 (b3.trans a5)] at b5
    exact ⟨c2, b5, rest⟩

theorem prepare_clocking_bufg_witness :
    (bufg_design.cells = [bufg_cell] → ∃ r, prepare_clocking bufg_design = .ok r) ∧
    ∀ r, prepare_clocking bufg_design = .ok r →
      ∃ c, r.cells.get? 0 = some c ∧ c.type = "BUFGCTRL" ∧ c.name = bufg_cell.name ∧
        get_net_or_empty c "I0" = (sink "I" (some 2)).2.net ∧
        get_net_or_empty c "CE0" = some 1 ∧ get_net_or_empty c "S0" = some 1 ∧
        get_net_or_empty c "IGNORE0" = some 1 ∧ get_net_or_empty c "S1" = some 0 ∧
        get_net_or_empty c "CE1" = none ∧ get_net_or_empty c "IGNORE1" = none :=
  prepare_clocking_bufg bufg_design 0 bufg_cell (sink "I" (some 2)).2 1 0 rfl rfl (by decide)
    (by decide) (by decide) (by decide) (by decide) (by decide) (by decide) (by decide)
    (by decide) (by decide)

/-! ### The INIT windows of the deep memories -/

theorem init_view_of_view (l1 l2 : List CellInfo) (h : l1.map cell_view = l2.map cell_view) :
    l1.map init_view = l2.map init_view := by
  have key : ∀ l : List CellInfo, l.map init_view =
      (l.map cell_view).map (fun w => (w.1, w.2.1, dict_find w.2.2.2.1 "INIT")) := by
    intro l
    rw [List.map_map]
    rfl
  rw [key, key, h]

theorem map_set_init_view (l : List CellInfo) (i : Nat) (c c1 : CellInfo)
    (hc : l.get? i = some c) (h : init_view c1 = init_view c) :
    (l.set i c1).map init_view = l.map init_view := by
  rw [List.map_set, h]
  apply List.ext_getElem?
  intro k
  simp only [List.get?_eq_getElem?] at hc
  rw [List.getElem?_set]
  by_cases hk : i = k
  · subst hk
    rw [if_pos rfl, List.getElem?_map, hc]
    simp only [List.length_map, Option.map_some']
    split_ifs with hl
    · rfl
    · exfalso
      rw [List.getElem?_eq_none (by omega)] at hc
      cases hc
  · rw [if_neg hk]

/-- What create_dram_lut shows in the pending buffer: one more SLICE_LUTX of the
given name, without INIT, behind the primitives made before. -/
theorem create_dram_lut_init (name : String) (base : Option CellRef) (cs : DRAMControlSet)
    (address : List (Option NetId)) (di dout : Option NetId) (z : Int) (s : Packer)
    (V : List (IdString × IdString × Option Property))
    (hV : s.new_cells.map init_view = V)
    (ha : address.length ≤ 6) (hw : cs.wa.length ≤ 8)
    (hbase : base = none ∨ ∃ b, base = some (CellRef.pending b) ∧ b < V.length) :
    ∃ t, create_dram_lut name base cs address di dout z s = .ok (CellRef.pending V.length, t) ∧
      t.new_cells.map init_view = V ++ [(name, "SLICE_LUTX", none)] ∧ t.cells = s.cells := by
  have hl : V.length = s.new_cells.length := by rw [← hV, List.length_map]
  rw [create_dram_lut_eq name base cs address di dout z s ha hw, hl]
  rcases hbase with hb | ⟨b, hb, hlt⟩
  · subst hb
    rw [constrain_and_push_base]
    refine ⟨_, rfl, ?_, rfl⟩
    simp only [List.map_append, hV, List.map_cons, List.map_nil]
    rfl
  · subst hb
    have hb2 : b < s.new_cells.length := by omega
    have hg : s.new_cells.get? b = some (s.new_cells.get ⟨b, hb2⟩) := by
      simp only [List.get?_eq_getElem?, List.get_eq_getElem]
      exact List.getElem?_eq_getElem hb2
    rw [constrain_and_push_child _ _ b _ s hg]
    refine ⟨_, rfl, ?_, rfl⟩
    simp only [List.map_append, List.map_cons, List.map_nil]
    rw [map_set_init_view s.new_cells b (s.new_cells.get ⟨b, hb2⟩)
      { s.new_cells.get ⟨b, hb2⟩ with
        constr_children := (s.new_cells.get ⟨b, hb2⟩).constr_children ++
          [CellRef.pending s.new_cells.length] } hg rfl, hV]
    rfl

/-- What `lut->params[INIT] = v` shows in the pending buffer: the INIT of that
primitive and nothing else. -/
theorem set_init_init (s : Packer) (P D : List (IdString × IdString × Option Property))
    (j : Nat) (n ty : IdString) (old : Option Property) (v : Property)
    (hV : s.new_cells.map init_view = P ++ D) (hD : D.get? j = some (n, ty, old)) :
    ∃ t, set_init s (CellRef.pending (P.length + j)) v = .ok t ∧
      t.new_cells.map init_view = P ++ D.set j (n, ty, some v) ∧ t.cells = s.cells := by
  have hj : j < D.length := by
    simp only [List.get?_eq_getElem?] at hD
    by_contra hc
    rw [List.getElem?_eq_none (by omega)] at hD
    cases hD
  have hlen : s.new_cells.length = P.length + D.length := by
    rw [← List.length_append, ← hV, List.length_map]
  have hi : P.length + j < s.new_cells.length := by omega
  have hg : s.new_cells.get? (P.length + j) = some (s.new_cells.get ⟨P.length + j, hi⟩) := by
    simp only [List.get?_eq_getElem?, List.get_eq_getElem]
    exact List.getElem?_eq_getElem hi
  have hview : init_view (s.new_cells.get ⟨P.length + j, hi⟩) = (n, ty, old) := by
    have h1 : (s.new_cells.map init_view)[P.length + j]? = some (n, ty, old) := by
      rw [hV]
      simp only [List.get?_eq_getElem?] at hD
      rw [List.getElem?_append_right (by omega)]
      simpa using hD
    rw [List.getElem?_map, List.getElem?_eq_getElem hi] at h1
    simpa using h1
  unfold set_init
  rw [modify_cell_pending s _ _ _ hg]
  refine ⟨_, rfl, ?_, rfl⟩
  simp only [List.map_set, hV]
  rw [List.set_append, if_neg (by omega), Nat.add_sub_cancel_left]
  congr 2
  simp only [init_view, Prod.mk.injEq] at hview ⊢
  exact ⟨hview.1, hview.2.1, dict_find_set_self _ _ _⟩

theorem pending_of_view (s : Packer) (V : List (IdString × IdString × Option Property))
    (b : Nat) (bn bty : IdString) (bo : Option Property)
    (hV : s.new_cells.map init_view = V) (hb : V.get? b = some (bn, bty, bo)) :
    ∃ bc, get_cell s (CellRef.pending b) = some bc ∧ bc.name = bn := by
  subst hV
  simp only [List.get?_eq_getElem?, List.getElem?_map] at hb
  cases hg : s.new_cells[b]? with
  | none => rw [hg] at hb; cases hb
  | some bc =>
    rw [hg] at hb
    simp only [Option.map_some', Option.some.injEq, init_view, Prod.mk.injEq] at hb
    exact ⟨bc, by simp only [get_cell, List.get?_eq_getElem?, hg], hb.1⟩

/-- What create_muxf_tree over two data nets shows in the pending buffer: one
MUXF7 without INIT behind the primitives made before. -/
theorem create_muxf_tree_two_init (s : Packer) (V : List (IdString × IdString × Option Property))
    (b : Nat) (bn bty : IdString) (bo : Option Property) (nb : String)
    (d0 d1 s0 out : Option NetId) (z : Int)
    (hV : s.new_cells.map init_view = V) (hb : V.get? b = some (bn, bty, bo)) :
    ∃ t, create_muxf_tree (some (CellRef.pending b)) nb [d0, d1] [s0] out z s = .ok t ∧
      t.new_cells.map init_view = V ++
        [(int_name bn (nb ++ "_muxf_" ++ to_string 0 ++ "_" ++ to_string 0) false, "MUXF7",
          none)] := by
  obtain ⟨bc, hbc, hbn⟩ := pending_of_view s V b bn bty bo hV hb
  have hbuild := muxf_build_two s (CellRef.pending b) bc hbc nb d0 d1 s0 out
  obtain ⟨s1, e1, _, v1, _⟩ := constrain_muxf_tree_view
    { s with new_cells := s.new_cells ++ [muxf_prim "MUXF7" (muxf_name bc nb 0 0) d0 d1 s0 out] }
    (CellRef.pending s.new_cells.length) (CellRef.pending b)
    (muxf_prim "MUXF7" (muxf_name bc nb 0 0) d0 d1 s0 out) bc z
    (by simp only [get_cell]; exact get_append_last _ _)
    (by
      simp only [get_cell] at hbc ⊢
      exact get_after_push _ _ _ _ hbc)
  refine ⟨s1, ?_, ?_⟩
  · simp only [create_muxf_tree, hbuild, bind, Except.bind]
    exact e1
  · rw [init_view_of_view _ _ v1]
    simp only [List.map_append, hV, List.map_cons, List.map_nil]
    rw [← hbn]
    rfl

/-- What create_muxf_tree over four data nets shows in the pending buffer: two
MUXF7 and one MUXF8 without INIT behind the primitives made before. -/
theorem create_muxf_tree_four_init (s : Packer)
    (V : List (IdString × IdString × Option Property))
    (b : Nat) (bn bty : IdString) (bo : Option Property) (nb : String)
    (d0 d1 d2 d3 s0 s1 out : Option NetId) (z : Int)
    (hV : s.new_cells.map init_view = V) (hb : V.get? b = some (bn, bty, bo)) :
    ∃ t, create_muxf_tree (some (CellRef.pending b)) nb [d0, d1, d2, d3] [s0, s1] out z s = .ok t ∧
      t.new_cells.map init_view = V ++
        [(int_name bn (nb ++ "_muxf_" ++ to_string 0 ++ "_" ++ to_string 0) false, "MUXF7", none),
         (int_name bn (nb ++ "_muxf_" ++ to_string 0 ++ "_" ++ to_string 1) false, "MUXF7", none),
         (int_name bn (nb ++ "_muxf_" ++ to_string 1 ++ "_" ++ to_string 0) false, "MUXF8",
          none)] := by
  obtain ⟨bc, hbc, hbn⟩ := pending_of_view s V b bn bty bo hV hb
  have hbuild := muxf_build_four s (CellRef.pending b) bc hbc nb d0 d1 d2 d3 s0 s1 out
  have hbl : b < s.new_cells.length := by
    simp only [get_cell, List.get?_eq_getElem?] at hbc
    by_contra hc
    rw [List.getElem?_eq_none (by omega)] at hbc
    cases hbc
  obtain ⟨t, e1, _, v1, _⟩ := constrain_muxf_tree_view
    { s with
      nets := s.nets ++ [muxq_net bc nb 0 0, muxq_net bc nb 0 1]
      new_cells := s.new_cells ++
        [muxf_prim "MUXF7" (muxf_name bc nb 0 0) d0 d1 s0 (some s.nets.length),
         muxf_prim "MUXF7" (muxf_name bc nb 0 1) d2 d3 s0 (some (s.nets.length + 1)),
         muxf_prim "MUXF8" (muxf_name bc nb 1 0) (some s.nets.length)
           (some (s.nets.length + 1)) s1 out] }
    (CellRef.pending (s.new_cells.length + 2)) (CellRef.pending b)
    (muxf_prim "MUXF8" (muxf_name bc nb 1 0) (some s.nets.length)
      (some (s.nets.length + 1)) s1 out) bc z
    (by
      simp only [get_cell, List.get?_eq_getElem?]
      rw [List.getElem?_append_right (by omega)]
      simp)
    (by
      simp only [get_cell, List.get?_eq_getElem?] at hbc ⊢
      rw [List.getElem?_append_left hbl]
      exact hbc)
  refine ⟨t, ?_, ?_⟩
  · simp only [create_muxf_tree, hbuild, bind, Except.bind]
    exact e1
  · rw [init_view_of_view _ _ v1]
    simp only [List.map_append, hV, List.map_cons, List.map_nil]
    rw [← hbn]
    rfl

theorem get_append_at {α : Type} (P D : List α) (j : Nat) :
    (P ++ D).get? (P.length + j) = D.get? j := by
  simp only [List.get?_eq_getElem?]
  rw [List.getElem?_append_right (by omega), Nat.add_sub_cancel_left]

/-- The RAM128X1S strategy on a cell with INIT = V: the primitives it pushes are
the LOW and HIGH memories with the windows at 0 and 64 of V, and one MUXF7. -/
theorem ram128x1s_init (h : Int) (cs : DRAMControlSet) (idx : Nat) (s : Packer) (ci : CellInfo)
    (V : Property)
    (hc : s.cells.get? idx = some ci) (ht : ci.type = "RAM128X1S") (hw : cs.wa.length = 7)
    (hV : dict_find ci.params "INIT" = some V) :
    ∃ r, pack_ram128x1s_cell h cs (CellRef.live idx) s = .ok r ∧
      r.new_cells.map init_view = s.new_cells.map init_view ++
        [(ci.name ++ "/LOW", "SLICE_LUTX", some (V.extract 0 64)),
         (ci.name ++ "/HIGH", "SLICE_LUTX", some (V.extract 64 64)),
         (int_name (ci.name ++ "/LOW") ("O" ++ "_muxf_" ++ to_string 0 ++ "_" ++ to_string 0)
            false, "MUXF7", none)] := by
  obtain ⟨sel, hsel⟩ : ∃ sel, cs.wa.drop 6 = [sel] := by
    have : (cs.wa.drop 6).length = 1 := by rw [List.length_drop, hw]
    match hd : cs.wa.drop 6, this with
    | [x], _ => exact ⟨x, rfl⟩
  obtain ⟨t1, e1, v1, _⟩ := create_dram_lut_init (ci.name ++ "/LOW") none cs (cs.wa.take 6)
    (get_net_or_empty ci "D")
    (some (create_internal_net ci.name "O_LOW" false
      { s with cells := s.cells.set idx (disconnect_port ci "O") }).1) (h - 1)
    (create_internal_net ci.name "O_LOW" false
      { s with cells := s.cells.set idx (disconnect_port ci "O") }).2
    (s.new_cells.map init_view) rfl (by rw [List.length_take]; omega) (by omega) (Or.inl rfl)
  obtain ⟨t2, e2, v2, _⟩ := create_dram_lut_init (ci.name ++ "/HIGH")
    (some (CellRef.pending (s.new_cells.map init_view).length)) cs (cs.wa.take 6)
    (get_net_or_empty ci "D")
    (some (create_internal_net ci.name "O_HIGH" false t1).1) (h - 1 - 1)
    (create_internal_net ci.name "O_HIGH" false t1).2
    (s.new_cells.map init_view ++ [(ci.name ++ "/LOW", "SLICE_LUTX", none)]) v1
    (by rw [List.length_take]; omega) (by omega)
    (Or.inr ⟨_, rfl, by rw [List.length_append]; exact Nat.lt_succ_self _⟩)
  obtain ⟨t3, e3, v3, _⟩ := set_init_init t2 (s.new_cells.map init_view)
    [(ci.name ++ "/LOW", "SLICE_LUTX", none), (ci.name ++ "/HIGH", "SLICE_LUTX", none)] 0
    _ _ _ (V.extract 0 64) (by rw [v2, List.append_assoc]; rfl) rfl
  obtain ⟨t4, e4, v4, _⟩ := set_init_init t3 (s.new_cells.map init_view) _ 1
    _ _ _ (V.extract 64 64) v3 rfl
  obtain ⟨t5, e5, v5⟩ := create_muxf_tree_two_init t4 _ (s.new_cells.map init_view).length
    (ci.name ++ "/LOW") "SLICE_LUTX" (some (V.extract 0 64)) "O"
    (some (create_internal_net ci.name "O_LOW" false
      { s with cells := s.cells.set idx (disconnect_port ci "O") }).1)
    (some (create_internal_net ci.name "O_HIGH" false t1).1) sel (get_net_or_empty ci "O") 2 v4
    (by
      have := get_append_at (s.new_cells.map init_view)
        (([(ci.name ++ "/LOW", "SLICE_LUTX", none),
          (ci.name ++ "/HIGH", "SLICE_LUTX", none)].set 0
            (ci.name ++ "/LOW", "SLICE_LUTX", some (V.extract 0 64))).set 1
            (ci.name ++ "/HIGH", "SLICE_LUTX", some (V.extract 64 64))) 0
      rw [Nat.add_zero] at this
      rw [this]
      rfl)
  simp only [List.length_append, List.length_singleton, Nat.add_zero] at e2 e3 e4
  refine ⟨mark_packed t5 ci.name, ?_, ?_⟩
  · unfold pack_ram128x1s_cell
    simp only [deref_live s idx ci hc, bind, Except.bind, ht, ne_eq, not_true_eq_false, if_false,
      modify_cell_live s idx ci _ hc, hV, hsel, e1, e2, e3, e4, e5]
    rfl
  · rw [(mark_packed_new_cells _ _).1, v5]
    simp [List.append_assoc]

/-- The RAM256X1S strategy on a cell with INIT = V: the primitives it pushes are
the memories D, C, B and A with the windows at 192, 128, 64 and 0 of V, two
MUXF7 and one MUXF8. -/
theorem ram256x1s_init (h : Int) (cs : DRAMControlSet) (idx : Nat) (s : Packer) (ci : CellInfo)
    (V : Property)
    (hc : s.cells.get? idx = some ci) (ht : ci.type = "RAM256X1S") (hw : cs.wa.length = 8)
    (hV : dict_find ci.params "INIT" = some V) :
    ∃ r, pack_ram256x1s_cell h cs (CellRef.live idx) s = .ok r ∧
      r.new_cells.map init_view = s.new_cells.map init_view ++
        [(ci.name ++ "/RAMS64E_D", "SLICE_LUTX", some (V.extract 192 64)),
         (ci.name ++ "/RAMS64E_C", "SLICE_LUTX", some (V.extract 128 64)),
         (ci.name ++ "/RAMS64E_B", "SLICE_LUTX", some (V.extract 64 64)),
         (ci.name ++ "/RAMS64E_A", "SLICE_LUTX", some (V.extract 0 64)),
         (int_name (ci.name ++ "/RAMS64E_D")
            ("O" ++ "_muxf_" ++ to_string 0 ++ "_" ++ to_string 0) false, "MUXF7", none),
         (int_name (ci.name ++ "/RAMS64E_D")
            ("O" ++ "_muxf_" ++ to_string 0 ++ "_" ++ to_string 1) false, "MUXF7", none),
         (int_name (ci.name ++ "/RAMS64E_D")
            ("O" ++ "_muxf_" ++ to_string 1 ++ "_" ++ to_string 0) false, "MUXF8", none)] := by
  obtain ⟨sel0, sel1, hsel⟩ : ∃ sel0 sel1, cs.wa.drop 6 = [sel0, sel1] := by
    have : (cs.wa.drop 6).length = 2 := by rw [List.length_drop, hw]
    match hd : cs.wa.drop 6, this with
    | [x, y], _ => exact ⟨x, y, rfl⟩
  have hbase : ∀ (W : List (IdString × IdString × Option Property)),
      (some (CellRef.pending (s.new_cells.map init_view).length) : Option CellRef) = none ∨
      ∃ b, some (CellRef.pending (s.new_cells.map init_view).length) = some (CellRef.pending b) ∧
        b < (s.new_cells.map init_view ++ (ci.name ++ "/RAMS64E_D", "SLICE_LUTX", none) :: W).length :=
    fun W => Or.inr ⟨_, rfl, by rw [List.length_append, List.length_cons]; omega⟩
  obtain ⟨t1, e1, v1, _⟩ := create_dram_lut_init (ci.name ++ "/RAMS64E_D") none cs (cs.wa.take 6)
    (get_net_or_empty ci "D")
    (some (create_internal_net ci.name "O_RAMS64E_D" false
      { s with cells := s.cells.set idx (disconnect_port ci "O") }).1) (h - 1)
    (create_internal_net ci.name "O_RAMS64E_D" false
      { s with cells := s.cells.set idx (disconnect_port ci "O") }).2
    (s.new_cells.map init_view) rfl (by rw [List.length_take]; omega) (by omega) (Or.inl rfl)
  obtain ⟨t2, e2, v2, _⟩ := create_dram_lut_init (ci.name ++ "/RAMS64E_C")
    (some (CellRef.pending (s.new_cells.map init_view).length)) cs (cs.wa.take 6)
    (get_net_or_empty ci "D")
    (some (create_internal_net ci.name "O_RAMS64E_C" false t1).1) (h - 1 - 1)
    (create_internal_net ci.name "O_RAMS64E_C" false t1).2
    (s.new_cells.map init_view ++ [(ci.name ++ "/RAMS64E_D", "SLICE_LUTX", none)]) v1
    (by rw [List.length_take]; omega) (by omega) (hbase [])
  obtain ⟨t3, e3, v3, _⟩ := create_dram_lut_init (ci.name ++ "/RAMS64E_B")
    (some (CellRef.pending (s.new_cells.map init_view).length)) cs (cs.wa.take 6)
    (get_net_or_empty ci "D")
    (some (create_internal_net ci.name "O_RAMS64E_B" false t2).1) (h - 1 - 1 - 1)
    (create_internal_net ci.name "O_RAMS64E_B" false t2).2
    (s.new_cells.map init_view ++ [(ci.name ++ "/RAMS64E_D", "SLICE_LUTX", none),
      (ci.name ++ "/RAMS64E_C", "SLICE_LUTX", none)])
    (by rw [show (create_internal_net ci.name "O_RAMS64E_B" false t2).2.new_cells = t2.new_cells
      from rfl, v2, List.append_assoc]; rfl)
    (by rw [List.length_take]; omega) (by omega) (hbase _)
  obtain ⟨t4, e4, v4, _⟩ := create_dram_lut_init (ci.name ++ "/RAMS64E_A")
    (some (CellRef.pending (s.new_cells.map init_view).length)) cs (cs.wa.take 6)
    (get_net_or_empty ci "D")
    (some (create_internal_net ci.name "O_RAMS64E_A" false t3).1) (h - 1 - 1 - 1 - 1)
    (create_internal_net ci.name "O_RAMS64E_A" false t3).2
    (s.new_cells.map init_view ++ [(ci.name ++ "/RAMS64E_D", "SLICE_LUTX", none),
      (ci.name ++ "/RAMS64E_C", "SLICE_LUTX", none), (ci.name ++ "/RAMS64E_B", "SLICE_LUTX", none)])
    (by rw [show (create_internal_net ci.name "O_RAMS64E_A" false t3).2.new_cells = t3.new_cells
      from rfl, v3, List.append_assoc]; rfl)
    (by rw [List.length_take]; omega) (by omega) (hbase _)
  obtain ⟨t5, e5, v5, _⟩ := set_init_init t4 (s.new_cells.map init_view)
    [(ci.name ++ "/RAMS64E_D", "SLICE_LUTX", none), (ci.name ++ "/RAMS64E_C", "SLICE_LUTX", none),
      (ci.name ++ "/RAMS64E_B", "SLICE_LUTX", none), (ci.name ++ "/RAMS64E_A", "SLICE_LUTX", none)]
    0 _ _ _ (V.extract 192 64) (by rw [v4, List.append_assoc]; rfl) rfl
  obtain ⟨t6, e6, v6, _⟩ := set_init_init t5 (s.new_cells.map init_view) _ 1
    _ _ _ (V.extract 128 64) v5 rfl
  obtain ⟨t7, e7, v7, _⟩ := set_init_init t6 (s.new_cells.map init_view) _ 2
    _ _ _ (V.extract 64 64) v6 rfl
  obtain ⟨t8, e8, v8, _⟩ := set_init_init t7 (s.new_cells.map init_view) _ 3
    _ _ _ (V.extract 0 64) v7 rfl
  obtain ⟨t9, e9, v9⟩ := create_muxf_tree_four_init t8 _ (s.new_cells.map init_view).length
    (ci.name ++ "/RAMS64E_D") "SLICE_LUTX" (some (V.extract 192 64)) "O"
    (some (create_internal_net ci.name "O_RAMS64E_D" false
      { s with cells := s.cells.set idx (disconnect_port ci "O") }).1)
    (some (create_internal_net ci.name "O_RAMS64E_C" false t1).1)
    (some (create_internal_net ci.name "O_RAMS64E_B" false t2).1)
    (some (create_internal_net ci.name "O_RAMS64E_A" false t3).1)
    sel0 sel1 (get_net_or_empty ci "O") 0 v8
    (by
      have := get_append_at (s.new_cells.map init_view)
        (((([(ci.name ++ "/RAMS64E_D", "SLICE_LUTX", none),
          (ci.name ++ "/RAMS64E_C", "SLICE_LUTX", none),
          (ci.name ++ "/RAMS64E_B", "SLICE_LUTX", none),
          (ci.name ++ "/RAMS64E_A", "SLICE_LUTX", none)].set 0
            (ci.name ++ "/RAMS64E_D", "SLICE_LUTX", some (V.extract 192 64))).set 1
            (ci.name ++ "/RAMS64E_C", "SLICE_LUTX", some (V.extract 128 64))).set 2
            (ci.name ++ "/RAMS64E_B", "SLICE_LUTX", some (V.extract 64 64))).set 3
            (ci.name ++ "/RAMS64E_A", "SLICE_LUTX", some (V.extract 0 64))) 0
      rw [Nat.add_zero] at this
      rw [this]
      rfl)
  simp only [Nat.add_zero] at e5
  refine ⟨mark_packed t9 ci.name, ?_, ?_⟩
  · unfold pack_ram256x1s_cell
    simp only [deref_live s idx ci hc, bind, Except.bind, ht, ne_eq, not_true_eq_false, if_false,
      modify_cell_live s idx ci _ hc, hV, hsel, e1, e2, e3, e4, e5, List.length_append,
      List.length_cons, List.length_nil, List.length_singleton, Nat.reduceAdd, zero_add, e6, e7,
      e8, e9]
    rfl
  · rw [(mark_packed_new_cells _ _).1, v9]
    simp [List.append_assoc]

/-- The RAM128X1D strategy on a cell with INIT = V: the primitives it pushes are
the memories SP.LOW and SP.HIGH of the write port and DP.LOW and DP.HIGH of the
read port, each pair with the windows at 0 and 64 of V, and one MUXF7 per
pair. -/
theorem ram128x1d_init (h : Int) (cs : DRAMControlSet) (idx : Nat) (s : Packer) (ci : CellInfo)
    (V : Property)
    (hc : s.cells.get? idx = some ci) (ht : ci.type = "RAM128X1D") (hw : cs.wa.length = 7)
    (hV : dict_find ci.params "INIT" = some V) :
    ∃ r, pack_ram128x1d_cell h cs (CellRef.live idx) s = .ok r ∧
      r.new_cells.map init_view = s.new_cells.map init_view ++
        [(ci.name ++ "/SP.LOW", "SLICE_LUTX", some (V.extract 0 64)),
         (ci.name ++ "/SP.HIGH", "SLICE_LUTX", some (V.extract 64 64)),
         (ci.name ++ "/DP.LOW", "SLICE_LUTX", some (V.extract 0 64)),
         (ci.name ++ "/DP.HIGH", "SLICE_LUTX", some (V.extract 64 64)),
         (int_name (ci.name ++ "/SP.LOW")
            ("SPO" ++ "_muxf_" ++ to_string 0 ++ "_" ++ to_string 0) false, "MUXF7", none),
         (int_name (ci.name ++ "/SP.LOW")
            ("DPO" ++ "_muxf_" ++ to_string 0 ++ "_" ++ to_string 0) false, "MUXF7", none)] := by
  obtain ⟨sel, hsel⟩ : ∃ sel, cs.wa.drop 6 = [sel] := by
    have : (cs.wa.drop 6).length = 1 := by rw [List.length_drop, hw]
    match hd : cs.wa.drop 6, this with
    | [x], _ => exact ⟨x, rfl⟩
  have hmin : min cs.wa.length 6 = 6 := by rw [hw]; rfl
  have hinit : get_or_default ci.params "INIT" (Property.of_int 0 128) = V := by
    simp only [get_or_default, hV]
  have hra : (address_nets ci 7 "DPRA" 6 0).length ≤ 6 := by
    simp only [address_nets, List.length_cons, List.length_nil]
    omega
  have hbase : ∀ (x : IdString × IdString × Option Property)
      (W : List (IdString × IdString × Option Property)),
      (some (CellRef.pending (s.new_cells.map init_view).length) : Option CellRef) = none ∨
      ∃ b, some (CellRef.pending (s.new_cells.map init_view).length) = some (CellRef.pending b) ∧
        b < (s.new_cells.map init_view ++ x :: W).length :=
    fun x W => Or.inr ⟨_, rfl, by rw [List.length_append, List.length_cons]; omega⟩
  obtain ⟨t1, e1, v1, _⟩ := create_dram_lut_init (ci.name ++ "/SP.LOW") none cs (cs.wa.take 6)
    (get_net_or_empty ci "D")
    (some (create_internal_net ci.name "SPO_LOW" false
      { s with
        cells := s.cells.set idx (disconnect_port (disconnect_port ci "DPO") "SPO") }).1) (h - 1)
    (create_internal_net ci.name "SPO_LOW" false
      { s with cells := s.cells.set idx (disconnect_port (disconnect_port ci "DPO") "SPO") }).2
    (s.new_cells.map init_view) rfl (by rw [List.length_take]; omega) (by omega) (Or.inl rfl)
  obtain ⟨t2, e2, v2, _⟩ := set_init_init t1 (s.new_cells.map init_view)
    [(ci.name ++ "/SP.LOW", "SLICE_LUTX", none)] 0 _ _ _ (V.extract 0 64) v1 rfl
  have w2 : (create_internal_net ci.name "SPO_HIGH" false t2).2.new_cells.map init_view =
      s.new_cells.map init_view ++
        [(ci.name ++ "/SP.LOW", "SLICE_LUTX", some (V.extract 0 64))] := v2
  obtain ⟨t3, e3, v3, _⟩ := create_dram_lut_init (ci.name ++ "/SP.HIGH")
    (some (CellRef.pending (s.new_cells.map init_view).length)) cs (cs.wa.take 6)
    (get_net_or_empty ci "D")
    (some (create_internal_net ci.name "SPO_HIGH" false t2).1) (h - 1 - 1)
    (create_internal_net ci.name "SPO_HIGH" false t2).2 _ w2
    (by rw [List.length_take]; omega) (by omega) (hbase _ [])
  obtain ⟨t4, e4, v4, _⟩ := set_init_init t3 (s.new_cells.map init_view)
    [(ci.name ++ "/SP.LOW", "SLICE_LUTX", some (V.extract 0 64)),
      (ci.name ++ "/SP.HIGH", "SLICE_LUTX", none)] 1 _ _ _ (V.extract 64 64)
    (by rw [v3, List.append_assoc]; rfl) rfl
  have w4 : (create_internal_net ci.name "DPO_LOW" false t4).2.new_cells.map init_view =
      s.new_cells.map init_view ++
        [(ci.name ++ "/SP.LOW", "SLICE_LUTX", some (V.extract 0 64)),
         (ci.name ++ "/SP.HIGH", "SLICE_LUTX", some (V.extract 64 64))] := v4
  obtain ⟨t5, e5, v5, _⟩ := create_dram_lut_init (ci.name ++ "/DP.LOW")
    (some (CellRef.pending (s.new_cells.map init_view).length)) cs
    (address_nets ci 7 "DPRA" 6 0) (get_net_or_empty ci "D")
    (some (create_internal_net ci.name "DPO_LOW" false t4).1) (h - 1 - 1 - 1)
    (create_internal_net ci.name "DPO_LOW" false t4).2 _ w4 hra (by omega) (hbase _ _)
  obtain ⟨t6, e6, v6, _⟩ := set_init_init t5 (s.new_cells.map init_view)
    [(ci.name ++ "/SP.LOW", "SLICE_LUTX", some (V.extract 0 64)),
      (ci.name ++ "/SP.HIGH", "SLICE_LUTX", some (V.extract 64 64)),
      (ci.name ++ "/DP.LOW", "SLICE_LUTX", none)] 2 _ _ _ (V.extract 0 64)
    (by rw [v5, List.append_assoc]; rfl) rfl
  have w6 : (create_internal_net ci.name "DPO_HIGH" false t6).2.new_cells.map init_view =
      s.new_cells.map init_view ++
        [(ci.name ++ "/SP.LOW", "SLICE_LUTX", some (V.extract 0 64)),
         (ci.name ++ "/SP.HIGH", "SLICE_LUTX", some (V.extract 64 64)),
         (ci.name ++ "/DP.LOW", "SLICE_LUTX", some (V.extract 0 64))] := v6
  obtain ⟨t7, e7, v7, _⟩ := create_dram_lut_init (ci.name ++ "/DP.HIGH")
    (some (CellRef.pending (s.new_cells.map init_view).length)) cs
    (address_nets ci 7 "DPRA" 6 0) (get_net_or_empty ci "D")
    (some (create_internal_net ci.name "DPO_HIGH" false t6).1) (h - 1 - 1 - 1 - 1)
    (create_internal_net ci.name "DPO_HIGH" false t6).2 _ w6 hra (by omega) (hbase _ _)
  obtain ⟨t8, e8, v8, _⟩ := set_init_init t7 (s.new_cells.map init_view)
    [(ci.name ++ "/SP.LOW", "SLICE_LUTX", some (V.extract 0 64)),
      (ci.name ++ "/SP.HIGH", "SLICE_LUTX", some (V.extract 64 64)),
      (ci.name ++ "/DP.LOW", "SLICE_LUTX", some (V.extract 0 64)),
      (ci.name ++ "/DP.HIGH", "SLICE_LUTX", none)] 3 _ _ _ (V.extract 64 64)
    (by rw [v7, List.append_assoc]; rfl) rfl
  have w8 : t8.new_cells.map init_view = s.new_cells.map init_view ++
      [(ci.name ++ "/SP.LOW", "SLICE_LUTX", some (V.extract 0 64)),
       (ci.name ++ "/SP.HIGH", "SLICE_LUTX", some (V.extract 64 64)),
       (ci.name ++ "/DP.LOW", "SLICE_LUTX", some (V.extract 0 64)),
       (ci.name ++ "/DP.HIGH", "SLICE_LUTX", some (V.extract 64 64))] := v8
  have hb8 := get_append_at (s.new_cells.map init_view)
    [(ci.name ++ "/SP.LOW", "SLICE_LUTX", some (V.extract 0 64)),
     (ci.name ++ "/SP.HIGH", "SLICE_LUTX", some (V.extract 64 64)),
     (ci.name ++ "/DP.LOW", "SLICE_LUTX", some (V.extract 0 64)),
     (ci.name ++ "/DP.HIGH", "SLICE_LUTX", some (V.extract 64 64))] 0
  rw [Nat.add_zero] at hb8
  obtain ⟨t9, e9, v9⟩ := create_muxf_tree_two_init t8 _ (s.new_cells.map init_view).length
    (ci.name ++ "/SP.LOW") "SLICE_LUTX" (some (V.extract 0 64)) "SPO"
    (some (create_internal_net ci.name "SPO_LOW" false
      { s with
        cells := s.cells.set idx (disconnect_port (disconnect_port ci "DPO") "SPO") }).1)
    (some (create_internal_net ci.name "SPO_HIGH" false t2).1) sel (get_net_or_empty ci "SPO") 2
    w8 (by rw [hb8]; rfl)
  have hb9 := get_append_at (s.new_cells.map init_view)
    ([(ci.name ++ "/SP.LOW", "SLICE_LUTX", some (V.extract 0 64)),
     (ci.name ++ "/SP.HIGH", "SLICE_LUTX", some (V.extract 64 64)),
     (ci.name ++ "/DP.LOW", "SLICE_LUTX", some (V.extract 0 64)),
     (ci.name ++ "/DP.HIGH", "SLICE_LUTX", some (V.extract 64 64))] ++
     [(int_name (ci.name ++ "/SP.LOW")
        ("SPO" ++ "_muxf_" ++ to_string 0 ++ "_" ++ to_string 0) false, "MUXF7", none)]) 0
  rw [Nat.add_zero, ← List.append_assoc] at hb9
  obtain ⟨t10, e10, v10⟩ := create_muxf_tree_two_init t9 _ (s.new_cells.map init_view).length
    (ci.name ++ "/SP.LOW") "SLICE_LUTX" (some (V.extract 0 64)) "DPO"
    (some (create_internal_net ci.name "DPO_LOW" false t4).1)
    (some (create_internal_net ci.name "DPO_HIGH" false t6).1)
    (get_net_or_empty ci (addr_port 7 "DPRA" 6)) (get_net_or_empty ci "DPO") 0
    v9 (by rw [hb9]; rfl)
  simp only [Nat.add_zero] at e2
  simp only [address_nets, Nat.reduceAdd, zero_add] at e5 e7
  refine ⟨mark_packed t10 ci.name, ?_, ?_⟩
  · unfold pack_ram128x1d_cell
    simp only [deref_live s idx ci hc, bind, Except.bind, ht, ne_eq, not_true_eq_false, if_false,
      modify_cell_live s idx ci _ hc, hinit, hmin, hsel, e1, e2, e3, List.length_append,
      List.length_cons, List.length_nil, List.length_singleton, Nat.reduceAdd, zero_add, e4, e5,
      e6, e7, e8, e9, address_nets, e10]
    rfl
  · rw [(mark_packed_new_cells _ _).1, v10]
    simp [List.append_assoc]

theorem extract_bit (p : Property) (o j : Nat) (hj : j < 64) (h : o + 64 ≤ p.str.length) :
    (p.extract o 64).str.get? j = p.str.get? (o + j) := by
  rw [extract_str p o 64 h]
  simp only [List.get?_eq_getElem?, List.getElem?_take, hj, if_true, List.getElem?_drop]

/-- C4: the 64-bit windows at 0 and 64 of a 128-bit INIT, and at 0, 64, 128 and
192 of a 256-bit INIT, concatenated lowest first give the INIT back, bit j of
the window at offset o being bit o + j; and for a cell with INIT = V packed as a
group of its own, the primitives pushed carry exactly these windows: LOW and
HIGH of a RAM128X1S the windows at 0 and 64, the memories D, C, B, A of a
RAM256X1S the windows at 192, 128, 64, 0, and each of the two read paths of a
RAM128X1D (SP and DP) the windows at 0 and 64, the mux cells carrying none. -/
theorem init_windows (cs : DRAMControlSet) (idx : Nat) (s : Packer) (ci : CellInfo)
    (V : Property)
    (hc : s.cells.get? idx = some ci) (hm : cs.memtype = ci.type)
    (hV : dict_find ci.params "INIT" = some V) :
    (V.str.length = 128 → (V.extract 0 64).str ++ (V.extract 64 64).str = V.str) ∧
    (V.str.length = 256 →
      (V.extract 0 64).str ++ (V.extract 64 64).str ++ (V.extract 128 64).str ++
        (V.extract 192 64).str = V.str) ∧
    (∀ o j, j < 64 → o + 64 ≤ V.str.length →
      (V.extract o 64).str.get? j = V.str.get? (o + j)) ∧
    (ci.type = "RAM128X1S" → cs.wa.length = 7 →
      ∃ r, pack_group cs [CellRef.live idx] s = .ok r ∧
        r.new_cells.map init_view = s.new_cells.map init_view ++
          [(ci.name ++ "/LOW", "SLICE_LUTX", some (V.extract 0 64)),
           (ci.name ++ "/HIGH", "SLICE_LUTX", some (V.extract 64 64)),
           (int_name (ci.name ++ "/LOW")
              ("O" ++ "_muxf_" ++ to_string 0 ++ "_" ++ to_string 0) false, "MUXF7", none)]) ∧
    (ci.type = "RAM256X1S" → cs.wa.length = 8 →
      ∃ r, pack_group cs [CellRef.live idx] s = .ok r ∧
        r.new_cells.map init_view = s.new_cells.map init_view ++
          [(ci.name ++ "/RAMS64E_D", "SLICE_LUTX", some (V.extract 192 64)),
           (ci.name ++ "/RAMS64E_C", "SLICE_LUTX", some (V.extract 128 64)),
           (ci.name ++ "/RAMS64E_B", "SLICE_LUTX", some (V.extract 64 64)),
           (ci.name ++ "/RAMS64E_A", "SLICE_LUTX", some (V.extract 0 64)),
           (int_name (ci.name ++ "/RAMS64E_D")
              ("O" ++ "_muxf_" ++ to_string 0 ++ "_" ++ to_string 0) false, "MUXF7", none),
           (int_name (ci.name ++ "/RAMS64E_D")
              ("O" ++ "_muxf_" ++ to_string 0 ++ "_" ++ to_string 1) false, "MUXF7", none),
           (int_name (ci.name ++ "/RAMS64E_D")
              ("O" ++ "_muxf_" ++ to_string 1 ++ "_" ++ to_string 0) false, "MUXF8", none)]) ∧
    (ci.type = "RAM128X1D" → cs.wa.length = 7 →
      ∃ r, pack_group cs [CellRef.live idx] s = .ok r ∧
        r.new_cells.map init_view = s.new_cells.map init_view ++
          [(ci.name ++ "/SP.LOW", "SLICE_LUTX", some (V.extract 0 64)),
           (ci.name ++ "/SP.HIGH", "SLICE_LUTX", some (V.extract 64 64)),
           (ci.name ++ "/DP.LOW", "SLICE_LUTX", some (V.extract 0 64)),
           (ci.name ++ "/DP.HIGH", "SLICE_LUTX", some (V.extract 64 64)),
           (int_name (ci.name ++ "/SP.LOW")
              ("SPO" ++ "_muxf_" ++ to_string 0 ++ "_" ++ to_string 0) false, "MUXF7", none),
           (int_name (ci.name ++ "/SP.LOW")
              ("DPO" ++ "_muxf_" ++ to_string 0 ++ "_" ++ to_string 0) false, "MUXF7",
            none)]) := by
  refine ⟨extract_two V, extract_four V, extract_bit V, ?_, ?_, ?_⟩
  · intro ht hw
    obtain ⟨r, hr, hv⟩ := ram128x1s_init (cluster_height s) cs idx s ci V hc ht hw hV
    refine ⟨r, ?_, hv⟩
    unfold pack_group
    simp only [hm, ht, String.reduceEq, if_false, if_true, cell_loop, hr, bind, Except.bind]
    rfl
  · intro ht hw
    obtain ⟨r, hr, hv⟩ := ram256x1s_init (cluster_height s) cs idx s ci V hc ht hw hV
    refine ⟨r, ?_, hv⟩
    unfold pack_group
    simp only [hm, ht, String.reduceEq, if_false, if_true, cell_loop, hr, bind, Except.bind]
    rfl
  · intro ht hw
    obtain ⟨r, hr, hv⟩ := ram128x1d_init (cluster_height s) cs idx s ci V hc ht hw hV
    refine ⟨r, ?_, hv⟩
    unfold pack_group
    simp only [hm, ht, String.reduceEq, if_false, if_true, cell_loop, hr, bind, Except.bind]
    rfl

theorem init_windows_witness :
    ((Property.of_int 5 128).extract 0 64).str ++ ((Property.of_int 5 128).extract 64 64).str =
      (Property.of_int 5 128).str ∧
    (∃ r, pack_group (deep_control "RAM128X1S" 7) [CellRef.live 0]
        (deep_design "RAM128X1S" (Property.of_int 5 128)) = .ok r ∧
      r.new_cells.map init_view =
        (deep_design "RAM128X1S" (Property.of_int 5 128)).new_cells.map init_view ++
          [("deep" ++ "/LOW", "SLICE_LUTX", some ((Property.of_int 5 128).extract 0 64)),
           ("deep" ++ "/HIGH", "SLICE_LUTX", some ((Property.of_int 5 128).extract 64 64)),
           (int_name ("deep" ++ "/LOW")
              ("O" ++ "_muxf_" ++ to_string 0 ++ "_" ++ to_string 0) false, "MUXF7", none)]) :=
  ⟨(init_windows (deep_control "RAM128X1S" 7) 0
      (deep_design "RAM128X1S" (Property.of_int 5 128))
      (deep_cell "RAM128X1S" "deep" (Property.of_int 5 128)) (Property.of_int 5 128)
      rfl rfl rfl).1 (by simp [Property.of_int]),
   (init_windows (deep_control "RAM128X1S" 7) 0
      (deep_design "RAM128X1S" (Property.of_int 5 128))
      (deep_cell "RAM128X1S" "deep" (Property.of_int 5 128)) (Property.of_int 5 128)
      rfl rfl rfl).2.2.2.1 rfl rfl⟩

/-! ### Renaming keeps the nets -/

theorem find_rename_in_ne (P : List (IdString × PortInfo)) (p d k : IdString)
    (h1 : k ≠ p) (h2 : k ≠ d) : dict_find (rename_in P p d) k = dict_find P k := by
  unfold rename_in
  cases dict_find P p with
  | none => rfl
  | some port =>
    simp only
    rw [dict_find_set_ne _ _ _ _ h2, dict_find_erase_ne _ _ _ h1]

theorem find_rename_in_dest (P : List (IdString × PortInfo)) (p d : IdString) (port : PortInfo)
    (h : dict_find P p = some port) :
    dict_find (rename_in P p d) d = some { port with name := d } := by
  unfold rename_in
  rw [h]
  exact dict_find_set_self _ _ _

/-- A name that no rename of the sweep reads or writes keeps its port. -/
theorem rename_all_untouched (T : List (IdString × IdString)) (k : IdString) :
    ∀ (names : List IdString) (P : List (IdString × PortInfo)),
      (∀ p ∈ names, ∀ d, dict_find T p = some d → p ≠ k ∧ d ≠ k) →
      dict_find (rename_all T names P) k = dict_find P k := by
  intro names
  induction names with
  | nil => intro P _; rfl
  | cons p0 rest ih =>
    intro P h
    simp only [rename_all]
    rw [ih _ (fun p hp d hd => h p (List.mem_cons_of_mem _ hp) d hd)]
    unfold rename_step
    cases hT : dict_find T p0 with
    | none => rfl
    | some d0 =>
      simp only
      obtain ⟨a, b⟩ := h p0 (List.mem_cons_self _ _) d0 hT
      split_ifs
      · exact find_rename_in_ne P p0 d0 k (fun e => a e.symm) (fun e => b e.symm)
      · rfl

/-- The sweep of a one-to-one table over the port names of a cell: a port the
table names ends under its destination name with its net. -/
theorem rename_all_keeps (T : List (IdString × IdString))
    (H1 : ∀ p d, dict_find T p = some d → dict_find T d = none)
    (H2 : ∀ p p' d, dict_find T p = some d → dict_find T p' = some d → p = p') :
    ∀ (names : List IdString) (P : List (IdString × PortInfo)), names.Nodup →
      ∀ p ∈ names, ∀ d port, dict_find T p = some d → dict_find P p = some port →
        dict_find (rename_all T names P) d = some { port with name := d } := by
  intro names
  induction names with
  | nil => intro P _ p hp; cases hp
  | cons p0 rest ih =>
    intro P hnd p hp d port hT hP
    simp only [List.nodup_cons] at hnd
    simp only [rename_all]
    have hdp : ∀ q e, dict_find T q = some e → e ≠ q := by
      intro q e hq he
      rw [he] at hq
      rw [H1 q q hq] at hq
      cases hq
    rcases List.mem_cons.mp hp with hp0 | hpr
    · subst hp0
      have hstep : rename_step T P p = rename_in P p d := by
        unfold rename_step
        rw [hT]
        simp only
        rw [if_pos (hdp p d hT)]
      rw [hstep, rename_all_untouched T d rest _ ?_]
      · exact find_rename_in_dest P p d port hP
      · intro q hq e he
        constructor
        · intro hqd
          rw [hqd, H1 p d hT] at he
          cases he
        · intro hed
          rw [hed] at he
          exact hnd.1 (H2 p q d hT he ▸ hq)
    · apply ih _ hnd.2 p hpr d port hT
      unfold rename_step
      cases hT0 : dict_find T p0 with
      | none => exact hP
      | some d0 =>
        simp only
        rw [if_pos (hdp p0 d0 hT0)]
        rw [find_rename_in_ne P p0 d0 p (fun e => hnd.1 (e ▸ hpr)) ?_]
        · exact hP
        · intro e
          rw [e, H1 p0 d0 hT0] at hT
          cases hT

theorem mem_of_find {α : Type} (m : List (IdString × α)) (k : IdString) (v : α)
    (h : dict_find m k = some v) : (k, v) ∈ m := by
  induction m with
  | nil => cases h
  | cons e rest ih =>
    obtain ⟨k1, v1⟩ := e
    simp only [dict_find] at h
    by_cases h1 : k1 = k
    · rw [if_pos h1] at h
      cases h
      rw [h1]
      exact List.mem_cons_self _ _
    · rw [if_neg h1] at h
      exact List.mem_cons_of_mem _ (ih h)

theorem table_ok_spec (T : List (IdString × IdString)) (h : table_ok T = true) :
    (∀ p d, dict_find T p = some d → dict_find T d = none) ∧
    (∀ p p' d, dict_find T p = some d → dict_find T p' = some d → p = p') := by
  simp only [table_ok, List.all_eq_true, Bool.and_eq_true, beq_iff_eq, Bool.or_eq_true,
    bne_iff_ne, ne_eq] at h
  constructor
  · intro p d hp
    exact (h (p, d) (mem_of_find T p d hp)).1
  · intro p p' d hp hp'
    rcases (h (p, d) (mem_of_find T p d hp)).2 (p', d) (mem_of_find T p' d hp') with h1 | h1
    · exact absurd rfl h1
    · exact h1

theorem rules_ok_all :
    rules_ok dram_rules = true ∧ rules_ok dram32_6_rules = true ∧
    rules_ok dram32_5_rules = true ∧ rules_ok bufgctrl_rules = true := by
  decide

theorem rules_ok_spec (rules : List (IdString × XFormRule)) (h : rules_ok rules = true)
    (t : IdString) (rule : XFormRule) (hf : dict_find rules t = some rule) :
    table_ok rule.port_xform = true ∧ (rule.port_multixform = [] ∨ rule.port_xform = []) := by
  simp only [rules_ok, List.all_eq_true, Bool.and_eq_true, Bool.or_eq_true,
    List.isEmpty_iff] at h
  exact h (t, rule) (mem_of_find rules t rule hf)

/-- C11: for a cell with distinct port names transformed with dram_rules,
dram32_6_rules, dram32_5_rules or bufgctrl_rules: the one-to-one table of its
rule sends no two source ports to one destination name; a rule without
one-to-many part always transforms the cell; and after the transformation every
port the one-to-one table names is present under its destination name with the
direction and the net it had before. -/
theorem xform_cell_keeps_nets (rules : List (IdString × XFormRule))
    (hr : rules = dram_rules ∨ rules = dram32_6_rules ∨ rules = dram32_5_rules ∨
      rules = bufgctrl_rules)
    (ci : CellInfo) (rule : XFormRule) (hf : dict_find rules ci.type = some rule)
    (hnd : (ci.ports.map (fun e => e.1)).Nodup) :
    (∀ p p' d, dict_find rule.port_xform p = some d → dict_find rule.port_xform p' = some d →
      p = p') ∧
    (rule.port_multixform = [] → ∃ c, xform_cell rules ci = .ok c) ∧
    ∀ c, xform_cell rules ci = .ok c →
      ∀ p d port, dict_find rule.port_xform p = some d → dict_find ci.ports p = some port →
        dict_find c.ports d = some { port with name := d } := by
  have hok : rules_ok rules = true := by
    rcases hr with h | h | h | h <;> subst h
    · exact rules_ok_all.1
    · exact rules_ok_all.2.1
    · exact rules_ok_all.2.2.1
    · exact rules_ok_all.2.2.2
  obtain ⟨htab, hsplit⟩ := rules_ok_spec rules hok ci.type rule hf
  obtain ⟨H1, H2⟩ := table_ok_spec rule.port_xform htab
  refine ⟨H2, fun hm => ⟨_, xform_cell_renames rules ci rule hf hm⟩, ?_⟩
  intro c hc
  rcases hsplit with hm | hx
  · rw [xform_cell_renames rules ci rule hf hm] at hc
    cases hc
    intro p d port hT hP
    exact rename_all_keeps rule.port_xform H1 H2 _ ci.ports hnd p
      (mem_keys_of_find ci.ports p port hP) d port hT hP
  · intro p d port hT
    rw [hx] at hT
    cases hT

theorem xform_cell_keeps_nets_witness :
    (∀ p p' d, dict_find ramd64e_rule.port_xform p = some d →
      dict_find ramd64e_rule.port_xform p' = some d → p = p') ∧
    (ramd64e_rule.port_multixform = [] → ∃ c, xform_cell dram_rules wired_ramd64e = .ok c) ∧
    ∀ c, xform_cell dram_rules wired_ramd64e = .ok c →
      ∀ p d port, dict_find ramd64e_rule.port_xform p = some d →
        dict_find wired_ramd64e.ports p = some port →
        dict_find c.ports d = some { port with name := d } :=
  xform_cell_keeps_nets dram_rules (Or.inl rfl) wired_ramd64e ramd64e_rule (by decide)
    (by decide)

/-! ### The visit of one cell by prepare_clocking -/

theorem get_of_length (l1 l2 : List CellInfo) (k : Nat) (c : CellInfo)
    (h : l1.get? k = some c) (hl : l2.length = l1.length) : ∃ c1, l2.get? k = some c1 := by
  have hk : k < l1.length := by
    simp only [List.get?_eq_getElem?] at h
    by_contra hc
    rw [List.getElem?_eq_none (by omega)] at h
    cases h
  exact ⟨l2[k], by simp only [List.get?_eq_getElem?]; exact List.getElem?_eq_getElem (by omega)⟩

/-- Whatever tie_port returns: the cell keeps its type, name and attributes,
every other port, every parameter but the inversion of the port, and a port
that was absent or unconnected ends on the constant net. -/
theorem tie_port_frame (s : Packer) (ci c : CellInfo) (port : String) (value inv : Bool)
    (h : tie_port s ci port value inv = .ok c) :
    c.type = ci.type ∧ c.name = ci.name ∧ c.attrs = ci.attrs ∧
    (∀ q, q ≠ port → dict_find c.ports q = dict_find ci.ports q) ∧
    (∀ key, key ≠ "IS_" ++ port ++ "_INVERTED" →
      dict_find c.params key = dict_find ci.params key) ∧
    ((ci.ports.map (fun e => e.1)).Nodup → (c.ports.map (fun e => e.1)).Nodup) ∧
    (get_net_or_empty ci port = none → ∃ n,
      net_by_name s (if value then "$PACKER_VCC_NET" else "$PACKER_GND_NET") = some n ∧
      get_net_or_empty c port = some n) ∧
    (get_net_or_empty ci port ≠ none → get_net_or_empty c port = get_net_or_empty ci port) := by
  by_cases hfree : get_net_or_empty ci port = none
  · cases hn : net_by_name s (if value then "$PACKER_VCC_NET" else "$PACKER_GND_NET") with
    | none =>
      exfalso
      unfold tie_port at h
      cases hp : dict_find ci.ports port with
      | some pp =>
        have hnet : pp.net = none := by
          unfold get_net_or_empty at hfree
          rw [hp] at hfree
          exact hfree
        simp [dict_count, hp, get_net_or_empty, hnet, hn] at h
      | none =>
        simp [dict_count, hp, get_net_or_empty, dict_find_set_self, hn] at h
    | some n =>
      obtain ⟨c1, e1, t1, n1, p1, f1, d1, a1, q1⟩ := tie_port_spec s ci port value inv n hn hfree
      rw [e1] at h
      cases h
      exact ⟨t1, n1, a1, f1, q1, d1, fun _ => ⟨n, rfl, p1⟩, fun hx => absurd hfree hx⟩
  · have hc : c = ci := by
      unfold tie_port at h
      cases hp : dict_find ci.ports port with
      | some pp =>
        have hnet : pp.net ≠ none := by
          unfold get_net_or_empty at hfree
          rw [hp] at hfree
          exact hfree
        simp [dict_count, hp, get_net_or_empty, hnet, pure, Except.pure] at h
        exact h.symm
      | none =>
        exfalso
        unfold get_net_or_empty at hfree
        rw [hp] at hfree
        exact hfree rfl
    subst hc
    exact ⟨rfl, rfl, rfl, fun _ _ => rfl, fun _ _ => rfl, fun hx => hx,
      fun hx => absurd hx hfree, fun _ => rfl⟩

/-- Whatever a chain of tie_port calls returns. -/
theorem tie_ports_frame (s : Packer) :
    ∀ (L : List (String × Bool × Bool)) (ci c : CellInfo), tie_ports s L ci = .ok c →
      c.type = ci.type ∧ c.name = ci.name ∧ c.attrs = ci.attrs ∧
      (∀ q, q ∉ L.map (fun e => e.1) → dict_find c.ports q = dict_find ci.ports q) ∧
      (∀ key, (∀ e ∈ L, key ≠ "IS_" ++ e.1 ++ "_INVERTED") →
        dict_find c.params key = dict_find ci.params key) ∧
      ((ci.ports.map (fun e => e.1)).Nodup → (c.ports.map (fun e => e.1)).Nodup) ∧
      ((L.map (fun e => e.1)).Nodup → ∀ e ∈ L, get_net_or_empty ci e.1 = none →
        ∃ n, net_by_name s (if e.2.1 then "$PACKER_VCC_NET" else "$PACKER_GND_NET") = some n ∧
          get_net_or_empty c e.1 = some n) := by
  intro L
  induction L with
  | nil =>
    intro ci c h
    cases h
    exact ⟨rfl, rfl, rfl, fun _ _ => rfl, fun _ _ => rfl, fun hx => hx,
      fun _ e he => absurd he (List.not_mem_nil e)⟩
  | cons e0 rest ih =>
    intro ci c h
    obtain ⟨port, value, inv⟩ := e0
    simp only [tie_ports] at h
    obtain ⟨c1, h1, h⟩ := except_bind_ok _ _ c h
    obtain ⟨t1, n1, a1, f1, q1, d1, p1, _⟩ := tie_port_frame s ci c1 port value inv h1
    obtain ⟨t2, n2, a2, f2, q2, d2, p2⟩ := ih c1 c h
    refine ⟨t2.trans t1, n2.trans n1, a2.trans a1, ?_, ?_, fun hx => d2 (d1 hx), ?_⟩
    · intro q hq
      simp only [List.map_cons, List.mem_cons, not_or] at hq
      rw [f2 q hq.2, f1 q hq.1]
    · intro key hkey
      rw [q2 key (fun e he => hkey e (List.mem_cons_of_mem _ he)),
        q1 key (hkey (port, value, inv) (List.mem_cons_self _ _))]
    · intro hnd e he hfree
      simp only [List.map_cons, List.nodup_cons] at hnd
      rcases List.mem_cons.mp he with he0 | her
      · subst he0
        obtain ⟨n, hn, hg⟩ := p1 hfree
        refine ⟨n, hn, ?_⟩
        unfold get_net_or_empty at hg ⊢
        rw [f2 port hnd.1]
        exact hg
      · have hne : e.1 ≠ port := by
          intro hx
          apply hnd.1
          rw [← hx]
          exact List.mem_map_of_mem _ her
        apply p2 hnd.2 e her
        unfold get_net_or_empty at hfree ⊢
        rw [f1 e.1 hne]
        exact hfree

/-- A cell after a port operation: everything but the ports is as before, every
other port is as before, and the port names stay distinct. -/
theorem connect_port_frame (n : Option NetId) (c c1 : CellInfo) (p : IdString)
    (h : connect_port n c p = .ok c1) :
    c1.type = c.type ∧ c1.name = c.name ∧ c1.attrs = c.attrs ∧ c1.params = c.params ∧
    (∀ q, q ≠ p → dict_find c1.ports q = dict_find c.ports q) ∧
    ((c.ports.map (fun e => e.1)).Nodup → (c1.ports.map (fun e => e.1)).Nodup) := by
  rw [connect_port_eq] at h
  cases hf : dict_find c.ports p with
  | none =>
    rw [hf] at h
    cases n <;> simp at h
    subst h
    exact ⟨rfl, rfl, rfl, rfl, fun _ _ => rfl, fun hx => hx⟩
  | some port =>
    rw [hf] at h
    simp only at h
    split_ifs at h
    · cases h
      exact ⟨rfl, rfl, rfl, rfl, fun q hq => dict_find_set_ne _ _ _ _ hq,
        fun hx => nodup_keys_dict_set _ _ _ hx⟩
    · cases n <;> simp at h
      subst h
      exact ⟨rfl, rfl, rfl, rfl, fun _ _ => rfl, fun hx => hx⟩

theorem disconnect_port_frame (c : CellInfo) (p : IdString) :
    (disconnect_port c p).type = c.type ∧ (disconnect_port c p).name = c.name ∧
    (disconnect_port c p).attrs = c.attrs ∧ (disconnect_port c p).params = c.params ∧
    (∀ q, q ≠ p → dict_find (disconnect_port c p).ports q = dict_find c.ports q) ∧
    ((c.ports.map (fun e => e.1)).Nodup →
      ((disconnect_port c p).ports.map (fun e => e.1)).Nodup) ∧
    get_net_or_empty (disconnect_port c p) p = none := by
  unfold disconnect_port
  cases hf : dict_find c.ports p with
  | none =>
    refine ⟨rfl, rfl, rfl, rfl, fun _ _ => rfl, fun hx => hx, ?_⟩
    simp only [get_net_or_empty, hf]
  | some port =>
    refine ⟨rfl, rfl, rfl, rfl, fun q hq => dict_find_set_ne _ _ _ _ hq,
      fun hx => nodup_keys_dict_set _ _ _ hx, ?_⟩
    simp only [get_net_or_empty, dict_find_set_self]

theorem driver_of_loop_mem (net : NetId) :
    ∀ (cells : List CellInfo) (i : Nat) (d : CellRef × CellInfo),
      driver_of_loop net cells i = some d → d.2 ∈ cells := by
  intro cells
  induction cells with
  | nil => intro i d h; cases h
  | cons c rest ih =>
    intro i d h
    simp only [driver_of_loop] at h
    split_ifs at h
    · cases h
      exact List.mem_cons_self _ _
    · exact List.mem_cons_of_mem _ (ih (i + 1) d h)

theorem disconnect_port_keeps_port (c : CellInfo) (p : IdString)
    (h : (dict_find c.ports p).isSome) : (dict_find (disconnect_port c p).ports p).isSome := by
  unfold disconnect_port
  cases hf : dict_find c.ports p with
  | none => rw [hf] at h; cases h
  | some port => simp only [dict_find_set_self, Option.isSome_some]

theorem connect_port_keeps_port (n : Option NetId) (c c1 : CellInfo) (p : IdString)
    (h : connect_port n c p = .ok c1) (hp : (dict_find c.ports p).isSome) :
    (dict_find c1.ports p).isSome := by
  rw [connect_port_eq] at h
  cases hf : dict_find c.ports p with
  | none => rw [hf] at hp; cases hp
  | some port =>
    rw [hf] at h
    simp only at h
    split_ifs at h
    · cases h
      simp only [dict_find_set_self, Option.isSome_some]
    · cases n <;> simp at h
      subst h
      rw [hf]
      rfl

/-- The cell a fold_inverter call leaves, for either outcome of the look at the
driver: only the port and its inversion parameter may have changed. -/
theorem fold_inverter_tail_cell (k : Nat) (s t : Packer) (ci : CellInfo) (port : String)
    (net : NetId) (drv : CellRef × CellInfo) (inp : Option IdString)
    (hk : s.cells.get? k = some ci)
    (h : (match inp with
      | none => pure s
      | some i => do
        let preinv := get_net_or_empty drv.2 i
        let c1 ← connect_port preinv (disconnect_port ci port) port
        let key : IdString := "IS_" ++ port ++ "_INVERTED"
        let c2 : CellInfo := { c1 with params := dict_set c1.params key (Property.of_int 1 32) }
        let s1 := set_cell s (CellRef.live k) c2
        pure (if has_users s1 net then s1 else mark_packed s1 drv.2.name)) = Except.ok t) :
    (inp = none → t = s) ∧
    ∃ c0, t.cells.get? k = some c0 ∧ c0.type = ci.type ∧ c0.name = ci.name ∧
      c0.attrs = ci.attrs ∧
      (∀ q, q ≠ port → dict_find c0.ports q = dict_find ci.ports q) ∧
      (∀ key, key ≠ "IS_" ++ port ++ "_INVERTED" →
        dict_find c0.params key = dict_find ci.params key) ∧
      ((ci.ports.map (fun e => e.1)).Nodup → (c0.ports.map (fun e => e.1)).Nodup) ∧
      ((dict_find ci.ports port).isSome → (dict_find c0.ports port).isSome) ∧
      ((ci.params.map (fun e => e.1)).Nodup → (c0.params.map (fun e => e.1)).Nodup) := by
  cases inp with
  | none =>
    cases h
    exact ⟨fun _ => rfl, ci, hk, rfl, rfl, rfl, fun _ _ => rfl, fun _ _ => rfl, fun hx => hx,
      fun hx => hx, fun hx => hx⟩
  | some i =>
    obtain ⟨c1, hc1, h⟩ := except_bind_ok _ _ t h
    simp only [pure, Except.pure, Except.ok.injEq] at h
    obtain ⟨a1, a2, a3, a4, a5, a6⟩ := connect_port_frame _ _ c1 port hc1
    obtain ⟨b1, b2, b3, b4, b5, b6, _⟩ := disconnect_port_frame ci port
    obtain ⟨c2, hc2⟩ : ∃ c2 : CellInfo, c2 = { c1 with
        params := dict_set c1.params ("IS_" ++ port ++ "_INVERTED") (Property.of_int 1 32) } :=
      ⟨_, rfl⟩
    rw [← hc2] at h
    have hp2 : c2.ports = c1.ports := by rw [hc2]
    refine ⟨fun hx => Option.noConfusion hx, c2, ?_, by rw [hc2]; exact a1.trans b1,
      by rw [hc2]; exact a2.trans b2, by rw [hc2]; exact a3.trans b3, ?_, ?_, ?_, ?_, ?_⟩
    · subst h
      split_ifs
      · exact get_set_cell s k ci _ hk
      · rw [(mark_packed_new_cells _ _).2.1]
        exact get_set_cell s k ci _ hk
    · intro q hq
      rw [hp2]
      exact (a5 q hq).trans (b5 q hq)
    · intro key hkey
      rw [hc2]
      simp only
      rw [dict_find_set_ne _ _ _ _ hkey, a4, b4]
    · intro hx
      rw [hp2]
      exact a6 (b6 hx)
    · intro hx
      rw [hp2]
      exact connect_port_keeps_port _ _ c1 port hc1 (disconnect_port_keeps_port ci port hx)
    · intro hx
      rw [hc2]
      simp only
      rw [a4, b4]
      exact nodup_keys_dict_set _ _ _ hx

/-- The cell fold_inverter leaves at the index it is called on; in a design
without INV and LUT1 cells it changes nothing. -/
theorem fold_inverter_cell (k : Nat) (s t : Packer) (ci : CellInfo) (port : String)
    (hk : s.cells.get? k = some ci) (h : fold_inverter s (CellRef.live k) port = .ok t) :
    ((∀ c ∈ s.cells, c.type ≠ "INV" ∧ c.type ≠ "LUT1") → t = s) ∧
    ∃ c0, t.cells.get? k = some c0 ∧ c0.type = ci.type ∧ c0.name = ci.name ∧
      c0.attrs = ci.attrs ∧
      (∀ q, q ≠ port → dict_find c0.ports q = dict_find ci.ports q) ∧
      (∀ key, key ≠ "IS_" ++ port ++ "_INVERTED" →
        dict_find c0.params key = dict_find ci.params key) ∧
      ((ci.ports.map (fun e => e.1)).Nodup → (c0.ports.map (fun e => e.1)).Nodup) ∧
      ((dict_find ci.ports port).isSome → (dict_find c0.ports port).isSome) ∧
      ((ci.params.map (fun e => e.1)).Nodup → (c0.params.map (fun e => e.1)).Nodup) := by
  have hsame : ∃ c0, s.cells.get? k = some c0 ∧ c0.type = ci.type ∧ c0.name = ci.name ∧
      c0.attrs = ci.attrs ∧
      (∀ q, q ≠ port → dict_find c0.ports q = dict_find ci.ports q) ∧
      (∀ key, key ≠ "IS_" ++ port ++ "_INVERTED" →
        dict_find c0.params key = dict_find ci.params key) ∧
      ((ci.ports.map (fun e => e.1)).Nodup → (c0.ports.map (fun e => e.1)).Nodup) ∧
      ((dict_find ci.ports port).isSome → (dict_find c0.ports port).isSome) ∧
      ((ci.params.map (fun e => e.1)).Nodup → (c0.params.map (fun e => e.1)).Nodup) :=
    ⟨ci, hk, rfl, rfl, rfl, fun _ _ => rfl, fun _ _ => rfl, fun hx => hx, fun hx => hx,
      fun hx => hx⟩
  unfold fold_inverter at h
  simp only [deref_live s k ci hk, bind, Except.bind] at h
  cases hnet : get_net_or_empty ci port with
  | none =>
    rw [hnet] at h
    cases h
    exact ⟨fun _ => rfl, hsame⟩
  | some net =>
    rw [hnet] at h
    cases hdrv : driver_of s net with
    | none =>
      simp only [hdrv] at h
      cases h
      exact ⟨fun _ => rfl, hsame⟩
    | some drv =>
      simp only [hdrv] at h
      obtain ⟨e1, e2⟩ := fold_inverter_tail_cell k s t ci port net drv _ hk h
      refine ⟨?_, e2⟩
      intro hno
      apply e1
      obtain ⟨n1, n2⟩ := hno drv.2 (driver_of_loop_mem net s.cells 0 drv hdrv)
      simp only [n1, n2, false_and, if_false]

/-! ### One-to-many expansion -/

theorem dict_find_none_of_not_mem {α : Type} (m : List (IdString × α)) (k : IdString)
    (h : k ∉ m.map (fun e => e.1)) : dict_find m k = none := by
  cases hf : dict_find m k with
  | none => rfl
  | some v => exact absurd (mem_keys_of_find m k v hf) h

theorem dict_find_erase_self {α : Type} (m : List (IdString × α)) (k : IdString)
    (h : (m.map (fun e => e.1)).Nodup) : dict_find (dict_erase m k) k = none := by
  induction m with
  | nil => rfl
  | cons e rest ih =>
    obtain ⟨k1, v1⟩ := e
    simp only [List.map_cons, List.nodup_cons] at h
    simp only [dict_erase]
    by_cases h1 : k1 = k
    · rw [if_pos h1]
      subst h1
      exact dict_find_none_of_not_mem rest k1 h.1
    · rw [if_neg h1]
      simp only [dict_find]
      rw [if_neg h1]
      exact ih h.2

/-- One destination of a one-to-many expansion, whenever it returns: the
destination is on the net of the original when that has one, and nothing else
moves. -/
theorem xform_fanout_frame (sp : PortInfo) (c c1 : CellInfo) (d : IdString)
    (h : xform_fanout sp c d = .ok c1) :
    c1.type = c.type ∧ c1.name = c.name ∧ c1.attrs = c.attrs ∧ c1.params = c.params ∧
    (∀ q, q ≠ d → dict_find c1.ports q = dict_find c.ports q) ∧
    (∀ n, sp.net = some n → get_net_or_empty c1 d = some n) := by
  unfold xform_fanout at h
  simp only at h
  obtain ⟨a1, a2, a3, a4, a5, _⟩ := connect_port_frame _ _ c1 d h
  refine ⟨a1, a2, a3, a4, ?_, ?_⟩
  · intro q hq
    rw [a5 q hq]
    exact dict_find_set_ne _ _ _ _ hq
  · intro n hn
    rw [connect_port_eq, hn] at h
    simp only [dict_find_set_self] at h
    split_ifs at h
    cases h
    simp only [get_net_or_empty, dict_find_set_self]

theorem fan_ports_skip (rule : XFormRule) (src : IdString) (dests : List IdString)
    (hx : rule.port_xform = []) (hm : rule.port_multixform = [(src, dests)])
    (names : List IdString) (c : CellInfo) (h : src ∉ names) :
    xform_ports rule names c = .ok c := by
  induction names with
  | nil => rfl
  | cons p rest ih =>
    simp only [List.mem_cons, not_or] at h
    have hp : xform_port rule c p = .ok c := by
      unfold xform_port
      rw [hm, hx]
      simp only [dict_find]
      rw [if_neg h.1]
      rfl
    simp only [xform_ports, hp, bind, Except.bind]
    exact ih h.2

theorem fan_ports (rule : XFormRule) (src : IdString) (dests : List IdString)
    (hx : rule.port_xform = []) (hm : rule.port_multixform = [(src, dests)])
    (names : List IdString) (c : CellInfo) (hnd : names.Nodup) (h : src ∈ names) :
    xform_ports rule names c = xform_port rule c src := by
  induction names generalizing c with
  | nil => cases h
  | cons p rest ih =>
    simp only [List.nodup_cons] at hnd
    by_cases hp : src = p
    · subst hp
      simp only [xform_ports, bind, Except.bind]
      cases hs : xform_port rule c src with
      | error e => rfl
      | ok c1 => exact fan_ports_skip rule src dests hx hm rest c1 hnd.1
    · have hp1 : xform_port rule c p = .ok c := by
        unfold xform_port
        rw [hm, hx]
        simp only [dict_find]
        rw [if_neg hp]
        rfl
      simp only [xform_ports, hp1, bind, Except.bind]
      exact ih c hnd.2 ((List.mem_cons.mp h).resolve_left hp)

/-- A rule that only fans one port out to two destinations, whenever it returns
on a cell with distinct port names whose source port is on the net `n`: the cell
takes the destination type, both destinations are on `n`, the source port is
gone and every other port, the parameters and the attributes are as before. -/
theorem xform_cell_fanout (rules : List (IdString × XFormRule)) (rule : XFormRule)
    (src d0 d1 : IdString) (c c2 : CellInfo) (sp : PortInfo) (n : NetId)
    (hf : dict_find rules c.type = some rule)
    (hx : rule.port_xform = []) (hm : rule.port_multixform = [(src, [d0, d1])])
    (ha : rule.set_attrs = []) (h0 : src ≠ d0) (h1 : src ≠ d1) (h01 : d0 ≠ d1)
    (hnd : (c.ports.map (fun e => e.1)).Nodup)
    (hsp : dict_find c.ports src = some sp) (hn : sp.net = some n)
    (h : xform_cell rules c = .ok c2) :
    c2.type = rule.new_type ∧ c2.name = c.name ∧ c2.params = c.params ∧ c2.attrs = c.attrs ∧
    get_net_or_empty c2 d0 = some n ∧ get_net_or_empty c2 d1 = some n ∧
    dict_find c2.ports src = none ∧
    ∀ q, q ≠ src → q ≠ d0 → q ≠ d1 → dict_find c2.ports q = dict_find c.ports q := by
  unfold xform_cell at h
  rw [hf] at h
  simp only at h
  obtain ⟨c1, hc1, h⟩ := except_bind_ok _ _ c2 h
  simp only [pure, Except.pure, Except.ok.injEq, ha, inject_attrs] at h
  subst h
  rw [fan_ports rule src [d0, d1] hx hm _ _ hnd (mem_keys_of_find c.ports src sp hsp)] at hc1
  unfold xform_port at hc1
  rw [hm] at hc1
  simp only [dict_find, if_true, hsp, xform_fanout_all, bind, Except.bind] at hc1
  cases hA : xform_fanout sp
      { (disconnect_port { c with type := rule.new_type } src) with
        ports := dict_erase c.ports src } d0 with
  | error e => rw [hA] at hc1; cases hc1
  | ok cA =>
    rw [hA] at hc1
    simp only at hc1
    cases hB : xform_fanout sp cA d1 with
    | error e => rw [hB] at hc1; cases hc1
    | ok cB =>
      rw [hB] at hc1
      simp only [pure, Except.pure, Except.ok.injEq] at hc1
      subst hc1
      obtain ⟨a1, a2, a3, a4, a5, a6⟩ := xform_fanout_frame sp _ cA d0 hA
      obtain ⟨b1, b2, b3, b4, b5, b6⟩ := xform_fanout_frame sp cA cB d1 hB
      obtain ⟨e1, e2, e3, e4, _⟩ := disconnect_port_frame { c with type := rule.new_type } src
      refine ⟨?_, ?_, ?_, ?_, ?_, b6 n hn, ?_, ?_⟩
      · rw [b1, a1]; exact e1
      · rw [b2, a2]; exact e2
      · rw [b4, a4]; exact e4
      · rw [b3, a3]; exact e3
      · unfold get_net_or_empty
        rw [b5 d0 h01]
        exact a6 n hn
      · rw [b5 src h1, a5 src h0]
        exact dict_find_erase_self c.ports src hnd
      · intro q q1 q2 q3
        rw [b5 q q3, a5 q q2]
        exact dict_find_erase_ne c.ports src q q1

/-! ### The branches of the loop body of prepare_clocking -/

theorem deref_live_ok (s : Packer) (k : Nat) (c : CellInfo)
    (h : deref s (some (CellRef.live k)) = .ok c) : s.cells.get? k = some c := by
  simp only [deref, get_cell] at h
  cases hg : s.cells.get? k with
  | none => rw [hg] at h; cases h
  | some c1 =>
    rw [hg] at h
    simp only [pure, Except.pure, Except.ok.injEq] at h
    rw [h]

theorem visit_upgrade (s : Packer) (k : Nat) (ci : CellInfo) (nt : IdString)
    (hk : s.cells.get? k = some ci) (hu : dict_find upgrade ci.type = some nt) :
    prepare_clocking_cell k s = .ok (set_cell s (CellRef.live k) { ci with type := nt }) := by
  unfold prepare_clocking_cell
  simp only [deref_live s k ci hk, bind, Except.bind, hu]
  rfl

theorem visit_bufgce (s t : Packer) (k : Nat) (ci : CellInfo)
    (hk : s.cells.get? k = some ci) (ht : ci.type = "BUFGCE" ∨ ci.type = "BUFGCE_1")
    (h : prepare_clocking_cell k s = .ok t) :
    ∃ s1 c0 c, fold_inverter s (CellRef.live k) "CE" = .ok s1 ∧ s1.cells.get? k = some c0 ∧
      tie_ports s1 [("S0", true, true), ("S1", false, true), ("IGNORE0", true, true),
        ("IGNORE1", false, true)]
        (if int_or_default c0.params "IS_CE_INVERTED" ≠ 0 then
          { c0 with
            params := dict_erase (dict_set c0.params "IS_CE0_INVERTED" (Property.of_int 1 32))
              "IS_CE_INVERTED" }
         else c0) = .ok c ∧
      t = set_cell s1 (CellRef.live k) c := by
  have hu : dict_find upgrade ci.type = none := by
    rcases ht with h1 | h1 <;> rw [h1] <;> decide
  have hb : ci.type ≠ "BUFG" := by
    rcases ht with h1 | h1 <;> rw [h1] <;> decide
  unfold prepare_clocking_cell at h
  simp only [deref_live s k ci hk, bind, Except.bind, hu, hb, if_false, ht, if_true] at h
  cases h1 : fold_inverter s (CellRef.live k) "CE" with
  | error e => rw [h1] at h; cases h
  | ok s1 =>
    rw [h1] at h
    simp only at h
    cases h2 : deref s1 (some (CellRef.live k)) with
    | error e => rw [h2] at h; cases h
    | ok c0 =>
      rw [h2] at h
      simp only at h
      obtain ⟨c, hc, h⟩ := except_bind_ok _ _ t h
      simp only [pure, Except.pure, Except.ok.injEq] at h
      exact ⟨s1, c0, c, rfl, deref_live_ok s1 k c0 h2, hc, h.symm⟩

theorem visit_bufgmux (s t : Packer) (k : Nat) (ci : CellInfo)
    (hk : s.cells.get? k = some ci) (ht : ci.type = "BUFGMUX" ∨ ci.type = "BUFGMUX_1")
    (h : prepare_clocking_cell k s = .ok t) :
    ∃ s1 c0 c, fold_inverter s (CellRef.live k) "S" = .ok s1 ∧ s1.cells.get? k = some c0 ∧
      (if str_or_default (split_inversion c0 "IS_CE0_INVERTED" "IS_CE1_INVERTED").params
            "CLK_SEL_TYPE" "SYNC" = "ASYNC" then
          tie_ports s1 [("S0", true, true), ("S1", true, true), ("IGNORE0", false, true),
            ("IGNORE1", false, true)] (split_inversion c0 "IS_CE0_INVERTED" "IS_CE1_INVERTED")
        else if str_or_default (split_inversion c0 "IS_CE0_INVERTED" "IS_CE1_INVERTED").params
            "CLK_SEL_TYPE" "SYNC" = "SYNC" then
          tie_ports s1 [("S0", true, true), ("S1", true, true), ("IGNORE0", true, false),
            ("IGNORE1", true, false)] (split_inversion c0 "IS_CE0_INVERTED" "IS_CE1_INVERTED")
        else pure (split_inversion c0 "IS_CE0_INVERTED" "IS_CE1_INVERTED")) = .ok c ∧
      t = set_cell s1 (CellRef.live k) c := by
  have hu : dict_find upgrade ci.type = none := by
    rcases ht with h1 | h1 <;> rw [h1] <;> decide
  have hb : ci.type ≠ "BUFG" ∧ ci.type ≠ "BUFGCE" ∧ ci.type ≠ "BUFGCE_1" ∧ ci.type ≠ "BUFH" ∧
      ci.type ≠ "BUFHCE" := by
    rcases ht with h1 | h1 <;> rw [h1] <;> decide
  unfold prepare_clocking_cell at h
  simp only [deref_live s k ci hk, bind, Except.bind, hu, hb.1, hb.2.1, hb.2.2.1, hb.2.2.2.1,
    hb.2.2.2.2, or_self, if_false, ht, if_true] at h
  cases h1 : fold_inverter s (CellRef.live k) "S" with
  | error e => rw [h1] at h; cases h
  | ok s1 =>
    rw [h1] at h
    simp only at h
    cases h2 : deref s1 (some (CellRef.live k)) with
    | error e => rw [h2] at h; cases h
    | ok c0 =>
      rw [h2] at h
      simp only at h
      obtain ⟨c, hc, h⟩ := except_bind_ok _ _ t h
      simp only [pure, Except.pure, Except.ok.injEq] at h
      exact ⟨s1, c0, c, rfl, deref_live_ok s1 k c0 h2, hc, h.symm⟩

theorem visit_bufgmux_ctrl (s t : Packer) (k : Nat) (ci : CellInfo)
    (hk : s.cells.get? k = some ci) (ht : ci.type = "BUFGMUX_CTRL")
    (h : prepare_clocking_cell k s = .ok t) :
    ∃ s1 c0 c2 c, fold_inverter s (CellRef.live k) "S" = .ok s1 ∧ s1.cells.get? k = some c0 ∧
      xform_cell bufgctrl_rules (split_inversion c0 "IS_S0_INVERTED" "IS_S1_INVERTED") = .ok c2 ∧
      tie_ports s1 [("CE0", true, true), ("CE1", true, true), ("IGNORE0", true, false),
        ("IGNORE1", true, false)] c2 = .ok c ∧
      t = set_cell s1 (CellRef.live k) c := by
  have hu : dict_find upgrade "BUFGMUX_CTRL" = none := by decide
  unfold prepare_clocking_cell at h
  simp only [deref_live s k ci hk, bind, Except.bind, ht, hu, String.reduceEq, or_self, if_false,
    if_true] at h
  cases h1 : fold_inverter s (CellRef.live k) "S" with
  | error e => rw [h1] at h; cases h
  | ok s1 =>
    rw [h1] at h
    simp only at h
    cases h2 : deref s1 (some (CellRef.live k)) with
    | error e => rw [h2] at h; cases h
    | ok c0 =>
      rw [h2] at h
      simp only at h
      obtain ⟨c2, hc2, h⟩ := except_bind_ok _ _ t h
      obtain ⟨c, hc, h⟩ := except_bind_ok _ _ t h
      simp only [pure, Except.pure, Except.ok.injEq] at h
      exact ⟨s1, c0, c2, c, rfl, deref_live_ok s1 k c0 h2, hc2, hc, h.symm⟩

theorem visit_bufh (s t : Packer) (k : Nat) (ci : CellInfo)
    (hk : s.cells.get? k = some ci) (ht : ci.type = "BUFH" ∨ ci.type = "BUFHCE")
    (h : prepare_clocking_cell k s = .ok t) :
    ∃ c, tie_port s { ci with type := "BUFHCE_BUFHCE" } "CE" true true = .ok c ∧
      t = set_cell s (CellRef.live k) c := by
  have hu : dict_find upgrade ci.type = none := by
    rcases ht with h1 | h1 <;> rw [h1] <;> decide
  have hb : ci.type ≠ "BUFG" ∧ ci.type ≠ "BUFGCE" ∧ ci.type ≠ "BUFGCE_1" := by
    rcases ht with h1 | h1 <;> rw [h1] <;> decide
  unfold prepare_clocking_cell at h
  simp only [deref_live s k ci hk, bind, Except.bind, hu, hb.1, hb.2.1, hb.2.2, or_self,
    if_false, ht, if_true] at h
  obtain ⟨c, hc, h⟩ := except_bind_ok _ _ t h
  simp only [pure, Except.pure, Except.ok.injEq] at h
  exact ⟨c, hc, h.symm⟩

/-- The types the loop body of prepare_clocking has a branch for. -/
theorem visit_other (s : Packer) (k : Nat) (ci : CellInfo)
    (hk : s.cells.get? k = some ci)
    (ht : ci.type ∉ ["MMCME2_BASE", "PLLE2_BASE", "BUFG", "BUFGCE", "BUFGCE_1", "BUFH", "BUFHCE",
      "BUFGMUX", "BUFGMUX_1", "BUFGMUX_CTRL"]) :
    prepare_clocking_cell k s = .ok s := by
  simp only [List.mem_cons, List.mem_singleton, List.not_mem_nil, or_false, not_or] at ht
  have hu : dict_find upgrade ci.type = none := by
    simp only [upgrade, dict_find]
    rw [if_neg (fun e => ht.1 e.symm), if_neg (fun e => ht.2.1 e.symm)]
  unfold prepare_clocking_cell
  simp only [deref_live s k ci hk, bind, Except.bind, hu, ht, or_self, if_false]
  rfl

theorem xform_fanout_all_type (sp : PortInfo) :
    ∀ (dests : List IdString) (c c1 : CellInfo), xform_fanout_all sp dests c = .ok c1 →
      c1.type = c.type := by
  intro dests
  induction dests with
  | nil => intro c c1 h; cases h; rfl
  | cons d rest ih =>
    intro c c1 h
    obtain ⟨c0, h0, h⟩ := except_bind_ok _ _ c1 h
    rw [ih c0 c1 h, (xform_fanout_frame sp c c0 d h0).1]

theorem xform_port_type (rule : XFormRule) (c c1 : CellInfo) (p : IdString)
    (h : xform_port rule c p = .ok c1) : c1.type = c.type := by
  unfold xform_port at h
  cases hm : dict_find rule.port_multixform p with
  | some dests =>
    rw [hm] at h
    simp only at h
    cases hp : dict_find c.ports p with
    | none => rw [hp] at h; cases h; rfl
    | some sp =>
      rw [hp] at h
      rw [xform_fanout_all_type sp dests _ c1 h]
      exact (disconnect_port_frame c p).1
  | none =>
    rw [hm] at h
    simp only at h
    cases hx : dict_find rule.port_xform p with
    | none => rw [hx] at h; cases h; rfl
    | some nn =>
      rw [hx] at h
      simp only [pure, Except.pure, Except.ok.injEq] at h
      subst h
      split_ifs
      · rw [rename_port_ports]
      · rfl

theorem xform_ports_type (rule : XFormRule) :
    ∀ (names : List IdString) (c c1 : CellInfo), xform_ports rule names c = .ok c1 →
      c1.type = c.type := by
  intro names
  induction names with
  | nil => intro c c1 h; cases h; rfl
  | cons p rest ih =>
    intro c c1 h
    obtain ⟨c0, h0, h⟩ := except_bind_ok _ _ c1 h
    rw [ih c0 c1 h, xform_port_type rule c c0 p h0]

/-- The type of a cell after xform_cell: its own without a rule, the destination
type with one. -/
theorem xform_cell_type (rules : List (IdString × XFormRule)) (c c2 : CellInfo)
    (h : xform_cell rules c = .ok c2) :
    (dict_find rules c.type = none ∧ c2 = c) ∨
    ∃ rule, dict_find rules c.type = some rule ∧ c2.type = rule.new_type := by
  unfold xform_cell at h
  cases hf : dict_find rules c.type with
  | none =>
    rw [hf] at h
    cases h
    exact Or.inl ⟨rfl, rfl⟩
  | some rule =>
    rw [hf] at h
    simp only at h
    obtain ⟨c1, h1, h⟩ := except_bind_ok _ _ c2 h
    simp only [pure, Except.pure, Except.ok.injEq] at h
    subst h
    exact Or.inr ⟨rule, rfl, xform_ports_type rule _ _ c1 h1⟩

theorem split_inversion_frame (c : CellInfo) (a b : IdString) :
    (split_inversion c a b).type = c.type ∧ (split_inversion c a b).name = c.name ∧
    (split_inversion c a b).ports = c.ports ∧ (split_inversion c a b).attrs = c.attrs := by
  unfold split_inversion
  simp only
  split_ifs <;> exact ⟨rfl, rfl, rfl, rfl⟩

theorem bufgctrl_new_types (t : IdString) (rule : XFormRule)
    (h : dict_find bufgctrl_rules t = some rule) : rule.new_type = "BUFGCTRL" := by
  have key : bufgctrl_rules.all (fun e => e.2.new_type == "BUFGCTRL") = true := by decide
  simp only [List.all_eq_true, beq_iff_eq] at key
  exact key (t, rule) (mem_of_find bufgctrl_rules t rule h)

theorem visit_bufg (s t : Packer) (k : Nat) (ci : CellInfo)
    (hk : s.cells.get? k = some ci) (ht : ci.type = "BUFG")
    (h : prepare_clocking_cell k s = .ok t) :
    ∃ c, tie_ports s [("CE0", true, true), ("S0", true, true), ("S1", false, true),
        ("IGNORE0", true, true)] ci = .ok c ∧ t = set_cell s (CellRef.live k) c := by
  cases htie : tie_ports s [("CE0", true, true), ("S0", true, true), ("S1", false, true),
      ("IGNORE0", true, true)] ci with
  | ok c =>
    rw [bufg_visit s k ci c hk ht htie] at h
    cases h
    exact ⟨c, rfl, rfl⟩
  | error e =>
    exfalso
    have hu : dict_find upgrade "BUFG" = none := by decide
    unfold prepare_clocking_cell at h
    simp only [deref_live s k ci hk, bind, Except.bind, ht, hu, if_true, htie] at h
    cases h

/-- The type of the visited cell after the loop body of prepare_clocking: its
own, or one of the four types the body writes. -/
theorem visit_type (s t : Packer) (k : Nat) (ci : CellInfo)
    (hk : s.cells.get? k = some ci) (h : prepare_clocking_cell k s = .ok t) :
    ∃ c, t.cells.get? k = some c ∧
      (c.type = ci.type ∨ c.type = "MMCME2_ADV" ∨ c.type = "PLLE2_ADV" ∨
        c.type = "BUFHCE_BUFHCE" ∨ c.type = "BUFGCTRL") := by
  by_cases h1 : ci.type = "MMCME2_BASE"
  · rw [visit_upgrade s k ci "MMCME2_ADV" hk (by rw [h1]; decide)] at h
    cases h
    exact ⟨_, get_set_cell s k ci _ hk, Or.inr (Or.inl rfl)⟩
  by_cases h2 : ci.type = "PLLE2_BASE"
  · rw [visit_upgrade s k ci "PLLE2_ADV" hk (by rw [h2]; decide)] at h
    cases h
    exact ⟨_, get_set_cell s k ci _ hk, Or.inr (Or.inr (Or.inl rfl))⟩
  by_cases h3 : ci.type = "BUFG"
  · obtain ⟨c, hc, ht⟩ := visit_bufg s t k ci hk h3 h
    subst ht
    exact ⟨c, get_set_cell s k ci c hk, Or.inl (tie_ports_frame s _ ci c hc).1⟩
  by_cases h4 : ci.type = "BUFGCE" ∨ ci.type = "BUFGCE_1"
  · obtain ⟨s1, c0, c, hf, hc0, hc, ht⟩ := visit_bufgce s t k ci hk h4 h
    subst ht
    obtain ⟨_, c0', hc0', e1, _⟩ := fold_inverter_cell k s s1 ci "CE" hk hf
    rw [hc0] at hc0'
    cases hc0'
    refine ⟨c, get_set_cell s1 k c0 c hc0, Or.inl ?_⟩
    rw [(tie_ports_frame s1 _ _ c hc).1, ← e1]
    split_ifs <;> rfl
  by_cases h5 : ci.type = "BUFH" ∨ ci.type = "BUFHCE"
  · obtain ⟨c, hc, ht⟩ := visit_bufh s t k ci hk h5 h
    subst ht
    exact ⟨c, get_set_cell s k ci c hk,
      Or.inr (Or.inr (Or.inr (Or.inl (tie_port_frame s _ c "CE" true true hc).1)))⟩
  by_cases h6 : ci.type = "BUFGMUX" ∨ ci.type = "BUFGMUX_1"
  · obtain ⟨s1, c0, c, hf, hc0, hc, ht⟩ := visit_bufgmux s t k ci hk h6 h
    subst ht
    obtain ⟨_, c0', hc0', e1, _⟩ := fold_inverter_cell k s s1 ci "S" hk hf
    rw [hc0] at hc0'
    cases hc0'
    refine ⟨c, get_set_cell s1 k c0 c hc0, Or.inl ?_⟩
    rw [← e1, ← (split_inversion_frame c0 "IS_CE0_INVERTED" "IS_CE1_INVERTED").1]
    split_ifs at hc with g1 g2
    · exact (tie_ports_frame s1 _ _ c hc).1
    · exact (tie_ports_frame s1 _ _ c hc).1
    · cases hc
      rfl
  by_cases h7 : ci.type = "BUFGMUX_CTRL"
  · obtain ⟨s1, c0, c2, c, hf, hc0, hx, hc, ht⟩ := visit_bufgmux_ctrl s t k ci hk h7 h
    subst ht
    obtain ⟨_, c0', hc0', e1, _⟩ := fold_inverter_cell k s s1 ci "S" hk hf
    rw [hc0] at hc0'
    cases hc0'
    refine ⟨c, get_set_cell s1 k c0 c hc0, Or.inr (Or.inr (Or.inr (Or.inr ?_)))⟩
    rw [(tie_ports_frame s1 _ c2 c hc).1]
    rcases xform_cell_type bufgctrl_rules _ c2 hx with ⟨hn, _⟩ | ⟨rule, hr, hty⟩
    · rw [(split_inversion_frame c0 _ _).1, e1, h7] at hn
      exact absurd hn (by decide)
    · rw [hty]
      exact bufgctrl_new_types _ rule hr
  · rw [visit_other s k ci hk (by
      simp only [List.mem_cons, List.mem_singleton, List.not_mem_nil, or_false, not_or] at h4 h5 h6 ⊢
      exact ⟨h1, h2, h3, h4.1, h4.2, h5.1, h5.2, h6.1, h6.2, h7⟩)] at h
    cases h
    exact ⟨ci, hk, Or.inl rfl⟩

theorem cells_loop_at_inv (body : Nat → Packer → Except String Packer)
    (hbody : ∀ j s t, body j s = .ok t → same_but j s t) (Inv : Packer → Prop)
    (hInv : ∀ j s t, body j s = .ok t → Inv s → Inv t) (k : Nat) :
    ∀ (n idx : Nat) (s t : Packer), cells_loop body n idx s = .ok t → idx ≤ k → k < idx + n →
      Inv s → ∃ sa, Inv sa ∧ sa.nets = s.nets ∧ sa.cells.get? k = s.cells.get? k ∧
        ∃ sb, body k sa = .ok sb ∧ t.cells.get? k = sb.cells.get? k := by
  intro n
  induction n with
  | zero => intro idx s t _ h1 h2; omega
  | succ n ih =>
    intro idx s t h hk1 hk2 hi
    obtain ⟨s1, h1, h⟩ := except_bind_ok _ _ t h
    by_cases hk : k = idx
    · subst hk
      exact ⟨s, hi, rfl, rfl, s1, h1,
        (cells_loop_frame body hbody n (k + 1) s1 t h).2.2 k (Or.inl (by omega))⟩
    · obtain ⟨f1, _, f3⟩ := hbody idx s s1 h1
      obtain ⟨sa, a0, a1, a3, sb, a4, a5⟩ :=
        ih (idx + 1) s1 t h (by omega) (by omega) (hInv idx s s1 h1 hi)
      exact ⟨sa, a0, a1.trans f1, a3.trans (f3 k hk), sb, a4, a5⟩

/-- The loop body of prepare_clocking makes no inverter cell. -/
theorem no_inverters_step (j : Nat) (s t : Packer) (h : prepare_clocking_cell j s = .ok t)
    (hi : no_inverters s) : no_inverters t := by
  obtain ⟨_, f2, f3⟩ := prepare_clocking_cell_frame j s t h
  intro c hc
  obtain ⟨i, hil, hget⟩ := List.getElem_of_mem hc
  have hg : t.cells.get? i = some c := by
    simp only [List.get?_eq_getElem?]
    rw [List.getElem?_eq_getElem hil, hget]
  by_cases hij : i = j
  · subst hij
    have hsi : i < s.cells.length := by omega
    have hs : s.cells.get? i = some (s.cells[i]) := by
      simp only [List.get?_eq_getElem?]
      exact List.getElem?_eq_getElem hsi
    obtain ⟨c1, hc1, hty⟩ := visit_type s t i _ hs h
    rw [hg] at hc1
    cases hc1
    have hm := hi _ (List.getElem_mem hsi)
    rcases hty with e | e | e | e | e
    · rw [e]; exact hm
    all_goals rw [e]; decide
  · rw [f3 i hij] at hg
    simp only [List.get?_eq_getElem?] at hg
    exact hi c (List.getElem?_mem hg)

/-- The visit of the cell of index `k` by the first loop of prepare_clocking, in
a design without inverter cells: the state of the visit has none either. -/
theorem prepare_clocking_visit_state (s s1 : Packer) (k : Nat) (ci : CellInfo)
    (hk : s.cells.get? k = some ci)
    (h : cells_loop prepare_clocking_cell s.cells.length 0 s = .ok s1) :
    ∃ sa, (no_inverters s → no_inverters sa) ∧ sa.nets = s.nets ∧ sa.cells.get? k = some ci ∧
      ∃ sb, prepare_clocking_cell k sa = .ok sb ∧ s1.cells.get? k = sb.cells.get? k := by
  have hlen : k < s.cells.length := by
    simp only [List.get?_eq_getElem?] at hk
    by_contra hc
    rw [List.getElem?_eq_none (by omega)] at hk
    cases hk
  obtain ⟨sa, a0, a1, a3, sb, a4, a5⟩ := cells_loop_at_inv prepare_clocking_cell
    prepare_clocking_cell_frame (fun x => no_inverters s → no_inverters x)
    (fun j x y hxy hx hs => no_inverters_step j x y hxy (hx hs)) k s.cells.length 0 s s1 h
    (Nat.zero_le k) (by omega) (fun hs => hs)
  exact ⟨sa, a0, a1, a3.trans hk, sb, a4, a5⟩

/-- The two visits prepare_clocking pays the cell of index `k`: the loop body in
a state with the nets of the start and the cell as it was (and without inverter
cells when the design has none), then the rule table on the cell the body
left. -/
theorem prepare_clocking_visits (s r : Packer) (k : Nat) (ci : CellInfo)
    (hk : s.cells.get? k = some ci) (h : prepare_clocking s = .ok r) :
    ∃ sa sb c1 c2, (no_inverters s → no_inverters sa) ∧ sa.nets = s.nets ∧
      sa.cells.get? k = some ci ∧
      prepare_clocking_cell k sa = .ok sb ∧ sb.cells.get? k = some c1 ∧
      xform_cell bufgctrl_rules c1 = .ok c2 ∧ r.cells.get? k = some c2 := by
  have hlen : k < s.cells.length := by
    simp only [List.get?_eq_getElem?] at hk
    by_contra hc
    rw [List.getElem?_eq_none (by omega)] at hk
    cases hk
  unfold prepare_clocking at h
  obtain ⟨s1, hs1, h⟩ := except_bind_ok _ _ r h
  obtain ⟨sa, a0, a1, a3, sb, a4, a5⟩ := prepare_clocking_visit_state s s1 k ci hk hs1
  have hl1 := (cells_loop_frame prepare_clocking_cell prepare_clocking_cell_frame
    s.cells.length 0 s s1 hs1).2.1
  obtain ⟨c1, hc1⟩ := get_of_length sa.cells sb.cells k ci a3
    (prepare_clocking_cell_frame k sa sb a4).2.1
  unfold generic_xform at h
  obtain ⟨ta, tb, _, _, b3, b4, b5⟩ := cells_loop_at _
    (generic_xform_cell_frame bufgctrl_rules) k s1.cells.length 0 s1 r h (Nat.zero_le k)
    (by omega)
  have hta : ta.cells.get? k = some c1 := b3.trans (a5.trans hc1)
  simp only [deref_live ta k c1 hta, bind, Except.bind] at b4
  cases hx : xform_cell bufgctrl_rules c1 with
  | error e => rw [hx] at b4; cases b4
  | ok c2 =>
    rw [hx] at b4
    simp only [pure, Except.pure, Except.ok.injEq] at b4
    subst b4
    rw [get_set_cell ta k c1 c2 hta] at b5
    exact ⟨sa, sb, c1, c2, a0, a1, a3, a4, hc1, hx, b5⟩

theorem xform_cell_none (rules : List (IdString × XFormRule)) (c : CellInfo)
    (h : dict_find rules c.type = none) : xform_cell rules c = .ok c := by
  unfold xform_cell
  rw [h]
  rfl

/-- C12, as stated, fails: with an inverter between net n0 and the net n1 of
the select input S of a BUFGMUX, prepare_clocking returns and leaves CE0 and CE1
on n0, the input net of the inverter, not on n1. -/
theorem select_fanout_follows_fold :
    get_net_or_empty (mux_cell "BUFGMUX" 3) "S" = some 3 ∧
    ∃ r c, prepare_clocking (inverted_select_design "BUFGMUX") = .ok r ∧
      r.cells.get? 1 = some c ∧
      get_net_or_empty c "CE0" = some 2 ∧ get_net_or_empty c "CE1" = some 2 ∧
      get_net_or_empty c "CE0" ≠ some 3 := by
  refine ⟨rfl, _, _, rfl, rfl, rfl, rfl, ?_⟩
  decide

/-- The BUFGCE rule of bufgctrl_rules on a cell with distinct port names: the
type becomes BUFGCTRL, I and CE end as I0 and CE0 with their nets, every other
port and the parameters are as before. -/
theorem xform_bufgce (c c2 : CellInfo) (ht : c.type = "BUFGCE" ∨ c.type = "BUFGCE_1")
    (hnd : (c.ports.map (fun e => e.1)).Nodup) (hx : xform_cell bufgctrl_rules c = .ok c2) :
    c2.type = "BUFGCTRL" ∧ c2.params = c.params ∧ c2.name = c.name ∧
    (∀ port, dict_find c.ports "I" = some port →
      dict_find c2.ports "I0" = some { port with name := "I0" }) ∧
    (∀ port, dict_find c.ports "CE" = some port →
      dict_find c2.ports "CE0" = some { port with name := "CE0" }) ∧
    ∀ q, q ∉ ["I", "CE", "I0", "CE0"] → dict_find c2.ports q = dict_find c.ports q := by
  have hf : dict_find bufgctrl_rules c.type = some bufgce_rule := by
    rcases ht with e | e <;> rw [e] <;> decide
  rw [xform_cell_renames bufgctrl_rules c bufgce_rule hf rfl] at hx
  cases hx
  obtain ⟨H1, H2⟩ := table_ok_spec bufgce_rule.port_xform (by decide)
  refine ⟨rfl, rfl, rfl, ?_, ?_, ?_⟩
  · intro port hp
    exact rename_all_keeps bufgce_rule.port_xform H1 H2 _ c.ports hnd "I"
      (mem_keys_of_find c.ports "I" port hp) "I0" port (by decide) hp
  · intro port hp
    exact rename_all_keeps bufgce_rule.port_xform H1 H2 _ c.ports hnd "CE"
      (mem_keys_of_find c.ports "CE" port hp) "CE0" port (by decide) hp
  · intro q hq
    simp only [List.mem_cons, List.mem_singleton, List.not_mem_nil, or_false, not_or] at hq
    apply rename_all_untouched
    intro p _ d hd
    have hm := mem_of_find bufgce_rule.port_xform p d hd
    simp only [bufgce_rule, List.mem_cons, Prod.mk.injEq, List.mem_singleton, List.not_mem_nil,
      or_false] at hm
    rcases hm with ⟨e1, e2⟩ | ⟨e1, e2⟩
    · subst e1; subst e2
      exact ⟨fun e => hq.1 e.symm, fun e => hq.2.2.1 e.symm⟩
    · subst e1; subst e2
      exact ⟨fun e => hq.2.1 e.symm, fun e => hq.2.2.2 e.symm⟩

theorem nets_of_same_but (j : Nat) (s t : Packer) (h : same_but j s t) (n : IdString) :
    net_by_name t n = net_by_name s n :=
  net_by_name_nets s t h.1 n

theorem fan_port_frame (rule : XFormRule) (src d0 d1 : IdString)
    (hx : rule.port_xform = []) (hm : rule.port_multixform = [(src, [d0, d1])])
    (c c1 : CellInfo) (p : IdString) (h : xform_port rule c p = .ok c1) :
    c1.params = c.params ∧ c1.attrs = c.attrs ∧ c1.name = c.name ∧
    ∀ q, q ≠ src → q ≠ d0 → q ≠ d1 → dict_find c1.ports q = dict_find c.ports q := by
  unfold xform_port at h
  rw [hm, hx] at h
  simp only [dict_find] at h
  by_cases hp : src = p
  · subst hp
    simp only [if_true] at h
    cases hs : dict_find c.ports src with
    | none =>
      rw [hs] at h
      cases h
      exact ⟨rfl, rfl, rfl, fun _ _ _ _ => rfl⟩
    | some sp =>
      rw [hs] at h
      simp only [xform_fanout_all, bind, Except.bind] at h
      cases hA : xform_fanout sp
          { (disconnect_port c src) with ports := dict_erase c.ports src } d0 with
      | error e => rw [hA] at h; cases h
      | ok cA =>
        rw [hA] at h
        simp only at h
        cases hB : xform_fanout sp cA d1 with
        | error e => rw [hB] at h; cases h
        | ok cB =>
          rw [hB] at h
          simp only [pure, Except.pure, Except.ok.injEq] at h
          subst h
          obtain ⟨_, a2, a3, a4, a5, _⟩ := xform_fanout_frame sp _ cA d0 hA
          obtain ⟨_, b2, b3, b4, b5, _⟩ := xform_fanout_frame sp cA cB d1 hB
          obtain ⟨_, e2, e3, e4, _⟩ := disconnect_port_frame c src
          refine ⟨?_, ?_, ?_, ?_⟩
          · rw [b4, a4]; exact e4
          · rw [b3, a3]; exact e3
          · rw [b2, a2]; exact e2
          · intro q q1 q2 q3
            rw [b5 q q3, a5 q q2]
            exact dict_find_erase_ne c.ports src q q1
  · rw [if_neg hp] at h
    cases h
    exact ⟨rfl, rfl, rfl, fun _ _ _ _ => rfl⟩

theorem fan_ports_frame (rule : XFormRule) (src d0 d1 : IdString)
    (hx : rule.port_xform = []) (hm : rule.port_multixform = [(src, [d0, d1])]) :
    ∀ (names : List IdString) (c c1 : CellInfo), xform_ports rule names c = .ok c1 →
      c1.params = c.params ∧ c1.attrs = c.attrs ∧ c1.name = c.name ∧
      ∀ q, q ≠ src → q ≠ d0 → q ≠ d1 → dict_find c1.ports q = dict_find c.ports q := by
  intro names
  induction names with
  | nil => intro c c1 h; cases h; exact ⟨rfl, rfl, rfl, fun _ _ _ _ => rfl⟩
  | cons p rest ih =>
    intro c c1 h
    obtain ⟨c0, h0, h⟩ := except_bind_ok _ _ c1 h
    obtain ⟨a1, a2, a3, a4⟩ := fan_port_frame rule src d0 d1 hx hm c c0 p h0
    obtain ⟨b1, b2, b3, b4⟩ := ih c0 c1 h
    exact ⟨b1.trans a1, b2.trans a2, b3.trans a3,
      fun q q1 q2 q3 => (b4 q q1 q2 q3).trans (a4 q q1 q2 q3)⟩

/-- A rule that only fans one port out to two destinations, whenever it
returns: the cell takes the destination type, and every port but the source and
the two destinations, the parameters and the name are as before. -/
theorem xform_cell_fanout_frame (rules : List (IdString × XFormRule)) (rule : XFormRule)
    (src d0 d1 : IdString) (c c2 : CellInfo)
    (hf : dict_find rules c.type = some rule)
    (hx : rule.port_xform = []) (hm : rule.port_multixform = [(src, [d0, d1])])
    (h : xform_cell rules c = .ok c2) :
    c2.type = rule.new_type ∧ c2.params = c.params ∧ c2.name = c.name ∧
    ∀ q, q ≠ src → q ≠ d0 → q ≠ d1 → dict_find c2.ports q = dict_find c.ports q := by
  unfold xform_cell at h
  rw [hf] at h
  simp only at h
  obtain ⟨c1, hc1, h⟩ := except_bind_ok _ _ c2 h
  simp only [pure, Except.pure, Except.ok.injEq] at h
  subst h
  obtain ⟨a1, _, a3, a4⟩ := fan_ports_frame rule src d0 d1 hx hm _ _ c1 hc1
  exact ⟨xform_ports_type rule _ _ c1 hc1, a1, a3, a4⟩

theorem split_inversion_params (c : CellInfo) (a b key : IdString)
    (h1 : key ≠ a) (h2 : key ≠ b) (h3 : key ≠ "IS_S_INVERTED") :
    dict_find (split_inversion c a b).params key = dict_find c.params key := by
  unfold split_inversion
  simp only
  split_ifs
  · simp only
    rw [dict_find_erase_ne _ _ _ h3, dict_find_set_ne _ _ _ _ h2, dict_find_set_ne _ _ _ _ h1]
  · simp only
    rw [dict_find_set_ne _ _ _ _ h2, dict_find_set_ne _ _ _ _ h1]

theorem str_or_default_congr (p q : List (IdString × Property)) (key : IdString) (d : String)
    (h : dict_find p key = dict_find q key) : str_or_default p key d = str_or_default q key d := by
  unfold str_or_default
  rw [h]

/-- C14: for a BUFGMUX or BUFGMUX_1 cell whose S0, S1, IGNORE0 and IGNORE1 are
absent or unconnected, whenever prepare_clocking returns: the cell has type
BUFGCTRL; when CLK_SEL_TYPE is "ASYNC", S0 and S1 are on the logic-1 net and
IGNORE0 and IGNORE1 on the logic-0 net; when it is "SYNC" or absent, all four
are on the logic-1 net. -/
theorem prepare_clocking_bufgmux_ties (s r : Packer) (k : Nat) (ci : CellInfo) (v g : NetId)
    (hk : s.cells.get? k = some ci) (ht : ci.type = "BUFGMUX" ∨ ci.type = "BUFGMUX_1")
    (hv : net_by_name s "$PACKER_VCC_NET" = some v)
    (hg : net_by_name s "$PACKER_GND_NET" = some g)
    (h1 : get_net_or_empty ci "S0" = none) (h2 : get_net_or_empty ci "S1" = none)
    (h3 : get_net_or_empty ci "IGNORE0" = none) (h4 : get_net_or_empty ci "IGNORE1" = none)
    (h : prepare_clocking s = .ok r) :
    (dict_find ci.params "CLK_SEL_TYPE" = none →
      str_or_default ci.params "CLK_SEL_TYPE" "SYNC" = "SYNC") ∧
    ∃ c, r.cells.get? k = some c ∧ c.type = "BUFGCTRL" ∧
      (str_or_default ci.params "CLK_SEL_TYPE" "SYNC" = "ASYNC" →
        get_net_or_empty c "S0" = some v ∧ get_net_or_empty c "S1" = some v ∧
        get_net_or_empty c "IGNORE0" = some g ∧ get_net_or_empty c "IGNORE1" = some g) ∧
      (str_or_default ci.params "CLK_SEL_TYPE" "SYNC" = "SYNC" →
        get_net_or_empty c "S0" = some v ∧ get_net_or_empty c "S1" = some v ∧
        get_net_or_empty c "IGNORE0" = some v ∧ get_net_or_empty c "IGNORE1" = some v) := by
  refine ⟨fun hn => by simp only [str_or_default, hn], ?_⟩
  obtain ⟨sa, sb, c1, c2, _, a1, a3, a4, hc1, hx, hr⟩ := prepare_clocking_visits s r k ci hk h
  obtain ⟨s1, c0, c, hf, hc0, hc, hsb⟩ := visit_bufgmux sa sb k ci a3 ht a4
  subst hsb
  rw [get_set_cell s1 k c0 c hc0] at hc1
  have hcc : c = c1 := Option.some.inj hc1
  subst hcc
  obtain ⟨_, c0', hc0', e1, _, _, e4, e5, _⟩ := fold_inverter_cell k sa s1 ci "S" a3 hf
  rw [hc0] at hc0'
  have hcc : c0 = c0' := Option.some.inj hc0'
  subst hcc
  have hn1 : ∀ nm, net_by_name s1 nm = net_by_name s nm := fun nm =>
    (nets_of_same_but k sa s1 (fold_inverter_frame k sa s1 "S" hf) nm).trans
      (net_by_name_nets s sa a1 nm)
  obtain ⟨f1, _, f3, _⟩ := split_inversion_frame c0 "IS_CE0_INVERTED" "IS_CE1_INVERTED"
  have hmode : str_or_default (split_inversion c0 "IS_CE0_INVERTED" "IS_CE1_INVERTED").params
      "CLK_SEL_TYPE" "SYNC" = str_or_default ci.params "CLK_SEL_TYPE" "SYNC" := by
    apply str_or_default_congr
    rw [split_inversion_params c0 _ _ _ (by decide) (by decide) (by decide)]
    exact e5 _ (by decide)
  rw [hmode] at hc
  have hfree : ∀ q, q ≠ "S" → get_net_or_empty ci q = none →
      get_net_or_empty (split_inversion c0 "IS_CE0_INVERTED" "IS_CE1_INVERTED") q = none := by
    intro q hq hz
    unfold get_net_or_empty at hz ⊢
    rw [f3, e4 q hq]
    exact hz
  have hty : c.type = ci.type := by
    split_ifs at hc
    · rw [(tie_ports_frame s1 _ _ c hc).1, f1, e1]
    · rw [(tie_ports_frame s1 _ _ c hc).1, f1, e1]
    · cases hc
      rw [f1, e1]
  have hrule : dict_find bufgctrl_rules c.type = some bufgmux_rule := by
    rw [hty]
    rcases ht with e | e <;> rw [e] <;> decide
  obtain ⟨y1, _, _, y4⟩ := xform_cell_fanout_frame bufgctrl_rules bufgmux_rule "S" "CE0" "CE1"
    c c2 hrule rfl rfl hx
  have hkeep : ∀ q, q ≠ "S" → q ≠ "CE0" → q ≠ "CE1" →
      get_net_or_empty c2 q = get_net_or_empty c q := by
    intro q q1 q2 q3
    unfold get_net_or_empty
    rw [y4 q q1 q2 q3]
  refine ⟨c2, hr, y1, ?_, ?_⟩
  · intro hm
    rw [if_pos hm] at hc
    obtain ⟨_, _, _, _, _, _, w1⟩ := tie_ports_frame s1 _ _ c hc
    have htie : ∀ e ∈ [("S0", true, true), ("S1", true, true), ("IGNORE0", false, true),
        ("IGNORE1", false, true)], get_net_or_empty ci e.1 = none → e.1 ≠ "S" →
        get_net_or_empty c e.1 = net_by_name s
          (if e.2.1 then "$PACKER_VCC_NET" else "$PACKER_GND_NET") := by
      intro e he hz hne
      obtain ⟨n, hn, hgn⟩ := w1 (by decide) e he (hfree e.1 hne hz)
      rw [hgn, ← hn, hn1]
    refine ⟨?_, ?_, ?_, ?_⟩
    · rw [hkeep "S0" (by decide) (by decide) (by decide),
        htie ("S0", true, true) (by decide) h1 (by decide)]
      exact hv
    · rw [hkeep "S1" (by decide) (by decide) (by decide),
        htie ("S1", true, true) (by decide) h2 (by decide)]
      exact hv
    · rw [hkeep "IGNORE0" (by decide) (by decide) (by decide),
        htie ("IGNORE0", false, true) (by decide) h3 (by decide)]
      exact hg
    · rw [hkeep "IGNORE1" (by decide) (by decide) (by decide),
        htie ("IGNORE1", false, true) (by decide) h4 (by decide)]
      exact hg
  · intro hm
    rw [if_neg (by rw [hm]; decide), if_pos hm] at hc
    obtain ⟨_, _, _, _, _, _, w1⟩ := tie_ports_frame s1 _ _ c hc
    have htie : ∀ e ∈ [("S0", true, true), ("S1", true, true), ("IGNORE0", true, false),
        ("IGNORE1", true, false)], get_net_or_empty ci e.1 = none → e.1 ≠ "S" →
        get_net_or_empty c e.1 = net_by_name s
          (if e.2.1 then "$PACKER_VCC_NET" else "$PACKER_GND_NET") := by
      intro e he hz hne
      obtain ⟨n, hn, hgn⟩ := w1 (by decide) e he (hfree e.1 hne hz)
      rw [hgn, ← hn, hn1]
    refine ⟨?_, ?_, ?_, ?_⟩
    · rw [hkeep "S0" (by decide) (by decide) (by decide),
        htie ("S0", true, true) (by decide) h1 (by decide)]
      exact hv
    · rw [hkeep "S1" (by decide) (by decide) (by decide),
        htie ("S1", true, true) (by decide) h2 (by decide)]
      exact hv
    · rw [hkeep "IGNORE0" (by decide) (by decide) (by decide),
        htie ("IGNORE0", true, false) (by decide) h3 (by decide)]
      exact hv
    · rw [hkeep "IGNORE1" (by decide) (by decide) (by decide),
        htie ("IGNORE1", true, false) (by decide) h4 (by decide)]
      exact hv

theorem prepare_clocking_bufgmux_ties_witness :
    ∃ r, prepare_clocking (mux_design "BUFGMUX") = .ok r ∧
      str_or_default (mux_cell "BUFGMUX" 3).params "CLK_SEL_TYPE" "SYNC" = "SYNC" ∧
      ∃ c, r.cells.get? 0 = some c ∧ c.type = "BUFGCTRL" ∧
        (str_or_default (mux_cell "BUFGMUX" 3).params "CLK_SEL_TYPE" "SYNC" = "ASYNC" →
          get_net_or_empty c "S0" = some 1 ∧ get_net_or_empty c "S1" = some 1 ∧
          get_net_or_empty c "IGNORE0" = some 0 ∧ get_net_or_empty c "IGNORE1" = some 0) ∧
        (str_or_default (mux_cell "BUFGMUX" 3).params "CLK_SEL_TYPE" "SYNC" = "SYNC" →
          get_net_or_empty c "S0" = some 1 ∧ get_net_or_empty c "S1" = some 1 ∧
          get_net_or_empty c "IGNORE0" = some 1 ∧ get_net_or_empty c "IGNORE1" = some 1) :=
  ⟨_, rfl,
    (prepare_clocking_bufgmux_ties (mux_design "BUFGMUX") _ 0 (mux_cell "BUFGMUX" 3) 1 0 rfl
      (Or.inl rfl) (by decide) (by decide) (by decide) (by decide) (by decide) (by decide)
      rfl).1 rfl,
    (prepare_clocking_bufgmux_ties (mux_design "BUFGMUX") _ 0 (mux_cell "BUFGMUX" 3) 1 0 rfl
      (Or.inl rfl) (by decide) (by decide) (by decide) (by decide) (by decide) (by decide)
      rfl).2⟩

/-- C15: for a BUFGMUX_CTRL cell whose CE0, CE1, IGNORE0 and IGNORE1 are absent
or unconnected, whenever prepare_clocking returns: the loop body leaves the cell
with type BUFGCTRL and CE0, CE1, IGNORE0, IGNORE1 on the logic-1 net, the rule
table of the final sweep returns that cell as it is, and it is the cell of the
result. -/
theorem prepare_clocking_bufgmux_ctrl (s r : Packer) (k : Nat) (ci : CellInfo) (v : NetId)
    (hk : s.cells.get? k = some ci) (ht : ci.type = "BUFGMUX_CTRL")
    (hv : net_by_name s "$PACKER_VCC_NET" = some v)
    (h1 : get_net_or_empty ci "CE0" = none) (h2 : get_net_or_empty ci "CE1" = none)
    (h3 : get_net_or_empty ci "IGNORE0" = none) (h4 : get_net_or_empty ci "IGNORE1" = none)
    (h : prepare_clocking s = .ok r) :
    ∃ sa sb c, sa.nets = s.nets ∧ sa.cells.get? k = some ci ∧
      prepare_clocking_cell k sa = .ok sb ∧ sb.cells.get? k = some c ∧
      xform_cell bufgctrl_rules c = .ok c ∧ r.cells.get? k = some c ∧
      c.type = "BUFGCTRL" ∧
      get_net_or_empty c "CE0" = some v ∧ get_net_or_empty c "CE1" = some v ∧
      get_net_or_empty c "IGNORE0" = some v ∧ get_net_or_empty c "IGNORE1" = some v := by
  obtain ⟨sa, sb, c1, c2, _, a1, a3, a4, hc1, hx, hr⟩ := prepare_clocking_visits s r k ci hk h
  obtain ⟨s1, c0, c3, c, hf, hc0, hx3, hc, hsb⟩ := visit_bufgmux_ctrl sa sb k ci a3 ht a4
  have hsb1 := hsb
  subst hsb
  rw [get_set_cell s1 k c0 c hc0] at hc1
  have hcc : c = c1 := Option.some.inj hc1
  subst hcc
  obtain ⟨_, c0', hc0', e1, _, _, e4, _⟩ := fold_inverter_cell k sa s1 ci "S" a3 hf
  rw [hc0] at hc0'
  have hcc : c0 = c0' := Option.some.inj hc0'
  subst hcc
  have hn1 : ∀ nm, net_by_name s1 nm = net_by_name s nm := fun nm =>
    (nets_of_same_but k sa s1 (fold_inverter_frame k sa s1 "S" hf) nm).trans
      (net_by_name_nets s sa a1 nm)
  obtain ⟨f1, _, f3, _⟩ := split_inversion_frame c0 "IS_S0_INVERTED" "IS_S1_INVERTED"
  have hrule : dict_find bufgctrl_rules
      (split_inversion c0 "IS_S0_INVERTED" "IS_S1_INVERTED").type =
      some { new_type := "BUFGCTRL", port_xform := [],
             port_multixform := [("S", ["S0", "S1"])], set_attrs := [] } := by
    rw [f1, e1, ht]; decide
  obtain ⟨y1, _, _, y4⟩ := xform_cell_fanout_frame bufgctrl_rules _ "S" "S0" "S1" _ c3 hrule
    rfl rfl hx3
  obtain ⟨t1, _, _, _, _, _, w1⟩ := tie_ports_frame s1 _ c3 c hc
  have hty : c.type = "BUFGCTRL" := by rw [t1, y1]
  have hfree : ∀ q, q ≠ "S" → q ≠ "S0" → q ≠ "S1" → get_net_or_empty ci q = none →
      get_net_or_empty c3 q = none := by
    intro q q1 q2 q3 hz
    unfold get_net_or_empty at hz ⊢
    rw [y4 q q1 q2 q3, f3, e4 q q1]
    exact hz
  have htie : ∀ e ∈ [("CE0", true, true), ("CE1", true, true), ("IGNORE0", true, false),
      ("IGNORE1", true, false)], get_net_or_empty ci e.1 = none → e.1 ≠ "S" → e.1 ≠ "S0" →
      e.1 ≠ "S1" → get_net_or_empty c e.1 = net_by_name s
        (if e.2.1 then "$PACKER_VCC_NET" else "$PACKER_GND_NET") := by
    intro e he hz n1 n2 n3
    obtain ⟨n, hn, hgn⟩ := w1 (by decide) e he (hfree e.1 n1 n2 n3 hz)
    rw [hgn, ← hn, hn1]
  have hsame : xform_cell bufgctrl_rules c = .ok c :=
    xform_cell_none bufgctrl_rules c (by rw [hty]; decide)
  rw [hsame] at hx
  have hcc : c = c2 := by cases hx; rfl
  subst hcc
  refine ⟨sa, _, c, a1, a3, a4, get_set_cell s1 k c0 c hc0, hsame, hr, hty, ?_, ?_, ?_, ?_⟩
  · rw [htie ("CE0", true, true) (by decide) h1 (by decide) (by decide) (by decide)]
    exact hv
  · rw [htie ("CE1", true, true) (by decide) h2 (by decide) (by decide) (by decide)]
    exact hv
  · rw [htie ("IGNORE0", true, false) (by decide) h3 (by decide) (by decide) (by decide)]
    exact hv
  · rw [htie ("IGNORE1", true, false) (by decide) h4 (by decide) (by decide) (by decide)]
    exact hv

theorem prepare_clocking_bufgmux_ctrl_witness :
    ∃ r, prepare_clocking (mux_design "BUFGMUX_CTRL") = .ok r ∧
      ∃ sa sb c, sa.nets = (mux_design "BUFGMUX_CTRL").nets ∧
        sa.cells.get? 0 = some (mux_cell "BUFGMUX_CTRL" 3) ∧
        prepare_clocking_cell 0 sa = .ok sb ∧ sb.cells.get? 0 = some c ∧
        xform_cell bufgctrl_rules c = .ok c ∧ r.cells.get? 0 = some c ∧
        c.type = "BUFGCTRL" ∧
        get_net_or_empty c "CE0" = some 1 ∧ get_net_or_empty c "CE1" = some 1 ∧
        get_net_or_empty c "IGNORE0" = some 1 ∧ get_net_or_empty c "IGNORE1" = some 1 :=
  ⟨_, rfl, prepare_clocking_bufgmux_ctrl (mux_design "BUFGMUX_CTRL") _ 0
    (mux_cell "BUFGMUX_CTRL" 3) 1 rfl rfl (by decide) (by decide) (by decide) (by decide)
    (by decide) rfl⟩

/-- C16: whenever prepare_clocking returns, a cell of type MMCME2_BASE or
PLLE2_BASE is the same cell with type MMCME2_ADV, respectively PLLE2_ADV (its
name, ports, nets, parameters, attributes and constraints as before), and a cell
whose type has no branch in prepare_clocking is as it was. -/
theorem prepare_clocking_upgrade (s r : Packer) (k : Nat) (ci : CellInfo)
    (hk : s.cells.get? k = some ci) (h : prepare_clocking s = .ok r) :
    (ci.type = "MMCME2_BASE" → r.cells.get? k = some { ci with type := "MMCME2_ADV" }) ∧
    (ci.type = "PLLE2_BASE" → r.cells.get? k = some { ci with type := "PLLE2_ADV" }) ∧
    (ci.type ∉ ["MMCME2_BASE", "PLLE2_BASE", "BUFG", "BUFGCE", "BUFGCE_1", "BUFH", "BUFHCE",
        "BUFGMUX", "BUFGMUX_1", "BUFGMUX_CTRL"] → r.cells.get? k = some ci) := by
  obtain ⟨sa, sb, c1, c2, _, _, a3, a4, hc1, hx, hr⟩ := prepare_clocking_visits s r k ci hk h
  refine ⟨?_, ?_, ?_⟩
  · intro ht
    rw [visit_upgrade sa k ci "MMCME2_ADV" a3 (by rw [ht]; decide)] at a4
    cases a4
    rw [get_set_cell sa k ci _ a3] at hc1
    have hcc := Option.some.inj hc1
    subst hcc
    rw [xform_cell_none bufgctrl_rules _
      (show dict_find bufgctrl_rules "MMCME2_ADV" = none by decide)] at hx
    cases hx
    exact hr
  · intro ht
    rw [visit_upgrade sa k ci "PLLE2_ADV" a3 (by rw [ht]; decide)] at a4
    cases a4
    rw [get_set_cell sa k ci _ a3] at hc1
    have hcc := Option.some.inj hc1
    subst hcc
    rw [xform_cell_none bufgctrl_rules _
      (show dict_find bufgctrl_rules "PLLE2_ADV" = none by decide)] at hx
    cases hx
    exact hr
  · intro ht
    rw [visit_other sa k ci a3 ht] at a4
    cases a4
    rw [a3] at hc1
    have hcc := Option.some.inj hc1
    subst hcc
    simp only [List.mem_cons, List.mem_singleton, List.not_mem_nil, or_false, not_or] at ht
    have hnone : dict_find bufgctrl_rules ci.type = none := by
      simp only [bufgctrl_rules, dict_find]
      rw [if_neg (fun e => ht.2.2.2.2.2.2.2.1 e.symm), if_neg (fun e => ht.2.2.2.2.2.2.2.2.1 e.symm),
        if_neg (fun e => ht.2.2.2.2.2.2.2.2.2 e.symm), if_neg (fun e => ht.2.2.2.1 e.symm),
        if_neg (fun e => ht.2.2.2.2.1 e.symm), if_neg (fun e => ht.2.2.1 e.symm)]
    rw [xform_cell_none bufgctrl_rules _ hnone] at hx
    cases hx
    exact hr

theorem prepare_clocking_upgrade_witness :
    ∃ r, prepare_clocking upgrade_design = .ok r ∧
      r.cells.get? 0 = some { mmcm_base_cell with type := "MMCME2_ADV" } ∧
      r.cells.get? 1 = some inv_cell :=
  ⟨_, rfl, (prepare_clocking_upgrade upgrade_design _ 0 mmcm_base_cell rfl rfl).1 rfl,
    (prepare_clocking_upgrade upgrade_design _ 1 inv_cell rfl rfl).2.2 (by decide)⟩

/-! ### pack_plls -/

theorem set_default_find (c : CellInfo) (k key : IdString) (v : Property) :
    dict_find (set_default c k v).params key =
      (dict_find c.params key).orElse (fun _ => if k = key then some v else none) := by
  unfold set_default
  cases hk : dict_find c.params k with
  | none =>
    simp only [dict_count, hk, Option.isSome_none, Bool.not_false, if_true]
    by_cases h : k = key
    · subst h
      rw [dict_find_set_self, hk, if_pos rfl]
      rfl
    · rw [dict_find_set_ne _ _ _ _ (fun e => h e.symm), if_neg h]
      cases dict_find c.params key <;> rfl
  | some w =>
    simp only [dict_count, hk, Option.isSome_some, Bool.not_true, Bool.false_eq_true, if_false]
    by_cases h : k = key
    · subst h
      rw [hk]
      rfl
    · rw [if_neg h]
      cases dict_find c.params key <;> rfl

theorem set_default_frame (c : CellInfo) (k : IdString) (v : Property) :
    (set_default c k v).type = c.type ∧ (set_default c k v).name = c.name ∧
    (set_default c k v).ports = c.ports ∧ (set_default c k v).attrs = c.attrs := by
  unfold set_default
  split_ifs <;> exact ⟨rfl, rfl, rfl, rfl⟩

/-- The parameters after a list of defaults: a value that was there is kept, an
absent one takes the first default of its name. -/
theorem set_defaults_find :
    ∀ (L : List (IdString × Property)) (c : CellInfo) (key : IdString),
      dict_find (set_defaults L c).params key =
        (dict_find c.params key).orElse (fun _ => dict_find L key) ∧
      (set_defaults L c).type = c.type ∧ (set_defaults L c).name = c.name ∧
      (set_defaults L c).ports = c.ports ∧ (set_defaults L c).attrs = c.attrs := by
  intro L
  induction L with
  | nil =>
    intro c key
    refine ⟨?_, rfl, rfl, rfl, rfl⟩
    simp only [set_defaults, List.foldl, dict_find]
    cases dict_find c.params key <;> rfl
  | cons e rest ih =>
    intro c key
    obtain ⟨k, v⟩ := e
    obtain ⟨i1, i2, i3, i4, i5⟩ := ih (set_default c k v) key
    obtain ⟨f1, f2, f3, f4⟩ := set_default_frame c k v
    refine ⟨?_, i2.trans f1, i3.trans f2, i4.trans f3, i5.trans f4⟩
    show dict_find (set_defaults rest (set_default c k v)).params key = _
    rw [i1, set_default_find]
    simp only [dict_find]
    cases dict_find c.params key with
    | some w => rfl
    | none =>
      simp only [Option.orElse]
      split_ifs <;> rfl

/-- The statements under `// Fixup parameters` are the defaults of the table,
applied in order. -/
theorem fixup_parameters_eq (ci : CellInfo) :
    fixup_parameters ci = set_defaults pll_defaults ci := by
  simp only [fixup_parameters, clkin_defaults, clkout_defaults, Nat.reduceAdd, zero_add,
    to_string_digits, String.reduceAppend, set_defaults, pll_defaults, List.foldl]

theorem pack_plls_cell_frame (hint : CellInfo → IdString → Option Property) (j : Nat)
    (s t : Packer) (h : pack_plls_cell hint j s = .ok t) : same_but j s t := by
  unfold pack_plls_cell at h
  obtain ⟨ci, _, h⟩ := except_bind_ok _ _ t h
  simp only at h
  split_ifs at h
  · exact same_but_store j s t _ h
  · cases h; exact same_but_set_cell j s _
  · cases h; exact same_but_set_cell j s _
  · exact same_but_store j s t _ h
  · cases h; exact same_but_set_cell j s _
  · cases h; exact same_but_set_cell j s _

theorem rename_all_nil (names : List IdString) (P : List (IdString × PortInfo)) :
    rename_all [] names P = P := by
  induction names generalizing P with
  | nil => rfl
  | cons p rest ih =>
    simp only [rename_all, rename_step, dict_find]
    exact ih P

/-- The rule table of pack_plls on a cell: only the type may change. -/
theorem xform_pll (ci : CellInfo) :
    xform_cell pll_rules ci = .ok { ci with type :=
      if ci.type = "MMCME2_ADV" then "MMCME2_ADV_MMCME2_ADV"
      else if ci.type = "PLLE2_ADV" then "PLLE2_ADV_PLLE2_ADV" else ci.type } := by
  by_cases h1 : ci.type = "MMCME2_ADV"
  · rw [xform_cell_renames pll_rules ci _ (by rw [h1]; rfl) rfl, if_pos h1]
    simp only [rename_all_nil, inject_attrs]
  · by_cases h2 : ci.type = "PLLE2_ADV"
    · rw [xform_cell_renames pll_rules ci _ (by rw [h2]; rfl) rfl, if_neg h1, if_pos h2]
      simp only [rename_all_nil, inject_attrs]
    · rw [if_neg h1, if_neg h2]
      apply xform_cell_none
      simp only [pll_rules, dict_find]
      rw [if_neg (fun e => h1 e.symm), if_neg (fun e => h2 e.symm)]

/-- The two visits pack_plls pays the cell of index `k`: the rule table, then
the loop body in a state with the nets of the start. -/
theorem pack_plls_visits (hint : CellInfo → IdString → Option Property) (s r : Packer)
    (k : Nat) (ci : CellInfo) (hk : s.cells.get? k = some ci) (h : pack_plls hint s = .ok r) :
    ∃ c1 sa sb, xform_cell pll_rules ci = .ok c1 ∧ sa.nets = s.nets ∧
      sa.cells.get? k = some c1 ∧ pack_plls_cell hint k sa = .ok sb ∧
      r.cells.get? k = sb.cells.get? k := by
  have hlen : k < s.cells.length := by
    simp only [List.get?_eq_getElem?] at hk
    by_contra hc
    rw [List.getElem?_eq_none (by omega)] at hk
    cases hk
  unfold pack_plls at h
  obtain ⟨s1, hs1, h⟩ := except_bind_ok _ _ r h
  unfold generic_xform at hs1
  obtain ⟨n1, l1, _⟩ := cells_loop_frame _ (generic_xform_cell_frame pll_rules)
    s.cells.length 0 s s1 hs1
  obtain ⟨ta, tb, _, _, b3, b4, b5⟩ := cells_loop_at _
    (generic_xform_cell_frame pll_rules) k s.cells.length 0 s s1 hs1 (Nat.zero_le k) (by omega)
  have hta : ta.cells.get? k = some ci := b3.trans hk
  simp only [deref_live ta k ci hta, bind, Except.bind, xform_pll] at b4
  simp only [pure, Except.pure, Except.ok.injEq] at b4
  subst b4
  rw [get_set_cell ta k ci _ hta] at b5
  obtain ⟨sa, sb, a1, _, a3, a4, a5⟩ := cells_loop_at (pack_plls_cell hint)
    (pack_plls_cell_frame hint) k s1.cells.length 0 s1 r h (Nat.zero_le k) (by omega)
  exact ⟨_, sa, sb, xform_pll ci, a1.trans n1, a3.trans b5, a4, a5⟩

theorem try_preplace_frame (hint : CellInfo → IdString → Option Property) (c : CellInfo)
    (p : IdString) :
    (try_preplace hint c p).type = c.type ∧ (try_preplace hint c p).name = c.name ∧
    (try_preplace hint c p).ports = c.ports ∧ (try_preplace hint c p).params = c.params := by
  unfold try_preplace
  cases hint c p with
  | none => exact ⟨rfl, rfl, rfl, rfl⟩
  | some bel =>
    simp only
    split_ifs <;> exact ⟨rfl, rfl, rfl, rfl⟩

theorem connect_port_net (n : NetId) (c c1 : CellInfo) (p : IdString)
    (h : connect_port (some n) c p = .ok c1) : get_net_or_empty c1 p = some n := by
  rw [connect_port_eq] at h
  cases hf : dict_find c.ports p with
  | none => rw [hf] at h; cases h
  | some port =>
    rw [hf] at h
    simp only at h
    split_ifs at h
    cases h
    simp only [get_net_or_empty, dict_find_set_self]

/-- The loop body of pack_plls on a cell of type MMCME2_ADV_MMCME2_ADV. -/
theorem visit_mmcm (hint : CellInfo → IdString → Option Property) (s t : Packer) (k : Nat)
    (c1 : CellInfo) (hk : s.cells.get? k = some c1) (ht : c1.type = "MMCME2_ADV_MMCME2_ADV")
    (h : pack_plls_cell hint k s = .ok t) :
    ∃ c, t.cells.get? k = some c ∧
      (str_or_default (fixup_parameters (try_preplace hint c1 "CLKIN1")).params
          "COMPENSATION" "INTERNAL" = "INTERNAL" →
        connect_port (net_by_name s "$PACKER_VCC_NET")
          (disconnect_port (fixup_parameters (try_preplace hint c1 "CLKIN1")) "CLKFBIN")
          "CLKFBIN" = .ok c) ∧
      (str_or_default (fixup_parameters (try_preplace hint c1 "CLKIN1")).params
          "COMPENSATION" "INTERNAL" ≠ "INTERNAL" →
        c = fixup_parameters (try_preplace hint c1 "CLKIN1")) := by
  unfold pack_plls_cell at h
  simp only [deref_live s k c1 hk, bind, Except.bind, ht, true_or, if_true,
    (try_preplace_frame hint c1 "CLKIN1").1] at h
  by_cases hm : str_or_default (fixup_parameters (try_preplace hint c1 "CLKIN1")).params
      "COMPENSATION" "INTERNAL" = "INTERNAL"
  · rw [if_pos hm] at h
    cases hc : connect_port (net_by_name s "$PACKER_VCC_NET")
        (disconnect_port (fixup_parameters (try_preplace hint c1 "CLKIN1")) "CLKFBIN")
        "CLKFBIN" with
    | error e => rw [hc] at h; cases h
    | ok c =>
      rw [hc] at h
      simp only [pure, Except.pure, Except.ok.injEq] at h
      subst h
      exact ⟨c, get_set_cell s k c1 c hk, fun _ => rfl, fun hx => absurd hm hx⟩
  · rw [if_neg hm] at h
    simp only [pure, Except.pure, Except.ok.injEq] at h
    subst h
    exact ⟨_, get_set_cell s k c1 _ hk, fun hx => absurd hx hm, fun _ => rfl⟩

theorem fixup_parameters_find (c : CellInfo) (key : IdString) :
    dict_find (fixup_parameters c).params key =
      (dict_find c.params key).orElse (fun _ => dict_find pll_defaults key) := by
  rw [fixup_parameters_eq]
  exact (set_defaults_find pll_defaults c key).1

theorem fixup_parameters_frame (c : CellInfo) :
    (fixup_parameters c).type = c.type ∧ (fixup_parameters c).name = c.name ∧
    (fixup_parameters c).ports = c.ports ∧ (fixup_parameters c).attrs = c.attrs := by
  rw [fixup_parameters_eq]
  exact (set_defaults_find pll_defaults c "").2

/-- The loop body of pack_plls on a cell of type PLLE2_ADV_PLLE2_ADV. -/
theorem visit_pll (hint : CellInfo → IdString → Option Property) (s t : Packer) (k : Nat)
    (c1 : CellInfo) (hk : s.cells.get? k = some c1) (ht : c1.type = "PLLE2_ADV_PLLE2_ADV")
    (h : pack_plls_cell hint k s = .ok t) :
    t.cells.get? k = some (try_preplace hint c1 "CLKIN1") := by
  unfold pack_plls_cell at h
  simp only [deref_live s k c1 hk, bind, Except.bind, ht, or_true, if_true,
    (try_preplace_frame hint c1 "CLKIN1").1] at h
  rw [if_neg (by decide)] at h
  simp only [pure, Except.pure, Except.ok.injEq] at h
  subst h
  exact get_set_cell s k c1 _ hk

/-- What pack_plls leaves of a cell of type MMCME2_ADV: the parameters are those of
fixup_parameters, the ports are the old ones except perhaps CLKFBIN. -/
theorem pack_plls_mmcm (hint : CellInfo → IdString → Option Property) (s r : Packer)
    (k : Nat) (ci : CellInfo) (hk : s.cells.get? k = some ci) (ht : ci.type = "MMCME2_ADV")
    (h : pack_plls hint s = .ok r) :
    ∃ c, r.cells.get? k = some c ∧ c.type = "MMCME2_ADV_MMCME2_ADV" ∧ c.name = ci.name ∧
      (∀ key, dict_find c.params key =
        (dict_find ci.params key).orElse (fun _ => dict_find pll_defaults key)) ∧
      (∀ q, q ≠ "CLKFBIN" → dict_find c.ports q = dict_find ci.ports q) ∧
      (str_or_default c.params "COMPENSATION" "INTERNAL" = "INTERNAL" →
        ∀ v, net_by_name s "$PACKER_VCC_NET" = some v → get_net_or_empty c "CLKFBIN" = some v) ∧
      (str_or_default c.params "COMPENSATION" "INTERNAL" ≠ "INTERNAL" → c.ports = ci.ports) := by
  obtain ⟨c1, sa, sb, hx, hn, hc1, hb, hr⟩ := pack_plls_visits hint s r k ci hk h
  rw [xform_pll, if_pos ht] at hx
  simp only [Except.ok.injEq] at hx
  have t1 : c1.type = "MMCME2_ADV_MMCME2_ADV" := by rw [← hx]
  have t2 : c1.name = ci.name := by rw [← hx]
  have t3 : c1.params = ci.params := by rw [← hx]
  have t4 : c1.ports = ci.ports := by rw [← hx]
  obtain ⟨c, hc, hint1, hint2⟩ := visit_mmcm hint sa sb k c1 hc1 t1 hb
  obtain ⟨p1, p2, p3, p4⟩ := try_preplace_frame hint c1 "CLKIN1"
  obtain ⟨f1, f2, f3, _⟩ := fixup_parameters_frame (try_preplace hint c1 "CLKIN1")
  have hvcc : net_by_name sa "$PACKER_VCC_NET" = net_by_name s "$PACKER_VCC_NET" := by
    unfold net_by_name
    rw [hn]
  by_cases hm : str_or_default (fixup_parameters (try_preplace hint c1 "CLKIN1")).params
      "COMPENSATION" "INTERNAL" = "INTERNAL"
  · have hcon := hint1 hm
    obtain ⟨d1, d2, _, d4, d5, _, _⟩ :=
      disconnect_port_frame (fixup_parameters (try_preplace hint c1 "CLKIN1")) "CLKFBIN"
    obtain ⟨e1, e2, _, e4, e5, _⟩ := connect_port_frame _ _ c "CLKFBIN" hcon
    have hp : c.params = (fixup_parameters (try_preplace hint c1 "CLKIN1")).params := by
      rw [e4, d4]
    refine ⟨c, hr.trans hc, by rw [e1, d1, f1, p1, t1], by rw [e2, d2, f2, p2, t2], ?_, ?_,
      ?_, ?_⟩
    · intro key
      rw [hp, fixup_parameters_find, p4, t3]
    · intro q hq
      rw [e5 q hq, d5 q hq, f3, p3, t4]
    · intro _ v hv
      rw [hvcc, hv] at hcon
      exact connect_port_net v _ c "CLKFBIN" hcon
    · intro hne
      rw [hp] at hne
      exact absurd hm hne
  · have hcc := hint2 hm
    have hp : c.params = (fixup_parameters (try_preplace hint c1 "CLKIN1")).params :=
      congrArg CellInfo.params hcc
    have hq : c.ports = ci.ports := (congrArg CellInfo.ports hcc).trans (by rw [f3, p3, t4])
    refine ⟨c, hr.trans hc, (congrArg CellInfo.type hcc).trans (by rw [f1, p1, t1]),
      (congrArg CellInfo.name hcc).trans (by rw [f2, p2, t2]), ?_, ?_, ?_, ?_⟩
    · intro key
      rw [hp, fixup_parameters_find, p4, t3]
    · intro q _
      rw [hq]
    · intro hi
      rw [hp] at hi
      exact absurd hi hm
    · intro _
      exact hq

theorem pll_defaults_clkout (i : Nat) (hi : i < 7) :
    dict_find pll_defaults ("CLKOUT" ++ to_string i ++ "_CASCADE") =
        some (Property.of_string "FALSE") ∧
      dict_find pll_defaults ("CLKOUT" ++ to_string i ++ "_DIVIDE") =
        some (Property.of_int 1 32) ∧
      dict_find pll_defaults ("CLKOUT" ++ to_string i ++ "_DUTY_CYCLE") =
        some (Property.of_string "0.5") ∧
      dict_find pll_defaults ("CLKOUT" ++ to_string i ++ "_PHASE") =
        some (Property.of_int 0 32) ∧
      dict_find pll_defaults ("CLKOUT" ++ to_string i ++ "_USE_FINE_PS") =
        some (Property.of_string "FALSE") := by
  interval_cases i <;>
    simp only [to_string_digits, String.reduceAppend] <;>
    refine ⟨?_, ?_, ?_, ?_, ?_⟩ <;>
    simp [pll_defaults, dict_find]

theorem str_or_default_filled (c ci : CellInfo)
    (h : dict_find c.params "COMPENSATION" =
      (dict_find ci.params "COMPENSATION").orElse
        (fun _ => dict_find pll_defaults "COMPENSATION")) :
    str_or_default c.params "COMPENSATION" "INTERNAL" =
      str_or_default ci.params "COMPENSATION" "INTERNAL" := by
  unfold str_or_default
  rw [h]
  cases dict_find ci.params "COMPENSATION" with
  | some p => rfl
  | none =>
    have hd : dict_find pll_defaults "COMPENSATION" = some (Property.of_string "INTERNAL") := by
      simp [pll_defaults, dict_find]
    simp only [Option.orElse, hd, Property.of_string]

/-- C17: for a cell of type MMCME2_ADV, after pack_plls every parameter that was
present keeps its value and every parameter that was absent holds the entry of the
table of defaults, when the table has one, and stays absent otherwise; the table has
38 entries, which are CLKIN1_PERIOD and CLKIN2_PERIOD at "0.0", COMPENSATION at
"INTERNAL" and, for each i in 0..6, CLKOUTi_CASCADE at "FALSE", CLKOUTi_DIVIDE at 1,
CLKOUTi_DUTY_CYCLE at "0.5", CLKOUTi_PHASE at 0 and CLKOUTi_USE_FINE_PS at "FALSE". -/
theorem pack_plls_defaults (hint : CellInfo → IdString → Option Property) (s r : Packer)
    (k : Nat) (ci : CellInfo) (hk : s.cells.get? k = some ci) (ht : ci.type = "MMCME2_ADV")
    (h : pack_plls hint s = .ok r) :
    ∃ c, r.cells.get? k = some c ∧
      (∀ key, dict_find c.params key =
        (dict_find ci.params key).orElse (fun _ => dict_find pll_defaults key)) ∧
      pll_defaults.length = 38 ∧
      dict_find pll_defaults "CLKIN1_PERIOD" = some (Property.of_string "0.0") ∧
      dict_find pll_defaults "CLKIN2_PERIOD" = some (Property.of_string "0.0") ∧
      dict_find pll_defaults "COMPENSATION" = some (Property.of_string "INTERNAL") ∧
      ∀ i, i < 7 →
        dict_find pll_defaults ("CLKOUT" ++ to_string i ++ "_CASCADE") =
          some (Property.of_string "FALSE") ∧
        dict_find pll_defaults ("CLKOUT" ++ to_string i ++ "_DIVIDE") =
          some (Property.of_int 1 32) ∧
        dict_find pll_defaults ("CLKOUT" ++ to_string i ++ "_DUTY_CYCLE") =
          some (Property.of_string "0.5") ∧
        dict_find pll_defaults ("CLKOUT" ++ to_string i ++ "_PHASE") =
          some (Property.of_int 0 32) ∧
        dict_find pll_defaults ("CLKOUT" ++ to_string i ++ "_USE_FINE_PS") =
          some (Property.of_string "FALSE") := by
  obtain ⟨c, hc, _, _, hp, _⟩ := pack_plls_mmcm hint s r k ci hk ht h
  refine ⟨c, hc, hp, ?_, ?_, ?_, ?_, pll_defaults_clkout⟩
  · simp [pll_defaults]
  · simp [pll_defaults, dict_find]
  · simp [pll_defaults, dict_find]
  · simp [pll_defaults, dict_find]

set_option maxRecDepth 100000 in
theorem pack_plls_defaults_witness :
    ∃ r, pack_plls no_hint pll_design = .ok r ∧
      ∃ c, r.cells.get? 0 = some c ∧
        dict_find c.params "CLKOUT0_DIVIDE" = some (Property.of_int 4 32) ∧
        dict_find c.params "CLKOUT1_DIVIDE" = some (Property.of_int 1 32) ∧
        dict_find c.params "COMPENSATION" = some (Property.of_string "INTERNAL") ∧
        dict_find c.params "BANDWIDTH" = none :=
  ⟨_, rfl, (pack_plls_defaults no_hint pll_design _ 0 mmcm_cell rfl rfl rfl).elim
    (fun c hc => ⟨c, hc.1, (hc.2.1 _).trans rfl, (hc.2.1 _).trans rfl, (hc.2.1 _).trans rfl,
      (hc.2.1 _).trans rfl⟩)⟩

/-- C19: for a cell of type MMCME2_ADV of a design that has the net
$PACKER_VCC_NET, after pack_plls the value of COMPENSATION read with the default
"INTERNAL" is the one read before; when it is "INTERNAL" the port CLKFBIN is on the
net $PACKER_VCC_NET, whatever it was on before, and when it is anything else the
port CLKFBIN is on the net it was on before. -/
theorem pack_plls_clkfbin (hint : CellInfo → IdString → Option Property) (s r : Packer)
    (k : Nat) (ci : CellInfo) (v : NetId) (hk : s.cells.get? k = some ci)
    (ht : ci.type = "MMCME2_ADV") (hv : net_by_name s "$PACKER_VCC_NET" = some v)
    (h : pack_plls hint s = .ok r) :
    ∃ c, r.cells.get? k = some c ∧
      str_or_default c.params "COMPENSATION" "INTERNAL" =
        str_or_default ci.params "COMPENSATION" "INTERNAL" ∧
      (str_or_default c.params "COMPENSATION" "INTERNAL" = "INTERNAL" →
        get_net_or_empty c "CLKFBIN" = some v) ∧
      (str_or_default c.params "COMPENSATION" "INTERNAL" ≠ "INTERNAL" →
        dict_find c.ports "CLKFBIN" = dict_find ci.ports "CLKFBIN") := by
  obtain ⟨c, hc, _, _, hp, _, hi, hn⟩ := pack_plls_mmcm hint s r k ci hk ht h
  refine ⟨c, hc, str_or_default_filled c ci (hp _), fun hx => hi hx v hv, fun hx => ?_⟩
  rw [hn hx]

set_option maxRecDepth 100000 in
theorem pack_plls_clkfbin_witness :
    ∃ r, pack_plls no_hint pll_design = .ok r ∧
      get_net_or_empty mmcm_cell "CLKFBIN" = some 4 ∧
      ∃ c, r.cells.get? 0 = some c ∧ get_net_or_empty c "CLKFBIN" = some 1 :=
  ⟨_, rfl, rfl, (pack_plls_clkfbin no_hint pll_design _ 0 mmcm_cell 1 rfl rfl rfl rfl).elim
    (fun c hc => ⟨c, hc.1, hc.2.2.1 (hc.2.1.trans rfl)⟩)⟩

set_option maxRecDepth 100000 in
/-- C18: pack_plls fills no default into a cell of type PLLE2_ADV and leaves its
CLKFBIN where it was: the PLL of the sample design, which has no parameter and its
CLKFBIN on net 4, ends with type PLLE2_ADV_PLLE2_ADV, without COMPENSATION,
CLKIN1_PERIOD or CLKOUT0_DIVIDE, and with CLKFBIN on net 4, which is not the net
$PACKER_VCC_NET. -/
theorem pack_plls_skips_plle2 :
    ∃ r c, pack_plls no_hint pll_design = .ok r ∧ pll_cell.type = "PLLE2_ADV" ∧
      pll_design.cells.get? 1 = some pll_cell ∧ r.cells.get? 1 = some c ∧
      c.type = "PLLE2_ADV_PLLE2_ADV" ∧
      dict_find c.params "COMPENSATION" = none ∧
      dict_find c.params "CLKIN1_PERIOD" = none ∧
      dict_find c.params "CLKOUT0_DIVIDE" = none ∧
      str_or_default c.params "COMPENSATION" "INTERNAL" = "INTERNAL" ∧
      get_net_or_empty c "CLKFBIN" = some 4 ∧
      net_by_name r "$PACKER_VCC_NET" = some 1 := by
  refine ⟨_, _, rfl, rfl, rfl, rfl, rfl, rfl, rfl, rfl, rfl, rfl, rfl⟩

/-- C18, amended: a cell of type PLLE2_ADV has type PLLE2_ADV_PLLE2_ADV after
pack_plls, and its name, its parameters and its ports are those it had before. -/
theorem pack_plls_plle2 (hint : CellInfo → IdString → Option Property) (s r : Packer)
    (k : Nat) (ci : CellInfo) (hk : s.cells.get? k = some ci) (ht : ci.type = "PLLE2_ADV")
    (h : pack_plls hint s = .ok r) :
    ∃ c, r.cells.get? k = some c ∧ c.type = "PLLE2_ADV_PLLE2_ADV" ∧ c.name = ci.name ∧
      c.params = ci.params ∧ c.ports = ci.ports := by
  obtain ⟨c1, sa, sb, hx, _, hc1, hb, hr⟩ := pack_plls_visits hint s r k ci hk h
  rw [xform_pll, if_neg (by rw [ht]; decide), if_pos ht] at hx
  simp only [Except.ok.injEq] at hx
  have t1 : c1.type = "PLLE2_ADV_PLLE2_ADV" := by rw [← hx]
  have t2 : c1.name = ci.name := by rw [← hx]
  have t3 : c1.params = ci.params := by rw [← hx]
  have t4 : c1.ports = ci.ports := by rw [← hx]
  obtain ⟨p1, p2, p3, p4⟩ := try_preplace_frame hint c1 "CLKIN1"
  exact ⟨_, hr.trans (visit_pll hint sa sb k c1 hc1 t1 hb), p1.trans t1, p2.trans t2,
    p4.trans t3, p3.trans t4⟩

set_option maxRecDepth 100000 in
theorem pack_plls_plle2_witness :
    ∃ r, pack_plls no_hint pll_design = .ok r ∧
      ∃ c, r.cells.get? 1 = some c ∧ c.type = "PLLE2_ADV_PLLE2_ADV" ∧ c.name = "pll" ∧
        c.params = [] ∧ c.ports = pll_cell.ports :=
  ⟨_, rfl, pack_plls_plle2 no_hint pll_design _ 1 pll_cell rfl rfl rfl⟩

/-! ### pack_gt -/

theorem gt_keeps_refl (c : CellInfo) : gt_keeps c c :=
  ⟨rfl, fun _ h => Or.inl h, fun _ => ⟨rfl, rfl⟩⟩

theorem gt_keeps_trans (a b c : CellInfo) (h1 : gt_keeps a b) (h2 : gt_keeps b c) :
    gt_keeps a c := by
  obtain ⟨t1, d1, b1⟩ := h1
  obtain ⟨t2, d2, b2⟩ := h2
  refine ⟨t2.trans t1, fun n h => (d2 n h).elim (fun x => d1 n x)
    (fun g => Or.inr (by rw [← t1]; exact g)), fun ht => ?_⟩
  obtain ⟨p1, r1⟩ := b1 ht
  obtain ⟨p2, r2⟩ := b2 (t1.trans ht)
  exact ⟨p2.trans p1, r2.trans r1⟩

theorem gt_le_refl (s : Packer) : gt_le s s :=
  ⟨rfl, rfl, fun _ c h => ⟨c, h, gt_keeps_refl c⟩⟩

theorem gt_le_trans (s t u : Packer) (h1 : gt_le s t) (h2 : gt_le t u) : gt_le s u := by
  obtain ⟨n1, l1, c1⟩ := h1
  obtain ⟨n2, l2, c2⟩ := h2
  refine ⟨n2.trans n1, l2.trans l1, fun i c hc => ?_⟩
  obtain ⟨d, hd, k1⟩ := c1 i c hc
  obtain ⟨e, he, k2⟩ := c2 i d hd
  exact ⟨e, he, gt_keeps_trans c d e k1 k2⟩

theorem gt_frame_refl (j : Nat) (s : Packer) : gt_frame j s s :=
  fun _ _ _ h _ => h

theorem gt_frame_trans (j : Nat) (s t u : Packer) (h1 : gt_frame j s t) (h2 : gt_frame j t u) :
    gt_frame j s u :=
  fun i c hi hc ht => h2 i c hi (h1 i c hi hc ht) ht

theorem get_set_cell_ne (s : Packer) (k i : Nat) (c : CellInfo) (h : i ≠ k) :
    (set_cell s (CellRef.live k) c).cells.get? i = s.cells.get? i := by
  simp only [set_cell, List.get?_eq_getElem?]
  rw [List.getElem?_set_ne (Ne.symm h)]

theorem gt_le_set_cell (s : Packer) (k : Nat) (c d : CellInfo)
    (hk : s.cells.get? k = some c) (h : gt_keeps c d) :
    gt_le s (set_cell s (CellRef.live k) d) := by
  refine ⟨rfl, by simp only [set_cell, List.length_set], fun i a ha => ?_⟩
  by_cases hi : i = k
  · subst hi
    rw [hk] at ha
    have hac : c = a := Option.some.inj ha
    subst hac
    exact ⟨d, get_set_cell s i c d hk, h⟩
  · exact ⟨a, (get_set_cell_ne s k i d hi).trans ha, gt_keeps_refl a⟩

theorem gt_frame_set_cell (j : Nat) (s : Packer) (d : CellInfo) :
    gt_frame j s (set_cell s (CellRef.live j) d) :=
  fun i _ hi hc _ => (get_set_cell_ne s j i d hi).trans hc

theorem gt_frame_set_buffer (j k : Nat) (s : Packer) (c d : CellInfo)
    (hk : s.cells.get? k = some c) (ht : c.type = "IBUFDS_GTE2") :
    gt_frame j s (set_cell s (CellRef.live k) d) := by
  intro i a _ ha hta
  by_cases hik : i = k
  · subst hik
    rw [hk] at ha
    have hac : c = a := Option.some.inj ha
    subst hac
    exact absurd ht hta
  · exact (get_set_cell_ne s k i d hik).trans ha

theorem any_dict_set (g : PortInfo → Bool) (m : List (IdString × PortInfo)) (k : IdString)
    (v : PortInfo) (h : (dict_set m k v).any (fun p => g p.2) = true) :
    m.any (fun p => g p.2) = true ∨ g v = true := by
  induction m with
  | nil =>
    simp only [dict_set, List.any_cons, List.any_nil, Bool.or_false] at h
    exact Or.inr h
  | cons e rest ih =>
    obtain ⟨k1, w⟩ := e
    simp only [dict_set] at h
    split_ifs at h
    · simp only [List.any_cons, Bool.or_eq_true] at h ⊢
      rcases h with h | h
      · exact Or.inr h
      · exact Or.inl (Or.inr h)
    · simp only [List.any_cons, Bool.or_eq_true] at h ⊢
      rcases h with h | h
      · exact Or.inl (Or.inl h)
      · rcases ih h with h1 | h1
        · exact Or.inl (Or.inr h1)
        · exact Or.inr h1

theorem any_dict_erase (g : PortInfo → Bool) (m : List (IdString × PortInfo)) (k : IdString)
    (h : (dict_erase m k).any (fun p => g p.2) = true) : m.any (fun p => g p.2) = true := by
  induction m with
  | nil => exact h
  | cons e rest ih =>
    obtain ⟨k1, w⟩ := e
    simp only [dict_erase] at h
    split_ifs at h
    · simp only [List.any_cons, Bool.or_eq_true]
      exact Or.inr h
    · simp only [List.any_cons, Bool.or_eq_true] at h ⊢
      rcases h with h | h
      · exact Or.inl h
      · exact Or.inr (ih h)

theorem any_of_dict_find (g : PortInfo → Bool) (m : List (IdString × PortInfo)) (k : IdString)
    (v : PortInfo) (hf : dict_find m k = some v) (hg : g v = true) :
    m.any (fun p => g p.2) = true := by
  induction m with
  | nil => cases hf
  | cons e rest ih =>
    obtain ⟨k1, w⟩ := e
    simp only [dict_find] at hf
    simp only [List.any_cons, Bool.or_eq_true]
    split_ifs at hf
    · cases hf
      exact Or.inl hg
    · exact Or.inr (ih hf)

theorem drives_disconnect_port (n : NetId) (c : CellInfo) (q : IdString)
    (h : drives n (disconnect_port c q) = true) : drives n c = true := by
  unfold disconnect_port at h
  cases hf : dict_find c.ports q with
  | none => rw [hf] at h; exact h
  | some port =>
    rw [hf] at h
    rcases any_dict_set (fun x => x.type == PortType.PORT_OUT && x.net == some n) c.ports q _ h
      with h1 | h1
    · exact h1
    · simp at h1

theorem drives_rename_port (n : NetId) (c : CellInfo) (a b : IdString)
    (h : drives n (rename_port c a b) = true) : drives n c = true := by
  unfold rename_port at h
  cases hf : dict_find c.ports a with
  | none => rw [hf] at h; exact h
  | some port =>
    rw [hf] at h
    rcases any_dict_set (fun x => x.type == PortType.PORT_OUT && x.net == some n) _ b _ h
      with h1 | h1
    · exact any_dict_erase (fun x => x.type == PortType.PORT_OUT && x.net == some n)
        c.ports a h1
    · exact any_of_dict_find (fun x => x.type == PortType.PORT_OUT && x.net == some n)
        c.ports a port hf h1

theorem gt_keeps_of_ports (c d : CellInfo) (ht : d.type = c.type)
    (hb : c.type ≠ "IBUFDS_GTE2") (hd : ∀ n, drives n d = true → drives n c = true) :
    gt_keeps c d :=
  ⟨ht, fun n h => Or.inl (hd n h), fun hx => absurd hx hb⟩

theorem gt_type_ne (t : IdString) (h : gt_type t) :
    t ≠ "IBUFDS_GTE2" ∧ t ≠ "BUFGCTRL" := by
  rcases h with x | x | x | x <;> rw [x] <;> decide

/-- A transceiver cell may change in every way but its type. -/
theorem gt_keeps_of_gt (c d : CellInfo) (ht : d.type = c.type) (hg : gt_type c.type) :
    gt_keeps c d :=
  ⟨ht, fun _ _ => Or.inr hg, fun hx => absurd hx (gt_type_ne c.type hg).1⟩

theorem rel_buf_y_touch (c : CellInfo) : rel_buf_y (touch_rel_buf_y c) = rel_buf_y c := by
  unfold touch_rel_buf_y rel_buf_y
  by_cases h : dict_count c.attrs "_REL_BUF_Y" = true
  · rw [if_pos h]
  · rw [if_neg h]
    simp only [dict_find_set_self, Option.getD_some]
    cases hf : dict_find c.attrs "_REL_BUF_Y" with
    | none => rfl
    | some v =>
      simp only [dict_count, hf, Option.isSome_some, not_true_eq_false] at h

theorem gt_keeps_touch (c : CellInfo) : gt_keeps c (touch_rel_buf_y c) := by
  refine ⟨?_, ?_, fun _ => ⟨?_, rel_buf_y_touch c⟩⟩
  · unfold touch_rel_buf_y; split_ifs <;> rfl
  · intro n h
    unfold touch_rel_buf_y at h
    split_ifs at h <;> exact Or.inl h
  · unfold touch_rel_buf_y; split_ifs <;> rfl

theorem driver_of_loop_spec (n : NetId) :
    ∀ (cells : List CellInfo) (i : Nat) (d : CellRef × CellInfo),
      driver_of_loop n cells i = some d →
      ∃ m, d.1 = CellRef.live (i + m) ∧ cells.get? m = some d.2 ∧ drives n d.2 = true ∧
        ∀ m1, m1 < m → ∀ c, cells.get? m1 = some c → drives n c = false := by
  intro cells
  induction cells with
  | nil => intro i d h; cases h
  | cons c rest ih =>
    intro i d h
    simp only [driver_of_loop] at h
    by_cases hc : drives n c = true
    · have hc1 := hc
      unfold drives at hc1
      rw [if_pos hc1] at h
      cases h
      exact ⟨0, rfl, rfl, hc, fun m1 hm => absurd hm (Nat.not_lt_zero m1)⟩
    · have hc1 := hc
      unfold drives at hc1
      rw [if_neg hc1] at h
      obtain ⟨m, h1, h2, h3, h4⟩ := ih (i + 1) d h
      refine ⟨m + 1, ?_, h2, h3, ?_⟩
      · rw [h1]
        congr 1
        omega
      · intro m1 hm a ha
        cases m1 with
        | zero =>
          simp only [List.get?_cons_zero, Option.some.injEq] at ha
          subst ha
          simpa using hc
        | succ m2 => exact h4 m2 (by omega) a ha

theorem driver_of_loop_intro (n : NetId) :
    ∀ (cells : List CellInfo) (i m : Nat) (d : CellInfo),
      cells.get? m = some d → drives n d = true →
      (∀ m1, m1 < m → ∀ c, cells.get? m1 = some c → drives n c = false) →
      driver_of_loop n cells i = some (CellRef.live (i + m), d) := by
  intro cells
  induction cells with
  | nil => intro i m d h; cases h
  | cons c rest ih =>
    intro i m d hm hd hlt
    simp only [driver_of_loop]
    cases m with
    | zero =>
      simp only [List.get?_cons_zero, Option.some.injEq] at hm
      subst hm
      have hd1 := hd
      unfold drives at hd1
      rw [if_pos hd1]
      rfl
    | succ m2 =>
      have hc : drives n c = false := hlt 0 (by omega) c rfl
      have hc1 := hc
      unfold drives at hc1
      rw [if_neg (by rw [hc1]; decide)]
      rw [ih (i + 1) m2 d hm hd (fun m1 h1 a ha => hlt (m1 + 1) (by omega) a ha)]
      congr 3
      omega

theorem driver_of_loop_some (n : NetId) :
    ∀ (cells : List CellInfo) (i m : Nat) (d : CellInfo),
      cells.get? m = some d → drives n d = true →
      ∃ x, driver_of_loop n cells i = some x := by
  intro cells
  induction cells with
  | nil => intro i m d h; cases h
  | cons c rest ih =>
    intro i m d hm hd
    simp only [driver_of_loop]
    by_cases hc : drives n c = true
    · have hc1 := hc
      unfold drives at hc1
      rw [if_pos hc1]
      exact ⟨_, rfl⟩
    · have hc1 := hc
      unfold drives at hc1
      rw [if_neg hc1]
      cases m with
      | zero =>
        simp only [List.get?_cons_zero, Option.some.injEq] at hm
        subst hm
        exact absurd hd hc
      | succ m2 => exact ih (i + 1) m2 d hm hd

/-- A net that a buffer drives is driven, in every later state of pack_gt, by a
buffer with the same recorded row or else by a transceiver cell. -/
theorem driver_of_gt_le (s t : Packer) (n : NetId) (drv : CellRef × CellInfo)
    (hle : gt_le s t) (hd : driver_of s n = some drv) (ht : drv.2.type = "IBUFDS_GTE2") :
    ∃ x, driver_of t n = some x ∧
      (gt_type x.2.type ∨ (x.2.type = "IBUFDS_GTE2" ∧ rel_buf_y x.2 = rel_buf_y drv.2)) := by
  obtain ⟨m, h1, h2, h3, h4⟩ := driver_of_loop_spec n s.cells 0 drv hd
  obtain ⟨_, hlen, hc⟩ := hle
  obtain ⟨d, hd1, hk⟩ := hc m drv.2 h2
  have hdr : drives n d = true := by
    have hp := (hk.2.2 ht).1
    unfold drives at h3 ⊢
    rw [hp]
    exact h3
  obtain ⟨x, hx⟩ := driver_of_loop_some n t.cells 0 m d hd1 hdr
  refine ⟨x, hx, ?_⟩
  obtain ⟨m1, g1, g2, g3, g4⟩ := driver_of_loop_spec n t.cells 0 x hx
  have hm1 : m1 ≤ m := by
    by_contra hgt
    have := g4 m (by omega) d hd1
    rw [hdr] at this
    cases this
  by_cases hmm : m1 = m
  · subst hmm
    rw [hd1] at g2
    have hxd : d = x.2 := Option.some.inj g2
    rw [← hxd]
    exact Or.inr ⟨hk.1.trans ht, (hk.2.2 ht).2⟩
  · have hlt : m1 < s.cells.length := by
      have : m < s.cells.length := by
        simp only [List.get?_eq_getElem?] at h2
        by_contra hx2
        rw [List.getElem?_eq_none (by omega)] at h2
        cases h2
      omega
    have hs : s.cells.get? m1 = some (s.cells[m1]) := by
      simp only [List.get?_eq_getElem?]
      exact List.getElem?_eq_getElem hlt
    obtain ⟨a1, ha1, hk1⟩ := hc m1 _ hs
    rw [g2] at ha1
    have haa : x.2 = a1 := Option.some.inj ha1
    subst haa
    rcases hk1.2.1 n g3 with r | r
    · have := h4 m1 (by omega) _ hs
      rw [r] at this
      cases this
    · left
      rw [hk1.1]
      exact r

theorem rename_port_frame (c : CellInfo) (a b : IdString) :
    (rename_port c a b).type = c.type ∧ (rename_port c a b).params = c.params ∧
    ∀ p, p ≠ a → p ≠ b → dict_find (rename_port c a b).ports p = dict_find c.ports p := by
  unfold rename_port
  cases hf : dict_find c.ports a with
  | none => exact ⟨rfl, rfl, fun _ _ _ => rfl⟩
  | some port =>
    refine ⟨rfl, rfl, fun p ha hb => ?_⟩
    simp only
    rw [dict_find_set_ne _ b p _ hb, dict_find_erase_ne _ a p ha]

/-- A store into the cell of index `k` made after a state `s1` that follows `s`. -/
theorem common_result (s s1 : Packer) (k : Nat) (q : IdString) (c d : CellInfo)
    (f0 f1 : Bool) (st1 : Packer × Bool × Bool)
    (hle : gt_le s s1) (hfr : gt_frame k s s1) (hk : s1.cells.get? k = some c)
    (hb : c.type ≠ "IBUFDS_GTE2") (ht : d.type = c.type)
    (hd : ∀ n, drives n d = true → drives n c = true)
    (hports : ∀ p, p ≠ q → p ≠ "GTGREFCLK0" → p ≠ "GTGREFCLK" →
      dict_find d.ports p = dict_find c.ports p)
    (hparams : ∀ key, key = "_GTREFCLK0_USED" ∨ key = "_GTREFCLK1_USED" →
      dict_find c.params key = some (Property.of_int 1 1) →
      dict_find d.params key = some (Property.of_int 1 1))
    (h : (set_cell s1 (CellRef.live k) d, f0, f1) = st1) :
    gt_le s st1.1 ∧ gt_frame k s st1.1 ∧
    ∃ e, st1.1.cells.get? k = some e ∧ e.type = c.type ∧
      (∀ p, p ≠ q → p ≠ "GTGREFCLK0" → p ≠ "GTGREFCLK" →
        dict_find e.ports p = dict_find c.ports p) ∧
      (∀ key, key = "_GTREFCLK0_USED" ∨ key = "_GTREFCLK1_USED" →
        dict_find c.params key = some (Property.of_int 1 1) →
        dict_find e.params key = some (Property.of_int 1 1)) := by
  subst h
  exact ⟨gt_le_trans s s1 _ hle (gt_le_set_cell s1 k c d hk (gt_keeps_of_ports c d ht hb hd)),
    gt_frame_trans k s s1 _ hfr (gt_frame_set_cell k s1 d),
    d, get_set_cell s1 k c d hk, ht, hports, hparams⟩

theorem setParam_find (c : CellInfo) (key q : IdString) (v : Property) (h : q ≠ key) :
    dict_find (setParam c key v).params q = dict_find c.params q :=
  dict_find_set_ne c.params key q v h

theorem setParam_self (c : CellInfo) (key : IdString) (v : Property) :
    dict_find (setParam c key v).params key = some v :=
  dict_find_set_self c.params key v

/-- A buffer that drives a net drives a net that is in use. -/
theorem buffer_net_used (s : Packer) (n : NetId) (drv : CellRef × CellInfo)
    (hok : refclk_buffers_ok s) (hd : driver_of s n = some drv)
    (ht : drv.2.type = "IBUFDS_GTE2") : port_used s (some n) = true := by
  obtain ⟨m, _, _, h3, _⟩ := driver_of_loop_spec n s.cells 0 drv hd
  exact hok drv.2 (driver_of_loop_mem n s.cells 0 drv hd) ht n h3

/-- The statements for a reference clock that comes from a buffer. -/
theorem refclk_by_buffer_spec (k : Nat) (q : IdString) (n : NetId) (drv : CellRef × CellInfo)
    (st st1 : Packer × Bool × Bool) (c : CellInfo)
    (hk : st.1.cells.get? k = some c) (hb : c.type ≠ "IBUFDS_GTE2")
    (hd : driver_of st.1 n = some drv) (ht : drv.2.type = "IBUFDS_GTE2")
    (h : refclk_by_buffer k q drv st = .ok st1) :
    ∃ rel s1, rel_buf_y drv.2 = .ok rel ∧ gt_le st.1 s1 ∧ gt_frame k st.1 s1 ∧
      s1.cells.get? k = some c ∧
      st1 = (if rel = 1 then
          (set_cell s1 (CellRef.live k)
            (setParam (disconnect_port c q) "_GTREFCLK1_USED" (Property.of_int 1 1)), st.2.1, true)
        else
          (set_cell s1 (CellRef.live k)
            (setParam (disconnect_port c q) "_GTREFCLK0_USED" (Property.of_int 1 1)),
            true, st.2.2)) := by
  obtain ⟨m, h1, h2, _, _⟩ := driver_of_loop_spec n st.1.cells 0 drv hd
  rw [Nat.zero_add] at h1
  have hmk : k ≠ m := by
    intro hx
    subst hx
    rw [hk] at h2
    have hcc : c = drv.2 := Option.some.inj h2
    rw [hcc] at hb
    exact hb ht
  have hk1 : (set_cell st.1 (CellRef.live m) (touch_rel_buf_y drv.2)).cells.get? k = some c :=
    (get_set_cell_ne st.1 m k _ hmk).trans hk
  unfold refclk_by_buffer at h
  rw [h1] at h
  have hr := rel_buf_y_touch drv.2
  unfold rel_buf_y at hr
  cases hrel : Property.as_int64
      ((dict_find (touch_rel_buf_y drv.2).attrs "_REL_BUF_Y").getD Property.empty) with
  | error e =>
    simp only [hrel, bind, Except.bind] at h
    cases h
  | ok rel =>
    simp only [hrel, bind, Except.bind, deref_live _ k c hk1, pure, Except.pure] at h
    refine ⟨rel, set_cell st.1 (CellRef.live m) (touch_rel_buf_y drv.2), ?_,
      gt_le_set_cell st.1 m drv.2 _ h2 (gt_keeps_touch drv.2),
      gt_frame_set_buffer k m st.1 drv.2 _ h2 ht, hk1, ?_⟩
    · unfold rel_buf_y
      rw [← hr, hrel]
    · split_ifs at h ⊢ <;> cases h <;> rfl


/-- What one turn of the loop over the ports of a common cell keeps. -/
theorem common_port_step (is_gtp : Bool) (k : Nat) (q : IdString)
    (st st1 : Packer × Bool × Bool) (c : CellInfo)
    (hk : st.1.cells.get? k = some c) (hb : c.type ≠ "IBUFDS_GTE2")
    (hok : refclk_buffers_ok st.1)
    (h : pack_gt_common_port is_gtp k q st = .ok st1) :
    gt_le st.1 st1.1 ∧ gt_frame k st.1 st1.1 ∧
    ∃ e, st1.1.cells.get? k = some e ∧ e.type = c.type ∧
      (∀ p, p ≠ q → p ≠ "GTGREFCLK0" → p ≠ "GTGREFCLK" →
        dict_find e.ports p = dict_find c.ports p) ∧
      (∀ key, key = "_GTREFCLK0_USED" ∨ key = "_GTREFCLK1_USED" →
        dict_find c.params key = some (Property.of_int 1 1) →
        dict_find e.params key = some (Property.of_int 1 1)) := by
  have hsame : st = st1 →
      gt_le st.1 st1.1 ∧ gt_frame k st.1 st1.1 ∧
      ∃ e, st1.1.cells.get? k = some e ∧ e.type = c.type ∧
        (∀ p, p ≠ q → p ≠ "GTGREFCLK0" → p ≠ "GTGREFCLK" →
          dict_find e.ports p = dict_find c.ports p) ∧
        (∀ key, key = "_GTREFCLK0_USED" ∨ key = "_GTREFCLK1_USED" →
          dict_find c.params key = some (Property.of_int 1 1) →
          dict_find e.params key = some (Property.of_int 1 1)) := by
    intro hx
    subst hx
    exact ⟨gt_le_refl _, gt_frame_refl _ _, c, hk, rfl, fun _ _ _ _ => rfl, fun _ _ hx => hx⟩
  unfold pack_gt_common_port at h
  simp only [deref_live st.1 k c hk, bind, Except.bind] at h
  cases hf : dict_find c.ports q with
  | none =>
    rw [hf] at h
    cases h
  | some port =>
    rw [hf] at h
    simp only at h
    by_cases hq : q = "DRPCLK"
    · rw [if_pos hq] at h
      simp only [pure, Except.pure, Except.ok.injEq] at h
      exact common_result st.1 st.1 k q c
        (setParam c "_DRPCLK_USED" (Property.of_bool (port_used st.1 port.net))) _ _ st1
        (gt_le_refl _) (gt_frame_refl _ _) hk hb rfl
        (fun _ hx => hx) (fun _ _ _ _ => rfl)
        (fun key hkey hx => by
          rw [setParam_find c _ key _ (by rcases hkey with r | r <;> rw [r] <;> decide)]
          exact hx) h
    · rw [if_neg hq] at h
      by_cases hs : starts_with q "GTREFCLK" = true
      · rw [if_pos hs] at h
        cases hn : port.net with
        | none => rw [hn] at h; cases h
        | some n =>
          rw [hn] at h
          simp only at h
          cases hd : driver_of st.1 n with
          | none => rw [hd] at h; cases h
          | some drv =>
            rw [hd] at h
            simp only at h
            by_cases ht : drv.2.type = "IBUFDS_GTE2"
            · rw [if_neg (not_not.mpr ht)] at h
              have hu : port_used st.1 (some n) = true := buffer_net_used st.1 n drv hok hd ht
              rw [if_pos hu] at h
              obtain ⟨rel, s1, _, hle, hfr, hk1, hst⟩ :=
                refclk_by_buffer_spec k q n drv st st1 c hk hb hd ht h
              obtain ⟨d1, _, _, d4, d5, _, _⟩ := disconnect_port_frame c q
              by_cases hr : rel = 1
              · rw [if_pos hr] at hst
                exact common_result st.1 s1 k q c
                  (setParam (disconnect_port c q) "_GTREFCLK1_USED" (Property.of_int 1 1)) _ _
                  st1 hle hfr hk1 hb d1 (fun n1 hx => drives_disconnect_port n1 c q hx)
                  (fun p h1 _ _ => d5 p h1)
                  (fun key _ hx => by
                    by_cases hkk : key = "_GTREFCLK1_USED"
                    · rw [hkk]
                      exact setParam_self _ _ _
                    · rw [setParam_find _ _ key _ hkk, d4]
                      exact hx) hst.symm
              · rw [if_neg hr] at hst
                exact common_result st.1 s1 k q c
                  (setParam (disconnect_port c q) "_GTREFCLK0_USED" (Property.of_int 1 1)) _ _
                  st1 hle hfr hk1 hb d1 (fun n1 hx => drives_disconnect_port n1 c q hx)
                  (fun p h1 _ _ => d5 p h1)
                  (fun key _ hx => by
                    by_cases hkk : key = "_GTREFCLK0_USED"
                    · rw [hkk]
                      exact setParam_self _ _ _
                    · rw [setParam_find _ _ key _ hkk, d4]
                      exact hx) hst.symm
            · rw [if_pos ht] at h
              by_cases ht2 : drv.2.type = "BUFGCTRL"
              · rw [if_neg (not_not.mpr ht2)] at h
                simp only [pure, Except.pure, Except.ok.injEq] at h
                obtain ⟨r1, r2, r3⟩ := rename_port_frame c q (if is_gtp = true then "GTGREFCLK0"
                  else "GTGREFCLK")
                exact common_result st.1 st.1 k q c
                  (setParam (rename_port c q (if is_gtp = true then "GTGREFCLK0"
                    else "GTGREFCLK")) "_GTGREFCLK_USED" (Property.of_int 1 1)) _ _ st1
                  (gt_le_refl _) (gt_frame_refl _ _)
                  hk hb r1 (fun n1 hx => drives_rename_port n1 c q _ hx)
                  (fun p h1 h2 h3 => r3 p h1 (by split_ifs <;> assumption))
                  (fun key hkey hx => by
                    rw [setParam_find _ _ key _
                      (by rcases hkey with r | r <;> rw [r] <;> decide), r2]
                    exact hx) h
              · rw [if_pos ht2] at h
                cases h
      · rw [if_neg hs] at h
        simp only [pure, Except.pure, Except.ok.injEq] at h
        exact hsame h

theorem gt_le_back (s t : Packer) (hle : gt_le s t) (d : CellInfo) (hd : d ∈ t.cells) :
    ∃ i c, s.cells.get? i = some c ∧ t.cells.get? i = some d ∧ gt_keeps c d := by
  obtain ⟨i, hi, hget⟩ := List.getElem_of_mem hd
  obtain ⟨_, hl, hc⟩ := hle
  have his : i < s.cells.length := by omega
  have hs : s.cells.get? i = some (s.cells[i]) := by
    simp only [List.get?_eq_getElem?]
    exact List.getElem?_eq_getElem his
  obtain ⟨d1, hd1, hk⟩ := hc i _ hs
  have ht : t.cells.get? i = some d := by
    simp only [List.get?_eq_getElem?]
    rw [List.getElem?_eq_getElem hi, hget]
  rw [ht] at hd1
  have hdd : d = d1 := Option.some.inj hd1
  subst hdd
  exact ⟨i, _, hs, ht, hk⟩

theorem port_used_nets (s t : Packer) (h : t.nets = s.nets) (n : Option NetId) :
    port_used t n = port_used s n := by
  unfold port_used net_name
  rw [h]

theorem refclk_buffers_ok_le (s t : Packer) (hle : gt_le s t) (h : refclk_buffers_ok s) :
    refclk_buffers_ok t := by
  intro d hd ht n hdr
  obtain ⟨i, c, hs, _, hk⟩ := gt_le_back s t hle d hd
  rw [port_used_nets s t hle.1]
  have hct : c.type = "IBUFDS_GTE2" := hk.1.symm.trans ht
  refine h c (List.getElem?_mem (by simpa [List.get?_eq_getElem?] using hs)) hct n ?_
  have hp := (hk.2.2 hct).1
  unfold drives at hdr ⊢
  rw [← hp]
  exact hdr

theorem ports_loop_cons_ok {σ : Type} (present : IdString → σ → Bool)
    (body : IdString → σ → Except String σ) (q : IdString) (rest : List IdString) (st st1 : σ)
    (h : ports_loop present body (q :: rest) st = .ok st1) :
    ∃ sm, body q st = .ok sm ∧ present q sm = true ∧
      ports_loop present body rest sm = .ok st1 := by
  simp only [ports_loop] at h
  obtain ⟨sm, hm, h2⟩ := except_bind_ok _ _ st1 h
  by_cases hp : present q sm = true
  · rw [if_pos hp] at h2
    exact ⟨sm, hm, hp, h2⟩
  · rw [if_neg hp] at h2
    cases h2

/-- What the loop over the ports of a common cell keeps. -/
theorem common_ports_loop (is_gtp : Bool) (k : Nat) :
    ∀ (L : List IdString) (st st1 : Packer × Bool × Bool) (c : CellInfo),
      st.1.cells.get? k = some c → c.type ≠ "IBUFDS_GTE2" → refclk_buffers_ok st.1 →
      ports_loop (fun p x => port_present k p x.1) (pack_gt_common_port is_gtp k) L st =
        .ok st1 →
      gt_le st.1 st1.1 ∧ gt_frame k st.1 st1.1 ∧
      ∃ e, st1.1.cells.get? k = some e ∧ e.type = c.type ∧
        (∀ p, p ∉ L → p ≠ "GTGREFCLK0" → p ≠ "GTGREFCLK" →
          dict_find e.ports p = dict_find c.ports p) ∧
        (∀ key, key = "_GTREFCLK0_USED" ∨ key = "_GTREFCLK1_USED" →
          dict_find c.params key = some (Property.of_int 1 1) →
          dict_find e.params key = some (Property.of_int 1 1)) := by
  intro L
  induction L with
  | nil =>
    intro st st1 c hk _ _ h
    simp only [ports_loop, pure, Except.pure, Except.ok.injEq] at h
    subst h
    exact ⟨gt_le_refl _, gt_frame_refl _ _, c, hk, rfl, fun _ _ _ _ => rfl, fun _ _ hx => hx⟩
  | cons q rest ih =>
    intro st st1 c hk hb hok h
    obtain ⟨sm, hm, _, h⟩ := ports_loop_cons_ok _ _ q rest st st1 h
    obtain ⟨l1, f1, e1, he1, t1, p1, q1⟩ := common_port_step is_gtp k q st sm c hk hb hok hm
    obtain ⟨l2, f2, e2, he2, t2, p2, q2⟩ := ih sm st1 e1 he1 (by rw [t1]; exact hb)
      (refclk_buffers_ok_le st.1 sm.1 l1 hok) h
    refine ⟨gt_le_trans _ _ _ l1 l2, gt_frame_trans k _ _ _ f1 f2, e2, he2, t2.trans t1, ?_, ?_⟩
    · intro p hp h1 h2
      simp only [List.mem_cons, not_or] at hp
      rw [p2 p hp.2 h1 h2, p1 p hp.1 h1 h2]
    · intro key hkey hx
      exact q2 key hkey (q1 key hkey hx)

/-- The turn of the loop for a reference clock that a buffer drives through a net
in use. -/
theorem common_port_at (is_gtp : Bool) (k : Nat) (p : IdString) (port : PortInfo) (n : NetId)
    (drv : CellRef × CellInfo) (rel : Int) (st st1 : Packer × Bool × Bool) (c : CellInfo)
    (hk : st.1.cells.get? k = some c) (hb : c.type ≠ "IBUFDS_GTE2")
    (hp : dict_find c.ports p = some port) (hs : starts_with p "GTREFCLK" = true)
    (hn : port.net = some n) (hu : port_used st.1 (some n) = true)
    (hd : driver_of st.1 n = some drv) (ht : drv.2.type = "IBUFDS_GTE2")
    (hrel : rel_buf_y drv.2 = .ok rel)
    (h : pack_gt_common_port is_gtp k p st = .ok st1) :
    gt_le st.1 st1.1 ∧ gt_frame k st.1 st1.1 ∧
    ∃ e, st1.1.cells.get? k = some e ∧ e.type = c.type ∧ get_net_or_empty e p = none ∧
      (rel = 1 → dict_find e.params "_GTREFCLK1_USED" = some (Property.of_int 1 1)) ∧
      (rel ≠ 1 → dict_find e.params "_GTREFCLK0_USED" = some (Property.of_int 1 1)) := by
  have hq : p ≠ "DRPCLK" := by
    intro hx
    rw [hx] at hs
    exact absurd hs (by decide)
  unfold pack_gt_common_port at h
  simp only [deref_live st.1 k c hk, bind, Except.bind, hp, if_neg hq, hs, if_true, hn, hd, ht,
    ne_eq, not_true_eq_false, if_false, hu] at h
  obtain ⟨rel1, s1, hr1, hle, hfr, hk1, hst⟩ :=
    refclk_by_buffer_spec k p n drv st st1 c hk hb hd ht h
  rw [hrel] at hr1
  have hrr : rel = rel1 := Except.ok.inj hr1
  subst hrr
  obtain ⟨d1, _, _, _, _, _, d7⟩ := disconnect_port_frame c p
  by_cases hr : rel = 1
  · rw [if_pos hr] at hst
    subst hst
    refine ⟨gt_le_trans _ s1 _ hle (gt_le_set_cell s1 k c _ hk1
        (gt_keeps_of_ports c _ d1 hb (fun n1 hx => drives_disconnect_port n1 c p hx))),
      gt_frame_trans k _ s1 _ hfr (gt_frame_set_cell k s1 _), _, get_set_cell s1 k c _ hk1, d1,
      d7, fun _ => setParam_self _ _ _, fun hx => absurd hr hx⟩
  · rw [if_neg hr] at hst
    subst hst
    refine ⟨gt_le_trans _ s1 _ hle (gt_le_set_cell s1 k c _ hk1
        (gt_keeps_of_ports c _ d1 hb (fun n1 hx => drives_disconnect_port n1 c p hx))),
      gt_frame_trans k _ s1 _ hfr (gt_frame_set_cell k s1 _), _, get_set_cell s1 k c _ hk1, d1,
      d7, fun hx => absurd hx hr, fun _ => setParam_self _ _ _⟩

theorem ports_loop_append {σ : Type} (present : IdString → σ → Bool)
    (body : IdString → σ → Except String σ) :
    ∀ (A B : List IdString) (st : σ),
      ports_loop present body (A ++ B) st =
        (ports_loop present body A st >>= ports_loop present body B) := by
  intro A
  induction A with
  | nil => intro B st; rfl
  | cons a rest ih =>
    intro B st
    simp only [List.cons_append, ports_loop]
    cases body a st with
    | error e => rfl
    | ok s1 =>
      simp only [bind, Except.bind]
      by_cases hp : present a s1 = true
      · simp only [hp, if_true]
        exact ih B s1
      · simp only [hp, if_false]
        rfl

theorem gt_le_of_same_but (k : Nat) (s t : Packer) (c d : CellInfo)
    (h : same_but k s t) (hk : s.cells.get? k = some c) (hd : t.cells.get? k = some d)
    (ht : d.type = c.type) (hg : gt_type c.type) : gt_le s t := by
  obtain ⟨h1, h2, h3⟩ := h
  refine ⟨h1, h2, fun i a ha => ?_⟩
  by_cases hi : i = k
  · subst hi
    rw [hk] at ha
    have hac : c = a := Option.some.inj ha
    subst hac
    exact ⟨d, hd, gt_keeps_of_gt c d ht hg⟩
  · exact ⟨a, (h3 i hi).trans ha, gt_keeps_refl a⟩

/-- What fold_inverter keeps when it is called on a transceiver cell. -/
theorem fold_inverter_gt (k : Nat) (s t : Packer) (c : CellInfo) (port : String)
    (hk : s.cells.get? k = some c) (hg : gt_type c.type)
    (h : fold_inverter s (CellRef.live k) port = .ok t) :
    gt_le s t ∧ gt_frame k s t ∧
    ∃ c0, t.cells.get? k = some c0 ∧ c0.type = c.type ∧
      (∀ q, q ≠ port → dict_find c0.ports q = dict_find c.ports q) ∧
      ((c.ports.map (fun e => e.1)).Nodup → (c0.ports.map (fun e => e.1)).Nodup) := by
  obtain ⟨_, c0, h0, h1, _, _, h4, _, h6, _, _⟩ := fold_inverter_cell k s t c port hk h
  have hf := fold_inverter_frame k s t port h
  exact ⟨gt_le_of_same_but k s t c c0 hf hk h0 h1 hg,
    fun i _ hi hc _ => (hf.2.2 i hi).trans hc, c0, h0, h1, h4, h6⟩

theorem fold_inverters_gt (k : Nat) :
    ∀ (L : List String) (s t : Packer) (c : CellInfo), s.cells.get? k = some c →
      gt_type c.type → fold_inverters (CellRef.live k) L s = .ok t →
      gt_le s t ∧ gt_frame k s t ∧ ∃ c0, t.cells.get? k = some c0 ∧ c0.type = c.type := by
  intro L
  induction L with
  | nil =>
    intro s t c hk _ h
    simp only [fold_inverters, pure, Except.pure, Except.ok.injEq] at h
    subst h
    exact ⟨gt_le_refl _, gt_frame_refl _ _, c, hk, rfl⟩
  | cons p rest ih =>
    intro s t c hk hg h
    simp only [fold_inverters] at h
    obtain ⟨s1, h1, h2⟩ := except_bind_ok _ _ t h
    obtain ⟨l1, f1, c1, hk1, t1, _, _⟩ := fold_inverter_gt k s s1 c p hk hg h1
    obtain ⟨l2, f2, c2, hk2, t2⟩ := ih s1 t c1 hk1 (by rw [t1]; exact hg) h2
    exact ⟨gt_le_trans _ _ _ l1 l2, gt_frame_trans k _ _ _ f1 f2, c2, hk2, t2.trans t1⟩

/-- The branch of pack_gt for a common cell: the folds, which leave the ports
other than the folded clocks as they were, then the loop over the ports, then the
parameter _BOTH_GTREFCLK_USED. -/
theorem pack_gt_common_spec (k : Nat) (s t : Packer) (c : CellInfo)
    (hk : s.cells.get? k = some c) (hg : gt_type c.type)
    (h : pack_gt_common k s = .ok t) :
    ∃ s2 c2 st e, gt_le s s2 ∧ gt_frame k s s2 ∧ s2.cells.get? k = some c2 ∧
      c2.type = c.type ∧
      (∀ q, q ≠ "DRPCLK" → q ≠ "PLL0LOCKDETCLK" → q ≠ "PLL1LOCKDETCLK" →
        q ≠ "QPLLLOCKDETCLK" → dict_find c2.ports q = dict_find c.ports q) ∧
      ((c.ports.map (fun x => x.1)).Nodup → (c2.ports.map (fun x => x.1)).Nodup) ∧
      ports_loop (fun p x => port_present k p x.1)
        (pack_gt_common_port (decide (c.type = "GTPE2_COMMON")) k)
        (c2.ports.map (fun x => x.1)) (s2, false, false) = .ok st ∧
      st.1.cells.get? k = some e ∧
      t = set_cell st.1 (CellRef.live k)
        (setParam e "_BOTH_GTREFCLK_USED" (Property.of_bool (st.2.1 && st.2.2))) := by
  unfold pack_gt_common at h
  obtain ⟨ci, hci, g1⟩ := except_bind_ok _ _ t h
  clear h
  rw [deref_live s k c hk] at hci
  have hcc : c = ci := Except.ok.inj hci
  subst hcc
  clear hci
  simp only at g1
  obtain ⟨s1, h1, g2⟩ := except_bind_ok _ _ t g1
  clear g1
  obtain ⟨l1, f1, c1, hk1, t1, p1, n1⟩ := fold_inverter_gt k s s1 c _ hk hg h1
  obtain ⟨s2, h2, g3⟩ := except_bind_ok _ _ t g2
  clear g2
  have hs2 : ∃ c2, gt_le s1 s2 ∧ gt_frame k s1 s2 ∧ s2.cells.get? k = some c2 ∧
      c2.type = c1.type ∧
      (∀ q, q ≠ "PLL0LOCKDETCLK" → q ≠ "PLL1LOCKDETCLK" → q ≠ "QPLLLOCKDETCLK" →
        dict_find c2.ports q = dict_find c1.ports q) ∧
      ((c1.ports.map (fun x => x.1)).Nodup → (c2.ports.map (fun x => x.1)).Nodup) := by
    have hg1 : gt_type c1.type := by rw [t1]; exact hg
    split_ifs at h2
    · obtain ⟨s3, h3, h4⟩ := except_bind_ok _ _ s2 h2
      obtain ⟨l3, f3, c3, hk3, t3, p3, n3⟩ := fold_inverter_gt k s1 s3 c1 _ hk1 hg1 h3
      obtain ⟨l4, f4, c4, hk4, t4, p4, n4⟩ :=
        fold_inverter_gt k s3 s2 c3 _ hk3 (by rw [t3]; exact hg1) h4
      exact ⟨c4, gt_le_trans _ _ _ l3 l4, gt_frame_trans k _ _ _ f3 f4, hk4, t4.trans t3,
        fun q a b _ => (p4 q b).trans (p3 q a), fun hx => n4 (n3 hx)⟩
    · obtain ⟨l3, f3, c3, hk3, t3, p3, n3⟩ := fold_inverter_gt k s1 s2 c1 _ hk1 hg1 h2
      exact ⟨c3, l3, f3, hk3, t3, fun q _ _ a => p3 q a, n3⟩
  obtain ⟨c2, l2, f2, hk2, t2, p2, n2⟩ := hs2
  clear h2
  obtain ⟨c0, hc0, g4⟩ := except_bind_ok _ _ t g3
  clear g3
  rw [deref_live s2 k c2 hk2] at hc0
  have hcc : c2 = c0 := Except.ok.inj hc0
  subst hcc
  clear hc0
  obtain ⟨st, hl, g5⟩ := except_bind_ok _ _ t g4
  obtain ⟨e, he, g6⟩ := except_bind_ok _ _ t g5
  simp only [pure, Except.pure, Except.ok.injEq] at g6
  exact ⟨s2, c2, st, e, gt_le_trans _ _ _ l1 l2, gt_frame_trans k _ _ _ f1 f2, hk2,
    t2.trans t1, fun q a b d e1 => (p2 q b d e1).trans (p1 q a), fun hx => n2 (n1 hx), hl,
    deref_live_ok _ _ _ he, g6.symm⟩

theorem channel_clock_port_cell (s : Packer) (ct : IdString) (ci : CellInfo) (q : IdString)
    (net : NetId) (step : CellInfo × Bool) (h : channel_clock_port s ct ci q net = .ok step) :
    step.1 = disconnect_port ci q := by
  unfold channel_clock_port at h
  split_ifs at h
  · cases h; rfl
  · cases hd : driver_of s net with
    | none => rw [hd] at h; cases h
    | some drv =>
      rw [hd] at h
      simp only at h
      split_ifs at h
      cases h
      rfl

theorem gt_store_after (s : Packer) (k : Nat) (c d : CellInfo)
    (hk : s.cells.get? k = some c) (hb : c.type ≠ "IBUFDS_GTE2") (ht : d.type = c.type)
    (hd : ∀ n, drives n d = true → drives n c = true) :
    gt_le s (set_cell s (CellRef.live k) d) ∧ gt_frame k s (set_cell s (CellRef.live k) d) ∧
    ∃ e, (set_cell s (CellRef.live k) d).cells.get? k = some e ∧ e.type = c.type :=
  ⟨gt_le_set_cell s k c d hk (gt_keeps_of_ports c d ht hb hd), gt_frame_set_cell k s d,
    d, get_set_cell s k c d hk, ht⟩

/-- What one turn of the loop over the ports of a channel cell keeps. -/
theorem channel_port_step (ct : IdString) (k : Nat) (q : IdString) (s t : Packer)
    (c : CellInfo) (hk : s.cells.get? k = some c) (hb : c.type ≠ "IBUFDS_GTE2")
    (h : pack_gt_channel_port ct k q s = .ok t) :
    gt_le s t ∧ gt_frame k s t ∧ ∃ e, t.cells.get? k = some e ∧ e.type = c.type := by
  unfold pack_gt_channel_port at h
  obtain ⟨ci, hci, g1⟩ := except_bind_ok _ _ t h
  clear h
  rw [deref_live s k c hk] at hci
  have hcc : c = ci := Except.ok.inj hci
  subst hcc
  clear hci
  cases hf : dict_find c.ports q with
  | none =>
    rw [hf] at g1
    cases g1
  | some port =>
    rw [hf] at g1
    simp only at g1
    obtain ⟨step, hstep, g2⟩ := except_bind_ok _ _ t g1
    clear g1
    have hs1 : step.1.type = c.type ∧ ∀ n, drives n step.1 = true → drives n c = true := by
      cases hn : port.net with
      | none =>
        rw [hn] at hstep
        cases hstep
        exact ⟨rfl, fun _ hx => hx⟩
      | some net =>
        rw [hn] at hstep
        simp only at hstep
        split_ifs at hstep
        · rw [channel_clock_port_cell s ct c q net step hstep]
          exact ⟨(disconnect_port_frame c q).1, fun n hx => drives_disconnect_port n c q hx⟩
        · cases hstep
          exact ⟨rfl, fun _ hx => hx⟩
    obtain ⟨hty, hdr⟩ := hs1
    split_ifs at g2
    · cases g2
      exact gt_store_after s k c _ hk hb hty hdr
    · cases g2
      exact gt_store_after s k c _ hk hb
        ((rename_port_frame step.1 q _).1.trans hty)
        (fun n hx => hdr n (drives_rename_port n step.1 q _ hx))
    · cases g2
      exact gt_store_after s k c _ hk hb hty hdr

theorem channel_ports_loop (ct : IdString) (k : Nat) :
    ∀ (L : List IdString) (s t : Packer) (c : CellInfo),
      s.cells.get? k = some c → c.type ≠ "IBUFDS_GTE2" →
      ports_loop (port_present k) (pack_gt_channel_port ct k) L s = .ok t →
      gt_le s t ∧ gt_frame k s t ∧ ∃ e, t.cells.get? k = some e ∧ e.type = c.type := by
  intro L
  induction L with
  | nil =>
    intro s t c hk _ h
    simp only [ports_loop, pure, Except.pure, Except.ok.injEq] at h
    subst h
    exact ⟨gt_le_refl _, gt_frame_refl _ _, c, hk, rfl⟩
  | cons q rest ih =>
    intro s t c hk hb h
    obtain ⟨sm, hm, _, h2⟩ := ports_loop_cons_ok _ _ q rest s t h
    obtain ⟨l1, f1, e1, he1, t1⟩ := channel_port_step ct k q s sm c hk hb hm
    obtain ⟨l2, f2, e2, he2, t2⟩ := ih sm t e1 he1 (by rw [t1]; exact hb) h2
    exact ⟨gt_le_trans _ _ _ l1 l2, gt_frame_trans k _ _ _ f1 f2, e2, he2, t2.trans t1⟩

/-- What the body of the loop of pack_gt keeps. -/
theorem pack_gt_cell_step (j : Nat) (s t : Packer)
    (hok : refclk_buffers_ok s) (h : pack_gt_cell j s = .ok t) :
    gt_le s t ∧ gt_frame j s t := by
  unfold pack_gt_cell at h
  obtain ⟨ci, hci, g1⟩ := except_bind_ok _ _ t h
  clear h
  have hk := deref_live_ok s j ci hci
  have hchan : ∀ ct, gt_type ci.type → pack_gt_channel ct j s = .ok t →
      gt_le s t ∧ gt_frame j s t := by
    intro ct hg hx
    unfold pack_gt_channel at hx
    obtain ⟨s1, h1, g2⟩ := except_bind_ok _ _ t hx
    obtain ⟨l1, f1, c1, hk1, t1⟩ := fold_inverters_gt j channel_clocks s s1 ci hk hg h1
    obtain ⟨c0, hc0, g3⟩ := except_bind_ok _ _ t g2
    obtain ⟨l, f, _⟩ := channel_ports_loop ct j _ s1 t c1 hk1
      (by rw [t1]; exact (gt_type_ne ci.type hg).1) g3
    exact ⟨gt_le_trans _ _ _ l1 l, gt_frame_trans j _ _ _ f1 f⟩
  split_ifs at g1 with ht ht1 ht2
  · have hg : gt_type ci.type := by
      rcases ht with r | r
      · exact Or.inl r
      · exact Or.inr (Or.inl r)
    have hb : ci.type ≠ "IBUFDS_GTE2" := (gt_type_ne ci.type hg).1
    obtain ⟨s2, c2, st, e, la, fa, hk2, t2, _, _, hl, he, hst⟩ :=
      pack_gt_common_spec j s t ci hk hg g1
    obtain ⟨l1, f1, e1, he1, t1, _, _⟩ :=
      common_ports_loop _ j _ (s2, false, false) st c2 hk2 (by rw [t2]; exact hb)
        (refclk_buffers_ok_le s s2 la hok) hl
    rw [he] at he1
    have hee : e = e1 := Option.some.inj he1
    subst hee
    subst hst
    exact ⟨gt_le_trans s s2 _ la (gt_le_trans s2 st.1 _ l1 (gt_le_set_cell st.1 j e _ he
        (gt_keeps_of_ports e _ rfl (by rw [t1, t2]; exact hb) (fun _ hx => hx)))),
      gt_frame_trans j s s2 _ fa
        (gt_frame_trans j s2 st.1 _ f1 (gt_frame_set_cell j st.1 _))⟩
  · exact hchan _ (Or.inr (Or.inr (Or.inl ht1))) g1
  · exact hchan _ (Or.inr (Or.inr (Or.inr ht2))) g1
  · cases g1
    exact ⟨gt_le_refl _, gt_frame_refl _ _⟩

theorem pack_gt_loop_append :
    ∀ (A B : List Nat) (s : Packer),
      pack_gt_loop (A ++ B) s = (pack_gt_loop A s >>= pack_gt_loop B) := by
  intro A
  induction A with
  | nil => intro B s; rfl
  | cons a rest ih =>
    intro B s
    simp only [List.cons_append, pack_gt_loop]
    cases pack_gt_cell a s with
    | error e => rfl
    | ok s1 => exact ih B s1

/-- The loop of pack_gt leaves alone every cell it does not visit, the buffers
apart. -/
theorem pack_gt_loop_le :
    ∀ (L : List Nat) (s t : Packer), refclk_buffers_ok s →
      pack_gt_loop L s = .ok t →
      gt_le s t ∧ ∀ i c, i ∉ L → s.cells.get? i = some c → c.type ≠ "IBUFDS_GTE2" →
        t.cells.get? i = some c := by
  intro L
  induction L with
  | nil =>
    intro s t _ h
    simp only [pack_gt_loop, pure, Except.pure, Except.ok.injEq] at h
    subst h
    exact ⟨gt_le_refl _, fun _ _ _ hc _ => hc⟩
  | cons j rest ih =>
    intro s t hok h
    simp only [pack_gt_loop] at h
    obtain ⟨s1, h1, h2⟩ := except_bind_ok _ _ t h
    obtain ⟨l1, f1⟩ := pack_gt_cell_step j s s1 hok h1
    obtain ⟨l2, f2⟩ := ih s1 t (refclk_buffers_ok_le s s1 l1 hok) h2
    refine ⟨gt_le_trans _ _ _ l1 l2, fun i c hi hc hb => ?_⟩
    simp only [List.mem_cons, not_or] at hi
    exact f2 i c hi.2 (f1 i c hi.1 hc hb) hb

theorem gtrefclk_ne (p : IdString) (hs : starts_with p "GTREFCLK" = true) :
    p ≠ "GTGREFCLK0" ∧ p ≠ "GTGREFCLK" ∧ p ≠ "DRPCLK" ∧ p ≠ "PLL0LOCKDETCLK" ∧
    p ≠ "PLL1LOCKDETCLK" ∧ p ≠ "QPLLLOCKDETCLK" := by
  refine ⟨?_, ?_, ?_, ?_, ?_, ?_⟩ <;>
  · intro hx
    rw [hx] at hs
    exact absurd hs (by decide)

/-- The turn of the loop for a reference clock on a net fails when the driver of
the net is a transceiver cell. -/
theorem common_port_driver (is_gtp : Bool) (k : Nat) (p : IdString) (port : PortInfo)
    (n : NetId) (x : CellRef × CellInfo) (st st1 : Packer × Bool × Bool) (c : CellInfo)
    (hk : st.1.cells.get? k = some c)
    (hp : dict_find c.ports p = some port) (hs : starts_with p "GTREFCLK" = true)
    (hn : port.net = some n) (hd : driver_of st.1 n = some x)
    (h : pack_gt_common_port is_gtp k p st = .ok st1) : ¬ gt_type x.2.type := by
  intro hg
  obtain ⟨g1, g2⟩ := gt_type_ne x.2.type hg
  have hq : p ≠ "DRPCLK" := (gtrefclk_ne p hs).2.2.1
  unfold pack_gt_common_port at h
  simp only [deref_live st.1 k c hk, bind, Except.bind, hp, if_neg hq, hs, if_true, hn, hd,
    ne_eq, g1, g2, not_false_eq_true] at h
  cases h

/-- The branch of pack_gt for a common cell, on a reference clock that a buffer
drives through a net in use. -/
theorem pack_gt_common_refclk (k : Nat) (s0 sa sb : Packer) (ci : CellInfo) (p : IdString)
    (port : PortInfo) (n : NetId) (drv : CellRef × CellInfo) (rel : Int)
    (hle0 : gt_le s0 sa)
    (hk : sa.cells.get? k = some ci) (hg : gt_type ci.type)
    (hok : refclk_buffers_ok sa)
    (hnd : (ci.ports.map (fun e => e.1)).Nodup)
    (hp : dict_find ci.ports p = some port) (hs : starts_with p "GTREFCLK" = true)
    (hn : port.net = some n)
    (hd : driver_of s0 n = some drv) (ht : drv.2.type = "IBUFDS_GTE2")
    (hrel : rel_buf_y drv.2 = .ok rel)
    (h : pack_gt_common k sa = .ok sb) :
    ∃ e, sb.cells.get? k = some e ∧ e.type = ci.type ∧ get_net_or_empty e p = none ∧
      (rel = 1 → dict_find e.params "_GTREFCLK1_USED" = some (Property.of_int 1 1)) ∧
      (rel ≠ 1 → dict_find e.params "_GTREFCLK0_USED" = some (Property.of_int 1 1)) := by
  have hb : ci.type ≠ "IBUFDS_GTE2" := (gt_type_ne ci.type hg).1
  obtain ⟨g1, g2, g3, g4, g5, g6⟩ := gtrefclk_ne p hs
  obtain ⟨s2, c2, st, e, l0, _, hk2, t0, p0, n0, hl, he, hsb⟩ :=
    pack_gt_common_spec k sa sb ci hk hg h
  have hp2 : dict_find c2.ports p = some port := (p0 p g3 g4 g5 g6).trans hp
  have hnd2 := n0 hnd
  have hb2c : c2.type ≠ "IBUFDS_GTE2" := by rw [t0]; exact hb
  have hok2 := refclk_buffers_ok_le sa s2 l0 hok
  obtain ⟨P1, P2, hsplit⟩ := List.append_of_mem (mem_keys_of_find c2.ports p port hp2)
  rw [hsplit] at hnd2 hl
  have hp1 : p ∉ P1 := by
    intro hx
    exact (List.nodup_append.mp hnd2).2.2 hx (List.mem_cons_self p P2)
  have hpp2 : p ∉ P2 := (List.nodup_cons.mp (List.nodup_append.mp hnd2).2.1).1
  rw [ports_loop_append] at hl
  obtain ⟨sta, hla, hl2⟩ := except_bind_ok _ _ st hl
  obtain ⟨stb, hlb, _, hlc⟩ := ports_loop_cons_ok _ _ p P2 sta st hl2
  obtain ⟨l1, _, e1, he1, t1, q1, _⟩ :=
    common_ports_loop _ k P1 (s2, false, false) sta c2 hk2 hb2c hok2 hla
  have l1a : gt_le sa sta.1 := gt_le_trans sa s2 sta.1 l0 l1
  have hpa : dict_find e1.ports p = some port := (q1 p hp1 g1 g2).trans hp2
  obtain ⟨x, hd1, hx⟩ := driver_of_gt_le s0 sta.1 n drv (gt_le_trans s0 sa sta.1 hle0 l1a) hd ht
  have hxb : x.2.type = "IBUFDS_GTE2" ∧ rel_buf_y x.2 = rel_buf_y drv.2 := by
    rcases hx with r | r
    · exact absurd r (common_port_driver _ k p port n x sta stb e1 he1 hpa hs hn hd1 hlb)
    · exact r
  have hoka := refclk_buffers_ok_le sa sta.1 l1a hok
  have hua : port_used sta.1 (some n) = true := buffer_net_used sta.1 n x hoka hd1 hxb.1
  have hb1 : e1.type ≠ "IBUFDS_GTE2" := by rw [t1]; exact hb2c
  obtain ⟨l2, _, e2, he2, t2, hnet, hr1, hr0⟩ :=
    common_port_at _ k p port n x rel sta stb e1 he1 hb1 hpa hs hn hua hd1
      hxb.1 (hxb.2.trans hrel) hlb
  have hb2 : e2.type ≠ "IBUFDS_GTE2" := by rw [t2]; exact hb1
  obtain ⟨_, _, e3, he3, t3, q3, r3⟩ :=
    common_ports_loop _ k P2 stb st e2 he2 hb2 (refclk_buffers_ok_le sta.1 stb.1 l2 hoka) hlc
  rw [he] at he3
  have hee : e = e3 := Option.some.inj he3
  subst hee
  subst hsb
  refine ⟨_, get_set_cell st.1 k e _ he, t3.trans (t2.trans (t1.trans t0)), ?_, ?_, ?_⟩
  · have hx : dict_find e.ports p = dict_find e2.ports p := q3 p hpp2 g1 g2
    unfold get_net_or_empty at hnet ⊢
    simp only [setParam]
    rw [hx]
    exact hnet
  · intro hr
    rw [setParam_find e _ _ _ (by decide)]
    exact r3 _ (Or.inr rfl) (hr1 hr)
  · intro hr
    rw [setParam_find e _ _ _ (by decide)]
    exact r3 _ (Or.inl rfl) (hr0 hr)

/-- C20: in a design where no IBUFDS_GTE2 cell drives a constant net, for a
GTPE2_COMMON or GTXE2_COMMON cell with distinct port names that pack_gt visits
once and a port of it whose name starts with GTREFCLK, on a net whose driver is
an IBUFDS_GTE2 cell that records the relative row `rel` in _REL_BUF_Y: whenever
pack_gt returns, the port is on no net, the cell carries _GTREFCLK1_USED = 1 (one
bit) when `rel` is 1, and it carries _GTREFCLK0_USED = 1 (one bit) when `rel` is
anything else, 0 in particular. The design may hold inverters, which pack_gt
folds into other ports. -/
theorem pack_gt_refclk (order : List Nat) (s r : Packer) (k : Nat) (ci : CellInfo)
    (p : IdString) (port : PortInfo) (n : NetId) (drv : CellRef × CellInfo) (rel : Int)
    (hord : order.Nodup) (hko : k ∈ order)
    (hok : refclk_buffers_ok s)
    (hk : s.cells.get? k = some ci)
    (ht : ci.type = "GTPE2_COMMON" ∨ ci.type = "GTXE2_COMMON")
    (hnd : (ci.ports.map (fun e => e.1)).Nodup)
    (hp : dict_find ci.ports p = some port) (hs : starts_with p "GTREFCLK" = true)
    (hn : port.net = some n)
    (hd : driver_of s n = some drv) (hdt : drv.2.type = "IBUFDS_GTE2")
    (hrel : rel_buf_y drv.2 = .ok rel)
    (h : pack_gt order s = .ok r) :
    ∃ c, r.cells.get? k = some c ∧ get_net_or_empty c p = none ∧
      (rel = 1 → dict_find c.params "_GTREFCLK1_USED" = some (Property.of_int 1 1)) ∧
      (rel ≠ 1 → dict_find c.params "_GTREFCLK0_USED" = some (Property.of_int 1 1)) := by
  have hg : gt_type ci.type := by
    rcases ht with x | x
    · exact Or.inl x
    · exact Or.inr (Or.inl x)
  have hb : ci.type ≠ "IBUFDS_GTE2" := (gt_type_ne ci.type hg).1
  obtain ⟨A, B, hsplit⟩ := List.append_of_mem hko
  rw [hsplit] at hord
  have hkA : k ∉ A := fun hx =>
    (List.nodup_append.mp hord).2.2 hx (List.mem_cons_self k B)
  have hkB : k ∉ B := (List.nodup_cons.mp (List.nodup_append.mp hord).2.1).1
  unfold pack_gt at h
  rw [hsplit, pack_gt_loop_append] at h
  obtain ⟨sa, ha, h2⟩ := except_bind_ok _ _ r h
  simp only [pack_gt_loop] at h2
  obtain ⟨sb, hb1, hb2⟩ := except_bind_ok _ _ r h2
  obtain ⟨la, fa⟩ := pack_gt_loop_le A s sa hok ha
  have hka : sa.cells.get? k = some ci := fa k ci hkA hk hb
  have hoka := refclk_buffers_ok_le s sa la hok
  have hcom : pack_gt_common k sa = .ok sb := by
    unfold pack_gt_cell at hb1
    rw [deref_live sa k ci hka] at hb1
    simp only [bind, Except.bind, ht, if_true] at hb1
    exact hb1
  obtain ⟨e, he, te, hnet, r1, r0⟩ :=
    pack_gt_common_refclk k s sa sb ci p port n drv rel la hka hg hoka hnd hp hs hn hd hdt hrel
      hcom
  obtain ⟨lb, _⟩ := pack_gt_cell_step k sa sb hoka hb1
  obtain ⟨_, fb⟩ := pack_gt_loop_le B sb r (refclk_buffers_ok_le sa sb lb hoka) hb2
  exact ⟨e, fb k e hkB he (by rw [te]; exact hb), hnet, r1, r0⟩

theorem gt_design_ok (rel : Int) : refclk_buffers_ok (gt_design rel) := by
  intro c hc ht n hdr
  simp only [gt_design, List.mem_cons, List.mem_singleton, List.not_mem_nil, or_false] at hc
  rcases hc with x | x
  · subst x
    have hdr2 : ((PortType.PORT_OUT == PortType.PORT_OUT &&
        (some 2 : Option NetId) == some n) || false) = true := hdr
    have hn : 2 = n := by simpa using hdr2
    subst hn
    rfl
  · subst x
    exact absurd ht (by decide)

set_option maxRecDepth 100000 in
theorem pack_gt_refclk_witness :
    ∃ r, pack_gt [0, 1] (gt_design 1) = .ok r ∧
      ∃ c, r.cells.get? 1 = some c ∧ get_net_or_empty c "GTREFCLK0" = none ∧
        (dict_find c.params "_GTREFCLK1_USED" = some (Property.of_int 1 1)) :=
  ⟨_, rfl, (pack_gt_refclk [0, 1] (gt_design 1) _ 1 gtp_common_cell "GTREFCLK0"
    (sink "GTREFCLK0" (some 2)).2 2 (CellRef.live 0, ibufds_cell 1) 1 (by decide) (by decide)
    (gt_design_ok 1) rfl (Or.inl rfl) (by decide) rfl rfl rfl
    rfl rfl rfl rfl).elim (fun c hc => ⟨c, hc.1, hc.2.1, hc.2.2.1 rfl⟩)⟩

/-! ### pack_gt: the cells a turn of the loop leaves alone -/

theorem gt_frame_of_same_but (j : Nat) (s t : Packer) (h : same_but j s t) : gt_frame j s t :=
  fun i _ hi hc _ => (h.2.2 i hi).trans hc

theorem refclk_by_buffer_frame (k : Nat) (q : IdString) (n : NetId) (drv : CellRef × CellInfo)
    (st st1 : Packer × Bool × Bool)
    (hd : driver_of st.1 n = some drv) (ht : drv.2.type = "IBUFDS_GTE2")
    (h : refclk_by_buffer k q drv st = .ok st1) : gt_frame k st.1 st1.1 := by
  obtain ⟨m, h1, h2, _, _⟩ := driver_of_loop_spec n st.1.cells 0 drv hd
  rw [Nat.zero_add] at h1
  unfold refclk_by_buffer at h
  rw [h1] at h
  obtain ⟨rel, _, g1⟩ := except_bind_ok _ _ st1 h
  obtain ⟨c0, _, g2⟩ := except_bind_ok _ _ st1 g1
  have hf := gt_frame_set_buffer k m st.1 drv.2 (touch_rel_buf_y drv.2) h2 ht
  split_ifs at g2 <;> cases g2 <;>
    exact gt_frame_trans k _ _ _ hf (gt_frame_set_cell k _ _)

theorem common_port_frame (is_gtp : Bool) (k : Nat) (q : IdString)
    (st st1 : Packer × Bool × Bool) (h : pack_gt_common_port is_gtp k q st = .ok st1) :
    gt_frame k st.1 st1.1 := by
  unfold pack_gt_common_port at h
  obtain ⟨c, _, g1⟩ := except_bind_ok _ _ st1 h
  clear h
  cases hf : dict_find c.ports q with
  | none =>
    rw [hf] at g1
    cases g1
  | some port =>
    rw [hf] at g1
    simp only at g1
    by_cases hq : q = "DRPCLK"
    · rw [if_pos hq] at g1
      cases g1
      exact gt_frame_set_cell k _ _
    · rw [if_neg hq] at g1
      by_cases hs : starts_with q "GTREFCLK" = true
      · rw [if_pos hs] at g1
        cases hn : port.net with
        | none => rw [hn] at g1; cases g1
        | some n =>
          rw [hn] at g1
          simp only at g1
          cases hd : driver_of st.1 n with
          | none => rw [hd] at g1; cases g1
          | some drv =>
            rw [hd] at g1
            simp only at g1
            by_cases ht : drv.2.type = "IBUFDS_GTE2"
            · rw [if_neg (not_not.mpr ht)] at g1
              by_cases hu : port_used st.1 (some n) = true
              · rw [if_pos hu] at g1
                exact refclk_by_buffer_frame k q n drv st st1 hd ht g1
              · rw [if_neg hu] at g1
                split_ifs at g1 <;> cases g1 <;> exact gt_frame_set_cell k _ _
            · rw [if_pos ht] at g1
              by_cases ht2 : drv.2.type = "BUFGCTRL"
              · rw [if_neg (not_not.mpr ht2)] at g1
                cases g1
                exact gt_frame_set_cell k _ _
              · rw [if_pos ht2] at g1
                cases g1
      · rw [if_neg hs] at g1
        cases g1
        exact gt_frame_refl _ _

theorem ports_loop_frame {σ : Type} (present : IdString → σ → Bool)
    (body : IdString → σ → Except String σ) (proj : σ → Packer)
    (k : Nat) (hstep : ∀ q a b, body q a = .ok b → gt_frame k (proj a) (proj b)) :
    ∀ (L : List IdString) (a b : σ), ports_loop present body L a = .ok b →
      gt_frame k (proj a) (proj b) := by
  intro L
  induction L with
  | nil =>
    intro a b h
    simp only [ports_loop, pure, Except.pure, Except.ok.injEq] at h
    subst h
    exact gt_frame_refl _ _
  | cons q rest ih =>
    intro a b h
    obtain ⟨m, hm, _, h2⟩ := ports_loop_cons_ok _ _ q rest a b h
    exact gt_frame_trans k _ _ _ (hstep q a m hm) (ih m b h2)

theorem channel_port_frame (ct : IdString) (k : Nat) (q : IdString) (s t : Packer)
    (h : pack_gt_channel_port ct k q s = .ok t) : gt_frame k s t := by
  unfold pack_gt_channel_port at h
  obtain ⟨c, _, g1⟩ := except_bind_ok _ _ t h
  clear h
  cases hf : dict_find c.ports q with
  | none =>
    rw [hf] at g1
    cases g1
  | some port =>
    rw [hf] at g1
    simp only at g1
    obtain ⟨step, _, g2⟩ := except_bind_ok _ _ t g1
    split_ifs at g2 <;> cases g2 <;> exact gt_frame_set_cell k _ _

theorem fold_inverters_frame (k : Nat) :
    ∀ (L : List String) (s t : Packer), fold_inverters (CellRef.live k) L s = .ok t →
      same_but k s t := by
  intro L
  induction L with
  | nil =>
    intro s t h
    simp only [fold_inverters, pure, Except.pure, Except.ok.injEq] at h
    subst h
    exact same_but_refl k s
  | cons p rest ih =>
    intro s t h
    simp only [fold_inverters] at h
    obtain ⟨s1, h1, h2⟩ := except_bind_ok _ _ t h
    exact same_but_trans k s s1 t (fold_inverter_frame k s s1 p h1) (ih s1 t h2)

/-- The body of the loop of pack_gt changes the cell it visits and the buffers,
nothing else. -/
theorem pack_gt_cell_frame (j : Nat) (s t : Packer) (h : pack_gt_cell j s = .ok t) :
    gt_frame j s t := by
  unfold pack_gt_cell at h
  obtain ⟨ci, _, g1⟩ := except_bind_ok _ _ t h
  clear h
  have hchan : ∀ ct, pack_gt_channel ct j s = .ok t → gt_frame j s t := by
    intro ct hx
    unfold pack_gt_channel at hx
    obtain ⟨s1, h1, g2⟩ := except_bind_ok _ _ t hx
    obtain ⟨c0, _, g3⟩ := except_bind_ok _ _ t g2
    exact gt_frame_trans j s s1 t
      (gt_frame_of_same_but j s s1 (fold_inverters_frame j _ s s1 h1))
      (ports_loop_frame (port_present j) (pack_gt_channel_port ct j) (fun x => x) j
        (fun q a b hab => channel_port_frame ct j q a b hab) _ s1 t g3)
  split_ifs at g1
  · unfold pack_gt_common at g1
    obtain ⟨c, _, g2⟩ := except_bind_ok _ _ t g1
    clear g1
    simp only at g2
    obtain ⟨s1, h1, g3⟩ := except_bind_ok _ _ t g2
    clear g2
    obtain ⟨s2, h2, g4⟩ := except_bind_ok _ _ t g3
    clear g3
    obtain ⟨c0, _, g5⟩ := except_bind_ok _ _ t g4
    clear g4
    obtain ⟨st, hl, g6⟩ := except_bind_ok _ _ t g5
    clear g5
    obtain ⟨e, _, g7⟩ := except_bind_ok _ _ t g6
    clear g6
    cases g7
    have f1 := gt_frame_of_same_but j s s1 (fold_inverter_frame j s s1 _ h1)
    have f2 : gt_frame j s1 s2 := by
      split_ifs at h2
      · obtain ⟨s3, h3, h4⟩ := except_bind_ok _ _ s2 h2
        exact gt_frame_trans j s1 s3 s2
          (gt_frame_of_same_but j s1 s3 (fold_inverter_frame j s1 s3 _ h3))
          (gt_frame_of_same_but j s3 s2 (fold_inverter_frame j s3 s2 _ h4))
      · exact gt_frame_of_same_but j s1 s2 (fold_inverter_frame j s1 s2 _ h2)
    have f3 := ports_loop_frame (fun p x => port_present j p x.1) (pack_gt_common_port _ j)
      (fun x => x.1) j
      (fun q a b hab => common_port_frame _ j q a b hab) _ (s2, false, false) st hl
    exact gt_frame_trans j s s1 _ f1 (gt_frame_trans j s1 s2 _ f2
      (gt_frame_trans j s2 st.1 _ f3 (gt_frame_set_cell j st.1 _)))
  · exact hchan _ g1
  · exact hchan _ g1
  · cases g1
    exact gt_frame_refl _ _

theorem pack_gt_loop_frame :
    ∀ (L : List Nat) (s t : Packer), pack_gt_loop L s = .ok t →
      ∀ i c, i ∉ L → s.cells.get? i = some c → c.type ≠ "IBUFDS_GTE2" →
        t.cells.get? i = some c := by
  intro L
  induction L with
  | nil =>
    intro s t h
    simp only [pack_gt_loop, pure, Except.pure, Except.ok.injEq] at h
    subst h
    exact fun _ _ _ hc _ => hc
  | cons j rest ih =>
    intro s t h i c hi hc hb
    simp only [pack_gt_loop] at h
    obtain ⟨s1, h1, h2⟩ := except_bind_ok _ _ t h
    simp only [List.mem_cons, not_or] at hi
    exact ih s1 t h2 i c hi.2 (pack_gt_cell_frame j s s1 h1 i c hi.1 hc hb) hb

/-! ### pack_gt: the flags of the reference clocks -/

theorem refclk_true_setParam_ne (c : CellInfo) (key q : IdString) (v : Property) (h : q ≠ key) :
    refclk_true (setParam c key v) q ↔ refclk_true c q := by
  unfold refclk_true
  rw [setParam_find c key q v h]

theorem refclk_true_setParam_self (c : CellInfo) (key : IdString) (v : Property) :
    refclk_true (setParam c key v) key ↔ v.intval = 1 := by
  unfold refclk_true
  rw [setParam_self]
  constructor
  · rintro ⟨w, hw, h1⟩
    cases hw
    exact h1
  · intro h1
    exact ⟨v, rfl, h1⟩

theorem refclk_true_params (c d : CellInfo) (q : IdString) (h : d.params = c.params) :
    refclk_true d q ↔ refclk_true c q := by
  unfold refclk_true
  rw [h]

theorem of_bool_intval (b : Bool) : (Property.of_bool b).intval = 1 ↔ b = true := by
  cases b <;> simp [Property.of_bool, Property.of_int]

/-- A store into the cell of index `k` that keeps the link between each flag
and its parameter. -/
theorem flags_result (s1 : Packer) (k : Nat) (c d : CellInfo) (f0 f1 g0 g1 : Bool)
    (st1 : Packer × Bool × Bool) (hk : s1.cells.get? k = some c) (ht : d.type = c.type)
    (h0 : (f0 = true ↔ refclk_true c "_GTREFCLK0_USED") →
      (g0 = true ↔ refclk_true d "_GTREFCLK0_USED"))
    (h1 : (f1 = true ↔ refclk_true c "_GTREFCLK1_USED") →
      (g1 = true ↔ refclk_true d "_GTREFCLK1_USED"))
    (h : (set_cell s1 (CellRef.live k) d, g0, g1) = st1) :
    ∃ e, st1.1.cells.get? k = some e ∧ e.type = c.type ∧
      ((f0 = true ↔ refclk_true c "_GTREFCLK0_USED") →
        (st1.2.1 = true ↔ refclk_true e "_GTREFCLK0_USED")) ∧
      ((f1 = true ↔ refclk_true c "_GTREFCLK1_USED") →
        (st1.2.2 = true ↔ refclk_true e "_GTREFCLK1_USED")) := by
  subst h
  exact ⟨d, get_set_cell s1 k c d hk, ht, h0, h1⟩

/-- One turn of the loop over the ports of a common cell keeps each flag equal
to what its parameter reads. -/
theorem common_port_flags (is_gtp : Bool) (k : Nat) (q : IdString)
    (st st1 : Packer × Bool × Bool) (c : CellInfo)
    (hk : st.1.cells.get? k = some c) (hb : c.type ≠ "IBUFDS_GTE2")
    (h : pack_gt_common_port is_gtp k q st = .ok st1) :
    ∃ e, st1.1.cells.get? k = some e ∧ e.type = c.type ∧
      ((st.2.1 = true ↔ refclk_true c "_GTREFCLK0_USED") →
        (st1.2.1 = true ↔ refclk_true e "_GTREFCLK0_USED")) ∧
      ((st.2.2 = true ↔ refclk_true c "_GTREFCLK1_USED") →
        (st1.2.2 = true ↔ refclk_true e "_GTREFCLK1_USED")) := by
  have hsame : st = st1 →
      ∃ e, st1.1.cells.get? k = some e ∧ e.type = c.type ∧
        ((st.2.1 = true ↔ refclk_true c "_GTREFCLK0_USED") →
          (st1.2.1 = true ↔ refclk_true e "_GTREFCLK0_USED")) ∧
        ((st.2.2 = true ↔ refclk_true c "_GTREFCLK1_USED") →
          (st1.2.2 = true ↔ refclk_true e "_GTREFCLK1_USED")) := by
    intro hx
    subst hx
    exact ⟨c, hk, rfl, fun hx => hx, fun hx => hx⟩
  unfold pack_gt_common_port at h
  simp only [deref_live st.1 k c hk, bind, Except.bind] at h
  cases hf : dict_find c.ports q with
  | none =>
    rw [hf] at h
    cases h
  | some port =>
    rw [hf] at h
    simp only at h
    by_cases hq : q = "DRPCLK"
    · rw [if_pos hq] at h
      simp only [pure, Except.pure, Except.ok.injEq] at h
      exact flags_result st.1 k c
        (setParam c "_DRPCLK_USED" (Property.of_bool (port_used st.1 port.net))) _ _ _ _ st1
        hk rfl
        (fun hx => hx.trans (refclk_true_setParam_ne c _ _ _ (by decide)).symm)
        (fun hx => hx.trans (refclk_true_setParam_ne c _ _ _ (by decide)).symm) h
    · rw [if_neg hq] at h
      by_cases hs : starts_with q "GTREFCLK" = true
      · rw [if_pos hs] at h
        cases hn : port.net with
        | none => rw [hn] at h; cases h
        | some n =>
          rw [hn] at h
          simp only at h
          cases hd : driver_of st.1 n with
          | none => rw [hd] at h; cases h
          | some drv =>
            rw [hd] at h
            simp only at h
            by_cases ht : drv.2.type = "IBUFDS_GTE2"
            · rw [if_neg (not_not.mpr ht)] at h
              by_cases hu : port_used st.1 (some n) = true
              · rw [if_pos hu] at h
                obtain ⟨rel, s1, _, _, _, hk1, hst⟩ :=
                  refclk_by_buffer_spec k q n drv st st1 c hk hb hd ht h
                obtain ⟨d1, _, _, d4, _, _, _⟩ := disconnect_port_frame c q
                by_cases hr : rel = 1
                · rw [if_pos hr] at hst
                  exact flags_result s1 k c
                    (setParam (disconnect_port c q) "_GTREFCLK1_USED" (Property.of_int 1 1))
                    _ _ _ _ st1 hk1 d1
                    (fun hx => hx.trans ((refclk_true_setParam_ne _ _ _ _ (by decide)).trans
                      (refclk_true_params c _ _ d4)).symm)
                    (fun _ => ⟨fun _ => (refclk_true_setParam_self _ _ _).mpr rfl,
                      fun _ => rfl⟩) hst.symm
                · rw [if_neg hr] at hst
                  exact flags_result s1 k c
                    (setParam (disconnect_port c q) "_GTREFCLK0_USED" (Property.of_int 1 1))
                    _ _ _ _ st1 hk1 d1
                    (fun _ => ⟨fun _ => (refclk_true_setParam_self _ _ _).mpr rfl,
                      fun _ => rfl⟩)
                    (fun hx => hx.trans ((refclk_true_setParam_ne _ _ _ _ (by decide)).trans
                      (refclk_true_params c _ _ d4)).symm) hst.symm
              · rw [if_neg hu] at h
                by_cases he : ends_with q "0" = true
                · rw [if_pos he] at h
                  simp only [pure, Except.pure, Except.ok.injEq] at h
                  exact flags_result st.1 k c
                    (setParam c "_GTREFCLK0_USED" (Property.of_bool (port_used st.1 (some n))))
                    _ _ _ _ st1 hk rfl
                    (fun _ => ((refclk_true_setParam_self _ _ _).trans
                      (of_bool_intval _)).symm)
                    (fun hx => hx.trans (refclk_true_setParam_ne c _ _ _ (by decide)).symm) h
                · rw [if_neg he] at h
                  simp only [pure, Except.pure, Except.ok.injEq] at h
                  exact flags_result st.1 k c
                    (setParam c "_GTREFCLK1_USED" (Property.of_bool (port_used st.1 (some n))))
                    _ _ _ _ st1 hk rfl
                    (fun hx => hx.trans (refclk_true_setParam_ne c _ _ _ (by decide)).symm)
                    (fun _ => ((refclk_true_setParam_self _ _ _).trans
                      (of_bool_intval _)).symm) h
            · rw [if_pos ht] at h
              by_cases ht2 : drv.2.type = "BUFGCTRL"
              · rw [if_neg (not_not.mpr ht2)] at h
                simp only [pure, Except.pure, Except.ok.injEq] at h
                obtain ⟨r1, r2, _⟩ := rename_port_frame c q (if is_gtp = true then "GTGREFCLK0"
                  else "GTGREFCLK")
                exact flags_result st.1 k c
                  (setParam (rename_port c q (if is_gtp = true then "GTGREFCLK0"
                    else "GTGREFCLK")) "_GTGREFCLK_USED" (Property.of_int 1 1)) _ _ _ _ st1
                  hk r1
                  (fun hx => hx.trans ((refclk_true_setParam_ne _ _ _ _ (by decide)).trans
                    (refclk_true_params c _ _ r2)).symm)
                  (fun hx => hx.trans ((refclk_true_setParam_ne _ _ _ _ (by decide)).trans
                    (refclk_true_params c _ _ r2)).symm) h
              · rw [if_pos ht2] at h
                cases h
      · rw [if_neg hs] at h
        simp only [pure, Except.pure, Except.ok.injEq] at h
        exact hsame h

theorem common_ports_flags (is_gtp : Bool) (k : Nat) :
    ∀ (L : List IdString) (st st1 : Packer × Bool × Bool) (c : CellInfo),
      st.1.cells.get? k = some c → c.type ≠ "IBUFDS_GTE2" →
      ports_loop (fun p x => port_present k p x.1) (pack_gt_common_port is_gtp k) L st =
        .ok st1 →
      ∃ e, st1.1.cells.get? k = some e ∧ e.type = c.type ∧
        ((st.2.1 = true ↔ refclk_true c "_GTREFCLK0_USED") →
          (st1.2.1 = true ↔ refclk_true e "_GTREFCLK0_USED")) ∧
        ((st.2.2 = true ↔ refclk_true c "_GTREFCLK1_USED") →
          (st1.2.2 = true ↔ refclk_true e "_GTREFCLK1_USED")) := by
  intro L
  induction L with
  | nil =>
    intro st st1 c hk _ h
    simp only [ports_loop, pure, Except.pure, Except.ok.injEq] at h
    subst h
    exact ⟨c, hk, rfl, fun hx => hx, fun hx => hx⟩
  | cons q rest ih =>
    intro st st1 c hk hb h
    obtain ⟨sm, hm, _, h2⟩ := ports_loop_cons_ok _ _ q rest st st1 h
    obtain ⟨e1, he1, t1, a0, a1⟩ := common_port_flags is_gtp k q st sm c hk hb hm
    obtain ⟨e2, he2, t2, b0, b1⟩ := ih sm st1 e1 he1 (by rw [t1]; exact hb) h2
    exact ⟨e2, he2, t2.trans t1, fun hx => b0 (a0 hx), fun hx => b1 (a1 hx)⟩

theorem fold_inverter_keeps_flags (k : Nat) (s t : Packer) (ci : CellInfo) (port : String)
    (key : IdString) (hk : s.cells.get? k = some ci)
    (hkey : key ≠ "IS_" ++ port ++ "_INVERTED")
    (h : fold_inverter s (CellRef.live k) port = .ok t) :
    ∃ c0, t.cells.get? k = some c0 ∧ c0.type = ci.type ∧
      dict_find c0.params key = dict_find ci.params key := by
  obtain ⟨_, c0, h0, h1, _, _, _, h5, _⟩ := fold_inverter_cell k s t ci port hk h
  exact ⟨c0, h0, h1, h5 key hkey⟩

theorem fold_keeps_refclk (k : Nat) (s t : Packer) (ci : CellInfo) (port : String)
    (hk : s.cells.get? k = some ci)
    (hp : port = "DRPCLK" ∨ port = "PLL0LOCKDETCLK" ∨ port = "PLL1LOCKDETCLK" ∨
      port = "QPLLLOCKDETCLK")
    (h : fold_inverter s (CellRef.live k) port = .ok t) :
    ∃ c0, t.cells.get? k = some c0 ∧ c0.type = ci.type ∧
      dict_find c0.params "_GTREFCLK0_USED" = dict_find ci.params "_GTREFCLK0_USED" ∧
      dict_find c0.params "_GTREFCLK1_USED" = dict_find ci.params "_GTREFCLK1_USED" := by
  obtain ⟨_, c0, h0, h1, _, _, _, h5, _⟩ := fold_inverter_cell k s t ci port hk h
  refine ⟨c0, h0, h1, h5 _ ?_, h5 _ ?_⟩ <;>
    rcases hp with x | x | x | x <;> rw [x] <;> decide

/-- The branch of pack_gt for a common cell that carries neither flag when the
branch starts: _BOTH_GTREFCLK_USED is written as true exactly when both flags
read as true in the end. -/
theorem pack_gt_common_flags (k : Nat) (s t : Packer) (ci : CellInfo)
    (hk : s.cells.get? k = some ci) (hb : ci.type ≠ "IBUFDS_GTE2")
    (h0 : dict_find ci.params "_GTREFCLK0_USED" = none)
    (h1 : dict_find ci.params "_GTREFCLK1_USED" = none)
    (h : pack_gt_common k s = .ok t) :
    ∃ e b, t.cells.get? k = some e ∧ e.type = ci.type ∧
      dict_find e.params "_BOTH_GTREFCLK_USED" = some (Property.of_bool b) ∧
      (b = true ↔ refclk_true e "_GTREFCLK0_USED" ∧ refclk_true e "_GTREFCLK1_USED") := by
  unfold pack_gt_common at h
  obtain ⟨c, hc, g1⟩ := except_bind_ok _ _ t h
  clear h
  rw [deref_live s k ci hk] at hc
  have hcc : ci = c := Except.ok.inj hc
  subst hcc
  clear hc
  simp only at g1
  obtain ⟨s1, f1, g2⟩ := except_bind_ok _ _ t g1
  clear g1
  obtain ⟨c1, hk1, t1, a0, a1⟩ := fold_keeps_refclk k s s1 ci _ hk (Or.inl rfl) f1
  obtain ⟨s2, f2, g3⟩ := except_bind_ok _ _ t g2
  clear g2
  have hs2 : ∃ c2, s2.cells.get? k = some c2 ∧ c2.type = ci.type ∧
      dict_find c2.params "_GTREFCLK0_USED" = none ∧
      dict_find c2.params "_GTREFCLK1_USED" = none := by
    split_ifs at f2
    · obtain ⟨s3, f3, f4⟩ := except_bind_ok _ _ s2 f2
      obtain ⟨c3, hk3, t3, b0, b1⟩ :=
        fold_keeps_refclk k s1 s3 c1 _ hk1 (Or.inr (Or.inl rfl)) f3
      obtain ⟨c4, hk4, t4, d0, d1⟩ :=
        fold_keeps_refclk k s3 s2 c3 _ hk3 (Or.inr (Or.inr (Or.inl rfl))) f4
      exact ⟨c4, hk4, t4.trans (t3.trans t1), d0.trans (b0.trans (a0.trans h0)),
        d1.trans (b1.trans (a1.trans h1))⟩
    · obtain ⟨c3, hk3, t3, b0, b1⟩ :=
        fold_keeps_refclk k s1 s2 c1 _ hk1 (Or.inr (Or.inr (Or.inr rfl))) f2
      exact ⟨c3, hk3, t3.trans t1, b0.trans (a0.trans h0), b1.trans (a1.trans h1)⟩
  obtain ⟨c2, hk2, t2, n0, n1⟩ := hs2
  obtain ⟨c0, hc0, g4⟩ := except_bind_ok _ _ t g3
  clear g3
  obtain ⟨st, hl, g5⟩ := except_bind_ok _ _ t g4
  clear g4
  obtain ⟨e, he, g6⟩ := except_bind_ok _ _ t g5
  clear g5
  simp only [pure, Except.pure, Except.ok.injEq] at g6
  obtain ⟨e1, he1, te, l0, l1⟩ :=
    common_ports_flags _ k _ (s2, false, false) st c2 hk2 (by rw [t2]; exact hb) hl
  have hee := deref_live_ok _ _ _ he
  rw [he1] at hee
  have hx : e1 = e := Option.some.inj hee
  subst hx
  have i0 : st.2.1 = true ↔ refclk_true e1 "_GTREFCLK0_USED" := by
    apply l0
    unfold refclk_true
    rw [n0]
    simp
  have i1 : st.2.2 = true ↔ refclk_true e1 "_GTREFCLK1_USED" := by
    apply l1
    unfold refclk_true
    rw [n1]
    simp
  subst g6
  refine ⟨_, st.2.1 && st.2.2, get_set_cell st.1 k e1 _ he1, te.trans t2, setParam_self _ _ _, ?_⟩
  rw [refclk_true_setParam_ne e1 _ _ _ (by decide), refclk_true_setParam_ne e1 _ _ _ (by decide),
    Bool.and_eq_true, i0, i1]

/-- C23: for a GTPE2_COMMON or GTXE2_COMMON cell that pack_gt visits once and that
carries neither _GTREFCLK0_USED nor _GTREFCLK1_USED before the pass, whenever
pack_gt returns the cell carries _BOTH_GTREFCLK_USED = Property(b) for a bool b
that is true exactly when both _GTREFCLK0_USED and _GTREFCLK1_USED are on the
cell and read as true, which they do only when the pass has set them. -/
theorem pack_gt_both_refclk (order : List Nat) (s r : Packer) (k : Nat) (ci : CellInfo)
    (hord : order.Nodup) (hko : k ∈ order) (hk : s.cells.get? k = some ci)
    (ht : ci.type = "GTPE2_COMMON" ∨ ci.type = "GTXE2_COMMON")
    (h0 : dict_find ci.params "_GTREFCLK0_USED" = none)
    (h1 : dict_find ci.params "_GTREFCLK1_USED" = none)
    (h : pack_gt order s = .ok r) :
    ∃ c b, r.cells.get? k = some c ∧
      dict_find c.params "_BOTH_GTREFCLK_USED" = some (Property.of_bool b) ∧
      (b = true ↔ refclk_true c "_GTREFCLK0_USED" ∧ refclk_true c "_GTREFCLK1_USED") := by
  have hb : ci.type ≠ "IBUFDS_GTE2" := by
    rcases ht with x | x <;> rw [x] <;> decide
  obtain ⟨A, B, hsplit⟩ := List.append_of_mem hko
  rw [hsplit] at hord
  have hkA : k ∉ A := fun hx =>
    (List.nodup_append.mp hord).2.2 hx (List.mem_cons_self k B)
  have hkB : k ∉ B := (List.nodup_cons.mp (List.nodup_append.mp hord).2.1).1
  unfold pack_gt at h
  rw [hsplit, pack_gt_loop_append] at h
  obtain ⟨sa, ha, h2⟩ := except_bind_ok _ _ r h
  simp only [pack_gt_loop] at h2
  obtain ⟨sb, hb1, hb2⟩ := except_bind_ok _ _ r h2
  have hka : sa.cells.get? k = some ci := pack_gt_loop_frame A s sa ha k ci hkA hk hb
  have hcom : pack_gt_common k sa = .ok sb := by
    unfold pack_gt_cell at hb1
    rw [deref_live sa k ci hka] at hb1
    simp only [bind, Except.bind, ht, if_true] at hb1
    exact hb1
  obtain ⟨e, b, he, te, hboth, hiff⟩ := pack_gt_common_flags k sa sb ci hka hb h0 h1 hcom
  exact ⟨e, b, pack_gt_loop_frame B sb r hb2 k e hkB he (by rw [te]; exact hb), hboth, hiff⟩

set_option maxRecDepth 100000 in
theorem pack_gt_both_refclk_witness :
    ∃ r, pack_gt [0, 1, 2] (gt_two_design 0 0) = .ok r ∧
      (r.cells.get? 2).map (fun c => dict_find c.params "_BOTH_GTREFCLK_USED") =
        some (some (Property.of_bool false)) ∧
      ∃ c b, r.cells.get? 2 = some c ∧
        dict_find c.params "_BOTH_GTREFCLK_USED" = some (Property.of_bool b) ∧
        (b = true ↔ refclk_true c "_GTREFCLK0_USED" ∧ refclk_true c "_GTREFCLK1_USED") :=
  ⟨_, rfl, rfl, pack_gt_both_refclk [0, 1, 2] (gt_two_design 0 0) _ 2 gtp_common_two
    (by decide) (by decide) rfl (Or.inl rfl) rfl rfl rfl⟩

/-! ### pack_gt: the port loops and rename_port -/

set_option maxRecDepth 100000 in
/-- C22: a GTPE2_COMMON cell whose port GTREFCLK0 is on a net that a BUFGCTRL
drives. The turn of the loop for that port does what the claim says: the port is
there as GTGREFCLK0 on the same net, _GTGREFCLK_USED is 1 and neither flag is
set. But rename_port has erased the entry of GTREFCLK0, the entry the loop over
ci->ports stands on, and the loop has to leave that entry to go on: pack_gt does
not return the design with the renamed port, in either order of the cells. -/
theorem pack_gt_internal_refclk_erases :
    driver_of gt_internal_design 2 = some (CellRef.live 0, bufgctrl_cell) ∧
    (∃ st, pack_gt_common_port true 1 "GTREFCLK0" (gt_internal_design, false, false) = .ok st ∧
      (st.1.cells.get? 1).map (fun c => (c.ports, c.params)) =
        some ([source "PLL0OUTCLK" (some 3), sink "GTGREFCLK0" (some 2)],
          [("_GTGREFCLK_USED", Property.of_int 1 1)]) ∧
      st.2 = (false, false) ∧ port_present 1 "GTREFCLK0" st.1 = false) ∧
    pack_gt [0, 1] gt_internal_design =
      .error "for (auto &port : ci->ports): the entry under the iterator was erased" ∧
    pack_gt [1, 0] gt_internal_design =
      .error "for (auto &port : ci->ports): the entry under the iterator was erased" :=
  ⟨rfl, ⟨_, rfl, rfl, rfl, rfl⟩, rfl, rfl⟩

set_option maxRecDepth 100000 in
/-- C21: a GTPE2_CHANNEL cell whose clock PLL0CLK is driven by the output
PLL0OUTCLK of a GTPE2_COMMON cell, as the claim asks, and that has bit 0 of a data
bus among its ports. The turn of the loop for PLL0CLK returns and disconnects the
port. The turn for the bus port renames it, which erases the entry the loop over
ci->ports stands on, and the loop has to leave that entry to go on: pack_gt does
not return the design with PLL0CLK disconnected, whether the loop meets the bus
port after the clock or before it. -/
theorem pack_gt_channel_bus_erases :
    (driver_of (gt_bus_design false) 3).map (fun d => (d.2.type, driver_port d.2 3)) =
      some ("GTPE2_COMMON", some "PLL0OUTCLK") ∧
    starts_with "PLL0OUTCLK" (String.mk ("PLL0CLK".data.take 4)) = true ∧
    ends_with "PLL0OUTCLK" (String.mk ("PLL0CLK".data.drop 4)) = true ∧
    (∃ t, pack_gt_channel_port "GTPE2_COMMON" 1 "PLL0CLK" (gt_bus_design false) = .ok t ∧
      (t.cells.get? 1).map (fun c => c.ports) =
        some [sink "PLL0CLK" none, sink "TXDATA[0]" (some 4)] ∧
      ∃ u, pack_gt_channel_port "GTPE2_COMMON" 1 "TXDATA[0]" t = .ok u ∧
        (u.cells.get? 1).map (fun c => c.ports) =
          some [sink "PLL0CLK" none, sink "TXDATA0" (some 4)] ∧
        port_present 1 "TXDATA[0]" u = false) ∧
    pack_gt [0, 1] (gt_bus_design false) =
      .error "for (auto &port : ci->ports): the entry under the iterator was erased" ∧
    pack_gt [1, 0] (gt_bus_design false) =
      .error "for (auto &port : ci->ports): the entry under the iterator was erased" ∧
    pack_gt [0, 1] (gt_bus_design true) =
      .error "for (auto &port : ci->ports): the entry under the iterator was erased" ∧
    pack_gt [1, 0] (gt_bus_design true) =
      .error "for (auto &port : ci->ports): the entry under the iterator was erased" :=
  ⟨rfl, rfl, rfl, ⟨_, rfl, rfl, _, rfl, rfl, rfl⟩, rfl, rfl, rfl, rfl⟩

/-! ### constrain_ibufds_gt_site -/

/-- C24: constrain_ibufds_gt_site checks the span of the pad rows, not the number
of pad sites: a tile with two pad sites, in the rows 0 and 3, is accepted and the
buffer is placed, and a tile with four pad sites in the rows 0, 1, 2 and 5 is
rejected with the message on the four input pads. -/
theorem constrain_ibufds_gt_site_two_pads :
    count_pads two_pad_tile = 2 ∧
    constrain_ibufds_gt_site (fun _ => some two_pad_tile) free_buffer "IPAD_X1Y0/PAD" =
      .ok { free_buffer with
        attrs := [("BEL", Property.of_string "IBUFDS_GTE2_X0Y0/IBUFDS_GTE2"),
          ("_REL_BUF_Y", Property.of_int 0 32)] } ∧
    count_pads sparse_pad_tile = 4 ∧
    constrain_ibufds_gt_site (fun _ => some sparse_pad_tile) free_buffer "IPAD_X1Y0/PAD" =
      .error "A GTP_COMMON/GTX_COMMON tile only should have four input pads" := by
  refine ⟨by decide, ?_, by decide, ?_⟩
  · rfl
  · rfl

theorem constrain_placed_eq (site_by_name : String → Option (List SiteInstInfo))
    (buf_cell : CellInfo) (io_bel bel : String) (rel : Int) (b : Property)
    (hres : resolve_ibufds_gt_site site_by_name io_bel = .ok (bel, rel))
    (hb : dict_find buf_cell.attrs "BEL" = some b) (hs : b.is_string = true) :
    constrain_ibufds_gt_site site_by_name buf_cell io_bel =
      if String.mk b.str ≠ bel then
        .error "Location of IBUFDS_GTE2 conflicts with previous placement"
      else .ok buf_cell := by
  unfold constrain_ibufds_gt_site
  simp only [hres, bind, Except.bind, hb, Property.as_string, hs, if_true, pure, Except.pure]
  split_ifs <;> rfl

theorem constrain_free_eq (site_by_name : String → Option (List SiteInstInfo))
    (buf_cell : CellInfo) (io_bel bel : String) (rel : Int)
    (hres : resolve_ibufds_gt_site site_by_name io_bel = .ok (bel, rel))
    (hb : dict_find buf_cell.attrs "BEL" = none) :
    constrain_ibufds_gt_site site_by_name buf_cell io_bel =
      .ok { buf_cell with
        attrs := dict_set (dict_set buf_cell.attrs "BEL" (Property.of_string bel))
          "_REL_BUF_Y" (Property.of_int rel 32) } := by
  unfold constrain_ibufds_gt_site
  simp only [hres, bind, Except.bind, hb, pure, Except.pure]

theorem constrain_resolves (site_by_name : String → Option (List SiteInstInfo))
    (buf_cell c1 : CellInfo) (io_bel : String)
    (h : constrain_ibufds_gt_site site_by_name buf_cell io_bel = .ok c1) :
    ∃ bel rel, resolve_ibufds_gt_site site_by_name io_bel = .ok (bel, rel) := by
  unfold constrain_ibufds_gt_site at h
  obtain ⟨x, hx, _⟩ := except_bind_ok _ _ c1 h
  exact ⟨x.1, x.2, hx⟩

/-- C25: when the site of the pad resolves to the bel `bel` and the buffer cell
carries a string attribute BEL, constrain_ibufds_gt_site fails exactly when that
string is not `bel`, and when it is `bel` the call returns the cell as it is; and
for any cell, a call that returns leaves a cell on which a second call for the
same pad returns that same cell. -/
theorem constrain_ibufds_gt_site_placed (site_by_name : String → Option (List SiteInstInfo))
    (buf_cell : CellInfo) (io_bel bel : String) (rel : Int) (b : Property)
    (hres : resolve_ibufds_gt_site site_by_name io_bel = .ok (bel, rel))
    (hb : dict_find buf_cell.attrs "BEL" = some b) (hs : b.is_string = true) :
    ((∃ msg, constrain_ibufds_gt_site site_by_name buf_cell io_bel = .error msg) ↔
      String.mk b.str ≠ bel) ∧
    (String.mk b.str = bel →
      constrain_ibufds_gt_site site_by_name buf_cell io_bel = .ok buf_cell) ∧
    (∀ cell c1, constrain_ibufds_gt_site site_by_name cell io_bel = .ok c1 →
      constrain_ibufds_gt_site site_by_name c1 io_bel = .ok c1) := by
  have heq := constrain_placed_eq site_by_name buf_cell io_bel bel rel b hres hb hs
  refine ⟨?_, ?_, ?_⟩
  · rw [heq]
    by_cases hx : String.mk b.str = bel
    · rw [if_neg (not_not.mpr hx)]
      constructor
      · rintro ⟨msg, hm⟩
        cases hm
      · intro hne
        exact absurd hx hne
    · rw [if_pos hx]
      exact ⟨fun _ => hx, fun _ => ⟨_, rfl⟩⟩
  · intro hx
    rw [heq, if_neg (not_not.mpr hx)]
  · intro cell c1 h1
    cases hc : dict_find cell.attrs "BEL" with
    | none =>
      rw [constrain_free_eq site_by_name cell io_bel bel rel hres hc] at h1
      have h2 : c1 = { cell with
          attrs := dict_set (dict_set cell.attrs "BEL" (Property.of_string bel))
            "_REL_BUF_Y" (Property.of_int rel 32) } := (Except.ok.inj h1).symm
      have hb1 : dict_find c1.attrs "BEL" = some (Property.of_string bel) := by
        rw [h2]
        simp only
        rw [dict_find_set_ne _ _ _ _ (by decide), dict_find_set_self]
      rw [constrain_placed_eq site_by_name c1 io_bel bel rel _ hres hb1 rfl]
      have hstr : String.mk (Property.of_string bel).str = bel := rfl
      rw [if_neg (not_not.mpr hstr)]
    | some v =>
      unfold constrain_ibufds_gt_site at h1 ⊢
      simp only [hres, bind, Except.bind, hc] at h1
      cases hv : Property.as_string v with
      | error e => rw [hv] at h1; cases h1
      | ok str =>
        rw [hv] at h1
        simp only at h1
        split_ifs at h1 with hne
        cases h1
        simp only [hres, bind, Except.bind, hc, hv, if_neg hne]
        rfl

theorem constrain_ibufds_gt_site_placed_witness :
    constrain_ibufds_gt_site (fun _ => some gt_tile)
        { free_buffer with attrs := [("BEL", Property.of_string "IBUFDS_GTE2_X0Y1/IBUFDS_GTE2")] }
        "IPAD_X1Y2/PAD" =
      .ok { free_buffer with
        attrs := [("BEL", Property.of_string "IBUFDS_GTE2_X0Y1/IBUFDS_GTE2")] } :=
  (constrain_ibufds_gt_site_placed (fun _ => some gt_tile)
    { free_buffer with attrs := [("BEL", Property.of_string "IBUFDS_GTE2_X0Y1/IBUFDS_GTE2")] }
    "IPAD_X1Y2/PAD" "IBUFDS_GTE2_X0Y1/IBUFDS_GTE2" 1
    (Property.of_string "IBUFDS_GTE2_X0Y1/IBUFDS_GTE2") rfl rfl rfl).2.1 rfl

/-! ### The tied-low pre-pass on a dual-port cell -/

theorem addr_port_ne_dpra (abits i j : Nat) :
    addr_port abits "A" i ≠ addr_port abits "DPRA" j := by
  intro h
  have hd := congrArg String.data h
  unfold addr_port at hd
  split_ifs at hd <;> simp [String.data_append] at hd

theorem addr_port_inj (abits i j : Nat) (hi : i < 9) (hj : j < 9) (hij : i ≠ j) :
    addr_port abits "A" i ≠ addr_port abits "A" j ∧
    addr_port abits "DPRA" i ≠ addr_port abits "DPRA" j := by
  unfold addr_port
  by_cases ha : abits ≤ 6
  · simp only [if_pos ha]
    interval_cases i <;> interval_cases j <;>
      first
        | exact absurd rfl hij
        | exact ⟨by decide, by decide⟩
  · simp only [if_neg ha]
    interval_cases i <;> interval_cases j <;>
      first
        | exact absurd rfl hij
        | exact ⟨by decide, by decide⟩

/-- One address position of the pre-pass on a cell with a read port: the position
is rewritten exactly when A and DPRA are both on the logic-0 net; then both are
on the logic-1 net and no other port is touched, and else the cell is as it was. -/
theorem tie_high_bit_dual (s : Packer) (dt : DRAMType) (c0 c : CellInfo) (i : Nat) (b : Bool)
    (v : NetId) (hr : dt.rports = 1) (hv : net_by_name s "$PACKER_VCC_NET" = some v)
    (h : tie_high_bit s dt c0 i = .ok (c, b)) :
    (b = true ↔ on_gnd s (get_net_or_empty c0 (addr_port dt.abits "A" i)) = true ∧
      on_gnd s (get_net_or_empty c0 (addr_port dt.abits "DPRA" i)) = true) ∧
    (b = false → c = c0) ∧
    (b = true →
      get_net_or_empty c (addr_port dt.abits "A" i) = some v ∧
      get_net_or_empty c (addr_port dt.abits "DPRA" i) = some v ∧
      ∀ q, q ≠ addr_port dt.abits "A" i → q ≠ addr_port dt.abits "DPRA" i →
        dict_find c.ports q = dict_find c0.ports q) := by
  have hAD := addr_port_ne_dpra dt.abits i i
  have hno : ∀ x : CellInfo, (x, false) = (c, b) →
      on_gnd s (get_net_or_empty c0 (addr_port dt.abits "A" i)) = false ∨
        on_gnd s (get_net_or_empty c0 (addr_port dt.abits "DPRA" i)) = false →
      x = c0 →
      (b = true ↔ on_gnd s (get_net_or_empty c0 (addr_port dt.abits "A" i)) = true ∧
        on_gnd s (get_net_or_empty c0 (addr_port dt.abits "DPRA" i)) = true) ∧
      (b = false → c = c0) ∧
      (b = true →
        get_net_or_empty c (addr_port dt.abits "A" i) = some v ∧
        get_net_or_empty c (addr_port dt.abits "DPRA" i) = some v ∧
        ∀ q, q ≠ addr_port dt.abits "A" i → q ≠ addr_port dt.abits "DPRA" i →
          dict_find c.ports q = dict_find c0.ports q) := by
    intro x hx hor hxc
    simp only [Prod.mk.injEq] at hx
    obtain ⟨hx1, hx2⟩ := hx
    subst hx1
    subst hx2
    refine ⟨⟨fun hb => Bool.noConfusion hb, fun hb => ?_⟩, fun _ => hxc,
      fun hb => Bool.noConfusion hb⟩
    rcases hor with hf | hf
    · rw [hf] at hb
      exact Bool.noConfusion hb.1
    · rw [hf] at hb
      exact Bool.noConfusion hb.2
  unfold tie_high_bit at h
  simp only at h
  by_cases h1 : (!dict_count c0.ports (addr_port dt.abits "A" i)) = true
  · rw [if_pos h1] at h
    simp only [pure, Except.pure, Except.ok.injEq] at h
    refine hno c0 h (Or.inl ?_) rfl
    cases hf : dict_find c0.ports (addr_port dt.abits "A" i) with
    | none => simp only [get_net_or_empty, hf, on_gnd]
    | some p => simp [dict_count, hf] at h1
  rw [if_neg h1] at h
  by_cases h2 : (!on_gnd s (get_net_or_empty c0 (addr_port dt.abits "A" i))) = true
  · rw [if_pos h2] at h
    simp only [pure, Except.pure, Except.ok.injEq] at h
    exact hno c0 h (Or.inl (by simpa using h2)) rfl
  rw [if_neg h2] at h
  have hA : on_gnd s (get_net_or_empty c0 (addr_port dt.abits "A" i)) = true := by
    simpa using h2
  rw [if_neg (by omega), if_pos (by omega)] at h
  simp only at h
  by_cases h4 : (!on_gnd s (get_net_or_empty c0 (addr_port dt.abits "DPRA" i))) = true
  · rw [if_pos h4] at h
    simp only [pure, Except.pure, Except.ok.injEq] at h
    exact hno c0 h (Or.inr (by simpa using h4)) rfl
  rw [if_neg h4] at h
  have hD : on_gnd s (get_net_or_empty c0 (addr_port dt.abits "DPRA" i)) = true := by
    simpa using h4
  simp only [bind, Except.bind, hv] at h
  cases e2 : connect_port (some v)
      (disconnect_port (disconnect_port c0 (addr_port dt.abits "A" i))
        (addr_port dt.abits "DPRA" i)) (addr_port dt.abits "A" i) with
  | error e => rw [e2] at h; cases h
  | ok c2 =>
    rw [e2] at h
    simp only at h
    cases e3 : connect_port (some v) c2 (addr_port dt.abits "DPRA" i) with
    | error e => rw [e3] at h; cases h
    | ok c3 =>
      rw [e3] at h
      simp only at h
      have hports : c.ports = c3.ports ∧ b = true := by
        cases hd : dict_find c3.params "INIT" <;> rw [hd] at h <;>
          simp only [pure, Except.pure, Except.ok.injEq, Prod.mk.injEq] at h <;>
          exact ⟨by rw [← h.1], h.2.symm⟩
      obtain ⟨hp, hb⟩ := hports
      obtain ⟨_, _, _, _, f3, _⟩ := connect_port_frame _ _ _ _ e3
      obtain ⟨_, _, _, _, f2, _⟩ := connect_port_frame _ _ _ _ e2
      obtain ⟨_, _, _, _, d2, _, _⟩ := disconnect_port_frame
        (disconnect_port c0 (addr_port dt.abits "A" i)) (addr_port dt.abits "DPRA" i)
      obtain ⟨_, _, _, _, d1, _, _⟩ := disconnect_port_frame c0 (addr_port dt.abits "A" i)
      subst hb
      refine ⟨⟨fun _ => ⟨hA, hD⟩, fun _ => rfl⟩, fun hx => Bool.noConfusion hx,
        fun _ => ⟨?_, ?_, ?_⟩⟩
      · have g2 := connect_port_net v _ c2 _ e2
        unfold get_net_or_empty at g2 ⊢
        rw [hp, f3 _ hAD]
        exact g2
      · have g3 := connect_port_net v _ c3 _ e3
        unfold get_net_or_empty at g3 ⊢
        rw [hp]
        exact g3
      · intro q hq1 hq2
        rw [hp, f3 q hq2, f2 q hq1, d2 q hq2, d1 q hq1]

/-- The loop of the pre-pass over the address positions of a cell with a read
port, against the cell `ci` the loop started from. -/
theorem tie_high_bits_dual (s : Packer) (dt : DRAMType) (ci : CellInfo) (v : NetId)
    (hr : dt.rports = 1) (hv : net_by_name s "$PACKER_VCC_NET" = some v) :
    ∀ (n i : Nat) (c0 c : CellInfo) (acc bits : List Nat),
      tie_high_bits s dt n i (c0, acc) = .ok (c, bits) → i + n ≤ 6 →
      (∀ b, b ∈ acc ↔ b < i ∧ both_low s dt ci b = true) →
      (∀ b, b ∈ acc → get_net_or_empty c0 (addr_port dt.abits "A" b) = some v ∧
        get_net_or_empty c0 (addr_port dt.abits "DPRA" b) = some v) →
      (∀ q, (∀ b, b ∈ acc → q ≠ addr_port dt.abits "A" b ∧ q ≠ addr_port dt.abits "DPRA" b) →
        dict_find c0.ports q = dict_find ci.ports q) →
      (∀ b, b ∈ bits ↔ b < i + n ∧ both_low s dt ci b = true) ∧
      (∀ b, b ∈ bits → get_net_or_empty c (addr_port dt.abits "A" b) = some v ∧
        get_net_or_empty c (addr_port dt.abits "DPRA" b) = some v) ∧
      (∀ q, (∀ b, b ∈ bits → q ≠ addr_port dt.abits "A" b ∧ q ≠ addr_port dt.abits "DPRA" b) →
        dict_find c.ports q = dict_find ci.ports q) := by
  intro n
  induction n with
  | zero =>
    intro i c0 c acc bits h _ h1 h2 h3
    simp only [tie_high_bits, pure, Except.pure, Except.ok.injEq, Prod.mk.injEq] at h
    obtain ⟨rfl, rfl⟩ := h
    exact ⟨h1, h2, h3⟩
  | succ n ih =>
    intro i c0 c acc bits h hle h1 h2 h3
    simp only [tie_high_bits, bind, Except.bind] at h
    cases hstep : tie_high_bit s dt c0 i with
    | error e => rw [hstep] at h; cases h
    | ok r =>
      obtain ⟨c1, b⟩ := r
      rw [hstep] at h
      simp only at h
      obtain ⟨s1, s2, s3⟩ := tie_high_bit_dual s dt c0 c1 i b v hr hv hstep
      have hfresh : ∀ x, x ∈ acc →
          addr_port dt.abits "A" i ≠ addr_port dt.abits "A" x ∧
          addr_port dt.abits "A" i ≠ addr_port dt.abits "DPRA" x ∧
          addr_port dt.abits "DPRA" i ≠ addr_port dt.abits "A" x ∧
          addr_port dt.abits "DPRA" i ≠ addr_port dt.abits "DPRA" x := by
        intro x hx
        have hxi : x < i := ((h1 x).mp hx).1
        obtain ⟨n1, n2⟩ := addr_port_inj dt.abits i x (by omega) (by omega) (by omega)
        exact ⟨n1, addr_port_ne_dpra dt.abits i x,
          fun e => addr_port_ne_dpra dt.abits x i e.symm, n2⟩
      have hA : dict_find c0.ports (addr_port dt.abits "A" i) =
          dict_find ci.ports (addr_port dt.abits "A" i) :=
        h3 _ (fun x hx => ⟨(hfresh x hx).1, (hfresh x hx).2.1⟩)
      have hD : dict_find c0.ports (addr_port dt.abits "DPRA" i) =
          dict_find ci.ports (addr_port dt.abits "DPRA" i) :=
        h3 _ (fun x hx => ⟨(hfresh x hx).2.2.1, (hfresh x hx).2.2.2⟩)
      have hboth : b = true ↔ both_low s dt ci i = true := by
        rw [s1]
        unfold both_low get_net_or_empty
        rw [hA, hD, Bool.and_eq_true]
      have hidx : i + 1 + n = i + (n + 1) := by omega
      cases b with
      | false =>
        have hc1 := s2 rfl
        subst hc1
        simp only [Bool.false_eq_true, if_false] at h
        have hni : ¬ both_low s dt ci i = true := fun hx => Bool.noConfusion (hboth.mpr hx)
        have r := ih (i + 1) c1 c acc bits h (by omega) (fun x => by
          rw [h1 x]
          constructor
          · rintro ⟨a1, a2⟩
            exact ⟨by omega, a2⟩
          · rintro ⟨a1, a2⟩
            refine ⟨?_, a2⟩
            by_contra hx
            have hxi : x = i := by omega
            rw [hxi] at a2
            exact hni a2) h2 h3
        rw [hidx] at r
        exact r
      | true =>
        simp only [if_true] at h
        obtain ⟨g1, g2, g3⟩ := s3 rfl
        have hyes : both_low s dt ci i = true := hboth.mp rfl
        have r := ih (i + 1) c1 c (acc ++ [i]) bits h (by omega) (fun x => by
          rw [List.mem_append, List.mem_singleton, h1 x]
          constructor
          · rintro (⟨a1, a2⟩ | a3)
            · exact ⟨by omega, a2⟩
            · rw [a3]
              exact ⟨by omega, hyes⟩
          · rintro ⟨a1, a2⟩
            by_cases hxi : x = i
            · exact Or.inr hxi
            · exact Or.inl ⟨by omega, a2⟩) (fun x hx => by
          rw [List.mem_append, List.mem_singleton] at hx
          rcases hx with hx | hx
          · obtain ⟨f1, f2, f3, f4⟩ := hfresh x hx
            unfold get_net_or_empty
            rw [g3 _ (Ne.symm f1) (Ne.symm f3), g3 _ (Ne.symm f2) (Ne.symm f4)]
            exact h2 x hx
          · rw [hx]
            exact ⟨g1, g2⟩) (fun q hq => by
          rw [g3 q (hq i (by simp)).1 (hq i (by simp)).2]
          exact h3 q (fun x hx => hq x (by simp [hx])))
        rw [hidx] at r
        exact r

theorem dram_types_abits (t : IdString) (dt : DRAMType)
    (h : dict_find dram_types t = some dt) : dt.abits ≤ 9 := by
  have hall : ∀ e ∈ dram_types, e.2.abits ≤ 9 := by decide
  exact hall (t, dt) (mem_of_find dram_types t dt h)

/-- C30: for a cell of a recognized memory type with one read port, in a design
that has the net $PACKER_VCC_NET, whenever the pre-pass returns it has rewritten
the list `bits` of address positions of the cell, where a position is in `bits`
exactly when it is below min(abits, 6) and A and DPRA of that position are both
on the logic-0 net (a port that is absent or unconnected is not); A and DPRA of a
position in `bits` end on the logic-1 net; A and DPRA of every other position
below abits, the positions 6 and above among them, are the ports the cell had;
and entry `j` of INIT is the old entry at `j` with the bits of `bits` cleared, so
that a position out of `bits` changes nothing of INIT. -/
theorem tie_high_pass_dual (s s1 : Packer) (k : Nat) (ci : CellInfo) (dt : DRAMType)
    (v : NetId) (h : tie_high_pass s = .ok s1) (hc : s.cells.get? k = some ci)
    (hdt : dict_find dram_types ci.type = some dt) (hr : dt.rports = 1)
    (hv : net_by_name s "$PACKER_VCC_NET" = some v) :
    ∃ c bits, s1.cells.get? k = some c ∧ tie_high_cell s ci = .ok (c, bits) ∧
      (∀ i, i ∈ bits ↔ i < min dt.abits 6 ∧ both_low s dt ci i = true) ∧
      (∀ i, i ∈ bits → get_net_or_empty c (addr_port dt.abits "A" i) = some v ∧
        get_net_or_empty c (addr_port dt.abits "DPRA" i) = some v) ∧
      (∀ i, i ∉ bits → i < dt.abits →
        dict_find c.ports (addr_port dt.abits "A" i) =
          dict_find ci.ports (addr_port dt.abits "A" i) ∧
        dict_find c.ports (addr_port dt.abits "DPRA" i) =
          dict_find ci.ports (addr_port dt.abits "DPRA" i)) ∧
      (∀ init, dict_find ci.params "INIT" = some init →
        ∃ init1, dict_find c.params "INIT" = some init1 ∧
          init1.str.length = init.str.length ∧
          ∀ j, j < init.str.length → init1.str.get? j = init.str.get? (clear_bits j bits)) := by
  simp only [tie_high_pass, bind, Except.bind] at h
  cases hcells : tie_high_cells s s.cells with
  | error e => rw [hcells] at h; cases h
  | ok r =>
    rw [hcells] at h
    simp only [pure, Except.pure, Except.ok.injEq] at h
    obtain ⟨c, bits, hcell, hget⟩ := tie_high_cells_get s s.cells r.1 r.2 k ci hcells hc
    have hcell0 := hcell
    unfold tie_high_cell at hcell
    rw [hdt] at hcell
    simp only at hcell
    have h9 := dram_types_abits ci.type dt hdt
    obtain ⟨b1, b2, b3⟩ := tie_high_bits_dual s dt ci v hr hv (min dt.abits 6) 0 ci c [] bits
      hcell (by omega) (fun b => by simp) (fun b hb => by simp at hb) (fun q _ => rfl)
    rw [Nat.zero_add] at b1
    refine ⟨c, bits, by rw [← h]; exact hget, hcell0, b1, b2, ?_, ?_⟩
    · intro i hi hlt
      have hne : ∀ b, b ∈ bits → b ≠ i ∧ b < 6 := by
        intro b hb
        refine ⟨fun e => hi (e ▸ hb), ?_⟩
        have := ((b1 b).mp hb).1
        omega
      constructor
      · apply b3
        intro b hb
        obtain ⟨n1, n2⟩ := hne b hb
        exact ⟨(addr_port_inj dt.abits i b (by omega) (by omega) (Ne.symm n1)).1,
          addr_port_ne_dpra dt.abits i b⟩
      · apply b3
        intro b hb
        obtain ⟨n1, n2⟩ := hne b hb
        exact ⟨fun e => addr_port_ne_dpra dt.abits b i e.symm,
          (addr_port_inj dt.abits i b (by omega) (by omega) (Ne.symm n1)).2⟩
    · intro init hinit
      exact tie_high_bits_init s dt init _ 0 ci c [] bits init hcell hinit rfl (fun j _ => rfl)

theorem tie_high_pass_dual_witness :
    ∃ s1, tie_high_pass dual_low_design = .ok s1 ∧
      (tie_high_cell dual_low_design dual_low_cell).map (fun r =>
          (r.2, get_net_or_empty r.1 "A0", get_net_or_empty r.1 "DPRA0",
            get_net_or_empty r.1 "A1", get_net_or_empty r.1 "DPRA1")) =
        .ok ([0], some 1, some 1, some 0, some 3) ∧
      ∃ c bits, s1.cells.get? 0 = some c ∧
        tie_high_cell dual_low_design dual_low_cell = .ok (c, bits) ∧
        (∀ i, i ∈ bits ↔ i < min 6 6 ∧
          both_low dual_low_design { abits := 6, dbits := 1, rports := 1 } dual_low_cell i =
            true) ∧
        (∀ i, i ∈ bits → get_net_or_empty c (addr_port 6 "A" i) = some 1 ∧
          get_net_or_empty c (addr_port 6 "DPRA" i) = some 1) :=
  ⟨_, rfl, rfl, (tie_high_pass_dual dual_low_design _ 0 dual_low_cell
    { abits := 6, dbits := 1, rports := 1 } 1 rfl rfl rfl rfl rfl).elim
    (fun c hc => hc.elim (fun bits hb => ⟨c, bits, hb.1, hb.2.1, hb.2.2.1, hb.2.2.2.1⟩))⟩

/-! ### Memory types without a strategy -/

set_option maxRecDepth 100000 in
/-- C26: pack_dram does not consume a RAM512X1S cell, a type of its memory-type
table: on the design of one such cell the sweep returns with no retired cell and
an empty pending buffer, and pack_dram returns the design with that one cell. -/
theorem pack_dram_skips_ram512 :
    (dict_find dram_types "RAM512X1S").isSome = true ∧
    (∃ r, pack_dram_sweep ram512_design = .ok r ∧ r.packed_cells = [] ∧ r.new_cells = []) ∧
    (∃ r, pack_dram ram512_design = .ok r ∧ r.packed_cells = [] ∧
      r.cells.map (fun c => (c.name, c.type)) = [("big", "RAM512X1S")]) :=
  ⟨rfl, ⟨_, rfl, rfl, rfl⟩, ⟨_, rfl, rfl, rfl⟩⟩

/-- A group of a memory type without a branch is left as it is. -/
theorem pack_group_skips (cs : DRAMControlSet) (cells : List CellRef) (s : Packer)
    (h : cs.memtype = "RAM256X1D" ∨ cs.memtype = "RAM512X1S" ∨ cs.memtype = "RAM512X1D") :
    pack_group cs cells s = .ok s := by
  unfold pack_group
  rcases h with x | x | x <;> rw [x] <;> simp only <;> rfl

/-! ### Reading the deep memories -/

theorem read_view_of_view (l1 l2 : List CellInfo) (h : l1.map cell_view = l2.map cell_view) :
    l1.map read_view = l2.map read_view := by
  have key : ∀ l : List CellInfo, l.map read_view =
      (l.map cell_view).map (fun w => (w.1, w.2.1, w.2.2.1, dict_find w.2.2.2.1 "INIT")) := by
    intro l
    rw [List.map_map]
    rfl
  rw [key, key, h]

theorem map_set_read_view (l : List CellInfo) (i : Nat) (c c1 : CellInfo)
    (hc : l.get? i = some c) (h : read_view c1 = read_view c) :
    (l.set i c1).map read_view = l.map read_view := by
  rw [List.map_set, h]
  apply List.ext_getElem?
  intro k
  simp only [List.get?_eq_getElem?] at hc
  rw [List.getElem?_set]
  by_cases hk : i = k
  · subst hk
    rw [if_pos rfl, List.getElem?_map, hc]
    simp only [List.length_map, Option.map_some']
    split_ifs with hl
    · rfl
    · exfalso
      rw [List.getElem?_eq_none (by omega)] at hc
      cases hc
  · rw [if_neg hk]

/-- What create_dram_lut shows to a read: one more SLICE_LUTX of the given
name on the given nets, without INIT, behind the primitives made before. -/
theorem create_dram_lut_read (name : String) (base : Option CellRef) (cs : DRAMControlSet)
    (address : List (Option NetId)) (di dout : Option NetId) (z : Int) (s : Packer)
    (V : List (IdString × IdString × List (IdString × PortInfo) × Option Property))
    (hV : s.new_cells.map read_view = V)
    (ha : address.length ≤ 6) (hw : cs.wa.length ≤ 8)
    (hbase : base = none ∨ ∃ b, base = some (CellRef.pending b) ∧ b < V.length) :
    ∃ t, create_dram_lut name base cs address di dout z s = .ok (CellRef.pending V.length, t) ∧
      t.new_cells.map read_view =
        V ++ [(name, "SLICE_LUTX", (slice_lutx name cs address di dout).ports, none)] ∧
      t.cells = s.cells := by
  have hl : V.length = s.new_cells.length := by rw [← hV, List.length_map]
  rw [create_dram_lut_eq name base cs address di dout z s ha hw, hl]
  rcases hbase with hb | ⟨b, hb, hlt⟩
  · subst hb
    rw [constrain_and_push_base]
    refine ⟨_, rfl, ?_, rfl⟩
    simp only [List.map_append, hV, List.map_cons, List.map_nil]
    rfl
  · subst hb
    have hb2 : b < s.new_cells.length := by omega
    have hg : s.new_cells.get? b = some (s.new_cells.get ⟨b, hb2⟩) := by
      simp only [List.get?_eq_getElem?, List.get_eq_getElem]
      exact List.getElem?_eq_getElem hb2
    rw [constrain_and_push_child _ _ b _ s hg]
    refine ⟨_, rfl, ?_, rfl⟩
    simp only [List.map_append, List.map_cons, List.map_nil]
    rw [map_set_read_view s.new_cells b (s.new_cells.get ⟨b, hb2⟩)
      { s.new_cells.get ⟨b, hb2⟩ with
        constr_children := (s.new_cells.get ⟨b, hb2⟩).constr_children ++
          [CellRef.pending s.new_cells.length] } hg rfl, hV]
    rfl

/-- What the INIT assignment shows to a read: the INIT of that primitive and
nothing else. -/
theorem set_init_read (s : Packer)
    (P D : List (IdString × IdString × List (IdString × PortInfo) × Option Property))
    (j : Nat) (n ty : IdString) (ps : List (IdString × PortInfo)) (old : Option Property)
    (v : Property)
    (hV : s.new_cells.map read_view = P ++ D) (hD : D.get? j = some (n, ty, ps, old)) :
    ∃ t, set_init s (CellRef.pending (P.length + j)) v = .ok t ∧
      t.new_cells.map read_view = P ++ D.set j (n, ty, ps, some v) ∧ t.cells = s.cells := by
  have hj : j < D.length := by
    simp only [List.get?_eq_getElem?] at hD
    by_contra hc
    rw [List.getElem?_eq_none (by omega)] at hD
    cases hD
  have hlen : s.new_cells.length = P.length + D.length := by
    rw [← List.length_append, ← hV, List.length_map]
  have hi : P.length + j < s.new_cells.length := by omega
  have hg : s.new_cells.get? (P.length + j) = some (s.new_cells.get ⟨P.length + j, hi⟩) := by
    simp only [List.get?_eq_getElem?, List.get_eq_getElem]
    exact List.getElem?_eq_getElem hi
  have hview : read_view (s.new_cells.get ⟨P.length + j, hi⟩) = (n, ty, ps, old) := by
    have h1 : (s.new_cells.map read_view)[P.length + j]? = some (n, ty, ps, old) := by
      rw [hV]
      simp only [List.get?_eq_getElem?] at hD
      rw [List.getElem?_append_right (by omega)]
      simpa using hD
    rw [List.getElem?_map, List.getElem?_eq_getElem hi] at h1
    simpa using h1
  unfold set_init
  rw [modify_cell_pending s _ _ _ hg]
  refine ⟨_, rfl, ?_, rfl⟩
  simp only [List.map_set, hV]
  rw [List.set_append, if_neg (by omega), Nat.add_sub_cancel_left]
  congr 2
  simp only [read_view, Prod.mk.injEq] at hview ⊢
  exact ⟨hview.1, hview.2.1, hview.2.2.1, dict_find_set_self _ _ _⟩

theorem pending_of_read (s : Packer)
    (V : List (IdString × IdString × List (IdString × PortInfo) × Option Property))
    (b : Nat) (bn bty : IdString) (bp : List (IdString × PortInfo)) (bo : Option Property)
    (hV : s.new_cells.map read_view = V) (hb : V.get? b = some (bn, bty, bp, bo)) :
    ∃ bc, get_cell s (CellRef.pending b) = some bc ∧ bc.name = bn := by
  subst hV
  simp only [List.get?_eq_getElem?, List.getElem?_map] at hb
  cases hg : s.new_cells[b]? with
  | none => rw [hg] at hb; cases hb
  | some bc =>
    rw [hg] at hb
    simp only [Option.map_some', Option.some.injEq, read_view, Prod.mk.injEq] at hb
    exact ⟨bc, by simp only [get_cell, List.get?_eq_getElem?, hg], hb.1⟩

/-- What create_muxf_tree over two data nets shows to a read: one MUXF7 on the
two data nets, the select net and the output, behind the primitives made
before. -/
theorem create_muxf_tree_two_read (s : Packer)
    (V : List (IdString × IdString × List (IdString × PortInfo) × Option Property))
    (b : Nat) (bn bty : IdString) (bp : List (IdString × PortInfo)) (bo : Option Property)
    (nb : String) (d0 d1 s0 out : Option NetId) (z : Int)
    (hV : s.new_cells.map read_view = V) (hb : V.get? b = some (bn, bty, bp, bo)) :
    ∃ t, create_muxf_tree (some (CellRef.pending b)) nb [d0, d1] [s0] out z s = .ok t ∧
      t.new_cells.map read_view = V ++
        [(int_name bn (nb ++ "_muxf_" ++ to_string 0 ++ "_" ++ to_string 0) false, "MUXF7",
          (muxf_prim "MUXF7" "" d0 d1 s0 out).ports, none)] := by
  obtain ⟨bc, hbc, hbn⟩ := pending_of_read s V b bn bty bp bo hV hb
  have hbuild := muxf_build_two s (CellRef.pending b) bc hbc nb d0 d1 s0 out
  obtain ⟨s1, e1, _, v1, _⟩ := constrain_muxf_tree_view
    { s with new_cells := s.new_cells ++ [muxf_prim "MUXF7" (muxf_name bc nb 0 0) d0 d1 s0 out] }
    (CellRef.pending s.new_cells.length) (CellRef.pending b)
    (muxf_prim "MUXF7" (muxf_name bc nb 0 0) d0 d1 s0 out) bc z
    (by simp only [get_cell]; exact get_append_last _ _)
    (by
      simp only [get_cell] at hbc ⊢
      exact get_after_push _ _ _ _ hbc)
  refine ⟨s1, ?_, ?_⟩
  · simp only [create_muxf_tree, hbuild, bind, Except.bind]
    exact e1
  · rw [read_view_of_view _ _ v1]
    simp only [List.map_append, hV, List.map_cons, List.map_nil]
    rw [← hbn]
    rfl

/-- What create_muxf_tree over four data nets shows to a read: two MUXF7 on the
pairs of data nets with select 0 and one MUXF8 over their outputs with select
1, behind the primitives made before. -/
theorem create_muxf_tree_four_read (s : Packer)
    (V : List (IdString × IdString × List (IdString × PortInfo) × Option Property))
    (b : Nat) (bn bty : IdString) (bp : List (IdString × PortInfo)) (bo : Option Property)
    (nb : String) (d0 d1 d2 d3 s0 s1 out : Option NetId) (z : Int)
    (hV : s.new_cells.map read_view = V) (hb : V.get? b = some (bn, bty, bp, bo)) :
    ∃ t, create_muxf_tree (some (CellRef.pending b)) nb [d0, d1, d2, d3] [s0, s1] out z s = .ok t ∧
      t.new_cells.map read_view = V ++
        [(int_name bn (nb ++ "_muxf_" ++ to_string 0 ++ "_" ++ to_string 0) false, "MUXF7",
          (muxf_prim "MUXF7" "" d0 d1 s0 (some s.nets.length)).ports, none),
         (int_name bn (nb ++ "_muxf_" ++ to_string 0 ++ "_" ++ to_string 1) false, "MUXF7",
          (muxf_prim "MUXF7" "" d2 d3 s0 (some (s.nets.length + 1))).ports, none),
         (int_name bn (nb ++ "_muxf_" ++ to_string 1 ++ "_" ++ to_string 0) false, "MUXF8",
          (muxf_prim "MUXF8" "" (some s.nets.length) (some (s.nets.length + 1)) s1 out).ports,
          none)] := by
  obtain ⟨bc, hbc, hbn⟩ := pending_of_read s V b bn bty bp bo hV hb
  have hbuild := muxf_build_four s (CellRef.pending b) bc hbc nb d0 d1 d2 d3 s0 s1 out
  have hbl : b < s.new_cells.length := by
    simp only [get_cell, List.get?_eq_getElem?] at hbc
    by_contra hc
    rw [List.getElem?_eq_none (by omega)] at hbc
    cases hbc
  obtain ⟨t, e1, _, v1, _⟩ := constrain_muxf_tree_view
    { s with
      nets := s.nets ++ [muxq_net bc nb 0 0, muxq_net bc nb 0 1]
      new_cells := s.new_cells ++
        [muxf_prim "MUXF7" (muxf_name bc nb 0 0) d0 d1 s0 (some s.nets.length),
         muxf_prim "MUXF7" (muxf_name bc nb 0 1) d2 d3 s0 (some (s.nets.length + 1)),
         muxf_prim "MUXF8" (muxf_name bc nb 1 0) (some s.nets.length)
           (some (s.nets.length + 1)) s1 out] }
    (CellRef.pending (s.new_cells.length + 2)) (CellRef.pending b)
    (muxf_prim "MUXF8" (muxf_name bc nb 1 0) (some s.nets.length)
      (some (s.nets.length + 1)) s1 out) bc z
    (by
      simp only [get_cell, List.get?_eq_getElem?]
      rw [List.getElem?_append_right (by omega)]
      simp)
    (by
      simp only [get_cell, List.get?_eq_getElem?] at hbc ⊢
      rw [List.getElem?_append_left hbl]
      exact hbc)
  refine ⟨t, ?_, ?_⟩
  · simp only [create_muxf_tree, hbuild, bind, Except.bind]
    exact e1
  · rw [read_view_of_view _ _ v1]
    simp only [List.map_append, hV, List.map_cons, List.map_nil]
    rw [← hbn]
    rfl

theorem lut_reads_slice (v : NetId → Bool) (name : IdString) (cs : DRAMControlSet)
    (n1 n2 n3 n4 n5 n6 d : NetId) (di : Option NetId) (p : Property) :
    lut_reads v (slice_lutx name cs [some n1, some n2, some n3, some n4, some n5, some n6] di
      (some d)).ports (some p) = (v d == init_bit p (select_value v [n1, n2, n3, n4, n5, n6])) :=
  rfl

theorem mux_reads_slice (v : NetId → Bool) (name : IdString) (cs : DRAMControlSet)
    (address : List (Option NetId)) (di dout : Option NetId) :
    mux_reads v (slice_lutx name cs address di dout).ports = true :=
  rfl

theorem lut_reads_muxf (v : NetId → Bool) (t n : IdString) (a b c d : Option NetId)
    (p : Option Property) : lut_reads v (muxf_prim t n a b c d).ports p = true := by
  cases p <;> rfl

theorem mux_reads_muxf (v : NetId → Bool) (t n : IdString) (a b c d : NetId) :
    mux_reads v (muxf_prim t n (some a) (some b) (some c) (some d)).ports =
      (v d == (if v c then v b else v a)) :=
  rfl

theorem extract_getD (p : Property) (o j : Nat) (hj : j < 64) :
    (p.extract o 64).str.getD j S0 = p.str.getD (o + j) S0 := by
  simp [Property.extract, Property.update_intval, List.getD_eq_getElem?_getD, hj]

theorem init_bit_extract (p : Property) (o j : Nat) (hj : j < 64) :
    init_bit (p.extract o 64) j = init_bit p (o + j) := by
  unfold init_bit
  rw [extract_getD p o j hj]

theorem select_value_lt (v : NetId → Bool) (l : List NetId) :
    select_value v l < 2 ^ l.length := by
  induction l with
  | nil => simp [select_value]
  | cons a l ih =>
    simp only [select_value, List.length_cons, pow_succ]
    split_ifs <;> omega

theorem select_value_append (v : NetId → Bool) (l1 l2 : List NetId) :
    select_value v (l1 ++ l2) = select_value v l1 + 2 ^ l1.length * select_value v l2 := by
  induction l1 with
  | nil => simp [select_value]
  | cons a l ih =>
    have e : select_value v (a :: l ++ l2) =
        (if v a then 1 else 0) + 2 * select_value v (l ++ l2) := rfl
    rw [e, ih]
    simp only [select_value, List.length_cons, pow_succ]
    ring

/-- The RAM128X1S strategy on a cell with INIT = V, as a read sees it: LOW and
HIGH on the six low address nets with the windows at 0 and 64 of V, driving two
internal nets, and one MUXF7 that selects between them (LOW on I0, HIGH on I1)
by the seventh address net onto the net that was on O. -/
theorem ram128x1s_read (h : Int) (cs : DRAMControlSet) (idx : Nat) (s : Packer) (ci : CellInfo)
    (V : Property)
    (hc : s.cells.get? idx = some ci) (ht : ci.type = "RAM128X1S") (hw : cs.wa.length = 7)
    (hV : dict_find ci.params "INIT" = some V) :
    ∃ r nl nh, pack_ram128x1s_cell h cs (CellRef.live idx) s = .ok r ∧
      r.new_cells.map read_view = s.new_cells.map read_view ++
        [(ci.name ++ "/LOW", "SLICE_LUTX",
          (slice_lutx (ci.name ++ "/LOW") cs (cs.wa.take 6) (get_net_or_empty ci "D")
            (some nl)).ports, some (V.extract 0 64)),
         (ci.name ++ "/HIGH", "SLICE_LUTX",
          (slice_lutx (ci.name ++ "/HIGH") cs (cs.wa.take 6) (get_net_or_empty ci "D")
            (some nh)).ports, some (V.extract 64 64)),
         (int_name (ci.name ++ "/LOW") ("O" ++ "_muxf_" ++ to_string 0 ++ "_" ++ to_string 0)
            false, "MUXF7",
          (muxf_prim "MUXF7" "" (some nl) (some nh) (net_at cs.wa 6)
            (get_net_or_empty ci "O")).ports, none)] := by
  obtain ⟨sel, hsel⟩ : ∃ sel, cs.wa.drop 6 = [sel] := by
    have : (cs.wa.drop 6).length = 1 := by rw [List.length_drop, hw]
    match hd : cs.wa.drop 6, this with
    | [x], _ => exact ⟨x, rfl⟩
  have hsel6 : net_at cs.wa 6 = sel := by
    have h6 : cs.wa.get? 6 = (cs.wa.drop 6).get? 0 := by
      simp only [List.get?_eq_getElem?, List.getElem?_drop, Nat.add_zero]
    simp only [net_at, h6, hsel]
    rfl
  obtain ⟨t1, e1, v1, _⟩ := create_dram_lut_read (ci.name ++ "/LOW") none cs (cs.wa.take 6)
    (get_net_or_empty ci "D")
    (some (create_internal_net ci.name "O_LOW" false
      { s with cells := s.cells.set idx (disconnect_port ci "O") }).1) (h - 1)
    (create_internal_net ci.name "O_LOW" false
      { s with cells := s.cells.set idx (disconnect_port ci "O") }).2
    (s.new_cells.map read_view) rfl (by rw [List.length_take]; omega) (by omega) (Or.inl rfl)
  obtain ⟨t2, e2, v2, _⟩ := create_dram_lut_read (ci.name ++ "/HIGH")
    (some (CellRef.pending (s.new_cells.map read_view).length)) cs (cs.wa.take 6)
    (get_net_or_empty ci "D")
    (some (create_internal_net ci.name "O_HIGH" false t1).1) (h - 1 - 1)
    (create_internal_net ci.name "O_HIGH" false t1).2
    _ v1
    (by rw [List.length_take]; omega) (by omega)
    (Or.inr ⟨_, rfl, by rw [List.length_append]; exact Nat.lt_succ_self _⟩)
  obtain ⟨t3, e3, v3, _⟩ := set_init_read t2 (s.new_cells.map read_view)
    [_, _] 0
    _ _ _ _ (V.extract 0 64) (by rw [v2, List.append_assoc]; rfl) rfl
  obtain ⟨t4, e4, v4, _⟩ := set_init_read t3 (s.new_cells.map read_view) _ 1
    _ _ _ _ (V.extract 64 64) v3 rfl
  obtain ⟨t5, e5, v5⟩ := create_muxf_tree_two_read t4 _ (s.new_cells.map read_view).length
    (ci.name ++ "/LOW") "SLICE_LUTX" _ (some (V.extract 0 64)) "O"
    (some (create_internal_net ci.name "O_LOW" false
      { s with cells := s.cells.set idx (disconnect_port ci "O") }).1)
    (some (create_internal_net ci.name "O_HIGH" false t1).1) sel (get_net_or_empty ci "O") 2 v4
    (by
      rw [← Nat.add_zero (List.length _), get_append_at]
      rfl)
  simp only [List.length_append, List.length_singleton, Nat.add_zero] at e2 e3 e4
  refine ⟨mark_packed t5 ci.name,
    (create_internal_net ci.name "O_LOW" false
      { s with cells := s.cells.set idx (disconnect_port ci "O") }).1,
    (create_internal_net ci.name "O_HIGH" false t1).1, ?_, ?_⟩
  · unfold pack_ram128x1s_cell
    simp only [deref_live s idx ci hc, bind, Except.bind, ht, ne_eq, not_true_eq_false, if_false,
      modify_cell_live s idx ci _ hc, hV, hsel, e1, e2, e3, e4, e5]
    rfl
  · rw [(mark_packed_new_cells _ _).1, v5, hsel6]
    simp [List.append_assoc]

theorem memory_holds_drop (v : NetId → Bool) (l P : List CellInfo)
    (W : List (IdString × IdString × List (IdString × PortInfo) × Option Property))
    (h : l.map read_view = P.map read_view ++ W) :
    memory_holds v (l.drop P.length) = W.all (reads_ok v) := by
  unfold memory_holds
  rw [List.map_drop, h]
  have : (P.map read_view).length = P.length := List.length_map _ _
  rw [← this, List.drop_left]

theorem seven_nets (was : List NetId) (h : was.length = 7) :
    ∃ a b c d e f g, was = [a, b, c, d, e, f, g] := by
  match was, h with
  | [a, b, c, d, e, f, g], _ => exact ⟨a, b, c, d, e, f, g, rfl⟩

/-- A read of the network of a RAM128X1S: the net that was on O carries V[a],
a the number on the seven write address nets. -/
theorem ram128x1s_reads (cs : DRAMControlSet) (idx : Nat) (s : Packer) (ci : CellInfo)
    (V : Property) (was : List NetId) (out : NetId)
    (hc : s.cells.get? idx = some ci) (hm : cs.memtype = ci.type) (ht : ci.type = "RAM128X1S")
    (hwa : cs.wa = was.map some) (hw : was.length = 7)
    (hV : dict_find ci.params "INIT" = some V) (ho : get_net_or_empty ci "O" = some out) :
    ∃ r, pack_group cs [CellRef.live idx] s = .ok r ∧
      ∀ v, memory_holds v (r.new_cells.drop s.new_cells.length) = true →
        v out = init_bit V (select_value v was) := by
  obtain ⟨r, nl, nh, hr, hv⟩ := ram128x1s_read (cluster_height s) cs idx s ci V hc ht
    (by rw [hwa, List.length_map, hw]) hV
  refine ⟨r, ?_, ?_⟩
  · unfold pack_group
    simp only [hm, ht, String.reduceEq, if_false, if_true, cell_loop, hr, bind, Except.bind]
    rfl
  · intro v hmem
    obtain ⟨a, b, c, d, e, f, g, hl⟩ := seven_nets was hw
    subst hl
    rw [memory_holds_drop v _ _ _ hv, hwa, ho] at hmem
    have htake : List.take 6 (List.map some [a, b, c, d, e, f, g]) =
        [some a, some b, some c, some d, some e, some f] := rfl
    have hsel : net_at (List.map some [a, b, c, d, e, f, g]) 6 = some g := rfl
    rw [htake, hsel] at hmem
    simp only [List.all_cons, List.all_nil, reads_ok, lut_reads_slice, mux_reads_slice,
      lut_reads_muxf, mux_reads_muxf, Bool.and_true, Bool.true_and, Bool.and_eq_true,
      beq_iff_eq] at hmem
    obtain ⟨h1, h2, h3⟩ := hmem
    have hlt := select_value_lt v [a, b, c, d, e, f]
    have happ := select_value_append v [a, b, c, d, e, f] [g]
    simp only [List.cons_append, List.nil_append, List.length_cons, List.length_nil] at happ hlt
    rw [happ, h3]
    by_cases hg : v g = true
    · rw [if_pos hg, h2, init_bit_extract _ _ _ hlt]
      simp only [select_value, hg, if_true]
      congr 1
      omega
    · rw [if_neg hg, h1, init_bit_extract _ _ _ hlt]
      simp only [select_value, hg]
      congr 1
      simp

/-- The RAM128X1D strategy on a cell with INIT = V, as a read sees it: SP.LOW and
SP.HIGH on the six low write address nets, DP.LOW and DP.HIGH on the six low
DPRA nets, each pair with the windows at 0 and 64 of V, and two MUXF7: one
selecting the SP pair by the seventh write address net onto the net that was on
SPO, one selecting the DP pair by DPRA[6] onto the net that was on DPO. -/
theorem ram128x1d_read (h : Int) (cs : DRAMControlSet) (idx : Nat) (s : Packer) (ci : CellInfo)
    (V : Property)
    (hc : s.cells.get? idx = some ci) (ht : ci.type = "RAM128X1D") (hw : cs.wa.length = 7)
    (hV : dict_find ci.params "INIT" = some V) :
    ∃ r sl sh dl dh, pack_ram128x1d_cell h cs (CellRef.live idx) s = .ok r ∧
      r.new_cells.map read_view = s.new_cells.map read_view ++
        [(ci.name ++ "/SP.LOW", "SLICE_LUTX",
          (slice_lutx (ci.name ++ "/SP.LOW") cs (cs.wa.take 6) (get_net_or_empty ci "D")
            (some sl)).ports, some (V.extract 0 64)),
         (ci.name ++ "/SP.HIGH", "SLICE_LUTX",
          (slice_lutx (ci.name ++ "/SP.HIGH") cs (cs.wa.take 6) (get_net_or_empty ci "D")
            (some sh)).ports, some (V.extract 64 64)),
         (ci.name ++ "/DP.LOW", "SLICE_LUTX",
          (slice_lutx (ci.name ++ "/DP.LOW") cs (address_nets ci 7 "DPRA" 6 0)
            (get_net_or_empty ci "D") (some dl)).ports, some (V.extract 0 64)),
         (ci.name ++ "/DP.HIGH", "SLICE_LUTX",
          (slice_lutx (ci.name ++ "/DP.HIGH") cs (address_nets ci 7 "DPRA" 6 0)
            (get_net_or_empty ci "D") (some dh)).ports, some (V.extract 64 64)),
         (int_name (ci.name ++ "/SP.LOW")
            ("SPO" ++ "_muxf_" ++ to_string 0 ++ "_" ++ to_string 0) false, "MUXF7",
          (muxf_prim "MUXF7" "" (some sl) (some sh) (net_at cs.wa 6)
            (get_net_or_empty ci "SPO")).ports, none),
         (int_name (ci.name ++ "/SP.LOW")
            ("DPO" ++ "_muxf_" ++ to_string 0 ++ "_" ++ to_string 0) false, "MUXF7",
          (muxf_prim "MUXF7" "" (some dl) (some dh)
            (get_net_or_empty ci (addr_port 7 "DPRA" 6)) (get_net_or_empty ci "DPO")).ports,
          none)] := by
  obtain ⟨sel, hsel⟩ : ∃ sel, cs.wa.drop 6 = [sel] := by
    have : (cs.wa.drop 6).length = 1 := by rw [List.length_drop, hw]
    match hd : cs.wa.drop 6, this with
    | [x], _ => exact ⟨x, rfl⟩
  have hsel6 : net_at cs.wa 6 = sel := by
    have h6 : cs.wa.get? 6 = (cs.wa.drop 6).get? 0 := by
      simp only [List.get?_eq_getElem?, List.getElem?_drop, Nat.add_zero]
    simp only [net_at, h6, hsel]
    rfl
  have hmin : min cs.wa.length 6 = 6 := by rw [hw]; rfl
  have hinit : get_or_default ci.params "INIT" (Property.of_int 0 128) = V := by
    simp only [get_or_default, hV]
  have hra : (address_nets ci 7 "DPRA" 6 0).length ≤ 6 := by
    simp only [address_nets, List.length_cons, List.length_nil]
    omega
  have hbase : ∀ (x : IdString × IdString × List (IdString × PortInfo) × Option Property)
      (W : List (IdString × IdString × List (IdString × PortInfo) × Option Property)),
      (some (CellRef.pending (s.new_cells.map read_view).length) : Option CellRef) = none ∨
      ∃ b, some (CellRef.pending (s.new_cells.map read_view).length) = some (CellRef.pending b) ∧
        b < (s.new_cells.map read_view ++ x :: W).length :=
    fun x W => Or.inr ⟨_, rfl, by rw [List.length_append, List.length_cons]; omega⟩
  obtain ⟨t1, e1, v1, _⟩ := create_dram_lut_read (ci.name ++ "/SP.LOW") none cs (cs.wa.take 6)
    (get_net_or_empty ci "D")
    (some (create_internal_net ci.name "SPO_LOW" false
      { s with
        cells := s.cells.set idx (disconnect_port (disconnect_port ci "DPO") "SPO") }).1) (h - 1)
    (create_internal_net ci.name "SPO_LOW" false
      { s with cells := s.cells.set idx (disconnect_port (disconnect_port ci "DPO") "SPO") }).2
    (s.new_cells.map read_view) rfl (by rw [List.length_take]; omega) (by omega) (Or.inl rfl)
  obtain ⟨t2, e2, v2, _⟩ := set_init_read t1 (s.new_cells.map read_view)
    [_] 0 _ _ _ _ (V.extract 0 64) v1 rfl
  obtain ⟨t3, e3, v3, _⟩ := create_dram_lut_read (ci.name ++ "/SP.HIGH")
    (some (CellRef.pending (s.new_cells.map read_view).length)) cs (cs.wa.take 6)
    (get_net_or_empty ci "D")
    (some (create_internal_net ci.name "SPO_HIGH" false t2).1) (h - 1 - 1)
    (create_internal_net ci.name "SPO_HIGH" false t2).2 _ v2
    (by rw [List.length_take]; omega) (by omega) (hbase _ [])
  obtain ⟨t4, e4, v4, _⟩ := set_init_read t3 (s.new_cells.map read_view)
    [_, _] 1 _ _ _ _ (V.extract 64 64)
    (by rw [v3, List.append_assoc]; rfl) rfl
  obtain ⟨t5, e5, v5, _⟩ := create_dram_lut_read (ci.name ++ "/DP.LOW")
    (some (CellRef.pending (s.new_cells.map read_view).length)) cs
    (address_nets ci 7 "DPRA" 6 0) (get_net_or_empty ci "D")
    (some (create_internal_net ci.name "DPO_LOW" false t4).1) (h - 1 - 1 - 1)
    (create_internal_net ci.name "DPO_LOW" false t4).2 _ v4 hra (by omega) (hbase _ _)
  obtain ⟨t6, e6, v6, _⟩ := set_init_read t5 (s.new_cells.map read_view)
    [_, _, _] 2 _ _ _ _ (V.extract 0 64)
    (by rw [v5, List.append_assoc]; rfl) rfl
  obtain ⟨t7, e7, v7, _⟩ := create_dram_lut_read (ci.name ++ "/DP.HIGH")
    (some (CellRef.pending (s.new_cells.map read_view).length)) cs
    (address_nets ci 7 "DPRA" 6 0) (get_net_or_empty ci "D")
    (some (create_internal_net ci.name "DPO_HIGH" false t6).1) (h - 1 - 1 - 1 - 1)
    (create_internal_net ci.name "DPO_HIGH" false t6).2 _ v6 hra (by omega) (hbase _ _)
  obtain ⟨t8, e8, v8, _⟩ := set_init_read t7 (s.new_cells.map read_view)
    [_, _, _, _] 3 _ _ _ _ (V.extract 64 64)
    (by rw [v7, List.append_assoc]; rfl) rfl
  obtain ⟨t9, e9, v9⟩ := create_muxf_tree_two_read t8 _ (s.new_cells.map read_view).length
    (ci.name ++ "/SP.LOW") "SLICE_LUTX" _ (some (V.extract 0 64)) "SPO"
    (some (create_internal_net ci.name "SPO_LOW" false
      { s with
        cells := s.cells.set idx (disconnect_port (disconnect_port ci "DPO") "SPO") }).1)
    (some (create_internal_net ci.name "SPO_HIGH" false t2).1) sel (get_net_or_empty ci "SPO") 2
    v8 (by rw [← Nat.add_zero (List.length _), get_append_at]; rfl)
  have w9 := v9
  rw [List.append_assoc] at w9
  obtain ⟨t10, e10, v10⟩ := create_muxf_tree_two_read t9 _ (s.new_cells.map read_view).length
    (ci.name ++ "/SP.LOW") "SLICE_LUTX" _ (some (V.extract 0 64)) "DPO"
    (some (create_internal_net ci.name "DPO_LOW" false t4).1)
    (some (create_internal_net ci.name "DPO_HIGH" false t6).1)
    (get_net_or_empty ci (addr_port 7 "DPRA" 6)) (get_net_or_empty ci "DPO") 0
    w9 (by rw [← Nat.add_zero (List.length _), get_append_at]; rfl)
  simp only [Nat.add_zero] at e2
  simp only [address_nets, Nat.reduceAdd, zero_add] at e5 e7
  simp only [List.length_append, List.length_set, List.length_cons, List.length_nil,
    Nat.reduceAdd, zero_add] at e3 e4 e5 e6 e7 e8
  refine ⟨mark_packed t10 ci.name,
    (create_internal_net ci.name "SPO_LOW" false
      { s with
        cells := s.cells.set idx (disconnect_port (disconnect_port ci "DPO") "SPO") }).1,
    (create_internal_net ci.name "SPO_HIGH" false t2).1,
    (create_internal_net ci.name "DPO_LOW" false t4).1,
    (create_internal_net ci.name "DPO_HIGH" false t6).1, ?_, ?_⟩
  · unfold pack_ram128x1d_cell
    simp only [deref_live s idx ci hc, bind, Except.bind, ht, ne_eq, not_true_eq_false, if_false,
      modify_cell_live s idx ci _ hc, hinit, hmin, hsel, e1, e2, e3, List.length_append,
      List.length_cons, List.length_nil, List.length_singleton, Nat.reduceAdd, zero_add, e4, e5,
      e6, e7, e8, e9, address_nets, e10]
    rfl
  · rw [(mark_packed_new_cells _ _).1, v10, hsel6]
    simp [List.append_assoc, address_nets]

theorem two_windows (v : NetId → Bool) (V : Property) (a b c d e f g lo hi out : NetId)
    (h1 : v lo = init_bit (V.extract 0 64) (select_value v [a, b, c, d, e, f]))
    (h2 : v hi = init_bit (V.extract 64 64) (select_value v [a, b, c, d, e, f]))
    (h3 : v out = if v g = true then v hi else v lo) :
    v out = init_bit V (select_value v [a, b, c, d, e, f, g]) := by
  have hlt := select_value_lt v [a, b, c, d, e, f]
  have happ := select_value_append v [a, b, c, d, e, f] [g]
  simp only [List.cons_append, List.nil_append, List.length_cons, List.length_nil] at happ hlt
  rw [happ, h3]
  by_cases hg : v g = true
  · rw [if_pos hg, h2, init_bit_extract _ _ _ hlt]
    simp only [select_value, hg, if_true]
    congr 1
    omega
  · rw [if_neg hg, h1, init_bit_extract _ _ _ hlt]
    simp only [select_value, hg]
    congr 1
    simp

/-- A read of the network of a RAM128X1D: the net that was on SPO carries V[a],
a the number on the seven write address nets, and the net that was on DPO
carries V[b], b the number on the seven DPRA nets. -/
theorem ram128x1d_reads (cs : DRAMControlSet) (idx : Nat) (s : Packer) (ci : CellInfo)
    (V : Property) (was ras : List NetId) (spo dpo : NetId)
    (hc : s.cells.get? idx = some ci) (hm : cs.memtype = ci.type) (ht : ci.type = "RAM128X1D")
    (hwa : cs.wa = was.map some) (hw : was.length = 7)
    (hra : address_nets ci 7 "DPRA" 7 0 = ras.map some)
    (hV : dict_find ci.params "INIT" = some V)
    (hs : get_net_or_empty ci "SPO" = some spo) (hd : get_net_or_empty ci "DPO" = some dpo) :
    ∃ r, pack_group cs [CellRef.live idx] s = .ok r ∧
      ∀ v, memory_holds v (r.new_cells.drop s.new_cells.length) = true →
        v spo = init_bit V (select_value v was) ∧ v dpo = init_bit V (select_value v ras) := by
  obtain ⟨r, sl, sh, dl, dh, hr, hv⟩ := ram128x1d_read (cluster_height s) cs idx s ci V hc ht
    (by rw [hwa, List.length_map, hw]) hV
  refine ⟨r, ?_, ?_⟩
  · unfold pack_group
    simp only [hm, ht, String.reduceEq, if_false, if_true, cell_loop, hr, bind, Except.bind]
    rfl
  · intro v hmem
    obtain ⟨a, b, c, d, e, f, g, hl⟩ := seven_nets was hw
    have hrl : ras.length = 7 := by
      have := congrArg List.length hra
      simpa [address_nets] using this.symm
    obtain ⟨a2, b2, c2, d2, e2, f2, g2, hl2⟩ := seven_nets ras hrl
    subst hl hl2
    simp only [address_nets, List.map_cons, List.map_nil, List.cons.injEq, and_true,
      Nat.reduceAdd, zero_add] at hra
    obtain ⟨r0, r1, r2, r3, r4, r5, r6⟩ := hra
    rw [memory_holds_drop v _ _ _ hv, hwa, hs, hd] at hmem
    have htake : List.take 6 (List.map some [a, b, c, d, e, f, g]) =
        [some a, some b, some c, some d, some e, some f] := rfl
    have hsel : net_at (List.map some [a, b, c, d, e, f, g]) 6 = some g := rfl
    rw [htake, hsel] at hmem
    simp only [address_nets, Nat.reduceAdd, zero_add, r0, r1, r2, r3, r4, r5, r6] at hmem
    simp only [List.all_cons, List.all_nil, reads_ok, lut_reads_slice, mux_reads_slice,
      lut_reads_muxf, mux_reads_muxf, Bool.and_true, Bool.true_and, Bool.and_eq_true,
      beq_iff_eq] at hmem
    obtain ⟨h1, h2, h3, h4, h5, h6⟩ := hmem
    exact ⟨two_windows v V a b c d e f g sl sh spo h1 h2 h5,
      two_windows v V a2 b2 c2 d2 e2 f2 g2 dl dh dpo h3 h4 h6⟩

/-- C28: a RAM128X1S or RAM128X1D cell with INIT = V whose write address is the
seven nets on A[0..6], packed as a group of its own: the strategy returns, and
every valuation of the nets that agrees with the primitives it pushed (each
64-row memory read at its six address pins, each mux giving I0 for S = 0 and I1
for S = 1) puts V[a] on the net that was on O of a RAM128X1S, a the number on
the write address nets, and for a RAM128X1D puts V[a] on the net that was on
SPO and V[b] on the net that was on DPO, b the number on the nets of
DPRA[0..6]. -/
theorem pack_dram_reads_128 (cs : DRAMControlSet) (idx : Nat) (s : Packer) (ci : CellInfo)
    (V : Property) (was : List NetId)
    (hc : s.cells.get? idx = some ci) (hm : cs.memtype = ci.type)
    (hA : address_nets ci 7 "A" 7 0 = was.map some)
    (hwa : cs.wa = address_nets ci 7 "A" 7 0)
    (hV : dict_find ci.params "INIT" = some V) :
    (ci.type = "RAM128X1S" → ∀ out, get_net_or_empty ci "O" = some out →
      ∃ r, pack_group cs [CellRef.live idx] s = .ok r ∧
        ∀ v, memory_holds v (r.new_cells.drop s.new_cells.length) = true →
          v out = init_bit V (select_value v was)) ∧
    (ci.type = "RAM128X1D" → ∀ ras spo dpo, address_nets ci 7 "DPRA" 7 0 = ras.map some →
      get_net_or_empty ci "SPO" = some spo → get_net_or_empty ci "DPO" = some dpo →
      ∃ r, pack_group cs [CellRef.live idx] s = .ok r ∧
        ∀ v, memory_holds v (r.new_cells.drop s.new_cells.length) = true →
          v spo = init_bit V (select_value v was) ∧
          v dpo = init_bit V (select_value v ras)) := by
  have hw : was.length = 7 := by
    have := congrArg List.length hA
    simpa [address_nets] using this.symm
  refine ⟨?_, ?_⟩
  · intro ht out ho
    exact ram128x1s_reads cs idx s ci V was out hc hm ht (hwa.trans hA) hw hV ho
  · intro ht ras spo dpo hra hs hd
    exact ram128x1d_reads cs idx s ci V was ras spo dpo hc hm ht (hwa.trans hA) hw hra hV hs hd

theorem pack_dram_reads_128_witness :
    (∃ r, pack_group
        (control_set (memory_design "RAM128X1S" (Property.of_int 5 128))
          { abits := 7, dbits := 1, rports := 0 }
          (memory_cell "RAM128X1S" (Property.of_int 5 128)))
        [CellRef.live 0] (memory_design "RAM128X1S" (Property.of_int 5 128)) = .ok r ∧
      ∀ v, memory_holds v
          (r.new_cells.drop (memory_design "RAM128X1S" (Property.of_int 5 128)).new_cells.length) =
            true →
        v 11 = init_bit (Property.of_int 5 128) (select_value v [2, 3, 4, 5, 6, 7, 8])) ∧
    (∃ r, pack_group
        (control_set (memory_design "RAM128X1D" (Property.of_int 5 128))
          { abits := 7, dbits := 1, rports := 1 }
          (memory_cell "RAM128X1D" (Property.of_int 5 128)))
        [CellRef.live 0] (memory_design "RAM128X1D" (Property.of_int 5 128)) = .ok r ∧
      ∀ v, memory_holds v
          (r.new_cells.drop (memory_design "RAM128X1D" (Property.of_int 5 128)).new_cells.length) =
            true →
        v 11 = init_bit (Property.of_int 5 128) (select_value v [2, 3, 4, 5, 6, 7, 8]) ∧
        v 12 = init_bit (Property.of_int 5 128)
          (select_value v [16, 17, 18, 19, 20, 21, 22])) :=
  ⟨(pack_dram_reads_128 _ 0 (memory_design "RAM128X1S" (Property.of_int 5 128))
      (memory_cell "RAM128X1S" (Property.of_int 5 128)) (Property.of_int 5 128)
      [2, 3, 4, 5, 6, 7, 8] rfl rfl rfl rfl rfl).1 rfl 11 rfl,
   (pack_dram_reads_128 _ 0 (memory_design "RAM128X1D" (Property.of_int 5 128))
      (memory_cell "RAM128X1D" (Property.of_int 5 128)) (Property.of_int 5 128)
      [2, 3, 4, 5, 6, 7, 8] rfl rfl rfl rfl rfl).2 rfl [16, 17, 18, 19, 20, 21, 22] 11 12
        rfl rfl rfl⟩

set_option maxRecDepth 100000 in
/-- The network of the sample RAM128X1S read at address 2: the valuation that is
high on A[1], on the output of LOW and on the net that was on O agrees with
every primitive pushed. -/
theorem ram128x1s_sample_read :
    (pack_group
        (control_set (memory_design "RAM128X1S" (Property.of_int 5 128))
          { abits := 7, dbits := 1, rports := 0 }
          (memory_cell "RAM128X1S" (Property.of_int 5 128)))
        [CellRef.live 0] (memory_design "RAM128X1S" (Property.of_int 5 128))).toOption.map
      (fun r => memory_holds (high_on [3, 32, 11]) r.new_cells) = some true := by
  rfl

/-- The RAM256X1S strategy on a cell with INIT = V, as a read sees it: the
memories D, C, B and A on the six low address nets, with the windows at 192,
128, 64 and 0 of V, a MUXF7 selecting between D (I0) and C (I1) and one between
B (I0) and A (I1) by the seventh address net, and a MUXF8 selecting between the
two MUXF7 by the eighth onto the net that was on O. -/
theorem ram256x1s_read (h : Int) (cs : DRAMControlSet) (idx : Nat) (s : Packer) (ci : CellInfo)
    (V : Property)
    (hc : s.cells.get? idx = some ci) (ht : ci.type = "RAM256X1S") (hw : cs.wa.length = 8)
    (hV : dict_find ci.params "INIT" = some V) :
    ∃ r nd nc nb na q0 q1, pack_ram256x1s_cell h cs (CellRef.live idx) s = .ok r ∧
      r.new_cells.map read_view = s.new_cells.map read_view ++
        [(ci.name ++ "/RAMS64E_D", "SLICE_LUTX",
          (slice_lutx (ci.name ++ "/RAMS64E_D") cs (cs.wa.take 6) (get_net_or_empty ci "D")
            (some nd)).ports, some (V.extract 192 64)),
         (ci.name ++ "/RAMS64E_C", "SLICE_LUTX",
          (slice_lutx (ci.name ++ "/RAMS64E_C") cs (cs.wa.take 6) (get_net_or_empty ci "D")
            (some nc)).ports, some (V.extract 128 64)),
         (ci.name ++ "/RAMS64E_B", "SLICE_LUTX",
          (slice_lutx (ci.name ++ "/RAMS64E_B") cs (cs.wa.take 6) (get_net_or_empty ci "D")
            (some nb)).ports, some (V.extract 64 64)),
         (ci.name ++ "/RAMS64E_A", "SLICE_LUTX",
          (slice_lutx (ci.name ++ "/RAMS64E_A") cs (cs.wa.take 6) (get_net_or_empty ci "D")
            (some na)).ports, some (V.extract 0 64)),
         (int_name (ci.name ++ "/RAMS64E_D")
            ("O" ++ "_muxf_" ++ to_string 0 ++ "_" ++ to_string 0) false, "MUXF7",
          (muxf_prim "MUXF7" "" (some nd) (some nc) (net_at cs.wa 6) (some q0)).ports, none),
         (int_name (ci.name ++ "/RAMS64E_D")
            ("O" ++ "_muxf_" ++ to_string 0 ++ "_" ++ to_string 1) false, "MUXF7",
          (muxf_prim "MUXF7" "" (some nb) (some na) (net_at cs.wa 6) (some q1)).ports, none),
         (int_name (ci.name ++ "/RAMS64E_D")
            ("O" ++ "_muxf_" ++ to_string 1 ++ "_" ++ to_string 0) false, "MUXF8",
          (muxf_prim "MUXF8" "" (some q0) (some q1) (net_at cs.wa 7)
            (get_net_or_empty ci "O")).ports, none)] := by
  obtain ⟨sel0, sel1, hsel⟩ : ∃ sel0 sel1, cs.wa.drop 6 = [sel0, sel1] := by
    have : (cs.wa.drop 6).length = 2 := by rw [List.length_drop, hw]
    match hd : cs.wa.drop 6, this with
    | [x, y], _ => exact ⟨x, y, rfl⟩
  have hsel6 : net_at cs.wa 6 = sel0 := by
    have h6 : cs.wa.get? 6 = (cs.wa.drop 6).get? 0 := by
      simp only [List.get?_eq_getElem?, List.getElem?_drop, Nat.add_zero]
    simp only [net_at, h6, hsel]
    rfl
  have hsel7 : net_at cs.wa 7 = sel1 := by
    have h7 : cs.wa.get? 7 = (cs.wa.drop 6).get? 1 := by
      simp only [List.get?_eq_getElem?, List.getElem?_drop]
    simp only [net_at, h7, hsel]
    rfl
  have hbase : ∀ (x : IdString × IdString × List (IdString × PortInfo) × Option Property)
      (W : List (IdString × IdString × List (IdString × PortInfo) × Option Property)),
      (some (CellRef.pending (s.new_cells.map read_view).length) : Option CellRef) = none ∨
      ∃ b, some (CellRef.pending (s.new_cells.map read_view).length) = some (CellRef.pending b) ∧
        b < (s.new_cells.map read_view ++ x :: W).length :=
    fun x W => Or.inr ⟨_, rfl, by rw [List.length_append, List.length_cons]; omega⟩
  obtain ⟨t1, e1, v1, _⟩ := create_dram_lut_read (ci.name ++ "/RAMS64E_D") none cs (cs.wa.take 6)
    (get_net_or_empty ci "D")
    (some (create_internal_net ci.name "O_RAMS64E_D" false
      { s with cells := s.cells.set idx (disconnect_port ci "O") }).1) (h - 1)
    (create_internal_net ci.name "O_RAMS64E_D" false
      { s with cells := s.cells.set idx (disconnect_port ci "O") }).2
    (s.new_cells.map read_view) rfl (by rw [List.length_take]; omega) (by omega) (Or.inl rfl)
  obtain ⟨t2, e2, v2, _⟩ := create_dram_lut_read (ci.name ++ "/RAMS64E_C")
    (some (CellRef.pending (s.new_cells.map read_view).length)) cs (cs.wa.take 6)
    (get_net_or_empty ci "D")
    (some (create_internal_net ci.name "O_RAMS64E_C" false t1).1) (h - 1 - 1)
    (create_internal_net ci.name "O_RAMS64E_C" false t1).2
    _ v1
    (by rw [List.length_take]; omega) (by omega) (hbase _ [])
  rw [List.append_assoc] at v2
  obtain ⟨t3, e3, v3, _⟩ := create_dram_lut_read (ci.name ++ "/RAMS64E_B")
    (some (CellRef.pending (s.new_cells.map read_view).length)) cs (cs.wa.take 6)
    (get_net_or_empty ci "D")
    (some (create_internal_net ci.name "O_RAMS64E_B" false t2).1) (h - 1 - 1 - 1)
    (create_internal_net ci.name "O_RAMS64E_B" false t2).2
    _ v2
    (by rw [List.length_take]; omega) (by omega) (hbase _ _)
  rw [List.append_assoc] at v3
  obtain ⟨t4, e4, v4, _⟩ := create_dram_lut_read (ci.name ++ "/RAMS64E_A")
    (some (CellRef.pending (s.new_cells.map read_view).length)) cs (cs.wa.take 6)
    (get_net_or_empty ci "D")
    (some (create_internal_net ci.name "O_RAMS64E_A" false t3).1) (h - 1 - 1 - 1 - 1)
    (create_internal_net ci.name "O_RAMS64E_A" false t3).2
    _ v3
    (by rw [List.length_take]; omega) (by omega) (hbase _ _)
  obtain ⟨t5, e5, v5, _⟩ := set_init_read t4 (s.new_cells.map read_view)
    [_, _, _, _]
    0 _ _ _ _ (V.extract 192 64) (by rw [v4, List.append_assoc]; rfl) rfl
  obtain ⟨t6, e6, v6, _⟩ := set_init_read t5 (s.new_cells.map read_view) _ 1
    _ _ _ _ (V.extract 128 64) v5 rfl
  obtain ⟨t7, e7, v7, _⟩ := set_init_read t6 (s.new_cells.map read_view) _ 2
    _ _ _ _ (V.extract 64 64) v6 rfl
  obtain ⟨t8, e8, v8, _⟩ := set_init_read t7 (s.new_cells.map read_view) _ 3
    _ _ _ _ (V.extract 0 64) v7 rfl
  obtain ⟨t9, e9, v9⟩ := create_muxf_tree_four_read t8 _ (s.new_cells.map read_view).length
    (ci.name ++ "/RAMS64E_D") "SLICE_LUTX" _ (some (V.extract 192 64)) "O"
    (some (create_internal_net ci.name "O_RAMS64E_D" false
      { s with cells := s.cells.set idx (disconnect_port ci "O") }).1)
    (some (create_internal_net ci.name "O_RAMS64E_C" false t1).1)
    (some (create_internal_net ci.name "O_RAMS64E_B" false t2).1)
    (some (create_internal_net ci.name "O_RAMS64E_A" false t3).1)
    sel0 sel1 (get_net_or_empty ci "O") 0 v8
    (by rw [← Nat.add_zero (List.length _), get_append_at]; rfl)
  simp only [Nat.add_zero] at e5
  simp only [List.length_append, List.length_set, List.length_cons, List.length_nil,
    Nat.reduceAdd, zero_add] at e2 e3 e4 e5 e6 e7 e8
  refine ⟨mark_packed t9 ci.name,
    (create_internal_net ci.name "O_RAMS64E_D" false
      { s with cells := s.cells.set idx (disconnect_port ci "O") }).1,
    (create_internal_net ci.name "O_RAMS64E_C" false t1).1,
    (create_internal_net ci.name "O_RAMS64E_B" false t2).1,
    (create_internal_net ci.name "O_RAMS64E_A" false t3).1,
    t8.nets.length, t8.nets.length + 1, ?_, ?_⟩
  · unfold pack_ram256x1s_cell
    simp only [deref_live s idx ci hc, bind, Except.bind, ht, ne_eq, not_true_eq_false, if_false,
      modify_cell_live s idx ci _ hc, hV, hsel, e1, e2, e3, e4, e5, List.length_append,
      List.length_cons, List.length_nil, List.length_singleton, Nat.reduceAdd, zero_add, e6, e7,
      e8, e9]
    rfl
  · rw [(mark_packed_new_cells _ _).1, v9, hsel6, hsel7]
    simp [List.append_assoc]

theorem eight_nets (was : List NetId) (h : was.length = 8) :
    ∃ a b c d e f g k, was = [a, b, c, d, e, f, g, k] := by
  match was, h with
  | [a, b, c, d, e, f, g, k], _ => exact ⟨a, b, c, d, e, f, g, k, rfl⟩

/-- A read of the network of a RAM256X1S: the net that was on O carries the bit
of V at row (3 - k) * 64 + a, a the number on the six low address nets and k
the number on the two high ones: the window at 192 answers k = 0, the window at
0 answers k = 3. -/
theorem ram256x1s_reads (cs : DRAMControlSet) (idx : Nat) (s : Packer) (ci : CellInfo)
    (V : Property) (was : List NetId) (out : NetId)
    (hc : s.cells.get? idx = some ci) (hm : cs.memtype = ci.type) (ht : ci.type = "RAM256X1S")
    (hwa : cs.wa = was.map some) (hw : was.length = 8)
    (hV : dict_find ci.params "INIT" = some V) (ho : get_net_or_empty ci "O" = some out) :
    ∃ r, pack_group cs [CellRef.live idx] s = .ok r ∧
      ∀ v, memory_holds v (r.new_cells.drop s.new_cells.length) = true →
        v out = init_bit V
          ((3 - select_value v (was.drop 6)) * 64 + select_value v (was.take 6)) := by
  obtain ⟨r, nd, nc, nb, na, q0, q1, hr, hv⟩ := ram256x1s_read (cluster_height s) cs idx s ci V
    hc ht (by rw [hwa, List.length_map, hw]) hV
  refine ⟨r, ?_, ?_⟩
  · unfold pack_group
    simp only [hm, ht, String.reduceEq, if_false, if_true, cell_loop, hr, bind, Except.bind]
    rfl
  · intro v hmem
    obtain ⟨a, b, c, d, e, f, g, k, hl⟩ := eight_nets was hw
    subst hl
    rw [memory_holds_drop v _ _ _ hv, hwa, ho] at hmem
    have htake : List.take 6 (List.map some [a, b, c, d, e, f, g, k]) =
        [some a, some b, some c, some d, some e, some f] := rfl
    have hsel : net_at (List.map some [a, b, c, d, e, f, g, k]) 6 = some g := rfl
    have hsel2 : net_at (List.map some [a, b, c, d, e, f, g, k]) 7 = some k := rfl
    rw [htake, hsel, hsel2] at hmem
    simp only [List.all_cons, List.all_nil, reads_ok, lut_reads_slice, mux_reads_slice,
      lut_reads_muxf, mux_reads_muxf, Bool.and_true, Bool.true_and, Bool.and_eq_true,
      beq_iff_eq] at hmem
    obtain ⟨h1, h2, h3, h4, h5, h6, h7⟩ := hmem
    have hlt := select_value_lt v [a, b, c, d, e, f]
    simp only [List.length_cons, List.length_nil] at hlt
    have hd : List.drop 6 [a, b, c, d, e, f, g, k] = [g, k] := rfl
    have htk : List.take 6 [a, b, c, d, e, f, g, k] = [a, b, c, d, e, f] := rfl
    rw [hd, htk, h7]
    by_cases hk : v k = true <;> by_cases hg : v g = true
    · rw [if_pos hk, h6, if_pos hg, h4, init_bit_extract _ _ _ hlt]
      simp [select_value, hk, hg]
    · rw [if_pos hk, h6, if_neg hg, h3, init_bit_extract _ _ _ hlt]
      simp [select_value, hk, hg]
    · rw [if_neg hk, h5, if_pos hg, h2, init_bit_extract _ _ _ hlt]
      simp [select_value, hk, hg]
    · rw [if_neg hk, h5, if_neg hg, h1, init_bit_extract _ _ _ hlt]
      simp [select_value, hk, hg]

set_option maxRecDepth 100000 in
/-- C27: a RAM256X1S cell whose INIT has bit 192 set and every other bit clear,
packed as a group of its own. The strategy returns; the valuation that holds
all eight address nets low and is high on the output of the memory D, on the
output of the first MUXF7 and on the net that was on O agrees with every
primitive pushed; and every valuation that agrees with them and holds the eight
address nets low (address 0) is high on the net that was on O, which is V[192],
while V[0] is low: data source 0 of the tree holds the window at 192, not the
window at 0. -/
theorem pack_dram_ram256x1s_window_order :
    ∃ r, pack_group
        (control_set (memory_design "RAM256X1S" (Property.of_int (2 ^ 192) 256))
          { abits := 8, dbits := 1, rports := 0 }
          (memory_cell "RAM256X1S" (Property.of_int (2 ^ 192) 256)))
        [CellRef.live 0] (memory_design "RAM256X1S" (Property.of_int (2 ^ 192) 256)) = .ok r ∧
      memory_holds (high_on [32, 36, 11]) r.new_cells = true ∧
      (∀ v, memory_holds v r.new_cells = true →
        v 2 = false → v 3 = false → v 4 = false → v 5 = false → v 6 = false → v 7 = false →
        v 8 = false → v 9 = false → v 11 = true) ∧
      init_bit (Property.of_int (2 ^ 192) 256) 0 = false ∧
      init_bit (Property.of_int (2 ^ 192) 256) 192 = true := by
  obtain ⟨r, hr, hv⟩ := ram256x1s_reads
    (control_set (memory_design "RAM256X1S" (Property.of_int (2 ^ 192) 256))
      { abits := 8, dbits := 1, rports := 0 }
      (memory_cell "RAM256X1S" (Property.of_int (2 ^ 192) 256)))
    0 (memory_design "RAM256X1S" (Property.of_int (2 ^ 192) 256))
    (memory_cell "RAM256X1S" (Property.of_int (2 ^ 192) 256))
    (Property.of_int (2 ^ 192) 256) [2, 3, 4, 5, 6, 7, 8, 9] 11 rfl rfl rfl rfl rfl rfl rfl
  refine ⟨r, hr, ?_, ?_, by decide, by decide⟩
  · have hsome := congrArg (fun e => e.toOption.map
      (fun t => memory_holds (high_on [32, 36, 11]) t.new_cells)) hr
    have hval : (pack_group
        (control_set (memory_design "RAM256X1S" (Property.of_int (2 ^ 192) 256))
          { abits := 8, dbits := 1, rports := 0 }
          (memory_cell "RAM256X1S" (Property.of_int (2 ^ 192) 256)))
        [CellRef.live 0]
        (memory_design "RAM256X1S" (Property.of_int (2 ^ 192) 256))).toOption.map
        (fun t => memory_holds (high_on [32, 36, 11]) t.new_cells) = some true := by
      rfl
    simp only [hval] at hsome
    simpa [Except.toOption] using hsome.symm
  · intro v hmem h2 h3 h4 h5 h6 h7 h8 h9
    have h := hv v hmem
    rw [h]
    simp only [List.drop, List.take, select_value, h2, h3, h4, h5, h6, h7, h8, h9]
    decide

/-! ### Slots of the dual-port stacks -/

theorem slots_added_refl (s : Packer) : slots_added s s [] :=
  ⟨rfl, by simp⟩

theorem slots_added_trans (s t u : Packer) (N M : List (Int × Option CellRef))
    (h1 : slots_added s t N) (h2 : slots_added t u M) : slots_added s u (N ++ M) := by
  refine ⟨h2.1.trans h1.1, ?_⟩
  rw [h2.2, h1.2, h1.1, List.map_append, List.append_assoc]

theorem slots_added_length (s t : Packer) (N : List (Int × Option CellRef))
    (h : slots_added s t N) : t.new_cells.length = s.new_cells.length + N.length := by
  have := congrArg List.length h.2
  simpa using this

theorem slots_added_of_eq (s t : Packer) (hb : t.BEL_6LUT = s.BEL_6LUT)
    (hn : t.new_cells.map slot_view = s.new_cells.map slot_view) : slots_added s t [] :=
  ⟨hb, by simp [hn]⟩

theorem modify_cell_slots (s t : Packer) (r : CellRef) (f : CellInfo → CellInfo)
    (h : modify_cell s r f = .ok t) (hf : ∀ c, slot_view (f c) = slot_view c) :
    slots_added s t [] := by
  unfold modify_cell at h
  cases hg : get_cell s r with
  | none => rw [hg] at h; cases h
  | some c =>
    rw [hg] at h
    have ht : t = set_cell s r (f c) := by
      injection h with h
      exact h.symm
    subst ht
    cases r with
    | live i => exact slots_added_of_eq _ _ rfl rfl
    | pending i => exact slots_added_of_eq _ _ rfl (map_set_same slot_view _ i c _ hg (hf c))

theorem connect_port_slot (net : Option NetId) (c c1 : CellInfo) (p : IdString)
    (h : connect_port net c p = .ok c1) : slot_view c1 = slot_view c := by
  unfold connect_port at h
  cases net with
  | none =>
    injection h with h
    rw [← h]
  | some n =>
    simp only at h
    cases hf : dict_find c.ports p with
    | none => rw [hf] at h; cases h
    | some port =>
      rw [hf] at h
      simp only at h
      split_ifs at h
      injection h with h
      rw [← h]
      rfl

theorem update_cell_slots (s t : Packer) (r : Option CellRef)
    (f : CellInfo → Except String CellInfo)
    (hf : ∀ c c1, f c = .ok c1 → slot_view c1 = slot_view c) (h : update_cell s r f = .ok t) :
    slots_added s t [] := by
  unfold update_cell at h
  obtain ⟨c, hd, h2⟩ := except_bind_ok _ _ _ h
  obtain ⟨c1, hc1, h3⟩ := except_bind_ok _ _ _ h2
  cases r with
  | none => cases h3
  | some p =>
    have ht : t = set_cell s p c1 := by
      injection h3 with h3
      exact h3.symm
    subst ht
    have hg : get_cell s p = some c := by
      unfold deref at hd
      simp only at hd
      cases hgc : get_cell s p with
      | none => rw [hgc] at hd; cases hd
      | some c0 =>
        rw [hgc] at hd
        injection hd with hd
        rw [hd]
    cases p with
    | live i => exact slots_added_of_eq _ _ rfl rfl
    | pending i =>
      exact slots_added_of_eq _ _ rfl (map_set_same slot_view _ i c _ hg (hf c c1 hc1))

theorem copy_init_slots (s t : Packer) (cell : CellInfo) (key : IdString) (lut : CellRef)
    (h : copy_init s cell key lut = .ok t) : slots_added s t [] := by
  unfold copy_init at h
  cases hf : dict_find cell.params key with
  | none =>
    rw [hf] at h
    injection h with h
    rw [← h]
    exact slots_added_refl s
  | some init =>
    rw [hf] at h
    exact modify_cell_slots s t lut _ h (fun _ => rfl)

theorem put_init_slots (s t : Packer) (cell : CellInfo) (key : IdString) (lut : CellRef)
    (init : Property) (h : put_init s cell key lut init = .ok t) : slots_added s t [] := by
  unfold put_init at h
  split_ifs at h
  · exact modify_cell_slots s t lut _ h (fun _ => rfl)
  · injection h with h
    rw [← h]
    exact slots_added_refl s

theorem mark_packed_slots (s : Packer) (n : IdString) : slots_added s (mark_packed s n) [] :=
  slots_added_of_eq _ _ (by unfold mark_packed; split_ifs <;> rfl)
    (by rw [(mark_packed_new_cells _ _).1])

/-- The slot create_dram_lut gives: the primitive is pushed at the end of the
pending buffer with slot `z` and the base as its parent. -/
theorem create_dram_lut_slots (name : String) (base : Option CellRef) (cs : DRAMControlSet)
    (address : List (Option NetId)) (di dout : Option NetId) (z : Int) (s t : Packer)
    (r : CellRef) (ha : address.length ≤ 6) (hw : cs.wa.length ≤ 8)
    (h : create_dram_lut name base cs address di dout z s = .ok (r, t)) :
    r = CellRef.pending s.new_cells.length ∧ slots_added s t [(z, base)] := by
  rw [create_dram_lut_eq name base cs address di dout z s ha hw] at h
  unfold constrain_and_push at h
  cases base with
  | none =>
    simp only [pure, Except.pure, Except.ok.injEq, Prod.mk.injEq] at h
    obtain ⟨h1, h2⟩ := h
    subst h2
    refine ⟨h1.symm, rfl, ?_⟩
    simp only [List.map_append, List.map_cons, List.map_nil]
    rfl
  | some b =>
    simp only at h
    obtain ⟨s1, hm, h2⟩ := except_bind_ok _ _ _ h
    simp only [pure, Except.pure, Except.ok.injEq, Prod.mk.injEq] at h2
    obtain ⟨h3, h4⟩ := h2
    have hs := modify_cell_slots s s1 b _ hm (fun _ => rfl)
    have hl := slots_added_length s s1 [] hs
    simp only [List.length_nil, Nat.add_zero] at hl
    subst h4
    refine ⟨h3.symm, hs.1, ?_⟩
    have hv := hs.2
    simp only [List.map_nil, List.append_nil] at hv
    simp only [List.map_append, List.map_cons, List.map_nil, hv]
    rfl

theorem disconnect_port_slot (c : CellInfo) (p : IdString) :
    slot_view (disconnect_port c p) = slot_view c := by
  unfold disconnect_port
  cases dict_find c.ports p with
  | none => rfl
  | some port => rfl

/-- The three phases of one iteration of a dual-port loop (the base, the SPO
primitive, the DPO primitive) make up a step of the stack. -/
theorem step_shape_of_phases (h : Int) (n : Nat) (zs : Int) (loc a b c : Stack)
    (NA NB NC : List (Int × Option CellRef)) (sp dp : Prop) [Decidable sp] [Decidable dp]
    (hzs : zs = (if sp then 1 else 0) + (if dp then 1 else 0))
    (hA : ((loc.z = h - 1 ∨ loc.z - zs + 1 < 0) ∧ NA = [(h - 1, none)] ∧
        a = { z := h - 1 - 1, base := some (CellRef.pending n) }) ∨
      (¬ (loc.z = h - 1 ∨ loc.z - zs + 1 < 0) ∧ NA = [] ∧ a = loc))
    (hB : b.base = a.base ∧ ((NB = [] ∧ b.z = a.z) ∨
      (NB = [(a.z, a.base)] ∧ b.z = a.z - 1 ∧ sp ∧ ¬ (loc.z = h - 1 ∨ loc.z - zs + 1 < 0))))
    (hC : c.base = b.base ∧ ((NC = [] ∧ c.z = b.z) ∨
      (NC = [(b.z, b.base)] ∧ c.z = b.z - 1 ∧ dp))) :
    step_shape h n zs loc c (NA ++ NB ++ NC) := by
  unfold step_shape
  have e2 : h - 1 - 1 = h - 2 := by omega
  rcases hA with ⟨hnb, hNA, ha⟩ | ⟨hnb, hNA, ha⟩
  · rw [if_pos hnb]
    subst hNA ha
    obtain ⟨hbb, hB⟩ := hB
    obtain ⟨hcb, hC⟩ := hC
    rcases hB with ⟨hNB, hbz⟩ | ⟨_, _, _, hn⟩
    · subst hNB
      simp only at hbb hbz
      refine ⟨hcb.trans hbb, ?_⟩
      rcases hC with ⟨hNC, hcz⟩ | ⟨hNC, hcz, _⟩
      · left
        subst hNC
        exact ⟨rfl, by rw [hcz, hbz, e2]⟩
      · right
        subst hNC
        refine ⟨?_, by rw [hcz, hbz]; omega⟩
        rw [hbz, hbb, e2]
        rfl
    · exact absurd hnb hn
  · rw [if_neg hnb]
    subst hNA ha
    obtain ⟨hbb, hB⟩ := hB
    obtain ⟨hcb, hC⟩ := hC
    refine ⟨hcb.trans hbb, ?_⟩
    rcases hB with ⟨hNB, hbz⟩ | ⟨hNB, hbz, hsp, _⟩
    · subst hNB
      rcases hC with ⟨hNC, hcz⟩ | ⟨hNC, hcz, hdp⟩
      · left
        subst hNC
        exact ⟨rfl, by rw [hcz, hbz]⟩
      · right; left
        subst hNC
        refine ⟨by rw [hbz, hbb]; rfl, by rw [hcz, hbz], ?_⟩
        rw [hzs, if_pos hdp]
        split_ifs <;> omega
    · subst hNB
      rcases hC with ⟨hNC, hcz⟩ | ⟨hNC, hcz, hdp⟩
      · right; left
        subst hNC
        refine ⟨rfl, by rw [hcz, hbz], ?_⟩
        rw [hzs, if_pos hsp]
        split_ifs <;> omega
      · right; right
        subst hNC
        refine ⟨by rw [hbz, hbb]; rfl, by rw [hcz, hbz]; omega, ?_⟩
        rw [hzs, if_pos hsp, if_pos hdp]
        omega

theorem take_min_length (wa : List (Option NetId)) (k : Nat) :
    (wa.take (min wa.length k)).length ≤ k := by
  rw [List.length_take]
  omega

theorem address_nets_length (ci : CellInfo) (abits : Nat) (name : String) (n i : Nat) :
    (address_nets ci abits name n i).length = n := by
  induction n generalizing i with
  | zero => rfl
  | succ n ih => simp [address_nets, ih]

/-- One iteration of the RAM64X1D loop, as the stack sees it. -/
theorem ram64x1d_step_slots (h : Int) (cs : DRAMControlSet) (cell : CellRef) (loc loc1 : Stack)
    (s s1 : Packer) (hw : cs.wa.length ≤ 8)
    (hr : pack_ram64x1d_cell h cs cell loc s = .ok (loc1, s1)) :
    ∃ ci N, deref s (some cell) = .ok ci ∧ slots_added s s1 N ∧
      step_shape h s.new_cells.length (z_size ci) loc loc1 N := by
  unfold pack_ram64x1d_cell at hr
  obtain ⟨ci, hci, g1⟩ := except_bind_ok _ _ _ hr
  by_cases ht : ci.type = "RAM64X1D"
  swap
  · rw [if_pos ht] at g1
    cases g1
  rw [if_neg (not_not.mpr ht)] at g1
  obtain ⟨a, ha, g2⟩ := except_bind_ok _ _ _ g1
  obtain ⟨sm, hsm, g3⟩ := except_bind_ok _ _ _ g2
  obtain ⟨b, hb, g4⟩ := except_bind_ok _ _ _ g3
  obtain ⟨c, hc, g5⟩ := except_bind_ok _ _ _ g4
  clear hr g1 g2 g3 g4
  have hA : ∃ NA, slots_added s a.2 NA ∧
      (((loc.z = h - 1 ∨ loc.z - z_size ci + 1 < 0) ∧ NA = [(h - 1, none)] ∧
        a.1 = { z := h - 1 - 1, base := some (CellRef.pending s.new_cells.length) }) ∨
      (¬ (loc.z = h - 1 ∨ loc.z - z_size ci + 1 < 0) ∧ NA = [] ∧ a.1 = loc)) := by
    by_cases hnb : loc.z = h - 1 ∨ loc.z - z_size ci + 1 < 0
    · rw [if_pos hnb] at ha
      obtain ⟨r, hr1, hr2⟩ := except_bind_ok _ _ _ ha
      obtain ⟨e1, e2⟩ := create_dram_lut_slots _ _ _ _ _ _ _ _ r.2 r.1
        (take_min_length cs.wa 6) hw hr1
      simp only [pure, Except.pure, Except.ok.injEq] at hr2
      subst hr2
      exact ⟨_, e2, Or.inl ⟨hnb, rfl, by simp only [e1]⟩⟩
    · rw [if_neg hnb] at ha
      simp only [pure, Except.pure, Except.ok.injEq] at ha
      subst ha
      exact ⟨[], slots_added_refl s, Or.inr ⟨hnb, rfl, rfl⟩⟩
  obtain ⟨NA, sA, hA⟩ := hA
  have sM : slots_added a.2 sm [] :=
    modify_cell_slots a.2 sm cell _ hsm
      (fun c => by rw [disconnect_port_slot, disconnect_port_slot])
  have hB : ∃ NB, slots_added sm b.2 NB ∧ b.1.base = a.1.base ∧ ((NB = [] ∧ b.1.z = a.1.z) ∨
      (NB = [(a.1.z, a.1.base)] ∧ b.1.z = a.1.z - 1 ∧ get_net_or_empty ci "SPO" ≠ none ∧
        a.1.z ≠ h - 2)) := by
    by_cases hsp : get_net_or_empty ci "SPO" ≠ none
    · rw [if_pos hsp] at hb
      by_cases hz : a.1.z = h - 2
      · rw [if_pos hz] at hb
        obtain ⟨t1, h1, k1⟩ := except_bind_ok _ _ _ hb
        obtain ⟨t2, h2, k2⟩ := except_bind_ok _ _ _ k1
        have u1 := update_cell_slots sm t1 _ _ (fun c c1 hc1 => connect_port_slot _ c c1 _ hc1) h1
        have u2 := update_cell_slots t1 t2 _ _ (fun c c1 hc1 => connect_port_slot _ c c1 _ hc1) h2
        cases hbase : a.1.base with
        | none =>
          simp only [hbase] at k2
          cases k2
        | some bp =>
          simp only [hbase] at k2
          obtain ⟨t3, h3, k3⟩ := except_bind_ok _ _ _ k2
          simp only [pure, Except.pure, Except.ok.injEq] at k3
          subst k3
          have u3 := copy_init_slots t2 t3 ci "INIT" bp h3
          exact ⟨[], slots_added_trans _ _ _ _ _ (slots_added_trans _ _ _ _ _ u1 u2) u3, hbase,
            Or.inl ⟨rfl, rfl⟩⟩
      · rw [if_neg hz] at hb
        obtain ⟨r, hr1, k1⟩ := except_bind_ok _ _ _ hb
        obtain ⟨t, h2, k2⟩ := except_bind_ok _ _ _ k1
        simp only [pure, Except.pure, Except.ok.injEq] at k2
        subst k2
        obtain ⟨_, e2⟩ := create_dram_lut_slots _ _ _ _ _ _ _ _ r.2 r.1
          (take_min_length cs.wa 6) hw hr1
        have u2 := copy_init_slots r.2 t ci "INIT" r.1 h2
        exact ⟨_, slots_added_trans _ _ _ _ _ e2 u2, rfl, Or.inr ⟨rfl, rfl, hsp, hz⟩⟩
    · rw [if_neg hsp] at hb
      simp only [pure, Except.pure, Except.ok.injEq] at hb
      subst hb
      exact ⟨[], slots_added_refl sm, rfl, Or.inl ⟨rfl, rfl⟩⟩
  obtain ⟨NB, sB, hB⟩ := hB
  have hC : ∃ NC, slots_added b.2 c.2 NC ∧ c.1.base = b.1.base ∧ ((NC = [] ∧ c.1.z = b.1.z) ∨
      (NC = [(b.1.z, b.1.base)] ∧ c.1.z = b.1.z - 1 ∧ get_net_or_empty ci "DPO" ≠ none)) := by
    by_cases hdp : get_net_or_empty ci "DPO" ≠ none
    · rw [if_pos hdp] at hc
      obtain ⟨r, hr1, k1⟩ := except_bind_ok _ _ _ hc
      obtain ⟨t, h2, k2⟩ := except_bind_ok _ _ _ k1
      simp only [pure, Except.pure, Except.ok.injEq] at k2
      subst k2
      obtain ⟨_, e2⟩ := create_dram_lut_slots _ _ _ _ _ _ _ _ r.2 r.1
        (le_of_eq (address_nets_length ci 6 "DPRA" 6 0)) hw hr1
      have u2 := copy_init_slots r.2 t ci "INIT" r.1 h2
      exact ⟨_, slots_added_trans _ _ _ _ _ e2 u2, rfl, Or.inr ⟨rfl, rfl, hdp⟩⟩
    · rw [if_neg hdp] at hc
      simp only [pure, Except.pure, Except.ok.injEq] at hc
      subst hc
      exact ⟨[], slots_added_refl b.2, rfl, Or.inl ⟨rfl, rfl⟩⟩
  obtain ⟨NC, sC, hC⟩ := hC
  simp only [pure, Except.pure, Except.ok.injEq, Prod.mk.injEq] at g5
  obtain ⟨g5a, g5b⟩ := g5
  subst g5a g5b
  refine ⟨ci, NA ++ NB ++ NC, hci, ?_, ?_⟩
  · have s1 := slots_added_trans _ _ _ _ _ sA sM
    rw [List.append_nil] at s1
    have s2 := slots_added_trans _ _ _ _ _ (slots_added_trans _ _ _ _ _ s1 sB) sC
    have s3 := slots_added_trans _ _ _ _ _ s2 (mark_packed_slots c.2 ci.name)
    rw [List.append_nil] at s3
    exact s3
  · refine step_shape_of_phases h s.new_cells.length (z_size ci) loc a.1 b.1 c.1 NA NB NC
      (get_net_or_empty ci "SPO" ≠ none) (get_net_or_empty ci "DPO" ≠ none) rfl hA ?_ hC
    refine ⟨hB.1, ?_⟩
    rcases hB.2 with hl | ⟨q1, q2, q3, q4⟩
    · exact Or.inl hl
    · refine Or.inr ⟨q1, q2, q3, ?_⟩
      intro hnb
      rcases hA with ⟨_, _, ha2⟩ | ⟨hn, _, _⟩
      · rw [ha2] at q4
        exact q4 (by simp only; omega)
      · exact hn hnb

/-- One iteration of the RAM32X1D loop, as the stack sees it. -/
theorem ram32x1d_step_slots (h : Int) (cs : DRAMControlSet) (cell : CellRef) (loc loc1 : Stack)
    (s s1 : Packer) (hw : cs.wa.length ≤ 8)
    (hr : pack_ram32x1d_cell h cs cell loc s = .ok (loc1, s1)) :
    ∃ ci N, deref s (some cell) = .ok ci ∧ slots_added s s1 N ∧
      step_shape h s.new_cells.length (z_size ci) loc loc1 N := by
  unfold pack_ram32x1d_cell at hr
  obtain ⟨ci, hci, g1⟩ := except_bind_ok _ _ _ hr
  by_cases ht : ci.type = "RAM32X1D"
  swap
  · rw [if_pos ht] at g1
    cases g1
  rw [if_neg (not_not.mpr ht)] at g1
  obtain ⟨ip, hip, g1b⟩ := except_bind_ok _ _ _ g1
  obtain ⟨a, ha, g2⟩ := except_bind_ok _ _ _ g1b
  obtain ⟨sm, hsm, g3⟩ := except_bind_ok _ _ _ g2
  obtain ⟨b, hb, g4⟩ := except_bind_ok _ _ _ g3
  obtain ⟨c, hc, g5⟩ := except_bind_ok _ _ _ g4
  clear hr g1 g1b g2 g3 g4
  have hlen : (cs.wa.take (min cs.wa.length 5) ++ [net_by_name s "$PACKER_VCC_NET"]).length ≤ 6 := by
    rw [List.length_append, List.length_singleton]
    have := take_min_length cs.wa 5
    omega
  have hA : ∃ NA, slots_added s a.2.1 NA ∧
      (((loc.z = h - 1 ∨ loc.z - z_size ci + 1 < 0) ∧ NA = [(h - 1, none)] ∧
        a.1 = { z := h - 1 - 1, base := some (CellRef.pending s.new_cells.length) } ∧
        a.2.2 = true) ∨
      (¬ (loc.z = h - 1 ∨ loc.z - z_size ci + 1 < 0) ∧ NA = [] ∧ a.1 = loc ∧ a.2.2 = false)) := by
    by_cases hnb : loc.z = h - 1 ∨ loc.z - z_size ci + 1 < 0
    · rw [if_pos hnb] at ha
      obtain ⟨r, hr1, hr2⟩ := except_bind_ok _ _ _ ha
      obtain ⟨e1, e2⟩ := create_dram_lut_slots _ _ _ _ _ _ _ _ r.2 r.1 hlen hw hr1
      simp only [pure, Except.pure, Except.ok.injEq] at hr2
      subst hr2
      exact ⟨_, e2, Or.inl ⟨hnb, rfl, by simp only [e1], rfl⟩⟩
    · rw [if_neg hnb] at ha
      simp only [pure, Except.pure, Except.ok.injEq] at ha
      subst ha
      exact ⟨[], slots_added_refl s, Or.inr ⟨hnb, rfl, rfl, rfl⟩⟩
  obtain ⟨NA, sA, hA⟩ := hA
  have sM : slots_added a.2.1 sm [] :=
    modify_cell_slots a.2.1 sm cell _ hsm
      (fun c => by rw [disconnect_port_slot, disconnect_port_slot])
  have hB : ∃ NB, slots_added sm b.2 NB ∧ b.1.base = a.1.base ∧ ((NB = [] ∧ b.1.z = a.1.z) ∨
      (NB = [(a.1.z, a.1.base)] ∧ b.1.z = a.1.z - 1 ∧ get_net_or_empty ci "SPO" ≠ none ∧
        a.2.2 = false)) := by
    by_cases hsp : get_net_or_empty ci "SPO" ≠ none
    · rw [if_pos hsp] at hb
      cases hz : a.2.2 with
      | true =>
        simp only [hz, if_true] at hb
        obtain ⟨t1, h1, k1⟩ := except_bind_ok _ _ _ hb
        obtain ⟨t2, h2, k2⟩ := except_bind_ok _ _ _ k1
        have u1 := update_cell_slots sm t1 _ _ (fun c c1 hc1 => connect_port_slot _ c c1 _ hc1) h1
        have u2 := update_cell_slots t1 t2 _ _ (fun c c1 hc1 => connect_port_slot _ c c1 _ hc1) h2
        cases hbase : a.1.base with
        | none =>
          simp only [hbase] at k2
          cases k2
        | some bp =>
          simp only [hbase] at k2
          obtain ⟨t3, h3, k3⟩ := except_bind_ok _ _ _ k2
          simp only [pure, Except.pure, Except.ok.injEq] at k3
          subst k3
          have u3 := put_init_slots t2 t3 ci "INIT" bp ip h3
          exact ⟨[], slots_added_trans _ _ _ _ _ (slots_added_trans _ _ _ _ _ u1 u2) u3, hbase,
            Or.inl ⟨rfl, rfl⟩⟩
      | false =>
        simp only [hz, Bool.false_eq_true, if_false] at hb
        obtain ⟨r, hr1, k1⟩ := except_bind_ok _ _ _ hb
        obtain ⟨t, h2, k2⟩ := except_bind_ok _ _ _ k1
        simp only [pure, Except.pure, Except.ok.injEq] at k2
        subst k2
        obtain ⟨_, e2⟩ := create_dram_lut_slots _ _ _ _ _ _ _ _ r.2 r.1 hlen hw hr1
        have u2 := put_init_slots r.2 t ci "INIT" r.1 ip h2
        exact ⟨_, slots_added_trans _ _ _ _ _ e2 u2, rfl, Or.inr ⟨rfl, rfl, hsp, rfl⟩⟩
    · rw [if_neg hsp] at hb
      simp only [pure, Except.pure, Except.ok.injEq] at hb
      subst hb
      exact ⟨[], slots_added_refl sm, rfl, Or.inl ⟨rfl, rfl⟩⟩
  obtain ⟨NB, sB, hB⟩ := hB
  have hC : ∃ NC, slots_added b.2 c.2 NC ∧ c.1.base = b.1.base ∧ ((NC = [] ∧ c.1.z = b.1.z) ∨
      (NC = [(b.1.z, b.1.base)] ∧ c.1.z = b.1.z - 1 ∧ get_net_or_empty ci "DPO" ≠ none)) := by
    by_cases hdp : get_net_or_empty ci "DPO" ≠ none
    · rw [if_pos hdp] at hc
      obtain ⟨r, hr1, k1⟩ := except_bind_ok _ _ _ hc
      obtain ⟨t, h2, k2⟩ := except_bind_ok _ _ _ k1
      simp only [pure, Except.pure, Except.ok.injEq] at k2
      subst k2
      obtain ⟨_, e2⟩ := create_dram_lut_slots _ _ _ _ _ _ _ _ r.2 r.1
        (by rw [List.length_append, List.length_singleton, address_nets_length]) hw hr1
      have u2 := put_init_slots r.2 t ci "INIT" r.1 ip h2
      exact ⟨_, slots_added_trans _ _ _ _ _ e2 u2, rfl, Or.inr ⟨rfl, rfl, hdp⟩⟩
    · rw [if_neg hdp] at hc
      simp only [pure, Except.pure, Except.ok.injEq] at hc
      subst hc
      exact ⟨[], slots_added_refl b.2, rfl, Or.inl ⟨rfl, rfl⟩⟩
  obtain ⟨NC, sC, hC⟩ := hC
  simp only [pure, Except.pure, Except.ok.injEq, Prod.mk.injEq] at g5
  obtain ⟨g5a, g5b⟩ := g5
  subst g5a g5b
  refine ⟨ci, NA ++ NB ++ NC, hci, ?_, ?_⟩
  · have s1 := slots_added_trans _ _ _ _ _ sA sM
    rw [List.append_nil] at s1
    have s2 := slots_added_trans _ _ _ _ _ (slots_added_trans _ _ _ _ _ s1 sB) sC
    have s3 := slots_added_trans _ _ _ _ _ s2 (mark_packed_slots c.2 ci.name)
    rw [List.append_nil] at s3
    exact s3
  · refine step_shape_of_phases h s.new_cells.length (z_size ci) loc a.1 b.1 c.1 NA NB NC
      (get_net_or_empty ci "SPO" ≠ none) (get_net_or_empty ci "DPO" ≠ none) rfl ?_ ?_ hC
    · rcases hA with ⟨q1, q2, q3, _⟩ | ⟨q1, q2, q3, _⟩
      · exact Or.inl ⟨q1, q2, q3⟩
      · exact Or.inr ⟨q1, q2, q3⟩
    · refine ⟨hB.1, ?_⟩
      rcases hB.2 with hl | ⟨q1, q2, q3, q4⟩
      · exact Or.inl hl
      · refine Or.inr ⟨q1, q2, q3, ?_⟩
        intro hnb
        rcases hA with ⟨_, _, _, ha2⟩ | ⟨hn, _, _, _⟩
        · rw [ha2] at q4
          cases q4
        · exact hn hnb

theorem cluster_run_append (h : Int) (n0 : Nat) (N M : List (Int × Option CellRef)) :
    cluster_run h n0 (N ++ M) = M.foldl (cluster_step h n0) (cluster_run h n0 N) := by
  unfold cluster_run
  rw [List.foldl_append]

theorem cluster_step_base (h : Int) (n0 i : Nat) (cur : Option (Nat × Int)) :
    cluster_step h n0 (some (i, cur)) (h - 1, none) = some (i + 1, some (i, h - 1)) := by
  simp [cluster_step]

theorem cluster_step_child (h : Int) (n0 i j : Nat) (last z : Int) (hz : 0 ≤ z) (hl : z < last) :
    cluster_step h n0 (some (i, some (j, last))) (z, some (CellRef.pending (n0 + j))) =
      some (i + 1, some (j, z)) := by
  simp [cluster_step, hz, hl]

theorem stack_inv_run (h : Int) (n0 : Nat) (N : List (Int × Option CellRef)) (loc : Stack)
    (hinv : stack_inv h n0 N loc) : ∃ cur, cluster_run h n0 N = some (N.length, cur) := by
  rcases hinv with ⟨_, _, hN⟩ | ⟨j, _, _, _, hrun⟩
  · subst hN
    exact ⟨none, rfl⟩
  · exact ⟨_, hrun⟩

/-- One step of the stack keeps the invariant, and leaves a base behind. -/
theorem stack_inv_step (h : Int) (n0 : Nat) (N M : List (Int × Option CellRef))
    (loc loc1 : Stack) (zs : Int) (hh : 2 ≤ h) (hinv : stack_inv h n0 N loc)
    (hs : step_shape h (n0 + N.length) zs loc loc1 M) :
    stack_inv h n0 (N ++ M) loc1 ∧ loc1.base ≠ none := by
  unfold step_shape at hs
  by_cases hnb : loc.z = h - 1 ∨ loc.z - zs + 1 < 0
  · rw [if_pos hnb] at hs
    obtain ⟨cur, hrun⟩ := stack_inv_run h n0 N loc hinv
    obtain ⟨hb, hM⟩ := hs
    refine ⟨Or.inr ⟨N.length, hb, ?_⟩, by rw [hb]; exact Option.some_ne_none _⟩
    rcases hM with ⟨hM, hz⟩ | ⟨hM, hz⟩
    · subst hM
      have e : loc1.z + 1 = h - 1 := by omega
      refine ⟨by omega, by omega, ?_⟩
      rw [cluster_run_append, hrun, List.foldl_cons, List.foldl_nil, cluster_step_base, e,
        List.length_append, List.length_singleton]
    · subst hM
      have e : loc1.z + 1 = h - 2 := by omega
      refine ⟨by omega, by omega, ?_⟩
      rw [cluster_run_append, hrun, List.foldl_cons, List.foldl_cons, List.foldl_nil,
        cluster_step_base, cluster_step_child h n0 _ _ _ _ (by omega) (by omega), e,
        List.length_append]
      rfl
  · rw [if_neg hnb] at hs
    have hz1 : loc.z ≠ h - 1 := fun e => hnb (Or.inl e)
    have hz2 : 0 ≤ loc.z - zs + 1 := by
      by_contra hc
      exact hnb (Or.inr (by omega))
    rcases hinv with ⟨_, hz, _⟩ | ⟨j, hbase, hlo, hhi, hrun⟩
    · exact absurd hz hz1
    · obtain ⟨hb, hM⟩ := hs
      refine ⟨Or.inr ⟨j, hb.trans hbase, ?_⟩, by rw [hb, hbase]; exact Option.some_ne_none _⟩
      rcases hM with ⟨hM, hz⟩ | ⟨hM, hz, hzs⟩ | ⟨hM, hz, hzs⟩
      · subst hM
        rw [List.append_nil, hz]
        exact ⟨hlo, hhi, hrun⟩
      · subst hM
        have e : loc1.z + 1 = loc.z := by omega
        refine ⟨by omega, by omega, ?_⟩
        rw [cluster_run_append, hrun, List.foldl_cons, List.foldl_nil, hbase,
          cluster_step_child h n0 _ _ _ _ (by omega) (by omega), e, List.length_append,
          List.length_singleton]
      · subst hM
        have e : loc1.z + 1 = loc.z - 1 := by omega
        refine ⟨by omega, by omega, ?_⟩
        rw [cluster_run_append, hrun, List.foldl_cons, List.foldl_cons, List.foldl_nil, hbase,
          cluster_step_child h n0 _ _ _ _ (by omega) (by omega),
          cluster_step_child h n0 _ _ _ _ (by omega) (by omega), e, List.length_append]
        rfl

theorem cluster_fold_none (h : Int) (n0 : Nat) (M : List (Int × Option CellRef)) :
    M.foldl (cluster_step h n0) none = none := by
  induction M with
  | nil => rfl
  | cons e M ih =>
    rw [List.foldl_cons]
    have : cluster_step h n0 none e = none := by
      unfold cluster_step
      rfl
    rw [this, ih]

/-- What the check of one entry accepts: the entry is in range, it is a base
exactly when it sits at `h - 1`, and the slot the state carries stays at or below
`h - 1`. -/
theorem cluster_step_some (h : Int) (n0 : Nat) (hh : 1 ≤ h) (i : Nat) (cur : Option (Nat × Int))
    (e : Int × Option CellRef) (st : Nat × Option (Nat × Int))
    (hcur : ∀ j last, cur = some (j, last) → last ≤ h - 1)
    (hs : cluster_step h n0 (some (i, cur)) e = some st) :
    (0 ≤ e.1 ∧ e.1 ≤ h - 1 ∧ (e.2 = none ↔ e.1 = h - 1)) ∧
    ∀ j last, st.2 = some (j, last) → last ≤ h - 1 := by
  obtain ⟨z, p⟩ := e
  cases p with
  | none =>
    simp only [cluster_step] at hs
    by_cases hz : z = h - 1
    · rw [if_pos hz] at hs
      injection hs with hs
      subst hs
      refine ⟨⟨by simp only; omega, by simp only; omega, by simp [hz]⟩, ?_⟩
      intro j last hj
      simp only [Option.some.injEq, Prod.mk.injEq] at hj
      omega
    · rw [if_neg hz] at hs
      cases hs
  | some b =>
    cases cur with
    | none =>
      simp only [cluster_step] at hs
      cases hs
    | some c =>
      obtain ⟨j, last⟩ := c
      simp only [cluster_step] at hs
      by_cases hc : b = CellRef.pending (n0 + j) ∧ 0 ≤ z ∧ z < last
      · rw [if_pos hc] at hs
        injection hs with hs
        subst hs
        have hl := hcur j last rfl
        refine ⟨⟨hc.2.1, by simp only; omega, ?_⟩, ?_⟩
        · constructor
          · intro hn
            cases hn
          · intro hz
            simp only at hz
            omega
        · intro j2 last2 hj
          simp only [Option.some.injEq, Prod.mk.injEq] at hj
          omega
      · rw [if_neg hc] at hs
        cases hs

theorem cluster_fold_range (h : Int) (n0 : Nat) (hh : 1 ≤ h) (M : List (Int × Option CellRef)) :
    ∀ (i : Nat) (cur : Option (Nat × Int)),
      (∀ j last, cur = some (j, last) → last ≤ h - 1) →
      (M.foldl (cluster_step h n0) (some (i, cur))).isSome = true →
      ∀ e ∈ M, 0 ≤ e.1 ∧ e.1 ≤ h - 1 ∧ (e.2 = none ↔ e.1 = h - 1) := by
  induction M with
  | nil =>
    intro i cur _ _ e he
    cases he
  | cons x M ih =>
    intro i cur hcur hs e he
    rw [List.foldl_cons] at hs
    cases hx : cluster_step h n0 (some (i, cur)) x with
    | none =>
      rw [hx, cluster_fold_none] at hs
      cases hs
    | some st =>
      rw [hx] at hs
      obtain ⟨hr, hst⟩ := cluster_step_some h n0 hh i cur x st hcur hx
      rcases List.mem_cons.mp he with hex | hem
      · rw [hex]
        exact hr
      · exact ih st.1 st.2 hst hs e hem

/-- What `stacked` says of each entry: its slot is between 0 and `h - 1`, and it
is a base exactly when it sits at `h - 1`. -/
theorem stacked_range (h : Int) (n0 : Nat) (hh : 1 ≤ h) (N : List (Int × Option CellRef))
    (hs : stacked h n0 N = true) :
    ∀ e ∈ N, 0 ≤ e.1 ∧ e.1 ≤ h - 1 ∧ (e.2 = none ↔ e.1 = h - 1) :=
  cluster_fold_range h n0 hh N 0 none (fun _ _ hc => by cases hc) hs

theorem stacked_of_inv (h : Int) (n0 : Nat) (N : List (Int × Option CellRef)) (loc : Stack)
    (hinv : stack_inv h n0 N loc) : stacked h n0 N = true := by
  obtain ⟨cur, hrun⟩ := stack_inv_run h n0 N loc hinv
  unfold stacked
  rw [hrun]
  rfl

/-- A group loop whose body steps the stack as `step_shape` says keeps the
invariant of the stack from the first cell to the last. -/
theorem stack_loop_slots (h : Int) (hh : 2 ≤ h)
    (body : CellRef → Stack → Packer → Except String (Stack × Packer))
    (hbody : ∀ cell loc s loc1 s1, body cell loc s = .ok (loc1, s1) →
      ∃ zs M, slots_added s s1 M ∧ step_shape h s.new_cells.length zs loc loc1 M)
    (s0 : Packer) (cells : List CellRef) :
    ∀ (loc : Stack) (s : Packer) (N : List (Int × Option CellRef)) (loc1 : Stack) (s1 : Packer),
      slots_added s0 s N → stack_inv h s0.new_cells.length N loc →
      stack_loop body cells loc s = .ok (loc1, s1) →
      ∃ N1, slots_added s0 s1 N1 ∧ stack_inv h s0.new_cells.length N1 loc1 ∧
        ((loc.base ≠ none ∨ cells ≠ []) → loc1.base ≠ none) := by
  induction cells with
  | nil =>
    intro loc s N loc1 s1 hs hinv hr
    simp only [stack_loop, pure, Except.pure, Except.ok.injEq, Prod.mk.injEq] at hr
    obtain ⟨e1, e2⟩ := hr
    subst e1 e2
    refine ⟨N, hs, hinv, ?_⟩
    intro hne
    rcases hne with hb | hc
    · exact hb
    · exact absurd rfl hc
  | cons cell rest ih =>
    intro loc s N loc1 s1 hs hinv hr
    simp only [stack_loop] at hr
    obtain ⟨r, hr1, hr2⟩ := except_bind_ok _ _ _ hr
    obtain ⟨zs, M, hM, hshape⟩ := hbody cell loc s r.1 r.2 hr1
    have hlen := slots_added_length s0 s N hs
    rw [hlen] at hshape
    obtain ⟨hinv2, hbase2⟩ := stack_inv_step h s0.new_cells.length N M loc r.1 zs hh hinv hshape
    obtain ⟨N1, hN1, hinv3, hb3⟩ := ih r.1 r.2 (N ++ M) loc1 s1
      (slots_added_trans _ _ _ _ _ hs hM) hinv2 hr2
    exact ⟨N1, hN1, hinv3, fun _ => hb3 (Or.inl hbase2)⟩

/-- When a step of the stack opens a base: from a stack the loop can reach,
exactly when there is no base yet or `z - zs + 1 < 0`; a base is in place after
the step and `z` is at most `h - 2`. -/
theorem step_shape_base (h : Int) (n : Nat) (zs : Int) (loc loc1 : Stack)
    (M : List (Int × Option CellRef))
    (hreach : (loc.base = none ∧ loc.z = h - 1) ∨ (loc.base ≠ none ∧ loc.z ≤ h - 2))
    (hs : step_shape h n zs loc loc1 M) :
    ((∃ e ∈ M, e.2 = none) ↔ (loc.base = none ∨ loc.z - zs + 1 < 0)) ∧
    loc1.base ≠ none ∧ loc1.z ≤ h - 2 := by
  unfold step_shape at hs
  have hz : loc.z = h - 1 ↔ loc.base = none := by
    rcases hreach with ⟨hb, hz⟩ | ⟨hb, hz⟩
    · exact ⟨fun _ => hb, fun _ => hz⟩
    · exact ⟨fun e => by omega, fun e => absurd e hb⟩
  by_cases hnb : loc.z = h - 1 ∨ loc.z - zs + 1 < 0
  · rw [if_pos hnb] at hs
    obtain ⟨hb, hM⟩ := hs
    have hnew : loc.base = none ∨ loc.z - zs + 1 < 0 := by
      rcases hnb with e | e
      · exact Or.inl (hz.mp e)
      · exact Or.inr e
    refine ⟨⟨fun _ => hnew, fun _ => ?_⟩, by rw [hb]; exact Option.some_ne_none _, ?_⟩
    · rcases hM with ⟨hM, _⟩ | ⟨hM, _⟩
      · exact ⟨(h - 1, none), by rw [hM]; exact List.mem_cons_self _ _, rfl⟩
      · exact ⟨(h - 1, none), by rw [hM]; exact List.mem_cons_self _ _, rfl⟩
    · rcases hM with ⟨_, e⟩ | ⟨_, e⟩ <;> omega
  · rw [if_neg hnb] at hs
    obtain ⟨hb, hM⟩ := hs
    have hbn : loc.base ≠ none := fun e => hnb (Or.inl (hz.mpr e))
    have hzl : loc.z ≤ h - 2 := by
      rcases hreach with ⟨e, _⟩ | ⟨_, e⟩
      · exact absurd e hbn
      · exact e
    refine ⟨⟨?_, ?_⟩, by rw [hb]; exact hbn, ?_⟩
    · rintro ⟨e, he, hen⟩
      exfalso
      rcases hM with ⟨hM, _⟩ | ⟨hM, _, _⟩ | ⟨hM, _, _⟩
      · rw [hM] at he
        cases he
      · rw [hM] at he
        simp only [List.mem_singleton] at he
        rw [he] at hen
        exact hbn hen
      · rw [hM] at he
        simp only [List.mem_cons, List.mem_singleton, List.not_mem_nil, or_false] at he
        rcases he with he | he <;> (rw [he] at hen; exact hbn hen)
    · intro hnew
      exfalso
      rcases hnew with e | e
      · exact hbn e
      · exact hnb (Or.inr e)
    · rcases hM with ⟨_, e⟩ | ⟨_, e, _⟩ | ⟨_, e, _⟩ <;> omega

/-- C29: the dual-port strategies RAM64X1D and RAM32X1D, for a cluster height
h of at least 2 and a control set of at most eight address nets. Whenever the
group loop, started with no base and z = h - 1, returns, the primitives it
created are placed, in creation order, at slots N that form clusters: every
slot is between 0 and h - 1, an entry is a base exactly when it sits at h - 1,
every other entry is a child of the latest base and its slot is strictly below
the slot of the entry created before it; the placement of the primitives that
were pending before is kept, and after a non-empty group a base is in place.
And one iteration, run from a stack the loop can reach (no base and z = h - 1,
or a base and z at most h - 2), creates a base exactly when there is no base
yet (the group's first cell) or z - z_size + 1 < 0, z_size the number of
connected outputs among SPO and DPO. -/
theorem pack_dram_dual_slots (h : Int) (hh : 2 ≤ h) (cs : DRAMControlSet)
    (hw : cs.wa.length ≤ 8)
    (body : CellRef → Stack → Packer → Except String (Stack × Packer))
    (hbody : body = pack_ram64x1d_cell h cs ∨ body = pack_ram32x1d_cell h cs) :
    (∀ cells s loc1 r,
      stack_loop body cells { z := h - 1, base := none } s = .ok (loc1, r) →
      ∃ N, slots_added s r N ∧ stacked h s.new_cells.length N = true ∧
        (∀ e ∈ N, 0 ≤ e.1 ∧ e.1 ≤ h - 1 ∧ (e.2 = none ↔ e.1 = h - 1)) ∧
        (cells ≠ [] → loc1.base ≠ none)) ∧
    (∀ cell loc s loc1 s1,
      (loc.base = none ∧ loc.z = h - 1) ∨ (loc.base ≠ none ∧ loc.z ≤ h - 2) →
      body cell loc s = .ok (loc1, s1) →
      ∃ ci M, deref s (some cell) = .ok ci ∧ slots_added s s1 M ∧
        ((∃ e ∈ M, e.2 = none) ↔ (loc.base = none ∨ loc.z - z_size ci + 1 < 0)) ∧
        loc1.base ≠ none ∧ loc1.z ≤ h - 2) := by
  have hstep : ∀ cell loc s loc1 s1, body cell loc s = .ok (loc1, s1) →
      ∃ ci M, deref s (some cell) = .ok ci ∧ slots_added s s1 M ∧
        step_shape h s.new_cells.length (z_size ci) loc loc1 M := by
    intro cell loc s loc1 s1 hr
    rcases hbody with hb | hb
    · rw [hb] at hr
      exact ram64x1d_step_slots h cs cell loc loc1 s s1 hw hr
    · rw [hb] at hr
      exact ram32x1d_step_slots h cs cell loc loc1 s s1 hw hr
  refine ⟨?_, ?_⟩
  · intro cells s loc1 r hr
    obtain ⟨N, hN, hinv, hb⟩ := stack_loop_slots h hh body
      (fun cell loc s loc1 s1 hc => by
        obtain ⟨ci, M, _, hM, hs⟩ := hstep cell loc s loc1 s1 hc
        exact ⟨z_size ci, M, hM, hs⟩)
      s cells { z := h - 1, base := none } s [] loc1 r (slots_added_refl s)
      (Or.inl ⟨rfl, rfl, rfl⟩) hr
    have hst := stacked_of_inv h s.new_cells.length N loc1 hinv
    exact ⟨N, hN, hst, stacked_range h s.new_cells.length (by omega) N hst,
      fun hne => hb (Or.inr hne)⟩
  · intro cell loc s loc1 s1 hreach hr
    obtain ⟨ci, M, hci, hM, hs⟩ := hstep cell loc s loc1 s1 hr
    exact ⟨ci, M, hci, hM, step_shape_base h s.new_cells.length (z_size ci) loc loc1 M hreach hs⟩

set_option maxRecDepth 100000 in
theorem pack_dram_dual_slots_witness :
    (2 : Int) ≤ 4 ∧
    ∃ loc1 r, stack_loop
        (pack_ram64x1d_cell 4
          (control_set dual_stack_design { abits := 6, dbits := 1, rports := 1 }
            (dual_cell "m0" (some 11) (some 12))))
        [CellRef.live 0, CellRef.live 1, CellRef.live 2] { z := 4 - 1, base := none }
        dual_stack_design = .ok (loc1, r) ∧
      r.new_cells.map slot_view =
        [(48, none), (32, some (CellRef.pending 0)), (16, some (CellRef.pending 0)),
         (0, some (CellRef.pending 0)), (48, none), (32, some (CellRef.pending 4))] ∧
      ∃ N, slots_added dual_stack_design r N ∧
        stacked 4 dual_stack_design.new_cells.length N = true ∧
        (∀ e ∈ N, 0 ≤ e.1 ∧ e.1 ≤ 4 - 1 ∧ (e.2 = none ↔ e.1 = 4 - 1)) ∧
        ([CellRef.live 0, CellRef.live 1, CellRef.live 2] ≠ [] → loc1.base ≠ none) :=
  ⟨by decide, _, _, rfl, rfl,
    (pack_dram_dual_slots 4 (by decide)
      (control_set dual_stack_design { abits := 6, dbits := 1, rports := 1 }
        (dual_cell "m0" (some 11) (some 12)))
      (by decide) _ (Or.inl rfl)).1 _ _ _ _ rfl⟩

/-! ### The pre-pass and the two-bit-wide memory -/

set_option maxRecDepth 100000 in
/-- C31: a RAM32X2S cell, a type of the memory-type table, with A0 on the
logic-0 net, INIT_00 holding 1 at row 1 only and INIT_01 holding 1 at row 0
only. The pre-pass returns, A0 ends on the logic-1 net, and INIT_00 and INIT_01
are the ones the cell had: the row now read with bit 0 high holds 1 in INIT_00
where the row the original read (bit 0 low) held 0, and 0 in INIT_01 where that
row held 1. -/
theorem tie_high_pass_ram32x2s :
    (dict_find dram_types "RAM32X2S").isSome = true ∧
    get_net_or_empty wide_cell "A0" = net_by_name wide_design "$PACKER_GND_NET" ∧
    (∃ r c, tie_high_pass wide_design = .ok r ∧ r.cells = [c] ∧
      get_net_or_empty c "A0" = net_by_name wide_design "$PACKER_VCC_NET" ∧
      get_net_or_empty c "A0" = some 1 ∧
      dict_find c.params "INIT_00" = some (Property.of_int 2 32) ∧
      dict_find c.params "INIT_01" = some (Property.of_int 1 32) ∧
      dict_find c.params "INIT" = none) ∧
    init_bit (Property.of_int 2 32) 0 = false ∧ init_bit (Property.of_int 2 32) 1 = true ∧
    init_bit (Property.of_int 1 32) 0 = true ∧ init_bit (Property.of_int 1 32) 1 = false :=
  ⟨rfl, rfl, ⟨_, _, rfl, rfl, rfl, rfl, rfl, rfl, rfl⟩, rfl, rfl, rfl, rfl⟩

/-! ### The fold of SPO into the base -/

set_option maxRecDepth 100000 in
/-- C36: two groups of two RAM64X1D cells. When both cells have only SPO
connected, the first SPO is folded into the base made for the first cell, `z`
stays at `h - 2`, and the second SPO is folded into that same base, whose O6 is
taken: the strategy stops on the assertion of connect_port. When the first cell
has no output connected and the second has SPO, the strategy returns with one
primitive, the base made for the first cell, carrying the second cell's SPO net
on O6: the second cell gets no primitive of its own. The first group made of
RAM32X1D cells returns with a base for the first cell that carries its SPO, and
a primitive `/SP` of its own for the second. -/
theorem pack_dram_ram64x1d_fold :
    pack_group
      (control_set (dual_design []) { abits := 6, dbits := 1, rports := 1 }
        (dual_cell "m0" (some 11) none))
      [CellRef.live 0, CellRef.live 1]
      (dual_design [dual_cell "m0" (some 11) none, dual_cell "m1" (some 22) none]) =
        .error "connect_port: port.net == nullptr" ∧
    (pack_group
      (control_set (dual_design []) { abits := 6, dbits := 1, rports := 1 }
        (dual_cell "m0" none none))
      [CellRef.live 0, CellRef.live 1]
      (dual_design [dual_cell "m0" none none, dual_cell "m1" (some 22) none])).toOption.map
        (fun r => (r.new_cells.map fold_view, r.packed_cells)) =
      some ([("m0/ADDR", some 22, none)], ["m0", "m1"]) ∧
    (pack_group
      (control_set (dual_design []) { abits := 5, dbits := 1, rports := 1 }
        (dual32_cell "m0" (some 11) none))
      [CellRef.live 0, CellRef.live 1]
      (dual_design [dual32_cell "m0" (some 11) none, dual32_cell "m1" (some 22) none])).toOption.map
        (fun r => (r.new_cells.map fold_view, r.packed_cells)) =
      some ([("m0/ADDR", some 11, none), ("m1/SP", some 22, some (CellRef.pending 0))],
        ["m0", "m1"]) :=
  ⟨rfl, rfl, rfl⟩

/-! ### The name check of the hardwired clocks -/

set_option maxRecDepth 100000 in
/-- C37: a channel cell whose input PLL0CLK is driven by the output
PLL0OUTREFCLK of the matching common cell, for GTPE2 and for GTXE2. The driving
port is not PLL0OUTCLK, the port the error message names, yet it starts with
PLL0 and ends with CLK: pack_gt returns without error and disconnects the
input. -/
theorem pack_gt_accepts_crossed_clock :
    driver_port (common_refout "GTPE2_COMMON") 3 = some "PLL0OUTREFCLK" ∧
    ("PLL0OUTREFCLK" : String) ≠ "PLL0" ++ "OUT" ++ "CLK" ∧
    String.mk ("PLL0CLK".data.take 4) = "PLL0" ∧ String.mk ("PLL0CLK".data.drop 4) = "CLK" ∧
    (pack_gt [0, 1] (gt_crossed_design "GTPE2_COMMON" "GTPE2_CHANNEL")).toOption.map
      (fun r => r.cells.map (fun c => (c.type, c.ports))) =
      some [("GTPE2_COMMON", (common_refout "GTPE2_COMMON").ports),
        ("GTPE2_CHANNEL", [sink "PLL0CLK" none])] ∧
    (pack_gt [1, 0] (gt_crossed_design "GTPE2_COMMON" "GTPE2_CHANNEL")).toOption.map
      (fun r => r.cells.map (fun c => (c.type, c.ports))) =
      some [("GTPE2_COMMON", (common_refout "GTPE2_COMMON").ports),
        ("GTPE2_CHANNEL", [sink "PLL0CLK" none])] ∧
    (pack_gt [0, 1] (gt_crossed_design "GTXE2_COMMON" "GTXE2_CHANNEL")).toOption.map
      (fun r => r.cells.map (fun c => (c.type, c.ports))) =
      some [("GTXE2_COMMON", (common_refout "GTXE2_COMMON").ports),
        ("GTXE2_CHANNEL", [sink "PLL0CLK" none])] :=
  ⟨rfl, by decide, rfl, rfl, rfl, rfl, rfl⟩

/-! ### Reference clocks that are not used -/

set_option maxRecDepth 100000 in
/-- C38: a common cell whose port GTREFCLK0 is unconnected or on the logic-0
net is not processed to the end. The port is not used by the rule of the code
(connected to a net that is neither constant net), but the driver of the net is
read before that: with the port unconnected the net pointer is null, with the
port on the logic-0 net the driver is the constant driver, which is neither an
IBUFDS_GTE2 nor a BUFGCTRL, and with no driver on that net the call fails on the
missing driver. No _GTREFCLK0_USED is recorded in any of these runs. -/
theorem pack_gt_unused_refclk_fails :
    port_used (gt_tied_design "GTPE2_COMMON" none) none = false ∧
    port_used (gt_tied_design "GTPE2_COMMON" (some 0)) (some 0) = false ∧
    pack_gt [0, 1] (gt_tied_design "GTPE2_COMMON" none) =
      .error "port_net->driver: null pointer" ∧
    pack_gt [0, 1] (gt_tied_design "GTXE2_COMMON" none) =
      .error "port_net->driver: null pointer" ∧
    pack_gt [0, 1] (gt_tied_design "GTPE2_COMMON" (some 0)) =
      .error "GTP_COMMON GTREFCLK connected to unsupported cell type" ∧
    pack_gt [0, 1] (gt_tied_design "GTXE2_COMMON" (some 0)) =
      .error "GTP_COMMON GTREFCLK connected to unsupported cell type" ∧
    pack_gt [0] (gt_lone_design "GTPE2_COMMON" (some 0)) =
      .error "Port connected to net has no driver!" :=
  ⟨rfl, rfl, rfl, rfl, rfl, rfl, rfl⟩

/-! ### The relative row of a buffer that is already placed -/

set_option maxRecDepth 100000 in
/-- C34: a buffer for the pad in row 2 of a tile with four pads, which resolves
to the upper buffer site with the relative row 1. A buffer without BEL leaves
the call with that BEL and _REL_BUF_Y = 1; a buffer that carries that BEL before
the call leaves it as it was, without _REL_BUF_Y. pack_gt then reads the row of
the placed buffer as 0 and records _GTREFCLK0_USED on the common cell it drives,
where the buffer constrained by the call gives _GTREFCLK1_USED. -/
theorem constrain_ibufds_gt_site_skips_row :
    resolve_ibufds_gt_site (fun _ => some gt_tile) "IPAD_X1Y2/PAD" =
      .ok ("IBUFDS_GTE2_X0Y1/IBUFDS_GTE2", 1) ∧
    constrain_ibufds_gt_site (fun _ => some gt_tile) (buffer_with []) "IPAD_X1Y2/PAD" =
      .ok (buffer_with [("BEL", Property.of_string "IBUFDS_GTE2_X0Y1/IBUFDS_GTE2"),
        ("_REL_BUF_Y", Property.of_int 1 32)]) ∧
    constrain_ibufds_gt_site (fun _ => some gt_tile)
      (buffer_with [("BEL", Property.of_string "IBUFDS_GTE2_X0Y1/IBUFDS_GTE2")])
      "IPAD_X1Y2/PAD" =
      .ok (buffer_with [("BEL", Property.of_string "IBUFDS_GTE2_X0Y1/IBUFDS_GTE2")]) ∧
    dict_find (buffer_with [("BEL", Property.of_string "IBUFDS_GTE2_X0Y1/IBUFDS_GTE2")]).attrs
      "_REL_BUF_Y" = none ∧
    (pack_gt [0, 1] (gt_buffer_design
      (buffer_with [("BEL", Property.of_string "IBUFDS_GTE2_X0Y1/IBUFDS_GTE2"),
        ("_REL_BUF_Y", Property.of_int 1 32)]))).toOption.bind refclk_flags =
      some (none, some (Property.of_int 1 1)) ∧
    (pack_gt [0, 1] (gt_buffer_design
      (buffer_with [("BEL", Property.of_string "IBUFDS_GTE2_X0Y1/IBUFDS_GTE2")]))).toOption.bind
      refclk_flags = some (some (Property.of_int 1 1), none) :=
  ⟨rfl, rfl, rfl, rfl, rfl, rfl⟩

/-! ### The row of the buffer -/

theorem scan_site_min_buf (ps : String) (acc : SiteScan) (site : SiteInstInfo) :
    (scan_site ps acc site).min_buf_y =
      if starts_with site.name "IBUFDS_GTE2_" then
        (if site.site_y < acc.min_buf_y then site.site_y else acc.min_buf_y)
      else acc.min_buf_y := by
  unfold scan_site
  by_cases h1 : starts_with site.name "IPAD_" = true <;>
    by_cases h2 : starts_with site.name "IBUFDS_GTE2_" = true <;> simp [h1, h2]

theorem scan_site_max_buf (ps : String) (acc : SiteScan) (site : SiteInstInfo) :
    (scan_site ps acc site).max_buf_y =
      if starts_with site.name "IBUFDS_GTE2_" then
        (if acc.max_buf_y < site.site_y then site.site_y else acc.max_buf_y)
      else acc.max_buf_y := by
  unfold scan_site
  by_cases h1 : starts_with site.name "IPAD_" = true <;>
    by_cases h2 : starts_with site.name "IBUFDS_GTE2_" = true <;> simp [h1, h2]

theorem scan_site_min_pad (ps : String) (acc : SiteScan) (site : SiteInstInfo) :
    (scan_site ps acc site).min_pad_y =
      if starts_with site.name "IPAD_" then
        (if site.site_y < acc.min_pad_y then site.site_y else acc.min_pad_y)
      else acc.min_pad_y := by
  unfold scan_site
  by_cases h1 : starts_with site.name "IPAD_" = true <;>
    by_cases h2 : starts_with site.name "IBUFDS_GTE2_" = true <;> simp [h1, h2]

theorem scan_site_max_pad (ps : String) (acc : SiteScan) (site : SiteInstInfo) :
    (scan_site ps acc site).max_pad_y =
      if starts_with site.name "IPAD_" then
        (if acc.max_pad_y < site.site_y then site.site_y else acc.max_pad_y)
      else acc.max_pad_y := by
  unfold scan_site
  by_cases h1 : starts_with site.name "IPAD_" = true <;>
    by_cases h2 : starts_with site.name "IBUFDS_GTE2_" = true <;> simp [h1, h2]

theorem scan_site_pad (ps : String) (acc : SiteScan) (site : SiteInstInfo) :
    (scan_site ps acc site).pad_y =
      if starts_with site.name "IPAD_" then
        (if site.name = ps then site.site_y else acc.pad_y)
      else acc.pad_y := by
  unfold scan_site
  by_cases h1 : starts_with site.name "IPAD_" = true <;>
    by_cases h2 : starts_with site.name "IBUFDS_GTE2_" = true <;> simp [h1, h2]

/-- The row of the pad, once found, lies between the smallest and the largest
pad row seen. -/
theorem scan_pad_inv (ps : String) (tile : List SiteInstInfo) :
    ∀ acc : SiteScan,
      (acc.pad_y < 0 ∨ (acc.min_pad_y ≤ acc.pad_y ∧ acc.pad_y ≤ acc.max_pad_y)) →
      ((tile.foldl (scan_site ps) acc).pad_y < 0 ∨
        ((tile.foldl (scan_site ps) acc).min_pad_y ≤ (tile.foldl (scan_site ps) acc).pad_y ∧
          (tile.foldl (scan_site ps) acc).pad_y ≤ (tile.foldl (scan_site ps) acc).max_pad_y)) := by
  induction tile with
  | nil => intro acc h; exact h
  | cons site rest ih =>
    intro acc h
    rw [List.foldl_cons]
    apply ih
    rw [scan_site_pad, scan_site_min_pad, scan_site_max_pad]
    by_cases h1 : starts_with site.name "IPAD_" = true
    · simp only [h1, if_true]
      by_cases h2 : site.name = ps
      · simp only [h2, if_true]
        right
        constructor <;> split_ifs <;> omega
      · simp only [h2, if_false]
        rcases h with h | ⟨ha, hb⟩
        · exact Or.inl h
        · right
          constructor <;> split_ifs <;> omega
    · simp only [h1, Bool.false_eq_true, if_false]
      exact h

/-- The smallest and the largest buffer row the scan holds are the smallest and
the largest row of the buffer sites seen, when the rows are those of a grid. -/
theorem scan_buf_inv (ps : String) (tile : List SiteInstInfo) :
    ∀ (acc : SiteScan) (seen : List Int),
      (∀ site ∈ tile, 0 ≤ site.site_y ∧ site.site_y ≤ 2147483647) →
      ((∀ y ∈ seen, acc.min_buf_y ≤ y ∧ y ≤ acc.max_buf_y) ∧
        (seen = [] → acc.min_buf_y = 2147483647 ∧ acc.max_buf_y = 0) ∧
        (seen ≠ [] → acc.min_buf_y ∈ seen ∧ acc.max_buf_y ∈ seen)) →
      ((∀ y ∈ seen ++ buf_rows tile,
          (tile.foldl (scan_site ps) acc).min_buf_y ≤ y ∧
          y ≤ (tile.foldl (scan_site ps) acc).max_buf_y) ∧
        (seen ++ buf_rows tile = [] →
          (tile.foldl (scan_site ps) acc).min_buf_y = 2147483647 ∧
          (tile.foldl (scan_site ps) acc).max_buf_y = 0) ∧
        (seen ++ buf_rows tile ≠ [] →
          (tile.foldl (scan_site ps) acc).min_buf_y ∈ seen ++ buf_rows tile ∧
          (tile.foldl (scan_site ps) acc).max_buf_y ∈ seen ++ buf_rows tile)) := by
  induction tile with
  | nil =>
    intro acc seen _ h
    simpa [buf_rows] using h
  | cons site rest ih =>
    intro acc seen hrows h
    rw [List.foldl_cons]
    have hr := hrows site (List.mem_cons_self _ _)
    have hrest : ∀ x ∈ rest, 0 ≤ x.site_y ∧ x.site_y ≤ 2147483647 :=
      fun x hx => hrows x (List.mem_cons_of_mem _ hx)
    by_cases h2 : starts_with site.name "IBUFDS_GTE2_" = true
    · have hb : buf_rows (site :: rest) = site.site_y :: buf_rows rest := by
        simp [buf_rows, h2]
      have key := ih (scan_site ps acc site) (seen ++ [site.site_y]) hrest (by
        rw [scan_site_min_buf, scan_site_max_buf]
        simp only [h2, if_true]
        obtain ⟨g1, g2, g3⟩ := h
        refine ⟨?_, ?_, ?_⟩
        · intro y hy
          rcases List.mem_append.mp hy with hy | hy
          · have := g1 y hy
            constructor <;> split_ifs <;> omega
          · simp only [List.mem_singleton] at hy
            subst hy
            constructor <;> split_ifs <;> omega
        · intro he
          simp at he
        · intro _
          by_cases hs : seen = []
          · obtain ⟨m1, m2⟩ := g2 hs
            subst hs
            simp only [List.nil_append, List.mem_singleton]
            constructor <;> split_ifs <;> omega
          · obtain ⟨m1, m2⟩ := g3 hs
            constructor
            · split_ifs
              · simp
              · exact List.mem_append_left _ m1
            · split_ifs
              · simp
              · exact List.mem_append_left _ m2)
      rw [hb]
      simpa [List.append_assoc] using key
    · have hb : buf_rows (site :: rest) = buf_rows rest := by
        simp [buf_rows, h2]
      have key := ih (scan_site ps acc site) seen hrest (by
        rw [scan_site_min_buf, scan_site_max_buf]
        simp only [h2, Bool.false_eq_true, if_false]
        exact h)
      rw [hb]
      exact key

/-- C33: when constrain_ibufds_gt_site returns for a pad of a tile whose site
rows are those of a grid (between 0 and the largest int32), the relative offset
it computes, the row of the pad above the lowest pad row halved, is 0 or 1; the
tile has IBUFDS_GTE2 sites, and the row of the buffer, their smallest row plus
the offset, is at most their largest row; the bel resolved is
IBUFDS_GTE2_X0Y(row)/IBUFDS_GTE2; and a cell that had no BEL leaves the call
with that bel as BEL and the offset as _REL_BUF_Y. -/
theorem constrain_ibufds_gt_site_row (site_by_name : String → Option (List SiteInstInfo))
    (buf_cell c : CellInfo) (io_bel : String) (tile : List SiteInstInfo)
    (htile : site_by_name (String.mk (io_bel.data.takeWhile (fun ch => ch != Char.ofNat 47))) =
      some tile)
    (hrows : ∀ site ∈ tile, 0 ≤ site.site_y ∧ site.site_y ≤ 2147483647)
    (h : constrain_ibufds_gt_site site_by_name buf_cell io_bel = .ok c) :
    ∃ rel lo hi, (rel = 0 ∨ rel = 1) ∧
      rel = ((tile.foldl (scan_site (String.mk (io_bel.data.takeWhile
          (fun ch => ch != Char.ofNat 47)))) scan_start).pad_y -
        (tile.foldl (scan_site (String.mk (io_bel.data.takeWhile
          (fun ch => ch != Char.ofNat 47)))) scan_start).min_pad_y) / 2 ∧
      lo ∈ buf_rows tile ∧ hi ∈ buf_rows tile ∧ (∀ y ∈ buf_rows tile, lo ≤ y ∧ y ≤ hi) ∧
      lo ≤ lo + rel ∧ lo + rel ≤ hi ∧
      resolve_ibufds_gt_site site_by_name io_bel =
        .ok ("IBUFDS_GTE2_X0Y" ++ to_string_int (lo + rel) ++ "/IBUFDS_GTE2", rel) ∧
      (dict_find buf_cell.attrs "BEL" = none →
        dict_find c.attrs "BEL" = some (Property.of_string
          ("IBUFDS_GTE2_X0Y" ++ to_string_int (lo + rel) ++ "/IBUFDS_GTE2")) ∧
        dict_find c.attrs "_REL_BUF_Y" = some (Property.of_int rel 32)) := by
  obtain ⟨bel, rel, hres⟩ := constrain_resolves site_by_name buf_cell c io_bel h
  have hres0 := hres
  unfold resolve_ibufds_gt_site at hres
  simp only [htile] at hres
  have hpad := scan_pad_inv (String.mk (io_bel.data.takeWhile (fun ch => ch != Char.ofNat 47)))
    tile scan_start (Or.inl (by decide))
  have hbuf := scan_buf_inv (String.mk (io_bel.data.takeWhile (fun ch => ch != Char.ofNat 47)))
    tile scan_start [] hrows ⟨fun y hy => (by cases hy), fun _ => ⟨rfl, rfl⟩,
      fun hne => absurd rfl hne⟩
  rw [List.nil_append] at hbuf
  generalize tile.foldl (scan_site (String.mk (io_bel.data.takeWhile
    (fun ch => ch != Char.ofNat 47)))) scan_start = sc at hres hpad hbuf ⊢
  by_cases c1 : sc.pad_y < 0
  · rw [if_pos c1] at hres
    cases hres
  rw [if_neg c1] at hres
  by_cases c2 : sc.min_pad_y < sc.max_pad_y
  swap
  · rw [if_pos c2] at hres
    cases hres
  rw [if_neg (not_not.mpr c2)] at hres
  by_cases c3 : sc.min_buf_y < sc.max_buf_y
  swap
  · rw [if_pos c3] at hres
    cases hres
  rw [if_neg (not_not.mpr c3)] at hres
  by_cases c4 : sc.max_pad_y - sc.min_pad_y + 1 = 4
  swap
  · simp only [ne_eq, c4, not_false_eq_true, if_true] at hres
    cases hres
  simp only [ne_eq, c4, not_true_eq_false, if_false, pure, Except.pure, Except.ok.injEq,
    Prod.mk.injEq] at hres
  obtain ⟨hbel, hrel⟩ := hres
  subst hrel hbel
  have hin : sc.min_pad_y ≤ sc.pad_y ∧ sc.pad_y ≤ sc.max_pad_y := by
    rcases hpad with hp | hp
    · exact absurd hp c1
    · exact hp
  have hne : buf_rows tile ≠ [] := by
    intro he
    obtain ⟨m1, m2⟩ := hbuf.2.1 he
    omega
  obtain ⟨hlo, hhi⟩ := hbuf.2.2 hne
  have hrel01 : (sc.pad_y - sc.min_pad_y) / 2 = 0 ∨ (sc.pad_y - sc.min_pad_y) / 2 = 1 := by
    omega
  refine ⟨(sc.pad_y - sc.min_pad_y) / 2, sc.min_buf_y, sc.max_buf_y, hrel01, rfl, hlo, hhi,
    hbuf.1, ?_, ?_, hres0, ?_⟩
  · rcases hrel01 with e | e <;> omega
  · rcases hrel01 with e | e <;> omega
  · intro hb
    rw [constrain_free_eq site_by_name buf_cell io_bel _ _ hres0 hb] at h
    injection h with h
    rw [← h]
    refine ⟨?_, dict_find_set_self _ _ _⟩
    simp only
    rw [dict_find_set_ne _ _ _ _ (by decide), dict_find_set_self]

theorem constrain_ibufds_gt_site_row_witness :
    (∀ site ∈ gt_tile, 0 ≤ site.site_y ∧ site.site_y ≤ 2147483647) ∧
    ∃ rel lo hi, (rel = 0 ∨ rel = 1) ∧ lo ∈ buf_rows gt_tile ∧ hi ∈ buf_rows gt_tile ∧
      lo + rel ≤ hi ∧
      resolve_ibufds_gt_site (fun _ => some gt_tile) "IPAD_X1Y2/PAD" =
        .ok ("IBUFDS_GTE2_X0Y" ++ to_string_int (lo + rel) ++ "/IBUFDS_GTE2", rel) :=
  ⟨by decide,
    (constrain_ibufds_gt_site_row (fun _ => some gt_tile) free_buffer
      { free_buffer with
        attrs := [("BEL", Property.of_string "IBUFDS_GTE2_X0Y1/IBUFDS_GTE2"),
          ("_REL_BUF_Y", Property.of_int 1 32)] }
      "IPAD_X1Y2/PAD" gt_tile rfl (by decide) rfl).elim
      (fun rel h1 => h1.elim (fun lo h2 => h2.elim (fun hi h3 =>
        ⟨rel, lo, hi, h3.1, h3.2.2.1, h3.2.2.2.1, h3.2.2.2.2.2.2.1, h3.2.2.2.2.2.2.2.1⟩)))⟩

/-! ### Polarity of the select inputs -/

theorem int_or_default_congr (p q : List (IdString × Property)) (key : IdString)
    (h : dict_find p key = dict_find q key) : int_or_default p key = int_or_default q key := by
  unfold int_or_default
  rw [h]

/-- What split_inversion writes. -/
theorem split_inversion_polarity (c0 : CellInfo) (a b : IdString) (hab : a ≠ b)
    (ha : a ≠ "IS_S_INVERTED") (hb : b ≠ "IS_S_INVERTED")
    (hnd : (c0.params.map (fun e => e.1)).Nodup) :
    (int_or_default c0.params "IS_S_INVERTED" ≠ 0 →
      int_or_default (split_inversion c0 a b).params a = 0 ∧
      int_or_default (split_inversion c0 a b).params b = 1 ∧
      dict_find (split_inversion c0 a b).params "IS_S_INVERTED" = none) ∧
    (int_or_default c0.params "IS_S_INVERTED" = 0 →
      int_or_default (split_inversion c0 a b).params a = 1 ∧
      int_or_default (split_inversion c0 a b).params b = 0) := by
  constructor
  · intro hinv
    unfold split_inversion
    simp only [hinv, ne_eq, not_false_eq_true, if_true]
    refine ⟨?_, ?_, ?_⟩
    · unfold int_or_default
      rw [dict_find_erase_ne _ _ _ ha, dict_find_set_ne _ _ _ _ hab, dict_find_set_self]
      rfl
    · unfold int_or_default
      rw [dict_find_erase_ne _ _ _ hb, dict_find_set_self]
      rfl
    · exact dict_find_erase_self _ _
        (nodup_keys_dict_set _ _ _ (nodup_keys_dict_set _ _ _ hnd))
  · intro hinv
    unfold split_inversion
    simp only [hinv, ne_eq, not_true_eq_false, if_false]
    refine ⟨?_, ?_⟩
    · unfold int_or_default
      rw [dict_find_set_ne _ _ _ _ hab, dict_find_set_self]
      rfl
    · unfold int_or_default
      rw [dict_find_set_self]
      rfl

/-- The polarity holds on a cell that carries the three parameters as
split_inversion wrote them. -/
theorem select_polarity_of_params (c0 c : CellInfo) (a b : IdString) (hab : a ≠ b)
    (ha : a ≠ "IS_S_INVERTED") (hb : b ≠ "IS_S_INVERTED")
    (hnd : (c0.params.map (fun e => e.1)).Nodup)
    (hpa : dict_find c.params a = dict_find (split_inversion c0 a b).params a)
    (hpb : dict_find c.params b = dict_find (split_inversion c0 a b).params b)
    (hps : dict_find c.params "IS_S_INVERTED" =
      dict_find (split_inversion c0 a b).params "IS_S_INVERTED") :
    select_polarity c0 c a b := by
  obtain ⟨p1, p2⟩ := split_inversion_polarity c0 a b hab ha hb hnd
  have ea := int_or_default_congr _ _ a hpa
  have eb := int_or_default_congr _ _ b hpb
  unfold select_polarity
  rw [ea, eb, hps]
  refine ⟨p1, p2, ?_⟩
  intro n
  by_cases hinv : int_or_default c0.params "IS_S_INVERTED" = 0
  · obtain ⟨q1, q2⟩ := p2 hinv
    rw [q1, q2, hinv]
    cases n <;> decide
  · obtain ⟨q1, q2, _⟩ := p1 hinv
    rw [q1, q2]
    simp only [effective, ne_eq, hinv, not_false_eq_true, decide_True]
    cases n <;> decide

/-- What fold_inverter leaves on the cell: the state as it was, or the inversion
parameter of the port at 1. -/
theorem fold_inverter_outcome (k : Nat) (s t : Packer) (ci c0 : CellInfo) (port : String)
    (hk : s.cells.get? k = some ci) (hc0 : t.cells.get? k = some c0)
    (h : fold_inverter s (CellRef.live k) port = .ok t) :
    t = s ∨ int_or_default c0.params ("IS_" ++ port ++ "_INVERTED") = 1 := by
  unfold fold_inverter at h
  simp only [deref_live s k ci hk, bind, Except.bind] at h
  cases hn : get_net_or_empty ci port with
  | none =>
    rw [hn] at h
    left
    cases h
    rfl
  | some net =>
    rw [hn] at h
    simp only at h
    cases hd : driver_of s net with
    | none =>
      rw [hd] at h
      left
      cases h
      rfl
    | some drv =>
      rw [hd] at h
      simp only at h
      split at h
      · left
        cases h
        rfl
      · obtain ⟨c1, hc1, h2⟩ := except_bind_ok _ _ _ h
        right
        simp only [pure, Except.pure, Except.ok.injEq] at h2
        have hmp : ∀ (u : Packer) (nm : IdString), (mark_packed u nm).cells = u.cells := by
          intro u nm
          unfold mark_packed
          split_ifs <;> rfl
        have hcell : ∃ c2, t.cells.get? k = some c2 ∧
            dict_find c2.params ("IS_" ++ port ++ "_INVERTED") = some (Property.of_int 1 32) := by
          rw [← h2]
          split_ifs
          · exact ⟨_, get_set_cell s k ci _ hk, dict_find_set_self _ _ _⟩
          · rw [hmp]
            exact ⟨_, get_set_cell s k ci _ hk, dict_find_set_self _ _ _⟩
        obtain ⟨c2, hc2, hkey⟩ := hcell
        rw [hc0] at hc2
        injection hc2 with hc2
        rw [hc2]
        unfold int_or_default
        rw [hkey]
        rfl

/-! ### The contents of the whole-slice memory RAM32M -/

theorem deinterleave_spec (orig : List Bool) (j : Nat) :
    ∀ n : Nat, (∀ k, k < n → k * 2 + j < orig.length) →
      ∃ L, deinterleave orig j n = .ok L ∧
        L.reverse = (List.range n).map
          (fun k => if orig.getD (k * 2 + j) false then S1 else S0) := by
  intro n
  induction n with
  | zero =>
    intro _
    exact ⟨[], rfl, rfl⟩
  | succ n ih =>
    intro hlen
    obtain ⟨L, hL, hrev⟩ := ih (fun k hk => hlen k (by omega))
    have hn := hlen n (by omega)
    have hget : orig.get? (n * 2 + j) = some (orig.getD (n * 2 + j) false) := by
      rw [List.get?_eq_getElem?, List.getD_eq_getElem?_getD, List.getElem?_eq_getElem hn]
      rfl
    refine ⟨(if orig.getD (n * 2 + j) false then S1 else S0) :: L, ?_, ?_⟩
    · simp only [deinterleave, vec_at, hget, hL, bind, Except.bind, pure, Except.pure]
    · rw [List.reverse_cons, hrev, List.range_succ, List.map_append]
      rfl

theorem from_string_str (L : List Char) : (Property.from_string L).str = L.reverse := rfl

theorem extract_as_bits (P : Property) :
    (P.extract 0 64).as_bits =
      .ok ((List.range 64).map (fun i => P.str.getD i S0 == S1)) := by
  unfold Property.as_bits
  have h1 : (P.extract 0 64).is_string = false := rfl
  have h2 : (P.extract 0 64).str = (List.range 64).map (fun i => P.str.getD (0 + i) S0) := rfl
  rw [h1, h2]
  simp only [Bool.false_eq_true, if_false, List.map_map, pure, Except.pure]
  congr 1

/-- The INIT the RAM32M branch computes for output `j` of a bank with INIT_X =
P: 32 bits, bit k being bit 2k + j of P. -/
theorem ram32m_init_bits (P : Property) (j : Nat) (hj : j < 2) :
    ∃ L, ((P.extract 0 64).as_bits >>= fun o => deinterleave o j 32) = .ok L ∧
      (Property.from_string L).str.length = 32 ∧
      ∀ k, k < 32 → init_bit (Property.from_string L) k = init_bit P (2 * k + j) := by
  obtain ⟨L, hL, hrev⟩ := deinterleave_spec
    ((List.range 64).map (fun i => P.str.getD i S0 == S1)) j 32 (fun k hk => by
      rw [List.length_map, List.length_range]
      omega)
  refine ⟨L, ?_, ?_, ?_⟩
  · rw [extract_as_bits]
    exact hL
  · rw [from_string_str, hrev, List.length_map, List.length_range]
  · intro k hk
    unfold init_bit
    rw [from_string_str, hrev]
    have h64 : k * 2 + j < 64 := by omega
    have e1 : ((List.range 32).map (fun k =>
        if ((List.range 64).map (fun i => P.str.getD i S0 == S1)).getD (k * 2 + j) false
        then S1 else S0)).getD k S0 =
        (if (P.str.getD (k * 2 + j) S0 == S1) then S1 else S0) := by
      rw [List.getD_eq_getElem?_getD, List.getElem?_map, List.getElem?_range hk]
      simp only [Option.map_some', Option.getD_some]
      rw [List.getD_eq_getElem?_getD, List.getElem?_map, List.getElem?_range h64]
      rfl
    rw [e1, Nat.mul_comm 2 k]
    by_cases hb : (P.str.getD (k * 2 + j) S0 == S1) = true
    · rw [hb]
      rfl
    · simp only [Bool.not_eq_true] at hb
      rw [hb]
      rfl

theorem connect_indexed_frame (name : String) :
    ∀ (l : List (Option NetId)) (i : Nat) (c c1 : CellInfo),
      connect_indexed name l i c = .ok c1 →
      c1.type = c.type ∧ c1.params = c.params ∧
      ((c.ports.map (fun e => e.1)).Nodup → (c1.ports.map (fun e => e.1)).Nodup) ∧
      ∀ q, (∀ k, q ≠ name ++ to_string k) → dict_find c1.ports q = dict_find c.ports q := by
  intro l
  induction l with
  | nil =>
    intro i c c1 h
    simp only [connect_indexed, pure, Except.pure, Except.ok.injEq] at h
    subst h
    exact ⟨rfl, rfl, fun hx => hx, fun _ _ => rfl⟩
  | cons n ns ih =>
    intro i c c1 h
    simp only [connect_indexed] at h
    obtain ⟨c2, h2, h3⟩ := except_bind_ok _ _ _ h
    obtain ⟨t1, _, _, p1, f1, d1⟩ := connect_port_frame n c c2 _ h2
    obtain ⟨t2, p2, d2, f2⟩ := ih (i + 1) c2 c1 h3
    exact ⟨t2.trans t1, p2.trans p1, fun hx => d2 (d1 hx),
      fun q hq => (f2 q hq).trans (f1 q (hq i))⟩

theorem out_ne_indexed (name : String) (k : Nat) (h : name = "RADR" ∨ name = "WADR") :
    ("O" : String) ≠ name ++ to_string k := by
  intro he
  have hd := congrArg String.data he
  rcases h with e | e <;> subst e <;> simp [String.data_append] at hd

/-- The wired RAMD32 cell: its output port O is there, on the output net. -/
theorem wire_dram32_out (name : String) (cs : DRAMControlSet) (address : List (Option NetId))
    (di dout : Option NetId) (c : CellInfo)
    (h : wire_dram_lut "RAMD32" name cs address di dout = .ok c) :
    c.type = "RAMD32" ∧ (c.ports.map (fun e => e.1)).Nodup ∧
    (dict_find c.ports "O").isSome = true ∧ get_net_or_empty c "O" = dout := by
  unfold wire_dram_lut at h
  obtain ⟨c1, h1, g1⟩ := except_bind_ok _ _ _ h
  obtain ⟨c2, h2, g2⟩ := except_bind_ok _ _ _ g1
  obtain ⟨c3, h3, g3⟩ := except_bind_ok _ _ _ g2
  obtain ⟨c4, h4, g4⟩ := except_bind_ok _ _ _ g3
  obtain ⟨c5, h5, g5⟩ := except_bind_ok _ _ _ g4
  obtain ⟨c6, h6, g6⟩ := except_bind_ok _ _ _ g5
  clear h g1 g2 g3 g4 g5
  simp only [pure, Except.pure, Except.ok.injEq] at g6
  obtain ⟨a1, _, a3, a4⟩ := connect_indexed_frame "RADR" address 0 _ c1 h1
  obtain ⟨b1, _, _, _, b4, b5⟩ := connect_port_frame di c1 c2 "I" h2
  obtain ⟨e1, _, _, _, _, e5⟩ := connect_port_frame dout c2 c3 "O" h3
  obtain ⟨f1, _, _, _, f4, f5⟩ := connect_port_frame cs.wclk c3 c4 "CLK" h4
  obtain ⟨k1, _, _, _, k4, k5⟩ := connect_port_frame cs.we c4 c5 "WE" h5
  obtain ⟨m1, _, m3, m4⟩ := connect_indexed_frame "WADR" cs.wa 0 c5 c6 h6
  have hl0 : (dict_find (lib_ports "RAMD32") "O").isSome = true := by decide
  have hl1 : ((dict_find (lib_ports "RAMD32") "O").bind (fun p => p.net)) = none := by decide
  have hl2 : ((lib_ports "RAMD32").map (fun e => e.1)).Nodup := by decide
  have h0 : (dict_find (create_cell "RAMD32" name).ports "O").isSome = true := hl0
  have hn0 : get_net_or_empty (create_cell "RAMD32" name) "O" = none := by
    unfold get_net_or_empty
    show (match dict_find (lib_ports "RAMD32") "O" with
      | some p => p.net
      | none => none) = none
    cases hx : dict_find (lib_ports "RAMD32") "O" with
    | none => rfl
    | some p =>
      rw [hx] at hl1
      exact hl1
  have hnd0 : ((create_cell "RAMD32" name).ports.map (fun e => e.1)).Nodup := hl2
  have hO2 : dict_find c2.ports "O" = dict_find (create_cell "RAMD32" name).ports "O" := by
    rw [b4 "O" (by decide), a4 "O" (fun k => out_ne_indexed "RADR" k (Or.inl rfl))]
  have hO6 : dict_find c6.ports "O" = dict_find c3.ports "O" := by
    rw [m4 "O" (fun k => out_ne_indexed "WADR" k (Or.inr rfl)), k4 "O" (by decide),
      f4 "O" (by decide)]
  have hs2 : (dict_find c2.ports "O").isSome = true := by rw [hO2]; exact h0
  have hs3 : (dict_find c3.ports "O").isSome = true :=
    connect_port_keeps_port dout c2 c3 "O" h3 hs2
  have hnet3 : get_net_or_empty c3 "O" = dout := by
    cases dout with
    | none =>
      have : c3 = c2 := by
        simp only [connect_port, pure, Except.pure, Except.ok.injEq] at h3
        exact h3.symm
      rw [this]
      unfold get_net_or_empty at hn0 ⊢
      rw [hO2]
      exact hn0
    | some n => exact connect_port_net n c2 c3 "O" h3
  rw [← g6]
  refine ⟨?_, ?_, ?_, ?_⟩
  · show c6.type = "RAMD32"
    rw [m1, k1, f1, e1, b1, a1]
    rfl
  · exact m3 (k5 (f5 (e5 (b5 (a3 hnd0)))))
  · show (dict_find c6.ports "O").isSome = true
    rw [hO6]
    exact hs3
  · show get_net_or_empty c6 "O" = dout
    unfold get_net_or_empty at hnet3 ⊢
    rw [hO6]
    exact hnet3

/-- The transformation of a wired RAMD32 cell puts the net of O on O5 with the
rules of the 5-input LUT and on O6 with those of the 6-input LUT. -/
theorem xform32_out (o5 : Bool) (c d : CellInfo) (port : PortInfo)
    (ht : c.type = "RAMD32") (hnd : (c.ports.map (fun e => e.1)).Nodup)
    (hp : dict_find c.ports "O" = some port)
    (h : xform_cell (if o5 then dram32_5_rules else dram32_6_rules) c = .ok d) :
    get_net_or_empty d (if o5 then "O5" else "O6") = port.net ∧ d.params = c.params ∧
    d.name = c.name := by
  have key : ∀ (rules : List (IdString × XFormRule)) (dest : IdString),
      rules_ok rules = true →
      (∃ rule, dict_find rules "RAMD32" = some rule ∧ rule.port_multixform = [] ∧
        dict_find rule.port_xform "O" = some dest) →
      xform_cell rules c = .ok d →
      get_net_or_empty d dest = port.net ∧ d.params = c.params ∧ d.name = c.name := by
    intro rules dest hok hrule hx
    obtain ⟨rule, hf, hm, hO⟩ := hrule
    rw [← ht] at hf
    obtain ⟨htab, _⟩ := rules_ok_spec rules hok c.type rule hf
    obtain ⟨H1, H2⟩ := table_ok_spec rule.port_xform htab
    rw [xform_cell_renames rules c rule hf hm] at hx
    simp only [Except.ok.injEq] at hx
    subst hx
    refine ⟨?_, rfl, rfl⟩
    unfold get_net_or_empty
    simp only
    rw [rename_all_keeps rule.port_xform H1 H2 _ c.ports hnd "O"
      (mem_keys_of_find c.ports "O" port hp) dest port hO hp]
  cases o5 with
  | true =>
    simp only [if_true] at h ⊢
    exact key dram32_5_rules "O5" rules_ok_all.2.2.1 ⟨_, rfl, rfl, rfl⟩ h
  | false =>
    simp only [Bool.false_eq_true, if_false] at h ⊢
    exact key dram32_6_rules "O6" rules_ok_all.2.1 ⟨_, rfl, rfl, rfl⟩ h

/-- What constrain_and_push leaves: the primitive at the end of the pending
buffer, with its ports, its parameters and the z constraint given. -/
theorem constrain_and_push_ok (c : CellInfo) (base : Option CellRef) (cz : Int) (s t : Packer)
    (r : CellRef) (h : constrain_and_push c base cz s = .ok (r, t)) :
    r = CellRef.pending s.new_cells.length ∧
    t.new_cells.length = s.new_cells.length + 1 ∧
    ∃ c2, t.new_cells.get? s.new_cells.length = some c2 ∧ c2.ports = c.ports ∧
      c2.params = c.params ∧ c2.name = c.name ∧ c2.constr_z = cz ∧ c2.constr_abs_z = true := by
  unfold constrain_and_push at h
  cases base with
  | none =>
    simp only [pure, Except.pure, Except.ok.injEq, Prod.mk.injEq] at h
    obtain ⟨h1, h2⟩ := h
    subst h2
    refine ⟨h1.symm, by simp, { c with constr_abs_z := true, constr_z := cz },
      get_append_last _ _, rfl, rfl, rfl, rfl, rfl⟩
  | some b =>
    simp only at h
    obtain ⟨s1, hm, h2⟩ := except_bind_ok _ _ _ h
    simp only [pure, Except.pure, Except.ok.injEq, Prod.mk.injEq] at h2
    obtain ⟨h3, h4⟩ := h2
    have hl := slots_added_length s s1 [] (modify_cell_slots s s1 b _ hm (fun _ => rfl))
    simp only [List.length_nil, Nat.add_zero] at hl
    subst h4
    refine ⟨h3.symm, by simp [hl],
      { c with constr_abs_z := true, constr_z := cz, constr_parent := some b, constr_x := 0,
               constr_y := 0 }, ?_, rfl, rfl, rfl, rfl, rfl⟩
    simp only
    rw [← hl]
    exact get_append_last _ _

set_option maxRecDepth 100000 in
/-- The whole RAM32M branch on the sample cell: bank A gives the primitive of
output 0 on the 5-input LUT with the even bits of INIT_A and the primitive of
output 1 on the 6-input LUT with the odd bits, both in slot 0; the banks
without INIT give primitives without INIT in the slots 1 to 3. -/
theorem ram32m_sample_banks :
    (pack_slice_cell 0 ram32m_design).toOption.map (fun r => (r.new_cells.map bank_view)) =
      some [("quad/DPR0_0", some "10000000000000000000000000000000", some 9, none, 1),
        ("quad/DPR0_1", some "01000000000000000000000000000000", none, some 10, 0),
        ("quad/DPR1_0", none, none, none, 17), ("quad/DPR1_1", none, none, none, 16),
        ("quad/DPR2_0", none, none, none, 33), ("quad/DPR2_1", none, none, none, 32),
        ("quad/DPR3_0", none, none, none, 49), ("quad/DPR3_1", none, none, none, 48)] := by
  rfl

/-! ### create_muxf_tree on a number of data sources other than 2, 4, 8 -/

theorem push_back_last_append {α : Type} (D : List (List α)) (l : List α) (x : α) :
    push_back_last (D ++ [l]) x = D ++ [l ++ [x]] := by
  induction D with
  | nil => rfl
  | cons a D ih =>
    cases D with
    | nil => rfl
    | cons b D =>
      have e : push_back_last (a :: b :: (D ++ [l])) x =
          a :: push_back_last (b :: (D ++ [l])) x := rfl
      simp only [List.cons_append] at ih ⊢
      rw [e, ih]

theorem muxf_cell_shape (base : Option CellRef) (nb : String) (levels i : Nat) (t : IdString)
    (last select : List (Option NetId)) (out : Option NetId) (j : Nat) (st st1 : MuxfLoop)
    (h : muxf_cell base nb levels i t last select out j st = .ok st1) :
    (∃ x, st1.int_data = push_back_last st.int_data x) ∧
    (st1.mux_root ≠ st.mux_root → i = levels - 1) := by
  unfold muxf_cell at h
  obtain ⟨bc, _, h⟩ := except_bind_ok _ _ _ h
  obtain ⟨m4, _, h⟩ := except_bind_ok _ _ _ h
  cases h
  refine ⟨⟨_, rfl⟩, ?_⟩
  intro hne
  by_contra hi
  simp only [hi, if_false] at hne
  exact hne rfl

theorem muxf_cells_shape (base : Option CellRef) (nb : String) (levels i : Nat) (t : IdString)
    (last select : List (Option NetId)) (out : Option NetId) :
    ∀ (n j : Nat) (st st1 : MuxfLoop) (D : List (List (Option NetId))) (l : List (Option NetId)),
      muxf_cells base nb levels i t last select out n j st = .ok st1 →
      st.int_data = D ++ [l] →
      (∃ l1, st1.int_data = D ++ [l1] ∧ l1.length = l.length + n) ∧
      (st1.mux_root ≠ st.mux_root → i = levels - 1 ∧ 0 < n) := by
  intro n
  induction n with
  | zero =>
    intro j st st1 D l h hd
    cases h
    exact ⟨⟨l, hd, rfl⟩, fun hne => absurd rfl hne⟩
  | succ n ih =>
    intro j st st1 D l h hd
    unfold muxf_cells at h
    obtain ⟨st2, h2, h⟩ := except_bind_ok _ _ _ h
    obtain ⟨⟨x, hx⟩, hr⟩ := muxf_cell_shape _ _ _ _ _ _ _ _ _ _ _ h2
    rw [hd, push_back_last_append] at hx
    obtain ⟨⟨l1, e1, n1⟩, hr1⟩ := ih (j + 1) st2 st1 D (l ++ [x]) h hx
    refine ⟨⟨l1, e1, by rw [n1]; simp; omega⟩, ?_⟩
    intro hne
    by_cases h3 : st2.mux_root = st.mux_root
    · rw [← h3] at hne
      exact ⟨(hr1 hne).1, Nat.succ_pos n⟩
    · exact ⟨hr h3, Nat.succ_pos n⟩

theorem muxf_level_shape (base : Option CellRef) (nb : String) (levels : Nat)
    (select : List (Option NetId)) (out : Option NetId) (i : Nat) (st st1 : MuxfLoop)
    (D : List (List (Option NetId))) (l : List (Option NetId))
    (h : muxf_level base nb levels select out i st = .ok st1)
    (hd : st.int_data = D ++ [l]) :
    (∃ l1, st1.int_data = (D ++ [l]) ++ [l1] ∧ l1.length = l.length / 2) ∧
    (st1.mux_root ≠ st.mux_root → i = levels - 1 ∧ 0 < l.length / 2) := by
  unfold muxf_level at h
  obtain ⟨t, _, h⟩ := except_bind_ok _ _ _ h
  obtain ⟨last, hl, h⟩ := except_bind_ok _ _ _ h
  have e : last = l := by
    simp only [hd, vec_at, List.length_append, List.length_cons, List.length_nil, Nat.reduceAdd,
      Nat.add_sub_cancel, List.get?_eq_getElem?] at hl
    rw [List.getElem?_append_left (by simp), List.getElem?_append_right (by simp)] at hl
    simp at hl
    cases hl
    rfl
  subst e
  obtain ⟨⟨l1, e1, n1⟩, hr⟩ := muxf_cells_shape _ _ _ _ _ _ _ _ _ _ _ _ (D ++ [last]) [] h
    (by simp [hd])
  exact ⟨⟨l1, e1, by simpa using n1⟩, hr⟩

theorem muxf_loop_root (base : Option CellRef) (nb : String) (levels : Nat)
    (select : List (Option NetId)) (out : Option NetId) :
    ∀ (n i : Nat) (st st1 : MuxfLoop) (D : List (List (Option NetId))) (l : List (Option NetId)),
      muxf_loop base nb levels select out n i st = .ok st1 →
      st.int_data = D ++ [l] → st.mux_root = none → st1.mux_root ≠ none →
      i ≤ levels - 1 ∧ 0 < l.length / 2 ^ (levels - 1 - i) / 2 := by
  intro n
  induction n with
  | zero =>
    intro i st st1 D l h _ h0 h1
    cases h
    exact absurd h0 h1
  | succ n ih =>
    intro i st st1 D l h hd h0 h1
    unfold muxf_loop at h
    obtain ⟨st2, h2, h⟩ := except_bind_ok _ _ _ h
    obtain ⟨⟨l1, e1, n1⟩, hr⟩ := muxf_level_shape _ _ _ _ _ _ _ _ D l h2 hd
    by_cases h3 : st2.mux_root = st.mux_root
    · obtain ⟨a, b⟩ := ih (i + 1) st2 st1 (D ++ [l]) l1 h e1 (h3.trans h0) h1
      refine ⟨by omega, ?_⟩
      have e : levels - 1 - i = (levels - 1 - (i + 1)) + 1 := by omega
      rw [e, pow_succ, Nat.mul_comm, ← Nat.div_div_eq_div_mul, ← n1]
      exact b
    · obtain ⟨a, b⟩ := hr h3
      refine ⟨by omega, ?_⟩
      have e : levels - 1 - i = 0 := by omega
      rw [e]
      simpa using b

theorem muxf_build_root (base : Option CellRef) (nb : String) (data select : List (Option NetId))
    (out : Option NetId) (s : Packer) (st : MuxfLoop)
    (h : muxf_build base nb data select out s = .ok st) (hr : st.mux_root ≠ none) :
    data.length = 2 ∨ data.length = 4 ∨ data.length = 8 := by
  unfold muxf_build at h
  obtain ⟨levels, hl, h⟩ := except_bind_ok _ _ _ h
  split_ifs at h with hs
  obtain ⟨_, b⟩ := muxf_loop_root _ _ _ _ _ _ _ _ _ [] data h rfl rfl hr
  unfold muxf_levels at hl
  split_ifs at hl with c1 c2 c3
  · cases hl
    simp only [Nat.sub_self, pow_zero, Nat.div_one] at b
    omega
  · cases hl
    simp only [Nat.reduceSub, Nat.sub_zero, pow_one] at b
    omega
  · cases hl
    simp only [Nat.reduceSub, Nat.sub_zero, Nat.reducePow] at b
    omega

set_option maxHeartbeats 4000000 in
/-- C3: create_muxf_tree fails for every number of data sources other than 2, 4
and 8, whatever the select list, the base and the state: beyond 8 on the first
assertion, on a select list of another length than the levels on the second, and
otherwise at constrain_muxf_tree, which is handed a null root since the last
level has no pair to join. For 2, 4 or 8 data sources and log2 as many select
lines the two size checks pass, and with a base that points to a cell the call
returns. -/
theorem create_muxf_tree_sizes (base : Option CellRef) (nb : String)
    (data select : List (Option NetId)) (out : Option NetId) (zoffset : Int) (s : Packer) :
    (data.length ≠ 2 → data.length ≠ 4 → data.length ≠ 8 →
      ∃ e, create_muxf_tree base nb data select out zoffset s = .error e) ∧
    ((data.length = 2 ∨ data.length = 4 ∨ data.length = 8) → 2 ^ select.length = data.length →
      muxf_levels data.length = .ok select.length ∧
      ∀ r bc, base = some r → get_cell s r = some bc →
        ∃ t, create_muxf_tree base nb data select out zoffset s = .ok t) := by
  constructor
  · intro h2 h4 h8
    cases hb : muxf_build base nb data select out s with
    | error e => exact ⟨e, by simp only [create_muxf_tree, hb, bind, Except.bind]⟩
    | ok st =>
      have hr : st.mux_root = none := by
        by_contra hne
        rcases muxf_build_root _ _ _ _ _ _ _ hb hne with h | h | h
        · exact h2 h
        · exact h4 h
        · exact h8 h
      refine ⟨"null cell pointer", ?_⟩
      simp only [create_muxf_tree, hb, bind, Except.bind, hr, constrain_muxf_tree]
      rfl
  · intro hN hS
    rcases muxf_shapes data select hN hS with
      ⟨d0, d1, s0, rfl, rfl⟩ | ⟨d0, d1, d2, d3, s0, s1, rfl, rfl⟩ |
      ⟨d0, d1, d2, d3, d4, d5, d6, d7, s0, s1, s2, rfl, rfl⟩
    · refine ⟨rfl, ?_⟩
      intro r bc hr hb
      subst hr
      obtain ⟨t, et, _⟩ := create_muxf_tree_view s r bc nb _ _ out zoffset _ _ 0
        (get_cell_extend s r bc hb _ _) (muxf_build_two s r bc hb nb d0 d1 s0 out) rfl rfl
        (by simp)
      exact ⟨t, et⟩
    · refine ⟨rfl, ?_⟩
      intro r bc hr hb
      subst hr
      obtain ⟨t, et, _⟩ := create_muxf_tree_view s r bc nb _ _ out zoffset _ _ 2
        (get_cell_extend s r bc hb _ _) (muxf_build_four s r bc hb nb d0 d1 d2 d3 s0 s1 out)
        rfl rfl (by simp)
      exact ⟨t, et⟩
    · refine ⟨rfl, ?_⟩
      intro r bc hr hb
      subst hr
      obtain ⟨t, et, _⟩ := create_muxf_tree_view s r bc nb _ _ out zoffset _ _ 6
        (get_cell_extend s r bc hb _ _)
        (muxf_build_eight s r bc hb nb d0 d1 d2 d3 d4 d5 d6 d7 s0 s1 s2 out) rfl rfl (by simp)
      exact ⟨t, et⟩

theorem create_muxf_tree_sizes_witness :
    (∃ e, create_muxf_tree (some (CellRef.pending 0)) "O" [some 2, some 3, some 4]
      [some 5, some 6] (some 7) 2 sample_packer = .error e) ∧
    (∃ e, create_muxf_tree (some (CellRef.pending 0)) "O" [some 2] [some 5] (some 7) 2
      sample_packer = .error e) ∧
    (∃ e, create_muxf_tree (some (CellRef.pending 0)) "O"
      [some 2, some 3, some 4, some 5, some 6, some 7] [some 8, some 9, some 10] (some 11) 2
      sample_packer = .error e) ∧
    muxf_levels 4 = .ok 2 ∧
    ∃ t, create_muxf_tree (some (CellRef.pending 0)) "O" [some 2, some 3, some 4, some 5]
      [some 6, some 7] (some 8) 2 sample_packer = .ok t :=
  ⟨(create_muxf_tree_sizes _ "O" [some 2, some 3, some 4] [some 5, some 6] _ 2 sample_packer).1
      (by decide) (by decide) (by decide),
    (create_muxf_tree_sizes _ "O" [some 2] [some 5] _ 2 sample_packer).1
      (by decide) (by decide) (by decide),
    (create_muxf_tree_sizes _ "O" [some 2, some 3, some 4, some 5, some 6, some 7]
      [some 8, some 9, some 10] _ 2 sample_packer).1 (by decide) (by decide) (by decide),
    ((create_muxf_tree_sizes (some (CellRef.pending 0)) "O" [some 2, some 3, some 4, some 5]
      [some 6, some 7] (some 8) 2 sample_packer).2 (by decide) (by decide)).1,
    ((create_muxf_tree_sizes (some (CellRef.pending 0)) "O" [some 2, some 3, some 4, some 5]
      [some 6, some 7] (some 8) 2 sample_packer).2 (by decide) (by decide)).2 _ _ rfl rfl⟩

/-! ### prepare_clocking: the state in which the loop reaches a cell -/

theorem cells_loop_split (body : Nat → Packer → Except String Packer) :
    ∀ (a b idx : Nat) (s : Packer),
      cells_loop body (a + b) idx s =
        (cells_loop body a idx s >>= fun t => cells_loop body b (idx + a) t) := by
  intro a
  induction a with
  | zero =>
    intro b idx s
    simp only [Nat.zero_add, cells_loop, Nat.add_zero]
    rfl
  | succ a ih =>
    intro b idx s
    have e : a + 1 + b = (a + b) + 1 := by omega
    rw [e]
    simp only [cells_loop, bind, Except.bind]
    cases h1 : body idx s with
    | error e => rfl
    | ok s1 =>
      simp only
      rw [ih b (idx + 1) s1]
      have e2 : idx + 1 + a = idx + (a + 1) := by omega
      rw [e2]
      rfl

/-- The state in which a loop over the cells reaches the cell of index `k`, and
the turn it takes there. -/
theorem cells_loop_reaches (body : Nat → Packer → Except String Packer)
    (hbody : ∀ j s t, body j s = .ok t → same_but j s t) (k n : Nat) (s t : Packer)
    (hk : k < n) (h : cells_loop body n 0 s = .ok t) :
    ∃ sa sb, cells_loop body k 0 s = .ok sa ∧ sa.nets = s.nets ∧
      sa.cells.length = s.cells.length ∧ sa.cells.get? k = s.cells.get? k ∧
      body k sa = .ok sb ∧ t.cells.get? k = sb.cells.get? k := by
  have e : n = k + ((n - k - 1) + 1) := by omega
  rw [e, cells_loop_split] at h
  obtain ⟨sa, ha, h⟩ := except_bind_ok _ _ _ h
  simp only [cells_loop, Nat.zero_add] at h
  obtain ⟨sb, hb, h⟩ := except_bind_ok _ _ _ h
  obtain ⟨f1, f2, f3⟩ := cells_loop_frame body hbody k 0 s sa ha
  refine ⟨sa, sb, ha, f1, f2, f3 k (Or.inr (by omega)), hb, ?_⟩
  exact (cells_loop_frame body hbody _ (k + 1) sb t h).2.2 k (Or.inl (by omega))

/-- The two visits prepare_clocking pays the cell of index `k`: the loop body in
the state `sa` the loop has reached after the cells before it, then the rule
table on the cell the body left. -/
theorem prepare_clocking_reaches (s r : Packer) (k : Nat) (ci : CellInfo)
    (hk : s.cells.get? k = some ci) (h : prepare_clocking s = .ok r) :
    ∃ sa sb c1 c2, cells_loop prepare_clocking_cell k 0 s = .ok sa ∧ sa.nets = s.nets ∧
      sa.cells.get? k = some ci ∧
      prepare_clocking_cell k sa = .ok sb ∧ sb.cells.get? k = some c1 ∧
      xform_cell bufgctrl_rules c1 = .ok c2 ∧ r.cells.get? k = some c2 := by
  have hlen : k < s.cells.length := by
    simp only [List.get?_eq_getElem?] at hk
    by_contra hc
    rw [List.getElem?_eq_none (by omega)] at hk
    cases hk
  unfold prepare_clocking at h
  obtain ⟨s1, hs1, h⟩ := except_bind_ok _ _ r h
  obtain ⟨sa, sb, ha, a1, _, a3, a4, a5⟩ := cells_loop_reaches prepare_clocking_cell
    prepare_clocking_cell_frame k s.cells.length s s1 hlen hs1
  have hl1 := (cells_loop_frame prepare_clocking_cell prepare_clocking_cell_frame
    s.cells.length 0 s s1 hs1).2.1
  obtain ⟨c1, hc1⟩ := get_of_length sa.cells sb.cells k ci (a3.trans hk)
    (prepare_clocking_cell_frame k sa sb a4).2.1
  unfold generic_xform at h
  obtain ⟨ta, tb, _, _, b3, b4, b5⟩ := cells_loop_at _
    (generic_xform_cell_frame bufgctrl_rules) k s1.cells.length 0 s1 r h (Nat.zero_le k)
    (by omega)
  have hta : ta.cells.get? k = some c1 := b3.trans (a5.trans hc1)
  simp only [deref_live ta k c1 hta, bind, Except.bind] at b4
  cases hx : xform_cell bufgctrl_rules c1 with
  | error e => rw [hx] at b4; cases b4
  | ok c2 =>
    rw [hx] at b4
    simp only [pure, Except.pure, Except.ok.injEq] at b4
    subst b4
    rw [get_set_cell ta k c1 c2 hta] at b5
    exact ⟨sa, sb, c1, c2, ha, a1, a3.trans hk, a4, hc1, hx, b5⟩

/-- What fold_inverter leaves of the port it is called on: the net and the
inversion `folded` gives for the net the port was on. -/
theorem fold_inverter_folded (k : Nat) (s t : Packer) (ci c0 : CellInfo) (port : String)
    (hk : s.cells.get? k = some ci) (hc0 : t.cells.get? k = some c0)
    (h : fold_inverter s (CellRef.live k) port = .ok t) :
    get_net_or_empty c0 port = (folded s (get_net_or_empty ci port)).1 ∧
    ((folded s (get_net_or_empty ci port)).2 = false → t = s) ∧
    ((folded s (get_net_or_empty ci port)).2 = true →
      dict_find c0.params ("IS_" ++ port ++ "_INVERTED") = some (Property.of_int 1 32)) := by
  have hsame : t = s → c0 = ci := by
    intro e
    rw [e, hk] at hc0
    exact (Option.some.inj hc0).symm
  have hkeep : ∀ x : Option NetId, t = s → folded s (get_net_or_empty ci port) = (x, false) →
      get_net_or_empty ci port = x →
      get_net_or_empty c0 port = (folded s (get_net_or_empty ci port)).1 ∧
      ((folded s (get_net_or_empty ci port)).2 = false → t = s) ∧
      ((folded s (get_net_or_empty ci port)).2 = true →
        dict_find c0.params ("IS_" ++ port ++ "_INVERTED") = some (Property.of_int 1 32)) := by
    intro x e hf hx
    rw [hf, hsame e]
    exact ⟨hx, fun _ => e, fun e2 => absurd e2 (by simp)⟩
  unfold fold_inverter at h
  simp only [deref_live s k ci hk, bind, Except.bind] at h
  cases hn : get_net_or_empty ci port with
  | none =>
    rw [hn] at h
    cases h
    exact hn ▸ hkeep none rfl (by rw [hn]; rfl) hn
  | some net =>
    rw [hn] at h
    simp only at h
    cases hd : driver_of s net with
    | none =>
      rw [hd] at h
      cases h
      exact hn ▸ hkeep (some net) rfl (by rw [hn]; simp only [folded, hd]) hn
    | some drv =>
      rw [hd] at h
      simp only at h
      have hi : (if drv.2.type = "LUT1" ∧ int_or_default drv.2.params "INIT" = 1 then some "I0"
          else if drv.2.type = "INV" then some "I" else none) = inverter_input drv.2 := rfl
      rw [hi] at h
      cases hinp : inverter_input drv.2 with
      | none =>
        rw [hinp] at h
        cases h
        exact hn ▸ hkeep (some net) rfl (by rw [hn]; simp only [folded, hd, hinp]) hn
      | some i =>
        rw [hinp] at h
        simp only at h
        obtain ⟨c1, hc1, h2⟩ := except_bind_ok _ _ _ h
        simp only [pure, Except.pure, Except.ok.injEq] at h2
        have hmp : ∀ (u : Packer) (nm : IdString), (mark_packed u nm).cells = u.cells := by
          intro u nm
          unfold mark_packed
          split_ifs <;> rfl
        have hcell : ∃ c2, t.cells.get? k = some c2 ∧ c2.ports = c1.ports ∧
            dict_find c2.params ("IS_" ++ port ++ "_INVERTED") = some (Property.of_int 1 32) := by
          rw [← h2]
          split_ifs
          · exact ⟨_, get_set_cell s k ci _ hk, rfl, dict_find_set_self _ _ _⟩
          · rw [hmp]
            exact ⟨_, get_set_cell s k ci _ hk, rfl, dict_find_set_self _ _ _⟩
        obtain ⟨c2, hc2, hports, hkey⟩ := hcell
        rw [hc0] at hc2
        have hcc := Option.some.inj hc2
        subst hcc
        have hf : folded s (some net) = (get_net_or_empty drv.2 i, true) := by
          simp only [folded, hd, hinp]
        rw [hf]
        refine ⟨?_, fun e => absurd e (by simp), fun _ => hkey⟩
        show get_net_or_empty c0 port = get_net_or_empty drv.2 i
        unfold get_net_or_empty at hn
        cases hp : dict_find ci.ports port with
        | none => rw [hp] at hn; cases hn
        | some p =>
          unfold connect_port disconnect_port at hc1
          simp only [hp] at hc1
          cases hpre : get_net_or_empty drv.2 i with
          | none =>
            rw [hpre] at hc1
            simp only [pure, Except.pure, Except.ok.injEq] at hc1
            unfold get_net_or_empty
            rw [hports, ← hc1]
            simp only [dict_find_set_self]
          | some m =>
            rw [hpre] at hc1
            simp only [dict_find_set_self, ne_eq, not_true_eq_false, if_false, pure,
              Except.pure, Except.ok.injEq] at hc1
            unfold get_net_or_empty
            rw [hports, ← hc1]
            simp only [dict_find_set_self]

/-! ### prepare_clocking on a clock-enable buffer, with the inverter folded -/

/-- The result of prepare_clocking on a BUFGCE or BUFGCE_1 cell, against the
cell fold_inverter leaves in the state the loop has reached. -/
theorem bufgce_result (s r : Packer) (k : Nat) (ci : CellInfo) (pI : PortInfo)
    (v g : NetId)
    (hk : s.cells.get? k = some ci) (ht : ci.type = "BUFGCE" ∨ ci.type = "BUFGCE_1")
    (hv : net_by_name s "$PACKER_VCC_NET" = some v)
    (hg : net_by_name s "$PACKER_GND_NET" = some g)
    (hnd : (ci.ports.map (fun e => e.1)).Nodup) (hpn : (ci.params.map (fun e => e.1)).Nodup)
    (hI : dict_find ci.ports "I" = some pI) (hCE : (dict_find ci.ports "CE").isSome)
    (h1 : get_net_or_empty ci "S0" = none) (h2 : get_net_or_empty ci "S1" = none)
    (h3 : get_net_or_empty ci "IGNORE0" = none) (h4 : get_net_or_empty ci "IGNORE1" = none)
    (h : prepare_clocking s = .ok r) :
    ∃ sa s1 c0 c, cells_loop prepare_clocking_cell k 0 s = .ok sa ∧ sa.nets = s.nets ∧ sa.cells.get? k = some ci ∧
      fold_inverter sa (CellRef.live k) "CE" = .ok s1 ∧ s1.cells.get? k = some c0 ∧
      r.cells.get? k = some c ∧ c.type = "BUFGCTRL" ∧
      get_net_or_empty c "S0" = some v ∧ get_net_or_empty c "S1" = some g ∧
      get_net_or_empty c "IGNORE0" = some v ∧ get_net_or_empty c "IGNORE1" = some g ∧
      get_net_or_empty c "CE0" = get_net_or_empty c0 "CE" ∧
      get_net_or_empty c "I0" = pI.net ∧
      (int_or_default c0.params "IS_CE_INVERTED" ≠ 0 →
        dict_find c.params "IS_CE0_INVERTED" = some (Property.of_int 1 32) ∧
        dict_find c.params "IS_CE_INVERTED" = none) := by
  obtain ⟨sa, sb, c1, c2, hreach, a1, a3, a4, hc1, hx, hr⟩ := prepare_clocking_reaches s r k ci hk h
  obtain ⟨s1, c0, c, hf, hc0, hc, hsb⟩ := visit_bufgce sa sb k ci a3 ht a4
  subst hsb
  rw [get_set_cell s1 k c0 c hc0] at hc1
  have hcc : c = c1 := Option.some.inj hc1
  subst hcc
  obtain ⟨e0, c0', hc0', e1, _, _, e4, e5, e6, e7, e8⟩ := fold_inverter_cell k sa s1 ci "CE" a3 hf
  rw [hc0] at hc0'
  have hcc : c0 = c0' := Option.some.inj hc0'
  subst hcc
  have hn1 : ∀ nm, net_by_name s1 nm = net_by_name s nm := fun nm =>
    (nets_of_same_but k sa s1 (fold_inverter_frame k sa s1 "CE" hf) nm).trans
      (net_by_name_nets s sa a1 nm)
  obtain ⟨cM, hcM⟩ : ∃ cM : CellInfo, cM =
      (if int_or_default c0.params "IS_CE_INVERTED" ≠ 0 then
        { c0 with
          params := dict_erase (dict_set c0.params "IS_CE0_INVERTED" (Property.of_int 1 32))
            "IS_CE_INVERTED" }
       else c0) := ⟨_, rfl⟩
  rw [← hcM] at hc
  have hM : cM.type = c0.type ∧ cM.ports = c0.ports := by
    rw [hcM]
    split_ifs <;> exact ⟨rfl, rfl⟩
  obtain ⟨t1, _, _, p1, q1, d1, w1⟩ := tie_ports_frame s1 _ cM c hc
  have hfree : ∀ q, q ≠ "CE" → get_net_or_empty ci q = none → get_net_or_empty cM q = none := by
    intro q hq hz
    unfold get_net_or_empty at hz ⊢
    rw [hM.2, e4 q hq]
    exact hz
  obtain ⟨x1, x2, _, x4, x5, x6⟩ := xform_bufgce c c2
    (by rw [t1, hM.1, e1]; exact ht) (d1 (by rw [hM.2]; exact e6 hnd)) hx
  have hkeep : ∀ q, q ∉ ["I", "CE", "I0", "CE0"] →
      get_net_or_empty c2 q = get_net_or_empty c q := by
    intro q hq
    unfold get_net_or_empty
    rw [x6 q hq]
  have htie : ∀ e ∈ [("S0", true, true), ("S1", false, true), ("IGNORE0", true, true),
      ("IGNORE1", false, true)], get_net_or_empty ci e.1 = none → e.1 ≠ "CE" →
      get_net_or_empty c e.1 = net_by_name s
        (if e.2.1 then "$PACKER_VCC_NET" else "$PACKER_GND_NET") := by
    intro e he hz hne
    obtain ⟨n, hn, hgn⟩ := w1 (by decide) e he (hfree e.1 hne hz)
    rw [hgn, ← hn, hn1]
  refine ⟨sa, s1, c0, c2, hreach, a1, a3, hf, hc0, hr, x1, ?_, ?_, ?_, ?_, ?_, ?_, ?_⟩
  · rw [hkeep "S0" (by decide), htie ("S0", true, true) (by decide) h1 (by decide)]
    exact hv
  · rw [hkeep "S1" (by decide), htie ("S1", false, true) (by decide) h2 (by decide)]
    exact hg
  · rw [hkeep "IGNORE0" (by decide), htie ("IGNORE0", true, true) (by decide) h3 (by decide)]
    exact hv
  · rw [hkeep "IGNORE1" (by decide), htie ("IGNORE1", false, true) (by decide) h4 (by decide)]
    exact hg
  · have hce := e7 hCE
    cases hp : dict_find c0.ports "CE" with
    | none => rw [hp] at hce; cases hce
    | some pce =>
      have hcp : dict_find c.ports "CE" = some pce := by
        rw [p1 "CE" (by decide), hM.2]; exact hp
      simp only [get_net_or_empty, x5 pce hcp, hp]
  · have hcp : dict_find c.ports "I" = some pI := by
      rw [p1 "I" (by decide), hM.2, e4 "I" (by decide)]; exact hI
    simp only [get_net_or_empty, x4 pI hcp]
  · intro hinv
    have hMp : cM.params = dict_erase
        (dict_set c0.params "IS_CE0_INVERTED" (Property.of_int 1 32)) "IS_CE_INVERTED" := by
      rw [hcM, if_pos hinv]
    rw [x2]
    constructor
    · rw [q1 "IS_CE0_INVERTED" (by decide), hMp, dict_find_erase_ne _ _ _ (by decide)]
      exact dict_find_set_self _ _ _
    · rw [q1 "IS_CE_INVERTED" (by decide), hMp]
      exact dict_find_erase_self _ _ (nodup_keys_dict_set _ _ _ (e8 hpn))


theorem cells_loop_inv (body : Nat → Packer → Except String Packer) (Inv : Packer → Prop)
    (hInv : ∀ j s t, body j s = .ok t → Inv s → Inv t) :
    ∀ (n idx : Nat) (s t : Packer), cells_loop body n idx s = .ok t → Inv s → Inv t := by
  intro n
  induction n with
  | zero =>
    intro idx s t h hi
    cases h
    exact hi
  | succ n ih =>
    intro idx s t h hi
    obtain ⟨s1, h1, h⟩ := except_bind_ok _ _ t h
    exact ih (idx + 1) s1 t h (hInv idx s s1 h1 hi)

/-- In a state without INV and LUT1 cells fold_inverter finds nothing to absorb. -/
theorem folded_of_no_inverters (s : Packer) (h : no_inverters s) (x : Option NetId) :
    folded s x = (x, false) := by
  cases x with
  | none => rfl
  | some n =>
    unfold folded
    simp only
    cases hd : driver_of s n with
    | none => rfl
    | some drv =>
      simp only
      obtain ⟨m, _, hm, _, _⟩ := driver_of_loop_spec n s.cells 0 drv hd
      have hmem : drv.2 ∈ s.cells := by
        simp only [List.get?_eq_getElem?] at hm
        exact List.getElem?_mem hm
      obtain ⟨n1, n2⟩ := h _ hmem
      have hi : inverter_input drv.2 = none := by
        unfold inverter_input
        rw [if_neg (fun e => n2 e.1), if_neg n1]
      rw [hi]

/-- C13: for a BUFGCE or BUFGCE_1 cell with ports I and CE whose S0, S1,
IGNORE0 and IGNORE1 are absent or unconnected, whenever prepare_clocking
returns: the cell has type BUFGCTRL, S0 and IGNORE0 are on the logic-1 net, S1
and IGNORE1 on the logic-0 net, I0 is on the net of I, and CE0 is on the enable
net: the net of CE, or the net on the input of the inverter when, in the state
`sa` in which the loop reaches the cell, the driver of that net is an inverter
(an INV, or a LUT1 with INIT = 1), which fold_inverter absorbs. When the enable
is inverted after the folding (an inverter was absorbed, or IS_CE_INVERTED was
non-zero), the cell carries IS_CE0_INVERTED = 1 and no IS_CE_INVERTED. In a
design without INV and LUT1 cells nothing is absorbed. -/
theorem prepare_clocking_bufgce (s r : Packer) (k : Nat) (ci : CellInfo) (pI : PortInfo)
    (v g : NetId)
    (hk : s.cells.get? k = some ci) (ht : ci.type = "BUFGCE" ∨ ci.type = "BUFGCE_1")
    (hv : net_by_name s "$PACKER_VCC_NET" = some v)
    (hg : net_by_name s "$PACKER_GND_NET" = some g)
    (hnd : (ci.ports.map (fun e => e.1)).Nodup) (hpn : (ci.params.map (fun e => e.1)).Nodup)
    (hI : dict_find ci.ports "I" = some pI) (hCE : (dict_find ci.ports "CE").isSome)
    (h1 : get_net_or_empty ci "S0" = none) (h2 : get_net_or_empty ci "S1" = none)
    (h3 : get_net_or_empty ci "IGNORE0" = none) (h4 : get_net_or_empty ci "IGNORE1" = none)
    (h : prepare_clocking s = .ok r) :
    ∃ sa c, cells_loop prepare_clocking_cell k 0 s = .ok sa ∧
      r.cells.get? k = some c ∧ c.type = "BUFGCTRL" ∧
      get_net_or_empty c "S0" = some v ∧ get_net_or_empty c "S1" = some g ∧
      get_net_or_empty c "IGNORE0" = some v ∧ get_net_or_empty c "IGNORE1" = some g ∧
      get_net_or_empty c "CE0" = (folded sa (get_net_or_empty ci "CE")).1 ∧
      get_net_or_empty c "I0" = pI.net ∧
      ((folded sa (get_net_or_empty ci "CE")).2 = true ∨
          int_or_default ci.params "IS_CE_INVERTED" ≠ 0 →
        dict_find c.params "IS_CE0_INVERTED" = some (Property.of_int 1 32) ∧
        dict_find c.params "IS_CE_INVERTED" = none) ∧
      (no_inverters s →
        folded sa (get_net_or_empty ci "CE") = (get_net_or_empty ci "CE", false)) := by
  obtain ⟨sa, s1, c0, c, hreach, _, a3, hf, hc0, hr, x1, x2, x3, x4, x5, x6, x7, x8⟩ :=
    bufgce_result s r k ci pI v g hk ht hv hg hnd hpn hI hCE h1 h2 h3 h4 h
  obtain ⟨f1, f2, f3⟩ := fold_inverter_folded k sa s1 ci c0 "CE" a3 hc0 hf
  refine ⟨sa, c, hreach, hr, x1, x2, x3, x4, x5, x6.trans f1, x7, ?_, ?_⟩
  · intro hinv
    apply x8
    cases hb : (folded sa (get_net_or_empty ci "CE")).2 with
    | true =>
      have e3 : dict_find c0.params "IS_CE_INVERTED" = some (Property.of_int 1 32) := f3 hb
      unfold int_or_default
      rw [e3]
      decide
    | false =>
      rcases hinv with e | e
      · rw [hb] at e
        cases e
      · have e1 := f2 hb
        rw [e1, a3] at hc0
        rw [← Option.some.inj hc0]
        exact e
  · intro hno
    exact folded_of_no_inverters sa
      (cells_loop_inv prepare_clocking_cell no_inverters no_inverters_step k 0 s sa hreach hno) _

set_option maxRecDepth 100000 in
theorem prepare_clocking_bufgce_witness :
    get_net_or_empty bufgce_cell "CE" = some 3 ∧ get_net_or_empty inv_cell "I" = some 2 ∧
    ∃ r sa c, prepare_clocking inverted_enable_design = .ok r ∧
      cells_loop prepare_clocking_cell 1 0 inverted_enable_design = .ok sa ∧
      folded sa (some 3) = (some 2, true) ∧
      r.cells.get? 1 = some c ∧ c.type = "BUFGCTRL" ∧
      get_net_or_empty c "S0" = some 1 ∧ get_net_or_empty c "S1" = some 0 ∧
      get_net_or_empty c "IGNORE0" = some 1 ∧ get_net_or_empty c "IGNORE1" = some 0 ∧
      get_net_or_empty c "CE0" = some 2 ∧ get_net_or_empty c "I0" = some 2 ∧
      dict_find c.params "IS_CE0_INVERTED" = some (Property.of_int 1 32) ∧
      dict_find c.params "IS_CE_INVERTED" = none :=
  ⟨rfl, rfl, (prepare_clocking_bufgce inverted_enable_design _ 1 bufgce_cell (sink "I" (some 2)).2
    1 0 rfl (Or.inl rfl) (by decide) (by decide) (by decide) (by decide) (by decide) (by decide)
    (by decide) (by decide) (by decide) (by decide) rfl).elim (fun sa hsa => hsa.elim (fun c hc =>
      ⟨_, sa, c, rfl, hc.1, by
        have e := hc.1
        have e2 : cells_loop prepare_clocking_cell 1 0 inverted_enable_design =
            .ok inverted_enable_design := rfl
        rw [e2] at e
        cases e
        rfl, hc.2.1, hc.2.2.1, hc.2.2.2.1, hc.2.2.2.2.1, hc.2.2.2.2.2.1, hc.2.2.2.2.2.2.1,
        by
          have e := hc.1
          have e2 : cells_loop prepare_clocking_cell 1 0 inverted_enable_design =
              .ok inverted_enable_design := rfl
          rw [e2] at e
          cases e
          exact hc.2.2.2.2.2.2.2.1,
        hc.2.2.2.2.2.2.2.2.1,
        (hc.2.2.2.2.2.2.2.2.2.1 (Or.inl (by
          have e := hc.1
          have e2 : cells_loop prepare_clocking_cell 1 0 inverted_enable_design =
              .ok inverted_enable_design := rfl
          rw [e2] at e
          cases e
          rfl))).1,
        (hc.2.2.2.2.2.2.2.2.2.1 (Or.inl (by
          have e := hc.1
          have e2 : cells_loop prepare_clocking_cell 1 0 inverted_enable_design =
              .ok inverted_enable_design := rfl
          rw [e2] at e
          cases e
          rfl))).2⟩))⟩

/-! ### prepare_clocking on a clock multiplexer, with the inverter folded -/

/-- The fan-out of the select input of a clock multiplexer, against the cell
fold_inverter leaves in the state the loop has reached: when S is on net `m`
after the folding, both destinations end on `m` and S is gone. -/
theorem select_fanout_result (s r : Packer) (k : Nat) (ci : CellInfo)
    (hk : s.cells.get? k = some ci) (hnd : (ci.ports.map (fun e => e.1)).Nodup)
    (h : prepare_clocking s = .ok r) :
    ∃ sa, cells_loop prepare_clocking_cell k 0 s = .ok sa ∧ sa.cells.get? k = some ci ∧
      (ci.type = "BUFGMUX" ∨ ci.type = "BUFGMUX_1" →
        ∃ s1 c0 c, fold_inverter sa (CellRef.live k) "S" = .ok s1 ∧ s1.cells.get? k = some c0 ∧
          r.cells.get? k = some c ∧
          ∀ m, get_net_or_empty c0 "S" = some m →
            get_net_or_empty c "CE0" = some m ∧ get_net_or_empty c "CE1" = some m ∧
            dict_find c.ports "S" = none) ∧
      (ci.type = "BUFGMUX_CTRL" →
        ∃ s1 c0 c, fold_inverter sa (CellRef.live k) "S" = .ok s1 ∧ s1.cells.get? k = some c0 ∧
          r.cells.get? k = some c ∧
          ∀ m, get_net_or_empty c0 "S" = some m →
            get_net_or_empty c "S0" = some m ∧ get_net_or_empty c "S1" = some m ∧
            dict_find c.ports "S" = none) := by
  obtain ⟨sa, sb, c1, c2, hreach, _, a3, a4, hc1, hx, hr⟩ := prepare_clocking_reaches s r k ci hk h
  have hport : ∀ (c0 : CellInfo) (m : NetId), get_net_or_empty c0 "S" = some m →
      ∃ sp, dict_find c0.ports "S" = some sp ∧ sp.net = some m := by
    intro c0 m hS
    unfold get_net_or_empty at hS
    cases hf : dict_find c0.ports "S" with
    | none => rw [hf] at hS; cases hS
    | some sp => rw [hf] at hS; exact ⟨sp, rfl, hS⟩
  refine ⟨sa, hreach, a3, ?_, ?_⟩
  · intro ht
    obtain ⟨s1, c0, c, hf, hc0, hc, hsb⟩ := visit_bufgmux sa sb k ci a3 ht a4
    obtain ⟨_, c0', hc0', e1, _, _, _, _, e6, _, _⟩ := fold_inverter_cell k sa s1 ci "S" a3 hf
    rw [hc0] at hc0'
    have hcc : c0 = c0' := Option.some.inj hc0'
    subst hcc
    subst hsb
    rw [get_set_cell s1 k c0 c hc0] at hc1
    have hcc : c = c1 := Option.some.inj hc1
    subst hcc
    refine ⟨s1, c0, c2, hf, hc0, hr, ?_⟩
    intro m hS
    obtain ⟨sp, hsp, hsn⟩ := hport c0 m hS
    obtain ⟨f1, _, f3, _⟩ := split_inversion_frame c0 "IS_CE0_INVERTED" "IS_CE1_INVERTED"
    have hfr : c.type = c0.type ∧
        (∀ q, q ∉ ["S0", "S1", "IGNORE0", "IGNORE1"] → dict_find c.ports q = dict_find c0.ports q) ∧
        (c.ports.map (fun e => e.1)).Nodup := by
      split_ifs at hc with g1 g2
      · obtain ⟨t1, _, _, p1, _, d1, _⟩ := tie_ports_frame s1 _ _ c hc
        exact ⟨t1.trans f1, fun q hq => by rw [p1 q hq, f3], d1 (by rw [f3]; exact e6 hnd)⟩
      · obtain ⟨t1, _, _, p1, _, d1, _⟩ := tie_ports_frame s1 _ _ c hc
        exact ⟨t1.trans f1, fun q hq => by rw [p1 q hq, f3], d1 (by rw [f3]; exact e6 hnd)⟩
      · cases hc
        exact ⟨f1, fun q _ => by rw [f3], by rw [f3]; exact e6 hnd⟩
    obtain ⟨ty, fr, nd⟩ := hfr
    have hrule : dict_find bufgctrl_rules c.type = some bufgmux_rule := by
      rw [ty, e1]
      rcases ht with e | e <;> rw [e] <;> decide
    obtain ⟨_, _, _, _, x1, x2, x3, _⟩ := xform_cell_fanout bufgctrl_rules bufgmux_rule "S"
      "CE0" "CE1" c c2 sp m hrule rfl rfl rfl (by decide) (by decide) (by decide) nd
      (by rw [fr "S" (by decide)]; exact hsp) hsn hx
    exact ⟨x1, x2, x3⟩
  · intro ht
    obtain ⟨s1, c0, c3, c, hf, hc0, hx3, hc, hsb⟩ := visit_bufgmux_ctrl sa sb k ci a3 ht a4
    obtain ⟨_, c0', hc0', e1, _, _, _, _, e6, _, _⟩ := fold_inverter_cell k sa s1 ci "S" a3 hf
    rw [hc0] at hc0'
    have hcc : c0 = c0' := Option.some.inj hc0'
    subst hcc
    subst hsb
    rw [get_set_cell s1 k c0 c hc0] at hc1
    have hcc : c = c1 := Option.some.inj hc1
    subst hcc
    refine ⟨s1, c0, c2, hf, hc0, hr, ?_⟩
    intro m hS
    obtain ⟨sp, hsp, hsn⟩ := hport c0 m hS
    obtain ⟨f1, _, f3, _⟩ := split_inversion_frame c0 "IS_S0_INVERTED" "IS_S1_INVERTED"
    have hrule : dict_find bufgctrl_rules
        (split_inversion c0 "IS_S0_INVERTED" "IS_S1_INVERTED").type =
        some { new_type := "BUFGCTRL", port_xform := [],
               port_multixform := [("S", ["S0", "S1"])], set_attrs := [] } := by
      rw [f1, e1, ht]; decide
    obtain ⟨y0, _, _, _, x1, x2, x3, _⟩ := xform_cell_fanout bufgctrl_rules _ "S"
      "S0" "S1" _ c3 sp m hrule rfl rfl rfl (by decide) (by decide) (by decide)
      (by rw [f3]; exact e6 hnd) (by rw [f3]; exact hsp) hsn hx3
    obtain ⟨t1, _, _, p1, _, _, _⟩ := tie_ports_frame s1 _ c3 c hc
    have hc2 : c2 = c := by
      rw [xform_cell_none bufgctrl_rules c (by rw [t1, y0]; decide)] at hx
      cases hx
      rfl
    subst hc2
    refine ⟨?_, ?_, ?_⟩
    · unfold get_net_or_empty at x1 ⊢
      rw [p1 "S0" (by decide)]; exact x1
    · unfold get_net_or_empty at x2 ⊢
      rw [p1 "S1" (by decide)]; exact x2
    · rw [p1 "S" (by decide)]; exact x3

/-- C12, amended: for a BUFGMUX or BUFGMUX_1 cell with distinct port names whose
S port is on net n, let m be the net fold_inverter moves S to: the net on the
input of the inverter, when that input is on a net and, in the state `sa` in
which the loop of prepare_clocking reaches the cell, the driver of n is an
inverter (an INV, or a LUT1 with INIT = 1), and n itself when the driver is no
inverter. Whenever prepare_clocking returns, the ports CE0 and CE1 are both on m
and the cell has no S port any more; for a BUFGMUX_CTRL cell the same holds with
S0 and S1. In a design without INV and LUT1 cells m is n. -/
theorem prepare_clocking_select_fanout (s r : Packer) (k : Nat) (ci : CellInfo) (n : NetId)
    (hk : s.cells.get? k = some ci) (hnd : (ci.ports.map (fun e => e.1)).Nodup)
    (hS : get_net_or_empty ci "S" = some n)
    (h : prepare_clocking s = .ok r) :
    ∃ sa, cells_loop prepare_clocking_cell k 0 s = .ok sa ∧
      (ci.type = "BUFGMUX" ∨ ci.type = "BUFGMUX_1" →
        ∃ c, r.cells.get? k = some c ∧ ∀ m, (folded sa (some n)).1 = some m →
          get_net_or_empty c "CE0" = some m ∧ get_net_or_empty c "CE1" = some m ∧
          dict_find c.ports "S" = none) ∧
      (ci.type = "BUFGMUX_CTRL" →
        ∃ c, r.cells.get? k = some c ∧ ∀ m, (folded sa (some n)).1 = some m →
          get_net_or_empty c "S0" = some m ∧ get_net_or_empty c "S1" = some m ∧
          dict_find c.ports "S" = none) ∧
      (no_inverters s → folded sa (some n) = (some n, false)) := by
  obtain ⟨sa, hreach, a3, hA, hB⟩ := select_fanout_result s r k ci hk hnd h
  refine ⟨sa, hreach, ?_, ?_, ?_⟩
  · intro ht
    obtain ⟨s1, c0, c, hf, hc0, hr, hm⟩ := hA ht
    obtain ⟨f1, _, _⟩ := fold_inverter_folded k sa s1 ci c0 "S" a3 hc0 hf
    rw [hS] at f1
    exact ⟨c, hr, fun m e => hm m (f1.trans e)⟩
  · intro ht
    obtain ⟨s1, c0, c, hf, hc0, hr, hm⟩ := hB ht
    obtain ⟨f1, _, _⟩ := fold_inverter_folded k sa s1 ci c0 "S" a3 hc0 hf
    rw [hS] at f1
    exact ⟨c, hr, fun m e => hm m (f1.trans e)⟩
  · intro hno
    exact folded_of_no_inverters sa
      (cells_loop_inv prepare_clocking_cell no_inverters no_inverters_step k 0 s sa hreach hno) _

set_option maxRecDepth 100000 in
theorem prepare_clocking_select_fanout_witness :
    get_net_or_empty (mux_cell "BUFGMUX" 3) "S" = some 3 ∧
    get_net_or_empty inv_cell "I" = some 2 ∧
    folded (inverted_select_design "BUFGMUX") (some 3) = (some 2, true) ∧
    ∃ r c, prepare_clocking (inverted_select_design "BUFGMUX") = .ok r ∧
      r.cells.get? 1 = some c ∧ get_net_or_empty c "CE0" = some 2 ∧
      get_net_or_empty c "CE1" = some 2 ∧ dict_find c.ports "S" = none := by
  refine ⟨rfl, rfl, rfl, ?_⟩
  obtain ⟨sa, hsa, hA, _, _⟩ := prepare_clocking_select_fanout (inverted_select_design "BUFGMUX")
    _ 1 (mux_cell "BUFGMUX" 3) 3 rfl (by decide) rfl rfl
  have e : cells_loop prepare_clocking_cell 1 0 (inverted_select_design "BUFGMUX") =
      .ok (inverted_select_design "BUFGMUX") := rfl
  rw [e] at hsa
  cases hsa
  obtain ⟨c, hc, hm⟩ := hA (Or.inl rfl)
  exact ⟨_, c, rfl, hc, hm 2 rfl⟩

/-! ### The polarity of the select inputs, with the inverter folded -/

theorem bufgmux_polarity_at (s r : Packer) (k : Nat) (ci : CellInfo)
    (hk : s.cells.get? k = some ci) (hnd : (ci.params.map (fun e => e.1)).Nodup)
    (ht : ci.type = "BUFGMUX" ∨ ci.type = "BUFGMUX_1")
    (h : prepare_clocking s = .ok r) :
    ∃ sa s1 c0 c, cells_loop prepare_clocking_cell k 0 s = .ok sa ∧
      sa.cells.get? k = some ci ∧
      fold_inverter sa (CellRef.live k) "S" = .ok s1 ∧ s1.cells.get? k = some c0 ∧
      r.cells.get? k = some c ∧
      select_polarity c0 c "IS_CE0_INVERTED" "IS_CE1_INVERTED" := by
  obtain ⟨sa, sb, c1, c2, hreach, a1, a3, a4, hc1, hx, hr⟩ := prepare_clocking_reaches s r k ci hk h
  obtain ⟨s1, c0, c, hf, hc0, hc, hsb⟩ := visit_bufgmux sa sb k ci a3 ht a4
  subst hsb
  rw [get_set_cell s1 k c0 c hc0] at hc1
  have hcc : c = c1 := Option.some.inj hc1
  subst hcc
  obtain ⟨hsame, c0', hc0', e1, _, _, _, _, _, _, hnd0⟩ := fold_inverter_cell k sa s1 ci "S" a3 hf
  rw [hc0] at hc0'
  have hcc : c0 = c0' := Option.some.inj hc0'
  subst hcc
  obtain ⟨f1, _, _, _⟩ := split_inversion_frame c0 "IS_CE0_INVERTED" "IS_CE1_INVERTED"
  have hpar : ∀ key, key = "IS_CE0_INVERTED" ∨ key = "IS_CE1_INVERTED" ∨ key = "IS_S_INVERTED" →
      dict_find c.params key =
        dict_find (split_inversion c0 "IS_CE0_INVERTED" "IS_CE1_INVERTED").params key := by
    intro key hkey
    split_ifs at hc
    · exact (tie_ports_frame s1 _ _ c hc).2.2.2.2.1 key
        (by rcases hkey with e | e | e <;> rw [e] <;> decide)
    · exact (tie_ports_frame s1 _ _ c hc).2.2.2.2.1 key
        (by rcases hkey with e | e | e <;> rw [e] <;> decide)
    · cases hc
      rfl
  have hty : c.type = ci.type := by
    split_ifs at hc
    · rw [(tie_ports_frame s1 _ _ c hc).1, f1, e1]
    · rw [(tie_ports_frame s1 _ _ c hc).1, f1, e1]
    · cases hc
      rw [f1, e1]
  have hrule : dict_find bufgctrl_rules c.type = some bufgmux_rule := by
    rw [hty]
    rcases ht with e | e <;> rw [e] <;> decide
  obtain ⟨_, y2, _, _⟩ := xform_cell_fanout_frame bufgctrl_rules bufgmux_rule "S" "CE0" "CE1"
    c c2 hrule rfl rfl hx
  refine ⟨sa, s1, c0, c2, hreach, a3, hf, hc0, hr, ?_⟩
  · apply select_polarity_of_params c0 c2 _ _ (by decide) (by decide) (by decide) (hnd0 hnd)
    · rw [y2]
      exact hpar _ (Or.inl rfl)
    · rw [y2]
      exact hpar _ (Or.inr (Or.inl rfl))
    · rw [y2]
      exact hpar _ (Or.inr (Or.inr rfl))

theorem bufgmux_ctrl_polarity_at (s r : Packer) (k : Nat) (ci : CellInfo)
    (hk : s.cells.get? k = some ci) (hnd : (ci.params.map (fun e => e.1)).Nodup)
    (ht : ci.type = "BUFGMUX_CTRL")
    (h : prepare_clocking s = .ok r) :
    ∃ sa s1 c0 c, cells_loop prepare_clocking_cell k 0 s = .ok sa ∧
      sa.cells.get? k = some ci ∧
      fold_inverter sa (CellRef.live k) "S" = .ok s1 ∧ s1.cells.get? k = some c0 ∧
      r.cells.get? k = some c ∧
      select_polarity c0 c "IS_S0_INVERTED" "IS_S1_INVERTED" := by
  obtain ⟨sa, sb, c1, c2, hreach, a1, a3, a4, hc1, hx, hr⟩ := prepare_clocking_reaches s r k ci hk h
  obtain ⟨s1, c0, c3, c, hf, hc0, hx3, hc, hsb⟩ := visit_bufgmux_ctrl sa sb k ci a3 ht a4
  subst hsb
  rw [get_set_cell s1 k c0 c hc0] at hc1
  have hcc : c = c1 := Option.some.inj hc1
  subst hcc
  obtain ⟨hsame, c0', hc0', e1, _, _, _, _, _, _, hnd0⟩ := fold_inverter_cell k sa s1 ci "S" a3 hf
  rw [hc0] at hc0'
  have hcc : c0 = c0' := Option.some.inj hc0'
  subst hcc
  obtain ⟨f1, _, _, _⟩ := split_inversion_frame c0 "IS_S0_INVERTED" "IS_S1_INVERTED"
  have hrule : dict_find bufgctrl_rules
      (split_inversion c0 "IS_S0_INVERTED" "IS_S1_INVERTED").type =
      some { new_type := "BUFGCTRL", port_xform := [],
             port_multixform := [("S", ["S0", "S1"])], set_attrs := [] } := by
    rw [f1, e1, ht]; decide
  obtain ⟨y1, y2, _, _⟩ := xform_cell_fanout_frame bufgctrl_rules _ "S" "S0" "S1" _ c3 hrule
    rfl rfl hx3
  obtain ⟨t1, _, _, _, w5, _, _⟩ := tie_ports_frame s1 _ c3 c hc
  have hty : c.type = "BUFGCTRL" := by rw [t1, y1]
  have hsame2 : xform_cell bufgctrl_rules c = .ok c :=
    xform_cell_none bufgctrl_rules c (by rw [hty]; decide)
  rw [hsame2] at hx
  have hcc : c = c2 := by cases hx; rfl
  subst hcc
  refine ⟨sa, s1, c0, c, hreach, a3, hf, hc0, hr, ?_⟩
  · apply select_polarity_of_params c0 c _ _ (by decide) (by decide) (by decide) (hnd0 hnd)
    · rw [w5 _ (by decide), y2]
    · rw [w5 _ (by decide), y2]
    · rw [w5 _ (by decide), y2]


/-- The inversion of the select input after fold_inverter, read off the state
the loop has reached and the cell as it was. -/
theorem select_inverted_spec (k : Nat) (sa s1 : Packer) (ci c0 : CellInfo)
    (hk : sa.cells.get? k = some ci) (hc0 : s1.cells.get? k = some c0)
    (hf : fold_inverter sa (CellRef.live k) "S" = .ok s1) :
    (int_or_default c0.params "IS_S_INVERTED" ≠ 0 ↔ select_inverted sa ci = true) := by
  obtain ⟨_, f2, f3⟩ := fold_inverter_folded k sa s1 ci c0 "S" hk hc0 hf
  unfold select_inverted
  cases hb : (folded sa (get_net_or_empty ci "S")).2 with
  | true =>
    have e3 : dict_find c0.params "IS_S_INVERTED" = some (Property.of_int 1 32) := f3 hb
    simp only [Bool.true_or, iff_true]
    unfold int_or_default
    rw [e3]
    decide
  | false =>
    have e1 := f2 hb
    rw [e1, hk] at hc0
    rw [← Option.some.inj hc0]
    simp only [Bool.false_or, decide_eq_true_eq]

theorem select_split_of_polarity (inv : Bool) (c0 c : CellInfo) (a b : IdString)
    (hinv : int_or_default c0.params "IS_S_INVERTED" ≠ 0 ↔ inv = true)
    (h : select_polarity c0 c a b) : select_split inv c a b := by
  obtain ⟨p1, p2, p3⟩ := h
  have hd : decide (int_or_default c0.params "IS_S_INVERTED" ≠ 0) = inv := by
    cases inv with
    | true => exact decide_eq_true (hinv.mpr rfl)
    | false =>
      apply decide_eq_false
      intro e
      exact absurd (hinv.mp e) (by decide)
  refine ⟨fun e => p1 (hinv.mpr e), fun e => p2 ?_, ?_⟩
  · by_contra hne
    rw [hinv.mp hne] at e
    cases e
  · intro n
    rw [← hd]
    exact p3 n

/-- C32: for a BUFGMUX, BUFGMUX_1 or BUFGMUX_CTRL cell with distinct parameter
names, whenever prepare_clocking returns. The select input is inverted after the
folding when, in the state `sa` in which the loop reaches the cell, the driver
of the net of S is an inverter (which fold_inverter absorbs), or when the cell
had IS_S_INVERTED non-zero. Without an inversion the cell ends with
IS_CE0_INVERTED = 1 and IS_CE1_INVERTED = 0; with one it ends with
IS_CE0_INVERTED = 0, IS_CE1_INVERTED = 1 and no IS_S_INVERTED (IS_S0_INVERTED
and IS_S1_INVERTED for a BUFGMUX_CTRL); and for both values of the select net,
with s the value of the net XOR the inversion, input 1 is enabled as s and
input 0 as NOT s. In a design without INV and LUT1 cells the inversion is the
one of the parameter. -/
theorem prepare_clocking_select_polarity (s r : Packer) (k : Nat) (ci : CellInfo)
    (hk : s.cells.get? k = some ci) (hnd : (ci.params.map (fun e => e.1)).Nodup)
    (ht : ci.type = "BUFGMUX" ∨ ci.type = "BUFGMUX_1" ∨ ci.type = "BUFGMUX_CTRL")
    (h : prepare_clocking s = .ok r) :
    ∃ sa c, cells_loop prepare_clocking_cell k 0 s = .ok sa ∧ r.cells.get? k = some c ∧
      (ci.type ≠ "BUFGMUX_CTRL" →
        select_split (select_inverted sa ci) c "IS_CE0_INVERTED" "IS_CE1_INVERTED") ∧
      (ci.type = "BUFGMUX_CTRL" →
        select_split (select_inverted sa ci) c "IS_S0_INVERTED" "IS_S1_INVERTED") ∧
      (no_inverters s →
        select_inverted sa ci = decide (int_or_default ci.params "IS_S_INVERTED" ≠ 0)) := by
  have hno : ∀ sa, cells_loop prepare_clocking_cell k 0 s = .ok sa → no_inverters s →
      select_inverted sa ci = decide (int_or_default ci.params "IS_S_INVERTED" ≠ 0) := by
    intro sa hreach hni
    unfold select_inverted
    rw [folded_of_no_inverters sa
      (cells_loop_inv prepare_clocking_cell no_inverters no_inverters_step k 0 s sa hreach hni)]
    simp only [Bool.false_or]
  by_cases hc : ci.type = "BUFGMUX_CTRL"
  · obtain ⟨sa, s1, c0, c, hreach, g1, g2, g3, g6, g7⟩ :=
      bufgmux_ctrl_polarity_at s r k ci hk hnd hc h
    exact ⟨sa, c, hreach, g6, fun hn => absurd hc hn,
      fun _ => select_split_of_polarity _ c0 c _ _ (select_inverted_spec k sa s1 ci c0 g1 g3 g2) g7,
      hno sa hreach⟩
  · have ht2 : ci.type = "BUFGMUX" ∨ ci.type = "BUFGMUX_1" := by
      rcases ht with e | e | e
      · exact Or.inl e
      · exact Or.inr e
      · exact absurd e hc
    obtain ⟨sa, s1, c0, c, hreach, g1, g2, g3, g6, g7⟩ :=
      bufgmux_polarity_at s r k ci hk hnd ht2 h
    exact ⟨sa, c, hreach, g6,
      fun _ => select_split_of_polarity _ c0 c _ _ (select_inverted_spec k sa s1 ci c0 g1 g3 g2) g7,
      fun hn => absurd hn hc, hno sa hreach⟩

set_option maxRecDepth 100000 in
theorem prepare_clocking_select_polarity_witness :
    select_inverted (inverted_select_design "BUFGMUX") (mux_cell "BUFGMUX" 3) = true ∧
    int_or_default (mux_cell "BUFGMUX" 3).params "IS_S_INVERTED" = 0 ∧
    ∃ r c, prepare_clocking (inverted_select_design "BUFGMUX") = .ok r ∧
      r.cells.get? 1 = some c ∧
      dict_find c.params "IS_CE0_INVERTED" = some (Property.of_int 0 32) ∧
      dict_find c.params "IS_CE1_INVERTED" = some (Property.of_int 1 32) ∧
      dict_find c.params "IS_S_INVERTED" = none ∧
      select_split true c "IS_CE0_INVERTED" "IS_CE1_INVERTED" := by
  refine ⟨rfl, rfl, ?_⟩
  obtain ⟨sa, c, hsa, hc, hA, _, _⟩ := prepare_clocking_select_polarity
    (inverted_select_design "BUFGMUX") _ 1 (mux_cell "BUFGMUX" 3) rfl (by decide) (Or.inl rfl) rfl
  have e : cells_loop prepare_clocking_cell 1 0 (inverted_select_design "BUFGMUX") =
      .ok (inverted_select_design "BUFGMUX") := rfl
  rw [e] at hsa
  cases hsa
  have hcc : (Except.toOption (prepare_clocking (inverted_select_design "BUFGMUX"))).bind
      (fun r => r.cells.get? 1) = some c := hc
  refine ⟨_, c, rfl, hc, ?_, ?_, ?_, hA (by decide)⟩
  · have e2 : ((Except.toOption (prepare_clocking (inverted_select_design "BUFGMUX"))).bind
        (fun r => r.cells.get? 1)).bind (fun c => dict_find c.params "IS_CE0_INVERTED") =
        some (Property.of_int 0 32) := rfl
    rw [hcc] at e2
    exact e2
  · have e2 : ((Except.toOption (prepare_clocking (inverted_select_design "BUFGMUX"))).bind
        (fun r => r.cells.get? 1)).bind (fun c => dict_find c.params "IS_CE1_INVERTED") =
        some (Property.of_int 1 32) := rfl
    rw [hcc] at e2
    exact e2
  · have e2 : ((Except.toOption (prepare_clocking (inverted_select_design "BUFGMUX"))).bind
        (fun r => r.cells.get? 1)).map (fun c => dict_find c.params "IS_S_INVERTED") =
        some none := rfl
    rw [hcc] at e2
    exact Option.some.inj e2

/-! ### The INIT the 32-deep strategies write -/

theorem pad_init32_ok (p : Property) (h : p.str.length ≤ 32) :
    ∃ q, pad_init32 p = .ok q := by
  unfold pad_init32
  rw [if_neg (not_lt.mpr h)]
  exact ⟨_, rfl⟩

theorem set_clkinv_init (s : Packer) (j : Nat) (hj : j < s.new_cells.length) :
    ∃ t, set_clkinv s (CellRef.pending j) = .ok t ∧
      t.new_cells.map init_view = s.new_cells.map init_view ∧ t.cells = s.cells := by
  have hg : s.new_cells.get? j = some (s.new_cells.get ⟨j, hj⟩) := by
    simp only [List.get?_eq_getElem?, List.get_eq_getElem]
    exact List.getElem?_eq_getElem hj
  unfold set_clkinv
  rw [modify_cell_pending s _ _ _ hg]
  refine ⟨_, rfl, ?_, rfl⟩
  exact map_set_same init_view s.new_cells j _ _ hg rfl

/-- The INIT put_init leaves on the primitive pushed last. -/
theorem put_init_last (s : Packer) (V : List (IdString × IdString × Option Property))
    (n ty : IdString) (ci : CellInfo) (key : IdString) (init : Property)
    (hV : s.new_cells.map init_view = V ++ [(n, ty, none)]) :
    ∃ t, put_init s ci key (CellRef.pending V.length) init = .ok t ∧
      t.new_cells.map init_view =
        V ++ [(n, ty, if dict_count ci.params key then some init else none)] ∧
      t.cells = s.cells := by
  unfold put_init
  by_cases hc : dict_count ci.params key = true
  · rw [if_pos hc, if_pos hc]
    obtain ⟨t, h1, h2, h3⟩ := set_init_init s V [(n, ty, none)] 0 n ty none init hV rfl
    exact ⟨t, h1, h2, h3⟩
  · rw [if_neg hc, if_neg hc]
    exact ⟨s, rfl, hV, rfl⟩

theorem address32_length (wa : List (Option NetId)) (v : Option NetId) :
    (wa.take (min wa.length 5) ++ [v]).length ≤ 6 := by
  simp only [List.length_append, List.length_take, List.length_cons, List.length_nil]
  omega

theorem padded_init_of (ci : CellInfo) (key : IdString) (d q : Property)
    (h : pad_init32 (get_or_default ci.params key d) = .ok q) :
    (if dict_count ci.params key then some q else none) = padded_init ci key := by
  unfold padded_init dict_count get_or_default at *
  cases hf : dict_find ci.params key with
  | none => rfl
  | some p =>
    rw [hf] at h
    simp only [Option.isSome_some, if_true, h]
    rfl

/-- One turn of the loop of RAM32X1S and RAM32X1S_1 on a cell whose INIT has at
most 32 bits: it returns, and pushes one primitive that carries the padded INIT
of the cell. -/
theorem ram32x1s_step_init (h : Int) (cs : DRAMControlSet) (mt : IdString) (clkinv : Bool)
    (idx : Nat) (loc : Stack) (s : Packer) (ci : CellInfo)
    (V : List (IdString × IdString × Option Property))
    (hci : s.cells.get? idx = some ci) (ht : ci.type = mt) (hw : cs.wa.length ≤ 8)
    (hlen : ∀ P, dict_find ci.params "INIT" = some P → P.str.length ≤ 32)
    (hV : s.new_cells.map init_view = V)
    (hbase : loc.base = none ∨ ∃ b, loc.base = some (CellRef.pending b) ∧ b < V.length) :
    ∃ loc1 s1, pack_ram32x1s_cell h cs mt clkinv (CellRef.live idx) loc s = .ok (loc1, s1) ∧
      s1.new_cells.map init_view = V ++ [(ci.name, "SLICE_LUTX", padded_init ci "INIT")] ∧
      (loc1.base = none ∨ ∃ b, loc1.base = some (CellRef.pending b) ∧ b < V.length + 1) ∧
      s1.cells = s.cells.set idx (disconnect_port ci "O") := by
  have hpad : ∃ q, pad_init32 (get_or_default ci.params "INIT" (Property.of_int 0 32)) = .ok q := by
    apply pad_init32_ok
    unfold get_or_default
    cases hf : dict_find ci.params "INIT" with
    | none => simp [Property.of_int]
    | some P => exact hlen P hf
  obtain ⟨q, hq⟩ := hpad
  have hmod : modify_cell s (CellRef.live idx) (fun c => disconnect_port c "O") =
      .ok (set_cell s (CellRef.live idx) (disconnect_port ci "O")) := by
    simp only [modify_cell, get_cell, hci]
    rfl
  have hl : V.length = s.new_cells.length := by rw [← hV, List.length_map]
  have key : ∀ (base : Option CellRef) (z : Int),
      (base = none ∨ ∃ b, base = some (CellRef.pending b) ∧ b < V.length) →
      ∃ t t2 s3, create_dram_lut ci.name base cs
            (cs.wa.take (min cs.wa.length 5) ++
              [net_by_name (set_cell s (CellRef.live idx) (disconnect_port ci "O"))
                "$PACKER_VCC_NET"])
            (get_net_or_empty ci "D") (get_net_or_empty ci "O") z
            (set_cell s (CellRef.live idx) (disconnect_port ci "O")) =
          .ok (CellRef.pending V.length, t) ∧
        put_init t ci "INIT" (CellRef.pending V.length) q = .ok t2 ∧
        (clkinv = true → set_clkinv t2 (CellRef.pending V.length) = .ok s3) ∧
        (clkinv = false → s3 = t2) ∧
        s3.new_cells.map init_view = V ++ [(ci.name, "SLICE_LUTX", padded_init ci "INIT")] ∧
        s3.cells = s.cells.set idx (disconnect_port ci "O") := by
    intro base z hb
    obtain ⟨t, e1, v1, c1⟩ := create_dram_lut_init ci.name base cs
      (cs.wa.take (min cs.wa.length 5) ++
        [net_by_name (set_cell s (CellRef.live idx) (disconnect_port ci "O"))
          "$PACKER_VCC_NET"]) (get_net_or_empty ci "D")
      (get_net_or_empty ci "O") z (set_cell s (CellRef.live idx) (disconnect_port ci "O")) V hV
      (address32_length cs.wa _) hw hb
    obtain ⟨t2, e2, v2, c2⟩ := put_init_last t V ci.name "SLICE_LUTX" ci "INIT" q v1
    rw [padded_init_of ci "INIT" _ q hq] at v2
    have hlt : V.length < t2.new_cells.length := by
      have := congrArg List.length v2
      simp only [List.length_map, List.length_append, List.length_cons, List.length_nil] at this
      omega
    cases clkinv with
    | false =>
      exact ⟨t, t2, t2, e1, e2, fun e => absurd e (by decide), fun _ => rfl, v2, c2.trans c1⟩
    | true =>
      obtain ⟨t3, e3, v3, c3⟩ := set_clkinv_init t2 V.length hlt
      exact ⟨t, t2, t3, e1, e2, fun _ => e3, fun e => absurd e (by decide), v3.trans v2,
        c3.trans (c2.trans c1)⟩
  unfold pack_ram32x1s_cell
  simp only [deref_live s idx ci hci, bind, Except.bind, ht, ne_eq, not_true_eq_false, if_false,
    hq, hmod]
  by_cases hz : (if loc.z < 0 then h - 1 else loc.z) = h - 1
  · obtain ⟨t, t2, s3, e1, e2, e3, e4, v, c⟩ :=
      key none (if loc.z < 0 then h - 1 else loc.z) (Or.inl rfl)
    rw [if_pos hz]
    simp only [e1, e2]
    cases clkinv with
    | false =>
      simp only [Bool.false_eq_true, if_false, pure, Except.pure]
      rw [e4 rfl] at v c
      exact ⟨_, _, rfl, by rw [(mark_packed_new_cells _ _).1]; exact v,
        Or.inr ⟨V.length, rfl, by omega⟩, by rw [(mark_packed_new_cells _ _).2.1]; exact c⟩
    | true =>
      simp only [if_true, e3 rfl, pure, Except.pure]
      exact ⟨_, _, rfl, by rw [(mark_packed_new_cells _ _).1]; exact v,
        Or.inr ⟨V.length, rfl, by omega⟩, by rw [(mark_packed_new_cells _ _).2.1]; exact c⟩
  · obtain ⟨t, t2, s3, e1, e2, e3, e4, v, c⟩ :=
      key loc.base (if loc.z < 0 then h - 1 else loc.z) hbase
    have hb1 : loc.base = none ∨ ∃ b, loc.base = some (CellRef.pending b) ∧ b < V.length + 1 := by
      rcases hbase with e | ⟨b, e, hlt⟩
      · exact Or.inl e
      · exact Or.inr ⟨b, e, by omega⟩
    rw [if_neg hz]
    simp only [e1, e2]
    cases clkinv with
    | false =>
      simp only [Bool.false_eq_true, if_false, pure, Except.pure]
      rw [e4 rfl] at v c
      exact ⟨_, _, rfl, by rw [(mark_packed_new_cells _ _).1]; exact v, hb1,
        by rw [(mark_packed_new_cells _ _).2.1]; exact c⟩
    | true =>
      simp only [if_true, e3 rfl, pure, Except.pure]
      exact ⟨_, _, rfl, by rw [(mark_packed_new_cells _ _).1]; exact v, hb1,
        by rw [(mark_packed_new_cells _ _).2.1]; exact c⟩

theorem padded_init_params (c d : CellInfo) (key : IdString) (h : d.params = c.params) :
    padded_init d key = padded_init c key := by
  unfold padded_init
  rw [h]

theorem get_set_disconnect (cells : List CellInfo) (idx i : Nat) (ci : CellInfo) (p : IdString)
    (hci : cells.get? idx = some ci) :
    ∃ f : CellInfo → CellInfo, (cells.set idx (disconnect_port ci p)).get? i =
        (cells.get? i).map f ∧
      ∀ c, (f c).name = c.name ∧ (f c).type = c.type ∧ (f c).params = c.params := by
  by_cases hi : idx = i
  · subst hi
    refine ⟨fun c => disconnect_port c p, ?_, fun c => ⟨(disconnect_port_fields c p).2,
      (disconnect_port_fields c p).1, disconnect_port_params c p⟩⟩
    have hl : idx < cells.length := by
      simp only [List.get?_eq_getElem?] at hci
      by_contra hc
      rw [List.getElem?_eq_none (by omega)] at hci
      cases hci
    simp only [List.get?_eq_getElem?] at hci ⊢
    rw [List.getElem?_set_self hl, hci]
    rfl
  · refine ⟨fun c => c, ?_, fun c => ⟨rfl, rfl, rfl⟩⟩
    simp only [List.get?_eq_getElem?]
    rw [List.getElem?_set_ne hi]
    simp

theorem single32_view_set (cells : List CellInfo) (idx i : Nat) (ci : CellInfo) (p : IdString)
    (hci : cells.get? idx = some ci) :
    single32_view (cells.set idx (disconnect_port ci p)) i = single32_view cells i := by
  obtain ⟨f, hf, hp⟩ := get_set_disconnect cells idx i ci p hci
  unfold single32_view
  rw [hf]
  cases cells.get? i with
  | none => rfl
  | some c =>
    simp only [Option.map_some']
    rw [(hp c).1, padded_init_params c (f c) "INIT" (hp c).2.2]

/-- The loop of RAM32X1S and RAM32X1S_1 over a group of cells whose INIT has at
most 32 bits: it returns, and pushes one primitive per cell, in order, with the
padded INIT of the cell. -/
theorem ram32x1s_loop_init (h : Int) (cs : DRAMControlSet) (mt : IdString) (clkinv : Bool)
    (hw : cs.wa.length ≤ 8) :
    ∀ (idxs : List Nat) (loc : Stack) (s : Packer)
      (V : List (IdString × IdString × Option Property)),
      (∀ i ∈ idxs, ∃ ci, s.cells.get? i = some ci ∧ ci.type = mt ∧
        ∀ P, dict_find ci.params "INIT" = some P → P.str.length ≤ 32) →
      s.new_cells.map init_view = V →
      (loc.base = none ∨ ∃ b, loc.base = some (CellRef.pending b) ∧ b < V.length) →
      ∃ loc1 s1, stack_loop (pack_ram32x1s_cell h cs mt clkinv) (idxs.map CellRef.live) loc s =
          .ok (loc1, s1) ∧
        s1.new_cells.map init_view = V ++ idxs.map (single32_view s.cells) := by
  intro idxs
  induction idxs with
  | nil =>
    intro loc s V _ hV _
    exact ⟨loc, s, rfl, by simpa using hV⟩
  | cons idx rest ih =>
    intro loc s V hcells hV hbase
    obtain ⟨ci, hci, ht, hlen⟩ := hcells idx (List.mem_cons_self _ _)
    obtain ⟨loc1, s1, e1, v1, b1, c1⟩ :=
      ram32x1s_step_init h cs mt clkinv idx loc s ci V hci ht hw hlen hV hbase
    have hcells1 : ∀ i ∈ rest, ∃ ci, s1.cells.get? i = some ci ∧ ci.type = mt ∧
        ∀ P, dict_find ci.params "INIT" = some P → P.str.length ≤ 32 := by
      intro i hi
      obtain ⟨c, hc, hct, hcl⟩ := hcells i (List.mem_cons_of_mem _ hi)
      obtain ⟨f, hf, hp⟩ := get_set_disconnect s.cells idx i ci "O" hci
      refine ⟨f c, by rw [c1, hf, hc]; rfl, by rw [(hp c).2.1]; exact hct, ?_⟩
      intro P hP
      rw [(hp c).2.2] at hP
      exact hcl P hP
    obtain ⟨loc2, s2, e2, v2⟩ := ih loc1 s1 _ hcells1 v1
      (by simpa using b1)
    refine ⟨loc2, s2, ?_, ?_⟩
    · simp only [List.map_cons, stack_loop, e1, bind, Except.bind]
      exact e2
    · rw [v2, List.map_cons, List.append_assoc]
      congr 1
      simp only [List.singleton_append]
      congr 1
      · unfold single32_view
        rw [hci]
      · apply List.map_congr_left
        intro i _
        rw [c1]
        exact single32_view_set s.cells idx i ci "O" hci

theorem fields_set_disconnect (cells : List CellInfo) (idx : Nat) (ci : CellInfo) (p : IdString)
    (hci : cells.get? idx = some ci) (i : Nat) :
    ((cells.set idx (disconnect_port ci p)).get? i).map (fun c => (c.name, c.type, c.params)) =
      (cells.get? i).map (fun c => (c.name, c.type, c.params)) := by
  obtain ⟨f, hf, hp⟩ := get_set_disconnect cells idx i ci p hci
  rw [hf]
  cases cells.get? i with
  | none => rfl
  | some c =>
    simp only [Option.map_some', (hp c).1, (hp c).2.1, (hp c).2.2]

/-- One output bit of a RAM32X2S cell whose INIT_0i has at most 32 bits: the
turn returns and pushes one primitive that carries the padded INIT_0i. -/
theorem ram32x2s_bit_init (cs : DRAMControlSet) (idx : Nat) (address : List (Option NetId))
    (i : Nat) (loc : Stack) (s : Packer) (ci : CellInfo)
    (V : List (IdString × IdString × Option Property))
    (hci : s.cells.get? idx = some ci) (ha : address.length ≤ 6) (hw : cs.wa.length ≤ 8)
    (hlen : ∀ P, dict_find ci.params ("INIT_0" ++ to_string i) = some P → P.str.length ≤ 32)
    (hV : s.new_cells.map init_view = V)
    (hbase : loc.base = none ∨ ∃ b, loc.base = some (CellRef.pending b) ∧ b < V.length) :
    ∃ loc1 s1, pack_ram32x2s_bit cs (CellRef.live idx) address i loc s = .ok (loc1, s1) ∧
      loc1.z = loc.z - 1 ∧
      s1.new_cells.map init_view = V ++ [(ci.name ++ "/RAM32X1S" ++ to_string i ++ "/SP",
        "SLICE_LUTX", padded_init ci ("INIT_0" ++ to_string i))] ∧
      (loc1.base = none ∨ ∃ b, loc1.base = some (CellRef.pending b) ∧ b < V.length + 1) ∧
      s1.cells = s.cells.set idx (disconnect_port ci ("O" ++ to_string i)) := by
  have hmod : modify_cell s (CellRef.live idx) (fun c => disconnect_port c ("O" ++ to_string i)) =
      .ok (set_cell s (CellRef.live idx) (disconnect_port ci ("O" ++ to_string i))) := by
    simp only [modify_cell, get_cell, hci]
    rfl
  obtain ⟨t, e1, v1, c1⟩ := create_dram_lut_init
    (ci.name ++ "/RAM32X1S" ++ to_string i ++ "/SP") loc.base cs address
    (get_net_or_empty ci ("D" ++ to_string i)) (get_net_or_empty ci ("O" ++ to_string i)) loc.z
    (set_cell s (CellRef.live idx) (disconnect_port ci ("O" ++ to_string i))) V hV ha hw hbase
  have hb1 : (if loc.base = none then some (CellRef.pending V.length) else loc.base) = none ∨
      ∃ b, (if loc.base = none then some (CellRef.pending V.length) else loc.base) =
        some (CellRef.pending b) ∧ b < V.length + 1 := by
    rcases hbase with e | ⟨b, e, hlt⟩
    · rw [if_pos e]
      exact Or.inr ⟨V.length, rfl, by omega⟩
    · rw [if_neg (by rw [e]; exact fun x => by cases x)]
      exact Or.inr ⟨b, e, by omega⟩
  unfold pack_ram32x2s_bit
  simp only [deref_live s idx ci hci, bind, Except.bind, hmod, e1]
  cases hf : dict_find ci.params ("INIT_0" ++ to_string i) with
  | none =>
    simp only [pure, Except.pure]
    refine ⟨_, _, rfl, rfl, ?_, hb1, c1⟩
    rw [v1]
    unfold padded_init
    rw [hf]
  | some P =>
    obtain ⟨q, hq⟩ := pad_init32_ok P (hlen P hf)
    obtain ⟨t2, e2, v2, c2⟩ := set_init_init t V [(ci.name ++ "/RAM32X1S" ++ to_string i ++ "/SP",
      "SLICE_LUTX", none)] 0 _ _ none q v1 rfl
    unfold set_init at e2
    simp only [Nat.add_zero] at e2
    simp only [hq, e2, pure, Except.pure]
    refine ⟨_, _, rfl, rfl, ?_, hb1, c2.trans c1⟩
    rw [v2]
    unfold padded_init
    rw [hf]
    simp only [hq]
    rfl

theorem double32_view_fields (l1 l2 : List CellInfo) (i : Nat)
    (h : (l2.get? i).map (fun c => (c.name, c.type, c.params)) =
      (l1.get? i).map (fun c => (c.name, c.type, c.params))) :
    double32_view l2 i = double32_view l1 i := by
  unfold double32_view
  cases h1 : l1.get? i with
  | none =>
    rw [h1] at h
    cases h2 : l2.get? i with
    | none => rfl
    | some d => rw [h2] at h; cases h
  | some c =>
    rw [h1] at h
    cases h2 : l2.get? i with
    | none => rw [h2] at h; cases h
    | some d =>
      rw [h2] at h
      simp only [Option.map_some', Option.some.injEq, Prod.mk.injEq] at h
      simp only [h.1, padded_init_params c d _ h.2.2]

/-- The turn of the loop of RAM32X2S on a cell whose INIT_00 and INIT_01 have at
most 32 bits: it returns and pushes the two primitives of the cell. -/
theorem ram32x2s_step_init (h : Int) (cs : DRAMControlSet) (idx : Nat) (loc : Stack) (s : Packer)
    (ci : CellInfo) (V : List (IdString × IdString × Option Property))
    (hci : s.cells.get? idx = some ci) (ht : ci.type = "RAM32X2S") (hw : cs.wa.length ≤ 8)
    (hlen : ∀ key P, key = "INIT_00" ∨ key = "INIT_01" → dict_find ci.params key = some P →
      P.str.length ≤ 32)
    (hV : s.new_cells.map init_view = V)
    (hbase : loc.base = none ∨ ∃ b, loc.base = some (CellRef.pending b) ∧ b < V.length) :
    ∃ loc1 s1, pack_ram32x2s_cell h cs (CellRef.live idx) loc s = .ok (loc1, s1) ∧
      s1.new_cells.map init_view = V ++ double32_view s.cells idx ∧
      (loc1.base = none ∨ ∃ b, loc1.base = some (CellRef.pending b) ∧ b < V.length + 2) ∧
      ∀ i, (s1.cells.get? i).map (fun c => (c.name, c.type, c.params)) =
        (s.cells.get? i).map (fun c => (c.name, c.type, c.params)) := by
  have hb0 : (if loc.z < 1 then ({ z := h - 1, base := none } : Stack) else loc).base = none ∨
      ∃ b, (if loc.z < 1 then ({ z := h - 1, base := none } : Stack) else loc).base =
        some (CellRef.pending b) ∧ b < V.length := by
    split_ifs
    · exact Or.inl rfl
    · exact hbase
  have hal : (address_nets ci 5 "A" 5 0 ++ [net_by_name s "$PACKER_VCC_NET"]).length ≤ 6 := by
    simp [address_nets_length]
  obtain ⟨l0, s0, e0, _, v0, b0, c0⟩ := ram32x2s_bit_init cs idx _ 0 _ s ci V hci hal hw
    (fun P hP => hlen "INIT_00" P (Or.inl rfl) hP) hV hb0
  have hci0 : s0.cells.get? idx = some (disconnect_port ci ("O" ++ to_string 0)) := by
    rw [c0]
    have := get_set_cell s idx ci (disconnect_port ci ("O" ++ to_string 0)) hci
    simpa [set_cell] using this
  obtain ⟨l1, s1, e1, _, v1, b1, c1⟩ := ram32x2s_bit_init cs idx
    (address_nets ci 5 "A" 5 0 ++ [net_by_name s "$PACKER_VCC_NET"]) 1 l0 s0 _ _ hci0 hal hw
    (fun P hP => hlen "INIT_01" P (Or.inr rfl)
      (by rw [disconnect_port_params] at hP; exact hP)) v0 (by simpa using b0)
  unfold pack_ram32x2s_cell
  simp only [deref_live s idx ci hci, bind, Except.bind, ht, ne_eq, not_true_eq_false, if_false,
    e0, e1, pure, Except.pure]
  refine ⟨_, _, rfl, ?_, ?_, ?_⟩
  · rw [(mark_packed_new_cells _ _).1, v1]
    unfold double32_view
    rw [hci, List.append_assoc, (disconnect_port_fields ci _).2,
      padded_init_params ci (disconnect_port ci ("O" ++ to_string 0)) _
        (disconnect_port_params ci _)]
    simp only [to_string_digits.1, to_string_digits.2.1, String.append_assoc,
      String.reduceAppend, List.singleton_append]
  · rcases b1 with e | ⟨b, e, hlt⟩
    · exact Or.inl e
    · exact Or.inr ⟨b, e, by simp only [List.length_append, List.length_cons,
        List.length_nil] at hlt; omega⟩
  · intro i
    rw [(mark_packed_new_cells _ _).2.1, c1, fields_set_disconnect _ idx _ _ hci0 i, c0,
      fields_set_disconnect _ idx _ _ hci i]

/-- The loop of RAM32X2S over a group of cells: it returns and pushes the two
primitives of each cell, in order. -/
theorem ram32x2s_loop_init (h : Int) (cs : DRAMControlSet) (hw : cs.wa.length ≤ 8) :
    ∀ (idxs : List Nat) (loc : Stack) (s : Packer)
      (V : List (IdString × IdString × Option Property)),
      (∀ i ∈ idxs, ∃ ci, s.cells.get? i = some ci ∧ ci.type = "RAM32X2S" ∧
        ∀ key P, key = "INIT_00" ∨ key = "INIT_01" → dict_find ci.params key = some P →
          P.str.length ≤ 32) →
      s.new_cells.map init_view = V →
      (loc.base = none ∨ ∃ b, loc.base = some (CellRef.pending b) ∧ b < V.length) →
      ∃ loc1 s1, stack_loop (pack_ram32x2s_cell h cs) (idxs.map CellRef.live) loc s =
          .ok (loc1, s1) ∧
        s1.new_cells.map init_view = V ++ (idxs.map (double32_view s.cells)).flatten := by
  intro idxs
  induction idxs with
  | nil =>
    intro loc s V _ hV _
    exact ⟨loc, s, rfl, by simpa using hV⟩
  | cons idx rest ih =>
    intro loc s V hcells hV hbase
    obtain ⟨ci, hci, ht, hlen⟩ := hcells idx (List.mem_cons_self _ _)
    obtain ⟨loc1, s1, e1, v1, b1, c1⟩ :=
      ram32x2s_step_init h cs idx loc s ci V hci ht hw hlen hV hbase
    have hcells1 : ∀ i ∈ rest, ∃ ci, s1.cells.get? i = some ci ∧ ci.type = "RAM32X2S" ∧
        ∀ key P, key = "INIT_00" ∨ key = "INIT_01" → dict_find ci.params key = some P →
          P.str.length ≤ 32 := by
      intro i hi
      obtain ⟨c, hc, hct, hcl⟩ := hcells i (List.mem_cons_of_mem _ hi)
      have hf := c1 i
      rw [hc] at hf
      cases h1 : s1.cells.get? i with
      | none => rw [h1] at hf; cases hf
      | some d =>
        rw [h1] at hf
        simp only [Option.map_some', Option.some.injEq, Prod.mk.injEq] at hf
        refine ⟨d, rfl, hf.2.1.trans hct, ?_⟩
        intro key P hk hP
        rw [hf.2.2] at hP
        exact hcl key P hk hP
    have hlen2 : (V ++ double32_view s.cells idx).length = V.length + 2 := by
      unfold double32_view
      rw [hci]
      simp
    obtain ⟨loc2, s2, e2, v2⟩ := ih loc1 s1 _ hcells1 v1 (by rw [hlen2]; exact b1)
    refine ⟨loc2, s2, ?_, ?_⟩
    · simp only [List.map_cons, stack_loop, e1, bind, Except.bind]
      exact e2
    · have hrest : rest.map (double32_view s1.cells) = rest.map (double32_view s.cells) :=
        List.map_congr_left (fun i _ => double32_view_fields s.cells s1.cells i (c1 i))
      rw [v2, hrest]
      simp only [List.map_cons, List.flatten_cons, List.append_assoc]

theorem update_last (s : Packer) (l : List CellInfo) (c c1 : CellInfo)
    (f : CellInfo → Except String CellInfo) (h : s.new_cells = l ++ [c]) (hf : f c = .ok c1) :
    update_cell s (some (CellRef.pending l.length)) f = .ok { s with new_cells := l ++ [c1] } := by
  have hg : get_cell s (CellRef.pending l.length) = some c := by
    simp only [get_cell, h]
    exact get_append_last l c
  unfold update_cell
  simp only [deref, hg, bind, Except.bind, pure, Except.pure, hf, set_cell, h, set_append_last]

/-- The fold of SPO into a base that was just made: O6 and DI1 of the fresh
primitive are free, so both connections succeed, and they leave the name, the
type and the parameters of the primitive. -/
theorem addr_fold (nm : IdString) (cs : DRAMControlSet) (addr : List (Option NetId)) (z : Int)
    (spo di : Option NetId) :
    ∃ cB cC, connect_port spo
        { slice_lutx nm cs addr none none with constr_abs_z := true, constr_z := z } "O6" =
          .ok cB ∧
      connect_port di cB "DI1" = .ok cC ∧ init_view cC = (nm, "SLICE_LUTX", none) := by
  cases spo <;> cases di <;>
    exact ⟨_, _, rfl, rfl, rfl⟩

/-- A primitive is made and takes the padded INIT of the cell. -/
theorem push_init (nm : String) (base : Option CellRef) (cs : DRAMControlSet)
    (addr : List (Option NetId)) (di dout : Option NetId) (z : Int) (s : Packer) (ci : CellInfo)
    (q : Property) (V : List (IdString × IdString × Option Property))
    (hV : s.new_cells.map init_view = V) (ha : addr.length ≤ 6) (hw : cs.wa.length ≤ 8)
    (hbase : base = none ∨ ∃ b, base = some (CellRef.pending b) ∧ b < V.length)
    (hq : pad_init32 (get_or_default ci.params "INIT" (Property.of_int 0 32)) = .ok q) :
    ∃ t t2, create_dram_lut nm base cs addr di dout z s = .ok (CellRef.pending V.length, t) ∧
      put_init t ci "INIT" (CellRef.pending V.length) q = .ok t2 ∧
      t2.new_cells.map init_view = V ++ [(nm, "SLICE_LUTX", padded_init ci "INIT")] ∧
      t2.cells = s.cells := by
  obtain ⟨t, e1, v1, c1⟩ := create_dram_lut_init nm base cs addr di dout z s V hV ha hw hbase
  obtain ⟨t2, e2, v2, c2⟩ := put_init_last t V nm "SLICE_LUTX" ci "INIT" q v1
  rw [padded_init_of ci "INIT" _ q hq] at v2
  exact ⟨t, t2, e1, e2, v2, c2.trans c1⟩

theorem ram32x1d_step_init (h : Int) (cs : DRAMControlSet) (idx : Nat) (loc : Stack) (s : Packer)
    (ci : CellInfo) (V : List (IdString × IdString × Option Property))
    (hci : s.cells.get? idx = some ci) (ht : ci.type = "RAM32X1D") (hw : cs.wa.length ≤ 8)
    (hlen : ∀ P, dict_find ci.params "INIT" = some P → P.str.length ≤ 32)
    (hV : s.new_cells.map init_view = V)
    (hbase : loc.base = none ∨ ∃ b, loc.base = some (CellRef.pending b) ∧ b < V.length) :
    ∃ loc1 s1, pack_ram32x1d_cell h cs (CellRef.live idx) loc s = .ok (loc1, s1) ∧
      s1.new_cells.map init_view =
        V ++ dual32_view (decide (loc.z = h - 1 ∨ loc.z - z_size ci + 1 < 0)) ci ∧
      (loc1.base = none ∨ ∃ b, loc1.base = some (CellRef.pending b) ∧
        b < (V ++ dual32_view (decide (loc.z = h - 1 ∨ loc.z - z_size ci + 1 < 0)) ci).length) ∧
      s1.cells = s.cells.set idx (disconnect_port (disconnect_port ci "DPO") "SPO") := by
  have hpad : ∃ q, pad_init32 (get_or_default ci.params "INIT" (Property.of_int 0 32)) = .ok q := by
    apply pad_init32_ok
    unfold get_or_default
    cases hf : dict_find ci.params "INIT" with
    | none => simp [Property.of_int]
    | some P => exact hlen P hf
  obtain ⟨q, hq⟩ := hpad
  have hl : V.length = s.new_cells.length := by rw [← hV, List.length_map]
  have hdp : ∀ (bl : Stack) (S : Packer) (W : List (IdString × IdString × Option Property)),
      S.new_cells.map init_view = W →
      (bl.base = none ∨ ∃ b, bl.base = some (CellRef.pending b) ∧ b < W.length) →
      ∃ cl S1, (if get_net_or_empty ci "DPO" ≠ none then do
            let r ← create_dram_lut (ci.name ++ "/DP") bl.base cs
              (address_nets ci 6 "DPRA" 5 0 ++ [net_by_name s "$PACKER_VCC_NET"])
              (get_net_or_empty ci "D") (get_net_or_empty ci "DPO") bl.z S
            let t ← put_init r.2 ci "INIT" r.1 q
            pure (({ bl with z := bl.z - 1 } : Stack), t)
          else pure (bl, S)) = Except.ok (cl, S1) ∧
        S1.new_cells.map init_view = W ++ (if get_net_or_empty ci "DPO" ≠ none then
          [(ci.name ++ "/DP", "SLICE_LUTX", padded_init ci "INIT")] else []) ∧
        S1.cells = S.cells ∧ cl.base = bl.base := by
    intro bl S W hW hb
    by_cases hd : get_net_or_empty ci "DPO" = none
    · rw [if_neg (not_not.mpr hd), if_neg (not_not.mpr hd)]
      exact ⟨bl, S, rfl, by simpa using hW, rfl, rfl⟩
    · rw [if_pos hd, if_pos hd]
      obtain ⟨t, t2, e1, e2, v2, c2⟩ := push_init (ci.name ++ "/DP") bl.base cs
        (address_nets ci 6 "DPRA" 5 0 ++ [net_by_name s "$PACKER_VCC_NET"])
        (get_net_or_empty ci "D") (get_net_or_empty ci "DPO") bl.z S ci q W hW
        (by simp [address_nets_length]) hw hb hq
      refine ⟨{ bl with z := bl.z - 1 }, t2, ?_, v2, c2, rfl⟩
      simp only [e1, e2, bind, Except.bind, pure, Except.pure]
  unfold pack_ram32x1d_cell
  simp only [deref_live s idx ci hci, bind, Except.bind, ht, ne_eq, not_true_eq_false, if_false,
    hq]
  by_cases hnb : loc.z = h - 1 ∨ loc.z - z_size ci + 1 < 0
  · obtain ⟨cellA, hA⟩ : ∃ cellA : CellInfo, cellA =
        { slice_lutx (ci.name ++ "/ADDR") cs
            (cs.wa.take (min cs.wa.length 5) ++ [net_by_name s "$PACKER_VCC_NET"]) none none with
          constr_abs_z := true, constr_z := Int.lor ((h - 1) * 2 ^ 4) s.BEL_6LUT } := ⟨_, rfl⟩
    obtain ⟨SA, hSA⟩ : ∃ SA : Packer, SA = { s with new_cells := s.new_cells ++ [cellA] } :=
      ⟨_, rfl⟩
    have hcreate : create_dram_lut (ci.name ++ "/ADDR") none cs
        (cs.wa.take (min cs.wa.length 5) ++ [net_by_name s "$PACKER_VCC_NET"]) none none (h - 1) s =
        .ok (CellRef.pending s.new_cells.length, SA) := by
      rw [create_dram_lut_eq _ none cs _ none none _ s (address32_length cs.wa _) hw,
        constrain_and_push_base, hSA, hA]
    obtain ⟨S1, hS1⟩ : ∃ S1 : Packer, S1 = set_cell SA (CellRef.live idx)
        (disconnect_port (disconnect_port ci "DPO") "SPO") := ⟨_, rfl⟩
    have hmod : modify_cell SA (CellRef.live idx)
        (fun c => disconnect_port (disconnect_port c "DPO") "SPO") = .ok S1 := by
      rw [hS1, hSA]
      simp only [modify_cell, get_cell, hci]
      rfl
    have hS1n : S1.new_cells = s.new_cells ++ [cellA] := by rw [hS1, hSA]; rfl
    have hS1c : S1.cells = s.cells.set idx (disconnect_port (disconnect_port ci "DPO") "SPO") := by
      rw [hS1, hSA]; rfl
    have hvA : init_view cellA = (ci.name ++ "/ADDR", "SLICE_LUTX", none) := by rw [hA]; rfl
    rw [if_pos hnb]
    simp only [hcreate, pure, Except.pure, hmod]
    have hfin : ∀ (W : List (IdString × IdString × Option Property)) (cl : Stack) (S2 : Packer),
        cl.base = some (CellRef.pending s.new_cells.length) →
        S2.new_cells.map init_view = W ++ (if get_net_or_empty ci "DPO" ≠ none then
          [(ci.name ++ "/DP", "SLICE_LUTX", padded_init ci "INIT")] else []) →
        W = V ++ [(ci.name ++ "/ADDR", "SLICE_LUTX",
          if get_net_or_empty ci "SPO" ≠ none then padded_init ci "INIT" else none)] →
        S2.cells = s.cells.set idx (disconnect_port (disconnect_port ci "DPO") "SPO") →
        (mark_packed S2 ci.name).new_cells.map init_view =
          V ++ dual32_view (decide (loc.z = h - 1 ∨ loc.z - z_size ci + 1 < 0)) ci ∧
        (cl.base = none ∨ ∃ b, cl.base = some (CellRef.pending b) ∧
          b < (V ++ dual32_view (decide (loc.z = h - 1 ∨ loc.z - z_size ci + 1 < 0)) ci).length) ∧
        (mark_packed S2 ci.name).cells =
          s.cells.set idx (disconnect_port (disconnect_port ci "DPO") "SPO") := by
      intro W cl S2 hb hv hW hc
      have hview : V ++ dual32_view (decide (loc.z = h - 1 ∨ loc.z - z_size ci + 1 < 0)) ci =
          W ++ (if get_net_or_empty ci "DPO" ≠ none then
            [(ci.name ++ "/DP", "SLICE_LUTX", padded_init ci "INIT")] else []) := by
        rw [hW]
        unfold dual32_view
        simp only [decide_eq_true hnb, if_true, Bool.true_eq_false, and_false, if_false,
          List.append_nil, List.append_assoc]
      refine ⟨by rw [(mark_packed_new_cells _ _).1, hv, hview], Or.inr ⟨s.new_cells.length, hb, ?_⟩,
        by rw [(mark_packed_new_cells _ _).2.1]; exact hc⟩
      rw [hview, hW]
      simp only [List.length_append, List.length_cons, List.length_nil]
      omega
    by_cases hs : get_net_or_empty ci "SPO" = none
    · simp only [hs, not_true_eq_false, if_false]
      obtain ⟨cl, S2, e, v, c, b⟩ := hdp
        { z := h - 1 - 1, base := some (CellRef.pending s.new_cells.length) }
        S1 (V ++ [(ci.name ++ "/ADDR", "SLICE_LUTX", none)])
        (by rw [hS1n, List.map_append, hV, List.map_cons, hvA, List.map_nil])
        (Or.inr ⟨s.new_cells.length, rfl, by simp [hl]⟩)
      simp only [bind, Except.bind, pure, Except.pure, ne_eq] at e
      rw [e]
      obtain ⟨g1, g2, g3⟩ := hfin _ cl S2 b v (by simp [hs]) (c.trans hS1c)
      exact ⟨cl, _, rfl, g1, g2, g3⟩
    · obtain ⟨cB, cC, eB, eC, vC⟩ := addr_fold (ci.name ++ "/ADDR") cs
        (cs.wa.take (min cs.wa.length 5) ++ [net_by_name s "$PACKER_VCC_NET"])
        (Int.lor ((h - 1) * 2 ^ 4) s.BEL_6LUT) (get_net_or_empty ci "SPO")
        (get_net_or_empty ci "D")
      rw [← hA] at eB
      have u1 := update_last S1 s.new_cells cellA cB
        (fun c => connect_port (get_net_or_empty ci "SPO") c "O6") hS1n eB
      have u2 := update_last { S1 with new_cells := s.new_cells ++ [cB] } s.new_cells cB cC
        (fun c => connect_port (get_net_or_empty ci "D") c "DI1") rfl eC
      obtain ⟨S4, e4, v4, c4⟩ := put_init_last
        { S1 with new_cells := s.new_cells ++ [cC] } V (ci.name ++ "/ADDR") "SLICE_LUTX" ci "INIT" q
        (by simp only [List.map_append, hV, List.map_cons, vC, List.map_nil])
      rw [padded_init_of ci "INIT" _ q hq] at v4
      rw [hl] at e4
      simp only [hs, not_false_eq_true, if_true, u1, u2, e4]
      obtain ⟨cl, S2, e, v, c, b⟩ := hdp
        { z := h - 1 - 1, base := some (CellRef.pending s.new_cells.length) }
        S4 (V ++ [(ci.name ++ "/ADDR", "SLICE_LUTX", padded_init ci "INIT")])
        v4 (Or.inr ⟨s.new_cells.length, rfl, by simp [hl]⟩)
      simp only [bind, Except.bind, pure, Except.pure, ne_eq] at e
      rw [e]
      obtain ⟨g1, g2, g3⟩ := hfin _ cl S2 b v (by simp [hs]) (c.trans (c4.trans hS1c))
      exact ⟨cl, _, rfl, g1, g2, g3⟩
  · rw [if_neg hnb]
    obtain ⟨S1, hS1⟩ : ∃ S1 : Packer, S1 = set_cell s (CellRef.live idx)
        (disconnect_port (disconnect_port ci "DPO") "SPO") := ⟨_, rfl⟩
    have hmod : modify_cell s (CellRef.live idx)
        (fun c => disconnect_port (disconnect_port c "DPO") "SPO") = .ok S1 := by
      rw [hS1]
      simp only [modify_cell, get_cell, hci]
      rfl
    have hS1n : S1.new_cells = s.new_cells := by rw [hS1]; rfl
    have hS1c : S1.cells = s.cells.set idx (disconnect_port (disconnect_port ci "DPO") "SPO") := by
      rw [hS1]; rfl
    simp only [pure, Except.pure, hmod]
    have hfin : ∀ (W : List (IdString × IdString × Option Property)) (cl : Stack) (S2 : Packer),
        cl.base = loc.base →
        S2.new_cells.map init_view = W ++ (if get_net_or_empty ci "DPO" ≠ none then
          [(ci.name ++ "/DP", "SLICE_LUTX", padded_init ci "INIT")] else []) →
        W = V ++ (if get_net_or_empty ci "SPO" ≠ none then
          [(ci.name ++ "/SP", "SLICE_LUTX", padded_init ci "INIT")] else []) →
        S2.cells = s.cells.set idx (disconnect_port (disconnect_port ci "DPO") "SPO") →
        (mark_packed S2 ci.name).new_cells.map init_view =
          V ++ dual32_view (decide (loc.z = h - 1 ∨ loc.z - z_size ci + 1 < 0)) ci ∧
        (cl.base = none ∨ ∃ b, cl.base = some (CellRef.pending b) ∧
          b < (V ++ dual32_view (decide (loc.z = h - 1 ∨ loc.z - z_size ci + 1 < 0)) ci).length) ∧
        (mark_packed S2 ci.name).cells =
          s.cells.set idx (disconnect_port (disconnect_port ci "DPO") "SPO") := by
      intro W cl S2 hb hv hW hc
      have hview : V ++ dual32_view (decide (loc.z = h - 1 ∨ loc.z - z_size ci + 1 < 0)) ci =
          W ++ (if get_net_or_empty ci "DPO" ≠ none then
            [(ci.name ++ "/DP", "SLICE_LUTX", padded_init ci "INIT")] else []) := by
        rw [hW]
        unfold dual32_view
        simp only [decide_eq_false hnb, Bool.false_eq_true, if_false, and_true, List.nil_append,
          List.append_assoc]
      refine ⟨by rw [(mark_packed_new_cells _ _).1, hv, hview], ?_,
        by rw [(mark_packed_new_cells _ _).2.1]; exact hc⟩
      rw [hb]
      rcases hbase with e | ⟨b, e, hlt⟩
      · exact Or.inl e
      · refine Or.inr ⟨b, e, ?_⟩
        rw [List.length_append]
        omega
    by_cases hs : get_net_or_empty ci "SPO" = none
    · simp only [hs, not_true_eq_false, if_false]
      obtain ⟨cl, S2, e, v, c, b⟩ := hdp loc S1 V (by rw [hS1n]; exact hV) hbase
      simp only [bind, Except.bind, pure, Except.pure, ne_eq] at e
      rw [e]
      obtain ⟨g1, g2, g3⟩ := hfin _ cl S2 b v (by simp [hs]) (c.trans hS1c)
      exact ⟨cl, _, rfl, g1, g2, g3⟩
    · obtain ⟨t, t2, e1, e2, v2, c2⟩ := push_init (ci.name ++ "/SP") loc.base cs
        (cs.wa.take (min cs.wa.length 5) ++ [net_by_name s "$PACKER_VCC_NET"])
        (get_net_or_empty ci "D") (get_net_or_empty ci "SPO") loc.z S1 ci q V
        (by rw [hS1n]; exact hV) (address32_length cs.wa _) hw hbase hq
      simp only [hs, not_false_eq_true, if_true, Bool.false_eq_true, if_false, e1, e2]
      obtain ⟨cl, S2, e, v, c, b⟩ := hdp { loc with z := loc.z - 1 } t2
        (V ++ [(ci.name ++ "/SP", "SLICE_LUTX", padded_init ci "INIT")]) v2
        (by
          rcases hbase with e | ⟨b, e, hlt⟩
          · exact Or.inl e
          · exact Or.inr ⟨b, e, by rw [List.length_append]; omega⟩)
      simp only [bind, Except.bind, pure, Except.pure, ne_eq] at e
      rw [e]
      obtain ⟨g1, g2, g3⟩ := hfin _ cl S2 b v (by simp [hs]) (c.trans (c2.trans hS1c))
      exact ⟨cl, _, rfl, g1, g2, g3⟩

theorem zipWith_congr_mem {α β γ : Type} (f g : α → β → γ) :
    ∀ (as : List α) (bs : List β), (∀ b ∈ bs, ∀ a, f a b = g a b) →
      List.zipWith f as bs = List.zipWith g as bs := by
  intro as
  induction as with
  | nil => intro bs _; rfl
  | cons a as ih =>
    intro bs hb
    cases bs with
    | nil => rfl
    | cons b bs =>
      simp only [List.zipWith_cons_cons]
      rw [hb b (List.mem_cons_self _ _) a, ih bs (fun x hx => hb x (List.mem_cons_of_mem _ hx))]

/-- The loop of RAM32X1D over a group of distinct cells whose INIT has at most
32 bits: it returns, and each turn pushes the primitives of its cell, each with
the padded INIT of the cell where the source writes one. -/
theorem ram32x1d_loop_init (h : Int) (cs : DRAMControlSet) (hw : cs.wa.length ≤ 8) :
    ∀ (idxs : List Nat) (loc : Stack) (s : Packer)
      (V : List (IdString × IdString × Option Property)),
      idxs.Nodup →
      (∀ i ∈ idxs, ∃ ci, s.cells.get? i = some ci ∧ ci.type = "RAM32X1D" ∧
        ∀ P, dict_find ci.params "INIT" = some P → P.str.length ≤ 32) →
      s.new_cells.map init_view = V →
      (loc.base = none ∨ ∃ b, loc.base = some (CellRef.pending b) ∧ b < V.length) →
      ∃ loc1 s1 nbs, stack_loop (pack_ram32x1d_cell h cs) (idxs.map CellRef.live) loc s =
          .ok (loc1, s1) ∧
        nbs.length = idxs.length ∧
        (loc.z = h - 1 → ∀ b ∈ nbs.head?, b = true) ∧
        s1.new_cells.map init_view =
          V ++ (List.zipWith (dual32_views s.cells) nbs idxs).flatten := by
  intro idxs
  induction idxs with
  | nil =>
    intro loc s V _ _ hV _
    exact ⟨loc, s, [], rfl, rfl, fun _ b hb => (by cases hb), by simpa using hV⟩
  | cons idx rest ih =>
    intro loc s V hnd hcells hV hbase
    obtain ⟨ci, hci, ht, hlen⟩ := hcells idx (List.mem_cons_self _ _)
    obtain ⟨loc1, s1, e1, v1, b1, c1⟩ :=
      ram32x1d_step_init h cs idx loc s ci V hci ht hw hlen hV hbase
    have hne : ∀ i ∈ rest, s1.cells.get? i = s.cells.get? i := by
      intro i hi
      have hii : idx ≠ i := fun e => (List.nodup_cons.mp hnd).1 (e ▸ hi)
      rw [c1]
      simp only [List.get?_eq_getElem?]
      rw [List.getElem?_set_ne hii]
    have hcells1 : ∀ i ∈ rest, ∃ ci, s1.cells.get? i = some ci ∧ ci.type = "RAM32X1D" ∧
        ∀ P, dict_find ci.params "INIT" = some P → P.str.length ≤ 32 := by
      intro i hi
      rw [hne i hi]
      exact hcells i (List.mem_cons_of_mem _ hi)
    obtain ⟨loc2, s2, nbs, e2, n2, _, v2⟩ := ih loc1 s1 _ (List.nodup_cons.mp hnd).2 hcells1 v1 b1
    refine ⟨loc2, s2, decide (loc.z = h - 1 ∨ loc.z - z_size ci + 1 < 0) :: nbs, ?_, ?_, ?_, ?_⟩
    · simp only [List.map_cons, stack_loop, e1, bind, Except.bind]
      exact e2
    · simp [n2]
    · intro hz b hb
      simp only [List.head?_cons, Option.mem_def, Option.some.injEq] at hb
      rw [← hb]
      exact decide_eq_true (Or.inl hz)
    · have hrest : List.zipWith (dual32_views s1.cells) nbs rest =
          List.zipWith (dual32_views s.cells) nbs rest := by
        apply zipWith_congr_mem
        intro i hi nb
        unfold dual32_views
        rw [hne i hi]
      rw [v2, hrest]
      simp only [List.zipWith_cons_cons, List.flatten_cons, List.append_assoc]
      congr 2
      unfold dual32_views
      rw [hci]

/-- C7: a group of 32-deep memory cells, distinct, of the type of the control
set, whose INIT (INIT_00 and INIT_01 for RAM32X2S) has at most 32 bits. The
strategy of the group returns, and the primitives it pushes are, in order: for
RAM32X1S and RAM32X1S_1 one per cell, with the name of the cell; for RAM32X2S
two per cell, one per output bit; for RAM32X1D, per cell, the base `/ADDR` when
the turn opens one (the first turn does), `/SP` for a connected SPO that is not
folded into the base, `/DP` for a connected DPO. Each carries as INIT the
padding of the INIT of its cell (of INIT_0i for bit i), and no INIT when the
cell has none (nor does a base without SPO). The padding of a value of n <= 32
bits has exactly 64 bits, bits 0..31 zero, bit 32 + k equal to bit k of the
value for k < n and zero for n <= k < 32; its value is the value times 2^32. -/
theorem pack_group_pads_init (cs : DRAMControlSet) (idxs : List Nat) (s : Packer)
    (hw : cs.wa.length ≤ 8) (hnd : idxs.Nodup)
    (hcells : ∀ i ∈ idxs, ∃ ci, s.cells.get? i = some ci ∧ ci.type = cs.memtype ∧
      ∀ key P, key = "INIT" ∨ key = "INIT_00" ∨ key = "INIT_01" →
        dict_find ci.params key = some P → P.str.length ≤ 32) :
    (cs.memtype = "RAM32X1S" ∨ cs.memtype = "RAM32X1S_1" →
      ∃ r, pack_group cs (idxs.map CellRef.live) s = .ok r ∧
        r.new_cells.map init_view =
          s.new_cells.map init_view ++ idxs.map (single32_view s.cells)) ∧
    (cs.memtype = "RAM32X2S" →
      ∃ r, pack_group cs (idxs.map CellRef.live) s = .ok r ∧
        r.new_cells.map init_view =
          s.new_cells.map init_view ++ (idxs.map (double32_view s.cells)).flatten) ∧
    (cs.memtype = "RAM32X1D" →
      ∃ r nbs, pack_group cs (idxs.map CellRef.live) s = .ok r ∧
        nbs.length = idxs.length ∧ (∀ b ∈ nbs.head?, b = true) ∧
        r.new_cells.map init_view =
          s.new_cells.map init_view ++
            (List.zipWith (dual32_views s.cells) nbs idxs).flatten) ∧
    (∀ (ci : CellInfo) (key : IdString) (P : Property),
      dict_find ci.params key = some P → P.str.length ≤ 32 →
      ∃ Q, padded_init ci key = some Q ∧ Q.str.length = 64 ∧
        (∀ k, k < 32 → Q.str.get? k = some '0') ∧
        (∀ k, k < P.str.length → Q.str.get? (32 + k) = P.str.get? k) ∧
        (∀ k, P.str.length ≤ k → k < 32 → Q.str.get? (32 + k) = some '0') ∧
        update_intval_loop Q.str 0 0 = update_intval_loop P.str 0 0 * 2 ^ 32 ∧
        Q.intval = to_int64 (update_intval_loop P.str 0 0 * 2 ^ 32)) := by
  refine ⟨?_, ?_, ?_, ?_⟩
  · intro hm
    have hc : ∀ mt, cs.memtype = mt → ∀ i ∈ idxs, ∃ ci, s.cells.get? i = some ci ∧
        ci.type = mt ∧ ∀ P, dict_find ci.params "INIT" = some P → P.str.length ≤ 32 := by
      intro mt hmt i hi
      obtain ⟨ci, h1, h2, h3⟩ := hcells i hi
      exact ⟨ci, h1, h2.trans hmt, fun P hP => h3 "INIT" P (Or.inl rfl) hP⟩
    rcases hm with hm | hm
    · obtain ⟨loc1, s1, e, v⟩ := ram32x1s_loop_init (cluster_height s) cs "RAM32X1S" false hw idxs
        { z := cluster_height s - 1, base := none } s _ (hc _ hm) rfl (Or.inl rfl)
      refine ⟨s1, ?_, v⟩
      simp only [pack_group, hm, String.reduceEq, if_false, if_true, e]
      rfl
    · obtain ⟨loc1, s1, e, v⟩ := ram32x1s_loop_init (cluster_height s) cs "RAM32X1S_1" true hw
        idxs { z := cluster_height s - 1, base := none } s _ (hc _ hm) rfl (Or.inl rfl)
      refine ⟨s1, ?_, v⟩
      simp only [pack_group, hm, String.reduceEq, if_false, if_true, e]
      rfl
  · intro hm
    obtain ⟨loc1, s1, e, v⟩ := ram32x2s_loop_init (cluster_height s) cs hw idxs
      { z := cluster_height s - 1, base := none } s _
      (fun i hi => by
        obtain ⟨ci, h1, h2, h3⟩ := hcells i hi
        exact ⟨ci, h1, h2.trans hm, fun key P hk hP => h3 key P
          (hk.elim (fun e => Or.inr (Or.inl e)) (fun e => Or.inr (Or.inr e))) hP⟩)
      rfl (Or.inl rfl)
    refine ⟨s1, ?_, v⟩
    simp only [pack_group, hm, String.reduceEq, if_false, if_true, e]
    rfl
  · intro hm
    obtain ⟨loc1, s1, nbs, e, n, hh, v⟩ := ram32x1d_loop_init (cluster_height s) cs hw idxs
      { z := cluster_height s - 1, base := none } s _ hnd
      (fun i hi => by
        obtain ⟨ci, h1, h2, h3⟩ := hcells i hi
        exact ⟨ci, h1, h2.trans hm, fun P hP => h3 "INIT" P (Or.inl rfl) hP⟩)
      rfl (Or.inl rfl)
    refine ⟨s1, nbs, ?_, n, hh rfl, v⟩
    simp only [pack_group, hm, String.reduceEq, if_false, if_true, e]
    rfl
  · intro ci key P hP hlen
    obtain ⟨Q, hQ, h1, h2, h3, h4, h5, h6⟩ := pad_init32_bits P hlen
    refine ⟨Q, ?_, h1, h2, h3, h4, h5, h6⟩
    unfold padded_init
    rw [hP]
    simp only [hQ]
    rfl

set_option maxRecDepth 100000 in
theorem pack_group_pads_init_witness :
    (deep_cell "RAM32X1S" "deep" (Property.of_int 5 3)).params = [("INIT", Property.of_int 5 3)] ∧
    (Property.of_int 5 3).str = ['1', '0', '1'] ∧
    ∃ r, pack_group (deep_control "RAM32X1S" 5) [CellRef.live 0]
        (deep_design "RAM32X1S" (Property.of_int 5 3)) = .ok r ∧
      r.new_cells.map init_view =
        [("deep", "SLICE_LUTX", some
          { is_string := false
            str := List.replicate 32 '0' ++ (['1', '0', '1'] ++ List.replicate 29 '0')
            intval := 5 * 2 ^ 32 })] := by
  refine ⟨rfl, rfl, ?_⟩
  obtain ⟨r, hr, hv⟩ := (pack_group_pads_init (deep_control "RAM32X1S" 5) [0]
    (deep_design "RAM32X1S" (Property.of_int 5 3)) (by decide) (by decide)
    (fun i hi => by
      simp only [List.mem_singleton] at hi
      subst hi
      refine ⟨_, rfl, rfl, ?_⟩
      intro key P hk hP
      rcases hk with e | e | e <;> subst e
      · have e2 : P = Property.of_int 5 3 := (Option.some.inj hP).symm
        rw [e2]
        decide
      · have e2 : dict_find (deep_cell "RAM32X1S" "deep" (Property.of_int 5 3)).params
            "INIT_00" = none := by decide
        rw [e2] at hP
        cases hP
      · have e2 : dict_find (deep_cell "RAM32X1S" "deep" (Property.of_int 5 3)).params
            "INIT_01" = none := by decide
        rw [e2] at hP
        cases hP)).1 (Or.inl rfl)
  refine ⟨r, hr, ?_⟩
  rw [hv]
  rfl

/-! ### The RAM32M branch of the whole-slice loop, bank by bank -/

theorem lib_ports_ramd32 : lib_ports "RAMD32" =
    [in_port "RADR0", in_port "RADR1", in_port "RADR2", in_port "RADR3", in_port "RADR4",
     in_port "WADR0", in_port "WADR1", in_port "WADR2", in_port "WADR3", in_port "WADR4",
     in_port "CLK", in_port "I", in_port "WE", out_port "O"] := by
  decide

/-- The RAMD32 cell wire_dram_lut hands to xform_cell. -/
theorem wire_dram32_five (name : String) (wclk we : Option NetId) (inv : Bool) (mt : IdString)
    (a0 a1 a2 a3 a4 w0 w1 w2 w3 w4 di dout : Option NetId) :
    wire_dram_lut "RAMD32" name
        { wa := [w0, w1, w2, w3, w4], wclk := wclk, we := we, wclk_inv := inv, memtype := mt }
        [a0, a1, a2, a3, a4] di dout =
      .ok { create_cell "RAMD32" name with
            ports := [sink "RADR0" a0, sink "RADR1" a1, sink "RADR2" a2, sink "RADR3" a3,
              sink "RADR4" a4, sink "WADR0" w0, sink "WADR1" w1,
              sink "WADR2" w2, sink "WADR3" w3, sink "WADR4" w4, sink "CLK" wclk, sink "I" di,
              sink "WE" we, source "O" dout]
            params := [("IS_WCLK_INVERTED", Property.of_int (if inv then 1 else 0) 32)] } := by
  simp only [wire_dram_lut, connect_indexed, Nat.reduceAdd, zero_add, to_string_digits,
    String.reduceAppend, create_cell, lib_ports_ramd32, in_port, out_port]
  simp only [connect_port_eq, dict_find, dict_set, String.reduceEq, if_true, if_false, bind,
    Except.bind, pure, Except.pure, reduceCtorEq, sink, source]

theorem length_five_split {α : Type} (l : List α) (h : l.length = 5) :
    ∃ a0 a1 a2 a3 a4, l = [a0, a1, a2, a3, a4] := by
  match l, h with
  | [a0, a1, a2, a3, a4], _ => exact ⟨a0, a1, a2, a3, a4, rfl⟩

/-- The wiring and the transformation of create_dram32_lut return: the cell that
is constrained and pushed has the name given, the write-clock polarity as its
only parameter and the data output on O5 or O6. -/
theorem create_dram32_lut_eq (name : String) (base : Option CellRef) (cs : DRAMControlSet)
    (address : List (Option NetId)) (di dout : Option NetId) (o5 : Bool) (z : Int) (s : Packer)
    (ha : address.length = 5) (hw : cs.wa.length = 5) :
    ∃ x, create_dram32_lut name base cs address di dout o5 z s =
        constrain_and_push x base
          (Int.lor (z * 2 ^ 4) (if o5 then s.BEL_5LUT else s.BEL_6LUT)) s ∧
      x.name = name ∧ dict_find x.params "INIT" = none ∧
      get_net_or_empty x (if o5 then "O5" else "O6") = dout := by
  obtain ⟨wa, wclk, we, inv, mt⟩ := cs
  simp only at hw
  obtain ⟨a0, a1, a2, a3, a4, hA⟩ := length_five_split address ha
  obtain ⟨w0, w1, w2, w3, w4, hW⟩ := length_five_split wa hw
  subst hA
  subst hW
  obtain ⟨w, hwire⟩ : ∃ w, wire_dram_lut "RAMD32" name
      ⟨[w0, w1, w2, w3, w4], wclk, we, inv, mt⟩ [a0, a1, a2, a3, a4] di dout = .ok w :=
    ⟨_, wire_dram32_five name wclk we inv mt a0 a1 a2 a3 a4 w0 w1 w2 w3 w4 di dout⟩
  have hpar : w.params = [("IS_WCLK_INVERTED", Property.of_int (if inv then 1 else 0) 32)] := by
    have h2 := wire_dram32_five name wclk we inv mt a0 a1 a2 a3 a4 w0 w1 w2 w3 w4 di dout
    rw [hwire] at h2
    simp only [Except.ok.injEq] at h2
    rw [h2]
  obtain ⟨wt, wnd, wsome, wnet⟩ := wire_dram32_out name _ _ di dout w hwire
  have hrule : ∃ rule, dict_find (if o5 then dram32_5_rules else dram32_6_rules) "RAMD32" =
      some rule ∧ rule.port_multixform = [] := by
    cases o5
    · exact ⟨_, rfl, rfl⟩
    · exact ⟨_, rfl, rfl⟩
  obtain ⟨rule, hf, hm⟩ := hrule
  have hx := xform_cell_renames (if o5 then dram32_5_rules else dram32_6_rules) w rule
    (by rw [wt]; exact hf) hm
  cases hport : dict_find w.ports "O" with
  | none =>
    rw [hport] at wsome
    cases wsome
  | some port =>
    obtain ⟨xnet, xpar, xname⟩ := xform32_out o5 w _ port wt wnd hport hx
    have wname : w.name = name := by
      have h2 := wire_dram32_five name wclk we inv mt a0 a1 a2 a3 a4 w0 w1 w2 w3 w4 di dout
      rw [hwire] at h2
      simp only [Except.ok.injEq] at h2
      rw [h2]
      rfl
    refine ⟨_, ?_, xname.trans wname, ?_, ?_⟩
    · unfold create_dram32_lut
      simp only [bind, Except.bind, hwire, hx]
    · rw [xpar, hpar]
      rfl
    · rw [xnet]
      unfold get_net_or_empty at wnet
      rw [hport] at wnet
      exact wnet

theorem map_set_primitive_view (l : List CellInfo) (i : Nat) (c c1 : CellInfo)
    (hc : l.get? i = some c) (h : primitive_view c1 = primitive_view c) :
    (l.set i c1).map primitive_view = l.map primitive_view := by
  rw [List.map_set, h]
  apply List.ext_getElem?
  intro k
  simp only [List.get?_eq_getElem?] at hc
  rw [List.getElem?_set]
  by_cases hk : i = k
  · subst hk
    rw [if_pos rfl, List.getElem?_map, hc]
    simp only [List.length_map, Option.map_some']
    split_ifs with hl
    · rfl
    · exfalso
      rw [List.getElem?_eq_none (by omega)] at hc
      cases hc
  · rw [if_neg hk]

/-- The push of a primitive under a base that is null or in the pending buffer
returns; the primitives pushed before keep what primitive_view shows. -/
theorem constrain_and_push_view (x : CellInfo) (base : Option CellRef) (cz : Int) (s : Packer)
    (hbase : base = none ∨ ∃ b, base = some (CellRef.pending b) ∧ b < s.new_cells.length) :
    ∃ L c, constrain_and_push x base cz s =
        .ok (CellRef.pending s.new_cells.length, { s with new_cells := L ++ [c] }) ∧
      L.length = s.new_cells.length ∧
      L.map primitive_view = s.new_cells.map primitive_view ∧
      c.name = x.name ∧ c.ports = x.ports ∧ c.params = x.params ∧ c.constr_z = cz ∧
      c.constr_abs_z = true := by
  rcases hbase with hb | ⟨b, hb, hlt⟩
  · subst hb
    rw [constrain_and_push_base]
    exact ⟨s.new_cells, _, rfl, rfl, rfl, rfl, rfl, rfl, rfl, rfl⟩
  · subst hb
    have hg : s.new_cells.get? b = some (s.new_cells.get ⟨b, hlt⟩) := by
      simp only [List.get?_eq_getElem?, List.get_eq_getElem]
      exact List.getElem?_eq_getElem hlt
    rw [constrain_and_push_child _ _ b _ s hg]
    refine ⟨_, _, rfl, by simp only [List.length_set], ?_, rfl, rfl, rfl, rfl, rfl⟩
    exact map_set_primitive_view s.new_cells b _ _ hg rfl

/-- One output of one bank of a RAM32M cell: the step returns, it pushes one
primitive behind those pushed before, which keep what primitive_view shows, and
it takes the cell off the data input and the data output of that bit. -/
theorem ram32m_bit_step (dcs : DRAMControlSet) (idx : Nat) (zoffset : Int) (i j : Nat)
    (base : Option CellRef) (s : Packer) (ci : CellInfo)
    (hj : j < 2) (hc : s.cells.get? idx = some ci) (hw : dcs.wa.length = 5)
    (hbase : base = none ∨ ∃ b, base = some (CellRef.pending b) ∧ b < s.new_cells.length) :
    ∃ t L c, pack_ram32m_bit dcs (CellRef.live idx) zoffset i j base s =
        .ok (if base = none then some (CellRef.pending s.new_cells.length) else base, t) ∧
      t.new_cells = L ++ [c] ∧ L.length = s.new_cells.length ∧
      L.map primitive_view = s.new_cells.map primitive_view ∧
      t.cells = s.cells.set idx (disconnect_port (disconnect_port ci
        ("DI" ++ bank_letter i ++ "[" ++ to_string j ++ "]"))
        ("DO" ++ bank_letter i ++ "[" ++ to_string j ++ "]")) ∧
      t.BEL_5LUT = s.BEL_5LUT ∧ t.BEL_6LUT = s.BEL_6LUT ∧
      ram32m_primitive ci zoffset s.BEL_5LUT s.BEL_6LUT i j c := by
  unfold pack_ram32m_bit
  rw [deref_live s idx ci hc]
  simp only [bind, Except.bind]
  rw [modify_cell_live s idx ci _ hc]
  simp only
  obtain ⟨x, hx, xn, xi, xo⟩ := create_dram32_lut_eq
    (ci.name ++ "/DPR" ++ to_string i ++ "_" ++ to_string j) base dcs
    ((List.range 5).map
      (fun k => get_net_or_empty ci ("ADDR" ++ bank_letter i ++ "[" ++ to_string k ++ "]")))
    (get_net_or_empty ci ("DI" ++ bank_letter i ++ "[" ++ to_string j ++ "]"))
    (get_net_or_empty ci ("DO" ++ bank_letter i ++ "[" ++ to_string j ++ "]"))
    (decide (j = 0)) (zoffset + i)
    { s with cells := s.cells.set idx (disconnect_port (disconnect_port ci
        ("DI" ++ bank_letter i ++ "[" ++ to_string j ++ "]"))
        ("DO" ++ bank_letter i ++ "[" ++ to_string j ++ "]")) }
    (by rw [List.length_map, List.length_range]) hw
  rw [hx]
  obtain ⟨L, c, hcp, hl, hv, cn, cp, cpar, cz, ca⟩ := constrain_and_push_view x base
    (Int.lor ((zoffset + i) * 2 ^ 4) (if decide (j = 0) = true then s.BEL_5LUT else s.BEL_6LUT))
    { s with cells := s.cells.set idx (disconnect_port (disconnect_port ci
        ("DI" ++ bank_letter i ++ "[" ++ to_string j ++ "]"))
        ("DO" ++ bank_letter i ++ "[" ++ to_string j ++ "]")) } hbase
  rw [hcp]
  simp only
  have hz : c.constr_z = Int.lor ((zoffset + i) * 2 ^ 4)
      (if j = 0 then s.BEL_5LUT else s.BEL_6LUT) := by
    rw [cz]
    by_cases hj0 : j = 0 <;> simp [hj0]
  have ho : get_net_or_empty c (if j = 0 then "O5" else "O6") =
      get_net_or_empty ci ("DO" ++ bank_letter i ++ "[" ++ to_string j ++ "]") := by
    rw [← xo]
    unfold get_net_or_empty
    rw [cp]
    by_cases hj0 : j = 0 <;> simp [hj0]
  cases hP : dict_find ci.params ("INIT_" ++ bank_letter i) with
  | none =>
    refine ⟨_, L, c, rfl, rfl, hl, hv, rfl, rfl, rfl, cn.trans xn, ca, hz, ho, ?_⟩
    intro P hP2
    rw [hP] at hP2
    cases hP2
  | some P =>
    obtain ⟨L0, hL, hlen, hbits⟩ := ram32m_init_bits P j hj
    simp only [bind, Except.bind] at hL
    cases ha : (P.extract 0 64).as_bits with
    | error e =>
      rw [ha] at hL
      cases hL
    | ok o =>
      rw [ha] at hL
      simp only at hL
      simp only [ha, hL]
      unfold set_init
      have hg : (L ++ [c]).get? s.new_cells.length = some c := by
        rw [← hl]
        exact get_append_last L c
      rw [modify_cell_pending _ s.new_cells.length c _ hg]
      refine ⟨_, L, { c with params := dict_set c.params "INIT" (Property.from_string L0) }, rfl,
        ?_, hl, hv, rfl, rfl, rfl, cn.trans xn, ca, hz, ho, ?_⟩
      · show (L ++ [c]).set s.new_cells.length _ = _
        rw [← hl]
        exact set_append_last L c _
      · intro P2 hP2
        rw [hP] at hP2
        simp only [Option.some.injEq] at hP2
        subst hP2
        exact ⟨_, dict_find_set_self _ _ _, hlen, hbits⟩

theorem ram32m_port_names :
    ∀ i, i < 4 → ∀ j, j < 2 → ∀ i2, i2 < 4 → ∀ j2, j2 < 2 →
      ("DO" ++ bank_letter i ++ "[" ++ to_string j ++ "]" ≠
        "DI" ++ bank_letter i2 ++ "[" ++ to_string j2 ++ "]") ∧
      ((i, j) ≠ (i2, j2) → "DO" ++ bank_letter i ++ "[" ++ to_string j ++ "]" ≠
        "DO" ++ bank_letter i2 ++ "[" ++ to_string j2 ++ "]") := by
  intro i hi j hj i2 hi2 j2 hj2
  interval_cases i <;> interval_cases j <;> interval_cases i2 <;> interval_cases j2 <;> decide

/-- The interface of a primitive is read off the name, the parameters and the
data output of the cell only. -/
theorem ram32m_primitive_of (ci cur : CellInfo) (z b5 b6 : Int) (i j : Nat) (c : CellInfo)
    (hn : cur.name = ci.name) (hp : cur.params = ci.params)
    (ho : get_net_or_empty cur ("DO" ++ bank_letter i ++ "[" ++ to_string j ++ "]") =
      get_net_or_empty ci ("DO" ++ bank_letter i ++ "[" ++ to_string j ++ "]"))
    (h : ram32m_primitive cur z b5 b6 i j c) : ram32m_primitive ci z b5 b6 i j c := by
  obtain ⟨h1, h2, h3, h4, h5⟩ := h
  rw [hn] at h1
  rw [ho] at h4
  rw [hp] at h5
  exact ⟨h1, h2, h3, h4, h5⟩

theorem ram32m_primitive_same (ci : CellInfo) (z b5 b6 : Int) (i j : Nat) (c c2 : CellInfo)
    (hv : primitive_view c2 = primitive_view c)
    (h : ram32m_primitive ci z b5 b6 i j c) : ram32m_primitive ci z b5 b6 i j c2 := by
  simp only [primitive_view, Prod.mk.injEq] at hv
  obtain ⟨v1, v2, v3, v4, v5⟩ := hv
  obtain ⟨h1, h2, h3, h4, h5⟩ := h
  refine ⟨v1.trans h1, v5.trans h2, v4.trans h3, ?_, ?_⟩
  · rw [← h4]
    unfold get_net_or_empty
    rw [v2]
  · rw [v3]
    exact h5

/-- Taking a cell off two ports leaves its name, its parameters and the nets of
its other ports. -/
theorem disconnect_two_frame (c : CellInfo) (p1 p2 : IdString) :
    (disconnect_port (disconnect_port c p1) p2).name = c.name ∧
    (disconnect_port (disconnect_port c p1) p2).params = c.params ∧
    ∀ q, q ≠ p1 → q ≠ p2 →
      get_net_or_empty (disconnect_port (disconnect_port c p1) p2) q = get_net_or_empty c q := by
  obtain ⟨_, a2, _, a4, a5, _, _⟩ := disconnect_port_frame c p1
  obtain ⟨_, b2, _, b4, b5, _, _⟩ := disconnect_port_frame (disconnect_port c p1) p2
  refine ⟨b2.trans a2, b4.trans a4, ?_⟩
  intro q h1 h2
  unfold get_net_or_empty
  rw [b5 q h2, a5 q h1]

theorem get_set_self_cell (l : List CellInfo) (idx : Nat) (c c1 : CellInfo)
    (h : l.get? idx = some c) : (l.set idx c1).get? idx = some c1 := by
  simp only [List.get?_eq_getElem?] at h ⊢
  have hlt : idx < l.length := by
    by_contra hc
    rw [List.getElem?_eq_none (by omega)] at h
    cases h
  rw [List.getElem?_set_self hlt]

/-- The banks `i` to `i + n - 1` of a RAM32M cell: the loop returns, and it
pushes two primitives a bank, in the order of the banks and of the outputs,
behind the primitives pushed before, which keep what primitive_view shows. -/
theorem ram32m_banks (dcs : DRAMControlSet) (idx : Nat) (zoffset : Int)
    (hw : dcs.wa.length = 5) :
    ∀ (n i : Nat) (base : Option CellRef) (s : Packer) (cur : CellInfo), i + n ≤ 4 →
      s.cells.get? idx = some cur →
      (base = none ∨ ∃ b, base = some (CellRef.pending b) ∧ b < s.new_cells.length) →
      ∃ (b1 : Option CellRef) (t : Packer) (L : List CellInfo),
        pack_slice_banks false dcs (CellRef.live idx) zoffset n i base s = .ok (b1, t) ∧
        t.new_cells.map primitive_view =
          s.new_cells.map primitive_view ++ L.map primitive_view ∧
        L.length = 2 * n ∧
        ∀ m j, m < n → j < 2 → ∃ c, L.get? (2 * m + j) = some c ∧
          ram32m_primitive cur zoffset s.BEL_5LUT s.BEL_6LUT (i + m) j c := by
  intro n
  induction n with
  | zero =>
    intro i base s cur _ _ _
    exact ⟨base, s, [], rfl, by simp, rfl, fun m j hm => absurd hm (by omega)⟩
  | succ n ih =>
    intro i base s cur hin hc hbase
    obtain ⟨t0, L0, c0, e0, n0, l0, v0, k0, b50, b60, p0⟩ :=
      ram32m_bit_step dcs idx zoffset i 0 base s cur (by omega) hc hw hbase
    have hc0 := get_set_self_cell s.cells idx cur
      (disconnect_port (disconnect_port cur ("DI" ++ bank_letter i ++ "[" ++ to_string 0 ++ "]"))
        ("DO" ++ bank_letter i ++ "[" ++ to_string 0 ++ "]")) hc
    rw [← k0] at hc0
    have hlen0 : t0.new_cells.length = s.new_cells.length + 1 := by
      rw [n0, List.length_append, l0]
      rfl
    have hbase0 : (if base = none then some (CellRef.pending s.new_cells.length) else base) =
        none ∨ ∃ b, (if base = none then some (CellRef.pending s.new_cells.length) else base) =
          some (CellRef.pending b) ∧ b < t0.new_cells.length := by
      rcases hbase with hb | ⟨b, hb, hlt⟩
      · subst hb
        exact Or.inr ⟨_, rfl, by omega⟩
      · subst hb
        exact Or.inr ⟨b, rfl, by omega⟩
    obtain ⟨t1, L1, c1, e1, n1, l1, v1, k1, b51, b61, p1⟩ :=
      ram32m_bit_step dcs idx zoffset i 1 _ t0 _ (by omega) hc0 hw hbase0
    have hc1 := get_set_self_cell t0.cells idx _
      (disconnect_port (disconnect_port
        (disconnect_port (disconnect_port cur
          ("DI" ++ bank_letter i ++ "[" ++ to_string 0 ++ "]"))
          ("DO" ++ bank_letter i ++ "[" ++ to_string 0 ++ "]"))
        ("DI" ++ bank_letter i ++ "[" ++ to_string 1 ++ "]"))
        ("DO" ++ bank_letter i ++ "[" ++ to_string 1 ++ "]")) hc0
    rw [← k1] at hc1
    have hlen1 : t1.new_cells.length = s.new_cells.length + 2 := by
      rw [n1, List.length_append, l1, hlen0]
      rfl
    obtain ⟨b, hb, hblt⟩ : ∃ b, (if (if base = none then some (CellRef.pending s.new_cells.length)
        else base) = none then some (CellRef.pending t0.new_cells.length)
        else (if base = none then some (CellRef.pending s.new_cells.length) else base)) =
          some (CellRef.pending b) ∧ b < t1.new_cells.length := by
      rcases hbase with hb | ⟨b, hb, hlt⟩
      · subst hb
        exact ⟨_, rfl, by omega⟩
      · subst hb
        exact ⟨b, rfl, by omega⟩
    obtain ⟨b2, t, L, e2, v2, l2, p2⟩ := ih (i + 1) _ t1 _ (by omega) hc1
      (Or.inr ⟨b, hb, hblt⟩)
    obtain ⟨f1, f2, f3⟩ := disconnect_two_frame cur
      ("DI" ++ bank_letter i ++ "[" ++ to_string 0 ++ "]")
      ("DO" ++ bank_letter i ++ "[" ++ to_string 0 ++ "]")
    obtain ⟨g1, g2, g3⟩ := disconnect_two_frame
      (disconnect_port (disconnect_port cur ("DI" ++ bank_letter i ++ "[" ++ to_string 0 ++ "]"))
        ("DO" ++ bank_letter i ++ "[" ++ to_string 0 ++ "]"))
      ("DI" ++ bank_letter i ++ "[" ++ to_string 1 ++ "]")
      ("DO" ++ bank_letter i ++ "[" ++ to_string 1 ++ "]")
    refine ⟨b2, t, c0 :: c1 :: L, ?_, ?_, ?_, ?_⟩
    · unfold pack_slice_banks pack_slice_bank
      simp only [Bool.false_eq_true, if_false, bind, Except.bind, e0, e1]
      exact e2
    · rw [v2, n1, List.map_append, v1, n0, List.map_append, v0]
      simp only [List.map_cons, List.map_nil, List.append_assoc, List.cons_append,
        List.nil_append]
    · simp only [List.length_cons, l2]
      omega
    · intro m j hm hj
      cases m with
      | zero =>
        have hj2 : j = 0 ∨ j = 1 := by omega
        rcases hj2 with h | h
        · subst h
          exact ⟨c0, rfl, p0⟩
        · subst h
          refine ⟨c1, rfl, ?_⟩
          rw [b50, b60] at p1
          refine ram32m_primitive_of cur _ zoffset _ _ _ 1 c1 f1 f2 ?_ p1
          exact f3 _ (ram32m_port_names i (by omega) 1 (by omega) i (by omega) 0 (by omega)).1
            ((ram32m_port_names i (by omega) 1 (by omega) i (by omega) 0 (by omega)).2
              (by simp))
      | succ m =>
        obtain ⟨c, hg, p⟩ := p2 m j (by omega) hj
        refine ⟨c, ?_, ?_⟩
        · have e : 2 * (m + 1) + j = (2 * m + j) + 2 := by omega
          rw [e]
          exact hg
        · rw [b51, b61, b50, b60] at p
          have e : i + 1 + m = i + (m + 1) := by omega
          rw [e] at p
          have hi : i + (m + 1) < 4 := by omega
          have q00 := ram32m_port_names (i + (m + 1)) hi j hj i (by omega) 0 (by omega)
          have q01 := ram32m_port_names (i + (m + 1)) hi j hj i (by omega) 1 (by omega)
          refine ram32m_primitive_of cur _ zoffset _ _ _ j c (g1.trans f1) (g2.trans f2) ?_ p
          rw [g3 _ q01.1 (q01.2 (by simp)), f3 _ q00.1 (q00.2 (by simp))]

/-- C35: the body of the whole-slice loop on a RAM32M cell returns and pushes
eight primitives, two a bank in the order of the banks. The primitive of output
j (0 or 1) of bank i (0 to 3 for A to D) is named after the cell, sits in slot
zoffset + i (zoffset 0 on xc7, 4 elsewhere), on the 5-input LUT with its output
on O5 for j = 0 and on the 6-input LUT with its output on O6 for j = 1, and that
output carries the net that was on DO of the bank for this bit. When the bank
has INIT_X = P, the INIT of the primitive has exactly 32 bits and bit k is bit
2k + j of P, so that bit m of the low 64 bits of P is bit m / 2 of the primitive
of output m mod 2. -/
theorem pack_slice_cell_ram32m (idx : Nat) (s : Packer) (ci : CellInfo)
    (hc : s.cells.get? idx = some ci) (ht : ci.type = "RAM32M") :
    ∃ r, pack_slice_cell idx s = .ok r ∧
      r.new_cells.length = s.new_cells.length + 8 ∧
      ∀ i j, i < 4 → j < 2 →
        ∃ c, r.new_cells.get? (s.new_cells.length + 2 * i + j) = some c ∧
          c.name = ci.name ++ "/DPR" ++ to_string i ++ "_" ++ to_string j ∧
          c.constr_abs_z = true ∧
          c.constr_z = Int.lor (((if s.xc7 then 0 else 4) + i) * 2 ^ 4)
            (if j = 0 then s.BEL_5LUT else s.BEL_6LUT) ∧
          get_net_or_empty c (if j = 0 then "O5" else "O6") =
            get_net_or_empty ci ("DO" ++ bank_letter i ++ "[" ++ to_string j ++ "]") ∧
          ∀ P, dict_find ci.params ("INIT_" ++ bank_letter i) = some P →
            ∃ init, dict_find c.params "INIT" = some init ∧ init.str.length = 32 ∧
              (∀ k, k < 32 → init_bit init k = init_bit P (2 * k + j)) ∧
              (∀ m, m < 64 → m % 2 = j → init_bit P m = init_bit init (m / 2)) := by
  obtain ⟨b1, t, L, e, v, l, p⟩ := ram32m_banks
    { wa := (List.range 5).map (fun i => get_net_or_empty ci ("ADDRD[" ++ to_string i ++ "]"))
      wclk := get_net_or_empty ci "WCLK"
      we := get_net_or_empty ci "WE"
      wclk_inv := bool_or_default ci.params "IS_WCLK_INVERTED"
      memtype := "" } idx (if s.xc7 then 0 else 4)
    (by rw [List.length_map, List.length_range]) 4 0 none s ci (by omega) hc (Or.inl rfl)
  have h64 : ¬ ci.type = "RAM64M" := by
    rw [ht]
    decide
  have hlen : t.new_cells.length = s.new_cells.length + 8 := by
    have := congrArg List.length v
    simp only [List.length_map, List.length_append, l] at this
    omega
  have hnew : (mark_packed t ci.name).new_cells = t.new_cells := by
    unfold mark_packed
    split_ifs <;> rfl
  refine ⟨mark_packed t ci.name, ?_, by rw [hnew, hlen], ?_⟩
  · unfold pack_slice_cell
    rw [deref_live s idx ci hc]
    simp only [bind, Except.bind]
    rw [if_pos (Or.inr ht)]
    simp only [h64, decide_False, Bool.false_eq_true, if_false]
    rw [e]
    rfl
  · intro i j hi hj
    obtain ⟨c, hg, hp⟩ := p i j hi hj
    rw [Nat.zero_add] at hp
    have hlt : s.new_cells.length + 2 * i + j < t.new_cells.length := by omega
    have hv : (t.new_cells.map primitive_view)[s.new_cells.length + 2 * i + j]? =
        some (primitive_view c) := by
      rw [v, List.getElem?_append_right (by rw [List.length_map]; omega), List.length_map,
        List.getElem?_map]
      have e2 : s.new_cells.length + 2 * i + j - s.new_cells.length = 2 * i + j := by omega
      simp only [List.get?_eq_getElem?] at hg
      rw [e2, hg]
      rfl
    rw [List.getElem?_map, List.getElem?_eq_getElem hlt] at hv
    simp only [Option.map_some', Option.some.injEq] at hv
    obtain ⟨h1, h2, h3, h4, h5⟩ := ram32m_primitive_same ci _ _ _ i j c _ hv hp
    refine ⟨_, ?_, h1, h2, h3, h4, ?_⟩
    · rw [hnew]
      simp only [List.get?_eq_getElem?]
      exact List.getElem?_eq_getElem hlt
    · intro P hP
      obtain ⟨init, a1, a2, a3⟩ := h5 P hP
      refine ⟨init, a1, a2, a3, ?_⟩
      intro m hm hmj
      rw [a3 (m / 2) (by omega)]
      congr 1
      omega

set_option maxRecDepth 100000 in
theorem pack_slice_cell_ram32m_witness :
    ram32m_design.cells.get? 0 = some ram32m_cell ∧ ram32m_cell.type = "RAM32M" ∧
    ∃ r, pack_slice_cell 0 ram32m_design = .ok r ∧
      r.new_cells.map bank_view =
        [("quad/DPR0_0", some "10000000000000000000000000000000", some 9, none, 1),
        ("quad/DPR0_1", some "01000000000000000000000000000000", none, some 10, 0),
        ("quad/DPR1_0", none, none, none, 17), ("quad/DPR1_1", none, none, none, 16),
        ("quad/DPR2_0", none, none, none, 33), ("quad/DPR2_1", none, none, none, 32),
        ("quad/DPR3_0", none, none, none, 49), ("quad/DPR3_1", none, none, none, 48)] ∧
      ∃ c init, r.new_cells.get? 1 = some c ∧ dict_find c.params "INIT" = some init ∧
        init.str.length = 32 ∧
        ∀ k, k < 32 → init_bit init k = init_bit (Property.of_int 9 64) (2 * k + 1) := by
  obtain ⟨r, hr, _, h⟩ := pack_slice_cell_ram32m 0 ram32m_design ram32m_cell rfl rfl
  obtain ⟨c, hc, _, _, _, _, hi⟩ := h 0 1 (by decide) (by decide)
  obtain ⟨init, a1, a2, a3, _⟩ := hi (Property.of_int 9 64) rfl
  refine ⟨rfl, rfl, r, hr, ?_, c, init, hc, a1, a2, a3⟩
  have e := ram32m_sample_banks
  rw [hr] at e
  exact Option.some.inj e

end Xilinx
